import Mathlib

/-!
# 3D-Maze: the software rasteriser (`src/js/renderer.js`, `src/js/MathVector.js`,
`src/js/cameraController.js`)

Shallow embedding of the renderer, of the vector helpers it uses and of the camera controller.

Numbers.  A JavaScript number is modelled by `JSNum`: a finite value, carried as an exact
rational, or one of `+Infinity`, `-Infinity`, `NaN`; the special values follow IEEE 754.  The
model has a single zero, read as `+0`.  The explicit narrowing conversions of the program are
kept: a store into the `Float32Array` depth buffer rounds to the nearest 32-bit float
(`fround`), a store into the `Uint8ClampedArray` of the image clamps and rounds to a byte
(`toUint8Clamp`), and `<<` works on 32-bit integers (`shl2`).

Two readings of the arithmetic.  The program is embedded twice.  In the definitions that carry
the names of the source (`fillTriangleFast`, `adjustColorByDepth`, `rotateCamera`, ...) an
arithmetic operation on finite values returns the exact result; the statements about control
flow, buffers, stores, thrown errors and the decoders are made over them.  In the definitions
named `F64.` (`F64.fillTriangleFast`, `F64.adjustColorByDepth`, `F64.rotateCamera`, ...) every
arithmetic operation returns the 64-bit float nearest to the exact result, ties going to the
even neighbour, with gradual underflow and with overflow to an infinity (`float64Round`), and
a decimal literal is the float nearest to it (`F64.lit`); the statements about the numbers the
program computes are made over them.

Library functions.  `Math.sqrt`, `Math.exp`, `Math.tan`, `Math.cos` and `Math.sin` are
parameters (`MathFns`) acting on finite values; what they do at the special values is fixed by
`JSNum.sqrt`, `JSNum.exp`, `JSNum.tan`, `JSNum.cos`, `JSNum.sin`.  In the second reading the
square root is the correctly rounded one of IEEE 754 (`F64.sqrt`) and the value of each of the
other functions is rounded to a 64-bit float (`F64.exp`, `F64.tan`, `F64.cos`, `F64.sin`).

Decoders (`src/js/mapDecoder.js`, `src/js/objDecoder.js`).  A text is the list of its
characters; `trim`, `split`, `startsWith` and `substring(1)` after `startsWith` act on
characters as they act on UTF-16 code units.  The conversions `Number` and `parseFloat` of a
string are parameters of the decoders.  The download of the file (`fetch`) is outside the
model: the decoders start from the text.

Auxiliary lemmas.  The lemmas that prepare a statement are grouped: a theorem named `..._facts`
is the conjunction of the lemmas listed in its comment, proved in turn, and a later proof
refers to one of them by its position in the conjunction.
-/

namespace Maze

/-! ## JavaScript numbers -/

/-- A JavaScript number: finite (an exact rational), `+Infinity`, `-Infinity` or `NaN`. -/
inductive JSNum where
  | fin (q : ℚ)
  | pinf
  | ninf
  | nan
  deriving DecidableEq

namespace JSNum

/-- Unary minus. -/
def neg : JSNum → JSNum
  | fin q => fin (-q)
  | pinf => ninf
  | ninf => pinf
  | nan => nan

/-- Addition `a + b`. -/
def add : JSNum → JSNum → JSNum
  | nan, _ => nan
  | _, nan => nan
  | pinf, ninf => nan
  | ninf, pinf => nan
  | pinf, _ => pinf
  | _, pinf => pinf
  | ninf, _ => ninf
  | _, ninf => ninf
  | fin a, fin b => fin (a + b)

/-- Subtraction `a - b`. -/
def sub (a b : JSNum) : JSNum := add a (neg b)

/-- The product of an infinity of sign `pos` with the finite value `q`. -/
def infTimes (pos : Bool) (q : ℚ) : JSNum :=
  if q = 0 then nan else if (0 < q) = pos then pinf else ninf

/-- Multiplication `a * b`. -/
def mul : JSNum → JSNum → JSNum
  | nan, _ => nan
  | _, nan => nan
  | pinf, pinf => pinf
  | pinf, ninf => ninf
  | ninf, pinf => ninf
  | ninf, ninf => pinf
  | pinf, fin q => infTimes true q
  | ninf, fin q => infTimes false q
  | fin q, pinf => infTimes true q
  | fin q, ninf => infTimes false q
  | fin a, fin b => fin (a * b)

/-- Division `a / b`; the zero divisor is `+0`. -/
def div : JSNum → JSNum → JSNum
  | nan, _ => nan
  | _, nan => nan
  | pinf, pinf => nan
  | pinf, ninf => nan
  | ninf, pinf => nan
  | ninf, ninf => nan
  | fin _, pinf => fin 0
  | fin _, ninf => fin 0
  | pinf, fin q => if 0 ≤ q then pinf else ninf
  | ninf, fin q => if 0 ≤ q then ninf else pinf
  | fin a, fin b =>
    if b = 0 then (if a = 0 then nan else if 0 < a then pinf else ninf) else fin (a / b)

/-- Comparison `a < b`. -/
def lt : JSNum → JSNum → Bool
  | nan, _ => false
  | _, nan => false
  | fin a, fin b => decide (a < b)
  | _, ninf => false
  | pinf, _ => false
  | ninf, _ => true
  | fin _, pinf => true

/-- Comparison `a <= b`. -/
def le : JSNum → JSNum → Bool
  | nan, _ => false
  | _, nan => false
  | fin a, fin b => decide (a ≤ b)
  | ninf, _ => true
  | _, pinf => true
  | pinf, _ => false
  | fin _, ninf => false

/-- Comparison `a > b`. -/
def gt (a b : JSNum) : Bool := lt b a

/-- Comparison `a >= b`. -/
def ge (a b : JSNum) : Bool := le b a

/-- The function `Math.min` of two arguments. -/
def min (a b : JSNum) : JSNum :=
  match a, b with
  | nan, _ => nan
  | _, nan => nan
  | _, _ => if le a b then a else b

/-- The function `Math.max` of two arguments. -/
def max (a b : JSNum) : JSNum :=
  match a, b with
  | nan, _ => nan
  | _, nan => nan
  | _, _ => if le a b then b else a

/-- The function `Math.abs`. -/
def abs : JSNum → JSNum
  | fin q => fin |q|
  | pinf => pinf
  | ninf => pinf
  | nan => nan

/-- The function `Math.round`: the nearest integer, halves going up. -/
def round : JSNum → JSNum
  | fin q => fin (⌊q + 1 / 2⌋ : ℤ)
  | x => x

instance : Neg JSNum := ⟨neg⟩
instance : Add JSNum := ⟨add⟩
instance : Sub JSNum := ⟨sub⟩
instance : Mul JSNum := ⟨mul⟩
instance : Div JSNum := ⟨div⟩
instance : Coe ℚ JSNum := ⟨fin⟩
instance (n : Nat) : OfNat JSNum n := ⟨fin n⟩
instance : Inhabited JSNum := ⟨nan⟩

/-- Whether the number is finite. -/
def isFinite : JSNum → Bool
  | fin _ => true
  | _ => false

/-- The finite value, if any. -/
def toRat? : JSNum → Option ℚ
  | fin q => some q
  | _ => none

/-- The value as an integer, if it is a finite integer. -/
def toInt? : JSNum → Option ℤ
  | fin q => if q.den = 1 then some q.num else none
  | _ => none

end JSNum

/-- The library functions `Math.sqrt`, `Math.exp`, `Math.tan`, `Math.cos` and `Math.sin` on
finite arguments. -/
structure MathFns where
  sqrt : ℚ → ℚ
  exp : ℚ → ℚ
  tan : ℚ → ℚ
  cos : ℚ → ℚ
  sin : ℚ → ℚ

namespace JSNum

/-- The function `Math.sqrt`: `NaN` below zero. -/
def sqrt (m : MathFns) : JSNum → JSNum
  | fin q => if q < 0 then nan else fin (m.sqrt q)
  | pinf => pinf
  | ninf => nan
  | nan => nan

/-- The function `Math.exp`. -/
def exp (m : MathFns) : JSNum → JSNum
  | fin q => fin (m.exp q)
  | pinf => pinf
  | ninf => fin 0
  | nan => nan

/-- The function `Math.tan`. -/
def tan (m : MathFns) : JSNum → JSNum
  | fin q => fin (m.tan q)
  | _ => nan

/-- The function `Math.cos`. -/
def cos (m : MathFns) : JSNum → JSNum
  | fin q => fin (m.cos q)
  | _ => nan

/-- The function `Math.sin`. -/
def sin (m : MathFns) : JSNum → JSNum
  | fin q => fin (m.sin q)
  | _ => nan

/-- The comparison `a === b` of two numbers. -/
def strictEq : JSNum → JSNum → Bool
  | fin a, fin b => decide (a = b)
  | pinf, pinf => true
  | ninf, ninf => true
  | _, _ => false

end JSNum

/-! ## Narrowing conversions -/

/-- The nearest integer, halves going to the even neighbour. -/
def roundHalfEven (x : ℚ) : ℤ :=
  let f := ⌊x⌋
  let d := x - f
  if d < 1 / 2 then f else if 1 / 2 < d then f + 1 else if f % 2 = 0 then f else f + 1

/-- The nearest 32-bit float of a finite value (round to nearest, ties to even): 24 significant
bits, exponents from -126 (below which the spacing stays `2 ^ (-149)`) to 127, and overflow to
an infinity from `2 ^ 128 - 2 ^ 103` on. -/
def float32Round (q : ℚ) : JSNum :=
  if q = 0 then JSNum.fin 0 else
  let a := |q|
  let e := max (Int.log 2 a) (-126)
  let ulp : ℚ := 2 ^ (e - 23)
  let r : ℚ := roundHalfEven (a / ulp) * ulp
  if 2 ^ 128 ≤ r then (if 0 < q then JSNum.pinf else JSNum.ninf)
  else JSNum.fin (if 0 < q then r else -r)

/-- The value a `Float32Array` cell holds after a number is stored into it (`Math.fround`). -/
def fround : JSNum → JSNum
  | JSNum.fin q => float32Round q
  | x => x

/-- The byte a `Uint8ClampedArray` cell holds after a number is stored into it. -/
def toUint8Clamp : JSNum → ℕ
  | JSNum.fin q => if q ≤ 0 then 0 else if 255 ≤ q then 255 else (roundHalfEven q).toNat
  | JSNum.pinf => 255
  | _ => 0

/-- The expression `i << 2` on 32-bit integers. -/
def shl2 (i : ℤ) : ℤ := (i * 4 + 2 ^ 31) % 2 ^ 32 - 2 ^ 31

/-- The element `v[i]` of an array of numbers; a missing element is `undefined`, which
arithmetic turns into `NaN`. -/
def nth (v : List JSNum) (i : ℕ) : JSNum := v.getD i JSNum.nan

/-- The element `buf[i]` of a typed array: `none` (for `undefined`) outside of it. -/
def getCell {α : Type} (buf : List α) (i : ℤ) : Option α :=
  if 0 ≤ i then buf[i.toNat]? else none

/-- The store `buf[i] = a` into a typed array, which does nothing outside of it. -/
def setCell {α : Type} (buf : List α) (i : ℤ) (a : α) : List α :=
  if 0 ≤ i then buf.set i.toNat a else buf

/-- The integers `lo, lo + 1, ..., hi` a counting loop `for (k = lo; k <= hi; k++)` visits. -/
def loopRange (lo hi : ℤ) : List ℤ :=
  (List.range (hi + 1 - lo).toNat).map (fun (k : ℕ) => lo + (k : ℤ))

/-! ## `MathVector.js` -/

namespace MathVector

/-- The method `get2DVerticalVector`. -/
def get2DVerticalVector (v : List JSNum) : Except String (List JSNum) :=
  if v.length ≠ 2 then .error "非法向量参数：向量v的维度不是2"
  else .ok [-(nth v 1), nth v 0]

/-- The method `getCrossVector`. -/
def getCrossVector (v1 v2 : List JSNum) : List JSNum :=
  [nth v1 1 * nth v2 2 - nth v1 2 * nth v2 1,
   nth v1 2 * nth v2 0 - nth v1 0 * nth v2 2,
   nth v1 0 * nth v2 1 - nth v1 1 * nth v2 0]

/-- The method `dotProduct`. -/
def dotProduct (v1 v2 : List JSNum) : Except String JSNum :=
  if v1.length ≠ v2.length then .error "非法向量参数：向量v1和v2的维度不一致"
  else .ok ((List.zipWith (fun a b => a * b) v1 v2).foldl (fun sum p => sum + p) 0)

/-- The method `unitVector`. -/
def unitVector (m : MathFns) (v : List JSNum) : Except String (List JSNum) :=
  if v.length ≠ 3 then .error "非法向量参数：向量v的维度不是3"
  else do
    let length := JSNum.sqrt m (← dotProduct v v)
    return [nth v 0 / length, nth v 1 / length, nth v 2 / length]

/-- The method `reflectDotToNewAxis`. -/
def reflectDotToNewAxis (m : MathFns) (dot origin X Y Z : List JSNum) :
    Except String (List JSNum) :=
  if dot.length ≠ 3 then .error "非法向量参数：向量dot的维度不是3"
  else do
    let unitX ← unitVector m X
    let unitY ← unitVector m Y
    let unitZ ← unitVector m Z
    let a := [nth dot 0 - nth origin 0, nth dot 1 - nth origin 1, nth dot 2 - nth origin 2]
    return [← dotProduct a unitX, ← dotProduct a unitY, ← dotProduct a unitZ]

/-- The method `subVector`. -/
def subVector (v1 v2 : List JSNum) : Except String (List JSNum) :=
  if v1.length ≠ v2.length then .error "非法向量参数：向量v1和v2的维度不一致"
  else .ok (List.zipWith (fun a b => a - b) v1 v2)

/-- The method `isTwoVectorVertical`. -/
def isTwoVectorVertical (v1 v2 : List JSNum) : Except String Bool :=
  if v1.length ≠ v2.length then .error "非法向量参数：向量v1和v2的维度不一致"
  else do
    return JSNum.strictEq (← dotProduct v1 v2) 0

/-- The method `isTwoVectorCollinear`. -/
def isTwoVectorCollinear (v1 v2 : List JSNum) : Except String Bool :=
  if v1.length ≠ v2.length then .error "非法向量参数：向量v1和v2的维度不一致"
  else do
    return JSNum.strictEq (← dotProduct v1 v2) 0

/-- The method `getVectorLength`. -/
def getVectorLength (m : MathFns) (v : List JSNum) : Except String JSNum := do
  return JSNum.sqrt m (← dotProduct v v)

/-- The method `normalize`. -/
def normalize (m : MathFns) (v : List JSNum) : Except String (List JSNum) := unitVector m v

/-- The method `getDistanceToPlane`. -/
def getDistanceToPlane (m : MathFns) (dot a X Y : List JSNum) : Except String JSNum :=
  if dot.length ≠ 3 ∨ a.length ≠ 3 ∨ X.length ≠ 3 ∨ Y.length ≠ 3 then
    .error "非法向量参数：向量dot、a、X、Y的维度不是3"
  else do
    let numerator := JSNum.abs (← dotProduct (← subVector dot a) (getCrossVector X Y))
    return numerator / (← getVectorLength m (getCrossVector X Y))

end MathVector

/-! ## `renderer.js` -/

/-- The camera record: `position` and `direction` are arrays of three numbers. -/
structure Camera where
  position : JSNum × JSNum × JSNum
  direction : JSNum × JSNum × JSNum
  focus : JSNum
  fov : JSNum

/-- The array `[x, y, z]` of a triple. -/
def toArray (p : JSNum × JSNum × JSNum) : List JSNum := [p.1, p.2.1, p.2.2]

/-- A face `[vindex0, vindex1, vindex2, rgb]`; `color` is `none` when the fourth entry is
missing. -/
structure Face where
  i0 : ℤ
  i1 : ℤ
  i2 : ℤ
  color : Option String

/-- The model data: the vertex table `v` and the faces `f`. -/
structure Mesh where
  v : List (List JSNum)
  f : List Face

/-- The state of a `Renderer`: the canvas size, the two buffers and the settings.  The colour
cache is left out: it memoises `parseColor`, a pure function.  The calls on the 2D context
(`putImageData`, the axes and the wireframe strokes) draw on the canvas and touch none of these
fields; they are not part of the state. -/
structure Renderer where
  data : Mesh
  camera : Camera
  width : ℕ
  height : ℕ
  depthBuffer : List JSNum
  imageData : List ℕ
  lineMode : Bool
  axis : Bool
  renderDistance : JSNum

/-- The UTF-16 code units of a string, which are what `length`, indexing and `substring`
count. -/
def codeUnits (s : String) : List ℕ :=
  s.toList.flatMap fun c =>
    let n := c.toNat
    if n < 0x10000 then [n] else [0xD800 + (n - 0x10000) / 0x400, 0xDC00 + (n - 0x10000) % 0x400]

/-- The value of a code unit as a hexadecimal digit. -/
def hexDigit? (c : ℕ) : Option ℕ :=
  if 48 ≤ c ∧ c ≤ 57 then some (c - 48)
  else if 97 ≤ c ∧ c ≤ 102 then some (c - 87)
  else if 65 ≤ c ∧ c ≤ 70 then some (c - 55)
  else none

/-- The white space `parseInt` skips in front of the number. -/
def isStrWhiteSpace (c : ℕ) : Bool :=
  c = 9 || c = 10 || c = 11 || c = 12 || c = 13 || c = 32 || c = 0xA0 || c = 0x1680 ||
  (0x2000 ≤ c && c ≤ 0x200A) || c = 0x2028 || c = 0x2029 || c = 0x202F || c = 0x205F ||
  c = 0x3000 || c = 0xFEFF

/-- The digits at the front of a string, read in base 16; `none` when there is none. -/
def hexPrefix (cs : List ℕ) : Option ℕ :=
  match cs.head? >>= hexDigit? with
  | none => none
  | some _ => some ((cs.takeWhile fun c => (hexDigit? c).isSome).foldl
      (fun acc c => 16 * acc + (hexDigit? c).getD 0) 0)

/-- The call `parseInt(s, 16)`: leading white space, a sign and a `0x` are skipped, the longest
run of hexadecimal digits is read, and the result is `NaN` when that run is empty. -/
def parseInt16 (cs : List ℕ) : JSNum :=
  let cs := cs.dropWhile isStrWhiteSpace
  let negative := cs.head? = some 45
  let cs := if cs.head? = some 45 ∨ cs.head? = some 43 then cs.tail else cs
  let cs := match cs with
    | 48 :: 120 :: rest => rest
    | 48 :: 88 :: rest => rest
    | _ => cs
  match hexPrefix cs with
  | none => JSNum.nan
  | some n => JSNum.fin (if negative then -(n : ℚ) else n)

namespace Renderer

/-- The method `resetBuffers`: every depth is `Infinity`, every pixel opaque black. -/
def resetBuffers (r : Renderer) : Renderer :=
  { r with
    depthBuffer := r.depthBuffer.map fun _ => JSNum.pinf
    imageData := (List.range r.imageData.length).map fun i => if i % 4 = 3 then 255 else 0 }

/-- The method `parseColor`. -/
def parseColor (color : String) : List JSNum :=
  match codeUnits color with
  | 35 :: hex =>
    match hex with
    | [a, b, c] => [parseInt16 [a, a], parseInt16 [b, b], parseInt16 [c, c]]
    | [a, b, c, d, e, f] => [parseInt16 [a, b], parseInt16 [c, d], parseInt16 [e, f]]
    | _ => [136, 136, 136]
  | _ => [136, 136, 136]

/-- The method `getColorRGB`; a missing or empty colour is falsy and gives the default colour
`parseColor("#888888")`. -/
def getColorRGB (color : Option String) : List JSNum :=
  match color with
  | none => parseColor "#888888"
  | some c => if c = "" then parseColor "#888888" else parseColor c

/-- The fields the constructor sets, with the two buffers as allocated for the canvas: zeros. -/
def allocate (data : Mesh) (camera : Camera) (width height : ℕ) (axis lineMode : Bool) :
    Renderer :=
  { data := data, camera := camera, width := width, height := height
    depthBuffer := List.replicate (width * height) (JSNum.fin 0)
    imageData := List.replicate (4 * width * height) 0
    lineMode := lineMode, axis := axis, renderDistance := 50 }

/-- The state the constructor leaves: buffers of the size of the canvas, reset, and a render
distance of 50. -/
def new (data : Mesh) (camera : Camera) (width height : ℕ) (axis lineMode : Bool) : Renderer :=
  resetBuffers (allocate data camera width height axis lineMode)

/-- The method `getDotReflection`. -/
def getDotReflection (dot : List JSNum) (focus : JSNum) : List JSNum :=
  [focus * nth dot 0 / (focus + nth dot 2), focus * nth dot 1 / (focus + nth dot 2)]

/-- The method `fovlize`. -/
def fovlize (m : MathFns) (r : Renderer) (reflectedDot : List JSNum) : List JSNum :=
  let fovWidth := 2 * r.camera.focus * JSNum.tan m (r.camera.fov / 2)
  let fovHeight := fovWidth * JSNum.fin r.height / JSNum.fin r.width
  [nth reflectedDot 0 * JSNum.fin r.width / fovWidth,
   nth reflectedDot 1 * JSNum.fin r.height / fovHeight]

/-- The method `adjustColorByDepth`; `maxDepth` is `none` when the caller leaves it out, and
then takes its default 50. -/
def adjustColorByDepth (m : MathFns) (rgb : List JSNum) (depth : JSNum)
    (maxDepth : Option JSNum) : List JSNum :=
  let maxDepth := maxDepth.getD 50
  let depthFactor := JSNum.exp m (-depth / maxDepth)
  [JSNum.min 255 (JSNum.max 0 (JSNum.round (nth rgb 0 * depthFactor))),
   JSNum.min 255 (JSNum.max 0 (JSNum.round (nth rgb 1 * depthFactor))),
   JSNum.min 255 (JSNum.max 0 (JSNum.round (nth rgb 2 * depthFactor)))]

/-- The body of the two loops of `fillTriangleFast` at the pixel `(x, y)`: the three edge
functions, the inside test, the interpolated depth, the depth test and the two stores. -/
def fillPixel (m : MathFns) (v0 v1 v2 : ℤ × ℤ) (depths : ℚ × ℚ × ℚ) (rgb : List JSNum)
    (invArea : ℚ) (y x : ℤ) (r : Renderer) : Renderer :=
  let rowIndex := y * r.width
  let w0 := (v1.1 - x) * (v2.2 - y) - (v2.1 - x) * (v1.2 - y)
  let w1 := (v2.1 - x) * (v0.2 - y) - (v0.1 - x) * (v2.2 - y)
  let w2 := (v0.1 - x) * (v1.2 - y) - (v1.1 - x) * (v0.2 - y)
  if (0 ≤ w0 ∧ 0 ≤ w1 ∧ 0 ≤ w2) ∨ (w0 ≤ 0 ∧ w1 ≤ 0 ∧ w2 ≤ 0) then
    let alpha := w0 * invArea
    let beta := w1 * invArea
    let gamma := w2 * invArea
    let depth : ℚ := alpha * depths.1 + beta * depths.2.1 + gamma * depths.2.2
    let index := rowIndex + x
    match getCell r.depthBuffer index with
    | none => r
    | some old =>
      if JSNum.lt (JSNum.fin depth) old then
        let adjustedRgb := adjustColorByDepth m rgb (JSNum.fin depth) none
        let pixelIndex := shl2 index
        let buffer := setCell r.imageData pixelIndex (toUint8Clamp (nth adjustedRgb 0))
        let buffer := setCell buffer (pixelIndex + 1) (toUint8Clamp (nth adjustedRgb 1))
        let buffer := setCell buffer (pixelIndex + 2) (toUint8Clamp (nth adjustedRgb 2))
        let buffer := setCell buffer (pixelIndex + 3) 255
        { r with
          depthBuffer := setCell r.depthBuffer index (fround (JSNum.fin depth))
          imageData := buffer }
      else r
  else r

/-- The method `fillTriangleFast` on screen vertices with integer coordinates and finite
depths. -/
def fillTriangleFast (m : MathFns) (r : Renderer) (v0 v1 v2 : ℤ × ℤ) (depths : ℚ × ℚ × ℚ)
    (rgb : List JSNum) : Renderer :=
  let width : ℤ := r.width
  let height : ℤ := r.height
  let minX := max 0 (min v0.1 (min v1.1 v2.1))
  let maxX := min (width - 1) (max v0.1 (max v1.1 v2.1))
  let minY := max 0 (min v0.2 (min v1.2 v2.2))
  let maxY := min (height - 1) (max v0.2 (max v1.2 v2.2))
  if minX > maxX ∨ minY > maxY then r
  else
    let area := (v1.1 - v0.1) * (v2.2 - v0.2) - (v2.1 - v0.1) * (v1.2 - v0.2)
    if |(area : ℚ)| < 1 / 10000 then r
    else
      let invArea : ℚ := 1 / area
      (loopRange minY maxY).foldl
        (fun r y => (loopRange minX maxX).foldl
          (fun r x => fillPixel m v0 v1 v2 depths rgb invArea y x r) r) r

/-- The screen vertex `[Math.round(d[0] + halfWidth), Math.round(halfHeight - d[1])]` of a
scaled point `d`. -/
def screenDot (r : Renderer) (fovlizedDot : List JSNum) : JSNum × JSNum :=
  (JSNum.round (nth fovlizedDot 0 + JSNum.fin r.width / 2),
   JSNum.round (JSNum.fin r.height / 2 - nth fovlizedDot 1))

/-- The call of `fillTriangleFast` that `render` makes, with the numbers it computed.  When the
six screen coordinates are integers and the three depths are finite this is `fillTriangleFast`.
Otherwise nothing is written.  A `NaN` coordinate makes a bound of the box `NaN`, and a loop
whose bound is `NaN` has no iteration.  An infinite coordinate makes `area` infinite or `NaN`, so
`invArea` is zero or `NaN`, and at every pixel one of `w0, w1, w2` is infinite or `NaN`: the
interpolated depth is `NaN` and fails the depth test.  A depth that passed the near-plane test
and is not finite is `NaN` or `+Infinity`, and so is the interpolated depth. -/
def fillTriangle (m : MathFns) (r : Renderer) (s0 s1 s2 : JSNum × JSNum)
    (depths : JSNum × JSNum × JSNum) (rgb : List JSNum) : Renderer :=
  match s0.1.toInt?, s0.2.toInt?, s1.1.toInt?, s1.2.toInt?, s2.1.toInt?, s2.2.toInt?,
      depths.1.toRat?, depths.2.1.toRat?, depths.2.2.toRat? with
  | some x0, some y0, some x1, some y1, some x2, some y2, some d0, some d1, some d2 =>
    fillTriangleFast m r (x0, y0) (x1, y1) (x2, y2) (d0, d1, d2) rgb
  | _, _, _, _, _, _, _, _, _ => r

/-- The vertex `this.data.v[i]`: `none` (for `undefined`) when `i` is not an index of the
vertex table. -/
def vertex (r : Renderer) (i : ℤ) : Option (List JSNum) := getCell r.data.v i

/-- The call `MathVector.reflectDotToNewAxis(dot, origin, X, Y, Z)` on a looked-up vertex;
reading `dot.length` of `undefined` throws a `TypeError`. -/
def reflect (m : MathFns) (dot : Option (List JSNum)) (origin X Y Z : List JSNum) :
    Except String (List JSNum) :=
  match dot with
  | none => .error "TypeError: dot is undefined"
  | some d => MathVector.reflectDotToNewAxis m d origin X Y Z

/-- The body of the loop of `render` for one face, in the camera basis `X, Y, Z`: an error is
a thrown exception. -/
def renderFace (m : MathFns) (X Y Z : List JSNum) (r : Renderer) (face : Face) :
    Except String Renderer := do
  let origin := toArray r.camera.position
  let focus := r.camera.focus
  let dot0 := vertex r face.i0
  let dot1 := vertex r face.i1
  let dot2 := vertex r face.i2
  let reflectedDot0 ← reflect m dot0 origin X Y Z
  let reflectedDot1 ← reflect m dot1 origin X Y Z
  let reflectedDot2 ← reflect m dot2 origin X Y Z
  if JSNum.le (nth reflectedDot0 2) 0 || JSNum.le (nth reflectedDot1 2) 0
      || JSNum.le (nth reflectedDot2 2) 0 then
    return r
  if JSNum.ge (nth reflectedDot0 2) r.renderDistance && JSNum.ge (nth reflectedDot1 2) r.renderDistance
      && JSNum.ge (nth reflectedDot2 2) r.renderDistance then
    return r
  let fovlizedDot0 := fovlize m r (getDotReflection reflectedDot0 focus)
  let fovlizedDot1 := fovlize m r (getDotReflection reflectedDot1 focus)
  let fovlizedDot2 := fovlize m r (getDotReflection reflectedDot2 focus)
  return fillTriangle m r (screenDot r fovlizedDot0) (screenDot r fovlizedDot1)
    (screenDot r fovlizedDot2)
    (nth reflectedDot0 2, nth reflectedDot1 2, nth reflectedDot2 2) (getColorRGB face.color)

/-- The loop of `render` over the faces: the state when the loop stops, and the exception that
stopped it, if any. -/
def renderFaces (m : MathFns) (X Y Z : List JSNum) (r : Renderer) :
    List Face → Renderer × Option String
  | [] => (r, none)
  | face :: rest =>
    match renderFace m X Y Z r face with
    | .error e => (r, some e)
    | .ok r1 => renderFaces m X Y Z r1 rest

/-- The camera basis `(X, Y, Z)` that `render` and `drawAxes` build from the direction. -/
def cameraBasis (direction : List JSNum) : Except String (List JSNum × List JSNum × List JSNum) := do
  let Z := direction
  let tX ← MathVector.get2DVerticalVector [nth Z 0, nth Z 1]
  let X := [-(nth tX 0), -(nth tX 1), 0]
  let Y := MathVector.getCrossVector X Z
  return (X, Y, Z)

/-- The method `render`, up to the end of the loop over the faces: the state it leaves and
the exception it throws, if any.  Without an exception the method goes on to put the image on
the canvas. -/
def render (m : MathFns) (r : Renderer) : Renderer × Option String :=
  let r := resetBuffers r
  match cameraBasis (toArray r.camera.direction) with
  | .error e => (r, some e)
  | .ok (X, Y, Z) => renderFaces m X Y Z r r.data.f

end Renderer

/-! ## `cameraController.js` -/

/-- The array `p` of three numbers as a triple. -/
def ofArray (p : List JSNum) : JSNum × JSNum × JSNum := (nth p 0, nth p 1, nth p 2)

/-- The state of a `CameraController` that its camera methods use: the camera, which it shares
with the renderer, and the settings of the constructor.  The pressed keys, the mouse position
and the boundary box play no part in the rotation and the zoom. -/
structure CameraController where
  camera : Camera
  movementSpeed : JSNum
  mouseSensitivity : JSNum
  minFocus : JSNum
  maxFocus : JSNum

namespace CameraController

/-- The state the constructor leaves for the camera of a renderer. -/
def new (camera : Camera) : CameraController :=
  { camera := camera, movementSpeed := JSNum.fin (1 / 5), mouseSensitivity := JSNum.fin (1 / 500)
    minFocus := 1, maxFocus := 1000 }

/-- The method `handleMouseWheel`; the zoom factor is 1.1. -/
def handleMouseWheel (c : CameraController) (deltaY : JSNum) : CameraController :=
  let zoomFactor := JSNum.fin (11 / 10)
  if JSNum.gt deltaY 0 then
    { c with camera := { c.camera with focus := JSNum.min c.maxFocus (c.camera.focus * zoomFactor) } }
  else
    { c with camera := { c.camera with focus := JSNum.max c.minFocus (c.camera.focus / zoomFactor) } }

/-- The method `rotateVector`. -/
def rotateVector (m : MathFns) (vector axis : List JSNum) (angle : JSNum) :
    Except String (List JSNum) := do
  let cosAngle := JSNum.cos m angle
  let sinAngle := JSNum.sin m angle
  let dot ← MathVector.dotProduct vector axis
  let cross := MathVector.getCrossVector axis vector
  return [nth vector 0 * cosAngle + nth cross 0 * sinAngle + nth axis 0 * dot * (1 - cosAngle),
    nth vector 1 * cosAngle + nth cross 1 * sinAngle + nth axis 1 * dot * (1 - cosAngle),
    nth vector 2 * cosAngle + nth cross 2 * sinAngle + nth axis 2 * dot * (1 - cosAngle)]

/-- The method `rotateCamera`; the limit 0.95 is `19 / 20`. -/
def rotateCamera (m : MathFns) (c : CameraController) (deltaX deltaY : JSNum) :
    Except String CameraController := do
  let direction := toArray c.camera.direction
  let up : List JSNum := [0, 0, 1]
  let right := MathVector.getCrossVector direction up
  let horizontalRotation ← rotateVector m direction up deltaX
  let verticalRotation ← rotateVector m horizontalRotation right deltaY
  let dotProduct ← MathVector.dotProduct verticalRotation up
  if JSNum.lt (JSNum.abs dotProduct) (JSNum.fin (19 / 20)) then
    let d ← MathVector.normalize m verticalRotation
    return { c with camera := { c.camera with direction := ofArray d } }
  else
    let d ← MathVector.normalize m horizontalRotation
    return { c with camera := { c.camera with direction := ofArray d } }

/-- The method `resetCamera`. -/
def resetCamera (c : CameraController) : CameraController :=
  { c with camera := { c.camera with position := (500, 500, 500), direction := (-1, -1, -1),
                                      focus := 100 } }

end CameraController

open JSNum Renderer MathVector

/-! ## The two decoders: strings and meshes -/

/-- The white space that `trim` removes and that `\s` matches. -/
def isWhite (c : Char) : Bool := isStrWhiteSpace c.toNat

/-- The call `s.trim()` on the characters of a string. -/
def trim (s : List Char) : List Char :=
  ((s.dropWhile isWhite).reverse.dropWhile isWhite).reverse

/-- The call `s.split(sep)` for a separator of one character: the pieces between the
separators, of which there is always at least one. -/
def splitChar (sep : Char) : List Char → List (List Char)
  | [] => [[]]
  | c :: cs =>
    if c = sep then [] :: splitChar sep cs
    else match splitChar sep cs with
      | [] => [[c]]
      | l :: ls => (c :: l) :: ls

/-- The pieces of `s.split(/\s+/)`; `inRun` says that the character before was white space. -/
def splitWhiteAux : Bool → List Char → List (List Char)
  | _, [] => [[]]
  | inRun, c :: cs =>
    if isWhite c then
      if inRun then splitWhiteAux true cs else [] :: splitWhiteAux true cs
    else match splitWhiteAux false cs with
      | [] => [[c]]
      | l :: ls => (c :: l) :: ls

/-- The call `s.split(/\s+/)`. -/
def splitWhite (s : List Char) : List (List Char) := splitWhiteAux false s

/-- A face array `[i0, ..., color]` of a decoder: the entries before the last are vertex
indices and the last is the colour string. -/
structure FaceArray where
  idx : List ℤ
  color : String
  deriving DecidableEq

/-- The object `{v, f}` a decoder returns. -/
structure DecodedMesh where
  v : List (List JSNum)
  f : List FaceArray
  deriving DecidableEq

/-! ## `mapDecoder.js` -/

namespace MapDecoder

/-- The method `scale`. -/
def scale (n : JSNum) : JSNum := n * 2

/-- The first line a map file must have. -/
def sentinel : List Char := "this is a map file for 3d-maze.".toList

/-- The rows of the height grid: the lines that start with `y` after trimming, without the
`y`, cut at the commas, every cell trimmed. -/
def rows (lines : List (List Char)) : List (List (List Char)) :=
  ((lines.filter fun line => (trim line).head? = some 'y').map
    fun line => splitChar (Char.ofNat 44) ((trim line).drop 1)).map fun arr => arr.map trim

/-- The cell `data[x][y]` for indices inside the grid. -/
def cellAt (data : List (List (List Char))) (x y : ℕ) : List Char := (data.getD x []).getD y []

/-- The helper `hasBlock(x, y, z, data)`; `num` is `Number` on strings. -/
def hasBlock (num : List Char → JSNum) (x y : ℤ) (z : JSNum) (data : List (List (List Char))) :
    Bool :=
  if x < 0 ∨ y < 0 ∨ x ≥ data.length ∨ y ≥ (data.getD x.toNat []).length then false
  else
    let height := num (cellAt data x.toNat y.toNat)
    JSNum.ge z 0 && JSNum.lt z height

/-- The expression `Number(data[x] ? data[x][y] : 0)`: 0 when there is no row `x`, and
`Number(undefined)`, which is `NaN`, when the row has no cell `y`. -/
def neighbourHeight (num : List Char → JSNum) (data : List (List (List Char))) (x y : ℤ) :
    JSNum :=
  match getCell data x with
  | none => 0
  | some row =>
    match getCell row y with
    | none => JSNum.nan
    | some s => num s

/-- The faces `[a, b, c, color]` and `[a', b', c', color]` a block of two `push` calls adds when
`cond` holds. -/
def pushPair (cond : Bool) (t1 t2 : List ℤ) (color : String) (f : List FaceArray) :
    List FaceArray :=
  if cond then f ++ [⟨t1, color⟩, ⟨t2, color⟩] else f

/-- The box of a cell `(i, j)` of height `n`: eight vertices, and the faces that the tests
against the neighbours let through. -/
def boxCell (num : List Char → JSNum) (data : List (List (List Char))) (i j : ℕ) (n : JSNum)
    (st : DecodedMesh) : DecodedMesh :=
  let p1 : ℤ := st.v.length
  let p2 := p1 + 1
  let p3 := p1 + 2
  let p4 := p1 + 3
  let p5 := p1 + 4
  let p6 := p1 + 5
  let p7 := p1 + 6
  let p8 := p1 + 7
  let v := st.v ++
    [[scale (JSNum.fin i), scale (JSNum.fin j), scale 0],
     [scale (JSNum.fin (i + 1)), scale (JSNum.fin j), scale 0],
     [scale (JSNum.fin i), scale (JSNum.fin (j + 1)), scale 0],
     [scale (JSNum.fin (i + 1)), scale (JSNum.fin (j + 1)), scale 0],
     [scale (JSNum.fin i), scale (JSNum.fin j), scale n],
     [scale (JSNum.fin (i + 1)), scale (JSNum.fin j), scale n],
     [scale (JSNum.fin i), scale (JSNum.fin (j + 1)), scale n],
     [scale (JSNum.fin (i + 1)), scale (JSNum.fin (j + 1)), scale n]]
  let f := st.f
  let f := pushPair (!hasBlock num i j (-1) data) [p1, p2, p4] [p1, p3, p4] "#666666" f
  let f := pushPair (!hasBlock num i j n data) [p5, p6, p8] [p5, p7, p8] "#666666" f
  let f := pushPair (!hasBlock num (i + 1) j 0 data
      || JSNum.lt (neighbourHeight num data (i + 1) j) n) [p2, p4, p6] [p4, p6, p8] "#666666" f
  let f := pushPair (!hasBlock num i (j + 1) 0 data
      || JSNum.lt (neighbourHeight num data i (j + 1)) n) [p3, p4, p7] [p4, p7, p8] "#666666" f
  let f := pushPair (!hasBlock num (i - 1) j 0 data
      || JSNum.lt (neighbourHeight num data (i - 1) j) n) [p3, p7, p5] [p1, p3, p5] "#666666" f
  let f := pushPair (!hasBlock num i (j - 1) 0 data
      || JSNum.lt (neighbourHeight num data i (j - 1)) n) [p1, p2, p5] [p2, p5, p6] "#666666" f
  ⟨v, f⟩

/-- The body of the first pair of loops at the cell `(i, j)`: a negative height throws, a
height equal to 0 is passed over, any other height gives a box. -/
def boxStep (num : List Char → JSNum) (data : List (List (List Char))) (i : ℕ)
    (st : DecodedMesh) (j : ℕ) : Except String DecodedMesh :=
  let n := num (cellAt data i j)
  if JSNum.lt n 0 then .error "地图文件数据错误"
  else if JSNum.strictEq n 0 then .ok st
  else .ok (boxCell num data i j n st)

/-- The first pair of loops, over the cells of the grid. -/
def boxes (num : List Char → JSNum) (data : List (List (List Char))) (st : DecodedMesh) :
    Except String DecodedMesh :=
  (List.range data.length).foldlM
    (fun st i => (List.range (data.getD i []).length).foldlM (boxStep num data i) st) st

/-- The body of the second pair of loops at the cell `(i, j)`: the floor at height 0 and a
second square at height `scale(2)`, in the colour of the checkerboard. -/
def groundCell (i : ℕ) (st : DecodedMesh) (j : ℕ) : DecodedMesh :=
  let p1 : ℤ := st.v.length
  let p2 := p1 + 1
  let p3 := p1 + 2
  let p4 := p1 + 3
  let p5 := p1 + 4
  let p6 := p1 + 5
  let p7 := p1 + 6
  let p8 := p1 + 7
  let v := st.v ++
    [[scale (JSNum.fin i), scale (JSNum.fin j), 0],
     [scale (JSNum.fin (i + 1)), scale (JSNum.fin j), 0],
     [scale (JSNum.fin i), scale (JSNum.fin (j + 1)), 0],
     [scale (JSNum.fin (i + 1)), scale (JSNum.fin (j + 1)), 0],
     [scale (JSNum.fin i), scale (JSNum.fin j), scale 2],
     [scale (JSNum.fin (i + 1)), scale (JSNum.fin j), scale 2],
     [scale (JSNum.fin i), scale (JSNum.fin (j + 1)), scale 2],
     [scale (JSNum.fin (i + 1)), scale (JSNum.fin (j + 1)), scale 2]]
  let color := if (i + j) % 2 = 0 then "#434343" else "#353535"
  ⟨v, st.f ++ [⟨[p1, p2, p4], color⟩, ⟨[p1, p3, p4], color⟩, ⟨[p5, p6, p8], color⟩,
    ⟨[p5, p7, p8], color⟩]⟩

/-- The second pair of loops. -/
def ground (data : List (List (List Char))) (st : DecodedMesh) : DecodedMesh :=
  (List.range data.length).foldl
    (fun st i => (List.range (data.getD i []).length).foldl (groundCell i) st) st

/-- The helper `isSame(p1, p2)` on two entries of the vertex table; `none` is `undefined`. -/
def isSame (p1 p2 : Option (List JSNum)) : Bool :=
  match p1, p2 with
  | some a, some b =>
    if a.length ≠ b.length then false else (List.zipWith JSNum.strictEq a b).all id
  | _, _ => false

/-- The helper `isSameFace(p1, p2)`: the two arrays have the same length and every entry of
`p1` is included in `p2`.  An index is a number and a colour is a string, so an index of `p1`
can only be found among the indices of `p2`, and the colour of `p1` only in the colour of `p2`.
Both arguments are entries of `f` at indices inside the array. -/
def isSameFace (p1 p2 : Option FaceArray) : Bool :=
  match p1, p2 with
  | some a, some b =>
    if a.idx.length + 1 = b.idx.length + 1 then
      a.idx.all (fun x => b.idx.contains x) && (a.color == b.color)
    else false
  | _, _ => false

/-- The loop `for (let j = i - 1; j >= 0; j--)` of the two passes that remove duplicates from
an array `a`, with `jc = j + 1` iterations left: when `same(a[i], a[j])` holds, the entry `j`
is spliced out, `onRemove i j` runs on the rest of the state, and `i` is decremented.  The
result is the value of `i` and the state at the end of the loop. -/
def dedupInner {α β : Type} (same : Option α → Option α → Bool) (onRemove : ℕ → ℕ → β → β) :
    ℕ → ℕ → List α × β → ℕ × List α × β
  | 0, i, s => (i, s)
  | j + 1, i, s =>
    if same s.1[i]? s.1[j]? then
      dedupInner same onRemove j (i - 1) (s.1.eraseIdx j, onRemove i j s.2)
    else dedupInner same onRemove j i s

/-- The loop `for (let i = a.length - 1; i >= 0; i--)` around it, `ic = i + 1` being the
number of entries not yet visited.  Every iteration takes at least one entry off `ic`, so the
loop is over after at most `ic` iterations; `fuel` counts them down. -/
def dedupOuter {α β : Type} (same : Option α → Option α → Bool) (onRemove : ℕ → ℕ → β → β) :
    ℕ → ℕ → List α × β → List α × β
  | 0, _, s => s
  | _ + 1, 0, s => s
  | fuel + 1, i + 1, s =>
    let r := dedupInner same onRemove i i s
    dedupOuter same onRemove fuel r.1 r.2

/-- The two statements that renumber an index of a face when the vertex `j` is spliced out and
the vertex `i` stands for it. -/
def renumber (i j : ℕ) (a : ℤ) : ℤ :=
  let a := if a = j then (i : ℤ) else a
  if a ≥ j then a - 1 else a

/-- The loops over the faces `k` and their indices `l`, the colour apart. -/
def renumberFaces (i j : ℕ) (f : List FaceArray) : List FaceArray :=
  f.map fun face => { face with idx := face.idx.map (renumber i j) }

/-- The pass that removes duplicate vertices. -/
def dedupVertices (st : DecodedMesh) : DecodedMesh :=
  let r := dedupOuter isSame renumberFaces st.v.length st.v.length (st.v, st.f)
  ⟨r.1, r.2⟩

/-- The pass that removes duplicate faces. -/
def dedupFaces (st : DecodedMesh) : DecodedMesh :=
  let r := dedupOuter isSameFace (fun _ _ (u : Unit) => u) st.f.length st.f.length (st.f, ())
  ⟨st.v, r.1⟩

/-- The method `decodeMap` on the text of the map file: an error is a thrown exception. -/
def decodeMap (num : List Char → JSNum) (mapData : List Char) : Except String DecodedMesh := do
  let lines := splitChar (Char.ofNat 10) mapData
  if lines.length = 0 then
    throw "地图文件为空"
  if trim (lines.headD []) ≠ sentinel then
    throw "地图文件格式错误"
  let data := rows lines
  let st ← boxes num data ⟨[], []⟩
  let st := ground data st
  let st := dedupVertices st
  return dedupFaces st

end MapDecoder

/-! ## `objDecoder.js` -/

namespace OBJDecoder

/-- The default colours. -/
def colors : List String :=
  ["#666666", "#ff0000", "#00ff00", "#0000ff", "#ffff00", "#ff00ff", "#00ffff", "#ffa500",
   "#800080", "#008000", "#800000", "#008080", "#808000"]

/-- The digits `\d+` at the front of a part, which `match(/^(\d+)/)` captures. -/
def leadingDigits (s : List Char) : List Char := s.takeWhile Char.isDigit

/-- The value `parseInt` gives a string of decimal digits. -/
def digitsValue (ds : List Char) : ℕ := ds.foldl (fun acc c => 10 * acc + (c.toNat - 48)) 0

/-- The loop over the parts of an `f` line: the indices that are kept. -/
def faceVertices (vertexCount : ℕ) (parts : List (List Char)) : List ℤ :=
  (parts.drop 1).foldl
    (fun acc vertexPart =>
      if leadingDigits vertexPart ≠ [] then
        let vertexIndex : ℤ := (digitsValue (leadingDigits vertexPart) : ℤ) - 1
        if vertexIndex ≥ 0 ∧ vertexIndex < vertexCount then acc ++ [vertexIndex] else acc
      else acc) []

/-- The body of the loop of `parse` for one line; `parseFloat` is the library function. -/
def parseLine (parseFloat : List Char → JSNum) (st : DecodedMesh) (line : List Char) :
    DecodedMesh :=
  let trimmedLine := trim line
  if trimmedLine = [] ∨ trimmedLine.head? = some (Char.ofNat 35) then st
  else
    let parts := splitWhite trimmedLine
    let type := parts.headD []
    if type = ['v'] then
      if parts.length ≥ 4 then
        let x := parseFloat (parts.getD 1 [])
        let y := parseFloat (parts.getD 2 [])
        let z := parseFloat (parts.getD 3 [])
        { st with v := st.v ++ [[x, y, z]] }
      else st
    else if type = ['f'] then
      if parts.length ≥ 4 then
        let fv := faceVertices st.v.length parts
        if fv.length ≥ 3 then
          let colorIndex := st.f.length % colors.length
          let color := colors.getD colorIndex ""
          if fv.length = 4 then
            { st with f := st.f ++
                [⟨[fv.getD 0 0, fv.getD 1 0, fv.getD 2 0], color⟩,
                 ⟨[fv.getD 0 0, fv.getD 2 0, fv.getD 3 0], color⟩] }
          else
            { st with f := st.f ++ [⟨fv.take 3, color⟩] }
        else st
      else st
    else st

/-- The static method `parse` on the text of the file. -/
def parse (parseFloat : List Char → JSNum) (objContent : List Char) : DecodedMesh :=
  (splitChar (Char.ofNat 10) objContent).foldl (parseLine parseFloat) ⟨[], []⟩

end OBJDecoder

open MapDecoder OBJDecoder

/-! ## Notions used in the statements -/

/-- A sample of library functions on the rationals. -/
def sampleMath : MathFns where
  sqrt := fun q => Rat.sqrt q
  exp := fun q => if q ≤ 0 then 1 / (1 - q) else 1 + q
  tan := fun q => q
  cos := fun q => (1 - (q / 2) ^ 2) / (1 + (q / 2) ^ 2)
  sin := fun q => q / (1 + (q / 2) ^ 2)

/-- The inside test of `fillTriangleFast` at the pixel `(x, y)`: the three edge functions are
all `>= 0` or all `<= 0`. -/
def covers (v0 v1 v2 : ℤ × ℤ) (x y : ℤ) : Prop :=
  let w0 := (v1.1 - x) * (v2.2 - y) - (v2.1 - x) * (v1.2 - y)
  let w1 := (v2.1 - x) * (v0.2 - y) - (v0.1 - x) * (v2.2 - y)
  let w2 := (v0.1 - x) * (v1.2 - y) - (v1.1 - x) * (v0.2 - y)
  (0 ≤ w0 ∧ 0 ≤ w1 ∧ 0 ≤ w2) ∨ (w0 ≤ 0 ∧ w1 ≤ 0 ∧ w2 ≤ 0)

instance (v0 v1 v2 : ℤ × ℤ) (x y : ℤ) : Decidable (covers v0 v1 v2 x y) := by
  unfold covers; infer_instance

/-- The signed area `area` of `fillTriangleFast` (twice the area of the triangle). -/
def signedArea (v0 v1 v2 : ℤ × ℤ) : ℤ :=
  (v1.1 - v0.1) * (v2.2 - v0.2) - (v2.1 - v0.1) * (v1.2 - v0.2)

/-- The depth `fillTriangleFast` interpolates at the pixel `(x, y)`. -/
def pixelDepth (v0 v1 v2 : ℤ × ℤ) (depths : ℚ × ℚ × ℚ) (x y : ℤ) : ℚ :=
  let invArea : ℚ := 1 / signedArea v0 v1 v2
  let w0 := (v1.1 - x) * (v2.2 - y) - (v2.1 - x) * (v1.2 - y)
  let w1 := (v2.1 - x) * (v0.2 - y) - (v0.1 - x) * (v2.2 - y)
  let w2 := (v0.1 - x) * (v1.2 - y) - (v1.1 - x) * (v0.2 - y)
  w0 * invArea * depths.1 + w1 * invArea * depths.2.1 + w2 * invArea * depths.2.2

/-- The pixel `(x, y)` lies in the bounding box of the triangle, clamped to the canvas. -/
def inBox (width height : ℕ) (v0 v1 v2 : ℤ × ℤ) (x y : ℤ) : Prop :=
  max 0 (min v0.1 (min v1.1 v2.1)) ≤ x ∧ x ≤ min ((width : ℤ) - 1) (max v0.1 (max v1.1 v2.1)) ∧
  max 0 (min v0.2 (min v1.2 v2.2)) ≤ y ∧ y ≤ min ((height : ℤ) - 1) (max v0.2 (max v1.2 v2.2))

instance (width height : ℕ) (v0 v1 v2 : ℤ × ℤ) (x y : ℤ) :
    Decidable (inBox width height v0 v1 v2 x y) := by
  unfold inBox; infer_instance

/-- What is seen of a pixel: the cell of the depth buffer at index `i` and the four bytes of
the image at `4 * i`. -/
def pixelAt (r : Renderer) (i : ℤ) : Option JSNum × List (Option ℕ) :=
  (getCell r.depthBuffer i,
   [getCell r.imageData (4 * i), getCell r.imageData (4 * i + 1),
    getCell r.imageData (4 * i + 2), getCell r.imageData (4 * i + 3)])

/-- The pixel a passed depth test leaves: the stored depth and the shaded colour of
`fillTriangleFast` for the depth `d` and the colour `rgb`. -/
def shaded (m : MathFns) (rgb : List JSNum) (d : ℚ) : Option JSNum × List (Option ℕ) :=
  (some (fround (JSNum.fin d)),
   [some (toUint8Clamp (nth (adjustColorByDepth m rgb (JSNum.fin d) none) 0)),
    some (toUint8Clamp (nth (adjustColorByDepth m rgb (JSNum.fin d) none) 1)),
    some (toUint8Clamp (nth (adjustColorByDepth m rgb (JSNum.fin d) none) 2)),
    some 255])

/-- The buffers have the size of the canvas, and the image is short enough for `<<` not to
wrap. -/
structure Sized (r : Renderer) : Prop where
  depth : r.depthBuffer.length = r.width * r.height
  image : r.imageData.length = 4 * (r.width * r.height)
  small : r.width * r.height ≤ 2 ^ 29

/-- The state invariant kept along the loops. -/
def Keeps (W N : ℕ) (r : Renderer) : Prop :=
  r.width = W ∧ r.depthBuffer.length = N ∧ r.imageData.length = 4 * N

/-- The effect of the loop body at a pixel on what is seen of that pixel. -/
def pixelStep (m : MathFns) (v0 v1 v2 : ℤ × ℤ) (depths : ℚ × ℚ × ℚ) (rgb : List JSNum)
    (x y : ℤ) (o : Option JSNum × List (Option ℕ)) : Option JSNum × List (Option ℕ) :=
  match o.1 with
  | none => o
  | some old =>
    if covers v0 v1 v2 x y ∧ JSNum.lt (JSNum.fin (pixelDepth v0 v1 v2 depths x y)) old = true
    then shaded m rgb (pixelDepth v0 v1 v2 depths x y)
    else o

/-- The state `r` differs from `r0` in the contents of the two buffers at most. -/
def SameSettings (r0 r : Renderer) : Prop :=
  r.data = r0.data ∧ r.camera = r0.camera ∧ r.width = r0.width ∧ r.height = r0.height ∧
  r.lineMode = r0.lineMode ∧ r.axis = r0.axis ∧ r.renderDistance = r0.renderDistance ∧
  r.depthBuffer.length = r0.depthBuffer.length ∧ r.imageData.length = r0.imageData.length

/-- The camera of `index.js`, with `355 / 452` for `Math.PI / 4`. -/
def sampleCamera : Camera :=
  { position := (3, 3, 3), direction := (-1, -1, -1), focus := 1, fov := JSNum.fin (355 / 452) }

/-- A new renderer without faces on a canvas of 5 by 5 pixels. -/
def canvas5 : Renderer := Renderer.new { v := [], f := [] } sampleCamera 5 5 false false

/-- The exponent of the 32-bit float spacing around the positive value `a`. -/
def f32Exp (a : ℚ) : ℤ := max (Int.log 2 a) (-126)

/-- The magnitude of the nearest 32-bit float of the positive value `a`, before overflow. -/
def f32Mag (a : ℚ) : ℚ := roundHalfEven (a / 2 ^ (f32Exp a - 23)) * 2 ^ (f32Exp a - 23)

/-- The nearest 32-bit float of `q` as a rational, before overflow. -/
def f32Val (q : ℚ) : ℚ := if q = 0 then 0 else if 0 < q then f32Mag q else -f32Mag (-q)

/-- The pixel `(x, y)` lies inside or on the boundary of the triangle `v0 v1 v2`: it is a
convex combination of the three vertices. -/
def InTriangle (v0 v1 v2 : ℤ × ℤ) (x y : ℤ) : Prop :=
  ∃ a b c : ℚ, 0 ≤ a ∧ 0 ≤ b ∧ 0 ≤ c ∧ a + b + c = 1 ∧
    (x : ℚ) = a * v0.1 + b * v1.1 + c * v2.1 ∧ (y : ℚ) = a * v0.2 + b * v1.2 + c * v2.2

/-- The length `getVectorLength` computes for the vector `[x0, x1, x2]` of finite numbers. -/
def length3 (m : MathFns) (x0 x1 x2 : ℚ) : ℚ := m.sqrt (0 + x0 * x0 + x1 * x1 + x2 * x2)

/-- A scene behind the camera: one triangle in the plane `z = 0` near the origin, seen from
(3, 0, 0) in the direction (1, 0, 0), on a canvas of 5 by 5 pixels. -/
def sceneBehind : Renderer :=
  Renderer.new ⟨[[0, 0, 0], [1, 0, 0], [0, 1, 0]], [⟨0, 1, 2, some "#ff0000"⟩]⟩
    ⟨(3, 0, 0), (1, 0, 0), 1, JSNum.fin (355 / 452)⟩ 5 5 false false

/-- The scene of `sceneBehind` with a face that names the vertex 7, which does not exist. -/
def sceneBadFace : Renderer :=
  Renderer.new
    ⟨[[0, 0, 0], [1, 0, 0], [0, 1, 0]], [⟨7, 0, 1, some "#ff0000"⟩, ⟨0, 1, 2, some "#ff0000"⟩]⟩
    ⟨(3, 0, 0), (1, 0, 0), 1, JSNum.fin (355 / 452)⟩ 5 5 false false

/-- The cross product `getCrossVector(u, v)` of two triples of finite numbers. -/
def crossQ (u v : ℚ × ℚ × ℚ) : ℚ × ℚ × ℚ :=
  (u.2.1 * v.2.2 - u.2.2 * v.2.1, u.2.2 * v.1 - u.1 * v.2.2, u.1 * v.2.1 - u.2.1 * v.1)

/-- The sum `dotProduct(u, v)` computes for two triples of finite numbers. -/
def dotQ (u v : ℚ × ℚ × ℚ) : ℚ := 0 + u.1 * v.1 + u.2.1 * v.2.1 + u.2.2 * v.2.2

/-- The vector `rotateVector(v, axis, angle)` for finite numbers, `cosA` and `sinA` being the
cosine and the sine of the angle. -/
def rotateQ (v axis : ℚ × ℚ × ℚ) (cosA sinA : ℚ) : ℚ × ℚ × ℚ :=
  (v.1 * cosA + (crossQ axis v).1 * sinA + axis.1 * dotQ v axis * (1 - cosA),
   v.2.1 * cosA + (crossQ axis v).2.1 * sinA + axis.2.1 * dotQ v axis * (1 - cosA),
   v.2.2 * cosA + (crossQ axis v).2.2 * sinA + axis.2.2 * dotQ v axis * (1 - cosA))

/-- The vector `horizontalRotation` of `rotateCamera` for the finite direction `d`. -/
def horizontalQ (m : MathFns) (d : ℚ × ℚ × ℚ) (dx : ℚ) : ℚ × ℚ × ℚ :=
  rotateQ d (0, 0, 1) (m.cos dx) (m.sin dx)

/-- The vector `verticalRotation` of `rotateCamera` for the finite direction `d`. -/
def verticalQ (m : MathFns) (d : ℚ × ℚ × ℚ) (dx dy : ℚ) : ℚ × ℚ × ℚ :=
  rotateQ (horizontalQ m d dx) (crossQ d (0, 0, 1)) (m.cos dy) (m.sin dy)

/-- The vector `rotateCamera` normalises: the vertical rotation when it passes the test against
0.95, the horizontal rotation otherwise. -/
def turnedQ (m : MathFns) (d : ℚ × ℚ × ℚ) (dx dy : ℚ) : ℚ × ℚ × ℚ :=
  if |dotQ (verticalQ m d dx dy) (0, 0, 1)| < 19 / 20 then verticalQ m d dx dy
  else horizontalQ m d dx

/-- A second sample of library functions, whose square root is the estimate `2 s / (s + 1)`
from below (the harmonic mean of `s` and 1). -/
def sampleBelow : MathFns :=
  ⟨fun s => 2 * s / (s + 1), sampleMath.exp, sampleMath.tan, sampleMath.cos, sampleMath.sin⟩

/-- A sample of `Number`: the value of a string of decimal digits with an optional minus sign
in front, 0 for the empty string, and `NaN` for any other string.  On a string of decimal
digits `parseFloat` gives the same value. -/
def sampleNumber (s : List Char) : JSNum :=
  match s with
  | [] => 0
  | c :: cs =>
    if c = '-' then
      (if cs ≠ [] ∧ cs.all Char.isDigit then JSNum.fin (-(OBJDecoder.digitsValue cs : ℚ))
       else JSNum.nan)
    else if (c :: cs).all Char.isDigit then JSNum.fin (OBJDecoder.digitsValue (c :: cs))
    else JSNum.nan

/-- Every index of every face of the mesh is an index of its vertex table. -/
def InRange (m : DecodedMesh) : Prop :=
  ∀ face ∈ m.f, ∀ a ∈ face.idx, 0 ≤ a ∧ a < (m.v.length : ℤ)

/-- The coordinates that the index `l` of the face `k` denotes in the vertex table of the
mesh. -/
def cornerAt (m : DecodedMesh) (k l : ℕ) : Option (List JSNum) :=
  (m.f[k]?).bind fun face => (face.idx[l]?).bind fun a => getCell m.v a

/-- The faces `f` stand for the faces `f0`: the same colours, and every index denotes in `v`
the coordinates that the index in its place denoted in `v0`. -/
def Renumbered (v0 : List (List JSNum)) (f0 : List FaceArray) (v : List (List JSNum))
    (f : List FaceArray) : Prop :=
  (∀ x ∈ v, x ∈ v0) ∧
  List.Forall₂ (fun face face0 => face.color = face0.color ∧
    List.Forall₂ (fun a a0 => 0 ≤ a ∧ a < (v.length : ℤ) ∧ getCell v a = getCell v0 a0)
      face.idx face0.idx) f f0

/-- The indices of the faces are indices of the vertex table and every face has three of
them. -/
def WellFormed (m : DecodedMesh) : Prop :=
  InRange m ∧ ∀ face ∈ m.f, face.idx.length = 3

/-- No coordinate of the vertex table is `NaN`. -/
def Clean (m : DecodedMesh) : Prop := ∀ p ∈ m.v, ∀ x ∈ p, x ≠ JSNum.nan

/-- The face `face` has three indices, all below `n`. -/
def GoodFace (n : ℕ) (face : FaceArray) : Prop :=
  face.idx.length = 3 ∧ ∀ a ∈ face.idx, 0 ≤ a ∧ a < (n : ℤ)

/-- The lines of a text. -/
def linesOf (text : List Char) : List (List Char) := splitChar (Char.ofNat 10) text

/-- The first line of a text. -/
def firstLine (text : List Char) : List Char := (linesOf text).headD []

/-- The mesh that the two pairs of loops of `decodeMap` build for the text, before the
duplicates are removed; `none` when a height is negative. -/
def generated (num : List Char → JSNum) (text : List Char) : Option DecodedMesh :=
  match MapDecoder.boxes num (MapDecoder.rows (linesOf text)) ⟨[], []⟩ with
  | .ok st => some (MapDecoder.ground (MapDecoder.rows (linesOf text)) st)
  | .error _ => none

/-- A map of one cell, of height 2. -/
def sampleMap : List Char := "this is a map file for 3d-maze.\ny2".toList

/-- The mesh that the loops of `decodeMap` build for `sampleMap`, before the duplicates are
removed. -/
def sampleGenerated : DecodedMesh := (generated sampleNumber sampleMap).getD ⟨[], []⟩

/-- Equality of two results is decidable when equality of the values and of the errors is. -/
instance instDecidableEqExcept {ε α : Type} [DecidableEq ε] [DecidableEq α] :
    DecidableEq (Except ε α) := fun a b =>
  match a, b with
  | .ok x, .ok y =>
    if h : x = y then isTrue (by rw [h]) else isFalse (fun e => h (Except.ok.inj e))
  | .error x, .error y =>
    if h : x = y then isTrue (by rw [h]) else isFalse (fun e => h (Except.error.inj e))
  | .ok _, .error _ => isFalse (fun e => Except.noConfusion e)
  | .error _, .ok _ => isFalse (fun e => Except.noConfusion e)

/-- The map of one cell of height 2 after an empty first line. -/
def blankFirstMap : List Char := "\nthis is a map file for 3d-maze.\ny2".toList

/-- The header line with a carriage return after it. -/
def headerCR : List Char := "this is a map file for 3d-maze.\r".toList

/-- An object file with a `v` line of two coordinates, an `f` line of two references, three
vertices, and a face with a reference to a seventh vertex. -/
def brokenObj : List Char := "v 1 2\nf 1 2\nv 0 0 0\nv 1 0 0\nv 0 1 0\nf 1 2 3 7".toList

/-- The position `(x, y)` is not a cell of the grid: the first test of `hasBlock`. -/
def outsideGrid (data : List (List (List Char))) (x y : ℤ) : Prop :=
  x < 0 ∨ y < 0 ∨ x ≥ data.length ∨ y ≥ ((data.getD x.toNat []).length : ℤ)

instance (data : List (List (List Char))) (x y : ℤ) : Decidable (outsideGrid data x y) := by
  unfold outsideGrid; infer_instance

/-- The two faces `t1`, `t2` of the side of a box of height `n` that looks at the position
`(x, y)`: they are there when the position is outside the grid or its height is below `n`. -/
def sideFaces (num : List Char → JSNum) (data : List (List (List Char))) (x y : ℤ) (n : JSNum)
    (t1 t2 : List ℤ) : List FaceArray :=
  if outsideGrid data x y ∨ JSNum.lt (num (cellAt data x.toNat y.toNat)) n = true then
    [⟨t1, "#666666"⟩, ⟨t2, "#666666"⟩]
  else []

/-- A grid of two rows and two columns, with the heights 2, 1 and 3, 0. -/
def sampleGrid : List (List (List Char)) :=
  [["2".toList, "1".toList], ["3".toList, "0".toList]]

/-- The normalised weights `alpha`, `beta`, `gamma` of `fillTriangleFast` at the pixel
`(x, y)`. -/
def weights (v0 v1 v2 : ℤ × ℤ) (x y : ℤ) : ℚ × ℚ × ℚ :=
  let invArea : ℚ := 1 / signedArea v0 v1 v2
  let w0 := (v1.1 - x) * (v2.2 - y) - (v2.1 - x) * (v1.2 - y)
  let w1 := (v2.1 - x) * (v0.2 - y) - (v0.1 - x) * (v2.2 - y)
  let w2 := (v0.1 - x) * (v1.2 - y) - (v1.1 - x) * (v0.2 - y)
  (w0 * invArea, w1 * invArea, w2 * invArea)

/-- The cell `i` of the depth buffer holds a finite number between 0 and the 32-bit float of
8. -/
def NearCell (r : Renderer) (i : ℤ) : Prop :=
  ∃ o : ℚ, getCell r.depthBuffer i = some (JSNum.fin o) ∧ 0 ≤ o ∧ o ≤ f32Val 8

/-- The looked-up vertex is an array of three finite numbers. -/
def finiteTriple : Option (List JSNum) → Bool
  | some [JSNum.fin _, JSNum.fin _, JSNum.fin _] => true
  | _ => false

/-- The model `defaultData` of `index.js`: 20 vertices and 20 faces. -/
def defaultData : Mesh :=
  ⟨[[1, 0, 0], [0, 1, 0], [0, 0, 1], [0, 1, 2], [2, 0, 0], [2, 1, 0], [4, 0, 0], [4, 1, 0],
    [2, 0, 1], [2, 1, 1], [4, 0, 1], [4, 1, 1], [1, 0, 2], [0, 2, 0], [0, 3, 0],
    [JSNum.fin (433 / 500), JSNum.fin (5 / 2), 0],
    [JSNum.fin (1443 / 5000), JSNum.fin (5 / 2), JSNum.fin (1633 / 2000)],
    [JSNum.fin (-1 / 2), JSNum.fin (3 / 2), JSNum.fin (2 / 5)],
    [JSNum.fin (3 / 2), JSNum.fin (3 / 2), JSNum.fin (9 / 5)], [0, -1, 0]],
   [⟨0, 1, 2, some "#ff0000"⟩, ⟨1, 2, 3, some "#ff0000"⟩, ⟨4, 5, 6, some "#1890ff"⟩,
    ⟨5, 6, 7, some "#1890ff"⟩, ⟨8, 9, 10, some "#1890ff"⟩, ⟨9, 10, 11, some "#1890ff"⟩,
    ⟨6, 7, 10, some "#1890ff"⟩, ⟨7, 10, 11, some "#1890ff"⟩, ⟨7, 5, 11, some "#1890ff"⟩,
    ⟨9, 5, 11, some "#1890ff"⟩, ⟨4, 9, 5, some "#1890ff"⟩, ⟨4, 8, 9, some "#1890ff"⟩,
    ⟨4, 10, 6, some "#1890ff"⟩, ⟨4, 8, 10, some "#1890ff"⟩, ⟨12, 2, 0, some "#ff0000"⟩,
    ⟨13, 14, 15, some "#ff00ff"⟩, ⟨14, 15, 16, some "#ff00ff"⟩, ⟨15, 16, 13, some "#ff00ff"⟩,
    ⟨16, 13, 14, some "#ff00ff"⟩, ⟨17, 18, 19, some "#fff000"⟩]⟩

/-- The camera of `index.js`.  Its field of view is `Math.PI / 4`, where `Math.PI` is the
64-bit float `884279719003555 / 2 ^ 48`. -/
def defaultCamera : Camera :=
  ⟨(3, 3, 3), (-1, -1, -1), 1, JSNum.fin (884279719003555 / 1125899906842624)⟩

/-- The renderer that `index.js` makes for the default model, with the axes and the line mode
on, for a canvas of 640 by 480 pixels. -/
def defaultScene : Renderer := Renderer.new defaultData defaultCamera 640 480 true true

/-! ## The program in 64-bit floating point -/

/-- The exponent `e` with `2 ^ e <= q < 2 ^ (e + 1)`, searched by bisection in `s` steps from
`lo` upwards. -/
def log2Search (q : ℚ) : ℕ → ℤ → ℤ
  | 0, lo => lo
  | s + 1, lo =>
    if (2 : ℚ) ^ (lo + 2 ^ s) ≤ q then log2Search q s (lo + 2 ^ s) else log2Search q s lo

/-- The exponent of the 64-bit float spacing around the positive value `a`: the exponent of
`a`, and -1022 below `2 ^ (-1022)`. -/
def f64Exp (a : ℚ) : ℤ :=
  if (2 : ℚ) ^ (2047 : ℤ) ≤ a then Int.log 2 a else max (log2Search a 12 (-2048)) (-1022)

/-- The magnitude of the nearest 64-bit float of the positive value `a`, before overflow. -/
def f64Mag (a : ℚ) : ℚ := roundHalfEven (a / 2 ^ (f64Exp a - 52)) * 2 ^ (f64Exp a - 52)

/-- The nearest 64-bit float of `q` as a rational, before overflow: 53 significant bits, ties
going to the even neighbour, and a spacing that stays `2 ^ (-1074)` below `2 ^ (-1022)`. -/
def f64Val (q : ℚ) : ℚ := if q = 0 then 0 else if 0 < q then f64Mag q else -f64Mag (-q)

/-- The 64-bit float that an arithmetic operation returns for the exact result `q`: the nearest
one, or an infinity when the rounded magnitude reaches `2 ^ 1024`. -/
def float64Round (q : ℚ) : JSNum :=
  if 2 ^ 1024 ≤ f64Val q then JSNum.pinf
  else if f64Val q ≤ -2 ^ 1024 then JSNum.ninf
  else JSNum.fin (f64Val q)

/-- The number an operation returns for the exact result `a`. -/
def toDouble : JSNum → JSNum
  | JSNum.fin q => float64Round q
  | x => x

/-- The sum `a + b` as the program computes it: the exact sum, rounded to a 64-bit float. -/
def F64.add (a b : JSNum) : JSNum := toDouble (a + b)

/-- The difference `a - b` as the program computes it. -/
def F64.sub (a b : JSNum) : JSNum := toDouble (a - b)

/-- The product `a * b` as the program computes it. -/
def F64.mul (a b : JSNum) : JSNum := toDouble (a * b)

/-- The quotient `a / b` as the program computes it. -/
def F64.div (a b : JSNum) : JSNum := toDouble (a / b)

/-- A decimal literal of the program: the 64-bit float nearest to its value. -/
def F64.lit (q : ℚ) : JSNum := float64Round q

/-- The integer square root of `n`, found bit by bit from the bit `b - 1` down; `r` holds the
bits found so far. -/
def isqrtBits (n : ℕ) : ℕ → ℕ → ℕ
  | 0, r => r
  | b + 1, r =>
    if (r + 2 ^ b) * (r + 2 ^ b) ≤ n then isqrtBits n b (r + 2 ^ b) else isqrtBits n b r

/-- The 64-bit float nearest to the square root of the positive value `q`.  The root lies
between `2 ^ h` and `2 ^ (h + 1)` for `h` half the exponent of `q`; the floats there are the
multiples `k * w` of `w = 2 ^ (h - 52)`, and `k` is the integer square root of `q / w ^ 2`,
or the next integer when the root is past `k + 1 / 2`. -/
def sqrtNearest (q : ℚ) : ℚ :=
  let h := log2Search q 12 (-2048) / 2
  let w : ℚ := 2 ^ (h - 52)
  let n := q / (w * w)
  let k := isqrtBits ⌊n⌋.toNat 53 0
  if 4 * n ≤ (2 * (k : ℚ) + 1) ^ 2 then k * w else (k + 1) * w

/-- The function `Math.sqrt` as the engines compute it: the square root of IEEE 754, rounded to
the nearest 64-bit float. -/
def F64.sqrt : JSNum → JSNum
  | JSNum.fin q => if q < 0 then JSNum.nan else if q = 0 then JSNum.fin 0 else JSNum.fin (sqrtNearest q)
  | JSNum.pinf => JSNum.pinf
  | JSNum.ninf => JSNum.nan
  | JSNum.nan => JSNum.nan

/-- The method `getCrossVector`, every operation rounded. -/
def F64.getCrossVector (v1 v2 : List JSNum) : List JSNum :=
  [F64.sub (F64.mul (nth v1 1) (nth v2 2)) (F64.mul (nth v1 2) (nth v2 1)),
   F64.sub (F64.mul (nth v1 2) (nth v2 0)) (F64.mul (nth v1 0) (nth v2 2)),
   F64.sub (F64.mul (nth v1 0) (nth v2 1)) (F64.mul (nth v1 1) (nth v2 0))]

/-- The method `dotProduct`, every operation rounded. -/
def F64.dotProduct (v1 v2 : List JSNum) : Except String JSNum :=
  if v1.length ≠ v2.length then .error "非法向量参数：向量v1和v2的维度不一致"
  else .ok ((List.zipWith (fun a b => F64.mul a b) v1 v2).foldl (fun sum p => F64.add sum p) 0)

/-- The method `getVectorLength`, every operation rounded. -/
def F64.getVectorLength (v : List JSNum) : Except String JSNum := do
  return F64.sqrt (← F64.dotProduct v v)

/-- The method `unitVector`, every operation rounded. -/
def F64.unitVector (v : List JSNum) : Except String (List JSNum) :=
  if v.length ≠ 3 then .error "非法向量参数：向量v的维度不是3"
  else do
    let length := F64.sqrt (← F64.dotProduct v v)
    return [F64.div (nth v 0) length, F64.div (nth v 1) length, F64.div (nth v 2) length]

/-- The method `subVector`, every operation rounded. -/
def F64.subVector (v1 v2 : List JSNum) : Except String (List JSNum) :=
  if v1.length ≠ v2.length then .error "非法向量参数：向量v1和v2的维度不一致"
  else .ok (List.zipWith (fun a b => F64.sub a b) v1 v2)

/-- The method `getDistanceToPlane`, every operation rounded. -/
def F64.getDistanceToPlane (dot a X Y : List JSNum) : Except String JSNum :=
  if dot.length ≠ 3 ∨ a.length ≠ 3 ∨ X.length ≠ 3 ∨ Y.length ≠ 3 then
    .error "非法向量参数：向量dot、a、X、Y的维度不是3"
  else do
    let numerator := JSNum.abs (← F64.dotProduct (← F64.subVector dot a) (F64.getCrossVector X Y))
    return F64.div numerator (← F64.getVectorLength (F64.getCrossVector X Y))

/-- The method `reflectDotToNewAxis`, every operation rounded. -/
def F64.reflectDotToNewAxis (dot origin X Y Z : List JSNum) : Except String (List JSNum) :=
  if dot.length ≠ 3 then .error "非法向量参数：向量dot的维度不是3"
  else do
    let unitX ← F64.unitVector X
    let unitY ← F64.unitVector Y
    let unitZ ← F64.unitVector Z
    let a := [F64.sub (nth dot 0) (nth origin 0), F64.sub (nth dot 1) (nth origin 1),
      F64.sub (nth dot 2) (nth origin 2)]
    return [← F64.dotProduct a unitX, ← F64.dotProduct a unitY, ← F64.dotProduct a unitZ]

/-- The camera basis `(X, Y, Z)` that `render` and `drawAxes` build from the direction, every
operation rounded; `get2DVerticalVector` and the two sign changes do not round. -/
def F64.cameraBasis (direction : List JSNum) :
    Except String (List JSNum × List JSNum × List JSNum) := do
  let Z := direction
  let tX ← MathVector.get2DVerticalVector [nth Z 0, nth Z 1]
  let X := [-(nth tX 0), -(nth tX 1), 0]
  let Y := F64.getCrossVector X Z
  return (X, Y, Z)

/-- The number 0.1 of the program, which is the 64-bit float nearest to 1/10, and so on. -/
def tenth (n : ℕ) : JSNum := F64.lit (n / 10)

/-- The decimal literal `1e-200` of a test input. -/
def tiny200 : JSNum := F64.lit (1 / 10 ^ 200)

/-- The function `Math.cos`, its value rounded to a 64-bit float. -/
def F64.cos (m : MathFns) (x : JSNum) : JSNum := toDouble (JSNum.cos m x)

/-- The function `Math.sin`, its value rounded to a 64-bit float. -/
def F64.sin (m : MathFns) (x : JSNum) : JSNum := toDouble (JSNum.sin m x)

/-- The method `rotateVector`, every operation rounded. -/
def F64.rotateVector (m : MathFns) (vector axis : List JSNum) (angle : JSNum) :
    Except String (List JSNum) := do
  let cosAngle := F64.cos m angle
  let sinAngle := F64.sin m angle
  let dot ← F64.dotProduct vector axis
  let cross := F64.getCrossVector axis vector
  return [F64.add (F64.add (F64.mul (nth vector 0) cosAngle) (F64.mul (nth cross 0) sinAngle))
      (F64.mul (F64.mul (nth axis 0) dot) (F64.sub 1 cosAngle)),
    F64.add (F64.add (F64.mul (nth vector 1) cosAngle) (F64.mul (nth cross 1) sinAngle))
      (F64.mul (F64.mul (nth axis 1) dot) (F64.sub 1 cosAngle)),
    F64.add (F64.add (F64.mul (nth vector 2) cosAngle) (F64.mul (nth cross 2) sinAngle))
      (F64.mul (F64.mul (nth axis 2) dot) (F64.sub 1 cosAngle))]

/-- The method `rotateCamera`, every operation rounded; the limit is the 64-bit float
`0.95`. -/
def F64.rotateCamera (m : MathFns) (c : CameraController) (deltaX deltaY : JSNum) :
    Except String CameraController := do
  let direction := toArray c.camera.direction
  let up : List JSNum := [0, 0, 1]
  let right := F64.getCrossVector direction up
  let horizontalRotation ← F64.rotateVector m direction up deltaX
  let verticalRotation ← F64.rotateVector m horizontalRotation right deltaY
  let dotProduct ← F64.dotProduct verticalRotation up
  if JSNum.lt (JSNum.abs dotProduct) (F64.lit (19 / 20)) then
    let d ← F64.unitVector verticalRotation
    return { c with camera := { c.camera with direction := ofArray d } }
  else
    let d ← F64.unitVector horizontalRotation
    return { c with camera := { c.camera with direction := ofArray d } }

/-- The function `Math.tan`, its value rounded to a 64-bit float. -/
def F64.tan (m : MathFns) (x : JSNum) : JSNum := toDouble (JSNum.tan m x)

/-- The function `Math.exp`, its value rounded to a 64-bit float: a value of `2 ^ 1024` or more
is `Infinity`. -/
def F64.exp (m : MathFns) (x : JSNum) : JSNum := toDouble (JSNum.exp m x)

/-- The method `fovlize`, every operation rounded. -/
def F64.fovlize (m : MathFns) (r : Renderer) (reflectedDot : List JSNum) : List JSNum :=
  let fovWidth := F64.mul (F64.mul 2 r.camera.focus) (F64.tan m (F64.div r.camera.fov 2))
  let fovHeight := F64.div (F64.mul fovWidth (JSNum.fin r.height)) (JSNum.fin r.width)
  [F64.div (F64.mul (nth reflectedDot 0) (JSNum.fin r.width)) fovWidth,
   F64.div (F64.mul (nth reflectedDot 1) (JSNum.fin r.height)) fovHeight]

/-- The method `adjustColorByDepth`, every operation rounded; `maxDepth` is `none` when the
caller leaves it out, and then takes its default 50. -/
def F64.adjustColorByDepth (m : MathFns) (rgb : List JSNum) (depth : JSNum)
    (maxDepth : Option JSNum) : List JSNum :=
  let maxDepth := maxDepth.getD 50
  let depthFactor := F64.exp m (F64.div (-depth) maxDepth)
  [JSNum.min 255 (JSNum.max 0 (JSNum.round (F64.mul (nth rgb 0) depthFactor))),
   JSNum.min 255 (JSNum.max 0 (JSNum.round (F64.mul (nth rgb 1) depthFactor))),
   JSNum.min 255 (JSNum.max 0 (JSNum.round (F64.mul (nth rgb 2) depthFactor)))]

/-- The tangent as Lambert's continued fraction `q / (1 - q² / (3 - q² / (5 - ...)))`, cut
after the term 17; below 1 it agrees with the tangent to more than 64 bits. -/
def lambertTan (q : ℚ) : ℚ :=
  q / (1 - q ^ 2 / (3 - q ^ 2 / (5 - q ^ 2 / (7 - q ^ 2 / (9 - q ^ 2 / (11 - q ^ 2 /
    (13 - q ^ 2 / (15 - q ^ 2 / 17))))))))

/-- A second sample library: the exponential is `3 ^ ⌊q⌋`, which is monotone and passes
`2 ^ 1024` as `Math.exp` does, and the tangent is `lambertTan`. -/
def steepMath : MathFns :=
  { sampleMath with exp := fun q => 3 ^ ⌊q⌋, tan := lambertTan }

/-- A new renderer without faces on a canvas of 640 by 480 pixels, with the focus 1 and the
field of view `Math.PI / 4`. -/
def canvas640 : Renderer :=
  Renderer.new { v := [], f := [] }
    { sampleCamera with focus := 1, fov := JSNum.fin (884279719003555 / 1125899906842624) }
    640 480 false false

/-- A magnitude between `2 ^ (-k)` and `2 ^ k`. -/
def Magnitude (k : ℕ) (z : ℚ) : Prop := 1 / 2 ^ k ≤ |z| ∧ |z| ≤ 2 ^ k

/-- An access to one of the two buffers of the renderer: a read or a write of the depth buffer
at an index, or a write of the image at an index. -/
inductive Access where
  | depthRead (i : ℤ)
  | depthWrite (i : ℤ)
  | imageWrite (i : ℤ)
  deriving DecidableEq

/-- The body of the two loops of `fillTriangleFast` at the pixel `(x, y)`, every operation on
numbers rounded: the three edge functions, the inside test, the interpolated depth, the depth
test and the two stores.  The state is the renderer and the list of the accesses made to its
buffers so far.  The loop counters and the indices are integers below `2 ^ 53`, on which the
arithmetic of the program is exact. -/
def F64.fillPixel (m : MathFns) (v0 v1 v2 : ℤ × ℤ) (depths : ℚ × ℚ × ℚ) (rgb : List JSNum)
    (invArea : JSNum) (y x : ℤ) (s : Renderer × List Access) : Renderer × List Access :=
  let r := s.1
  let rowIndex := y * r.width
  let w0 := F64.sub (F64.mul (F64.sub (JSNum.fin v1.1) (JSNum.fin x))
      (F64.sub (JSNum.fin v2.2) (JSNum.fin y)))
    (F64.mul (F64.sub (JSNum.fin v2.1) (JSNum.fin x)) (F64.sub (JSNum.fin v1.2) (JSNum.fin y)))
  let w1 := F64.sub (F64.mul (F64.sub (JSNum.fin v2.1) (JSNum.fin x))
      (F64.sub (JSNum.fin v0.2) (JSNum.fin y)))
    (F64.mul (F64.sub (JSNum.fin v0.1) (JSNum.fin x)) (F64.sub (JSNum.fin v2.2) (JSNum.fin y)))
  let w2 := F64.sub (F64.mul (F64.sub (JSNum.fin v0.1) (JSNum.fin x))
      (F64.sub (JSNum.fin v1.2) (JSNum.fin y)))
    (F64.mul (F64.sub (JSNum.fin v1.1) (JSNum.fin x)) (F64.sub (JSNum.fin v0.2) (JSNum.fin y)))
  if (JSNum.ge w0 0 && JSNum.ge w1 0 && JSNum.ge w2 0) ||
      (JSNum.le w0 0 && JSNum.le w1 0 && JSNum.le w2 0) then
    let alpha := F64.mul w0 invArea
    let beta := F64.mul w1 invArea
    let gamma := F64.mul w2 invArea
    let depth := F64.add (F64.add (F64.mul alpha (JSNum.fin depths.1))
      (F64.mul beta (JSNum.fin depths.2.1))) (F64.mul gamma (JSNum.fin depths.2.2))
    let index := rowIndex + x
    match getCell r.depthBuffer index with
    | none => (r, s.2 ++ [Access.depthRead index])
    | some old =>
      if JSNum.lt depth old then
        let adjustedRgb := F64.adjustColorByDepth m rgb depth none
        let pixelIndex := shl2 index
        let buffer := setCell r.imageData pixelIndex (toUint8Clamp (nth adjustedRgb 0))
        let buffer := setCell buffer (pixelIndex + 1) (toUint8Clamp (nth adjustedRgb 1))
        let buffer := setCell buffer (pixelIndex + 2) (toUint8Clamp (nth adjustedRgb 2))
        let buffer := setCell buffer (pixelIndex + 3) 255
        ({ r with
            depthBuffer := setCell r.depthBuffer index (fround depth)
            imageData := buffer },
          s.2 ++ [Access.depthRead index, Access.depthWrite index, Access.imageWrite pixelIndex,
            Access.imageWrite (pixelIndex + 1), Access.imageWrite (pixelIndex + 2),
            Access.imageWrite (pixelIndex + 3)])
      else (r, s.2 ++ [Access.depthRead index])
  else s

/-- The method `fillTriangleFast` on screen vertices with integer coordinates and finite
depths, every operation on numbers rounded, with the list of the accesses it makes to the two
buffers. -/
def F64.fillTriangleFastLog (m : MathFns) (r : Renderer) (v0 v1 v2 : ℤ × ℤ)
    (depths : ℚ × ℚ × ℚ) (rgb : List JSNum) : Renderer × List Access :=
  let width : ℤ := r.width
  let height : ℤ := r.height
  let minX := max 0 (min v0.1 (min v1.1 v2.1))
  let maxX := min (width - 1) (max v0.1 (max v1.1 v2.1))
  let minY := max 0 (min v0.2 (min v1.2 v2.2))
  let maxY := min (height - 1) (max v0.2 (max v1.2 v2.2))
  if minX > maxX ∨ minY > maxY then (r, [])
  else
    let area := F64.sub (F64.mul (F64.sub (JSNum.fin v1.1) (JSNum.fin v0.1))
        (F64.sub (JSNum.fin v2.2) (JSNum.fin v0.2)))
      (F64.mul (F64.sub (JSNum.fin v2.1) (JSNum.fin v0.1))
        (F64.sub (JSNum.fin v1.2) (JSNum.fin v0.2)))
    if JSNum.lt (JSNum.abs area) (F64.lit (1 / 10000)) then (r, [])
    else
      let invArea := F64.div 1 area
      (loopRange minY maxY).foldl
        (fun s y => (loopRange minX maxX).foldl
          (fun s x => F64.fillPixel m v0 v1 v2 depths rgb invArea y x s) s) (r, [])

/-- The method `fillTriangleFast`, every operation on numbers rounded: the state it leaves. -/
def F64.fillTriangleFast (m : MathFns) (r : Renderer) (v0 v1 v2 : ℤ × ℤ) (depths : ℚ × ℚ × ℚ)
    (rgb : List JSNum) : Renderer :=
  (F64.fillTriangleFastLog m r v0 v1 v2 depths rgb).1

/-- The edge function of `fillTriangleFast` for the edge from `a` to `b` at the pixel `(x, y)`,
as the program computes it. -/
def F64.edge (a b : ℤ × ℤ) (x y : ℤ) : JSNum :=
  F64.sub (F64.mul (F64.sub (JSNum.fin a.1) (JSNum.fin x)) (F64.sub (JSNum.fin b.2) (JSNum.fin y)))
    (F64.mul (F64.sub (JSNum.fin b.1) (JSNum.fin x)) (F64.sub (JSNum.fin a.2) (JSNum.fin y)))

/-- The inside test of `fillTriangleFast` at the pixel `(x, y)`, as the program computes it. -/
def F64.covers (v0 v1 v2 : ℤ × ℤ) (x y : ℤ) : Bool :=
  (JSNum.ge (F64.edge v1 v2 x y) 0 && JSNum.ge (F64.edge v2 v0 x y) 0 &&
      JSNum.ge (F64.edge v0 v1 x y) 0) ||
    (JSNum.le (F64.edge v1 v2 x y) 0 && JSNum.le (F64.edge v2 v0 x y) 0 &&
      JSNum.le (F64.edge v0 v1 x y) 0)

/-- The number `area` of `fillTriangleFast`, as the program computes it. -/
def F64.area (v0 v1 v2 : ℤ × ℤ) : JSNum :=
  F64.sub (F64.mul (F64.sub (JSNum.fin v1.1) (JSNum.fin v0.1))
      (F64.sub (JSNum.fin v2.2) (JSNum.fin v0.2)))
    (F64.mul (F64.sub (JSNum.fin v2.1) (JSNum.fin v0.1))
      (F64.sub (JSNum.fin v1.2) (JSNum.fin v0.2)))

/-- The weights `alpha`, `beta`, `gamma` of `fillTriangleFast` at the pixel `(x, y)`, as the
program computes them. -/
def F64.weights (v0 v1 v2 : ℤ × ℤ) (x y : ℤ) : JSNum × JSNum × JSNum :=
  (F64.mul (F64.edge v1 v2 x y) (F64.div 1 (F64.area v0 v1 v2)),
   F64.mul (F64.edge v2 v0 x y) (F64.div 1 (F64.area v0 v1 v2)),
   F64.mul (F64.edge v0 v1 x y) (F64.div 1 (F64.area v0 v1 v2)))

/-- The depth `fillTriangleFast` interpolates at the pixel `(x, y)`, as the program computes
it. -/
def F64.pixelDepth (v0 v1 v2 : ℤ × ℤ) (depths : ℚ × ℚ × ℚ) (x y : ℤ) : JSNum :=
  F64.add (F64.add (F64.mul (F64.weights v0 v1 v2 x y).1 (JSNum.fin depths.1))
    (F64.mul (F64.weights v0 v1 v2 x y).2.1 (JSNum.fin depths.2.1)))
    (F64.mul (F64.weights v0 v1 v2 x y).2.2 (JSNum.fin depths.2.2))

/-- The pixel a passed depth test leaves, every operation rounded: the stored depth and the
shaded colour of `fillTriangleFast` for the depth `d` and the colour `rgb`. -/
def F64.shaded (m : MathFns) (rgb : List JSNum) (d : JSNum) : Option JSNum × List (Option ℕ) :=
  (some (fround d),
   [some (toUint8Clamp (nth (F64.adjustColorByDepth m rgb d none) 0)),
    some (toUint8Clamp (nth (F64.adjustColorByDepth m rgb d none) 1)),
    some (toUint8Clamp (nth (F64.adjustColorByDepth m rgb d none) 2)),
    some 255])

/-- The effect of the loop body at a pixel on what is seen of that pixel, every operation
rounded. -/
def F64.pixelStep (m : MathFns) (v0 v1 v2 : ℤ × ℤ) (depths : ℚ × ℚ × ℚ) (rgb : List JSNum)
    (x y : ℤ) (o : Option JSNum × List (Option ℕ)) : Option JSNum × List (Option ℕ) :=
  match o.1 with
  | none => o
  | some old =>
    if F64.covers v0 v1 v2 x y = true ∧ JSNum.lt (F64.pixelDepth v0 v1 v2 depths x y) old = true
    then F64.shaded m rgb (F64.pixelDepth v0 v1 v2 depths x y)
    else o

/-- The access stays inside the buffers of a canvas of `W` by `H` pixels: an index of the depth
buffer is at least 0 and below `W * H`, an index of the image is below `4 * W * H`. -/
def Access.InBounds (W H : ℕ) : Access → Prop
  | Access.depthRead i => 0 ≤ i ∧ i < (W : ℤ) * H
  | Access.depthWrite i => 0 ≤ i ∧ i < (W : ℤ) * H
  | Access.imageWrite i => i < 4 * (W : ℤ) * H

/-- The test `Math.abs(area) < 0.0001` of `fillTriangleFast`, as the program computes it. -/
def F64.degenerate (v0 v1 v2 : ℤ × ℤ) : Bool :=
  JSNum.lt (JSNum.abs (F64.area v0 v1 v2)) (F64.lit (1 / 10000))

/-- The three vertices have coordinates of magnitude at most `2 ^ 25`. -/
def SmallVertices (v0 v1 v2 : ℤ × ℤ) : Prop :=
  |v0.1| ≤ 2 ^ 25 ∧ |v0.2| ≤ 2 ^ 25 ∧ |v1.1| ≤ 2 ^ 25 ∧ |v1.2| ≤ 2 ^ 25 ∧
  |v2.1| ≤ 2 ^ 25 ∧ |v2.2| ≤ 2 ^ 25

/-- The loop body of `fillTriangleFast` from the three edge functions on, every operation
rounded. -/
def F64.pixelBody (m : MathFns) (w0 w1 w2 : JSNum) (depths : ℚ × ℚ × ℚ) (rgb : List JSNum)
    (invArea : JSNum) (y x : ℤ) (s : Renderer × List Access) : Renderer × List Access :=
  if (JSNum.ge w0 0 && JSNum.ge w1 0 && JSNum.ge w2 0) ||
      (JSNum.le w0 0 && JSNum.le w1 0 && JSNum.le w2 0) then
    match getCell s.1.depthBuffer (y * s.1.width + x) with
    | none => (s.1, s.2 ++ [Access.depthRead (y * s.1.width + x)])
    | some old =>
      if JSNum.lt (F64.add (F64.add (F64.mul (F64.mul w0 invArea) (JSNum.fin depths.1))
          (F64.mul (F64.mul w1 invArea) (JSNum.fin depths.2.1)))
          (F64.mul (F64.mul w2 invArea) (JSNum.fin depths.2.2))) old then
        ({ s.1 with
            depthBuffer := setCell s.1.depthBuffer (y * s.1.width + x)
              (fround (F64.add (F64.add (F64.mul (F64.mul w0 invArea) (JSNum.fin depths.1))
                (F64.mul (F64.mul w1 invArea) (JSNum.fin depths.2.1)))
                (F64.mul (F64.mul w2 invArea) (JSNum.fin depths.2.2))))
            imageData :=
              setCell (setCell (setCell (setCell s.1.imageData (shl2 (y * s.1.width + x))
                (toUint8Clamp (nth (F64.adjustColorByDepth m rgb
                  (F64.add (F64.add (F64.mul (F64.mul w0 invArea) (JSNum.fin depths.1))
                    (F64.mul (F64.mul w1 invArea) (JSNum.fin depths.2.1)))
                    (F64.mul (F64.mul w2 invArea) (JSNum.fin depths.2.2))) none) 0)))
                (shl2 (y * s.1.width + x) + 1) (toUint8Clamp (nth (F64.adjustColorByDepth m rgb
                  (F64.add (F64.add (F64.mul (F64.mul w0 invArea) (JSNum.fin depths.1))
                    (F64.mul (F64.mul w1 invArea) (JSNum.fin depths.2.1)))
                    (F64.mul (F64.mul w2 invArea) (JSNum.fin depths.2.2))) none) 1)))
                (shl2 (y * s.1.width + x) + 2) (toUint8Clamp (nth (F64.adjustColorByDepth m rgb
                  (F64.add (F64.add (F64.mul (F64.mul w0 invArea) (JSNum.fin depths.1))
                    (F64.mul (F64.mul w1 invArea) (JSNum.fin depths.2.1)))
                    (F64.mul (F64.mul w2 invArea) (JSNum.fin depths.2.2))) none) 2)))
                (shl2 (y * s.1.width + x) + 3) 255 },
          s.2 ++ [Access.depthRead (y * s.1.width + x), Access.depthWrite (y * s.1.width + x),
            Access.imageWrite (shl2 (y * s.1.width + x)),
            Access.imageWrite (shl2 (y * s.1.width + x) + 1),
            Access.imageWrite (shl2 (y * s.1.width + x) + 2),
            Access.imageWrite (shl2 (y * s.1.width + x) + 3)])
      else (s.1, s.2 ++ [Access.depthRead (y * s.1.width + x)])
  else s

/-- A new renderer without faces on a canvas of 3 by 4 pixels. -/
def canvas34 : Renderer := Renderer.new { v := [], f := [] } sampleCamera 3 4 false false

/-- A bound on the absolute error of rounding to a 64-bit float near zero. -/
def tinyStep : ℚ := 1 / 2 ^ 1000

/-! ## Arithmetic of finite numbers -/

namespace JSNum

@[simp] theorem ofNat_eq (n : ℕ) : (OfNat.ofNat n : JSNum) = fin (n : ℚ) := rfl
@[simp] theorem neg_fin (a : ℚ) : -(fin a) = fin (-a) := rfl
@[simp] theorem add_fin (a b : ℚ) : fin a + fin b = fin (a + b) := rfl
@[simp] theorem sub_fin (a b : ℚ) : fin a - fin b = fin (a - b) := by
  show add (fin a) (neg (fin b)) = _
  simp [neg, add, sub_eq_add_neg]
@[simp] theorem mul_fin (a b : ℚ) : fin a * fin b = fin (a * b) := rfl
theorem div_fin (a b : ℚ) (h : b ≠ 0) : fin a / fin b = fin (a / b) := by
  show div (fin a) (fin b) = _
  simp [div, h]
@[simp] theorem lt_fin (a b : ℚ) : lt (fin a) (fin b) = decide (a < b) := rfl
@[simp] theorem le_fin (a b : ℚ) : le (fin a) (fin b) = decide (a ≤ b) := rfl
@[simp] theorem lt_pinf (a : ℚ) : lt (fin a) pinf = true := rfl
@[simp] theorem min_fin (a b : ℚ) : min (fin a) (fin b) = fin (Min.min a b) := by
  by_cases h : a ≤ b <;> simp [min, h]
  exact le_of_lt (not_le.mp h)
@[simp] theorem max_fin (a b : ℚ) : max (fin a) (fin b) = fin (Max.max a b) := by
  by_cases h : a ≤ b <;> simp [max, h]
  exact le_of_lt (not_le.mp h)
@[simp] theorem round_fin (a : ℚ) : round (fin a) = fin (⌊a + 1 / 2⌋ : ℤ) := rfl
@[simp] theorem exp_fin (m : MathFns) (a : ℚ) : exp m (fin a) = fin (m.exp a) := rfl
@[simp] theorem tan_fin (m : MathFns) (a : ℚ) : tan m (fin a) = fin (m.tan a) := rfl

end JSNum

/-! ## Typed arrays and loops -/

theorem getCell_setCell {α : Type} (buf : List α) (i j : ℤ) (a : α) :
    getCell (setCell buf i a) j = if i = j then (getCell buf j).map (fun _ => a) else getCell buf j := by
  unfold getCell setCell
  by_cases hi : 0 ≤ i <;> by_cases hj : 0 ≤ j <;> simp only [hi, hj, if_true, if_false]
  · rw [List.getElem?_set]
    by_cases hij : i = j
    · subst hij
      simp only [if_true]
      by_cases hlt : i.toNat < buf.length
      · simp [hlt]
      · simp [hlt, List.getElem?_eq_none (not_lt.mp hlt)]
    · have : i.toNat ≠ j.toNat := by omega
      simp [hij, this]
  · split <;> simp
  · have : i ≠ j := by omega
    simp [this]
  · split <;> simp

@[simp] theorem length_setCell {α : Type} (buf : List α) (i : ℤ) (a : α) :
    (setCell buf i a).length = buf.length := by
  unfold setCell; split <;> simp

theorem getCell_isSome {α : Type} (buf : List α) (i : ℤ) :
    (getCell buf i).isSome ↔ 0 ≤ i ∧ i < buf.length := by
  unfold getCell
  by_cases hi : 0 ≤ i
  · simp only [hi, if_true, true_and]
    rw [← not_iff_not]
    simp only [Option.not_isSome_iff_eq_none, List.getElem?_eq_none_iff, not_lt]
    omega
  · simp [hi]

theorem mem_loopRange (lo hi z : ℤ) : z ∈ loopRange lo hi ↔ lo ≤ z ∧ z ≤ hi := by
  unfold loopRange
  simp only [List.mem_map, List.mem_range]
  constructor
  · rintro ⟨k, hk, rfl⟩
    omega
  · rintro ⟨h1, h2⟩
    exact ⟨(z - lo).toNat, by omega, by omega⟩

theorem nodup_loopRange (lo hi : ℤ) : (loopRange lo hi).Nodup := by
  unfold loopRange
  apply List.Nodup.map _ (List.nodup_range _)
  intro a b h
  simpa using h

theorem foldl_foldl_product {σ α β : Type} (f : σ → α → β → σ) (s : σ) (as : List α)
    (bs : List β) :
    as.foldl (fun s a => bs.foldl (fun s b => f s a b) s) s
      = (as ×ˢ bs).foldl (fun s p => f s p.1 p.2) s := by
  induction as generalizing s with
  | nil => rfl
  | cons a as ih =>
    simp only [List.foldl_cons, List.product_cons, List.foldl_append, List.foldl_map]
    exact ih _

theorem foldl_obs_not_mem {σ ι β : Type} (step : σ → ι → σ) (obs : σ → β) (Inv : σ → Prop)
    (hInv : ∀ s q, Inv s → Inv (step s q)) (p : ι)
    (ps : List ι) (hframe : ∀ s q, q ∈ ps → q ≠ p → Inv s → obs (step s q) = obs s)
    (hp : p ∉ ps) (s : σ) (hs : Inv s) :
    obs (ps.foldl step s) = obs s := by
  induction ps generalizing s with
  | nil => rfl
  | cons q rest ih =>
    simp only [List.mem_cons, not_or] at hp
    rw [List.foldl_cons, ih (fun s q' hq' => hframe s q' (List.mem_cons_of_mem _ hq')) hp.2 _
      (hInv s q hs), hframe s q (List.mem_cons_self _ _) (Ne.symm hp.1) hs]

theorem foldl_obs_mem {σ ι β : Type} (step : σ → ι → σ) (obs : σ → β) (Inv : σ → Prop)
    (hInv : ∀ s q, Inv s → Inv (step s q)) (p : ι)
    (hlocal : ∀ s s', Inv s → Inv s' → obs s = obs s' → obs (step s p) = obs (step s' p))
    (ps : List ι) (hframe : ∀ s q, q ∈ ps → q ≠ p → Inv s → obs (step s q) = obs s)
    (hnodup : ps.Nodup) (hp : p ∈ ps) (s : σ) (hs : Inv s) :
    obs (ps.foldl step s) = obs (step s p) := by
  induction ps generalizing s with
  | nil => cases hp
  | cons q rest ih =>
    rw [List.nodup_cons] at hnodup
    rw [List.foldl_cons]
    by_cases hq : q = p
    · subst hq
      exact foldl_obs_not_mem step obs Inv hInv q rest
        (fun s q' hq' => hframe s q' (List.mem_cons_of_mem _ hq')) hnodup.1 _ (hInv s q hs)
    · have hp' : p ∈ rest := by
        rcases List.mem_cons.mp hp with h | h
        · exact absurd h.symm hq
        · exact h
      rw [ih (fun s q' hq' => hframe s q' (List.mem_cons_of_mem _ hq')) hnodup.2 hp' _
        (hInv s q hs)]
      exact hlocal _ _ (hInv s q hs) hs (hframe s q (List.mem_cons_self _ _) hq hs)

/-! ## The loop body of `fillTriangleFast` -/

theorem shl2_eq (i : ℤ) (h0 : 0 ≤ i) (h1 : i < 2 ^ 29) : shl2 i = 4 * i := by
  unfold shl2
  norm_num at h1 ⊢
  omega

theorem fillPixel_eq (m : MathFns) (v0 v1 v2 : ℤ × ℤ) (depths : ℚ × ℚ × ℚ) (rgb : List JSNum)
    (y x : ℤ) (r : Renderer) :
    fillPixel m v0 v1 v2 depths rgb (1 / signedArea v0 v1 v2) y x r =
      if covers v0 v1 v2 x y then
        match getCell r.depthBuffer (y * r.width + x) with
        | none => r
        | some old =>
          if JSNum.lt (JSNum.fin (pixelDepth v0 v1 v2 depths x y)) old then
            { r with
              depthBuffer := setCell r.depthBuffer (y * r.width + x)
                (fround (JSNum.fin (pixelDepth v0 v1 v2 depths x y)))
              imageData :=
                setCell (setCell (setCell (setCell r.imageData (shl2 (y * r.width + x))
                  (toUint8Clamp (nth (adjustColorByDepth m rgb
                    (JSNum.fin (pixelDepth v0 v1 v2 depths x y)) none) 0)))
                  (shl2 (y * r.width + x) + 1) (toUint8Clamp (nth (adjustColorByDepth m rgb
                    (JSNum.fin (pixelDepth v0 v1 v2 depths x y)) none) 1)))
                  (shl2 (y * r.width + x) + 2) (toUint8Clamp (nth (adjustColorByDepth m rgb
                    (JSNum.fin (pixelDepth v0 v1 v2 depths x y)) none) 2)))
                  (shl2 (y * r.width + x) + 3) 255 }
          else r
      else r := rfl

theorem fillPixel_other (m : MathFns) (v0 v1 v2 : ℤ × ℤ) (depths : ℚ × ℚ × ℚ)
    (rgb : List JSNum) (ia : ℚ) (y x : ℤ) (r : Renderer) (W N : ℕ) (h : Keeps W N r)
    (hN : N ≤ 2 ^ 29) (i : ℤ) (hi : i ≠ y * W + x) :
    pixelAt (fillPixel m v0 v1 v2 depths rgb ia y x r) i = pixelAt r i := by
  obtain ⟨h1, h2, h3⟩ := h
  unfold fillPixel
  simp only [h1]
  split
  · cases hc : getCell r.depthBuffer (y * W + x) with
    | none => rfl
    | some old =>
      simp only
      split
      · have hs := (getCell_isSome r.depthBuffer (y * W + x)).mp (by simp [hc])
        have hlt : y * (W : ℤ) + x < 2 ^ 29 := by
          have : (N : ℤ) ≤ 2 ^ 29 := by exact_mod_cast hN
          omega
        rw [shl2_eq _ hs.1 hlt]
        simp only [pixelAt, getCell_setCell]
        have e0 : ¬ (y * (W : ℤ) + x = i) := fun h => hi h.symm
        simp only [e0, if_false]
        congr 1
        have a1 : ∀ k k' : ℤ, 0 ≤ k → k < 4 → 0 ≤ k' → k' < 4 →
            ¬ (4 * (y * (W : ℤ) + x) + k = 4 * i + k') := by
          intro k k' _ _ _ _ hh; apply hi; omega
        have b0 := a1 0 0 (by norm_num) (by norm_num) (by norm_num) (by norm_num)
        have b1 := a1 0 1 (by norm_num) (by norm_num) (by norm_num) (by norm_num)
        have b2 := a1 0 2 (by norm_num) (by norm_num) (by norm_num) (by norm_num)
        have b3 := a1 0 3 (by norm_num) (by norm_num) (by norm_num) (by norm_num)
        have c0 := a1 1 0 (by norm_num) (by norm_num) (by norm_num) (by norm_num)
        have c1 := a1 1 1 (by norm_num) (by norm_num) (by norm_num) (by norm_num)
        have c2 := a1 1 2 (by norm_num) (by norm_num) (by norm_num) (by norm_num)
        have c3 := a1 1 3 (by norm_num) (by norm_num) (by norm_num) (by norm_num)
        have d0 := a1 2 0 (by norm_num) (by norm_num) (by norm_num) (by norm_num)
        have d1 := a1 2 1 (by norm_num) (by norm_num) (by norm_num) (by norm_num)
        have d2 := a1 2 2 (by norm_num) (by norm_num) (by norm_num) (by norm_num)
        have d3 := a1 2 3 (by norm_num) (by norm_num) (by norm_num) (by norm_num)
        have e0 := a1 3 0 (by norm_num) (by norm_num) (by norm_num) (by norm_num)
        have e1 := a1 3 1 (by norm_num) (by norm_num) (by norm_num) (by norm_num)
        have e2 := a1 3 2 (by norm_num) (by norm_num) (by norm_num) (by norm_num)
        have e3 := a1 3 3 (by norm_num) (by norm_num) (by norm_num) (by norm_num)
        simp only [add_zero] at b0 b1 b2 b3 c0 d0 e0
        simp only [b0, b1, b2, b3, c0, c1, c2, c3, d0, d1, d2, d3, e0, e1, e2, e3, if_false]
      · rfl
  · rfl

theorem fillPixel_self (m : MathFns) (v0 v1 v2 : ℤ × ℤ) (depths : ℚ × ℚ × ℚ)
    (rgb : List JSNum) (y x : ℤ) (r : Renderer) (W N : ℕ) (h : Keeps W N r)
    (hN : N ≤ 2 ^ 29) :
    pixelAt (fillPixel m v0 v1 v2 depths rgb (1 / signedArea v0 v1 v2) y x r) (y * W + x)
      = pixelStep m v0 v1 v2 depths rgb x y (pixelAt r (y * W + x)) := by
  obtain ⟨h1, h2, h3⟩ := h
  rw [fillPixel_eq, h1]
  unfold pixelStep
  cases hc : getCell r.depthBuffer (y * W + x) with
  | none =>
    have : (pixelAt r (y * W + x)).1 = none := hc
    simp only [this]
    split <;> rfl
  | some old =>
    have : (pixelAt r (y * W + x)).1 = some old := hc
    simp only [this]
    by_cases hcov : covers v0 v1 v2 x y
    · by_cases hlt : JSNum.lt (JSNum.fin (pixelDepth v0 v1 v2 depths x y)) old = true
      · simp only [hcov, hlt, if_true, and_self]
        have hs := (getCell_isSome r.depthBuffer (y * W + x)).mp (by simp [hc])
        have hlt2 : y * (W : ℤ) + x < 2 ^ 29 := by
          have : (N : ℤ) ≤ 2 ^ 29 := by exact_mod_cast hN
          omega
        rw [shl2_eq _ hs.1 hlt2]
        have hk : ∀ k : ℤ, 0 ≤ k → k < 4 →
            (getCell r.imageData (4 * (y * W + x) + k)).isSome := by
          intro k hk0 hk4
          rw [getCell_isSome]
          omega
        have g0 := hk 0 (by norm_num) (by norm_num)
        have g1 := hk 1 (by norm_num) (by norm_num)
        have g2 := hk 2 (by norm_num) (by norm_num)
        have g3 := hk 3 (by norm_num) (by norm_num)
        rw [add_zero] at g0
        obtain ⟨a0, ha0⟩ := Option.isSome_iff_exists.mp g0
        obtain ⟨a1, ha1⟩ := Option.isSome_iff_exists.mp g1
        obtain ⟨a2, ha2⟩ := Option.isSome_iff_exists.mp g2
        obtain ⟨a3, ha3⟩ := Option.isSome_iff_exists.mp g3
        simp only [pixelAt, shaded, getCell_setCell, hc, ha0, ha1, ha2, ha3, if_true,
          Option.map_some']
        have n1 : ¬ (4 * (y * (W : ℤ) + x) + 1 = 4 * (y * W + x)) := by omega
        have n2 : ¬ (4 * (y * (W : ℤ) + x) + 2 = 4 * (y * W + x)) := by omega
        have n3 : ¬ (4 * (y * (W : ℤ) + x) + 3 = 4 * (y * W + x)) := by omega
        have n4 : ¬ (4 * (y * (W : ℤ) + x) + 2 = 4 * (y * W + x) + 1) := by omega
        have n5 : ¬ (4 * (y * (W : ℤ) + x) + 3 = 4 * (y * W + x) + 1) := by omega
        have n6 : ¬ (4 * (y * (W : ℤ) + x) + 3 = 4 * (y * W + x) + 2) := by omega
        have n7 : ¬ (4 * (y * (W : ℤ) + x) = 4 * (y * W + x) + 1) := by omega
        have n8 : ¬ (4 * (y * (W : ℤ) + x) = 4 * (y * W + x) + 2) := by omega
        have n9 : ¬ (4 * (y * (W : ℤ) + x) = 4 * (y * W + x) + 3) := by omega
        have n10 : ¬ (4 * (y * (W : ℤ) + x) + 1 = 4 * (y * W + x) + 2) := by omega
        have n11 : ¬ (4 * (y * (W : ℤ) + x) + 1 = 4 * (y * W + x) + 3) := by omega
        have n12 : ¬ (4 * (y * (W : ℤ) + x) + 2 = 4 * (y * W + x) + 3) := by omega
        simp only [n1, n2, n3, n4, n5, n6, n7, n8, n9, n10, n11, n12, if_false, ha0, ha1, ha2,
          ha3, Option.map_some']
      · simp only [hcov, hlt, if_true, and_false, if_false]
        rfl
    · simp only [hcov, if_false, false_and]

theorem index_inj (W : ℕ) (x y x' y' : ℤ) (hx : 0 ≤ x) (hxW : x < W) (hx' : 0 ≤ x')
    (hxW' : x' < W) (h : y * W + x = y' * W + x') : y = y' ∧ x = x' := by
  have hy : y = y' := by
    by_contra hne
    rcases lt_or_gt_of_ne hne with hlt | hgt
    · have : (y' - y) * (W : ℤ) ≥ 1 * W := by
        apply mul_le_mul_of_nonneg_right <;> omega
      nlinarith
    · have : (y - y') * (W : ℤ) ≥ 1 * W := by
        apply mul_le_mul_of_nonneg_right <;> omega
      nlinarith
  subst hy
  exact ⟨rfl, by omega⟩

/-! ## `fillTriangleFast` at a pixel -/

theorem SameSettings.refl (r : Renderer) : SameSettings r r :=
  ⟨rfl, rfl, rfl, rfl, rfl, rfl, rfl, rfl, rfl⟩

theorem SameSettings.trans {r0 r1 r2 : Renderer} (h1 : SameSettings r0 r1)
    (h2 : SameSettings r1 r2) : SameSettings r0 r2 := by
  obtain ⟨a1, a2, a3, a4, a5, a6, a7, a8, a9⟩ := h1
  obtain ⟨b1, b2, b3, b4, b5, b6, b7, b8, b9⟩ := h2
  exact ⟨b1.trans a1, b2.trans a2, b3.trans a3, b4.trans a4, b5.trans a5, b6.trans a6,
    b7.trans a7, b8.trans a8, b9.trans a9⟩

theorem SameSettings.sized {r0 r : Renderer} (h : SameSettings r0 r) (hs : Sized r0) :
    Sized r := by
  obtain ⟨_, _, a3, a4, _, _, _, a8, a9⟩ := h
  exact ⟨by rw [a8, a3, a4]; exact hs.depth, by rw [a9, a3, a4]; exact hs.image,
    by rw [a3, a4]; exact hs.small⟩

theorem SameSettings.keeps {r0 r : Renderer} (h : SameSettings r0 r) (hs : Sized r0) :
    Keeps r0.width (r0.width * r0.height) r := by
  obtain ⟨_, _, a3, a4, _, _, _, a8, a9⟩ := h
  exact ⟨a3, by rw [a8]; exact hs.depth, by rw [a9]; exact hs.image⟩

/-- Lemmas on what `fillTriangleFast` keeps of the renderer, and what it leaves at a pixel, proved
in turn: `fillPixel_sameSettings`, `foldl_sameSettings`, `fillTriangleFast_sameSettings`,
`abs_area_lt_iff`, `fillTriangleFast_pixelAt`. -/
theorem fill_settings_facts :
    (∀ (m : MathFns) (v0 v1 v2 : ℤ × ℤ) (depths : ℚ × ℚ × ℚ) (rgb : List JSNum) (ia : ℚ) (y x : ℤ) (r : Renderer),
      SameSettings r (fillPixel m v0 v1 v2 depths rgb ia y x r)) ∧
    (∀ {ι : Type} (step : Renderer → ι → Renderer) (_ : ∀ r q, SameSettings r (step r q)) (ps : List ι) (r : Renderer),
      SameSettings r (ps.foldl step r)) ∧
    (∀ (m : MathFns) (r : Renderer) (v0 v1 v2 : ℤ × ℤ) (depths : ℚ × ℚ × ℚ) (rgb : List JSNum),
      SameSettings r (fillTriangleFast m r v0 v1 v2 depths rgb)) ∧
    (∀ (a : ℤ),
      |(a : ℚ)| < 1 / 10000 ↔ a = 0) ∧
    (∀ (m : MathFns) (r : Renderer) (v0 v1 v2 : ℤ × ℤ) (depths : ℚ × ℚ × ℚ) (rgb : List JSNum) (_ : Sized r) (x y : ℤ) (_ : 0 ≤ x) (_ : x < r.width),
      pixelAt (fillTriangleFast m r v0 v1 v2 depths rgb) (y * r.width + x) =
      if inBox r.width r.height v0 v1 v2 x y ∧ signedArea v0 v1 v2 ≠ 0 then
        pixelStep m v0 v1 v2 depths rgb x y (pixelAt r (y * r.width + x))
      else pixelAt r (y * r.width + x)) := by
  have fillPixel_sameSettings (m : MathFns) (v0 v1 v2 : ℤ × ℤ) (depths : ℚ × ℚ × ℚ)
      (rgb : List JSNum) (ia : ℚ) (y x : ℤ) (r : Renderer) :
      SameSettings r (fillPixel m v0 v1 v2 depths rgb ia y x r) := by
    unfold fillPixel
    simp only
    split
    · split
      · exact SameSettings.refl r
      · split
        · exact ⟨rfl, rfl, rfl, rfl, rfl, rfl, rfl, by simp, by simp⟩
        · exact SameSettings.refl r
    · exact SameSettings.refl r
  have foldl_sameSettings {ι : Type} (step : Renderer → ι → Renderer)
      (hstep : ∀ r q, SameSettings r (step r q)) (ps : List ι) (r : Renderer) :
      SameSettings r (ps.foldl step r) := by
    clear fillPixel_sameSettings
    induction ps generalizing r with
    | nil => exact SameSettings.refl r
    | cons q rest ih => exact (hstep r q).trans (ih _)
  have fillTriangleFast_sameSettings (m : MathFns) (r : Renderer) (v0 v1 v2 : ℤ × ℤ)
      (depths : ℚ × ℚ × ℚ) (rgb : List JSNum) :
      SameSettings r (fillTriangleFast m r v0 v1 v2 depths rgb) := by
    unfold fillTriangleFast
    simp only
    split
    · exact SameSettings.refl r
    · split
      · exact SameSettings.refl r
      · apply foldl_sameSettings
        intro r y
        apply foldl_sameSettings
        intro r x
        exact fillPixel_sameSettings _ _ _ _ _ _ _ _ _ _
  have abs_area_lt_iff (a : ℤ) : |(a : ℚ)| < 1 / 10000 ↔ a = 0 := by
    clear fillPixel_sameSettings foldl_sameSettings fillTriangleFast_sameSettings
    constructor
    · intro h
      by_contra hne
      have : (1 : ℚ) ≤ |(a : ℚ)| := by
        rw [← Int.cast_abs]
        exact_mod_cast Int.one_le_abs hne
      linarith
    · rintro rfl
      norm_num
  -- What `fillTriangleFast` leaves at a pixel of the canvas: the loop body ran once at the pixel
  -- when it lies in the clamped bounding box of a triangle that is not degenerate, and the pixel
  -- is untouched otherwise.
  have fillTriangleFast_pixelAt (m : MathFns) (r : Renderer) (v0 v1 v2 : ℤ × ℤ)
      (depths : ℚ × ℚ × ℚ) (rgb : List JSNum) (hs : Sized r) (x y : ℤ)
      (hx : 0 ≤ x) (hxW : x < r.width) :
      pixelAt (fillTriangleFast m r v0 v1 v2 depths rgb) (y * r.width + x) =
        if inBox r.width r.height v0 v1 v2 x y ∧ signedArea v0 v1 v2 ≠ 0 then
          pixelStep m v0 v1 v2 depths rgb x y (pixelAt r (y * r.width + x))
        else pixelAt r (y * r.width + x) := by
    clear foldl_sameSettings fillTriangleFast_sameSettings
    unfold fillTriangleFast
    simp only
    split
    · rename_i hempty
      have : ¬ inBox r.width r.height v0 v1 v2 x y := by
        unfold inBox
        intro h
        rcases hempty with h1 | h1 <;> omega
      simp [this]
    · rename_i hbox
      split
      · rename_i harea
        rw [abs_area_lt_iff] at harea
        have : signedArea v0 v1 v2 = 0 := harea
        simp [this]
      · rename_i harea
        rw [abs_area_lt_iff] at harea
        have hne : signedArea v0 v1 v2 ≠ 0 := harea
        rw [foldl_foldl_product (fun r y x => fillPixel m v0 v1 v2 depths rgb
          (1 / (((v1.1 - v0.1) * (v2.2 - v0.2) - (v2.1 - v0.1) * (v1.2 - v0.2) : ℤ) : ℚ)) y x r)]
        have hInv : ∀ (s : Renderer) (q : ℤ × ℤ), SameSettings r s →
            SameSettings r ((fun s (p : ℤ × ℤ) => fillPixel m v0 v1 v2 depths rgb
              (1 / (signedArea v0 v1 v2 : ℚ)) p.1 p.2 s) s q) :=
          fun s q h => h.trans (fillPixel_sameSettings _ _ _ _ _ _ _ _ _ _)
        have hframe : ∀ (s : Renderer) (q : ℤ × ℤ),
            q ∈ (loopRange (max 0 (min v0.2 (min v1.2 v2.2)))
              (min ((r.height : ℤ) - 1) (max v0.2 (max v1.2 v2.2)))) ×ˢ
              (loopRange (max 0 (min v0.1 (min v1.1 v2.1)))
                (min ((r.width : ℤ) - 1) (max v0.1 (max v1.1 v2.1)))) →
            q ≠ (y, x) → SameSettings r s →
            pixelAt ((fun s (p : ℤ × ℤ) => fillPixel m v0 v1 v2 depths rgb
              (1 / (signedArea v0 v1 v2 : ℚ)) p.1 p.2 s) s q) (y * r.width + x)
              = pixelAt s (y * r.width + x) := by
          rintro s ⟨y', x'⟩ hq hqne hss
          rw [List.mem_product, mem_loopRange, mem_loopRange] at hq
          apply fillPixel_other m v0 v1 v2 depths rgb _ y' x' s r.width (r.width * r.height)
            (hss.keeps hs) hs.small
          intro heq
          apply hqne
          have := index_inj r.width x y x' y' hx hxW (by omega) (by omega) heq
          rw [this.1, this.2]
        have hlocal : ∀ s s' : Renderer, SameSettings r s → SameSettings r s' →
            pixelAt s (y * r.width + x) = pixelAt s' (y * r.width + x) →
            pixelAt ((fun s (p : ℤ × ℤ) => fillPixel m v0 v1 v2 depths rgb
              (1 / (signedArea v0 v1 v2 : ℚ)) p.1 p.2 s) s (y, x)) (y * r.width + x)
              = pixelAt ((fun s (p : ℤ × ℤ) => fillPixel m v0 v1 v2 depths rgb
              (1 / (signedArea v0 v1 v2 : ℚ)) p.1 p.2 s) s' (y, x)) (y * r.width + x) := by
          intro s s' hss hss' heq
          simp only
          rw [fillPixel_self m v0 v1 v2 depths rgb y x s r.width _ (hss.keeps hs) hs.small,
            fillPixel_self m v0 v1 v2 depths rgb y x s' r.width _ (hss'.keeps hs) hs.small, heq]
        by_cases hin : inBox r.width r.height v0 v1 v2 x y
        · simp only [hin, hne, ne_eq, not_false_eq_true, and_self, if_true]
          have hmem : (y, x) ∈ (loopRange (max 0 (min v0.2 (min v1.2 v2.2)))
              (min ((r.height : ℤ) - 1) (max v0.2 (max v1.2 v2.2)))) ×ˢ
              (loopRange (max 0 (min v0.1 (min v1.1 v2.1)))
                (min ((r.width : ℤ) - 1) (max v0.1 (max v1.1 v2.1)))) := by
            rw [List.mem_product, mem_loopRange, mem_loopRange]
            unfold inBox at hin
            omega
          have := foldl_obs_mem (fun s (p : ℤ × ℤ) => fillPixel m v0 v1 v2 depths rgb
              (1 / (signedArea v0 v1 v2 : ℚ)) p.1 p.2 s) (fun s => pixelAt s (y * r.width + x))
            (SameSettings r) hInv (y, x) hlocal _ hframe
            ((nodup_loopRange _ _).product (nodup_loopRange _ _)) hmem r (SameSettings.refl r)
          simp only at this
          rw [fillPixel_self m v0 v1 v2 depths rgb y x r r.width _
            ((SameSettings.refl r).keeps hs) hs.small] at this
          exact this
        · simp only [hin, false_and, if_false]
          have hmem : (y, x) ∉ (loopRange (max 0 (min v0.2 (min v1.2 v2.2)))
              (min ((r.height : ℤ) - 1) (max v0.2 (max v1.2 v2.2)))) ×ˢ
              (loopRange (max 0 (min v0.1 (min v1.1 v2.1)))
                (min ((r.width : ℤ) - 1) (max v0.1 (max v1.1 v2.1)))) := by
            rw [List.mem_product, mem_loopRange, mem_loopRange]
            unfold inBox at hin
            omega
          exact foldl_obs_not_mem (fun s (p : ℤ × ℤ) => fillPixel m v0 v1 v2 depths rgb
              (1 / (signedArea v0 v1 v2 : ℚ)) p.1 p.2 s) (fun s => pixelAt s (y * r.width + x))
            (SameSettings r) hInv (y, x) _ hframe hmem r (SameSettings.refl r)
  exact ⟨@fillPixel_sameSettings, @foldl_sameSettings, @fillTriangleFast_sameSettings,
    @abs_area_lt_iff, @fillTriangleFast_pixelAt⟩

/-! ## Rounding to 32-bit floats -/

theorem log2_eq (q : ℚ) (e : ℤ) (hq : 0 < q) (h1 : (2 : ℚ) ^ e ≤ q)
    (h2 : q < (2 : ℚ) ^ (e + 1)) : Int.log 2 q = e := by
  apply le_antisymm
  · have := (Int.lt_zpow_iff_log_lt (b := 2) (by norm_num) hq (x := e + 1)).mp
      (by simpa using h2)
    omega
  · exact (Int.zpow_le_iff_le_log (b := 2) (by norm_num) hq).mp (by simpa using h1)

theorem roundHalfEven_eq_of_near (x : ℚ) (n : ℤ) (h1 : (n : ℚ) - 1 / 2 < x)
    (h2 : x < n + 1 / 2) : roundHalfEven x = n := by
  unfold roundHalfEven
  simp only
  by_cases hx : (n : ℚ) ≤ x
  · have hf : ⌊x⌋ = n := by
      rw [Int.floor_eq_iff]; constructor <;> linarith
    rw [hf]
    have : x - n < 1 / 2 := by linarith
    simp only [this, if_true]
  · push_neg at hx
    have hf : ⌊x⌋ = n - 1 := by
      rw [Int.floor_eq_iff]; push_cast; constructor <;> linarith
    rw [hf]
    push_cast
    have h3 : ¬ (x - ((n : ℚ) - 1) < 1 / 2) := by linarith
    have h4 : 1 / 2 < x - ((n : ℚ) - 1) := by linarith
    simp only [h3, h4, if_true, if_false]
    ring

theorem float32Round_of_binade (q : ℚ) (e : ℤ) (hq : 0 < q) (he : -126 ≤ e)
    (h1 : (2 : ℚ) ^ e ≤ q) (h2 : q < (2 : ℚ) ^ (e + 1)) :
    float32Round q =
      if (2 : ℚ) ^ 128 ≤ roundHalfEven (q / 2 ^ (e - 23)) * 2 ^ (e - 23) then JSNum.pinf
      else JSNum.fin (roundHalfEven (q / 2 ^ (e - 23)) * 2 ^ (e - 23)) := by
  unfold float32Round
  simp only [hq.ne', if_false, abs_of_pos hq, log2_eq q e hq h1 h2, max_eq_left he, hq, if_true]

/-! ## Shading, field of view, camera basis -/

theorem sampleMath_exp_monotone : Monotone sampleMath.exp := by
  intro a b hab
  simp only [sampleMath]
  by_cases ha : a ≤ 0 <;> by_cases hb : b ≤ 0 <;> simp only [ha, hb, if_true, if_false]
  · apply one_div_le_one_div_of_le <;> linarith
  · have : 1 / (1 - a) ≤ 1 := by
      rw [div_le_one (by linarith)]; linarith
    linarith
  · linarith
  · linarith

/-- C8.  `adjustColorByDepth` at depth 0 returns the colour unchanged for every colour whose
channels are integers in `[0, 255]`, with `maxDepth` left out or finite and not zero, as
`Math.exp(0)` is 1. -/
theorem adjustColorByDepth_depth_zero (m : MathFns) (hexp : m.exp 0 = 1) (c0 c1 c2 : ℕ)
    (h0 : c0 ≤ 255) (h1 : c1 ≤ 255) (h2 : c2 ≤ 255) (maxDepth : Option JSNum)
    (hmax : maxDepth = none ∨ ∃ M : ℚ, M ≠ 0 ∧ maxDepth = some (fin M)) :
    adjustColorByDepth m [fin c0, fin c1, fin c2] (fin 0) maxDepth
      = [fin c0, fin c1, fin c2] := by
  have key : ∀ c : ℕ, c ≤ 255 →
      Min.min (255 : ℚ) (Max.max 0 ((⌊(c : ℚ) * 1 + 1 / 2⌋ : ℤ) : ℚ)) = c := by
    intro c hc
    have hfl : ⌊(c : ℚ) * 1 + 1 / 2⌋ = (c : ℤ) := by
      rw [Int.floor_eq_iff]
      constructor <;> push_cast <;> linarith
    rw [hfl]
    have h255 : (c : ℚ) ≤ 255 := by exact_mod_cast hc
    have hc0 : (0 : ℚ) ≤ c := by positivity
    simp [hc0, h255]
  obtain ⟨M, hM, hget⟩ : ∃ M : ℚ, M ≠ 0 ∧ maxDepth.getD (fin 50) = fin M := by
    rcases hmax with rfl | ⟨M, hM, rfl⟩
    · exact ⟨50, by norm_num, rfl⟩
    · exact ⟨M, hM, rfl⟩
  simp only [adjustColorByDepth, hget, nth, List.getD_cons_zero, List.getD_cons_succ, neg_fin,
    neg_zero, div_fin _ _ hM, zero_div, exp_fin, hexp, mul_fin, round_fin, ofNat_eq,
    Nat.cast_ofNat, max_fin, min_fin, Nat.cast_zero]
  rw [key c0 h0, key c1 h1, key c2 h2]

/-- Lemmas on freshly reset buffers and the sample canvas, proved in turn:
`resetBuffers_sameSettings`, `pixelAt_resetBuffers`, `fillTriangleFast_fresh`,
`fillTriangleFast_twice`, `allocate_sized`, `new_sized`, `toUint8Clamp_int`, `sample_green`. -/
theorem fresh_buffer_facts :
    (∀ (r : Renderer),
      SameSettings r (resetBuffers r)) ∧
    (∀ (r : Renderer) (_ : Sized r) (i : ℤ) (_ : 0 ≤ i) (_ : i < r.width * r.height),
      pixelAt (resetBuffers r) i = (some JSNum.pinf, [some 0, some 0, some 0, some 255])) ∧
    (∀ (m : MathFns) (r : Renderer) (_ : Sized r) (v0 v1 v2 : ℤ × ℤ) (depths : ℚ × ℚ × ℚ) (rgb : List JSNum) (x y : ℤ) (_ : 0 ≤ x) (_ : x < r.width) (_ : 0 ≤ y) (_ : y < r.height),
      pixelAt (fillTriangleFast m (resetBuffers r) v0 v1 v2 depths rgb) (y * r.width + x) =
      if inBox r.width r.height v0 v1 v2 x y ∧ signedArea v0 v1 v2 ≠ 0 ∧ covers v0 v1 v2 x y
      then shaded m rgb (pixelDepth v0 v1 v2 depths x y)
      else (some JSNum.pinf, [some 0, some 0, some 0, some 255])) ∧
    (∀ (m : MathFns) (r : Renderer) (_ : Sized r) (a0 a1 a2 b0 b1 b2 : ℤ × ℤ) (da db : ℚ × ℚ × ℚ) (rgbA rgbB : List JSNum) (x y : ℤ) (_ : 0 ≤ x) (_ : x < r.width) (_ : 0 ≤ y) (_ : y < r.height) (_ : inBox r.width r.height a0 a1 a2 x y ∧ signedArea a0 a1 a2 ≠ 0 ∧ covers a0 a1 a2 x y) (_ : inBox r.width r.height b0 b1 b2 x y ∧ signedArea b0 b1 b2 ≠ 0 ∧ covers b0 b1 b2 x y),
      pixelAt (fillTriangleFast m (fillTriangleFast m (resetBuffers r) a0 a1 a2 da rgbA)
        b0 b1 b2 db rgbB) (y * r.width + x) =
      if JSNum.lt (JSNum.fin (pixelDepth b0 b1 b2 db x y))
          (fround (JSNum.fin (pixelDepth a0 a1 a2 da x y))) = true
      then shaded m rgbB (pixelDepth b0 b1 b2 db x y)
      else shaded m rgbA (pixelDepth a0 a1 a2 da x y)) ∧
    (∀ (data : Mesh) (camera : Camera) (W H : ℕ) (axis lineMode : Bool) (_ : W * H ≤ 2 ^ 29),
      Sized (allocate data camera W H axis lineMode)) ∧
    (∀ (data : Mesh) (camera : Camera) (W H : ℕ) (axis lineMode : Bool) (_ : W * H ≤ 2 ^ 29),
      Sized (Renderer.new data camera W H axis lineMode)) ∧
    (∀ (n : ℕ) (_ : n ≤ 255),
      toUint8Clamp (JSNum.fin n) = n) ∧
    (∀ (d : ℚ) (_ : 9 / 10 ≤ d) (_ : d ≤ 11 / 10),
      shaded sampleMath [0, 255, 0] d
      = (some (float32Round d), [some 0, some 250, some 0, some 255])) := by
  have resetBuffers_sameSettings (r : Renderer) : SameSettings r (resetBuffers r) :=
    ⟨rfl, rfl, rfl, rfl, rfl, rfl, rfl, by simp [resetBuffers], by simp [resetBuffers]⟩
  have pixelAt_resetBuffers (r : Renderer) (hs : Sized r) (i : ℤ) (h0 : 0 ≤ i)
      (h1 : i < r.width * r.height) :
      pixelAt (resetBuffers r) i = (some JSNum.pinf, [some 0, some 0, some 0, some 255]) := by
    clear resetBuffers_sameSettings
    have hd := hs.depth
    have hi := hs.image
    have hlt : i.toNat < r.width * r.height := by
      have : (i.toNat : ℤ) < ((r.width * r.height : ℕ) : ℤ) := by
        rw [Int.toNat_of_nonneg h0]; exact_mod_cast h1
      exact_mod_cast this
    have hk : ∀ k : ℤ, 0 ≤ k → k < 4 →
        getCell (resetBuffers r).imageData (4 * i + k) = some (if k = 3 then 255 else 0) := by
      intro k hk0 hk4
      have hn : 0 ≤ 4 * i + k := by omega
      have hlt' : (4 * i + k).toNat < r.imageData.length := by omega
      simp only [getCell, hn, if_true, resetBuffers, List.getElem?_map]
      rw [List.getElem?_range hlt']
      simp only [Option.map_some', Option.some.injEq]
      have hmod : (4 * i + k).toNat % 4 = k.toNat := by omega
      rw [hmod]
      by_cases h3 : k = 3
      · subst h3; rfl
      · have : k.toNat ≠ 3 := by omega
        simp [h3, this]
    have g0 := hk 0 (by norm_num) (by norm_num)
    have g1 := hk 1 (by norm_num) (by norm_num)
    have g2 := hk 2 (by norm_num) (by norm_num)
    have g3 := hk 3 (by norm_num) (by norm_num)
    rw [add_zero] at g0
    simp only [pixelAt, g0, g1, g2, g3]
    simp only [getCell, h0, if_true, resetBuffers, List.getElem?_map]
    rw [List.getElem?_eq_getElem (by omega)]
    simp
  -- One triangle on reset buffers: a covered pixel of the clamped box holds the stored depth and
  -- the shade of the triangle, any other pixel of the canvas is as the reset left it.
  have fillTriangleFast_fresh (m : MathFns) (r : Renderer) (hs : Sized r) (v0 v1 v2 : ℤ × ℤ)
      (depths : ℚ × ℚ × ℚ) (rgb : List JSNum) (x y : ℤ) (hx : 0 ≤ x) (hxW : x < r.width)
      (hy : 0 ≤ y) (hyH : y < r.height) :
      pixelAt (fillTriangleFast m (resetBuffers r) v0 v1 v2 depths rgb) (y * r.width + x) =
        if inBox r.width r.height v0 v1 v2 x y ∧ signedArea v0 v1 v2 ≠ 0 ∧ covers v0 v1 v2 x y
        then shaded m rgb (pixelDepth v0 v1 v2 depths x y)
        else (some JSNum.pinf, [some 0, some 0, some 0, some 255]) := by
    have hs' : Sized (resetBuffers r) := (resetBuffers_sameSettings r).sized hs
    have hidx : y * (r.width : ℤ) + x < r.width * r.height := by
      have : (y + 1) * (r.width : ℤ) ≤ r.height * r.width :=
        mul_le_mul_of_nonneg_right (by omega) (by positivity)
      nlinarith
    have hidx0 : 0 ≤ y * (r.width : ℤ) + x := by positivity
    have := fill_settings_facts.2.2.2.2 m (resetBuffers r) v0 v1 v2 depths rgb hs' x y hx hxW
    simp only [show (resetBuffers r).width = r.width from rfl,
      show (resetBuffers r).height = r.height from rfl] at this
    rw [this, pixelAt_resetBuffers r hs _ hidx0 hidx]
    unfold pixelStep
    simp only [lt_pinf, and_true]
    by_cases h1 : inBox r.width r.height v0 v1 v2 x y <;>
      by_cases h2 : signedArea v0 v1 v2 = 0 <;>
      by_cases h3 : covers v0 v1 v2 x y <;> simp [h1, h2, h3]
  -- Two triangles on reset buffers, at a pixel both cover: the second one replaces the first
  -- exactly when its interpolated depth is below the depth stored for the first.
  have fillTriangleFast_twice (m : MathFns) (r : Renderer) (hs : Sized r)
      (a0 a1 a2 b0 b1 b2 : ℤ × ℤ) (da db : ℚ × ℚ × ℚ) (rgbA rgbB : List JSNum) (x y : ℤ)
      (hx : 0 ≤ x) (hxW : x < r.width) (hy : 0 ≤ y) (hyH : y < r.height)
      (hA : inBox r.width r.height a0 a1 a2 x y ∧ signedArea a0 a1 a2 ≠ 0 ∧ covers a0 a1 a2 x y)
      (hB : inBox r.width r.height b0 b1 b2 x y ∧ signedArea b0 b1 b2 ≠ 0 ∧ covers b0 b1 b2 x y) :
      pixelAt (fillTriangleFast m (fillTriangleFast m (resetBuffers r) a0 a1 a2 da rgbA)
          b0 b1 b2 db rgbB) (y * r.width + x) =
        if JSNum.lt (JSNum.fin (pixelDepth b0 b1 b2 db x y))
            (fround (JSNum.fin (pixelDepth a0 a1 a2 da x y))) = true
        then shaded m rgbB (pixelDepth b0 b1 b2 db x y)
        else shaded m rgbA (pixelDepth a0 a1 a2 da x y) := by
    clear pixelAt_resetBuffers
    have hs' : Sized (resetBuffers r) := (resetBuffers_sameSettings r).sized hs
    have hss := fill_settings_facts.2.2.1 m (resetBuffers r) a0 a1 a2 da rgbA
    have hs1 : Sized (fillTriangleFast m (resetBuffers r) a0 a1 a2 da rgbA) := hss.sized hs'
    have hw : (fillTriangleFast m (resetBuffers r) a0 a1 a2 da rgbA).width = r.width := hss.2.2.1
    have hh : (fillTriangleFast m (resetBuffers r) a0 a1 a2 da rgbA).height = r.height :=
      hss.2.2.2.1
    have := fill_settings_facts.2.2.2.2 m _ b0 b1 b2 db rgbB hs1 x y hx (by rw [hw]; exact hxW)
    rw [hw, hh] at this
    rw [this, fillTriangleFast_fresh m r hs a0 a1 a2 da rgbA x y hx hxW hy hyH]
    simp only [hA, hB, ne_eq, not_false_eq_true, and_self, if_true]
    unfold pixelStep
    simp only [shaded, hB.2.2, true_and]
  have allocate_sized (data : Mesh) (camera : Camera) (W H : ℕ) (axis lineMode : Bool)
      (h : W * H ≤ 2 ^ 29) : Sized (allocate data camera W H axis lineMode) := by
    clear resetBuffers_sameSettings pixelAt_resetBuffers fillTriangleFast_fresh fillTriangleFast_twice
    constructor
    · simp [allocate]
    · simp [allocate, mul_assoc]
    · exact h
  have new_sized (data : Mesh) (camera : Camera) (W H : ℕ) (axis lineMode : Bool)
      (h : W * H ≤ 2 ^ 29) : Sized (Renderer.new data camera W H axis lineMode) :=
    (resetBuffers_sameSettings _).sized (allocate_sized data camera W H axis lineMode h)
  have toUint8Clamp_int (n : ℕ) (h : n ≤ 255) : toUint8Clamp (JSNum.fin n) = n := by
    clear resetBuffers_sameSettings pixelAt_resetBuffers fillTriangleFast_fresh fillTriangleFast_twice allocate_sized new_sized
    unfold toUint8Clamp
    by_cases h0 : n = 0
    · subst h0; simp
    · have hpos : ¬ ((n : ℚ) ≤ 0) := by
        push_neg; exact_mod_cast Nat.pos_of_ne_zero h0
      by_cases h255 : n = 255
      · subst h255; norm_num
      · have hlt : ¬ ((255 : ℚ) ≤ n) := by
          push_neg
          have : n < 255 := by omega
          exact_mod_cast this
        simp only [hpos, hlt, if_false]
        rw [roundHalfEven_eq_of_near (n : ℚ) (n : ℤ) (by push_cast; linarith) (by push_cast; linarith)]
        simp
  have sample_green (d : ℚ) (h1 : 9 / 10 ≤ d) (h2 : d ≤ 11 / 10) :
      shaded sampleMath [0, 255, 0] d
        = (some (float32Round d), [some 0, some 250, some 0, some 255]) := by
    clear resetBuffers_sameSettings pixelAt_resetBuffers fillTriangleFast_fresh fillTriangleFast_twice allocate_sized new_sized
    have h50 : (50 : ℚ) ≠ 0 := by norm_num
    have hneg : -d / 50 ≤ 0 := by linarith
    have he : sampleMath.exp (-d / 50) = 50 / (50 + d) := by
      simp only [sampleMath, hneg, if_true]
      field_simp
    have hpos : (0 : ℚ) < 50 + d := by linarith
    have hf0 : ⌊(0 : ℚ) * (50 / (50 + d)) + 1 / 2⌋ = 0 := by
      rw [Int.floor_eq_iff]; constructor <;> norm_num
    have hf255 : ⌊(255 : ℚ) * (50 / (50 + d)) + 1 / 2⌋ = 250 := by
      rw [Int.floor_eq_iff]
      constructor
      · rw [← sub_le_iff_le_add, mul_div_assoc', le_div_iff₀ hpos]
        push_cast; linarith
      · rw [← lt_sub_iff_add_lt, mul_div_assoc', div_lt_iff₀ hpos]
        push_cast; linarith
    have m0 : Min.min (255 : ℚ) (Max.max 0 ((0 : ℤ) : ℚ)) = ((0 : ℕ) : ℚ) := by norm_num
    have m250 : Min.min (255 : ℚ) (Max.max 0 ((250 : ℤ) : ℚ)) = ((250 : ℕ) : ℚ) := by norm_num
    simp only [shaded, fround, adjustColorByDepth, Option.getD_none, nth, List.getD_cons_zero,
      List.getD_cons_succ, neg_fin, ofNat_eq, Nat.cast_ofNat, div_fin _ _ h50, exp_fin, he, mul_fin,
      round_fin, max_fin, min_fin, Nat.cast_zero, hf0, hf255, m0, m250]
    have t0 := toUint8Clamp_int 0 (by norm_num)
    have t250 := toUint8Clamp_int 250 (by norm_num)
    simp only [Nat.cast_zero, Nat.cast_ofNat] at t0 t250
    rw [t0, t250]
  exact ⟨@resetBuffers_sameSettings, @pixelAt_resetBuffers, @fillTriangleFast_fresh,
    @fillTriangleFast_twice, @allocate_sized, @new_sized, @toUint8Clamp_int, @sample_green⟩

/-- C2, the failing input.  On a 5 by 5 canvas two triangles with the vertices (0,0), (4,0),
(0,4) and the same depth `1 + 2^-23 - 2^-30` at every vertex are drawn, a red one first and a
green one second.  At the pixel (1,1) both have exactly that interpolated depth, and the pixel
ends with the colour of the second, green, triangle: the depth was stored as the 32-bit float
`1 + 2^-23`, which is above it, so the strict test passes again. -/
theorem tie_break_second_drawn_wins :
    pixelAt (fillTriangleFast sampleMath
      (fillTriangleFast sampleMath canvas5 (0, 0) (4, 0) (0, 4)
        (1 + 1 / 2 ^ 23 - 1 / 2 ^ 30, 1 + 1 / 2 ^ 23 - 1 / 2 ^ 30, 1 + 1 / 2 ^ 23 - 1 / 2 ^ 30)
        [255, 0, 0])
      (0, 0) (4, 0) (0, 4)
      (1 + 1 / 2 ^ 23 - 1 / 2 ^ 30, 1 + 1 / 2 ^ 23 - 1 / 2 ^ 30, 1 + 1 / 2 ^ 23 - 1 / 2 ^ 30)
      [0, 255, 0]) 6
    = (some (JSNum.fin (1 + 1 / 2 ^ 23)), [some 0, some 250, some 0, some 255]) := by
  have hs := fresh_buffer_facts.2.2.2.2.1 { v := [], f := [] } sampleCamera 5 5 false false (by norm_num)
  have hT : inBox 5 5 (0, 0) (4, 0) (0, 4) 1 1 ∧ signedArea (0, 0) (4, 0) (0, 4) ≠ 0 ∧
      covers (0, 0) (4, 0) (0, 4) 1 1 := by decide
  have hd : ∀ d : ℚ, pixelDepth (0, 0) (4, 0) (0, 4) (d, d, d) 1 1 = d := by
    intro d
    simp only [pixelDepth, signedArea]
    norm_num
    ring
  have key := fresh_buffer_facts.2.2.2.1 sampleMath _ hs (0, 0) (4, 0) (0, 4) (0, 0) (4, 0) (0, 4)
    (1 + 1 / 2 ^ 23 - 1 / 2 ^ 30, 1 + 1 / 2 ^ 23 - 1 / 2 ^ 30, 1 + 1 / 2 ^ 23 - 1 / 2 ^ 30)
    (1 + 1 / 2 ^ 23 - 1 / 2 ^ 30, 1 + 1 / 2 ^ 23 - 1 / 2 ^ 30, 1 + 1 / 2 ^ 23 - 1 / 2 ^ 30)
    [255, 0, 0] [0, 255, 0] 1 1 (by norm_num) (by simp [allocate]) (by norm_num)
    (by simp [allocate]) hT hT
  have hround : float32Round (1 + 1 / 2 ^ 23 - 1 / 2 ^ 30) = JSNum.fin (1 + 1 / 2 ^ 23) := by
    rw [float32Round_of_binade _ 0 (by norm_num) (by norm_num) (by norm_num) (by norm_num)]
    rw [roundHalfEven_eq_of_near _ (2 ^ 23 + 1) (by norm_num) (by norm_num)]
    norm_num
  rw [hd] at key
  simp only [fround, hround, lt_fin] at key
  have h6 : (1 : ℤ) * ((allocate { v := [], f := [] } sampleCamera 5 5 false false).width : ℤ)
      + 1 = 6 := by simp [allocate]
  rw [h6] at key
  have hlt : ((1 : ℚ) + 1 / 2 ^ 23 - 1 / 2 ^ 30 < 1 + 1 / 2 ^ 23) := by norm_num
  simp only [hlt, decide_True, if_true] at key
  have hshade := fresh_buffer_facts.2.2.2.2.2.2.2 (1 + 1 / 2 ^ 23 - 1 / 2 ^ 30) (by norm_num) (by norm_num)
  rw [hround] at hshade
  rw [← hshade]
  exact key

/-- Lemmas on rounding to the nearest integer and to the nearest 32-bit float, proved in turn:
`roundHalfEven_near`, `roundHalfEven_le_of_lt`, `roundHalfEven_ge_of_gt`, `roundHalfEven_mono`,
`roundHalfEven_intCast`, `two_zpow_succ`, `two_zpow_self`, `spacing_pos`. -/
theorem float32_facts_1 :
    (∀ (x : ℚ),
      (roundHalfEven x : ℚ) - 1 / 2 ≤ x ∧ x ≤ roundHalfEven x + 1 / 2) ∧
    (∀ (x : ℚ) (n : ℤ) (_ : x < n + 1 / 2),
      roundHalfEven x ≤ n) ∧
    (∀ (x : ℚ) (n : ℤ) (_ : (n : ℚ) - 1 / 2 < x),
      n ≤ roundHalfEven x) ∧
    (∀ {x y : ℚ} (_ : x ≤ y),
      roundHalfEven x ≤ roundHalfEven y) ∧
    (∀ (n : ℤ),
      roundHalfEven (n : ℚ) = n) ∧
    (∀ (e : ℤ),
      (2 : ℚ) ^ (e + 1) = 16777216 * 2 ^ (e - 23)) ∧
    (∀ (e : ℤ),
      (2 : ℚ) ^ e = 8388608 * 2 ^ (e - 23)) ∧
    (∀ (e : ℤ),
      (0 : ℚ) < 2 ^ (e - 23)) := by
  have roundHalfEven_near (x : ℚ) :
      (roundHalfEven x : ℚ) - 1 / 2 ≤ x ∧ x ≤ roundHalfEven x + 1 / 2 := by
    unfold roundHalfEven
    have h1 := Int.floor_le x
    have h2 := Int.lt_floor_add_one x
    simp only
    split_ifs with a b c
    · constructor <;> linarith
    · push_cast; constructor <;> linarith
    · constructor <;> linarith
    · push_cast; constructor <;> linarith
  have roundHalfEven_le_of_lt (x : ℚ) (n : ℤ) (h : x < n + 1 / 2) : roundHalfEven x ≤ n := by
    by_contra hc
    push_neg at hc
    have h1 : (n : ℚ) + 1 ≤ roundHalfEven x := by exact_mod_cast hc
    have := (roundHalfEven_near x).1
    linarith
  have roundHalfEven_ge_of_gt (x : ℚ) (n : ℤ) (h : (n : ℚ) - 1 / 2 < x) :
      n ≤ roundHalfEven x := by
    clear roundHalfEven_le_of_lt
    by_contra hc
    push_neg at hc
    have h1 : (roundHalfEven x : ℚ) + 1 ≤ n := by exact_mod_cast hc
    have := (roundHalfEven_near x).2
    linarith
  have roundHalfEven_mono {x y : ℚ} (h : x ≤ y) : roundHalfEven x ≤ roundHalfEven y := by
    clear roundHalfEven_le_of_lt roundHalfEven_ge_of_gt
    by_contra hc
    push_neg at hc
    have h1 : (roundHalfEven y : ℚ) + 1 ≤ roundHalfEven x := by exact_mod_cast hc
    have h2 := (roundHalfEven_near x).1
    have h3 := (roundHalfEven_near y).2
    have hxy : x = y := le_antisymm h (by linarith)
    rw [hxy] at hc
    exact lt_irrefl _ hc
  have roundHalfEven_intCast (n : ℤ) : roundHalfEven (n : ℚ) = n :=
    roundHalfEven_eq_of_near _ n (by linarith) (by linarith)
  have two_zpow_succ (e : ℤ) : (2 : ℚ) ^ (e + 1) = 16777216 * 2 ^ (e - 23) := by
    clear roundHalfEven_near roundHalfEven_le_of_lt roundHalfEven_ge_of_gt roundHalfEven_mono roundHalfEven_intCast
    have : (2 : ℚ) ^ (e + 1) = 2 ^ (24 : ℤ) * 2 ^ (e - 23) := by
      rw [← zpow_add₀ (two_ne_zero)]; congr 1; ring
    rw [this]; norm_num
  have two_zpow_self (e : ℤ) : (2 : ℚ) ^ e = 8388608 * 2 ^ (e - 23) := by
    clear roundHalfEven_near roundHalfEven_le_of_lt roundHalfEven_ge_of_gt roundHalfEven_mono roundHalfEven_intCast two_zpow_succ
    have : (2 : ℚ) ^ e = 2 ^ (23 : ℤ) * 2 ^ (e - 23) := by
      rw [← zpow_add₀ (two_ne_zero)]; congr 1; ring
    rw [this]; norm_num
  have spacing_pos (e : ℤ) : (0 : ℚ) < 2 ^ (e - 23) := zpow_pos (by norm_num) _
  exact ⟨@roundHalfEven_near, @roundHalfEven_le_of_lt, @roundHalfEven_ge_of_gt,
    @roundHalfEven_mono, @roundHalfEven_intCast, @two_zpow_succ, @two_zpow_self, @spacing_pos⟩

/-- Lemmas on rounding to the nearest integer and to the nearest 32-bit float, proved in turn:
`f32Exp_ge`, `f32Exp_mono`, `lt_two_zpow_f32Exp`, `f32Mag_le`, `f32Mag_ge`, `f32Mag_nonneg`,
`two_zpow_f32Exp_le`, `f32Mag_mono`. -/
theorem float32_facts_2 :
    (∀ (a : ℚ),
      -126 ≤ f32Exp a) ∧
    (∀ {a b : ℚ} (_ : 0 < a) (_ : a ≤ b),
      f32Exp a ≤ f32Exp b) ∧
    (∀ (a : ℚ),
      a < 2 ^ (f32Exp a + 1)) ∧
    (∀ (a : ℚ),
      f32Mag a ≤ 2 ^ (f32Exp a + 1)) ∧
    (∀ (a : ℚ) (_ : 2 ^ (f32Exp a) ≤ a),
      2 ^ (f32Exp a) ≤ f32Mag a) ∧
    (∀ {a : ℚ} (_ : 0 ≤ a),
      0 ≤ f32Mag a) ∧
    (∀ {a : ℚ} (_ : 0 < a) (_ : -126 < f32Exp a),
      2 ^ (f32Exp a) ≤ a) ∧
    (∀ {a b : ℚ} (_ : 0 < a) (_ : a ≤ b),
      f32Mag a ≤ f32Mag b) := by
  have f32Exp_ge (a : ℚ) : -126 ≤ f32Exp a := le_max_right _ _
  have f32Exp_mono {a b : ℚ} (ha : 0 < a) (h : a ≤ b) : f32Exp a ≤ f32Exp b :=
    max_le_max (Int.log_mono_right ha h) le_rfl
  have lt_two_zpow_f32Exp (a : ℚ) : a < 2 ^ (f32Exp a + 1) := by
    clear f32Exp_ge f32Exp_mono
    have h1 : a < (2 : ℚ) ^ (Int.log 2 a + 1) := by
      simpa using Int.lt_zpow_succ_log_self (b := 2) (by norm_num) a
    have h2 : (2 : ℚ) ^ (Int.log 2 a + 1) ≤ 2 ^ (f32Exp a + 1) :=
      zpow_le_zpow_right₀ (by norm_num) (by unfold f32Exp; omega)
    linarith
  have f32Mag_le (a : ℚ) : f32Mag a ≤ 2 ^ (f32Exp a + 1) := by
    clear f32Exp_ge f32Exp_mono
    unfold f32Mag
    have hu := float32_facts_1.2.2.2.2.2.2.2 (f32Exp a)
    rw [float32_facts_1.2.2.2.2.2.1]
    apply mul_le_mul_of_nonneg_right _ hu.le
    have : a / 2 ^ (f32Exp a - 23) < ((16777216 : ℤ) : ℚ) + 1 / 2 := by
      rw [div_lt_iff₀ hu]
      have := lt_two_zpow_f32Exp a
      rw [float32_facts_1.2.2.2.2.2.1] at this
      push_cast
      nlinarith
    exact_mod_cast float32_facts_1.2.1 _ _ this
  have f32Mag_ge (a : ℚ) (h : 2 ^ (f32Exp a) ≤ a) : 2 ^ (f32Exp a) ≤ f32Mag a := by
    clear f32Exp_ge f32Exp_mono lt_two_zpow_f32Exp f32Mag_le
    unfold f32Mag
    have hu := float32_facts_1.2.2.2.2.2.2.2 (f32Exp a)
    rw [float32_facts_1.2.2.2.2.2.2.1] at h ⊢
    apply mul_le_mul_of_nonneg_right _ hu.le
    have : ((8388608 : ℤ) : ℚ) - 1 / 2 < a / 2 ^ (f32Exp a - 23) := by
      rw [lt_div_iff₀ hu]
      push_cast
      nlinarith
    exact_mod_cast float32_facts_1.2.2.1 _ _ this
  have f32Mag_nonneg {a : ℚ} (ha : 0 ≤ a) : 0 ≤ f32Mag a := by
    clear f32Exp_ge f32Exp_mono lt_two_zpow_f32Exp f32Mag_le f32Mag_ge
    unfold f32Mag
    have hu := float32_facts_1.2.2.2.2.2.2.2 (f32Exp a)
    apply mul_nonneg _ hu.le
    have : ((0 : ℤ) : ℚ) - 1 / 2 < a / 2 ^ (f32Exp a - 23) := by
      have : 0 ≤ a / 2 ^ (f32Exp a - 23) := div_nonneg ha hu.le
      push_cast; linarith
    exact_mod_cast float32_facts_1.2.2.1 _ _ this
  have two_zpow_f32Exp_le {a : ℚ} (ha : 0 < a) (h : -126 < f32Exp a) : 2 ^ (f32Exp a) ≤ a := by
    clear f32Exp_ge f32Exp_mono lt_two_zpow_f32Exp f32Mag_le f32Mag_ge f32Mag_nonneg
    have he : f32Exp a = Int.log 2 a := by
      unfold f32Exp at h ⊢
      omega
    rw [he]
    simpa using Int.zpow_log_le_self (b := 2) (by norm_num) ha
  have f32Mag_mono {a b : ℚ} (ha : 0 < a) (h : a ≤ b) : f32Mag a ≤ f32Mag b := by
    clear lt_two_zpow_f32Exp f32Mag_nonneg
    rcases (f32Exp_mono ha h).lt_or_eq with hlt | heq
    · have hb : 0 < b := lt_of_lt_of_le ha h
      have h1 := f32Mag_le a
      have h2 := f32Mag_ge b (two_zpow_f32Exp_le hb (by have := f32Exp_ge a; omega))
      have h3 : (2 : ℚ) ^ (f32Exp a + 1) ≤ 2 ^ (f32Exp b) :=
        zpow_le_zpow_right₀ (by norm_num) (by omega)
      linarith
    · unfold f32Mag
      rw [heq]
      have hu := float32_facts_1.2.2.2.2.2.2.2 (f32Exp b)
      apply mul_le_mul_of_nonneg_right _ hu.le
      exact_mod_cast float32_facts_1.2.2.2.1 (div_le_div_of_nonneg_right h hu.le)
  exact ⟨@f32Exp_ge, @f32Exp_mono, @lt_two_zpow_f32Exp, @f32Mag_le, @f32Mag_ge, @f32Mag_nonneg,
    @two_zpow_f32Exp_le, @f32Mag_mono⟩

/-- Lemmas on rounding to the nearest integer and to the nearest 32-bit float, proved in turn:
`mantissa_le`, `mantissa_ge`, `f32Mag_of_exp`, `f32Mag_idem`, `float32Round_eq`, `f32Val_mono`,
`f32Val_idem`, `float32Round_finite_of_pos`. -/
theorem float32_facts_3 :
    (∀ (a : ℚ),
      roundHalfEven (a / 2 ^ (f32Exp a - 23)) ≤ 16777216) ∧
    (∀ (a : ℚ) (_ : 2 ^ (f32Exp a) ≤ a),
      8388608 ≤ roundHalfEven (a / 2 ^ (f32Exp a - 23))) ∧
    (∀ (r : ℚ) (e n : ℤ) (_ : f32Exp r = e) (_ : r = n * 2 ^ (e - 23)),
      f32Mag r = r) ∧
    (∀ (a : ℚ) (_ : 0 < a) (_ : 0 < f32Mag a),
      f32Mag (f32Mag a) = f32Mag a) ∧
    (∀ (q : ℚ),
      float32Round q =
      if 2 ^ 128 ≤ f32Val q then JSNum.pinf
      else if f32Val q ≤ -2 ^ 128 then JSNum.ninf
      else JSNum.fin (f32Val q)) ∧
    (∀ {p q : ℚ} (_ : p ≤ q),
      f32Val p ≤ f32Val q) ∧
    (∀ (q : ℚ),
      f32Val (f32Val q) = f32Val q) ∧
    (∀ (q : ℚ) (_ : 0 < q) (_ : q < 2 ^ 128 - 2 ^ 103),
      float32Round q = JSNum.fin (f32Mag q)) := by
  have mantissa_le (a : ℚ) : roundHalfEven (a / 2 ^ (f32Exp a - 23)) ≤ 16777216 := by
    have hu := float32_facts_1.2.2.2.2.2.2.2 (f32Exp a)
    have : a / 2 ^ (f32Exp a - 23) < ((16777216 : ℤ) : ℚ) + 1 / 2 := by
      rw [div_lt_iff₀ hu]
      have := float32_facts_2.2.2.1 a
      rw [float32_facts_1.2.2.2.2.2.1] at this
      push_cast
      nlinarith
    exact float32_facts_1.2.1 _ _ this
  have mantissa_ge (a : ℚ) (h : 2 ^ (f32Exp a) ≤ a) :
      8388608 ≤ roundHalfEven (a / 2 ^ (f32Exp a - 23)) := by
    clear mantissa_le
    have hu := float32_facts_1.2.2.2.2.2.2.2 (f32Exp a)
    rw [float32_facts_1.2.2.2.2.2.2.1] at h
    have : ((8388608 : ℤ) : ℚ) - 1 / 2 < a / 2 ^ (f32Exp a - 23) := by
      rw [lt_div_iff₀ hu]
      push_cast
      nlinarith
    exact float32_facts_1.2.2.1 _ _ this
  have f32Mag_of_exp (r : ℚ) (e n : ℤ) (he : f32Exp r = e) (hr : r = n * 2 ^ (e - 23)) :
      f32Mag r = r := by
    clear mantissa_le mantissa_ge
    unfold f32Mag
    rw [he]
    have hu := float32_facts_1.2.2.2.2.2.2.2 e
    have : r / 2 ^ (e - 23) = n := by
      rw [hr]; field_simp
    rw [this, float32_facts_1.2.2.2.2.1, hr]
  have f32Mag_idem (a : ℚ) (ha : 0 < a) (hm : 0 < f32Mag a) : f32Mag (f32Mag a) = f32Mag a := by
    have hu := float32_facts_1.2.2.2.2.2.2.2 (f32Exp a)
    have hn1 := mantissa_le a
    have hr : f32Mag a = roundHalfEven (a / 2 ^ (f32Exp a - 23)) * 2 ^ (f32Exp a - 23) := rfl
    have hge := float32_facts_2.1 a
    rcases hn1.lt_or_eq with hlt | heq
    · by_cases h23 : 8388608 ≤ roundHalfEven (a / 2 ^ (f32Exp a - 23))
      · have hexp : f32Exp (f32Mag a) = f32Exp a := by
          have hlog : Int.log 2 (f32Mag a) = f32Exp a := by
            apply log2_eq _ _ hm
            · rw [float32_facts_1.2.2.2.2.2.2.1, hr]
              apply mul_le_mul_of_nonneg_right _ hu.le
              exact_mod_cast h23
            · rw [float32_facts_1.2.2.2.2.2.1, hr]
              apply mul_lt_mul_of_pos_right _ hu
              exact_mod_cast hlt
          show max (Int.log 2 (f32Mag a)) (-126) = f32Exp a
          rw [hlog]
          exact max_eq_left hge
        exact f32Mag_of_exp _ _ _ hexp hr
      · push_neg at h23
        have he : f32Exp a = -126 := by
          by_contra hne
          have := mantissa_ge a (float32_facts_2.2.2.2.2.2.2.1 ha (by omega))
          omega
        have hexp : f32Exp (f32Mag a) = f32Exp a := by
          have hlt1 : f32Mag a < (2 : ℚ) ^ (f32Exp a) := by
            rw [float32_facts_1.2.2.2.2.2.2.1, hr]
            apply mul_lt_mul_of_pos_right _ hu
            exact_mod_cast h23
          have hlt2 : f32Mag a < (2 : ℚ) ^ (-126 : ℤ) := by
            rw [he] at hlt1; exact hlt1
          have hlog : Int.log 2 (f32Mag a) < -126 :=
            (Int.lt_zpow_iff_log_lt (b := 2) (by norm_num) hm).mp (by simpa using hlt2)
          rw [he]
          show max (Int.log 2 (f32Mag a)) (-126) = -126
          exact max_eq_right hlog.le
        exact f32Mag_of_exp _ _ _ hexp hr
    · have hval : f32Mag a = 2 ^ (f32Exp a + 1) := by
        rw [float32_facts_1.2.2.2.2.2.1, hr, heq]; norm_num
      have hexp : f32Exp (f32Mag a) = f32Exp a + 1 := by
        have hlog : Int.log 2 (f32Mag a) = f32Exp a + 1 := by
          apply log2_eq _ _ hm
          · rw [hval]
          · rw [hval]
            exact zpow_lt_zpow_right₀ (by norm_num) (by omega)
        show max (Int.log 2 (f32Mag a)) (-126) = f32Exp a + 1
        rw [hlog]
        apply max_eq_left
        omega
      apply f32Mag_of_exp _ _ 8388608 hexp
      rw [hval, float32_facts_1.2.2.2.2.2.2.1]
      norm_num
  have float32Round_eq (q : ℚ) :
      float32Round q =
        if 2 ^ 128 ≤ f32Val q then JSNum.pinf
        else if f32Val q ≤ -2 ^ 128 then JSNum.ninf
        else JSNum.fin (f32Val q) := by
    clear mantissa_le mantissa_ge f32Mag_of_exp f32Mag_idem
    unfold float32Round f32Val
    by_cases h0 : q = 0
    · subst h0; norm_num
    · rcases lt_or_gt_of_ne h0 with hneg | hpos
      · have hm := float32_facts_2.2.2.2.2.2.1 (show (0 : ℚ) ≤ -q by linarith)
        have hnp : ¬ (0 < q) := by linarith
        simp only [h0, hnp, if_false, abs_of_neg hneg]
        change (if 2 ^ 128 ≤ f32Mag (-q) then JSNum.ninf else JSNum.fin (-f32Mag (-q))) = _
        have h1 : ¬ ((2 : ℚ) ^ 128 ≤ -f32Mag (-q)) := by
          have : (0 : ℚ) < 2 ^ 128 := by norm_num
          linarith
        simp only [h1, if_false, neg_le_neg_iff]
      · have hm := float32_facts_2.2.2.2.2.2.1 hpos.le
        simp only [h0, hpos, if_false, if_true, abs_of_pos hpos]
        change (if 2 ^ 128 ≤ f32Mag q then JSNum.pinf else JSNum.fin (f32Mag q)) = _
        have h1 : ¬ (f32Mag q ≤ -2 ^ 128) := by
          have : (0 : ℚ) < 2 ^ 128 := by norm_num
          linarith
        simp only [h1, if_false]
  have f32Val_mono {p q : ℚ} (h : p ≤ q) : f32Val p ≤ f32Val q := by
    clear mantissa_le mantissa_ge f32Mag_of_exp f32Mag_idem float32Round_eq
    unfold f32Val
    by_cases hp0 : p = 0
    · subst hp0
      rcases h.lt_or_eq with hq | hq
      · simp only [if_true, hq.ne', hq, if_false]
        exact float32_facts_2.2.2.2.2.2.1 hq.le
      · subst hq; simp
    · by_cases hq0 : q = 0
      · subst hq0
        have hp : p < 0 := lt_of_le_of_ne h hp0
        have hnp : ¬ (0 < p) := by linarith
        simp only [hp0, hnp, if_false, if_true]
        have := float32_facts_2.2.2.2.2.2.1 (show (0 : ℚ) ≤ -p by linarith)
        linarith
      · rcases lt_or_gt_of_ne hp0 with hp | hp
        · have hnp : ¬ (0 < p) := by linarith
          rcases lt_or_gt_of_ne hq0 with hq | hq
          · have hnq : ¬ (0 < q) := by linarith
            simp only [hp0, hq0, hnp, hnq, if_false]
            have := float32_facts_2.2.2.2.2.2.2.2 (show (0 : ℚ) < -q by linarith) (show -q ≤ -p by linarith)
            linarith
          · simp only [hp0, hq0, hnp, hq, if_false, if_true]
            have h1 := float32_facts_2.2.2.2.2.2.1 (show (0 : ℚ) ≤ -p by linarith)
            have h2 := float32_facts_2.2.2.2.2.2.1 hq.le
            linarith
        · have hq : 0 < q := lt_of_lt_of_le hp h
          simp only [hp0, hq0, hp, hq, if_false, if_true]
          exact float32_facts_2.2.2.2.2.2.2.2 hp h
  have f32Val_idem (q : ℚ) : f32Val (f32Val q) = f32Val q := by
    clear mantissa_le mantissa_ge f32Mag_of_exp float32Round_eq f32Val_mono
    by_cases h0 : q = 0
    · subst h0; simp [f32Val]
    · rcases lt_or_gt_of_ne h0 with hneg | hpos
      · have hnp : ¬ (0 < q) := by linarith
        have hv : f32Val q = -f32Mag (-q) := by simp [f32Val, h0, hnp]
        have hm := float32_facts_2.2.2.2.2.2.1 (show (0 : ℚ) ≤ -q by linarith)
        rcases hm.lt_or_eq with hlt | heq
        · rw [hv]
          have hne : -f32Mag (-q) ≠ 0 := by linarith
          have hnp' : ¬ (0 < -f32Mag (-q)) := by linarith
          simp only [f32Val, hne, hnp', if_false, neg_neg]
          rw [f32Mag_idem (-q) (by linarith) hlt]
        · rw [hv, ← heq]; simp [f32Val]
      · have hv : f32Val q = f32Mag q := by simp [f32Val, h0, hpos]
        have hm := float32_facts_2.2.2.2.2.2.1 hpos.le
        rcases hm.lt_or_eq with hlt | heq
        · rw [hv]
          simp only [f32Val, hlt.ne', hlt, if_false, if_true]
          exact f32Mag_idem q hpos hlt
        · rw [hv, ← heq]; simp [f32Val]
  have float32Round_finite_of_pos (q : ℚ) (h0 : 0 < q) (h1 : q < 2 ^ 128 - 2 ^ 103) :
      float32Round q = JSNum.fin (f32Mag q) := by
    clear mantissa_le mantissa_ge f32Mag_of_exp f32Mag_idem f32Val_mono f32Val_idem
    have hm : f32Mag q < 2 ^ 128 := by
      by_cases he : f32Exp q ≤ 126
      · have h2 := float32_facts_2.2.2.2.1 q
        have h3 : (2 : ℚ) ^ (f32Exp q + 1) ≤ 2 ^ (127 : ℤ) :=
          zpow_le_zpow_right₀ (by norm_num) (by omega)
        have h4 : (2 : ℚ) ^ (127 : ℤ) < 2 ^ 128 := by norm_num
        linarith
      · push_neg at he
        have hlog : Int.log 2 q < 128 :=
          (Int.lt_zpow_iff_log_lt (b := 2) (by norm_num) h0).mp (by norm_num; linarith)
        have he' : f32Exp q = 127 := by
          have : f32Exp q = max (Int.log 2 q) (-126) := rfl
          omega
        have hmant : roundHalfEven (q / 2 ^ (f32Exp q - 23)) ≤ 16777215 := by
          apply float32_facts_1.2.1
          rw [he', div_lt_iff₀ (by positivity)]
          norm_num
          norm_num at h1
          linarith
        have hr : f32Mag q = roundHalfEven (q / 2 ^ (f32Exp q - 23)) * 2 ^ (f32Exp q - 23) := rfl
        have hle : f32Mag q ≤ 16777215 * 2 ^ (f32Exp q - 23) := by
          rw [hr]
          apply mul_le_mul_of_nonneg_right _ (float32_facts_1.2.2.2.2.2.2.2 _).le
          exact_mod_cast hmant
        rw [he'] at hle
        norm_num at hle ⊢
        linarith
    rw [float32Round_eq]
    have hv : f32Val q = f32Mag q := by simp [f32Val, h0.ne', h0]
    have hnn := float32_facts_2.2.2.2.2.2.1 h0.le
    rw [hv]
    have h2 : ¬ ((2 : ℚ) ^ 128 ≤ f32Mag q) := not_le.mpr hm
    have h3 : ¬ (f32Mag q ≤ -2 ^ 128) := by
      have : (0 : ℚ) < 2 ^ 128 := by norm_num
      linarith
    simp only [h2, h3, if_false]
  exact ⟨@mantissa_le, @mantissa_ge, @f32Mag_of_exp, @f32Mag_idem, @float32Round_eq,
    @f32Val_mono, @f32Val_idem, @float32Round_finite_of_pos⟩

/-- Lemmas on rounding to the nearest integer and to the nearest 32-bit float, proved in turn:
`inTriangle_facts`, `inTriangle_inBox`, `convex_bounds`, `sample_triangle`,
`float32Round_near_one`, `fillTriangle_sameSettings`, `renderFace_sameSettings`. -/
theorem float32_facts_4 :
    (∀ (v0 v1 v2 : ℤ × ℤ) (depths : ℚ × ℚ × ℚ) (x y : ℤ) (a b c : ℚ) (_ : 0 ≤ a) (_ : 0 ≤ b) (_ : 0 ≤ c) (_ : a + b + c = 1) (_ : (x : ℚ) = a * v0.1 + b * v1.1 + c * v2.1) (_ : (y : ℚ) = a * v0.2 + b * v1.2 + c * v2.2) (_ : signedArea v0 v1 v2 ≠ 0),
      covers v0 v1 v2 x y ∧
      pixelDepth v0 v1 v2 depths x y = a * depths.1 + b * depths.2.1 + c * depths.2.2) ∧
    (∀ (W H : ℕ) (v0 v1 v2 : ℤ × ℤ) (x y : ℤ) (a b c : ℚ) (_ : 0 ≤ a) (_ : 0 ≤ b) (_ : 0 ≤ c) (_ : a + b + c = 1) (_ : (x : ℚ) = a * v0.1 + b * v1.1 + c * v2.1) (_ : (y : ℚ) = a * v0.2 + b * v1.2 + c * v2.2) (_ : 0 ≤ v0.1 ∧ v0.1 < W ∧ 0 ≤ v0.2 ∧ v0.2 < H) (_ : 0 ≤ v1.1 ∧ v1.1 < W ∧ 0 ≤ v1.2 ∧ v1.2 < H) (_ : 0 ≤ v2.1 ∧ v2.1 < W ∧ 0 ≤ v2.2 ∧ v2.2 < H),
      inBox W H v0 v1 v2 x y ∧ 0 ≤ x ∧ x < W ∧ 0 ≤ y ∧ y < H) ∧
    (∀ (a b c d0 d1 d2 lo hi : ℚ) (_ : 0 ≤ a) (_ : 0 ≤ b) (_ : 0 ≤ c) (_ : a + b + c = 1) (_ : lo < d0) (_ : lo < d1) (_ : lo < d2) (_ : d0 < hi) (_ : d1 < hi) (_ : d2 < hi),
      lo < a * d0 + b * d1 + c * d2 ∧ a * d0 + b * d1 + c * d2 < hi) ∧
    (inBox 5 5 (0, 0) (4, 0) (0, 4) 1 1 ∧ signedArea (0, 0) (4, 0) (0, 4) ≠ 0 ∧
      covers (0, 0) (4, 0) (0, 4) 1 1) ∧
    (∀ (d : ℚ) (_ : 1 + 1 / 2 ^ 24 < d) (_ : d < 1 + 3 / 2 ^ 24),
      float32Round d = JSNum.fin (1 + 1 / 2 ^ 23)) ∧
    (∀ (m : MathFns) (r : Renderer) (s0 s1 s2 : JSNum × JSNum) (depths : JSNum × JSNum × JSNum) (rgb : List JSNum),
      SameSettings r (fillTriangle m r s0 s1 s2 depths rgb)) ∧
    (∀ (m : MathFns) (X Y Z : List JSNum) (r r1 : Renderer) (face : Face) (_ : renderFace m X Y Z r face = .ok r1),
      SameSettings r r1) := by
  have inTriangle_facts (v0 v1 v2 : ℤ × ℤ) (depths : ℚ × ℚ × ℚ) (x y : ℤ) (a b c : ℚ)
      (ha : 0 ≤ a) (hb : 0 ≤ b) (hc : 0 ≤ c) (hsum : a + b + c = 1)
      (hx : (x : ℚ) = a * v0.1 + b * v1.1 + c * v2.1)
      (hy : (y : ℚ) = a * v0.2 + b * v1.2 + c * v2.2) (harea : signedArea v0 v1 v2 ≠ 0) :
      covers v0 v1 v2 x y ∧
        pixelDepth v0 v1 v2 depths x y = a * depths.1 + b * depths.2.1 + c * depths.2.2 := by
    have hA : ((signedArea v0 v1 v2 : ℤ) : ℚ) ≠ 0 := by exact_mod_cast harea
    have ha' : a = 1 - b - c := by linarith
    have e0 : (((v1.1 - x) * (v2.2 - y) - (v2.1 - x) * (v1.2 - y) : ℤ) : ℚ)
        = a * signedArea v0 v1 v2 := by
      unfold signedArea; push_cast; rw [hx, hy, ha']; ring
    have e1 : (((v2.1 - x) * (v0.2 - y) - (v0.1 - x) * (v2.2 - y) : ℤ) : ℚ)
        = b * signedArea v0 v1 v2 := by
      unfold signedArea; push_cast; rw [hx, hy, ha']; ring
    have e2 : (((v0.1 - x) * (v1.2 - y) - (v1.1 - x) * (v0.2 - y) : ℤ) : ℚ)
        = c * signedArea v0 v1 v2 := by
      unfold signedArea; push_cast; rw [hx, hy, ha']; ring
    constructor
    · unfold covers
      simp only
      rcases lt_or_gt_of_ne harea with hneg | hpos
      · right
        have hq : ((signedArea v0 v1 v2 : ℤ) : ℚ) < 0 := by exact_mod_cast hneg
        refine ⟨?_, ?_, ?_⟩
        · have : (((v1.1 - x) * (v2.2 - y) - (v2.1 - x) * (v1.2 - y) : ℤ) : ℚ) ≤ 0 := by
            rw [e0]; exact mul_nonpos_of_nonneg_of_nonpos ha hq.le
          exact_mod_cast this
        · have : (((v2.1 - x) * (v0.2 - y) - (v0.1 - x) * (v2.2 - y) : ℤ) : ℚ) ≤ 0 := by
            rw [e1]; exact mul_nonpos_of_nonneg_of_nonpos hb hq.le
          exact_mod_cast this
        · have : (((v0.1 - x) * (v1.2 - y) - (v1.1 - x) * (v0.2 - y) : ℤ) : ℚ) ≤ 0 := by
            rw [e2]; exact mul_nonpos_of_nonneg_of_nonpos hc hq.le
          exact_mod_cast this
      · left
        have hq : (0 : ℚ) < ((signedArea v0 v1 v2 : ℤ) : ℚ) := by exact_mod_cast hpos
        refine ⟨?_, ?_, ?_⟩
        · have : (0 : ℚ) ≤ (((v1.1 - x) * (v2.2 - y) - (v2.1 - x) * (v1.2 - y) : ℤ) : ℚ) := by
            rw [e0]; exact mul_nonneg ha hq.le
          exact_mod_cast this
        · have : (0 : ℚ) ≤ (((v2.1 - x) * (v0.2 - y) - (v0.1 - x) * (v2.2 - y) : ℤ) : ℚ) := by
            rw [e1]; exact mul_nonneg hb hq.le
          exact_mod_cast this
        · have : (0 : ℚ) ≤ (((v0.1 - x) * (v1.2 - y) - (v1.1 - x) * (v0.2 - y) : ℤ) : ℚ) := by
            rw [e2]; exact mul_nonneg hc hq.le
          exact_mod_cast this
    · unfold pixelDepth
      simp only
      rw [e0, e1, e2]
      field_simp
  have inTriangle_inBox (W H : ℕ) (v0 v1 v2 : ℤ × ℤ) (x y : ℤ) (a b c : ℚ)
      (ha : 0 ≤ a) (hb : 0 ≤ b) (hc : 0 ≤ c) (hsum : a + b + c = 1)
      (hx : (x : ℚ) = a * v0.1 + b * v1.1 + c * v2.1)
      (hy : (y : ℚ) = a * v0.2 + b * v1.2 + c * v2.2)
      (h0 : 0 ≤ v0.1 ∧ v0.1 < W ∧ 0 ≤ v0.2 ∧ v0.2 < H)
      (h1 : 0 ≤ v1.1 ∧ v1.1 < W ∧ 0 ≤ v1.2 ∧ v1.2 < H)
      (h2 : 0 ≤ v2.1 ∧ v2.1 < W ∧ 0 ≤ v2.2 ∧ v2.2 < H) :
      inBox W H v0 v1 v2 x y ∧ 0 ≤ x ∧ x < W ∧ 0 ≤ y ∧ y < H := by
    clear inTriangle_facts
    have key : ∀ (p0 p1 p2 z lo hi : ℤ), (z : ℚ) = a * p0 + b * p1 + c * p2 →
        lo ≤ p0 → lo ≤ p1 → lo ≤ p2 → p0 ≤ hi → p1 ≤ hi → p2 ≤ hi → lo ≤ z ∧ z ≤ hi := by
      intro p0 p1 p2 z lo hi hz l0 l1 l2 u0 u1 u2
      have l0' : (lo : ℚ) ≤ p0 := by exact_mod_cast l0
      have l1' : (lo : ℚ) ≤ p1 := by exact_mod_cast l1
      have l2' : (lo : ℚ) ≤ p2 := by exact_mod_cast l2
      have u0' : (p0 : ℚ) ≤ hi := by exact_mod_cast u0
      have u1' : (p1 : ℚ) ≤ hi := by exact_mod_cast u1
      have u2' : (p2 : ℚ) ≤ hi := by exact_mod_cast u2
      have elo : (lo : ℚ) = a * lo + b * lo + c * lo := by
        rw [← add_mul, ← add_mul, hsum, one_mul]
      have ehi : (hi : ℚ) = a * hi + b * hi + c * hi := by
        rw [← add_mul, ← add_mul, hsum, one_mul]
      have hlo : (lo : ℚ) ≤ z := by
        rw [hz]
        linarith [mul_nonneg ha (sub_nonneg.mpr l0'), mul_nonneg hb (sub_nonneg.mpr l1'),
          mul_nonneg hc (sub_nonneg.mpr l2')]
      have hhi : (z : ℚ) ≤ hi := by
        rw [hz]
        linarith [mul_nonneg ha (sub_nonneg.mpr u0'), mul_nonneg hb (sub_nonneg.mpr u1'),
          mul_nonneg hc (sub_nonneg.mpr u2')]
      exact ⟨by exact_mod_cast hlo, by exact_mod_cast hhi⟩
    have kx := key v0.1 v1.1 v2.1 x (Min.min v0.1 (Min.min v1.1 v2.1))
      (Max.max v0.1 (Max.max v1.1 v2.1)) hx (min_le_left _ _)
      ((min_le_right _ _).trans (min_le_left _ _)) ((min_le_right _ _).trans (min_le_right _ _))
      (le_max_left _ _) ((le_max_left _ _).trans (le_max_right _ _))
      ((le_max_right _ _).trans (le_max_right _ _))
    have ky := key v0.2 v1.2 v2.2 y (Min.min v0.2 (Min.min v1.2 v2.2))
      (Max.max v0.2 (Max.max v1.2 v2.2)) hy (min_le_left _ _)
      ((min_le_right _ _).trans (min_le_left _ _)) ((min_le_right _ _).trans (min_le_right _ _))
      (le_max_left _ _) ((le_max_left _ _).trans (le_max_right _ _))
      ((le_max_right _ _).trans (le_max_right _ _))
    have kx' := key v0.1 v1.1 v2.1 x 0 ((W : ℤ) - 1) hx h0.1 h1.1 h2.1 (by omega) (by omega)
      (by omega)
    have ky' := key v0.2 v1.2 v2.2 y 0 ((H : ℤ) - 1) hy h0.2.2.1 h1.2.2.1 h2.2.2.1 (by omega)
      (by omega) (by omega)
    refine ⟨⟨?_, ?_, ?_, ?_⟩, kx'.1, by omega, ky'.1, by omega⟩
    · exact max_le kx'.1 kx.1
    · exact le_min kx'.2 kx.2
    · exact max_le ky'.1 ky.1
    · exact le_min ky'.2 ky.2
  have convex_bounds (a b c d0 d1 d2 lo hi : ℚ) (ha : 0 ≤ a) (hb : 0 ≤ b) (hc : 0 ≤ c)
      (hsum : a + b + c = 1) (l0 : lo < d0) (l1 : lo < d1) (l2 : lo < d2)
      (u0 : d0 < hi) (u1 : d1 < hi) (u2 : d2 < hi) :
      lo < a * d0 + b * d1 + c * d2 ∧ a * d0 + b * d1 + c * d2 < hi := by
    clear inTriangle_facts inTriangle_inBox
    have elo : lo = a * lo + b * lo + c * lo := by rw [← add_mul, ← add_mul, hsum, one_mul]
    have ehi : hi = a * hi + b * hi + c * hi := by rw [← add_mul, ← add_mul, hsum, one_mul]
    have hpos : 0 < a ∨ 0 < b ∨ 0 < c := by
      by_contra h
      push_neg at h
      linarith [h.1, h.2.1, h.2.2]
    constructor
    · rcases hpos with h | h | h
      · linarith [mul_pos h (sub_pos.mpr l0), mul_nonneg hb (sub_nonneg.mpr l1.le),
          mul_nonneg hc (sub_nonneg.mpr l2.le)]
      · linarith [mul_nonneg ha (sub_nonneg.mpr l0.le), mul_pos h (sub_pos.mpr l1),
          mul_nonneg hc (sub_nonneg.mpr l2.le)]
      · linarith [mul_nonneg ha (sub_nonneg.mpr l0.le), mul_nonneg hb (sub_nonneg.mpr l1.le),
          mul_pos h (sub_pos.mpr l2)]
    · rcases hpos with h | h | h
      · linarith [mul_pos h (sub_pos.mpr u0), mul_nonneg hb (sub_nonneg.mpr u1.le),
          mul_nonneg hc (sub_nonneg.mpr u2.le)]
      · linarith [mul_nonneg ha (sub_nonneg.mpr u0.le), mul_pos h (sub_pos.mpr u1),
          mul_nonneg hc (sub_nonneg.mpr u2.le)]
      · linarith [mul_nonneg ha (sub_nonneg.mpr u0.le), mul_nonneg hb (sub_nonneg.mpr u1.le),
          mul_pos h (sub_pos.mpr u2)]
  have sample_triangle :
      inBox 5 5 (0, 0) (4, 0) (0, 4) 1 1 ∧ signedArea (0, 0) (4, 0) (0, 4) ≠ 0 ∧
        covers (0, 0) (4, 0) (0, 4) 1 1 := by decide
  have float32Round_near_one (d : ℚ) (h1 : 1 + 1 / 2 ^ 24 < d) (h2 : d < 1 + 3 / 2 ^ 24) :
      float32Round d = JSNum.fin (1 + 1 / 2 ^ 23) := by
    clear inTriangle_facts inTriangle_inBox convex_bounds sample_triangle
    rw [float32Round_of_binade _ 0 (by linarith) (by norm_num) (by norm_num; linarith)
      (by norm_num; norm_num at h2; linarith)]
    rw [roundHalfEven_eq_of_near _ (2 ^ 23 + 1)
      (by norm_num; norm_num at h1; linarith) (by norm_num; norm_num at h2; linarith)]
    norm_num
  have fillTriangle_sameSettings (m : MathFns) (r : Renderer) (s0 s1 s2 : JSNum × JSNum)
      (depths : JSNum × JSNum × JSNum) (rgb : List JSNum) :
      SameSettings r (fillTriangle m r s0 s1 s2 depths rgb) := by
    clear inTriangle_facts inTriangle_inBox convex_bounds sample_triangle float32Round_near_one
    unfold fillTriangle
    split
    · exact fill_settings_facts.2.2.1 _ _ _ _ _ _ _
    · exact SameSettings.refl r
  have renderFace_sameSettings (m : MathFns) (X Y Z : List JSNum) (r r1 : Renderer)
      (face : Face) (h : renderFace m X Y Z r face = .ok r1) : SameSettings r r1 := by
    clear inTriangle_facts inTriangle_inBox convex_bounds sample_triangle float32Round_near_one
    unfold renderFace at h
    simp only [bind, Except.bind, pure, Except.pure] at h
    split at h
    · cases h
    · split at h
      · cases h
      · split at h
        · cases h
        · split at h
          · simp only [Except.ok.injEq] at h
            rw [← h]; exact SameSettings.refl r
          · split at h
            · simp only [Except.ok.injEq] at h
              rw [← h]; exact SameSettings.refl r
            · simp only [Except.ok.injEq] at h
              rw [← h]; exact fillTriangle_sameSettings _ _ _ _ _ _ _
  exact ⟨@inTriangle_facts, @inTriangle_inBox, @convex_bounds, @sample_triangle,
    @float32Round_near_one, @fillTriangle_sameSettings, @renderFace_sameSettings⟩

/-- C4.  Whole-triangle culling in `render`: when the three vertices of a face transform to the
camera-space points `p0, p1, p2`, and one of the three depths `p0[2], p1[2], p2[2]` is `<= 0`
or all three are `>= renderDistance`, the loop body leaves the state as it is: the face writes
nothing to the depth buffer and nothing to the image. -/
theorem renderFace_culled (m : MathFns) (X Y Z : List JSNum) (r : Renderer) (face : Face)
    (p0 p1 p2 : List JSNum)
    (h0 : reflect m (vertex r face.i0) (toArray r.camera.position) X Y Z = .ok p0)
    (h1 : reflect m (vertex r face.i1) (toArray r.camera.position) X Y Z = .ok p1)
    (h2 : reflect m (vertex r face.i2) (toArray r.camera.position) X Y Z = .ok p2)
    (hcull : (JSNum.le (nth p0 2) 0 = true ∨ JSNum.le (nth p1 2) 0 = true ∨
        JSNum.le (nth p2 2) 0 = true) ∨
      (JSNum.ge (nth p0 2) r.renderDistance = true ∧ JSNum.ge (nth p1 2) r.renderDistance = true ∧
        JSNum.ge (nth p2 2) r.renderDistance = true)) :
    renderFace m X Y Z r face = .ok r := by
  unfold renderFace
  simp only [h0, h1, h2, bind, Except.bind, pure, Except.pure]
  by_cases hnear : (JSNum.le (nth p0 2) 0 || JSNum.le (nth p1 2) 0 || JSNum.le (nth p2 2) 0) = true
  · simp only [hnear, if_true]
  · rcases hcull with h | h
    · exfalso
      apply hnear
      rcases h with h | h | h <;> rw [h] <;> simp only [Bool.true_or, Bool.or_true]
    · have hfar : (JSNum.ge (nth p0 2) r.renderDistance && JSNum.ge (nth p1 2) r.renderDistance
          && JSNum.ge (nth p2 2) r.renderDistance) = true := by
        rw [h.1, h.2.1, h.2.2]; rfl
      simp only [hnear, hfar, if_true, if_false, Bool.false_eq_true]

/-- Lemmas on the error of `render` and the vector helpers on finite numbers, proved in turn:
`renderFaces_error_of_bad`, `unitVector_fin`, `reflectDotToNewAxis_fin`, `cameraBasis_ok`,
`vertex_eq_none`. -/
theorem render_error_facts :
    (∀ (m : MathFns) (X Y Z : List JSNum) (faces : List Face) (r0 r : Renderer) (_ : SameSettings r0 r) (_ : ∃ face ∈ faces, vertex r0 face.i0 = none ∨ vertex r0 face.i1 = none ∨
      vertex r0 face.i2 = none),
      ∃ e, (renderFaces m X Y Z r faces).2 = some e) ∧
    (∀ (m : MathFns) (x0 x1 x2 : ℚ) (_ : length3 m x0 x1 x2 ≠ 0),
      unitVector m [fin x0, fin x1, fin x2] =
      .ok [fin (x0 / length3 m x0 x1 x2), fin (x1 / length3 m x0 x1 x2),
        fin (x2 / length3 m x0 x1 x2)]) ∧
    (∀ (m : MathFns) (p0 p1 p2 o0 o1 o2 x0 x1 x2 y0 y1 y2 z0 z1 z2 : ℚ) (_ : length3 m x0 x1 x2 ≠ 0) (_ : length3 m y0 y1 y2 ≠ 0) (_ : length3 m z0 z1 z2 ≠ 0),
      reflectDotToNewAxis m [fin p0, fin p1, fin p2] [fin o0, fin o1, fin o2]
        [fin x0, fin x1, fin x2] [fin y0, fin y1, fin y2] [fin z0, fin z1, fin z2] =
      .ok [fin (0 + (p0 - o0) * (x0 / length3 m x0 x1 x2) + (p1 - o1) * (x1 / length3 m x0 x1 x2)
            + (p2 - o2) * (x2 / length3 m x0 x1 x2)),
          fin (0 + (p0 - o0) * (y0 / length3 m y0 y1 y2) + (p1 - o1) * (y1 / length3 m y0 y1 y2)
            + (p2 - o2) * (y2 / length3 m y0 y1 y2)),
          fin (0 + (p0 - o0) * (z0 / length3 m z0 z1 z2) + (p1 - o1) * (z1 / length3 m z0 z1 z2)
            + (p2 - o2) * (z2 / length3 m z0 z1 z2))]) ∧
    (∀ (d : JSNum × JSNum × JSNum),
      ∃ X Y, cameraBasis (toArray d) = .ok (X, Y, toArray d)) ∧
    (∀ (r : Renderer) (i : ℤ) (_ : ¬ (0 ≤ i ∧ i < r.data.v.length)),
      vertex r i = none) := by
  have renderFaces_error_of_bad (m : MathFns) (X Y Z : List JSNum) (faces : List Face)
      (r0 r : Renderer) (hss : SameSettings r0 r)
      (hbad : ∃ face ∈ faces, vertex r0 face.i0 = none ∨ vertex r0 face.i1 = none ∨
        vertex r0 face.i2 = none) :
      ∃ e, (renderFaces m X Y Z r faces).2 = some e := by
    induction faces generalizing r with
    | nil => obtain ⟨f, hf, _⟩ := hbad; cases hf
    | cons face rest ih =>
      unfold renderFaces
      cases hrf : renderFace m X Y Z r face with
      | error e => exact ⟨e, rfl⟩
      | ok r1 =>
        simp only
        obtain ⟨f, hf, hbadf⟩ := hbad
        rcases List.mem_cons.mp hf with rfl | hmem
        · exfalso
          have hv : ∀ i, vertex r i = vertex r0 i := by
            intro i; unfold vertex; rw [hss.1]
          unfold renderFace at hrf
          simp only [bind, Except.bind, pure, Except.pure, hv] at hrf
          rcases hbadf with h | h | h
          · rw [h] at hrf
            simp [reflect] at hrf
          · rw [h] at hrf
            split at hrf
            · cases hrf
            · simp [reflect] at hrf
          · rw [h] at hrf
            split at hrf
            · cases hrf
            · split at hrf
              · cases hrf
              · simp [reflect] at hrf
        · exact ih r1 (hss.trans (float32_facts_4.2.2.2.2.2.2 m X Y Z r r1 face hrf)) ⟨f, hmem, hbadf⟩
  have unitVector_fin (m : MathFns) (x0 x1 x2 : ℚ) (h : length3 m x0 x1 x2 ≠ 0) :
      unitVector m [fin x0, fin x1, fin x2] =
        .ok [fin (x0 / length3 m x0 x1 x2), fin (x1 / length3 m x0 x1 x2),
          fin (x2 / length3 m x0 x1 x2)] := by
    clear renderFaces_error_of_bad
    have hnn : ¬ (0 + x0 * x0 + x1 * x1 + x2 * x2 < 0) := by
      have := mul_self_nonneg x0
      have := mul_self_nonneg x1
      have := mul_self_nonneg x2
      linarith
    simp only [unitVector, dotProduct, List.length_cons, List.length_nil, ne_eq, not_true_eq_false,
      if_false, List.zipWith_cons_cons, List.zipWith_nil_right, List.foldl_cons, List.foldl_nil,
      mul_fin, ofNat_eq, Nat.cast_zero, add_fin, bind, Except.bind, pure, Except.pure, JSNum.sqrt,
      hnn, nth, List.getD_cons_zero, List.getD_cons_succ]
    unfold length3 at h
    rw [div_fin _ _ h, div_fin _ _ h, div_fin _ _ h]
    rfl
  have reflectDotToNewAxis_fin (m : MathFns) (p0 p1 p2 o0 o1 o2 x0 x1 x2 y0 y1 y2 z0 z1 z2 : ℚ)
      (hx : length3 m x0 x1 x2 ≠ 0) (hy : length3 m y0 y1 y2 ≠ 0) (hz : length3 m z0 z1 z2 ≠ 0) :
      reflectDotToNewAxis m [fin p0, fin p1, fin p2] [fin o0, fin o1, fin o2]
          [fin x0, fin x1, fin x2] [fin y0, fin y1, fin y2] [fin z0, fin z1, fin z2] =
        .ok [fin (0 + (p0 - o0) * (x0 / length3 m x0 x1 x2) + (p1 - o1) * (x1 / length3 m x0 x1 x2)
              + (p2 - o2) * (x2 / length3 m x0 x1 x2)),
            fin (0 + (p0 - o0) * (y0 / length3 m y0 y1 y2) + (p1 - o1) * (y1 / length3 m y0 y1 y2)
              + (p2 - o2) * (y2 / length3 m y0 y1 y2)),
            fin (0 + (p0 - o0) * (z0 / length3 m z0 z1 z2) + (p1 - o1) * (z1 / length3 m z0 z1 z2)
              + (p2 - o2) * (z2 / length3 m z0 z1 z2))] := by
    clear renderFaces_error_of_bad
    unfold reflectDotToNewAxis
    simp only [unitVector_fin m _ _ _ hx, unitVector_fin m _ _ _ hy, unitVector_fin m _ _ _ hz,
      List.length_cons, List.length_nil, ne_eq, not_true_eq_false, if_false, bind, Except.bind,
      pure, Except.pure, nth, List.getD_cons_zero, List.getD_cons_succ, sub_fin, dotProduct,
      List.zipWith_cons_cons, List.zipWith_nil_right, List.foldl_cons, List.foldl_nil, mul_fin,
      ofNat_eq, Nat.cast_zero, add_fin]
  have cameraBasis_ok (d : JSNum × JSNum × JSNum) :
      ∃ X Y, cameraBasis (toArray d) = .ok (X, Y, toArray d) := by
    clear renderFaces_error_of_bad unitVector_fin reflectDotToNewAxis_fin
    refine ⟨[-(-d.2.1), -d.1, 0], getCrossVector [-(-d.2.1), -d.1, 0] (toArray d), ?_⟩
    simp only [cameraBasis, toArray, get2DVerticalVector, List.length_cons, List.length_nil, ne_eq,
      not_true_eq_false, if_false, bind, Except.bind, pure, Except.pure]
    rfl
  have vertex_eq_none (r : Renderer) (i : ℤ) (h : ¬ (0 ≤ i ∧ i < r.data.v.length)) :
      vertex r i = none := by
    clear renderFaces_error_of_bad unitVector_fin reflectDotToNewAxis_fin cameraBasis_ok
    unfold vertex
    have := getCell_isSome r.data.v i
    cases hc : getCell r.data.v i with
    | none => rfl
    | some v => exact absurd (this.mp (by simp [hc])) h
  exact ⟨@renderFaces_error_of_bad, @unitVector_fin, @reflectDotToNewAxis_fin, @cameraBasis_ok,
    @vertex_eq_none⟩

/-- C5 (amended).  `render` is not best-effort per triangle: for a mesh that contains a face
with a vertex index outside of the vertex table, `render` throws an exception and does not
complete the frame. -/
theorem render_fails_on_bad_face (m : MathFns) (r : Renderer)
    (hbad : ∃ face ∈ r.data.f, ¬ (0 ≤ face.i0 ∧ face.i0 < r.data.v.length) ∨
      ¬ (0 ≤ face.i1 ∧ face.i1 < r.data.v.length) ∨
      ¬ (0 ≤ face.i2 ∧ face.i2 < r.data.v.length)) :
    ∃ e, (render m r).2 = some e := by
  obtain ⟨X, Y, hb⟩ := render_error_facts.2.2.2.1 r.camera.direction
  unfold render
  simp only [show (resetBuffers r).camera = r.camera from rfl, hb,
    show (resetBuffers r).data = r.data from rfl]
  apply render_error_facts.1 m X Y _ r.data.f (resetBuffers r) (resetBuffers r)
    (SameSettings.refl _)
  obtain ⟨face, hf, h⟩ := hbad
  refine ⟨face, hf, ?_⟩
  rcases h with h | h | h
  · exact Or.inl (render_error_facts.2.2.2.2 (resetBuffers r) _ h)
  · exact Or.inr (Or.inl (render_error_facts.2.2.2.2 (resetBuffers r) _ h))
  · exact Or.inr (Or.inr (render_error_facts.2.2.2.2 (resetBuffers r) _ h))

/-- C5, witness: the scene whose first face names the missing vertex 7 makes `render` throw. -/
theorem render_fails_on_bad_face_witness : ∃ e, (render sampleMath sceneBadFace).2 = some e :=
  render_fails_on_bad_face sampleMath sceneBadFace
    ⟨⟨7, 0, 1, some "#ff0000"⟩, by simp [sceneBadFace, Renderer.new, allocate, resetBuffers],
      Or.inl (by simp [sceneBadFace, Renderer.new, allocate, resetBuffers])⟩

/-- C5, counterexample.  The mesh of `sceneBadFace` has a face with the out-of-range vertex
index 7 followed by a well-formed face; `render` throws the `TypeError` of the first face
instead of skipping it, and the frame is not completed. -/
theorem render_throws_on_missing_vertex :
    (render sampleMath sceneBadFace).2 = some "TypeError: dot is undefined" := by
  obtain ⟨X, Y, hb⟩ := render_error_facts.2.2.2.1 sceneBadFace.camera.direction
  unfold render
  simp only [show (resetBuffers sceneBadFace).camera = sceneBadFace.camera from rfl, hb]
  simp [sceneBadFace, Renderer.new, allocate, resetBuffers, renderFaces, renderFace, vertex,
    getCell, reflect, bind, Except.bind]

/-- Lemmas on the sample library functions, proved in turn: `sample_sqrt_one`, `sample_length_x`,
`sample_length_y`, `sample_length_z`, `sample_reflect`. -/
theorem sample_math_facts :
    (sampleMath.sqrt 1 = 1) ∧
    (length3 sampleMath 0 (-1) 0 = 1) ∧
    (length3 sampleMath 0 0 1 = 1) ∧
    (length3 sampleMath 1 0 0 = 1) ∧
    (∀ (p0 p1 p2 : ℚ),
      reflect sampleMath (some [fin p0, fin p1, fin p2]) [fin 3, fin 0, fin 0]
        [fin 0, fin (-1), fin 0] [fin 0, fin 0, fin 1] [fin 1, fin 0, fin 0]
      = .ok [fin (-p1), fin p2, fin (p0 - 3)]) := by
  have sample_sqrt_one : sampleMath.sqrt 1 = 1 := by
    simp [sampleMath]
  have sample_length_x : length3 sampleMath 0 (-1) 0 = 1 := by
    simp only [length3]; norm_num; exact sample_sqrt_one
  have sample_length_y : length3 sampleMath 0 0 1 = 1 := by
    clear sample_length_x
    simp only [length3]; norm_num; exact sample_sqrt_one
  have sample_length_z : length3 sampleMath 1 0 0 = 1 := by
    clear sample_length_x sample_length_y
    simp only [length3]; norm_num; exact sample_sqrt_one
  have sample_reflect (p0 p1 p2 : ℚ) :
      reflect sampleMath (some [fin p0, fin p1, fin p2]) [fin 3, fin 0, fin 0]
          [fin 0, fin (-1), fin 0] [fin 0, fin 0, fin 1] [fin 1, fin 0, fin 0]
        = .ok [fin (-p1), fin p2, fin (p0 - 3)] := by
    clear sample_sqrt_one
    show reflectDotToNewAxis sampleMath _ _ _ _ _ = _
    rw [render_error_facts.2.2.1 sampleMath p0 p1 p2 3 0 0 0 (-1) 0 0 0 1 1 0 0
      (by rw [sample_length_x]; norm_num) (by rw [sample_length_y]; norm_num)
      (by rw [sample_length_z]; norm_num)]
    rw [sample_length_x, sample_length_y, sample_length_z]
    norm_num
  exact ⟨@sample_sqrt_one, @sample_length_x, @sample_length_y, @sample_length_z, @sample_reflect⟩

/-- C4, witness: the triangle of `sceneBehind` lies behind the camera, at the depths -3, -2 and
-3, and the loop body leaves the state as it is. -/
theorem renderFace_culled_witness :
    renderFace sampleMath [fin 0, fin (-1), fin 0] [fin 0, fin 0, fin 1] [fin 1, fin 0, fin 0]
      sceneBehind ⟨0, 1, 2, some "#ff0000"⟩ = .ok sceneBehind :=
  renderFace_culled sampleMath [fin 0, fin (-1), fin 0] [fin 0, fin 0, fin 1]
    [fin 1, fin 0, fin 0] sceneBehind ⟨0, 1, 2, some "#ff0000"⟩
    [fin (-0), fin 0, fin (0 - 3)] [fin (-0), fin 0, fin (1 - 3)] [fin (-1), fin 0, fin (0 - 3)]
    (sample_math_facts.2.2.2.2 0 0 0) (sample_math_facts.2.2.2.2 1 0 0) (sample_math_facts.2.2.2.2 0 1 0)
    (Or.inl (Or.inl (by simp [nth])))

/-- C6.  In a renderer whose render distance is the 50 the constructor sets, the `maxDepth`
that shades a pixel written by `fillTriangleFast` is the render distance: at a pixel of the
clamped box that passes the inside test and the depth test, the three colour bytes written are
`round(channel * exp(-depth / renderDistance))` clamped to `[0, 255]`, and the alpha byte is
255. -/
theorem shading_uses_renderDistance (m : MathFns) (r : Renderer) (hs : Sized r)
    (hrd : r.renderDistance = 50) (v0 v1 v2 : ℤ × ℤ) (depths : ℚ × ℚ × ℚ) (rgb : List JSNum)
    (x y : ℤ) (hx : 0 ≤ x) (hxW : x < r.width)
    (hbox : inBox r.width r.height v0 v1 v2 x y ∧ signedArea v0 v1 v2 ≠ 0)
    (hcov : covers v0 v1 v2 x y) (old : JSNum)
    (hold : getCell r.depthBuffer (y * r.width + x) = some old)
    (hlt : JSNum.lt (JSNum.fin (pixelDepth v0 v1 v2 depths x y)) old = true) :
    (pixelAt (fillTriangleFast m r v0 v1 v2 depths rgb) (y * r.width + x)).2 =
      [some (toUint8Clamp (JSNum.min 255 (JSNum.max 0 (JSNum.round (nth rgb 0 *
          JSNum.exp m (-(JSNum.fin (pixelDepth v0 v1 v2 depths x y)) / r.renderDistance)))))),
       some (toUint8Clamp (JSNum.min 255 (JSNum.max 0 (JSNum.round (nth rgb 1 *
          JSNum.exp m (-(JSNum.fin (pixelDepth v0 v1 v2 depths x y)) / r.renderDistance)))))),
       some (toUint8Clamp (JSNum.min 255 (JSNum.max 0 (JSNum.round (nth rgb 2 *
          JSNum.exp m (-(JSNum.fin (pixelDepth v0 v1 v2 depths x y)) / r.renderDistance)))))),
       some 255] := by
  rw [fill_settings_facts.2.2.2.2 m r v0 v1 v2 depths rgb hs x y hx hxW, if_pos hbox]
  have h1 : (pixelAt r (y * r.width + x)).1 = some old := hold
  unfold pixelStep
  simp only [h1, hcov, hlt, and_self, if_true]
  rw [hrd]
  rfl

/-- C6, witness: on the new 5 by 5 canvas the red triangle (0,0), (4,0), (0,4) of depth 5
writes the pixel (1,1) with the bytes computed from the render distance. -/
theorem shading_uses_renderDistance_witness :
    (pixelAt (fillTriangleFast sampleMath canvas5 (0, 0) (4, 0) (0, 4) (5, 5, 5) [255, 0, 0])
        6).2 =
      [some (toUint8Clamp (JSNum.min 255 (JSNum.max 0 (JSNum.round (nth [255, 0, 0] 0 *
          JSNum.exp sampleMath (-(JSNum.fin (pixelDepth (0, 0) (4, 0) (0, 4) (5, 5, 5) 1 1))
            / canvas5.renderDistance)))))),
       some (toUint8Clamp (JSNum.min 255 (JSNum.max 0 (JSNum.round (nth [255, 0, 0] 1 *
          JSNum.exp sampleMath (-(JSNum.fin (pixelDepth (0, 0) (4, 0) (0, 4) (5, 5, 5) 1 1))
            / canvas5.renderDistance)))))),
       some (toUint8Clamp (JSNum.min 255 (JSNum.max 0 (JSNum.round (nth [255, 0, 0] 2 *
          JSNum.exp sampleMath (-(JSNum.fin (pixelDepth (0, 0) (4, 0) (0, 4) (5, 5, 5) 1 1))
            / canvas5.renderDistance)))))),
       some 255] :=
  shading_uses_renderDistance sampleMath canvas5 (fresh_buffer_facts.2.2.2.2.2.1 _ _ 5 5 false false (by norm_num)) rfl
    (0, 0) (4, 0) (0, 4) (5, 5, 5) [255, 0, 0] 1 1 (by norm_num) (by decide)
    ⟨float32_facts_4.2.2.2.1.1, float32_facts_4.2.2.2.1.2.1⟩ float32_facts_4.2.2.2.1.2.2 JSNum.pinf (by decide) rfl

/-- C8, witness: `adjustColorByDepth((255,255,255), 0)` is `(255,255,255)`. -/
theorem adjustColorByDepth_depth_zero_witness :
    adjustColorByDepth sampleMath [fin (255 : ℕ), fin (255 : ℕ), fin (255 : ℕ)] (fin 0) none
      = [fin (255 : ℕ), fin (255 : ℕ), fin (255 : ℕ)] :=
  adjustColorByDepth_depth_zero sampleMath (by simp [sampleMath]) 255 255 255 (by norm_num)
    (by norm_num) (by norm_num) none (Or.inl rfl)

/-- C12.  `reflectDotToNewAxis` with the origin (0,0,0) and the axes (1,0,0), (0,1,0), (0,0,1)
is the identity on points with finite coordinates, `Math.sqrt(1)` being 1. -/
theorem reflectDotToNewAxis_identity (m : MathFns) (hsqrt : m.sqrt 1 = 1) (p0 p1 p2 : ℚ) :
    reflectDotToNewAxis m [fin p0, fin p1, fin p2] [fin 0, fin 0, fin 0]
        [fin 1, fin 0, fin 0] [fin 0, fin 1, fin 0] [fin 0, fin 0, fin 1]
      = .ok [fin p0, fin p1, fin p2] := by
  have hx : length3 m 1 0 0 = 1 := by simp only [length3]; norm_num; exact hsqrt
  have hy : length3 m 0 1 0 = 1 := by simp only [length3]; norm_num; exact hsqrt
  have hz : length3 m 0 0 1 = 1 := by simp only [length3]; norm_num; exact hsqrt
  rw [render_error_facts.2.2.1 m p0 p1 p2 0 0 0 1 0 0 0 1 0 0 0 1 (by rw [hx]; norm_num)
    (by rw [hy]; norm_num) (by rw [hz]; norm_num), hx, hy, hz]
  norm_num

/-- C12, witness: the point (2, 3, 5). -/
theorem reflectDotToNewAxis_identity_witness :
    reflectDotToNewAxis sampleMath [fin 2, fin 3, fin 5] [fin 0, fin 0, fin 0]
        [fin 1, fin 0, fin 0] [fin 0, fin 1, fin 0] [fin 0, fin 0, fin 1]
      = .ok [fin 2, fin 3, fin 5] :=
  reflectDotToNewAxis_identity sampleMath sample_math_facts.1 2 3 5

theorem unitVector_zero_eq (m : MathFns) (hsqrt : m.sqrt 0 = 0) :
    unitVector m [fin 0, fin 0, fin 0] = .ok [JSNum.nan, JSNum.nan, JSNum.nan] := by
  simp only [unitVector, dotProduct, List.length_cons, List.length_nil, ne_eq,
    not_true_eq_false, if_false, List.zipWith_cons_cons, List.zipWith_nil_right,
    List.foldl_cons, List.foldl_nil, mul_fin, ofNat_eq, Nat.cast_zero, add_fin, bind,
    Except.bind, pure, Except.pure, JSNum.sqrt, nth, List.getD_cons_zero, List.getD_cons_succ]
  norm_num [hsqrt]
  rfl

/-- C13 (amended).  `unitVector` does not fail on the zero vector: with `Math.sqrt(0)` being 0
every component is `0 / 0`, and the result is `[NaN, NaN, NaN]`; `unitVector` returns a vector
for every array of three numbers. -/
theorem unitVector_zero (m : MathFns) (hsqrt : m.sqrt 0 = 0) :
    unitVector m [fin 0, fin 0, fin 0] = .ok [JSNum.nan, JSNum.nan, JSNum.nan] ∧
    ∀ v : List JSNum, v.length = 3 → ∃ u, unitVector m v = .ok u := by
  constructor
  · exact unitVector_zero_eq m hsqrt
  · intro v hv
    simp only [unitVector, dotProduct, hv, ne_eq, not_true_eq_false, if_false, bind, Except.bind,
      pure, Except.pure]
    exact ⟨_, rfl⟩

/-- C13, witness: the sample square root. -/
theorem unitVector_zero_witness :
    unitVector sampleMath [fin 0, fin 0, fin 0] = .ok [JSNum.nan, JSNum.nan, JSNum.nan] ∧
    ∀ v : List JSNum, v.length = 3 → ∃ u, unitVector sampleMath v = .ok u :=
  unitVector_zero sampleMath (by simp [sampleMath])

/-- C13, counterexample: `unitVector([0, 0, 0])` returns a vector, of three `NaN`, and no
error. -/
theorem unitVector_zero_returns :
    ∃ u, unitVector sampleMath [0, 0, 0] = .ok u ∧ u = [JSNum.nan, JSNum.nan, JSNum.nan] := by
  refine ⟨_, ?_, rfl⟩
  exact unitVector_zero_eq sampleMath (by simp [sampleMath])

/-- C17, the failing inputs.  `isTwoVectorCollinear` answers `false` for the collinear vectors
[1,0,0] and [2,0,0], and `true` for the perpendicular vectors [1,0,0] and [0,1,0]: it tests the
dot product against 0, as `isTwoVectorVertical` does. -/
theorem isTwoVectorCollinear_tests_dot :
    isTwoVectorCollinear [1, 0, 0] [2, 0, 0] = .ok false ∧
    isTwoVectorCollinear [1, 0, 0] [0, 1, 0] = .ok true ∧
    ∀ v1 v2, isTwoVectorCollinear v1 v2 = isTwoVectorVertical v1 v2 := by
  refine ⟨?_, ?_, fun _ _ => rfl⟩
  · simp [isTwoVectorCollinear, dotProduct, strictEq, bind, Except.bind, pure, Except.pure]
  · simp [isTwoVectorCollinear, dotProduct, strictEq, bind, Except.bind, pure, Except.pure]

/-- C20 (amended).  For a prior focus in `[minFocus, maxFocus] = [1, 1000]` and every wheel
delta, after `handleMouseWheel` the focus lies in `[1, 1000]`: it is
`min(1000, focus * 1.1)` for a delta above 0 and `max(1, focus / 1.1)` otherwise. -/
theorem handleMouseWheel_keeps_range (c : CameraController) (deltaY : JSNum) (f : ℚ)
    (hmin : c.minFocus = 1) (hmax : c.maxFocus = 1000) (hf : c.camera.focus = fin f)
    (h1 : 1 ≤ f) (h2 : f ≤ 1000) :
    ∃ g : ℚ, (c.handleMouseWheel deltaY).camera.focus = fin g ∧ 1 ≤ g ∧ g ≤ 1000 ∧
      g = if JSNum.gt deltaY 0 = true then Min.min 1000 (f * (11 / 10))
          else Max.max 1 (f / (11 / 10)) := by
  have h11 : (11 / 10 : ℚ) ≠ 0 := by norm_num
  unfold CameraController.handleMouseWheel
  by_cases hd : JSNum.gt deltaY 0 = true
  · simp only [hd, if_true]
    simp only [hmax, hf, ofNat_eq, Nat.cast_ofNat, mul_fin, min_fin]
    refine ⟨_, rfl, ?_, min_le_left _ _, rfl⟩
    apply le_min (by norm_num)
    linarith
  · simp only [hd, if_false]
    simp only [hmin, hf, ofNat_eq, Nat.cast_one, div_fin _ _ h11, max_fin]
    refine ⟨_, rfl, le_max_left _ _, ?_, rfl⟩
    apply max_le (by norm_num)
    rw [div_le_iff₀ (by norm_num)]
    linarith

/-- C20, witness: the focus 1 of the camera of `index.js` and a wheel delta of 3. -/
theorem handleMouseWheel_keeps_range_witness :
    ∃ g : ℚ, ((CameraController.new sampleCamera).handleMouseWheel 3).camera.focus = fin g ∧
      1 ≤ g ∧ g ≤ 1000 ∧
      g = if JSNum.gt 3 0 = true then Min.min 1000 (1 * (11 / 10))
          else Max.max 1 (1 / (11 / 10)) :=
  handleMouseWheel_keeps_range (CameraController.new sampleCamera) 3 1 rfl rfl
    (by simp [CameraController.new, sampleCamera]) (by norm_num) (by norm_num)

/-- C20, counterexample.  From the prior focus 1/2 a wheel delta of 3 leaves the focus 11/20,
below `minFocus`: the branch of a positive delta bounds the focus from above only. -/
theorem handleMouseWheel_below_min :
    ((CameraController.new { sampleCamera with focus := JSNum.fin (1 / 2) }).handleMouseWheel
      3).camera.focus = JSNum.fin (11 / 20) := by
  simp only [CameraController.handleMouseWheel, CameraController.new, JSNum.gt, ofNat_eq,
    Nat.cast_ofNat, Nat.cast_zero, lt_fin, mul_fin, min_fin]
  norm_num

/-- Lemmas on `rotateVector` and `rotateCamera` on finite numbers, proved in turn:
`rotateVector_fin`, `rotateCamera_fin`, `vertical_sample`. -/
theorem rotate_facts :
    (∀ (m : MathFns) (v0 v1 v2 x0 x1 x2 t : ℚ),
      CameraController.rotateVector m [fin v0, fin v1, fin v2] [fin x0, fin x1, fin x2] (fin t)
      = .ok [fin (rotateQ (v0, v1, v2) (x0, x1, x2) (m.cos t) (m.sin t)).1,
          fin (rotateQ (v0, v1, v2) (x0, x1, x2) (m.cos t) (m.sin t)).2.1,
          fin (rotateQ (v0, v1, v2) (x0, x1, x2) (m.cos t) (m.sin t)).2.2]) ∧
    (∀ (m : MathFns) (c : CameraController) (a b cc dx dy : ℚ) (_ : c.camera.direction = (fin a, fin b, fin cc)) (_ : length3 m (turnedQ m (a, b, cc) dx dy).1 (turnedQ m (a, b, cc) dx dy).2.1
      (turnedQ m (a, b, cc) dx dy).2.2 ≠ 0),
      c.rotateCamera m (fin dx) (fin dy) =
      .ok { c with camera := { c.camera with direction :=
        (fin ((turnedQ m (a, b, cc) dx dy).1 /
            length3 m (turnedQ m (a, b, cc) dx dy).1 (turnedQ m (a, b, cc) dx dy).2.1
              (turnedQ m (a, b, cc) dx dy).2.2),
         fin ((turnedQ m (a, b, cc) dx dy).2.1 /
            length3 m (turnedQ m (a, b, cc) dx dy).1 (turnedQ m (a, b, cc) dx dy).2.1
              (turnedQ m (a, b, cc) dx dy).2.2),
         fin ((turnedQ m (a, b, cc) dx dy).2.2 /
            length3 m (turnedQ m (a, b, cc) dx dy).1 (turnedQ m (a, b, cc) dx dy).2.1
              (turnedQ m (a, b, cc) dx dy).2.2)) } }) ∧
    (∀ (m : MathFns) (_ : m.cos 0 = 1) (_ : m.sin 0 = 0),
      verticalQ m (3 / 5, 0, 4 / 5) 0 1
      = (3 / 5 * m.cos 1 - 12 / 25 * m.sin 1, 0, 4 / 5 * m.cos 1 + 9 / 25 * m.sin 1)) := by
  have rotateVector_fin (m : MathFns) (v0 v1 v2 x0 x1 x2 t : ℚ) :
      CameraController.rotateVector m [fin v0, fin v1, fin v2] [fin x0, fin x1, fin x2] (fin t)
        = .ok [fin (rotateQ (v0, v1, v2) (x0, x1, x2) (m.cos t) (m.sin t)).1,
            fin (rotateQ (v0, v1, v2) (x0, x1, x2) (m.cos t) (m.sin t)).2.1,
            fin (rotateQ (v0, v1, v2) (x0, x1, x2) (m.cos t) (m.sin t)).2.2] := by
    simp only [CameraController.rotateVector, dotProduct, getCrossVector, JSNum.cos, JSNum.sin,
      List.length_cons, List.length_nil, ne_eq, not_true_eq_false, if_false,
      List.zipWith_cons_cons, List.zipWith_nil_right, List.foldl_cons, List.foldl_nil, mul_fin,
      sub_fin, add_fin, ofNat_eq, Nat.cast_zero, Nat.cast_one, bind, Except.bind, pure,
      Except.pure, nth, List.getD_cons_zero, List.getD_cons_succ]
    rfl
  have rotateCamera_fin (m : MathFns) (c : CameraController) (a b cc dx dy : ℚ)
      (hdir : c.camera.direction = (fin a, fin b, fin cc))
      (hL : length3 m (turnedQ m (a, b, cc) dx dy).1 (turnedQ m (a, b, cc) dx dy).2.1
        (turnedQ m (a, b, cc) dx dy).2.2 ≠ 0) :
      c.rotateCamera m (fin dx) (fin dy) =
        .ok { c with camera := { c.camera with direction :=
          (fin ((turnedQ m (a, b, cc) dx dy).1 /
              length3 m (turnedQ m (a, b, cc) dx dy).1 (turnedQ m (a, b, cc) dx dy).2.1
                (turnedQ m (a, b, cc) dx dy).2.2),
           fin ((turnedQ m (a, b, cc) dx dy).2.1 /
              length3 m (turnedQ m (a, b, cc) dx dy).1 (turnedQ m (a, b, cc) dx dy).2.1
                (turnedQ m (a, b, cc) dx dy).2.2),
           fin ((turnedQ m (a, b, cc) dx dy).2.2 /
              length3 m (turnedQ m (a, b, cc) dx dy).1 (turnedQ m (a, b, cc) dx dy).2.1
                (turnedQ m (a, b, cc) dx dy).2.2)) } } := by
    have hup : ([0, 0, 1] : List JSNum) = [fin 0, fin 0, fin 1] := by
      simp only [ofNat_eq, Nat.cast_zero, Nat.cast_one]
    have hright : getCrossVector [fin a, fin b, fin cc] [fin 0, fin 0, fin 1]
        = [fin (crossQ (a, b, cc) (0, 0, 1)).1, fin (crossQ (a, b, cc) (0, 0, 1)).2.1,
            fin (crossQ (a, b, cc) (0, 0, 1)).2.2] := by
      simp only [getCrossVector, nth, List.getD_cons_zero, List.getD_cons_succ, mul_fin, sub_fin]
      rfl
    have hdot : ∀ w0 w1 w2 : ℚ, dotProduct [fin w0, fin w1, fin w2] [fin 0, fin 0, fin 1]
        = .ok (fin (dotQ (w0, w1, w2) (0, 0, 1))) := by
      intro w0 w1 w2
      simp only [dotProduct, List.length_cons, List.length_nil, ne_eq, not_true_eq_false, if_false,
        List.zipWith_cons_cons, List.zipWith_nil_right, List.foldl_cons, List.foldl_nil, mul_fin,
        add_fin, ofNat_eq, Nat.cast_zero]
      rfl
    unfold CameraController.rotateCamera
    simp only [hdir, toArray, hup, hright, rotateVector_fin, bind, Except.bind, pure, Except.pure,
      hdot, JSNum.abs, lt_fin]
    by_cases htest : |dotQ (verticalQ m (a, b, cc) dx dy) (0, 0, 1)| < 19 / 20
    · have hw : turnedQ m (a, b, cc) dx dy = verticalQ m (a, b, cc) dx dy := by
        simp only [turnedQ, htest, if_true]
      rw [hw] at hL ⊢
      have htest' : |dotQ (rotateQ (rotateQ (a, b, cc) (0, 0, 1) (m.cos dx) (m.sin dx))
          (crossQ (a, b, cc) (0, 0, 1)) (m.cos dy) (m.sin dy)) (0, 0, 1)| < 19 / 20 := htest
      simp only [htest', decide_True, if_true, MathVector.normalize]
      have := render_error_facts.2.1 m (verticalQ m (a, b, cc) dx dy).1 (verticalQ m (a, b, cc) dx dy).2.1
        (verticalQ m (a, b, cc) dx dy).2.2 hL
      simp only [verticalQ, horizontalQ] at this ⊢
      rw [this]
      rfl
    · have hw : turnedQ m (a, b, cc) dx dy = horizontalQ m (a, b, cc) dx := by
        simp only [turnedQ, htest, if_false]
      rw [hw] at hL ⊢
      have htest' : ¬ |dotQ (rotateQ (rotateQ (a, b, cc) (0, 0, 1) (m.cos dx) (m.sin dx))
          (crossQ (a, b, cc) (0, 0, 1)) (m.cos dy) (m.sin dy)) (0, 0, 1)| < 19 / 20 := htest
      simp only [htest', decide_False, if_false, MathVector.normalize, Bool.false_eq_true]
      have := render_error_facts.2.1 m (horizontalQ m (a, b, cc) dx).1 (horizontalQ m (a, b, cc) dx).2.1
        (horizontalQ m (a, b, cc) dx).2.2 hL
      simp only [horizontalQ] at this ⊢
      rw [this]
      rfl
  have vertical_sample (m : MathFns) (hc0 : m.cos 0 = 1) (hs0 : m.sin 0 = 0) :
      verticalQ m (3 / 5, 0, 4 / 5) 0 1
        = (3 / 5 * m.cos 1 - 12 / 25 * m.sin 1, 0, 4 / 5 * m.cos 1 + 9 / 25 * m.sin 1) := by
    clear rotateVector_fin rotateCamera_fin
    simp only [verticalQ, horizontalQ, rotateQ, crossQ, dotQ, hc0, hs0]
    refine Prod.ext ?_ (Prod.ext ?_ ?_)
    · show _ = 3 / 5 * m.cos 1 - 12 / 25 * m.sin 1
      ring
    · show _ = (0 : ℚ)
      ring
    · show _ = 4 / 5 * m.cos 1 + 9 / 25 * m.sin 1
      ring
  exact ⟨@rotateVector_fin, @rotateCamera_fin, @vertical_sample⟩

/-- C18, failing input.  The camera looks along the unit vector (3/5, 0, 4/5), whose product
with `up = (0, 0, 1)` is 0.8.  `rotateCamera(0, 1)` accepts the vertical rotation, because it
tests the rotated vector before it is normalised, and the direction it stores has a product
with `up` of at least 0.95.  The library functions enter by bounds that the true cosine, sine
and square root satisfy. -/
theorem rotateCamera_exceeds_limit (m : MathFns) (c : CameraController)
    (hdir : c.camera.direction = (fin (3 / 5), fin 0, fin (4 / 5)))
    (hc0 : m.cos 0 = 1) (hs0 : m.sin 0 = 0)
    (hc1 : 27 / 50 ≤ m.cos 1 ∧ m.cos 1 ≤ 3 / 5)
    (hs1 : 4 / 5 ≤ m.sin 1 ∧ m.sin 1 ≤ 17 / 20)
    (hsqrt : ∀ s : ℚ, 0 < s → 0 < m.sqrt s ∧ m.sqrt s * m.sqrt s ≤ 101 / 100 * s) :
    ∃ (c' : CameraController) (z : ℚ), c.rotateCamera m (fin 0) (fin 1) = .ok c' ∧
      dotProduct (toArray c'.camera.direction) [fin 0, fin 0, fin 1] = .ok (fin z) ∧
      19 / 20 ≤ |z| := by
  obtain ⟨hc1l, hc1u⟩ := hc1
  obtain ⟨hs1l, hs1u⟩ := hs1
  have hv := rotate_facts.2.2 m hc0 hs0
  generalize hv0 : 3 / 5 * m.cos 1 - 12 / 25 * m.sin 1 = v0 at hv
  generalize hv2 : 4 / 5 * m.cos 1 + 9 / 25 * m.sin 1 = v2 at hv
  have b0l : -(21 / 250) ≤ v0 := by rw [← hv0]; linarith only [hc1l, hs1u]
  have b0u : v0 ≤ -(3 / 125) := by rw [← hv0]; linarith only [hc1u, hs1l]
  have b2l : 18 / 25 ≤ v2 := by rw [← hv2]; linarith only [hc1l, hs1l]
  have b2u : v2 ≤ 393 / 500 := by rw [← hv2]; linarith only [hc1u, hs1u]
  have htest : |dotQ (verticalQ m (3 / 5, 0, 4 / 5) 0 1) (0, 0, 1)| < 19 / 20 := by
    rw [hv]
    simp only [dotQ]
    rw [abs_lt]
    constructor <;> linarith only [b2l, b2u]
  have hw : turnedQ m (3 / 5, 0, 4 / 5) 0 1 = (v0, 0, v2) := by
    simp only [turnedQ, htest, if_true]
    exact hv
  have hv0sq : v0 * v0 ≤ 21 / 250 * (21 / 250) := by
    have := mul_le_mul (show -v0 ≤ 21 / 250 by linarith only [b0l])
      (show -v0 ≤ 21 / 250 by linarith only [b0l]) (by linarith only [b0u]) (by norm_num)
    linarith only [this]
  have hv2sq : 18 / 25 * (18 / 25) ≤ v2 * v2 :=
    mul_le_mul b2l b2l (by norm_num) (by linarith only [b2l])
  have hs : 0 < 0 + v0 * v0 + 0 * 0 + v2 * v2 := by
    have := mul_self_nonneg v0
    linarith only [this, hv2sq]
  obtain ⟨hLpos, hLle⟩ := hsqrt _ hs
  have hLdef : length3 m v0 0 v2 = m.sqrt (0 + v0 * v0 + 0 * 0 + v2 * v2) := rfl
  rw [← hLdef] at hLpos hLle
  have hrot := rotate_facts.2.1 m c (3 / 5) 0 (4 / 5) 0 1 hdir
    (by rw [hw]; exact hLpos.ne')
  rw [hw] at hrot
  refine ⟨_, 0 + v0 / length3 m v0 0 v2 * 0 + 0 / length3 m v0 0 v2 * 0
    + v2 / length3 m v0 0 v2 * 1, hrot, ?_, ?_⟩
  · simp only [toArray, dotProduct, List.length_cons, List.length_nil, ne_eq,
      not_true_eq_false, if_false, List.zipWith_cons_cons, List.zipWith_nil_right,
      List.foldl_cons, List.foldl_nil, mul_fin, add_fin, ofNat_eq, Nat.cast_zero]
  · have hz : 0 + v0 / length3 m v0 0 v2 * 0 + 0 / length3 m v0 0 v2 * 0
        + v2 / length3 m v0 0 v2 * 1 = v2 / length3 m v0 0 v2 := by ring
    rw [hz, abs_of_pos (div_pos (by linarith only [b2l]) hLpos), le_div_iff₀ hLpos]
    by_contra hlt
    push_neg at hlt
    have hsq : v2 * v2 < 19 / 20 * length3 m v0 0 v2 * (19 / 20 * length3 m v0 0 v2) :=
      mul_self_lt_mul_self (by linarith only [b2l]) hlt
    linarith only [hsq, hLle, hv0sq, hv2sq]

/-- C18, the bounds at a sample: the cosine 3/5 and the sine 4/5 at 1, and the estimate
`2 s / (s + 1)` of the square root. -/
theorem rotateCamera_exceeds_limit_witness :
    ∃ (c' : CameraController) (z : ℚ),
      (CameraController.new
        { sampleCamera with direction := (fin (3 / 5), fin 0, fin (4 / 5)) }).rotateCamera
          sampleBelow (fin 0) (fin 1) = .ok c' ∧
      dotProduct (toArray c'.camera.direction) [fin 0, fin 0, fin 1] = .ok (fin z) ∧
      19 / 20 ≤ |z| :=
  rotateCamera_exceeds_limit sampleBelow _ rfl (by norm_num [sampleBelow, sampleMath])
    (by norm_num [sampleBelow, sampleMath])
    (by norm_num [sampleBelow, sampleMath]) (by norm_num [sampleBelow, sampleMath])
    (by
      intro s hs
      have h1 : 0 < s + 1 := by linarith
      refine ⟨div_pos (by linarith) h1, ?_⟩
      show 2 * s / (s + 1) * (2 * s / (s + 1)) ≤ 101 / 100 * s
      rw [div_mul_div_comm, div_le_iff₀ (mul_pos h1 h1)]
      nlinarith [mul_self_nonneg (s - 1), mul_pos hs hs, mul_pos hs (mul_pos hs hs)])

/-- C19, counterexample.  `resetCamera` stores the direction (-1, -1, -1); its product with
itself is 3, so its length is not 1. -/
theorem resetCamera_not_unit :
    (CameraController.new
      { sampleCamera with direction := (fin 1, fin 0, fin 0) }).resetCamera.camera.direction
        = (fin (-1), fin (-1), fin (-1)) ∧
    dotProduct
      (toArray (CameraController.new
        { sampleCamera with direction := (fin 1, fin 0, fin 0) }).resetCamera.camera.direction)
      (toArray (CameraController.new
        { sampleCamera with direction := (fin 1, fin 0, fin 0) }).resetCamera.camera.direction)
        = .ok (fin 3) := by
  have hd : (CameraController.new
      { sampleCamera with direction := (fin 1, fin 0, fin 0) }).resetCamera.camera.direction
        = (fin (-1), fin (-1), fin (-1)) := by
    simp only [CameraController.resetCamera, CameraController.new, ofNat_eq, Nat.cast_one,
      neg_fin]
  refine ⟨hd, ?_⟩
  rw [hd]
  simp only [toArray, dotProduct, List.length_cons, List.length_nil, ne_eq,
    not_true_eq_false, if_false, List.zipWith_cons_cons, List.zipWith_nil_right,
    List.foldl_cons, List.foldl_nil, mul_fin, add_fin, ofNat_eq, Nat.cast_zero]
  norm_num

/-! ## The passes of `decodeMap` that remove duplicates -/

theorem dedupInner_spec {α β : Type} (same : Option α → Option α → Bool)
    (onRemove : ℕ → ℕ → β → β) (Inv : List α → β → Prop)
    (hstep : ∀ (a : List α) (b : β) (i j : ℕ), j < i → i < a.length →
      same a[i]? a[j]? = true → Inv a b → Inv (a.eraseIdx j) (onRemove i j b)) :
    ∀ (jc i : ℕ) (s : List α × β), jc ≤ i → i < s.1.length → Inv s.1 s.2 →
      (∀ q p, i < q → q < s.1.length → p < q → same s.1[q]? s.1[p]? = false) →
      (∀ p, jc ≤ p → p < i → same s.1[i]? s.1[p]? = false) →
      (dedupInner same onRemove jc i s).1 ≤ i ∧
      (dedupInner same onRemove jc i s).1 < (dedupInner same onRemove jc i s).2.1.length ∧
      Inv (dedupInner same onRemove jc i s).2.1 (dedupInner same onRemove jc i s).2.2 ∧
      (∀ q p, (dedupInner same onRemove jc i s).1 ≤ q →
        q < (dedupInner same onRemove jc i s).2.1.length → p < q →
        same (dedupInner same onRemove jc i s).2.1[q]? (dedupInner same onRemove jc i s).2.1[p]?
          = false) := by
  intro jc
  induction jc with
  | zero =>
    intro i s _ hi hinv hdone hrow
    refine ⟨le_refl _, hi, hinv, ?_⟩
    intro q p hq hql hpq
    show same s.1[q]? s.1[p]? = false
    rcases Nat.eq_or_lt_of_le hq with h | h
    · have h' : i = q := h
      subst h'
      exact hrow p (Nat.zero_le _) hpq
    · exact hdone q p h hql hpq
  | succ j ih =>
    intro i s hji hi hinv hdone hrow
    have hj : j < i := hji
    by_cases hsame : same s.1[i]? s.1[j]? = true
    · have hlen : (s.1.eraseIdx j).length = s.1.length - 1 :=
        List.length_eraseIdx_of_lt (by omega)
      have hget : ∀ t, j ≤ t → (s.1.eraseIdx j)[t]? = s.1[t + 1]? :=
        fun t ht => List.getElem?_eraseIdx_of_ge _ _ _ ht
      have hget' : ∀ t, t < j → (s.1.eraseIdx j)[t]? = s.1[t]? :=
        fun t ht => List.getElem?_eraseIdx_of_lt _ _ _ ht
      have key := ih (i - 1) (s.1.eraseIdx j, onRemove i j s.2) (by omega)
        (by show i - 1 < (s.1.eraseIdx j).length; omega)
        (hstep s.1 s.2 i j hj hi hsame hinv)
        (by
          intro q p hq hql hpq
          show same (s.1.eraseIdx j)[q]? (s.1.eraseIdx j)[p]? = false
          have hql' : q < (s.1.eraseIdx j).length := hql
          rw [hget q (by omega)]
          by_cases hp : p < j
          · rw [hget' p hp]
            exact hdone (q + 1) p (by omega) (by omega) (by omega)
          · rw [hget p (by omega)]
            exact hdone (q + 1) (p + 1) (by omega) (by omega) (by omega))
        (by
          intro p hp hpi
          show same (s.1.eraseIdx j)[i - 1]? (s.1.eraseIdx j)[p]? = false
          rw [hget (i - 1) (by omega), hget p hp]
          have e : i - 1 + 1 = i := by omega
          rw [e]
          exact hrow (p + 1) (by omega) (by omega))
      have e : dedupInner same onRemove (j + 1) i s
          = dedupInner same onRemove j (i - 1) (s.1.eraseIdx j, onRemove i j s.2) := by
        rw [dedupInner]
        simp only [hsame, if_true]
      rw [e]
      exact ⟨by have := key.1; omega, key.2⟩
    · have hns : same s.1[i]? s.1[j]? = false := by
        cases h : same s.1[i]? s.1[j]? with
        | true => exact absurd h hsame
        | false => rfl
      have key := ih i s (by omega) hi hinv hdone
        (by
          intro p hp hpi
          rcases Nat.eq_or_lt_of_le hp with h | h
          · have h' : j = p := h
            subst h'
            exact hns
          · exact hrow p h hpi)
      have e : dedupInner same onRemove (j + 1) i s = dedupInner same onRemove j i s := by
        rw [dedupInner]
        simp only [hns, Bool.false_eq_true, if_false]
      rw [e]
      exact key

theorem dedupOuter_spec {α β : Type} (same : Option α → Option α → Bool)
    (onRemove : ℕ → ℕ → β → β) (Inv : List α → β → Prop)
    (hstep : ∀ (a : List α) (b : β) (i j : ℕ), j < i → i < a.length →
      same a[i]? a[j]? = true → Inv a b → Inv (a.eraseIdx j) (onRemove i j b)) :
    ∀ (fuel ic : ℕ) (s : List α × β), ic ≤ fuel → ic ≤ s.1.length → Inv s.1 s.2 →
      (∀ q p, ic ≤ q → q < s.1.length → p < q → same s.1[q]? s.1[p]? = false) →
      Inv (dedupOuter same onRemove fuel ic s).1 (dedupOuter same onRemove fuel ic s).2 ∧
      (∀ q p, q < (dedupOuter same onRemove fuel ic s).1.length → p < q →
        same (dedupOuter same onRemove fuel ic s).1[q]? (dedupOuter same onRemove fuel ic s).1[p]?
          = false) := by
  intro fuel
  induction fuel with
  | zero =>
    intro ic s hic _ hinv hdone
    have h0 : ic = 0 := by omega
    subst h0
    exact ⟨hinv, fun q p hq hpq => hdone q p (Nat.zero_le _) hq hpq⟩
  | succ fuel ih =>
    intro ic s hic hlen hinv hdone
    cases ic with
    | zero => exact ⟨hinv, fun q p hq hpq => hdone q p (Nat.zero_le _) hq hpq⟩
    | succ i =>
      have key := dedupInner_spec same onRemove Inv hstep i i s (le_refl _) (by omega) hinv
        (fun q p hq hql hpq => hdone q p (by omega) hql hpq)
        (fun p hp hpi => absurd hpi (by omega))
      have e : dedupOuter same onRemove (fuel + 1) (i + 1) s
          = dedupOuter same onRemove fuel (dedupInner same onRemove i i s).1
              (dedupInner same onRemove i i s).2 := rfl
      rw [e]
      exact ih _ _ (by have := key.1; omega) (by have := key.2.1; omega) key.2.2.1 key.2.2.2

/-- The count of iterations given to `dedupOuter` is enough: with more of them the result is
the same. -/
theorem dedupOuter_fuel {α β : Type} (same : Option α → Option α → Bool)
    (onRemove : ℕ → ℕ → β → β) :
    ∀ (fuel ic : ℕ) (s : List α × β), ic ≤ fuel →
      dedupOuter same onRemove fuel ic s = dedupOuter same onRemove ic ic s := by
  have hle : ∀ (jc i : ℕ) (s : List α × β), (dedupInner same onRemove jc i s).1 ≤ i := by
    intro jc
    induction jc with
    | zero => intro i s; exact le_refl _
    | succ j ih =>
      intro i s
      rw [dedupInner]
      split
      · exact le_trans (ih _ _) (Nat.sub_le _ _)
      · exact ih _ _
  intro fuel
  induction fuel using Nat.strong_induction_on with
  | _ fuel ih =>
    intro ic s hic
    cases ic with
    | zero => cases fuel <;> rfl
    | succ i =>
      cases fuel with
      | zero => omega
      | succ fuel =>
        have h1 := hle i i s
        have e1 : dedupOuter same onRemove (fuel + 1) (i + 1) s
            = dedupOuter same onRemove fuel (dedupInner same onRemove i i s).1
                (dedupInner same onRemove i i s).2 := rfl
        have e2 : dedupOuter same onRemove (i + 1) (i + 1) s
            = dedupOuter same onRemove i (dedupInner same onRemove i i s).1
                (dedupInner same onRemove i i s).2 := rfl
        rw [e1, e2, ih fuel (by omega) _ _ (by omega), ih i (by omega) _ _ h1]

theorem strictEq_eq (x y : JSNum) (h : JSNum.strictEq x y = true) : x = y := by
  cases x <;> cases y <;> simp [JSNum.strictEq] at h ⊢
  exact h

theorem strictEq_self (x : JSNum) (h : x ≠ JSNum.nan) : JSNum.strictEq x x = true := by
  cases x <;> simp [JSNum.strictEq] at h ⊢

theorem zipWith_strictEq_eq : ∀ (a b : List JSNum), a.length = b.length →
    (List.zipWith JSNum.strictEq a b).all id = true → a = b
  | [], [], _, _ => rfl
  | [], _ :: _, h, _ => by simp at h
  | _ :: _, [], h, _ => by simp at h
  | x :: a, y :: b, h, hall => by
    simp only [List.zipWith_cons_cons, List.all_cons, id, Bool.and_eq_true] at hall
    rw [strictEq_eq x y hall.1, zipWith_strictEq_eq a b (by simpa using h) hall.2]

theorem isSame_eq (a b : List JSNum) (h : isSame (some a) (some b) = true) : a = b := by
  unfold isSame at h
  by_cases hl : a.length = b.length
  · simp only [hl, ne_eq, not_true_eq_false, if_false] at h
    exact zipWith_strictEq_eq a b hl h
  · simp [hl] at h

theorem isSame_self (a : List JSNum) (h : ∀ x ∈ a, x ≠ JSNum.nan) :
    isSame (some a) (some a) = true := by
  unfold isSame
  simp only [ne_eq, not_true_eq_false, if_false]
  induction a with
  | nil => rfl
  | cons x a ih =>
    simp only [List.zipWith_cons_cons, List.all_cons, id, Bool.and_eq_true]
    exact ⟨strictEq_self x (h x (List.mem_cons_self _ _)),
      ih (fun y hy => h y (List.mem_cons_of_mem _ hy))⟩

theorem renumber_spec (v : List (List JSNum)) (i j : ℕ) (hj : j < i) (hi : i < v.length)
    (hsame : isSame v[i]? v[j]? = true) (a : ℤ) (h0 : 0 ≤ a) (h1 : a < (v.length : ℤ)) :
    0 ≤ renumber i j a ∧ renumber i j a < ((v.eraseIdx j).length : ℤ) ∧
    getCell (v.eraseIdx j) (renumber i j a) = getCell v a := by
  have hlen : (v.eraseIdx j).length = v.length - 1 := List.length_eraseIdx_of_lt (by omega)
  have hij : v[i]? = v[j]? := by
    rw [List.getElem?_eq_getElem hi, List.getElem?_eq_getElem (by omega : j < v.length)]
      at hsame ⊢
    rw [isSame_eq _ _ hsame]
  obtain ⟨n, rfl⟩ := Int.eq_ofNat_of_zero_le h0
  have hn : n < v.length := by omega
  unfold renumber getCell
  by_cases h : (n : ℤ) = j
  · have hnj : n = j := by omega
    subst hnj
    have e : ((i : ℤ) - 1).toNat = i - 1 := by omega
    have hge : (i : ℤ) ≥ (n : ℤ) := by omega
    simp only [h, if_true, hge, Int.toNat_ofNat, Int.natCast_nonneg, e]
    have e2 : i - 1 + 1 = i := by omega
    refine ⟨by omega, by omega, ?_⟩
    rw [if_pos (by omega), List.getElem?_eraseIdx_of_ge _ _ _ (by omega), e2, hij]
  · simp only [h, if_false]
    by_cases hge : (n : ℤ) ≥ j
    · have e : ((n : ℤ) - 1).toNat = n - 1 := by omega
      have e2 : n - 1 + 1 = n := by omega
      simp only [hge, if_true, Int.toNat_ofNat, Int.natCast_nonneg, e]
      refine ⟨by omega, by omega, ?_⟩
      rw [if_pos (by omega), List.getElem?_eraseIdx_of_ge _ _ _ (by omega), e2]
    · simp only [hge, if_false, Int.toNat_ofNat, Int.natCast_nonneg, if_true]
      refine ⟨trivial, by omega, ?_⟩
      rw [List.getElem?_eraseIdx_of_lt _ _ _ (by omega)]

theorem renumbered_refl (m : DecodedMesh) (h : InRange m) : Renumbered m.v m.f m.v m.f := by
  refine ⟨fun x hx => hx, ?_⟩
  have aux : ∀ (f : List FaceArray), (∀ face ∈ f, ∀ a ∈ face.idx, 0 ≤ a ∧ a < (m.v.length : ℤ)) →
      List.Forall₂ (fun face face0 => face.color = face0.color ∧
        List.Forall₂ (fun a a0 => 0 ≤ a ∧ a < (m.v.length : ℤ) ∧ getCell m.v a = getCell m.v a0)
          face.idx face0.idx) f f := by
    intro f
    induction f with
    | nil => intro _; exact List.Forall₂.nil
    | cons face f ih =>
      intro hf
      refine List.Forall₂.cons ⟨rfl, ?_⟩ (ih fun g hg => hf g (List.mem_cons_of_mem _ hg))
      have hface := hf face (List.mem_cons_self _ _)
      generalize face.idx = l at hface
      induction l with
      | nil => exact List.Forall₂.nil
      | cons a l ihl =>
        exact List.Forall₂.cons
          ⟨(hface a (List.mem_cons_self _ _)).1, (hface a (List.mem_cons_self _ _)).2, rfl⟩
          (ihl fun b hb => hface b (List.mem_cons_of_mem _ hb))
  exact aux m.f h

theorem renumbered_step (v0 : List (List JSNum)) (f0 : List FaceArray) (v : List (List JSNum))
    (f : List FaceArray) (i j : ℕ) (hj : j < i) (hi : i < v.length)
    (hsame : isSame v[i]? v[j]? = true) (h : Renumbered v0 f0 v f) :
    Renumbered v0 f0 (v.eraseIdx j) (renumberFaces i j f) := by
  refine ⟨fun x hx => h.1 x (List.mem_of_mem_eraseIdx hx), ?_⟩
  unfold renumberFaces
  rw [List.forall₂_map_left_iff]
  refine List.Forall₂.imp ?_ h.2
  intro face face0 hff
  refine ⟨hff.1, ?_⟩
  show List.Forall₂ _ (face.idx.map (renumber i j)) face0.idx
  rw [List.forall₂_map_left_iff]
  refine List.Forall₂.imp ?_ hff.2
  intro a a0 haa
  have key := renumber_spec v i j hj hi hsame a haa.1 haa.2.1
  exact ⟨key.1, key.2.1, key.2.2.trans haa.2.2⟩

theorem forall₂_getElem? {α β : Type} (R : α → β → Prop) :
    ∀ (l1 : List α) (l2 : List β), List.Forall₂ R l1 l2 → ∀ k : ℕ,
      (l1[k]? = none ∧ l2[k]? = none) ∨ ∃ x y, l1[k]? = some x ∧ l2[k]? = some y ∧ R x y := by
  intro l1 l2 h
  induction h with
  | nil => intro k; left; simp
  | cons hxy _ ih =>
    intro k
    cases k with
    | zero => right; exact ⟨_, _, by simp, by simp, hxy⟩
    | succ k => simpa using ih k

theorem renumbered_cornerAt (v0 : List (List JSNum)) (f0 : List FaceArray)
    (v : List (List JSNum)) (f : List FaceArray) (h : Renumbered v0 f0 v f) (k l : ℕ) :
    cornerAt ⟨v, f⟩ k l = cornerAt ⟨v0, f0⟩ k l := by
  unfold cornerAt
  rcases forall₂_getElem? _ _ _ h.2 k with ⟨h1, h2⟩ | ⟨face, face0, h1, h2, hR⟩
  · simp only [h1, h2, Option.bind]
  · simp only [h1, h2, Option.bind]
    rcases forall₂_getElem? _ _ _ hR.2 l with ⟨g1, g2⟩ | ⟨a, a0, g1, g2, hA⟩
    · simp only [g1, g2]
    · simp only [g1, g2]
      exact hA.2.2

theorem forall₂_mem_left {α β : Type} (R : α → β → Prop) :
    ∀ (l1 : List α) (l2 : List β), List.Forall₂ R l1 l2 → ∀ x ∈ l1, ∃ y ∈ l2, R x y := by
  intro l1 l2 h
  induction h with
  | nil => intro x hx; simp at hx
  | cons hxy _ ih =>
    intro x hx
    rcases List.mem_cons.mp hx with rfl | hx
    · exact ⟨_, List.mem_cons_self _ _, hxy⟩
    · obtain ⟨y, hy, hR⟩ := ih x hx
      exact ⟨y, List.mem_cons_of_mem _ hy, hR⟩

theorem renumbered_inRange (v0 : List (List JSNum)) (f0 : List FaceArray)
    (v : List (List JSNum)) (f : List FaceArray) (h : Renumbered v0 f0 v f) :
    InRange ⟨v, f⟩ := by
  intro face hface a ha
  obtain ⟨face0, _, hR⟩ := forall₂_mem_left _ _ _ h.2 face hface
  obtain ⟨a0, _, hA⟩ := forall₂_mem_left _ _ _ hR.2 a ha
  exact ⟨hA.1, hA.2.1⟩

theorem renumbered_shape (v0 : List (List JSNum)) (f0 : List FaceArray)
    (v : List (List JSNum)) (f : List FaceArray) (h : Renumbered v0 f0 v f) (n : ℕ)
    (h3 : ∀ face ∈ f0, face.idx.length = n) : ∀ face ∈ f, face.idx.length = n := by
  intro face hface
  obtain ⟨face0, hmem, hR⟩ := forall₂_mem_left _ _ _ h.2 face hface
  rw [hR.2.length_eq]
  exact h3 face0 hmem

/-- What the pass over the vertices does: no entry of the table is the same as an earlier one,
and every index of every face denotes the coordinates it denoted before. -/
theorem dedupVertices_spec (st : DecodedMesh) (h : InRange st) :
    Renumbered st.v st.f (dedupVertices st).v (dedupVertices st).f ∧
    (∀ q p, q < (dedupVertices st).v.length → p < q →
      isSame (dedupVertices st).v[q]? (dedupVertices st).v[p]? = false) := by
  have key := dedupOuter_spec isSame renumberFaces (Renumbered st.v st.f)
    (fun a b i j hj hi hsame hinv => renumbered_step st.v st.f a b i j hj hi hsame hinv)
    st.v.length st.v.length (st.v, st.f) (le_refl _) (le_refl _) (renumbered_refl st h)
    (fun q p hq hql _ => absurd hql (by
      have : q < st.v.length → False := fun h' => by omega
      exact this))
  exact key

/-- What the pass over the faces does: the faces that stay are faces of the mesh, and no face
that stays is the same as an earlier one. -/
theorem dedupFaces_spec (st : DecodedMesh) :
    (dedupFaces st).v = st.v ∧ (∀ face ∈ (dedupFaces st).f, face ∈ st.f) ∧
    (∀ q p, q < (dedupFaces st).f.length → p < q →
      isSameFace (dedupFaces st).f[q]? (dedupFaces st).f[p]? = false) := by
  have key := dedupOuter_spec isSameFace (fun _ _ (u : Unit) => u)
    (fun (a : List FaceArray) (_ : Unit) => ∀ face ∈ a, face ∈ st.f)
    (fun a _ _ j _ _ _ hinv face hface => hinv face (List.mem_of_mem_eraseIdx hface))
    st.f.length st.f.length (st.f, ()) (le_refl _) (le_refl _) (fun face hface => hface)
    (fun q p hq hql _ => absurd hql (by
      have : q < st.f.length → False := fun h' => by omega
      exact this))
  exact ⟨rfl, key.1, key.2⟩

theorem foldlM_ok {σ α : Type} (f : σ → α → Except String σ) (P : σ → Prop) :
    ∀ (l : List α) (st : σ), P st →
      (∀ st x, x ∈ l → P st → ∃ st', f st x = .ok st' ∧ P st') →
      ∃ st', l.foldlM f st = .ok st' ∧ P st' := by
  intro l
  induction l with
  | nil => intro st h _; exact ⟨st, rfl, h⟩
  | cons x l ih =>
    intro st h hstep
    obtain ⟨st1, h1, hP1⟩ := hstep st x (List.mem_cons_self _ _) h
    obtain ⟨st2, h2, hP2⟩ := ih st1 hP1
      (fun st y hy hP => hstep st y (List.mem_cons_of_mem _ hy) hP)
    refine ⟨st2, ?_, hP2⟩
    rw [List.foldlM_cons, h1]
    exact h2

theorem foldl_inv {σ α : Type} (f : σ → α → σ) (P : σ → Prop) :
    ∀ (l : List α) (st : σ), P st → (∀ st x, x ∈ l → P st → P (f st x)) →
      P (l.foldl f st) := by
  intro l
  induction l with
  | nil => intro st h _; exact h
  | cons x l ih =>
    intro st h hstep
    exact ih _ (hstep st x (List.mem_cons_self _ _) h)
      (fun st y hy hP => hstep st y (List.mem_cons_of_mem _ hy) hP)

theorem pushPair_good (n : ℕ) (cond : Bool) (t1 t2 : List ℤ) (color : String)
    (f : List FaceArray) (hf : ∀ face ∈ f, GoodFace n face)
    (h1 : GoodFace n ⟨t1, color⟩) (h2 : GoodFace n ⟨t2, color⟩) :
    ∀ face ∈ pushPair cond t1 t2 color f, GoodFace n face := by
  intro face hface
  unfold pushPair at hface
  split at hface
  · simp only [List.mem_append, List.mem_cons, List.mem_singleton, List.not_mem_nil,
      or_false] at hface
    rcases hface with h | rfl | rfl
    · exact hf face h
    · exact h1
    · exact h2
  · exact hf face hface

theorem goodFace_triple (n : ℕ) (a b c : ℤ) (color : String) (ha : 0 ≤ a ∧ a < (n : ℤ))
    (hb : 0 ≤ b ∧ b < (n : ℤ)) (hc : 0 ≤ c ∧ c < (n : ℤ)) : GoodFace n ⟨[a, b, c], color⟩ := by
  refine ⟨rfl, ?_⟩
  intro x hx
  simp only [List.mem_cons, List.mem_singleton, List.not_mem_nil, or_false] at hx
  rcases hx with rfl | rfl | rfl
  · exact ha
  · exact hb
  · exact hc

theorem wellFormed_iff (m : DecodedMesh) :
    WellFormed m ↔ ∀ face ∈ m.f, GoodFace m.v.length face := by
  constructor
  · intro h face hface
    exact ⟨h.2 face hface, h.1 face hface⟩
  · intro h
    exact ⟨fun face hface => (h face hface).2, fun face hface => (h face hface).1⟩

theorem goodFace_mono (n k : ℕ) (face : FaceArray) (h : GoodFace n face) :
    GoodFace (n + k) face :=
  ⟨h.1, fun a ha => ⟨(h.2 a ha).1, by have := (h.2 a ha).2; push_cast; omega⟩⟩

theorem boxCell_wellFormed (num : List Char → JSNum) (data : List (List (List Char)))
    (i j : ℕ) (n : JSNum) (st : DecodedMesh) (h : WellFormed st) :
    WellFormed (boxCell num data i j n st) := by
  rw [wellFormed_iff] at h ⊢
  have hlen : (boxCell num data i j n st).v.length = st.v.length + 8 := by
    simp [boxCell]
  rw [hlen]
  have hold : ∀ face ∈ st.f, GoodFace (st.v.length + 8) face :=
    fun face hface => goodFace_mono _ 8 face (h face hface)
  have t : ∀ (a b c : ℕ) (color : String), a < 8 → b < 8 → c < 8 →
      GoodFace (st.v.length + 8)
        ⟨[(st.v.length : ℤ) + a, (st.v.length : ℤ) + b, (st.v.length : ℤ) + c], color⟩ := by
    intro a b c color ha hb hc
    exact goodFace_triple _ _ _ _ _ ⟨by omega, by push_cast; omega⟩
      ⟨by omega, by push_cast; omega⟩ ⟨by omega, by push_cast; omega⟩
  have t0 : ∀ (b c : ℕ) (color : String), b < 8 → c < 8 →
      GoodFace (st.v.length + 8)
        ⟨[(st.v.length : ℤ), (st.v.length : ℤ) + b, (st.v.length : ℤ) + c], color⟩ := by
    intro b c color hb hc
    exact goodFace_triple _ _ _ _ _ ⟨by omega, by push_cast; omega⟩
      ⟨by omega, by push_cast; omega⟩ ⟨by omega, by push_cast; omega⟩
  unfold boxCell
  simp only
  refine pushPair_good _ _ _ _ _ _ (pushPair_good _ _ _ _ _ _ (pushPair_good _ _ _ _ _ _
    (pushPair_good _ _ _ _ _ _ (pushPair_good _ _ _ _ _ _ (pushPair_good _ _ _ _ _ _ hold
    ?_ ?_) ?_ ?_) ?_ ?_) ?_ ?_) ?_ ?_) ?_ ?_
  · exact t0 1 3 _ (by omega) (by omega)
  · exact t0 2 3 _ (by omega) (by omega)
  · exact t 4 5 7 _ (by omega) (by omega) (by omega)
  · exact t 4 6 7 _ (by omega) (by omega) (by omega)
  · exact t 1 3 5 _ (by omega) (by omega) (by omega)
  · exact t 3 5 7 _ (by omega) (by omega) (by omega)
  · exact t 2 3 6 _ (by omega) (by omega) (by omega)
  · exact t 3 6 7 _ (by omega) (by omega) (by omega)
  · have := t 2 6 4 "#666666" (by omega) (by omega) (by omega)
    exact this
  · have := t0 2 4 "#666666" (by omega) (by omega)
    exact this
  · exact t0 1 4 _ (by omega) (by omega)
  · exact t 1 4 5 _ (by omega) (by omega) (by omega)

theorem scale_ne_nan (n : JSNum) (h : n ≠ JSNum.nan) : scale n ≠ JSNum.nan := by
  unfold scale
  cases n with
  | fin q => simp
  | pinf =>
    show JSNum.mul JSNum.pinf (JSNum.fin (2 : ℕ)) ≠ JSNum.nan
    simp [JSNum.mul, JSNum.infTimes]
  | ninf =>
    show JSNum.mul JSNum.ninf (JSNum.fin (2 : ℕ)) ≠ JSNum.nan
    simp [JSNum.mul, JSNum.infTimes]
  | nan => exact absurd rfl h

theorem clean_append (st : DecodedMesh) (ps : List (List JSNum)) (f : List FaceArray)
    (h : Clean st) (hps : ∀ p ∈ ps, ∀ x ∈ p, x ≠ JSNum.nan) : Clean ⟨st.v ++ ps, f⟩ := by
  intro p hp
  rcases List.mem_append.mp hp with h1 | h1
  · exact h p h1
  · exact hps p h1

theorem boxCell_clean (num : List Char → JSNum) (data : List (List (List Char)))
    (i j : ℕ) (n : JSNum) (st : DecodedMesh) (h : Clean st) (hn : n ≠ JSNum.nan) :
    Clean (boxCell num data i j n st) := by
  unfold boxCell
  simp only
  refine clean_append st _ _ h ?_
  have h0 : scale 0 ≠ JSNum.nan := scale_ne_nan 0 (by simp)
  have hf : ∀ q : ℚ, scale (JSNum.fin q) ≠ JSNum.nan := fun q => scale_ne_nan _ (by simp)
  have hsn := scale_ne_nan n hn
  intro p hp x hx
  simp only [List.mem_cons, List.mem_singleton, List.not_mem_nil, or_false] at hp
  rcases hp with rfl | rfl | rfl | rfl | rfl | rfl | rfl | rfl <;>
    simp only [List.mem_cons, List.mem_singleton, List.not_mem_nil, or_false] at hx <;>
    rcases hx with rfl | rfl | rfl <;> first | exact hf _ | exact h0 | exact hsn

theorem groundCell_wellFormed (i j : ℕ) (st : DecodedMesh) (h : WellFormed st) :
    WellFormed (groundCell i st j) := by
  rw [wellFormed_iff] at h ⊢
  have hlen : (groundCell i st j).v.length = st.v.length + 8 := by
    simp [groundCell]
  rw [hlen]
  have t : ∀ (a b c : ℕ) (color : String), a < 8 → b < 8 → c < 8 →
      GoodFace (st.v.length + 8)
        ⟨[(st.v.length : ℤ) + a, (st.v.length : ℤ) + b, (st.v.length : ℤ) + c], color⟩ := by
    intro a b c color ha hb hc
    exact goodFace_triple _ _ _ _ _ ⟨by omega, by push_cast; omega⟩
      ⟨by omega, by push_cast; omega⟩ ⟨by omega, by push_cast; omega⟩
  have t0 : ∀ (b c : ℕ) (color : String), b < 8 → c < 8 →
      GoodFace (st.v.length + 8)
        ⟨[(st.v.length : ℤ), (st.v.length : ℤ) + b, (st.v.length : ℤ) + c], color⟩ := by
    intro b c color hb hc
    exact goodFace_triple _ _ _ _ _ ⟨by omega, by push_cast; omega⟩
      ⟨by omega, by push_cast; omega⟩ ⟨by omega, by push_cast; omega⟩
  intro face hface
  unfold groundCell at hface
  simp only [List.mem_append, List.mem_cons, List.mem_singleton, List.not_mem_nil,
    or_false] at hface
  rcases hface with hf | rfl | rfl | rfl | rfl
  · exact goodFace_mono _ 8 face (h face hf)
  · exact t0 1 3 _ (by omega) (by omega)
  · exact t0 2 3 _ (by omega) (by omega)
  · exact t 4 5 7 _ (by omega) (by omega) (by omega)
  · exact t 4 6 7 _ (by omega) (by omega) (by omega)

theorem groundCell_clean (i j : ℕ) (st : DecodedMesh) (h : Clean st) :
    Clean (groundCell i st j) := by
  unfold groundCell
  simp only
  refine clean_append st _ _ h ?_
  have h0 : (0 : JSNum) ≠ JSNum.nan := by simp
  have hf : ∀ q : ℚ, scale (JSNum.fin q) ≠ JSNum.nan := fun q => scale_ne_nan _ (by simp)
  intro p hp x hx
  simp only [List.mem_cons, List.mem_singleton, List.not_mem_nil, or_false] at hp
  rcases hp with rfl | rfl | rfl | rfl | rfl | rfl | rfl | rfl <;>
    simp only [List.mem_cons, List.mem_singleton, List.not_mem_nil, or_false] at hx <;>
    rcases hx with rfl | rfl | rfl <;> first | exact hf _ | exact h0

theorem splitChar_ne_nil (sep : Char) : ∀ s : List Char, splitChar sep s ≠ []
  | [] => by simp [splitChar]
  | c :: cs => by
    unfold splitChar
    split
    · simp
    · split <;> simp

/-- Lemmas on the meshes `decodeMap` generates, proved in turn: `decodeMap_bad_header`,
`decodeMap_good_header`, `cellAt_mem`, `boxes_ok`, `ground_good`. -/
theorem decode_map_facts_1 :
    (∀ (num : List Char → JSNum) (text : List Char) (_ : trim (firstLine text) ≠ sentinel),
      decodeMap num text = .error "地图文件格式错误") ∧
    (∀ (num : List Char → JSNum) (text : List Char) (_ : trim (firstLine text) = sentinel),
      decodeMap num text =
      match boxes num (rows (linesOf text)) ⟨[], []⟩ with
      | .ok st => .ok (dedupFaces (dedupVertices (ground (rows (linesOf text)) st)))
      | .error e => .error e) ∧
    (∀ (data : List (List (List Char))) (i j : ℕ) (_ : i < data.length) (_ : j < (data.getD i []).length),
      data.getD i [] ∈ data ∧ cellAt data i j ∈ data.getD i []) ∧
    (∀ (num : List Char → JSNum) (data : List (List (List Char))) (_ : ∀ row ∈ data, ∀ s ∈ row, JSNum.lt (num s) 0 = false),
      ∃ st, boxes num data ⟨[], []⟩ = .ok st ∧ WellFormed st ∧
      ((∀ row ∈ data, ∀ s ∈ row, num s ≠ JSNum.nan) → Clean st)) ∧
    (∀ (data : List (List (List Char))) (st : DecodedMesh) (C : Prop) (_ : WellFormed st ∧ (C → Clean st)),
      WellFormed (ground data st) ∧ (C → Clean (ground data st))) := by
  have decodeMap_bad_header (num : List Char → JSNum) (text : List Char)
      (h : trim (firstLine text) ≠ sentinel) :
      decodeMap num text = .error "地图文件格式错误" := by
    have hlen : ¬ (splitChar (Char.ofNat 10) text).length = 0 := by
      rw [List.length_eq_zero]
      exact splitChar_ne_nil _ _
    have h' : trim ((splitChar (Char.ofNat 10) text).headD []) ≠ sentinel := h
    unfold decodeMap
    simp only [hlen, if_false, h', ne_eq, not_false_eq_true, if_true, bind, Except.bind, pure,
      Except.pure, throw, throwThe, MonadExceptOf.throw]
  have decodeMap_good_header (num : List Char → JSNum) (text : List Char)
      (h : trim (firstLine text) = sentinel) :
      decodeMap num text =
        match boxes num (rows (linesOf text)) ⟨[], []⟩ with
        | .ok st => .ok (dedupFaces (dedupVertices (ground (rows (linesOf text)) st)))
        | .error e => .error e := by
    clear decodeMap_bad_header
    have hlen : ¬ (splitChar (Char.ofNat 10) text).length = 0 := by
      rw [List.length_eq_zero]
      exact splitChar_ne_nil _ _
    have h' : trim ((splitChar (Char.ofNat 10) text).headD []) = sentinel := h
    unfold decodeMap
    simp only [hlen, if_false, h', ne_eq, not_true_eq_false, bind, Except.bind, pure,
      Except.pure, linesOf]
    cases boxes num (rows (splitChar (Char.ofNat 10) text)) ⟨[], []⟩ <;> rfl
  have cellAt_mem (data : List (List (List Char))) (i j : ℕ) (hi : i < data.length)
      (hj : j < (data.getD i []).length) :
      data.getD i [] ∈ data ∧ cellAt data i j ∈ data.getD i [] := by
    clear decodeMap_bad_header decodeMap_good_header
    constructor
    · rw [List.getD_eq_getElem _ _ hi]
      exact List.getElem_mem _
    · unfold cellAt
      rw [List.getD_eq_getElem _ _ hj]
      exact List.getElem_mem _
  have boxes_ok (num : List Char → JSNum) (data : List (List (List Char)))
      (hneg : ∀ row ∈ data, ∀ s ∈ row, JSNum.lt (num s) 0 = false) :
      ∃ st, boxes num data ⟨[], []⟩ = .ok st ∧ WellFormed st ∧
        ((∀ row ∈ data, ∀ s ∈ row, num s ≠ JSNum.nan) → Clean st) := by
    clear decodeMap_bad_header decodeMap_good_header
    unfold boxes
    refine foldlM_ok _ (fun st => WellFormed st ∧
      ((∀ row ∈ data, ∀ s ∈ row, num s ≠ JSNum.nan) → Clean st)) _ _ ?_ ?_
    · refine ⟨⟨?_, ?_⟩, ?_⟩
      · intro face hface; simp at hface
      · intro face hface; simp at hface
      · intro _ p hp; simp at hp
    · intro st i hi hP
      have hi' : i < data.length := List.mem_range.mp hi
      refine foldlM_ok _ (fun st => WellFormed st ∧
        ((∀ row ∈ data, ∀ s ∈ row, num s ≠ JSNum.nan) → Clean st)) _ _ hP ?_
      intro st j hj hP
      have hj' : j < (data.getD i []).length := List.mem_range.mp hj
      have hmem := cellAt_mem data i j hi' hj'
      have hlt := hneg _ hmem.1 _ hmem.2
      unfold boxStep
      simp only [hlt, Bool.false_eq_true, if_false]
      split
      · exact ⟨st, rfl, hP⟩
      · exact ⟨_, rfl, boxCell_wellFormed num data i j _ st hP.1,
          fun hc => boxCell_clean num data i j _ st (hP.2 hc) (hc _ hmem.1 _ hmem.2)⟩
  have ground_good (data : List (List (List Char))) (st : DecodedMesh) (C : Prop)
      (h : WellFormed st ∧ (C → Clean st)) :
      WellFormed (ground data st) ∧ (C → Clean (ground data st)) := by
    clear decodeMap_bad_header decodeMap_good_header cellAt_mem boxes_ok
    unfold ground
    refine foldl_inv _ (fun st => WellFormed st ∧ (C → Clean st)) _ _ h ?_
    intro st i _ hP
    refine foldl_inv _ (fun st => WellFormed st ∧ (C → Clean st)) _ _ hP ?_
    intro st j _ hP
    exact ⟨groundCell_wellFormed i j st hP.1, fun hc => groundCell_clean i j st (hP.2 hc)⟩
  exact ⟨@decodeMap_bad_header, @decodeMap_good_header, @cellAt_mem, @boxes_ok, @ground_good⟩

/-- Lemmas on the meshes `decodeMap` generates, proved in turn: `decodeMap_ok`, `foldlM_keeps`,
`boxes_wellFormed`, `generated_wellFormed`. -/
theorem decode_map_facts_2 :
    (∀ (num : List Char → JSNum) (text : List Char) (_ : trim (firstLine text) = sentinel) (_ : ∀ row ∈ rows (linesOf text), ∀ s ∈ row, JSNum.lt (num s) 0 = false),
      ∃ gen, generated num text = some gen ∧
      decodeMap num text = .ok (dedupFaces (dedupVertices gen)) ∧ WellFormed gen ∧
      ((∀ row ∈ rows (linesOf text), ∀ s ∈ row, num s ≠ JSNum.nan) → Clean gen)) ∧
    (∀ {σ α : Type} (f : σ → α → Except String σ) (P : σ → Prop) (_ : ∀ st x st1, f st x = .ok st1 → P st → P st1),
      ∀ (l : List α) (st st' : σ), l.foldlM f st = .ok st' → P st → P st') ∧
    (∀ (num : List Char → JSNum) (data : List (List (List Char))) (st : DecodedMesh) (_ : boxes num data ⟨[], []⟩ = .ok st),
      WellFormed st) ∧
    (∀ (num : List Char → JSNum) (text : List Char) (gen : DecodedMesh) (_ : generated num text = some gen),
      WellFormed gen) := by
  -- A text with the header and without a negative height is decoded: the two pairs of loops
  -- build a mesh `gen` whose faces have three indices each, all of them indices of its vertex
  -- table, and `decodeMap` returns `gen` after the two passes that remove duplicates.
  have decodeMap_ok (num : List Char → JSNum) (text : List Char)
      (hhead : trim (firstLine text) = sentinel)
      (hneg : ∀ row ∈ rows (linesOf text), ∀ s ∈ row, JSNum.lt (num s) 0 = false) :
      ∃ gen, generated num text = some gen ∧
        decodeMap num text = .ok (dedupFaces (dedupVertices gen)) ∧ WellFormed gen ∧
        ((∀ row ∈ rows (linesOf text), ∀ s ∈ row, num s ≠ JSNum.nan) → Clean gen) := by
    obtain ⟨st, hst, hP⟩ := decode_map_facts_1.2.2.2.1 num (rows (linesOf text)) hneg
    have hg := decode_map_facts_1.2.2.2.2 (rows (linesOf text)) st _ hP
    refine ⟨ground (rows (linesOf text)) st, ?_, ?_, hg.1, hg.2⟩
    · unfold generated
      rw [hst]
    · rw [decode_map_facts_1.2.1 num text hhead, hst]
  have foldlM_keeps {σ α : Type} (f : σ → α → Except String σ) (P : σ → Prop)
      (hstep : ∀ st x st1, f st x = .ok st1 → P st → P st1) :
      ∀ (l : List α) (st st' : σ), l.foldlM f st = .ok st' → P st → P st' := by
    clear decodeMap_ok
    intro l
    induction l with
    | nil =>
      intro st st' h hP
      have e : st = st' := Except.ok.inj h
      rw [← e]
      exact hP
    | cons x l ih =>
      intro st st' h hP
      rw [List.foldlM_cons] at h
      cases h1 : f st x with
      | error e =>
        rw [h1] at h
        exact absurd h (fun e' => Except.noConfusion e')
      | ok st1 =>
        rw [h1] at h
        exact ih st1 st' h (hstep st x st1 h1 hP)
  have boxes_wellFormed (num : List Char → JSNum) (data : List (List (List Char)))
      (st : DecodedMesh) (h : boxes num data ⟨[], []⟩ = .ok st) : WellFormed st := by
    clear decodeMap_ok
    unfold boxes at h
    refine foldlM_keeps _ WellFormed ?_ _ _ _ h ?_
    · intro st i st1 h1 hP
      refine foldlM_keeps _ WellFormed ?_ _ _ _ h1 hP
      intro st j st1 h2 hP
      unfold boxStep at h2
      simp only at h2
      split at h2
      · exact absurd h2 (fun e' => Except.noConfusion e')
      · split at h2
        · rw [← Except.ok.inj h2]
          exact hP
        · rw [← Except.ok.inj h2]
          exact boxCell_wellFormed num data i j _ st hP
    · exact ⟨fun face hface => by simp at hface, fun face hface => by simp at hface⟩
  have generated_wellFormed (num : List Char → JSNum) (text : List Char) (gen : DecodedMesh)
      (h : generated num text = some gen) : WellFormed gen := by
    clear decodeMap_ok foldlM_keeps
    unfold generated at h
    cases hb : boxes num (rows (linesOf text)) ⟨[], []⟩ with
    | error e => rw [hb] at h; simp at h
    | ok st =>
      rw [hb] at h
      simp only [Option.some.injEq] at h
      rw [← h]
      exact (decode_map_facts_1.2.2.2.2 _ st False ⟨boxes_wellFormed num _ st hb, fun hf => hf.elim⟩).1
  exact ⟨@decodeMap_ok, @foldlM_keeps, @boxes_wellFormed, @generated_wellFormed⟩

/-- C22.  For a map text with the header and without a negative height `decodeMap` returns a
mesh in which no entry of the vertex table is the same as an earlier entry (`isSame`: the
coordinates are equal under `===`) and every index of every face is an index of the vertex
table; when no height is `NaN` no two entries of the vertex table are equal. -/
theorem decodeMap_vertices_distinct (num : List Char → JSNum) (text : List Char)
    (hhead : trim (firstLine text) = sentinel)
    (hneg : ∀ row ∈ rows (linesOf text), ∀ s ∈ row, JSNum.lt (num s) 0 = false) :
    ∃ mesh, decodeMap num text = .ok mesh ∧
      (∀ q p, q < mesh.v.length → p < q → isSame mesh.v[q]? mesh.v[p]? = false) ∧
      InRange mesh ∧
      ((∀ row ∈ rows (linesOf text), ∀ s ∈ row, num s ≠ JSNum.nan) → mesh.v.Nodup) := by
  obtain ⟨gen, _, hdec, hwf, hclean⟩ := decode_map_facts_2.1 num text hhead hneg
  have hv := dedupVertices_spec gen hwf.1
  have hf := dedupFaces_spec (dedupVertices gen)
  refine ⟨_, hdec, ?_, ?_, ?_⟩
  · rw [hf.1]
    exact hv.2
  · intro face hface a ha
    rw [hf.1]
    exact renumbered_inRange _ _ _ _ hv.1 face (hf.2.1 face hface) a ha
  · intro hnum
    rw [hf.1, List.nodup_iff_getElem?_ne_getElem?]
    intro p q hpq hq heq
    have hne := hv.2 q p hq hpq
    rw [← heq, List.getElem?_eq_getElem (by omega : p < (dedupVertices gen).v.length)] at hne
    have hmem : (dedupVertices gen).v[p] ∈ gen.v := hv.1.1 _ (List.getElem_mem _)
    rw [isSame_self _ (hclean hnum _ hmem)] at hne
    exact absurd hne (by decide)

/-- C22, witness: the map of one cell of height 2. -/
theorem decodeMap_vertices_distinct_witness :
    ∃ mesh, decodeMap sampleNumber sampleMap = .ok mesh ∧
      (∀ q p, q < mesh.v.length → p < q → isSame mesh.v[q]? mesh.v[p]? = false) ∧
      InRange mesh ∧
      ((∀ row ∈ rows (linesOf sampleMap), ∀ s ∈ row, sampleNumber s ≠ JSNum.nan) →
        mesh.v.Nodup) :=
  decodeMap_vertices_distinct sampleNumber sampleMap (by decide!) (by decide!)

/-- C21, counterexample.  The map of one cell of height 2 is decoded into 8 vertices and 16
faces: the four faces of the squares at heights 0 and 4 that the second pair of loops adds have
the index sets of the bottom and the top of the box, `{0, 1, 3}`, `{0, 2, 3}`, `{4, 5, 7}`,
`{4, 6, 7}`, and stay because their colour is another one. -/
theorem decodeMap_one_cell :
    decodeMap sampleNumber sampleMap = .ok
      ⟨[[0, 0, 0], [2, 0, 0], [0, 2, 0], [2, 2, 0], [0, 0, 4], [2, 0, 4], [0, 2, 4], [2, 2, 4]],
       [⟨[0, 1, 3], "#666666"⟩, ⟨[0, 2, 3], "#666666"⟩, ⟨[4, 5, 7], "#666666"⟩,
        ⟨[4, 6, 7], "#666666"⟩, ⟨[1, 3, 5], "#666666"⟩, ⟨[3, 5, 7], "#666666"⟩,
        ⟨[2, 3, 6], "#666666"⟩, ⟨[3, 6, 7], "#666666"⟩, ⟨[2, 6, 4], "#666666"⟩,
        ⟨[0, 2, 4], "#666666"⟩, ⟨[0, 1, 4], "#666666"⟩, ⟨[1, 4, 5], "#666666"⟩,
        ⟨[0, 1, 3], "#434343"⟩, ⟨[0, 2, 3], "#434343"⟩, ⟨[4, 5, 7], "#434343"⟩,
        ⟨[4, 6, 7], "#434343"⟩]⟩ := by
  decide!

/-- C21, amended.  For a map text with the header and without a negative height `decodeMap`
returns a mesh whose faces have three indices each and in which no face is the same as an
earlier face in the sense of `isSameFace`: no face has the colour of an earlier face and all
its indices among the indices of that face. -/
theorem decodeMap_faces_distinct (num : List Char → JSNum) (text : List Char)
    (hhead : trim (firstLine text) = sentinel)
    (hneg : ∀ row ∈ rows (linesOf text), ∀ s ∈ row, JSNum.lt (num s) 0 = false) :
    ∃ mesh, decodeMap num text = .ok mesh ∧ (∀ face ∈ mesh.f, face.idx.length = 3) ∧
      ∀ (q p : ℕ) (later earlier : FaceArray), p < q → mesh.f[q]? = some later →
        mesh.f[p]? = some earlier →
        ¬ (later.color = earlier.color ∧ ∀ a ∈ later.idx, a ∈ earlier.idx) := by
  obtain ⟨gen, _, hdec, hwf, _⟩ := decode_map_facts_2.1 num text hhead hneg
  have hv := dedupVertices_spec gen hwf.1
  have hf := dedupFaces_spec (dedupVertices gen)
  have h3 : ∀ face ∈ (dedupFaces (dedupVertices gen)).f, face.idx.length = 3 :=
    fun face hface => renumbered_shape _ _ _ _ hv.1 3 hwf.2 face (hf.2.1 face hface)
  refine ⟨_, hdec, h3, ?_⟩
  intro q p later earlier hpq hq hp hsame
  have hql : q < (dedupFaces (dedupVertices gen)).f.length := by
    by_contra hge
    rw [List.getElem?_eq_none (by omega)] at hq
    exact absurd hq (by simp)
  have hne := hf.2.2 q p hql hpq
  rw [hq, hp] at hne
  have hl : later.idx.length = 3 := h3 later (List.getElem?_mem hq)
  have he : earlier.idx.length = 3 := h3 earlier (List.getElem?_mem hp)
  unfold isSameFace at hne
  simp only [hl, he, if_true, Bool.and_eq_false_iff, List.all_eq_false, beq_eq_false_iff_ne,
    ne_eq] at hne
  rcases hne with ⟨a, ha, hna⟩ | hcol
  · exact hna (by simpa using hsame.2 a ha)
  · exact hcol hsame.1

/-- C21, witness: the map of one cell of height 2. -/
theorem decodeMap_faces_distinct_witness :
    ∃ mesh, decodeMap sampleNumber sampleMap = .ok mesh ∧
      (∀ face ∈ mesh.f, face.idx.length = 3) ∧
      ∀ (q p : ℕ) (later earlier : FaceArray), p < q → mesh.f[q]? = some later →
        mesh.f[p]? = some earlier →
        ¬ (later.color = earlier.color ∧ ∀ a ∈ later.idx, a ∈ earlier.idx) :=
  decodeMap_faces_distinct sampleNumber sampleMap (by decide!) (by decide!)

/-- C28.  Let `gen` be the mesh that the loops of `decodeMap` build for a text.  The pass that
removes duplicate vertices keeps the number of faces, and every index of every face denotes in
the compacted vertex table the coordinates that it denoted in the vertex table of `gen`.  The
pass that removes duplicate faces, which comes after it, leaves the vertex table as it is and
only takes faces away. -/
theorem dedupVertices_keeps_corners (num : List Char → JSNum) (text : List Char)
    (gen : DecodedMesh) (hgen : generated num text = some gen) :
    (dedupVertices gen).f.length = gen.f.length ∧
    (∀ k l, cornerAt (dedupVertices gen) k l = cornerAt gen k l) ∧
    (dedupFaces (dedupVertices gen)).v = (dedupVertices gen).v ∧
    (∀ face ∈ (dedupFaces (dedupVertices gen)).f, face ∈ (dedupVertices gen).f) := by
  have hwf := decode_map_facts_2.2.2.2 num text gen hgen
  have hv := dedupVertices_spec gen hwf.1
  have hf := dedupFaces_spec (dedupVertices gen)
  exact ⟨hv.1.2.length_eq, fun k l => renumbered_cornerAt _ _ _ _ hv.1 k l, hf.1, hf.2.1⟩

/-- C28, witness: the map of one cell of height 2. -/
theorem dedupVertices_keeps_corners_witness :
    (dedupVertices sampleGenerated).f.length = sampleGenerated.f.length ∧
    (∀ k l, cornerAt (dedupVertices sampleGenerated) k l = cornerAt sampleGenerated k l) ∧
    (dedupFaces (dedupVertices sampleGenerated)).v = (dedupVertices sampleGenerated).v ∧
    (∀ face ∈ (dedupFaces (dedupVertices sampleGenerated)).f,
      face ∈ (dedupVertices sampleGenerated).f) :=
  dedupVertices_keeps_corners sampleNumber sampleMap sampleGenerated (by decide!)

theorem splitChar_append (sep : Char) (rest : List Char) :
    ∀ first : List Char, sep ∉ first →
      splitChar sep (first ++ sep :: rest) = first :: splitChar sep rest := by
  intro first
  induction first with
  | nil => intro _; simp [splitChar]
  | cons c cs ih =>
    intro h
    have hc : c ≠ sep := fun e => h (by rw [e]; exact List.mem_cons_self _ _)
    have hcs : sep ∉ cs := fun e => h (List.mem_cons_of_mem _ e)
    rw [List.cons_append, splitChar, if_neg hc, ih hcs]

theorem splitChar_single (sep : Char) :
    ∀ first : List Char, sep ∉ first → splitChar sep first = [first] := by
  intro first
  induction first with
  | nil => intro _; rfl
  | cons c cs ih =>
    intro h
    have hc : c ≠ sep := fun e => h (by rw [e]; exact List.mem_cons_self _ _)
    have hcs : sep ∉ cs := fun e => h (List.mem_cons_of_mem _ e)
    rw [splitChar, if_neg hc, ih hcs]

theorem splitChar_append_all (sep : Char) (rest : List Char) :
    ∀ first : List Char,
      splitChar sep (first ++ sep :: rest) = splitChar sep first ++ splitChar sep rest := by
  intro first
  induction first with
  | nil => simp [splitChar]
  | cons c cs ih =>
    rw [List.cons_append, splitChar, splitChar]
    by_cases hc : c = sep
    · rw [if_pos hc, if_pos hc, ih, List.cons_append]
    · rw [if_neg hc, if_neg hc, ih]
      cases h : splitChar sep cs with
      | nil => exact absurd h (splitChar_ne_nil sep cs)
      | cons l ls => rfl

theorem foldlM_error {σ α : Type} (f : σ → α → Except String σ) (e0 : String)
    (hstep : ∀ st x e, f st x = .error e → e = e0) :
    ∀ (l : List α) (st : σ) (e : String), l.foldlM f st = .error e → e = e0 := by
  intro l
  induction l with
  | nil => intro st e h; exact absurd h (fun e' => Except.noConfusion e')
  | cons x l ih =>
    intro st e h
    rw [List.foldlM_cons] at h
    cases h1 : f st x with
    | error e1 =>
      rw [h1] at h
      have : e1 = e := Except.error.inj h
      rw [← this]
      exact hstep st x e1 h1
    | ok st1 =>
      rw [h1] at h
      exact ih st1 e h

theorem boxes_error (num : List Char → JSNum) (data : List (List (List Char)))
    (st : DecodedMesh) (e : String) (h : boxes num data st = .error e) :
    e = "地图文件数据错误" := by
  unfold boxes at h
  refine foldlM_error _ _ ?_ _ _ _ h
  intro st i e h1
  refine foldlM_error _ _ ?_ _ _ _ h1
  intro st j e h2
  unfold boxStep at h2
  simp only at h2
  split at h2
  · exact (Except.error.inj h2).symm
  · split at h2 <;> exact absurd h2 (fun e' => Except.noConfusion e')

theorem decodeMap_header_iff (num : List Char → JSNum) (text : List Char) :
    decodeMap num text = .error "地图文件格式错误" ↔ trim (firstLine text) ≠ sentinel := by
  constructor
  · intro h hs
    rw [decode_map_facts_1.2.1 num text hs] at h
    cases hb : boxes num (rows (linesOf text)) ⟨[], []⟩ with
    | error e =>
      rw [hb] at h
      have h1 := boxes_error num _ _ e hb
      have h2 : e = "地图文件格式错误" := Except.error.inj h
      rw [h1] at h2
      exact absurd h2 (by decide)
    | ok st =>
      rw [hb] at h
      exact absurd h (fun e' => Except.noConfusion e')
  · exact decode_map_facts_1.1 num text

/-- C24, counterexample.  A text whose first line is empty and whose second line is the
sentinel is refused with the format error. -/
theorem decodeMap_blank_first_line :
    decodeMap sampleNumber blankFirstMap = .error "地图文件格式错误" := by
  decide!

/-- C24, amended.  `decodeMap` compares the first line of the text, trimmed, with the
sentinel: it fails with the format error exactly when they differ, whatever the lines after
the first are and also when there is no other line.  So the sentinel is accepted on the first
line, with white space around it, and on no later line. -/
theorem decodeMap_first_line (num : List Char → JSNum) (first rest : List Char)
    (hnl : Char.ofNat 10 ∉ first) :
    (decodeMap num (first ++ Char.ofNat 10 :: rest) = .error "地图文件格式错误"
      ↔ trim first ≠ sentinel) ∧
    (decodeMap num first = .error "地图文件格式错误" ↔ trim first ≠ sentinel) := by
  have h1 : firstLine (first ++ Char.ofNat 10 :: rest) = first := by
    unfold firstLine linesOf
    rw [splitChar_append _ _ _ hnl]
    rfl
  have h2 : firstLine first = first := by
    unfold firstLine linesOf
    rw [splitChar_single _ _ hnl]
    rfl
  constructor
  · rw [decodeMap_header_iff, h1]
  · rw [decodeMap_header_iff, h2]

/-- C24, witness: the sentinel with a carriage return after it, and a row of the grid. -/
theorem decodeMap_first_line_witness :
    (decodeMap sampleNumber (headerCR ++ Char.ofNat 10 :: "y2".toList)
        = .error "地图文件格式错误" ↔ trim headerCR ≠ sentinel) ∧
    (decodeMap sampleNumber headerCR = .error "地图文件格式错误"
      ↔ trim headerCR ≠ sentinel) :=
  decodeMap_first_line sampleNumber headerCR "y2".toList (by decide)

theorem parseLine_short (parseFloat : List Char → JSNum) (st : DecodedMesh) (line : List Char)
    (h : (splitWhite (trim line)).length < 4) : parseLine parseFloat st line = st := by
  have h4 : ¬ (splitWhite (trim line)).length ≥ 4 := by omega
  unfold parseLine
  simp only [h4, if_false]
  split
  · rfl
  · split
    · rfl
    · split <;> rfl

theorem faceVertices_bounds (n : ℕ) (parts : List (List Char)) :
    ∀ a ∈ faceVertices n parts, 0 ≤ a ∧ a < (n : ℤ) := by
  unfold faceVertices
  have aux : ∀ (ps : List (List Char)) (acc : List ℤ),
      (∀ a ∈ acc, 0 ≤ a ∧ a < (n : ℤ)) →
      ∀ a ∈ ps.foldl
        (fun acc vertexPart =>
          if leadingDigits vertexPart ≠ [] then
            let vertexIndex : ℤ := (digitsValue (leadingDigits vertexPart) : ℤ) - 1
            if vertexIndex ≥ 0 ∧ vertexIndex < n then acc ++ [vertexIndex] else acc
          else acc) acc, 0 ≤ a ∧ a < (n : ℤ) := by
    intro ps
    induction ps with
    | nil => intro acc h; exact h
    | cons p ps ih =>
      intro acc h
      rw [List.foldl_cons]
      apply ih
      split
      · simp only
        split
        · rename_i hr
          intro a ha
          rcases List.mem_append.mp ha with h1 | h1
          · exact h a h1
          · rw [List.mem_singleton.mp h1]
            exact hr
        · exact h
      · exact h
  exact aux _ [] (fun a ha => by simp at ha)

theorem faceVertices_drop (n : ℕ) (t : List Char) (ps : List (List Char)) (p : List Char)
    (h : leadingDigits p = [] ∨ ¬ (1 ≤ digitsValue (leadingDigits p) ∧
      digitsValue (leadingDigits p) ≤ n)) :
    faceVertices n (t :: (ps ++ [p])) = faceVertices n (t :: ps) := by
  unfold faceVertices
  simp only [List.drop_succ_cons, List.drop_zero, List.foldl_append, List.foldl_cons,
    List.foldl_nil]
  by_cases hd : leadingDigits p = []
  · simp only [hd, ne_eq, not_true_eq_false, if_false]
  · have hr : ¬ ((digitsValue (leadingDigits p) : ℤ) - 1 ≥ 0 ∧
        (digitsValue (leadingDigits p) : ℤ) - 1 < n) := by
      intro hr
      rcases h with h | h
      · exact hd h
      · exact h ⟨by omega, by omega⟩
    simp only [hd, ne_eq, not_false_eq_true, if_true, hr, if_false]

/-- C25, counterexample.  For a text with a `v` line of two coordinates, an `f` line of two
references and an `f` line with a reference to a vertex that does not exist, `parse` throws
nothing: it returns the mesh of the three good vertices with the face of the three good
references. -/
theorem parse_broken_file :
    parse sampleNumber brokenObj
      = ⟨[[0, 0, 0], [1, 0, 0], [0, 1, 0]], [⟨[0, 1, 2], "#666666"⟩]⟩ := by
  decide!

/-- C25, amended.  `parse` has no error to report, it returns a mesh for every text.  A line
with fewer than four parts, so a `v` line with fewer than three coordinates or an `f` line with
fewer than three references, is passed over: the result is the one for the text without the
line.  A reference of an `f` line that does not start with the number of a vertex read so far
is dropped from the face. -/
theorem parse_skips_malformed (parseFloat : List Char → JSNum) (pre line post : List Char)
    (hnl : Char.ofNat 10 ∉ line) (hshort : (splitWhite (trim line)).length < 4) :
    parse parseFloat (pre ++ Char.ofNat 10 :: (line ++ Char.ofNat 10 :: post))
      = parse parseFloat (pre ++ Char.ofNat 10 :: post) ∧
    ∀ (n : ℕ) (t : List Char) (ps : List (List Char)) (p : List Char),
      (leadingDigits p = [] ∨ ¬ (1 ≤ digitsValue (leadingDigits p) ∧
        digitsValue (leadingDigits p) ≤ n)) →
      faceVertices n (t :: (ps ++ [p])) = faceVertices n (t :: ps) := by
  refine ⟨?_, fun n t ps p h => faceVertices_drop n t ps p h⟩
  unfold parse
  rw [splitChar_append_all (Char.ofNat 10) (line ++ Char.ofNat 10 :: post) pre,
    splitChar_append _ _ _ hnl, splitChar_append_all (Char.ofNat 10) post pre,
    List.foldl_append, List.foldl_append, List.foldl_cons, parseLine_short _ _ _ hshort]

/-- C25, witness: a `v` line of two coordinates between two good lines. -/
theorem parse_skips_malformed_witness :
    parse sampleNumber ("v 0 0 0".toList ++ Char.ofNat 10 ::
        ("v 1 2".toList ++ Char.ofNat 10 :: "v 1 0 0".toList))
      = parse sampleNumber ("v 0 0 0".toList ++ Char.ofNat 10 :: "v 1 0 0".toList) ∧
    ∀ (n : ℕ) (t : List Char) (ps : List (List Char)) (p : List Char),
      (leadingDigits p = [] ∨ ¬ (1 ≤ digitsValue (leadingDigits p) ∧
        digitsValue (leadingDigits p) ≤ n)) →
      faceVertices n (t :: (ps ++ [p])) = faceVertices n (t :: ps) :=
  parse_skips_malformed sampleNumber "v 0 0 0".toList "v 1 2".toList "v 1 0 0".toList
    (by decide) (by decide)

theorem parseLine_keeps (parseFloat : List Char → JSNum) (st : DecodedMesh) (line : List Char)
    (h : ∀ face ∈ st.f, GoodFace st.v.length face ∧ face.color ∈ colors) :
    ∀ face ∈ (parseLine parseFloat st line).f,
      GoodFace (parseLine parseFloat st line).v.length face ∧ face.color ∈ colors := by
  have hcol : colors.getD (st.f.length % colors.length) "" ∈ colors := by
    have hlt : st.f.length % colors.length < colors.length :=
      Nat.mod_lt _ (by decide)
    rw [List.getD_eq_getElem _ _ hlt]
    exact List.getElem_mem _
  have hb := faceVertices_bounds st.v.length (splitWhite (trim line))
  have hget : ∀ k, k < (faceVertices st.v.length (splitWhite (trim line))).length →
      0 ≤ (faceVertices st.v.length (splitWhite (trim line))).getD k 0 ∧
      (faceVertices st.v.length (splitWhite (trim line))).getD k 0 < (st.v.length : ℤ) := by
    intro k hk
    rw [List.getD_eq_getElem _ _ hk]
    exact hb _ (List.getElem_mem _)
  unfold parseLine
  simp only
  split
  · exact h
  · split
    · split
      · intro face hface
        have := h face hface
        have g := goodFace_mono _ 1 face this.1
        exact ⟨by simpa using g, this.2⟩
      · exact h
    · split
      · split
        · split
          · split
            · rename_i h4
              intro face hface
              simp only [List.mem_append, List.mem_cons, List.mem_singleton, List.not_mem_nil,
                or_false] at hface
              rcases hface with hf | rfl | rfl
              · exact h face hf
              · exact ⟨goodFace_triple _ _ _ _ _ (hget 0 (by omega))
                  (hget 1 (by omega)) (hget 2 (by omega)), hcol⟩
              · exact ⟨goodFace_triple _ _ _ _ _ (hget 0 (by omega))
                  (hget 2 (by omega)) (hget 3 (by omega)), hcol⟩
            · rename_i h3 _
              intro face hface
              simp only [List.mem_append, List.mem_singleton] at hface
              rcases hface with hf | rfl
              · exact h face hf
              · refine ⟨⟨?_, ?_⟩, hcol⟩
                · simp only [List.length_take]
                  omega
                · intro a ha
                  exact hb a (List.mem_of_mem_take ha)
          · exact h
        · exact h
      · exact h

/-- C26.  For every text, every face of the mesh that `parse` returns has exactly three
indices, each of them at least 0 and below the number of vertices of the mesh, and a colour
of the list of default colours. -/
theorem parse_mesh_invariant (parseFloat : List Char → JSNum) (objContent : List Char) :
    ∀ face ∈ (parse parseFloat objContent).f,
      face.idx.length = 3 ∧
      (∀ a ∈ face.idx, 0 ≤ a ∧ a < ((parse parseFloat objContent).v.length : ℤ)) ∧
      face.color ∈ colors := by
  have key : ∀ face ∈ (parse parseFloat objContent).f,
      GoodFace (parse parseFloat objContent).v.length face ∧ face.color ∈ colors := by
    unfold parse
    refine foldl_inv _
      (fun st : DecodedMesh => ∀ face ∈ st.f, GoodFace st.v.length face ∧ face.color ∈ colors)
      _ _ ?_ ?_
    · intro face hface
      simp at hface
    · intro st line _ hP
      exact parseLine_keeps parseFloat st line hP
  intro face hface
  exact ⟨(key face hface).1.1, (key face hface).1.2, (key face hface).2⟩

/-- Lemmas on the side faces of a box, proved in turn: `lt_self_false`, `lt_of_not_pos`,
`hasBlock_outside`, `hasBlock_inside`, `neighbourHeight_inside`, `side_cond`. -/
theorem box_side_facts :
    (∀ (n : JSNum),
      JSNum.lt n n = false) ∧
    (∀ (h n : JSNum) (_ : h ≠ JSNum.nan) (_ : JSNum.lt 0 h = false) (_ : JSNum.lt 0 n = true),
      JSNum.lt h n = true) ∧
    (∀ (num : List Char → JSNum) (data : List (List (List Char))) (x y : ℤ) (z : JSNum) (_ : outsideGrid data x y),
      hasBlock num x y z data = false) ∧
    (∀ (num : List Char → JSNum) (data : List (List (List Char))) (x y : ℤ) (z : JSNum) (_ : ¬ outsideGrid data x y),
      hasBlock num x y z data
      = (JSNum.ge z 0 && JSNum.lt z (num (cellAt data x.toNat y.toNat)))) ∧
    (∀ (num : List Char → JSNum) (data : List (List (List Char))) (x y : ℤ) (_ : ¬ outsideGrid data x y),
      neighbourHeight num data x y = num (cellAt data x.toNat y.toNat)) ∧
    (∀ (num : List Char → JSNum) (data : List (List (List Char))) (x y : ℤ) (n : JSNum) (_ : JSNum.lt 0 n = true) (_ : ¬ outsideGrid data x y → num (cellAt data x.toNat y.toNat) ≠ JSNum.nan) (t1 t2 : List ℤ) (f : List FaceArray),
      pushPair (!hasBlock num x y 0 data || JSNum.lt (neighbourHeight num data x y) n) t1 t2
      "#666666" f = f ++ sideFaces num data x y n t1 t2) := by
  have lt_self_false (n : JSNum) : JSNum.lt n n = false := by
    cases n <;> simp [JSNum.lt]
  have lt_of_not_pos (h n : JSNum) (hh : h ≠ JSNum.nan) (h0 : JSNum.lt 0 h = false)
      (hn : JSNum.lt 0 n = true) : JSNum.lt h n = true := by
    clear lt_self_false
    cases h <;> cases n <;> simp [JSNum.lt] at hh h0 hn ⊢
    exact lt_of_le_of_lt h0 hn
  have hasBlock_outside (num : List Char → JSNum) (data : List (List (List Char)))
      (x y : ℤ) (z : JSNum) (h : outsideGrid data x y) : hasBlock num x y z data = false := by
    clear lt_self_false lt_of_not_pos
    unfold hasBlock
    unfold outsideGrid at h
    rw [if_pos h]
  have hasBlock_inside (num : List Char → JSNum) (data : List (List (List Char)))
      (x y : ℤ) (z : JSNum) (h : ¬ outsideGrid data x y) :
      hasBlock num x y z data
        = (JSNum.ge z 0 && JSNum.lt z (num (cellAt data x.toNat y.toNat))) := by
    clear lt_self_false lt_of_not_pos hasBlock_outside
    unfold hasBlock
    unfold outsideGrid at h
    rw [if_neg h]
  have neighbourHeight_inside (num : List Char → JSNum) (data : List (List (List Char)))
      (x y : ℤ) (h : ¬ outsideGrid data x y) :
      neighbourHeight num data x y = num (cellAt data x.toNat y.toNat) := by
    clear lt_self_false lt_of_not_pos hasBlock_outside hasBlock_inside
    unfold outsideGrid at h
    push_neg at h
    obtain ⟨hx, hy, hxl, hyl⟩ := h
    have hx' : x.toNat < data.length := by omega
    have hy' : y.toNat < (data.getD x.toNat []).length := by omega
    unfold neighbourHeight getCell cellAt
    rw [if_pos hx, List.getElem?_eq_getElem hx']
    simp only
    rw [List.getD_eq_getElem _ _ hx'] at hy' ⊢
    rw [if_pos hy, List.getElem?_eq_getElem hy', List.getD_eq_getElem _ _ hy']
  have side_cond (num : List Char → JSNum) (data : List (List (List Char))) (x y : ℤ)
      (n : JSNum) (hn : JSNum.lt 0 n = true)
      (hnum : ¬ outsideGrid data x y → num (cellAt data x.toNat y.toNat) ≠ JSNum.nan)
      (t1 t2 : List ℤ) (f : List FaceArray) :
      pushPair (!hasBlock num x y 0 data || JSNum.lt (neighbourHeight num data x y) n) t1 t2
        "#666666" f = f ++ sideFaces num data x y n t1 t2 := by
    clear lt_self_false
    unfold pushPair sideFaces
    by_cases ho : outsideGrid data x y
    · rw [hasBlock_outside num data x y 0 ho]
      simp [ho]
    · rw [hasBlock_inside num data x y 0 ho, neighbourHeight_inside num data x y ho]
      have hge : JSNum.ge 0 0 = true := by decide
      rw [hge, Bool.true_and]
      cases h0 : JSNum.lt 0 (num (cellAt data x.toNat y.toNat)) with
      | true =>
        cases hl : JSNum.lt (num (cellAt data x.toNat y.toNat)) n <;> simp [ho]
      | false =>
        have := lt_of_not_pos _ n (hnum ho) h0 hn
        simp [this]
  exact ⟨@lt_self_false, @lt_of_not_pos, @hasBlock_outside, @hasBlock_inside,
    @neighbourHeight_inside, @side_cond⟩

/-- C23.  Let the cell `(i, j)` of the grid have the height `n > 0`, and let the heights of its
neighbours inside the grid be numbers.  Then the loop body builds the box of the cell, and the
faces it adds are, in this order: the two faces of the bottom, the two faces of the top, and
for each of the neighbours `(i + 1, j)`, `(i, j + 1)`, `(i - 1, j)`, `(i, j - 1)` the two
faces of the side towards it exactly when the neighbour lies outside the grid or its height is
below `n`. -/
theorem boxCell_faces (num : List Char → JSNum) (data : List (List (List Char))) (i j : ℕ)
    (n : JSNum) (st : DecodedMesh) (hcell : n = num (cellAt data i j))
    (hn : JSNum.lt 0 n = true)
    (hnum : ∀ p ∈ [((i : ℤ) + 1, (j : ℤ)), ((i : ℤ), (j : ℤ) + 1), ((i : ℤ) - 1, (j : ℤ)),
      ((i : ℤ), (j : ℤ) - 1)],
      ¬ outsideGrid data p.1 p.2 → num (cellAt data p.1.toNat p.2.toNat) ≠ JSNum.nan) :
    boxStep num data i st j = .ok (boxCell num data i j n st) ∧
    (boxCell num data i j n st).f = st.f ++
      [⟨[(st.v.length : ℤ), (st.v.length : ℤ) + 1, (st.v.length : ℤ) + 3], "#666666"⟩,
       ⟨[(st.v.length : ℤ), (st.v.length : ℤ) + 2, (st.v.length : ℤ) + 3], "#666666"⟩,
       ⟨[(st.v.length : ℤ) + 4, (st.v.length : ℤ) + 5, (st.v.length : ℤ) + 7], "#666666"⟩,
       ⟨[(st.v.length : ℤ) + 4, (st.v.length : ℤ) + 6, (st.v.length : ℤ) + 7], "#666666"⟩]
      ++ sideFaces num data (i + 1) j n
        [(st.v.length : ℤ) + 1, (st.v.length : ℤ) + 3, (st.v.length : ℤ) + 5]
        [(st.v.length : ℤ) + 3, (st.v.length : ℤ) + 5, (st.v.length : ℤ) + 7]
      ++ sideFaces num data i (j + 1) n
        [(st.v.length : ℤ) + 2, (st.v.length : ℤ) + 3, (st.v.length : ℤ) + 6]
        [(st.v.length : ℤ) + 3, (st.v.length : ℤ) + 6, (st.v.length : ℤ) + 7]
      ++ sideFaces num data (i - 1) j n
        [(st.v.length : ℤ) + 2, (st.v.length : ℤ) + 6, (st.v.length : ℤ) + 4]
        [(st.v.length : ℤ), (st.v.length : ℤ) + 2, (st.v.length : ℤ) + 4]
      ++ sideFaces num data i (j - 1) n
        [(st.v.length : ℤ), (st.v.length : ℤ) + 1, (st.v.length : ℤ) + 4]
        [(st.v.length : ℤ) + 1, (st.v.length : ℤ) + 4, (st.v.length : ℤ) + 5] := by
  constructor
  · have h1 : JSNum.lt n 0 = false := by
      cases n <;> simp [JSNum.lt] at hn ⊢
      exact le_of_lt hn
    have h2 : JSNum.strictEq n 0 = false := by
      cases n <;> simp [JSNum.strictEq, JSNum.lt] at hn ⊢
      exact ne_of_gt hn
    unfold boxStep
    simp only [← hcell, h1, h2, Bool.false_eq_true, if_false]
  · have hbottom : hasBlock num i j (-1) data = false := by
      by_cases ho : outsideGrid data i j
      · exact box_side_facts.2.2.1 num data i j _ ho
      · rw [box_side_facts.2.2.2.1 num data i j _ ho]
        have : JSNum.ge (-1) 0 = false := by decide!
        rw [this, Bool.false_and]
    have htop : hasBlock num i j n data = false := by
      by_cases ho : outsideGrid data i j
      · exact box_side_facts.2.2.1 num data i j _ ho
      · rw [box_side_facts.2.2.2.1 num data i j _ ho]
        simp only [Int.toNat_ofNat, ← hcell, box_side_facts.1, Bool.and_false]
    unfold boxCell
    simp only [hbottom, htop, Bool.not_false]
    rw [box_side_facts.2.2.2.2.2 num data i (j - 1) n hn (hnum (↑i, ↑j - 1) (by simp)),
      box_side_facts.2.2.2.2.2 num data (i - 1) j n hn (hnum (↑i - 1, ↑j) (by simp)),
      box_side_facts.2.2.2.2.2 num data i (j + 1) n hn (hnum (↑i, ↑j + 1) (by simp)),
      box_side_facts.2.2.2.2.2 num data (i + 1) j n hn (hnum (↑i + 1, ↑j) (by simp))]
    simp only [pushPair, if_true, List.append_assoc, List.cons_append, List.nil_append]

/-- C23, witness: the cell (0, 0) of height 2 of `sampleGrid`, whose neighbour (1, 0) has the
height 3 and whose neighbour (0, 1) has the height 1; the two other neighbours are outside the
grid. -/
theorem boxCell_faces_witness :
    boxStep sampleNumber sampleGrid 0 ⟨[], []⟩ 0
      = .ok (boxCell sampleNumber sampleGrid 0 0 2 ⟨[], []⟩) ∧
    (boxCell sampleNumber sampleGrid 0 0 2 ⟨[], []⟩).f =
      [⟨[0, 1, 3], "#666666"⟩, ⟨[0, 2, 3], "#666666"⟩, ⟨[4, 5, 7], "#666666"⟩,
       ⟨[4, 6, 7], "#666666"⟩, ⟨[2, 3, 6], "#666666"⟩, ⟨[3, 6, 7], "#666666"⟩,
       ⟨[2, 6, 4], "#666666"⟩, ⟨[0, 2, 4], "#666666"⟩, ⟨[0, 1, 4], "#666666"⟩,
       ⟨[1, 4, 5], "#666666"⟩] := by
  have h := boxCell_faces sampleNumber sampleGrid 0 0 2 ⟨[], []⟩ (by decide!) (by decide!)
    (by decide!)
  refine ⟨h.1, ?_⟩
  rw [h.2]
  decide!

/-- Lemmas on the near cell of the depth buffer and the default scene, proved in turn:
`convex_between`, `weights_facts`, `pixelDepth_pos`, `f32Val_eight`, `float32Round_near`,
`fillTriangleFast_nearCell`, `finiteTriple_spec`, `le_zero_false`. -/
theorem default_scene_facts_1 :
    (∀ (a b c d0 d1 d2 : ℚ) (_ : 0 ≤ a) (_ : 0 ≤ b) (_ : 0 ≤ c) (_ : a + b + c = 1),
      Min.min d0 (Min.min d1 d2) ≤ a * d0 + b * d1 + c * d2 ∧
    a * d0 + b * d1 + c * d2 ≤ Max.max d0 (Max.max d1 d2)) ∧
    (∀ (v0 v1 v2 : ℤ × ℤ) (depths : ℚ × ℚ × ℚ) (x y : ℤ) (_ : signedArea v0 v1 v2 ≠ 0) (_ : covers v0 v1 v2 x y),
      0 ≤ (weights v0 v1 v2 x y).1 ∧ 0 ≤ (weights v0 v1 v2 x y).2.1 ∧
    0 ≤ (weights v0 v1 v2 x y).2.2 ∧
    (weights v0 v1 v2 x y).1 + (weights v0 v1 v2 x y).2.1 + (weights v0 v1 v2 x y).2.2 = 1 ∧
    pixelDepth v0 v1 v2 depths x y
      = (weights v0 v1 v2 x y).1 * depths.1 + (weights v0 v1 v2 x y).2.1 * depths.2.1
        + (weights v0 v1 v2 x y).2.2 * depths.2.2) ∧
    (∀ (v0 v1 v2 : ℤ × ℤ) (depths : ℚ × ℚ × ℚ) (x y : ℤ) (_ : signedArea v0 v1 v2 ≠ 0) (_ : covers v0 v1 v2 x y) (_ : 0 < depths.1 ∧ 0 < depths.2.1 ∧ 0 < depths.2.2),
      0 < pixelDepth v0 v1 v2 depths x y) ∧
    (f32Val 8 = 8) ∧
    (∀ (d o : ℚ) (_ : 0 < d) (_ : d < o) (_ : o ≤ f32Val 8),
      ∃ o' : ℚ, float32Round d = JSNum.fin o' ∧ 0 ≤ o' ∧ o' ≤ f32Val 8) ∧
    (∀ (m : MathFns) (r : Renderer) (v0 v1 v2 : ℤ × ℤ) (depths : ℚ × ℚ × ℚ) (rgb : List JSNum) (_ : Sized r) (_ : 0 < depths.1 ∧ 0 < depths.2.1 ∧ 0 < depths.2.2) (x y : ℤ) (_ : 0 ≤ x) (_ : x < r.width) (_ : NearCell r (y * r.width + x)),
      NearCell (fillTriangleFast m r v0 v1 v2 depths rgb) (y * r.width + x)) ∧
    (∀ (p : Option (List JSNum)) (_ : finiteTriple p = true),
      ∃ a b c : ℚ, p = some [JSNum.fin a, JSNum.fin b, JSNum.fin c]) ∧
    (∀ (z : ℚ) (_ : JSNum.le (JSNum.fin z) 0 = false),
      0 < z) := by
  have convex_between (a b c d0 d1 d2 : ℚ) (ha : 0 ≤ a) (hb : 0 ≤ b) (hc : 0 ≤ c)
      (hsum : a + b + c = 1) :
      Min.min d0 (Min.min d1 d2) ≤ a * d0 + b * d1 + c * d2 ∧
      a * d0 + b * d1 + c * d2 ≤ Max.max d0 (Max.max d1 d2) := by
    have l0 : Min.min d0 (Min.min d1 d2) ≤ d0 := min_le_left _ _
    have l1 : Min.min d0 (Min.min d1 d2) ≤ d1 := le_trans (min_le_right _ _) (min_le_left _ _)
    have l2 : Min.min d0 (Min.min d1 d2) ≤ d2 := le_trans (min_le_right _ _) (min_le_right _ _)
    have u0 : d0 ≤ Max.max d0 (Max.max d1 d2) := le_max_left _ _
    have u1 : d1 ≤ Max.max d0 (Max.max d1 d2) := le_trans (le_max_left _ _) (le_max_right _ _)
    have u2 : d2 ≤ Max.max d0 (Max.max d1 d2) := le_trans (le_max_right _ _) (le_max_right _ _)
    generalize Min.min d0 (Min.min d1 d2) = lo at l0 l1 l2 ⊢
    generalize Max.max d0 (Max.max d1 d2) = hi at u0 u1 u2 ⊢
    have elo : lo = a * lo + b * lo + c * lo := by rw [← add_mul, ← add_mul, hsum, one_mul]
    have ehi : hi = a * hi + b * hi + c * hi := by rw [← add_mul, ← add_mul, hsum, one_mul]
    constructor
    · linarith [mul_nonneg ha (sub_nonneg.mpr l0), mul_nonneg hb (sub_nonneg.mpr l1),
        mul_nonneg hc (sub_nonneg.mpr l2)]
    · linarith [mul_nonneg ha (sub_nonneg.mpr u0), mul_nonneg hb (sub_nonneg.mpr u1),
        mul_nonneg hc (sub_nonneg.mpr u2)]
  have weights_facts (v0 v1 v2 : ℤ × ℤ) (depths : ℚ × ℚ × ℚ) (x y : ℤ)
      (harea : signedArea v0 v1 v2 ≠ 0) (hc : covers v0 v1 v2 x y) :
      0 ≤ (weights v0 v1 v2 x y).1 ∧ 0 ≤ (weights v0 v1 v2 x y).2.1 ∧
      0 ≤ (weights v0 v1 v2 x y).2.2 ∧
      (weights v0 v1 v2 x y).1 + (weights v0 v1 v2 x y).2.1 + (weights v0 v1 v2 x y).2.2 = 1 ∧
      pixelDepth v0 v1 v2 depths x y
        = (weights v0 v1 v2 x y).1 * depths.1 + (weights v0 v1 v2 x y).2.1 * depths.2.1
          + (weights v0 v1 v2 x y).2.2 * depths.2.2 := by
    clear convex_between
    have hA : ((signedArea v0 v1 v2 : ℤ) : ℚ) ≠ 0 := by exact_mod_cast harea
    have hsumZ : ((v1.1 - x) * (v2.2 - y) - (v2.1 - x) * (v1.2 - y))
        + ((v2.1 - x) * (v0.2 - y) - (v0.1 - x) * (v2.2 - y))
        + ((v0.1 - x) * (v1.2 - y) - (v1.1 - x) * (v0.2 - y)) = signedArea v0 v1 v2 := by
      unfold signedArea; ring
    have hsum : (weights v0 v1 v2 x y).1 + (weights v0 v1 v2 x y).2.1
        + (weights v0 v1 v2 x y).2.2 = 1 := by
      unfold weights
      simp only
      rw [← add_mul, ← add_mul]
      have : (((v1.1 - x) * (v2.2 - y) - (v2.1 - x) * (v1.2 - y) : ℤ) : ℚ)
          + (((v2.1 - x) * (v0.2 - y) - (v0.1 - x) * (v2.2 - y) : ℤ) : ℚ)
          + (((v0.1 - x) * (v1.2 - y) - (v1.1 - x) * (v0.2 - y) : ℤ) : ℚ)
          = ((signedArea v0 v1 v2 : ℤ) : ℚ) := by exact_mod_cast hsumZ
      rw [this]
      field_simp
    have hpos : 0 ≤ (weights v0 v1 v2 x y).1 ∧ 0 ≤ (weights v0 v1 v2 x y).2.1 ∧
        0 ≤ (weights v0 v1 v2 x y).2.2 := by
      unfold covers at hc
      simp only at hc
      unfold weights
      simp only
      rcases hc with ⟨h0, h1, h2⟩ | ⟨h0, h1, h2⟩
      · have hAnn : 0 ≤ signedArea v0 v1 v2 := by rw [← hsumZ]; omega
        have hApos : (0 : ℚ) ≤ 1 / ((signedArea v0 v1 v2 : ℤ) : ℚ) :=
          one_div_nonneg.mpr (by exact_mod_cast hAnn)
        exact ⟨mul_nonneg (by exact_mod_cast h0) hApos, mul_nonneg (by exact_mod_cast h1) hApos,
          mul_nonneg (by exact_mod_cast h2) hApos⟩
      · have hAnp : signedArea v0 v1 v2 ≤ 0 := by rw [← hsumZ]; omega
        have hAneg : 1 / ((signedArea v0 v1 v2 : ℤ) : ℚ) ≤ 0 :=
          one_div_nonpos.mpr (by exact_mod_cast hAnp)
        exact ⟨mul_nonneg_of_nonpos_of_nonpos (by exact_mod_cast h0) hAneg,
          mul_nonneg_of_nonpos_of_nonpos (by exact_mod_cast h1) hAneg,
          mul_nonneg_of_nonpos_of_nonpos (by exact_mod_cast h2) hAneg⟩
    exact ⟨hpos.1, hpos.2.1, hpos.2.2, hsum, rfl⟩
  have pixelDepth_pos (v0 v1 v2 : ℤ × ℤ) (depths : ℚ × ℚ × ℚ) (x y : ℤ)
      (harea : signedArea v0 v1 v2 ≠ 0) (hc : covers v0 v1 v2 x y)
      (hd : 0 < depths.1 ∧ 0 < depths.2.1 ∧ 0 < depths.2.2) :
      0 < pixelDepth v0 v1 v2 depths x y := by
    clear convex_between
    obtain ⟨ha, hb, hc', hsum, hdepth⟩ := weights_facts v0 v1 v2 depths x y harea hc
    rw [hdepth]
    have hb' := float32_facts_4.2.2.1 _ _ _ depths.1 depths.2.1 depths.2.2 0
      (depths.1 + depths.2.1 + depths.2.2 + 1) ha hb hc' hsum hd.1 hd.2.1 hd.2.2
      (by linarith) (by linarith) (by linarith)
    exact hb'.1
  have f32Val_eight : f32Val 8 = 8 := by decide!
  have float32Round_near (d o : ℚ) (hd : 0 < d) (hdo : d < o) (ho : o ≤ f32Val 8) :
      ∃ o' : ℚ, float32Round d = JSNum.fin o' ∧ 0 ≤ o' ∧ o' ≤ f32Val 8 := by
    clear convex_between weights_facts pixelDepth_pos
    have h0 : f32Val 0 ≤ f32Val d := float32_facts_3.2.2.2.2.2.1 hd.le
    have h00 : f32Val 0 = 0 := by simp [f32Val]
    have h1 : f32Val d ≤ f32Val (f32Val 8) := float32_facts_3.2.2.2.2.2.1 (le_trans hdo.le ho)
    rw [float32_facts_3.2.2.2.2.2.2.1] at h1
    have h8 := f32Val_eight
    refine ⟨f32Val d, ?_, by linarith, h1⟩
    rw [float32_facts_3.2.2.2.2.1]
    have hn1 : ¬ ((2 : ℚ) ^ 128 ≤ f32Val d) := by
      have : (8 : ℚ) < 2 ^ 128 := by norm_num
      linarith
    have hn2 : ¬ (f32Val d ≤ -2 ^ 128) := by
      have : (0 : ℚ) < 2 ^ 128 := by norm_num
      linarith
    simp only [hn1, hn2, if_false]
  have fillTriangleFast_nearCell (m : MathFns) (r : Renderer) (v0 v1 v2 : ℤ × ℤ)
      (depths : ℚ × ℚ × ℚ) (rgb : List JSNum) (hs : Sized r)
      (hd : 0 < depths.1 ∧ 0 < depths.2.1 ∧ 0 < depths.2.2) (x y : ℤ) (hx : 0 ≤ x)
      (hxW : x < r.width) (h : NearCell r (y * r.width + x)) :
      NearCell (fillTriangleFast m r v0 v1 v2 depths rgb) (y * r.width + x) := by
    clear convex_between weights_facts f32Val_eight
    obtain ⟨o, ho, ho0, ho8⟩ := h
    have hp := fill_settings_facts.2.2.2.2 m r v0 v1 v2 depths rgb hs x y hx hxW
    have hcell : getCell (fillTriangleFast m r v0 v1 v2 depths rgb).depthBuffer (y * r.width + x)
        = (pixelAt (fillTriangleFast m r v0 v1 v2 depths rgb) (y * r.width + x)).1 := rfl
    have hold : (pixelAt r (y * r.width + x)).1 = some (JSNum.fin o) := ho
    unfold NearCell
    rw [hcell, hp]
    split
    · rename_i hbox
      unfold pixelStep
      rw [hold]
      simp only
      split
      · rename_i hcov
        have hlt : pixelDepth v0 v1 v2 depths x y < o := by
          have := hcov.2
          simpa using this
        have hpos := pixelDepth_pos v0 v1 v2 depths x y hbox.2 hcov.1 hd
        obtain ⟨o', ho', h0', h8'⟩ := float32Round_near _ o hpos hlt ho8
        refine ⟨o', ?_, h0', h8'⟩
        show some (fround (JSNum.fin (pixelDepth v0 v1 v2 depths x y))) = _
        rw [← ho']
        rfl
      · exact ⟨o, hold, ho0, ho8⟩
    · exact ⟨o, hold, ho0, ho8⟩
  have finiteTriple_spec (p : Option (List JSNum)) (h : finiteTriple p = true) :
      ∃ a b c : ℚ, p = some [JSNum.fin a, JSNum.fin b, JSNum.fin c] := by
    clear convex_between weights_facts pixelDepth_pos f32Val_eight float32Round_near fillTriangleFast_nearCell
    unfold finiteTriple at h
    split at h
    · exact ⟨_, _, _, rfl⟩
    · exact absurd h (by simp)
  have le_zero_false (z : ℚ) (h : JSNum.le (JSNum.fin z) 0 = false) : 0 < z := by
    clear convex_between weights_facts pixelDepth_pos f32Val_eight float32Round_near fillTriangleFast_nearCell finiteTriple_spec
    have : JSNum.le (JSNum.fin z) (JSNum.fin 0) = false := h
    simpa using this
  exact ⟨@convex_between, @weights_facts, @pixelDepth_pos, @f32Val_eight, @float32Round_near,
    @fillTriangleFast_nearCell, @finiteTriple_spec, @le_zero_false⟩

/-- Lemmas on the near cell of the depth buffer and the default scene, proved in turn:
`fillTriangle_nearCell`, `renderFace_nearCell`, `renderFaces_nearCell`, `float32Round_first`,
`fillTriangleFast_first`, `centre_covered`, `toInt?_floor`, `fillTriangle_round`. -/
theorem default_scene_facts_2 :
    (∀ (m : MathFns) (r : Renderer) (s0 s1 s2 : JSNum × JSNum) (d0 d1 d2 : ℚ) (rgb : List JSNum) (_ : Sized r) (_ : 0 < d0 ∧ 0 < d1 ∧ 0 < d2) (x y : ℤ) (_ : 0 ≤ x) (_ : x < r.width) (_ : NearCell r (y * r.width + x)),
      NearCell (fillTriangle m r s0 s1 s2 (JSNum.fin d0, JSNum.fin d1, JSNum.fin d2) rgb)
      (y * r.width + x)) ∧
    (∀ (m : MathFns) (r : Renderer) (face : Face) (_ : Sized r) (o0 o1 o2 x0 x1 x2 y0 y1 y2 z0 z1 z2 : ℚ) (_ : r.camera.position = (JSNum.fin o0, JSNum.fin o1, JSNum.fin o2)) (_ : length3 m x0 x1 x2 ≠ 0) (_ : length3 m y0 y1 y2 ≠ 0) (_ : length3 m z0 z1 z2 ≠ 0) (_ : finiteTriple (vertex r face.i0) = true) (_ : finiteTriple (vertex r face.i1) = true) (_ : finiteTriple (vertex r face.i2) = true) (x y : ℤ) (_ : 0 ≤ x) (_ : x < r.width) (_ : NearCell r (y * r.width + x)),
      ∃ r1, renderFace m [JSNum.fin x0, JSNum.fin x1, JSNum.fin x2]
        [JSNum.fin y0, JSNum.fin y1, JSNum.fin y2] [JSNum.fin z0, JSNum.fin z1, JSNum.fin z2]
        r face = .ok r1 ∧ NearCell r1 (y * r.width + x)) ∧
    (∀ (m : MathFns) (o0 o1 o2 x0 x1 x2 y0 y1 y2 z0 z1 z2 : ℚ) (_ : length3 m x0 x1 x2 ≠ 0) (_ : length3 m y0 y1 y2 ≠ 0) (_ : length3 m z0 z1 z2 ≠ 0) (r0 : Renderer) (_ : Sized r0) (_ : r0.camera.position = (JSNum.fin o0, JSNum.fin o1, JSNum.fin o2)) (x y : ℤ) (_ : 0 ≤ x) (_ : x < r0.width),
      ∀ (faces : List Face) (r : Renderer), SameSettings r0 r →
      (∀ face ∈ faces, finiteTriple (vertex r0 face.i0) = true ∧
        finiteTriple (vertex r0 face.i1) = true ∧ finiteTriple (vertex r0 face.i2) = true) →
      NearCell r (y * r0.width + x) →
      (renderFaces m [JSNum.fin x0, JSNum.fin x1, JSNum.fin x2]
        [JSNum.fin y0, JSNum.fin y1, JSNum.fin y2] [JSNum.fin z0, JSNum.fin z1, JSNum.fin z2]
        r faces).2 = none ∧
      NearCell (renderFaces m [JSNum.fin x0, JSNum.fin x1, JSNum.fin x2]
        [JSNum.fin y0, JSNum.fin y1, JSNum.fin y2] [JSNum.fin z0, JSNum.fin z1, JSNum.fin z2]
        r faces).1 (y * r0.width + x)) ∧
    (∀ (d : ℚ) (_ : 0 < d) (_ : d ≤ 8),
      ∃ o' : ℚ, float32Round d = JSNum.fin o' ∧ 0 ≤ o' ∧ o' ≤ f32Val 8) ∧
    (∀ (m : MathFns) (r : Renderer) (v0 v1 v2 : ℤ × ℤ) (d : ℚ) (rgb : List JSNum) (_ : Sized r) (x y : ℤ) (_ : 0 ≤ x) (_ : x < r.width) (_ : (pixelAt r (y * r.width + x)).1 = some JSNum.pinf) (_ : inBox r.width r.height v0 v1 v2 x y) (_ : signedArea v0 v1 v2 ≠ 0) (_ : covers v0 v1 v2 x y) (_ : 0 < d) (_ : d ≤ 8),
      NearCell (fillTriangleFast m r v0 v1 v2 (d, d, d) rgb) (y * r.width + x)) ∧
    (∀ (a b a' b' c : ℤ) (_ : a ≤ 319) (_ : 241 ≤ b) (_ : 321 ≤ a') (_ : 241 ≤ b') (_ : c ≤ 239),
      inBox 640 480 (a, b) (a', b') (320, c) 320 240 ∧ signedArea (a, b) (a', b') (320, c) ≠ 0 ∧
    covers (a, b) (a', b') (320, c) 320 240) ∧
    (∀ (q : ℚ),
      (JSNum.round (JSNum.fin q)).toInt? = some ⌊q + 1 / 2⌋) ∧
    (∀ (m : MathFns) (r : Renderer) (a0 b0 a1 b1 a2 b2 d0 d1 d2 : ℚ) (rgb : List JSNum),
      fillTriangle m r (JSNum.round (JSNum.fin a0), JSNum.round (JSNum.fin b0))
      (JSNum.round (JSNum.fin a1), JSNum.round (JSNum.fin b1))
      (JSNum.round (JSNum.fin a2), JSNum.round (JSNum.fin b2))
      (JSNum.fin d0, JSNum.fin d1, JSNum.fin d2) rgb
    = fillTriangleFast m r (⌊a0 + 1 / 2⌋, ⌊b0 + 1 / 2⌋) (⌊a1 + 1 / 2⌋, ⌊b1 + 1 / 2⌋)
        (⌊a2 + 1 / 2⌋, ⌊b2 + 1 / 2⌋) (d0, d1, d2) rgb) := by
  have fillTriangle_nearCell (m : MathFns) (r : Renderer) (s0 s1 s2 : JSNum × JSNum)
      (d0 d1 d2 : ℚ) (rgb : List JSNum) (hs : Sized r) (hd : 0 < d0 ∧ 0 < d1 ∧ 0 < d2)
      (x y : ℤ) (hx : 0 ≤ x) (hxW : x < r.width) (h : NearCell r (y * r.width + x)) :
      NearCell (fillTriangle m r s0 s1 s2 (JSNum.fin d0, JSNum.fin d1, JSNum.fin d2) rgb)
        (y * r.width + x) := by
    unfold fillTriangle
    split
    · rename_i e0 e1 e2 h0 h1 h2
      simp only [JSNum.toRat?, Option.some.injEq] at h0 h1 h2
      subst h0 h1 h2
      exact default_scene_facts_1.2.2.2.2.2.1 m r _ _ _ _ rgb hs hd x y hx hxW h
    · exact h
  have renderFace_nearCell (m : MathFns) (r : Renderer) (face : Face) (hs : Sized r)
      (o0 o1 o2 x0 x1 x2 y0 y1 y2 z0 z1 z2 : ℚ)
      (horigin : r.camera.position = (JSNum.fin o0, JSNum.fin o1, JSNum.fin o2))
      (hlx : length3 m x0 x1 x2 ≠ 0) (hly : length3 m y0 y1 y2 ≠ 0)
      (hlz : length3 m z0 z1 z2 ≠ 0)
      (hv0 : finiteTriple (vertex r face.i0) = true)
      (hv1 : finiteTriple (vertex r face.i1) = true)
      (hv2 : finiteTriple (vertex r face.i2) = true)
      (x y : ℤ) (hx : 0 ≤ x) (hxW : x < r.width) (h : NearCell r (y * r.width + x)) :
      ∃ r1, renderFace m [JSNum.fin x0, JSNum.fin x1, JSNum.fin x2]
          [JSNum.fin y0, JSNum.fin y1, JSNum.fin y2] [JSNum.fin z0, JSNum.fin z1, JSNum.fin z2]
          r face = .ok r1 ∧ NearCell r1 (y * r.width + x) := by
    obtain ⟨a0, b0, c0, e0⟩ := default_scene_facts_1.2.2.2.2.2.2.1 _ hv0
    obtain ⟨a1, b1, c1, e1⟩ := default_scene_facts_1.2.2.2.2.2.2.1 _ hv1
    obtain ⟨a2, b2, c2, e2⟩ := default_scene_facts_1.2.2.2.2.2.2.1 _ hv2
    have R : ∀ a b c : ℚ, reflect m (some [JSNum.fin a, JSNum.fin b, JSNum.fin c])
        (toArray r.camera.position) [JSNum.fin x0, JSNum.fin x1, JSNum.fin x2]
        [JSNum.fin y0, JSNum.fin y1, JSNum.fin y2] [JSNum.fin z0, JSNum.fin z1, JSNum.fin z2]
        = .ok [JSNum.fin (0 + (a - o0) * (x0 / length3 m x0 x1 x2)
              + (b - o1) * (x1 / length3 m x0 x1 x2) + (c - o2) * (x2 / length3 m x0 x1 x2)),
            JSNum.fin (0 + (a - o0) * (y0 / length3 m y0 y1 y2)
              + (b - o1) * (y1 / length3 m y0 y1 y2) + (c - o2) * (y2 / length3 m y0 y1 y2)),
            JSNum.fin (0 + (a - o0) * (z0 / length3 m z0 z1 z2)
              + (b - o1) * (z1 / length3 m z0 z1 z2) + (c - o2) * (z2 / length3 m z0 z1 z2))] := by
      intro a b c
      rw [horigin]
      exact render_error_facts.2.2.1 m a b c o0 o1 o2 x0 x1 x2 y0 y1 y2 z0 z1 z2 hlx hly hlz
    unfold renderFace
    simp only [e0, e1, e2, R, bind, Except.bind, pure, Except.pure, nth, List.getD_cons_zero,
      List.getD_cons_succ]
    split
    · exact ⟨r, rfl, h⟩
    · rename_i hnear
      split
      · exact ⟨r, rfl, h⟩
      · refine ⟨_, rfl, ?_⟩
        simp only [Bool.or_eq_true, not_or, Bool.not_eq_true] at hnear
        exact fillTriangle_nearCell m r _ _ _ _ _ _ _ hs
          ⟨default_scene_facts_1.2.2.2.2.2.2.2 _ hnear.1.1, default_scene_facts_1.2.2.2.2.2.2.2 _ hnear.1.2, default_scene_facts_1.2.2.2.2.2.2.2 _ hnear.2⟩
          x y hx hxW h
  have renderFaces_nearCell (m : MathFns) (o0 o1 o2 x0 x1 x2 y0 y1 y2 z0 z1 z2 : ℚ)
      (hlx : length3 m x0 x1 x2 ≠ 0) (hly : length3 m y0 y1 y2 ≠ 0)
      (hlz : length3 m z0 z1 z2 ≠ 0) (r0 : Renderer) (hs0 : Sized r0)
      (horigin : r0.camera.position = (JSNum.fin o0, JSNum.fin o1, JSNum.fin o2))
      (x y : ℤ) (hx : 0 ≤ x) (hxW : x < r0.width) :
      ∀ (faces : List Face) (r : Renderer), SameSettings r0 r →
        (∀ face ∈ faces, finiteTriple (vertex r0 face.i0) = true ∧
          finiteTriple (vertex r0 face.i1) = true ∧ finiteTriple (vertex r0 face.i2) = true) →
        NearCell r (y * r0.width + x) →
        (renderFaces m [JSNum.fin x0, JSNum.fin x1, JSNum.fin x2]
          [JSNum.fin y0, JSNum.fin y1, JSNum.fin y2] [JSNum.fin z0, JSNum.fin z1, JSNum.fin z2]
          r faces).2 = none ∧
        NearCell (renderFaces m [JSNum.fin x0, JSNum.fin x1, JSNum.fin x2]
          [JSNum.fin y0, JSNum.fin y1, JSNum.fin y2] [JSNum.fin z0, JSNum.fin z1, JSNum.fin z2]
          r faces).1 (y * r0.width + x) := by
    clear fillTriangle_nearCell
    intro faces
    induction faces with
    | nil => intro r _ _ h; exact ⟨rfl, h⟩
    | cons face rest ih =>
      intro r hss hv h
      have hw : r.width = r0.width := hss.2.2.1
      have hdata : r.data = r0.data := hss.1
      have hcam : r.camera = r0.camera := hss.2.1
      have hvr : ∀ i, vertex r i = vertex r0 i := fun i => by unfold vertex; rw [hdata]
      have hf := hv face (List.mem_cons_self _ _)
      obtain ⟨r1, hr1, hn1⟩ := renderFace_nearCell m r face (hss.sized hs0) o0 o1 o2 x0 x1 x2
        y0 y1 y2 z0 z1 z2 (by rw [hcam]; exact horigin) hlx hly hlz (by rw [hvr]; exact hf.1)
        (by rw [hvr]; exact hf.2.1) (by rw [hvr]; exact hf.2.2) x y hx (by rw [hw]; exact hxW)
        (by rw [hw]; exact h)
      have hss1 := hss.trans (float32_facts_4.2.2.2.2.2.2 m _ _ _ r r1 face hr1)
      rw [hw] at hn1
      have key := ih r1 hss1 (fun g hg => hv g (List.mem_cons_of_mem _ hg)) hn1
      unfold renderFaces
      rw [hr1]
      exact key
  have float32Round_first (d : ℚ) (hd : 0 < d) (hd8 : d ≤ 8) :
      ∃ o' : ℚ, float32Round d = JSNum.fin o' ∧ 0 ≤ o' ∧ o' ≤ f32Val 8 := by
    clear fillTriangle_nearCell renderFace_nearCell renderFaces_nearCell
    have h0 : f32Val 0 ≤ f32Val d := float32_facts_3.2.2.2.2.2.1 hd.le
    have h00 : f32Val 0 = 0 := by simp [f32Val]
    have h1 : f32Val d ≤ f32Val 8 := float32_facts_3.2.2.2.2.2.1 hd8
    have h8 := default_scene_facts_1.2.2.2.1
    refine ⟨f32Val d, ?_, by linarith, h1⟩
    rw [float32_facts_3.2.2.2.2.1]
    have hn1 : ¬ ((2 : ℚ) ^ 128 ≤ f32Val d) := by
      have : (8 : ℚ) < 2 ^ 128 := by norm_num
      linarith
    have hn2 : ¬ (f32Val d ≤ -2 ^ 128) := by
      have : (0 : ℚ) < 2 ^ 128 := by norm_num
      linarith
    simp only [hn1, hn2, if_false]
  have fillTriangleFast_first (m : MathFns) (r : Renderer) (v0 v1 v2 : ℤ × ℤ) (d : ℚ)
      (rgb : List JSNum) (hs : Sized r) (x y : ℤ) (hx : 0 ≤ x) (hxW : x < r.width)
      (hcell : (pixelAt r (y * r.width + x)).1 = some JSNum.pinf)
      (hbox : inBox r.width r.height v0 v1 v2 x y) (harea : signedArea v0 v1 v2 ≠ 0)
      (hcov : covers v0 v1 v2 x y) (hd : 0 < d) (hd8 : d ≤ 8) :
      NearCell (fillTriangleFast m r v0 v1 v2 (d, d, d) rgb) (y * r.width + x) := by
    clear fillTriangle_nearCell renderFace_nearCell renderFaces_nearCell
    have hp := fill_settings_facts.2.2.2.2 m r v0 v1 v2 (d, d, d) rgb hs x y hx hxW
    have hcellEq : getCell (fillTriangleFast m r v0 v1 v2 (d, d, d) rgb).depthBuffer
        (y * r.width + x)
        = (pixelAt (fillTriangleFast m r v0 v1 v2 (d, d, d) rgb) (y * r.width + x)).1 := rfl
    obtain ⟨ha, hb, hc, hsum, hdepth⟩ := default_scene_facts_1.2.1 v0 v1 v2 (d, d, d) x y harea hcov
    have hdd : pixelDepth v0 v1 v2 (d, d, d) x y = d := by
      rw [hdepth]
      simp only
      rw [← add_mul, ← add_mul, hsum, one_mul]
    unfold NearCell
    rw [hcellEq, hp, if_pos ⟨hbox, harea⟩]
    unfold pixelStep
    rw [hcell]
    simp only
    rw [if_pos ⟨hcov, by rw [hdd]; rfl⟩, hdd]
    obtain ⟨o', ho', h0', h8'⟩ := float32Round_first d hd hd8
    exact ⟨o', by rw [← ho']; rfl, h0', h8'⟩
  have centre_covered (a b a' b' c : ℤ) (ha : a ≤ 319) (hb : 241 ≤ b) (ha' : 321 ≤ a')
      (hb' : 241 ≤ b') (hc : c ≤ 239) :
      inBox 640 480 (a, b) (a', b') (320, c) 320 240 ∧ signedArea (a, b) (a', b') (320, c) ≠ 0 ∧
      covers (a, b) (a', b') (320, c) 320 240 := by
    clear fillTriangle_nearCell renderFace_nearCell renderFaces_nearCell float32Round_first fillTriangleFast_first
    have w0 : (a' - 320) * (c - 240) ≤ -1 := by nlinarith
    have w1 : 1 ≤ (a - 320) * (c - 240) := by nlinarith
    have w2a : (a - 320) * (b' - 240) ≤ -1 := by nlinarith
    have w2b : 1 ≤ (a' - 320) * (b - 240) := by nlinarith
    refine ⟨?_, ?_, ?_⟩
    · unfold inBox
      simp only [Nat.cast_ofNat]
      refine ⟨?_, ?_, ?_, ?_⟩
      · exact max_le (by norm_num) (le_trans (min_le_right _ _) (min_le_right _ _))
      · exact le_min (by norm_num) (le_trans (le_max_right _ _) (le_max_right _ _))
      · exact max_le (by norm_num)
          (le_trans (le_trans (min_le_right _ _) (min_le_right _ _)) (by omega))
      · exact le_min (by norm_num) (le_trans (by omega) (le_max_left _ _))
    · unfold signedArea
      simp only
      intro h
      nlinarith
    · unfold covers
      simp only
      right
      refine ⟨?_, ?_, ?_⟩ <;> nlinarith
  have toInt?_floor (q : ℚ) : (JSNum.round (JSNum.fin q)).toInt? = some ⌊q + 1 / 2⌋ := by
    clear fillTriangle_nearCell renderFace_nearCell renderFaces_nearCell float32Round_first fillTriangleFast_first centre_covered
    rw [round_fin]
    simp [JSNum.toInt?]
  have fillTriangle_round (m : MathFns) (r : Renderer) (a0 b0 a1 b1 a2 b2 d0 d1 d2 : ℚ)
      (rgb : List JSNum) :
      fillTriangle m r (JSNum.round (JSNum.fin a0), JSNum.round (JSNum.fin b0))
        (JSNum.round (JSNum.fin a1), JSNum.round (JSNum.fin b1))
        (JSNum.round (JSNum.fin a2), JSNum.round (JSNum.fin b2))
        (JSNum.fin d0, JSNum.fin d1, JSNum.fin d2) rgb
      = fillTriangleFast m r (⌊a0 + 1 / 2⌋, ⌊b0 + 1 / 2⌋) (⌊a1 + 1 / 2⌋, ⌊b1 + 1 / 2⌋)
          (⌊a2 + 1 / 2⌋, ⌊b2 + 1 / 2⌋) (d0, d1, d2) rgb := by
    clear fillTriangle_nearCell renderFace_nearCell renderFaces_nearCell float32Round_first fillTriangleFast_first centre_covered
    unfold fillTriangle
    simp only [toInt?_floor, JSNum.toRat?]
  exact ⟨@fillTriangle_nearCell, @renderFace_nearCell, @renderFaces_nearCell,
    @float32Round_first, @fillTriangleFast_first, @centre_covered, @toInt?_floor,
    @fillTriangle_round⟩

/-- Lemmas on the near cell of the depth buffer and the default scene, proved in turn:
`getDotReflection_fin`, `fovlize_fin`, `screenDot_fin`, `default_reflect`,
`default_screen_bounds`, `default_face_zero`, `defaultScene_facts`, `default_faces_finite`. -/
theorem default_scene_facts_3 :
    (∀ (f px py pz : ℚ) (_ : f + pz ≠ 0),
      getDotReflection [JSNum.fin px, JSNum.fin py, JSNum.fin pz] (JSNum.fin f)
      = [JSNum.fin (f * px / (f + pz)), JSNum.fin (f * py / (f + pz))]) ∧
    (∀ (m : MathFns) (r : Renderer) (f v a b : ℚ) (_ : r.camera.focus = JSNum.fin f) (_ : r.camera.fov = JSNum.fin v) (_ : (r.width : ℚ) ≠ 0) (_ : 2 * f * m.tan (v / 2) ≠ 0) (_ : 2 * f * m.tan (v / 2) * r.height / r.width ≠ 0),
      fovlize m r [JSNum.fin a, JSNum.fin b]
      = [JSNum.fin (a * r.width / (2 * f * m.tan (v / 2))),
         JSNum.fin (b * r.height / (2 * f * m.tan (v / 2) * r.height / r.width))]) ∧
    (∀ (r : Renderer) (a b : ℚ),
      screenDot r [JSNum.fin a, JSNum.fin b]
      = (JSNum.round (JSNum.fin (a + r.width / 2)), JSNum.round (JSNum.fin (r.height / 2 - b)))) ∧
    (∀ (m : MathFns) (_ : m.sqrt 2 ≠ 0) (_ : m.sqrt 6 ≠ 0) (_ : m.sqrt 3 ≠ 0) (a b c : ℚ),
      reflect m (some [JSNum.fin a, JSNum.fin b, JSNum.fin c])
        [JSNum.fin 3, JSNum.fin 3, JSNum.fin 3] [JSNum.fin (-1), JSNum.fin 1, JSNum.fin 0]
        [JSNum.fin (-1), JSNum.fin (-1), JSNum.fin 2]
        [JSNum.fin (-1), JSNum.fin (-1), JSNum.fin (-1)]
      = .ok [JSNum.fin ((b - a) / m.sqrt 2), JSNum.fin ((2 * c - a - b) / m.sqrt 6),
          JSNum.fin ((9 - a - b - c) / m.sqrt 3)]) ∧
    (∀ (s2 s6 s3 t : ℚ) (_ : 0 < s2) (_ : s2 ≤ 2) (_ : 0 < s6) (_ : s6 ≤ 3) (_ : 1 ≤ s3) (_ : 0 < t) (_ : t ≤ 1),
      ⌊1 * ((0 - 1) / s2) / (1 + 8 / s3) * 640 / (2 * 1 * t) + 640 / 2 + 1 / 2⌋ ≤ 319 ∧
    241 ≤ ⌊(480 : ℚ) / 2 - 1 * ((2 * 0 - 1 - 0) / s6) / (1 + 8 / s3) * 480
      / (2 * 1 * t * 480 / 640) + 1 / 2⌋ ∧
    321 ≤ ⌊1 * ((1 - 0) / s2) / (1 + 8 / s3) * 640 / (2 * 1 * t) + 640 / 2 + 1 / 2⌋ ∧
    241 ≤ ⌊(480 : ℚ) / 2 - 1 * ((2 * 0 - 0 - 1) / s6) / (1 + 8 / s3) * 480
      / (2 * 1 * t * 480 / 640) + 1 / 2⌋ ∧
    ⌊1 * ((0 - 0) / s2) / (1 + 8 / s3) * 640 / (2 * 1 * t) + 640 / 2 + 1 / 2⌋ = 320 ∧
    ⌊(480 : ℚ) / 2 - 1 * ((2 * 1 - 0 - 0) / s6) / (1 + 8 / s3) * 480
      / (2 * 1 * t * 480 / 640) + 1 / 2⌋ ≤ 239) ∧
    (∀ (m : MathFns) (r : Renderer) (_ : Sized r) (_ : r.width = 640) (_ : r.height = 480) (_ : r.camera = defaultCamera) (_ : r.data = defaultData) (_ : r.renderDistance = JSNum.fin 50) (_ : (pixelAt r (240 * 640 + 320)).1 = some JSNum.pinf) (_ : 0 < m.sqrt 2 ∧ m.sqrt 2 ≤ 2) (_ : 0 < m.sqrt 6 ∧ m.sqrt 6 ≤ 3) (_ : 1 ≤ m.sqrt 3) (_ : 0 < m.tan (884279719003555 / 1125899906842624 / 2) ∧
      m.tan (884279719003555 / 1125899906842624 / 2) ≤ 1),
      ∃ r1, renderFace m [JSNum.fin (-1), JSNum.fin 1, JSNum.fin 0]
        [JSNum.fin (-1), JSNum.fin (-1), JSNum.fin 2]
        [JSNum.fin (-1), JSNum.fin (-1), JSNum.fin (-1)]
        r ⟨0, 1, 2, some "#ff0000"⟩ = .ok r1 ∧
      NearCell r1 (240 * 640 + 320)) ∧
    (Sized (resetBuffers defaultScene) ∧ (resetBuffers defaultScene).width = 640 ∧
    (resetBuffers defaultScene).height = 480 ∧
    (resetBuffers defaultScene).camera = defaultCamera ∧
    (resetBuffers defaultScene).data = defaultData ∧
    (resetBuffers defaultScene).renderDistance = JSNum.fin 50 ∧
    (pixelAt (resetBuffers defaultScene) (240 * 640 + 320)).1 = some JSNum.pinf) ∧
    (∀ face ∈ defaultData.f, finiteTriple (getCell defaultData.v face.i0) = true ∧
      finiteTriple (getCell defaultData.v face.i1) = true ∧
      finiteTriple (getCell defaultData.v face.i2) = true) := by
  have getDotReflection_fin (f px py pz : ℚ) (hz : f + pz ≠ 0) :
      getDotReflection [JSNum.fin px, JSNum.fin py, JSNum.fin pz] (JSNum.fin f)
        = [JSNum.fin (f * px / (f + pz)), JSNum.fin (f * py / (f + pz))] := by
    unfold getDotReflection
    simp only [nth, List.getD_cons_zero, List.getD_cons_succ, mul_fin, add_fin, div_fin _ _ hz]
  have fovlize_fin (m : MathFns) (r : Renderer) (f v a b : ℚ)
      (hf : r.camera.focus = JSNum.fin f) (hv : r.camera.fov = JSNum.fin v)
      (hW : (r.width : ℚ) ≠ 0) (hT : 2 * f * m.tan (v / 2) ≠ 0)
      (hTH : 2 * f * m.tan (v / 2) * r.height / r.width ≠ 0) :
      fovlize m r [JSNum.fin a, JSNum.fin b]
        = [JSNum.fin (a * r.width / (2 * f * m.tan (v / 2))),
           JSNum.fin (b * r.height / (2 * f * m.tan (v / 2) * r.height / r.width))] := by
    clear getDotReflection_fin
    unfold fovlize
    simp only [hf, hv, ofNat_eq, Nat.cast_ofNat, div_fin _ _ (two_ne_zero : (2 : ℚ) ≠ 0), tan_fin,
      mul_fin, nth, List.getD_cons_zero, List.getD_cons_succ, div_fin _ _ hW, div_fin _ _ hT,
      div_fin _ _ hTH]
  have screenDot_fin (r : Renderer) (a b : ℚ) :
      screenDot r [JSNum.fin a, JSNum.fin b]
        = (JSNum.round (JSNum.fin (a + r.width / 2)), JSNum.round (JSNum.fin (r.height / 2 - b))) := by
    clear getDotReflection_fin fovlize_fin
    unfold screenDot
    simp only [nth, List.getD_cons_zero, List.getD_cons_succ, ofNat_eq, Nat.cast_ofNat,
      div_fin _ _ (two_ne_zero : (2 : ℚ) ≠ 0), add_fin, sub_fin]
  have default_reflect (m : MathFns) (h2 : m.sqrt 2 ≠ 0) (h6 : m.sqrt 6 ≠ 0)
      (h3 : m.sqrt 3 ≠ 0) (a b c : ℚ) :
      reflect m (some [JSNum.fin a, JSNum.fin b, JSNum.fin c])
          [JSNum.fin 3, JSNum.fin 3, JSNum.fin 3] [JSNum.fin (-1), JSNum.fin 1, JSNum.fin 0]
          [JSNum.fin (-1), JSNum.fin (-1), JSNum.fin 2]
          [JSNum.fin (-1), JSNum.fin (-1), JSNum.fin (-1)]
        = .ok [JSNum.fin ((b - a) / m.sqrt 2), JSNum.fin ((2 * c - a - b) / m.sqrt 6),
            JSNum.fin ((9 - a - b - c) / m.sqrt 3)] := by
    clear getDotReflection_fin fovlize_fin screenDot_fin
    have l2 : length3 m (-1) 1 0 = m.sqrt 2 := by
      unfold length3; norm_num
    have l6 : length3 m (-1) (-1) 2 = m.sqrt 6 := by
      unfold length3; norm_num
    have l3 : length3 m (-1) (-1) (-1) = m.sqrt 3 := by
      unfold length3; norm_num
    show reflectDotToNewAxis m _ _ _ _ _ = _
    rw [render_error_facts.2.2.1 m a b c 3 3 3 (-1) 1 0 (-1) (-1) 2 (-1) (-1) (-1)
      (by rw [l2]; exact h2) (by rw [l6]; exact h6) (by rw [l3]; exact h3), l2, l6, l3]
    have e1 : 0 + (a - 3) * (-1 / m.sqrt 2) + (b - 3) * (1 / m.sqrt 2) + (c - 3) * (0 / m.sqrt 2)
        = (b - a) / m.sqrt 2 := by
      field_simp
    have e2 : 0 + (a - 3) * (-1 / m.sqrt 6) + (b - 3) * (-1 / m.sqrt 6) + (c - 3) * (2 / m.sqrt 6)
        = (2 * c - a - b) / m.sqrt 6 := by
      field_simp; ring
    have e3 : 0 + (a - 3) * (-1 / m.sqrt 3) + (b - 3) * (-1 / m.sqrt 3)
        + (c - 3) * (-1 / m.sqrt 3) = (9 - a - b - c) / m.sqrt 3 := by
      field_simp; ring
    rw [e1, e2, e3]
  have default_screen_bounds (s2 s6 s3 t : ℚ) (h2p : 0 < s2) (h2u : s2 ≤ 2) (h6p : 0 < s6)
      (h6u : s6 ≤ 3) (h3 : 1 ≤ s3) (htp : 0 < t) (htu : t ≤ 1) :
      ⌊1 * ((0 - 1) / s2) / (1 + 8 / s3) * 640 / (2 * 1 * t) + 640 / 2 + 1 / 2⌋ ≤ 319 ∧
      241 ≤ ⌊(480 : ℚ) / 2 - 1 * ((2 * 0 - 1 - 0) / s6) / (1 + 8 / s3) * 480
        / (2 * 1 * t * 480 / 640) + 1 / 2⌋ ∧
      321 ≤ ⌊1 * ((1 - 0) / s2) / (1 + 8 / s3) * 640 / (2 * 1 * t) + 640 / 2 + 1 / 2⌋ ∧
      241 ≤ ⌊(480 : ℚ) / 2 - 1 * ((2 * 0 - 0 - 1) / s6) / (1 + 8 / s3) * 480
        / (2 * 1 * t * 480 / 640) + 1 / 2⌋ ∧
      ⌊1 * ((0 - 0) / s2) / (1 + 8 / s3) * 640 / (2 * 1 * t) + 640 / 2 + 1 / 2⌋ = 320 ∧
      ⌊(480 : ℚ) / 2 - 1 * ((2 * 1 - 0 - 0) / s6) / (1 + 8 / s3) * 480
        / (2 * 1 * t * 480 / 640) + 1 / 2⌋ ≤ 239 := by
    clear getDotReflection_fin fovlize_fin screenDot_fin default_reflect
    have h3p : 0 < s3 := by linarith only [h3]
    have hG : 320 / 9 ≤ 1 / (1 + 8 / s3) * (320 / t) := by
      have h1 : 1 / 9 ≤ 1 / (1 + 8 / s3) := by
        apply one_div_le_one_div_of_le (by positivity)
        have : 8 / s3 ≤ 8 := by
          rw [div_le_iff₀ h3p]
          linarith only [h3]
        linarith only [this]
      have h2' : (320 : ℚ) ≤ 320 / t := by
        rw [le_div_iff₀ htp]
        linarith only [htu]
      calc (320 : ℚ) / 9 = 1 / 9 * 320 := by ring
        _ ≤ 1 / (1 + 8 / s3) * (320 / t) :=
          mul_le_mul h1 h2' (by norm_num) (by positivity)
    have hP2 : 1 / 2 ≤ 1 / s2 := one_div_le_one_div_of_le h2p h2u
    have hP6 : 1 / 3 ≤ 1 / s6 := one_div_le_one_div_of_le h6p h6u
    have hGpos : 0 < 1 / (1 + 8 / s3) * (320 / t) := by positivity
    have hA : 17 ≤ 1 / (1 + 8 / s3) * (320 / t) * (1 / s2) := by
      have := mul_le_mul hG hP2 (by norm_num) hGpos.le
      exact le_trans (by norm_num) this
    have hB : 11 ≤ 1 / (1 + 8 / s3) * (320 / t) * (1 / s6) := by
      have := mul_le_mul hG hP6 (by norm_num) hGpos.le
      exact le_trans (by norm_num) this
    have hz : (1 : ℚ) + 8 / s3 ≠ 0 := by positivity
    have x0 : 1 * ((0 - 1) / s2) / (1 + 8 / s3) * 640 / (2 * 1 * t) + 640 / 2
        = 320 - 1 / (1 + 8 / s3) * (320 / t) * (1 / s2) := by
      ring
    have y0 : (480 : ℚ) / 2 - 1 * ((2 * 0 - 1 - 0) / s6) / (1 + 8 / s3) * 480
        / (2 * 1 * t * 480 / 640) = 240 + 1 / (1 + 8 / s3) * (320 / t) * (1 / s6) := by
      ring
    have x1 : 1 * ((1 - 0) / s2) / (1 + 8 / s3) * 640 / (2 * 1 * t) + 640 / 2
        = 320 + 1 / (1 + 8 / s3) * (320 / t) * (1 / s2) := by
      ring
    have y1 : (480 : ℚ) / 2 - 1 * ((2 * 0 - 0 - 1) / s6) / (1 + 8 / s3) * 480
        / (2 * 1 * t * 480 / 640) = 240 + 1 / (1 + 8 / s3) * (320 / t) * (1 / s6) := by
      ring
    have x2 : 1 * ((0 - 0) / s2) / (1 + 8 / s3) * 640 / (2 * 1 * t) + 640 / 2 = 320 := by
      norm_num
    have y2 : (480 : ℚ) / 2 - 1 * ((2 * 1 - 0 - 0) / s6) / (1 + 8 / s3) * 480
        / (2 * 1 * t * 480 / 640) = 240 - 2 * (1 / (1 + 8 / s3) * (320 / t) * (1 / s6)) := by
      ring
    rw [x0, y0, x1, y1, x2, y2]
    generalize 1 / (1 + 8 / s3) * (320 / t) * (1 / s2) = A at hA
    generalize 1 / (1 + 8 / s3) * (320 / t) * (1 / s6) = B at hB
    refine ⟨?_, ?_, ?_, ?_, ?_, ?_⟩
    · have : ⌊320 - A + 1 / 2⌋ < 320 := Int.floor_lt.mpr (by push_cast; linarith only [hA, hB])
      omega
    · exact Int.le_floor.mpr (by push_cast; linarith only [hA, hB])
    · exact Int.le_floor.mpr (by push_cast; linarith only [hA, hB])
    · exact Int.le_floor.mpr (by push_cast; linarith only [hA, hB])
    · rw [Int.floor_eq_iff]; norm_num
    · have : ⌊240 - 2 * B + 1 / 2⌋ < 240 := Int.floor_lt.mpr (by push_cast; linarith only [hA, hB])
      omega
  have default_face_zero (m : MathFns) (r : Renderer) (hs : Sized r) (hW : r.width = 640)
      (hH : r.height = 480) (hcam : r.camera = defaultCamera) (hdata : r.data = defaultData)
      (hrd : r.renderDistance = JSNum.fin 50)
      (hcell : (pixelAt r (240 * 640 + 320)).1 = some JSNum.pinf)
      (h2 : 0 < m.sqrt 2 ∧ m.sqrt 2 ≤ 2) (h6 : 0 < m.sqrt 6 ∧ m.sqrt 6 ≤ 3)
      (h3 : 1 ≤ m.sqrt 3)
      (ht : 0 < m.tan (884279719003555 / 1125899906842624 / 2) ∧
        m.tan (884279719003555 / 1125899906842624 / 2) ≤ 1) :
      ∃ r1, renderFace m [JSNum.fin (-1), JSNum.fin 1, JSNum.fin 0]
          [JSNum.fin (-1), JSNum.fin (-1), JSNum.fin 2]
          [JSNum.fin (-1), JSNum.fin (-1), JSNum.fin (-1)]
          r ⟨0, 1, 2, some "#ff0000"⟩ = .ok r1 ∧
        NearCell r1 (240 * 640 + 320) := by
    obtain ⟨h2p, h2u⟩ := h2
    obtain ⟨h6p, h6u⟩ := h6
    obtain ⟨htp, htu⟩ := ht
    have h3p : 0 < m.sqrt 3 := by linarith
    have hb := default_screen_bounds (m.sqrt 2) (m.sqrt 6) (m.sqrt 3)
      (m.tan (884279719003555 / 1125899906842624 / 2)) h2p h2u h6p h6u h3 htp htu
    have R := default_reflect m h2p.ne' h6p.ne' h3p.ne'
    generalize m.sqrt 2 = s2 at *
    generalize m.sqrt 6 = s6 at *
    generalize m.sqrt 3 = s3 at *
    generalize hst : m.tan (884279719003555 / 1125899906842624 / 2) = t at *
    have hWq : (r.width : ℚ) = 640 := by rw [hW]; norm_num
    have hHq : (r.height : ℚ) = 480 := by rw [hH]; norm_num
    have hWi : (r.width : ℤ) = 640 := by rw [hW]; norm_num
    have hf : r.camera.focus = JSNum.fin 1 := by rw [hcam]; rfl
    have hv : r.camera.fov = JSNum.fin (884279719003555 / 1125899906842624) := by
      rw [hcam]; rfl
    have hpos : toArray r.camera.position = [JSNum.fin 3, JSNum.fin 3, JSNum.fin 3] := by
      rw [hcam]; rfl
    have v0 : vertex r 0 = some [JSNum.fin 1, JSNum.fin 0, JSNum.fin 0] := by
      unfold vertex; rw [hdata]; rfl
    have v1 : vertex r 1 = some [JSNum.fin 0, JSNum.fin 1, JSNum.fin 0] := by
      unfold vertex; rw [hdata]; rfl
    have v2 : vertex r 2 = some [JSNum.fin 0, JSNum.fin 0, JSNum.fin 1] := by
      unfold vertex; rw [hdata]; rfl
    have hd : (9 - 1 - 0 - 0) / s3 = 8 / s3 := by norm_num
    have hd' : (9 - 0 - 1 - 0) / s3 = 8 / s3 := by norm_num
    have hd'' : (9 - 0 - 0 - 1) / s3 = 8 / s3 := by norm_num
    have hdpos : 0 < 8 / s3 := by positivity
    have hd8 : 8 / s3 ≤ 8 := by
      rw [div_le_iff₀ h3p]
      nlinarith
    have hz : (1 : ℚ) + 8 / s3 ≠ 0 := by positivity
    have hT : 2 * 1 * m.tan (884279719003555 / 1125899906842624 / 2) ≠ 0 := by
      rw [hst]; positivity
    have hTH : 2 * 1 * m.tan (884279719003555 / 1125899906842624 / 2) * (r.height : ℚ)
        / (r.width : ℚ) ≠ 0 := by
      rw [hst, hWq, hHq]; positivity
    have hWne : (r.width : ℚ) ≠ 0 := by rw [hWq]; norm_num
    have hnear : JSNum.le (JSNum.fin (8 / s3)) 0 = false := by
      show decide (8 / s3 ≤ ((0 : ℕ) : ℚ)) = false
      simp only [Nat.cast_zero, decide_eq_false_iff_not, not_le]
      exact hdpos
    have hfar : JSNum.ge (JSNum.fin (8 / s3)) (JSNum.fin 50) = false := by
      show decide ((50 : ℚ) ≤ 8 / s3) = false
      simp only [decide_eq_false_iff_not, not_le]
      linarith
    obtain ⟨b1, b2, b3, b4, b5, b6⟩ := hb
    have hcov := default_scene_facts_2.2.2.2.2.2.1 _ _ _ _ _ b1 b2 b3 b4 b6
    have key := default_scene_facts_2.2.2.2.2.1 m r _ _ _ (8 / s3) (getColorRGB (some "#ff0000")) hs
      320 240 (by norm_num) (by rw [hWi]; norm_num) (by rw [hWi]; exact hcell)
      (by rw [hW, hH]; exact hcov.1) hcov.2.1 hcov.2.2 hdpos hd8
    rw [hWi] at key
    refine ⟨_, ?_, key⟩
    unfold renderFace
    simp only [v0, v1, v2, hpos, R, bind, Except.bind, pure, Except.pure, nth,
      List.getD_cons_zero, List.getD_cons_succ, hd, hd', hd'', hnear, hrd, hfar, hf,
      Bool.or_self, Bool.and_self, Bool.false_eq_true, if_false,
      getDotReflection_fin 1 _ _ _ hz, fovlize_fin m r 1 _ _ _ hf hv hWne hT hTH,
      screenDot_fin, hst, hWq, hHq, default_scene_facts_2.2.2.2.2.2.2.2, b5]
  have defaultScene_facts :
      Sized (resetBuffers defaultScene) ∧ (resetBuffers defaultScene).width = 640 ∧
      (resetBuffers defaultScene).height = 480 ∧
      (resetBuffers defaultScene).camera = defaultCamera ∧
      (resetBuffers defaultScene).data = defaultData ∧
      (resetBuffers defaultScene).renderDistance = JSNum.fin 50 ∧
      (pixelAt (resetBuffers defaultScene) (240 * 640 + 320)).1 = some JSNum.pinf := by
    clear getDotReflection_fin fovlize_fin screenDot_fin default_reflect default_screen_bounds default_face_zero
    have hs : Sized defaultScene := fresh_buffer_facts.2.2.2.2.2.1 _ _ 640 480 true true (by norm_num)
    refine ⟨(fresh_buffer_facts.1 _).sized hs, rfl, rfl, rfl, rfl, rfl, ?_⟩
    rw [fresh_buffer_facts.2.1 defaultScene hs _ (by norm_num)
      (by show (240 * 640 + 320 : ℤ) < ((640 : ℕ) : ℤ) * ((480 : ℕ) : ℤ); norm_num)]
  have default_faces_finite :
      ∀ face ∈ defaultData.f, finiteTriple (getCell defaultData.v face.i0) = true ∧
        finiteTriple (getCell defaultData.v face.i1) = true ∧
        finiteTriple (getCell defaultData.v face.i2) = true := by
    clear getDotReflection_fin fovlize_fin screenDot_fin default_reflect default_screen_bounds default_face_zero defaultScene_facts
    decide!
  exact ⟨@getDotReflection_fin, @fovlize_fin, @screenDot_fin, @default_reflect,
    @default_screen_bounds, @default_face_zero, @defaultScene_facts, @default_faces_finite⟩

/-- C27.  Let the square roots of 2, 6 and 3 and the tangent of half the field of view that
`Math.sqrt` and `Math.tan` return lie in the ranges given, which hold the true values.
Rendering the default model of `index.js`, 20 vertices and 20 faces, with the camera of
`index.js` on a canvas of 640 by 480 pixels throws nothing, and afterwards the cell of the
depth buffer of the pixel (320, 240) in the middle of the canvas holds a finite number: the
first face, the triangle (1,0,0), (0,1,0), (0,0,1) around the axis of the camera, covers that
pixel, and no later face can make the cell infinite again. -/
theorem render_default_fills (m : MathFns)
    (h2 : 0 < m.sqrt 2 ∧ m.sqrt 2 ≤ 2) (h6 : 0 < m.sqrt 6 ∧ m.sqrt 6 ≤ 3)
    (h3 : 1 ≤ m.sqrt 3)
    (ht : 0 < m.tan (884279719003555 / 1125899906842624 / 2) ∧
      m.tan (884279719003555 / 1125899906842624 / 2) ≤ 1) :
    defaultData.v.length = 20 ∧ defaultData.f.length = 20 ∧
    (render m defaultScene).2 = none ∧
    ∃ q : ℚ, getCell (render m defaultScene).1.depthBuffer (240 * 640 + 320)
      = some (JSNum.fin q) := by
  refine ⟨rfl, rfl, ?_⟩
  have hfacts := default_scene_facts_3.2.2.2.2.2.2.1
  unfold render
  simp only
  generalize resetBuffers defaultScene = r0 at hfacts ⊢
  obtain ⟨hs, hW, hH, hcam, hdata, hrd, hcell⟩ := hfacts
  have hbasis : cameraBasis (toArray r0.camera.direction)
      = .ok ([JSNum.fin (-1), JSNum.fin 1, JSNum.fin 0],
          [JSNum.fin (-1), JSNum.fin (-1), JSNum.fin 2],
          [JSNum.fin (-1), JSNum.fin (-1), JSNum.fin (-1)]) := by
    rw [hcam]
    decide!
  have hfaces : r0.data.f = ⟨0, 1, 2, some "#ff0000"⟩ :: defaultData.f.tail := by
    rw [hdata]; rfl
  obtain ⟨r1, hr1, hn1⟩ := default_scene_facts_3.2.2.2.2.2.1 m r0 hs hW hH hcam hdata hrd hcell h2 h6 h3 ht
  have hss1 := float32_facts_4.2.2.2.2.2.2 m _ _ _ r0 r1 _ hr1
  have l2 : length3 m (-1) 1 0 ≠ 0 := by
    unfold length3; norm_num; exact h2.1.ne'
  have l6 : length3 m (-1) (-1) 2 ≠ 0 := by
    unfold length3; norm_num; exact h6.1.ne'
  have l3 : length3 m (-1) (-1) (-1) ≠ 0 := by
    unfold length3; norm_num
    have : 0 < m.sqrt 3 := by linarith
    exact this.ne'
  have hWi : (r0.width : ℤ) = 640 := by rw [hW]; norm_num
  have hrest := default_scene_facts_2.2.2.1 m 3 3 3 (-1) 1 0 (-1) (-1) 2 (-1) (-1) (-1) l2 l6 l3 r0 hs
    (by rw [hcam]; rfl) 320 240 (by norm_num) (by rw [hWi]; norm_num) defaultData.f.tail r1 hss1
    (by
      intro face hface
      unfold vertex
      rw [hdata]
      exact default_scene_facts_3.2.2.2.2.2.2.2 face (List.mem_of_mem_tail hface))
    (by rw [hWi]; exact hn1)
  rw [hWi] at hrest
  rw [hbasis]
  simp only
  rw [hfaces, renderFaces, hr1]
  simp only
  obtain ⟨hnone, o, ho, _, _⟩ := hrest
  exact ⟨hnone, o, ho⟩

/-- C27, witness: the sample functions, whose square roots of 2, 6 and 3 are 1, 2 and 1 and
whose tangent of an angle is the angle. -/
theorem render_default_fills_witness :
    defaultData.v.length = 20 ∧ defaultData.f.length = 20 ∧
    (render sampleMath defaultScene).2 = none ∧
    ∃ q : ℚ, getCell (render sampleMath defaultScene).1.depthBuffer (240 * 640 + 320)
      = some (JSNum.fin q) :=
  render_default_fills sampleMath (by decide!) (by decide!) (by decide!) (by decide!)

/-- C26, witness: the face that `parse` returns for `brokenObj`. -/
theorem parse_mesh_invariant_witness :
    (⟨[0, 1, 2], "#666666"⟩ : FaceArray) ∈ (parse sampleNumber brokenObj).f ∧
    (⟨[0, 1, 2], "#666666"⟩ : FaceArray).idx.length = 3 ∧
    (∀ a ∈ (⟨[0, 1, 2], "#666666"⟩ : FaceArray).idx,
      0 ≤ a ∧ a < ((parse sampleNumber brokenObj).v.length : ℤ)) ∧
    (⟨[0, 1, 2], "#666666"⟩ : FaceArray).color ∈ colors :=
  ⟨by decide!, parse_mesh_invariant sampleNumber brokenObj ⟨[0, 1, 2], "#666666"⟩ (by decide!)⟩

/-! ## Rounding to 64-bit floats -/

/-- Lemmas on rounding to the nearest 64-bit float, proved in turn: `log2Search_spec`,
`log2Search_low`, `le_log2_of_le`, `log2_lt_of_lt`, `f64Exp_def`, `two_zpow_succ64`,
`two_zpow_self64`, `spacing_pos64`. -/
theorem float64_facts_1 :
    (∀ (q : ℚ) (s : ℕ) (lo : ℤ) (_ : (2 : ℚ) ^ lo ≤ q) (_ : q < (2 : ℚ) ^ (lo + 2 ^ s)),
      (2 : ℚ) ^ (log2Search q s lo) ≤ q ∧ q < (2 : ℚ) ^ (log2Search q s lo + 1)) ∧
    (∀ (q : ℚ) (s : ℕ) (lo : ℤ) (_ : q < (2 : ℚ) ^ lo),
      log2Search q s lo = lo) ∧
    (∀ (a : ℚ) (e : ℤ) (_ : 0 < a) (_ : (2 : ℚ) ^ e ≤ a),
      e ≤ Int.log 2 a) ∧
    (∀ (a : ℚ) (e : ℤ) (_ : 0 < a) (_ : a < (2 : ℚ) ^ e),
      Int.log 2 a < e) ∧
    (∀ (a : ℚ) (_ : 0 < a),
      f64Exp a = max (Int.log 2 a) (-1022)) ∧
    (∀ (e : ℤ),
      (2 : ℚ) ^ (e + 1) = 9007199254740992 * 2 ^ (e - 52)) ∧
    (∀ (e : ℤ),
      (2 : ℚ) ^ e = 4503599627370496 * 2 ^ (e - 52)) ∧
    (∀ (e : ℤ),
      (0 : ℚ) < 2 ^ (e - 52)) := by
  have log2Search_spec (q : ℚ) (s : ℕ) (lo : ℤ) (h1 : (2 : ℚ) ^ lo ≤ q)
      (h2 : q < (2 : ℚ) ^ (lo + 2 ^ s)) :
      (2 : ℚ) ^ (log2Search q s lo) ≤ q ∧ q < (2 : ℚ) ^ (log2Search q s lo + 1) := by
    induction s generalizing lo with
    | zero =>
      simp only [log2Search]
      exact ⟨h1, by simpa using h2⟩
    | succ s ih =>
      simp only [log2Search]
      split_ifs with h
      · apply ih _ h
        have : lo + 2 ^ s + 2 ^ s = lo + 2 ^ (s + 1) := by ring
        rw [this]; exact h2
      · exact ih _ h1 (not_le.mp h)
  have log2Search_low (q : ℚ) (s : ℕ) (lo : ℤ) (h : q < (2 : ℚ) ^ lo) :
      log2Search q s lo = lo := by
    clear log2Search_spec
    induction s with
    | zero => rfl
    | succ s ih =>
      simp only [log2Search]
      have h2 : (2 : ℚ) ^ lo ≤ 2 ^ (lo + 2 ^ s) :=
        zpow_le_zpow_right₀ (by norm_num) (by have : (0 : ℤ) < 2 ^ s := by positivity
                                              omega)
      have h3 : ¬ ((2 : ℚ) ^ (lo + 2 ^ s) ≤ q) := by linarith
      simp only [h3, if_false]
      exact ih
  have le_log2_of_le (a : ℚ) (e : ℤ) (ha : 0 < a) (h : (2 : ℚ) ^ e ≤ a) : e ≤ Int.log 2 a :=
    (Int.zpow_le_iff_le_log (b := 2) (by norm_num) ha).mp (by simpa using h)
  have log2_lt_of_lt (a : ℚ) (e : ℤ) (ha : 0 < a) (h : a < (2 : ℚ) ^ e) : Int.log 2 a < e :=
    (Int.lt_zpow_iff_log_lt (b := 2) (by norm_num) ha).mp (by simpa using h)
  have f64Exp_def (a : ℚ) (ha : 0 < a) : f64Exp a = max (Int.log 2 a) (-1022) := by
    unfold f64Exp
    split_ifs with h
    · have := le_log2_of_le a 2047 ha h
      omega
    · push_neg at h
      by_cases hlow : a < (2 : ℚ) ^ (-2048 : ℤ)
      · rw [log2Search_low a 12 (-2048) hlow]
        have := log2_lt_of_lt a (-2048) ha hlow
        omega
      · push_neg at hlow
        have e1 : (-2048 : ℤ) + 2 ^ 12 = 2048 := by norm_num
        have h2 : a < (2 : ℚ) ^ ((-2048 : ℤ) + 2 ^ 12) := by
          rw [e1]
          exact lt_of_lt_of_le h (zpow_le_zpow_right₀ (by norm_num) (by norm_num))
        have hs := log2Search_spec a 12 (-2048) hlow h2
        rw [log2_eq a _ ha hs.1 hs.2]
  have two_zpow_succ64 (e : ℤ) : (2 : ℚ) ^ (e + 1) = 9007199254740992 * 2 ^ (e - 52) := by
    clear log2Search_spec log2Search_low le_log2_of_le log2_lt_of_lt f64Exp_def
    have : (2 : ℚ) ^ (e + 1) = 2 ^ (53 : ℤ) * 2 ^ (e - 52) := by
      rw [← zpow_add₀ (two_ne_zero)]; congr 1; ring
    rw [this]; norm_num
  have two_zpow_self64 (e : ℤ) : (2 : ℚ) ^ e = 4503599627370496 * 2 ^ (e - 52) := by
    clear log2Search_spec log2Search_low le_log2_of_le log2_lt_of_lt f64Exp_def two_zpow_succ64
    have : (2 : ℚ) ^ e = 2 ^ (52 : ℤ) * 2 ^ (e - 52) := by
      rw [← zpow_add₀ (two_ne_zero)]; congr 1; ring
    rw [this]; norm_num
  have spacing_pos64 (e : ℤ) : (0 : ℚ) < 2 ^ (e - 52) := zpow_pos (by norm_num) _
  exact ⟨@log2Search_spec, @log2Search_low, @le_log2_of_le, @log2_lt_of_lt, @f64Exp_def,
    @two_zpow_succ64, @two_zpow_self64, @spacing_pos64⟩

/-- Lemmas on rounding to the nearest 64-bit float, proved in turn: `f64Exp_ge`, `f64Exp_mono`,
`lt_two_zpow_f64Exp`, `f64Mag_le`, `f64Mag_ge`, `f64Mag_nonneg`, `two_zpow_f64Exp_le`,
`f64Mag_mono`. -/
theorem float64_facts_2 :
    (∀ (a : ℚ),
      -1022 ≤ f64Exp a) ∧
    (∀ {a b : ℚ} (_ : 0 < a) (_ : a ≤ b),
      f64Exp a ≤ f64Exp b) ∧
    (∀ (a : ℚ),
      a < 2 ^ (f64Exp a + 1)) ∧
    (∀ (a : ℚ),
      f64Mag a ≤ 2 ^ (f64Exp a + 1)) ∧
    (∀ (a : ℚ) (_ : 2 ^ (f64Exp a) ≤ a),
      2 ^ (f64Exp a) ≤ f64Mag a) ∧
    (∀ {a : ℚ} (_ : 0 ≤ a),
      0 ≤ f64Mag a) ∧
    (∀ {a : ℚ} (_ : 0 < a) (_ : -1022 < f64Exp a),
      2 ^ (f64Exp a) ≤ a) ∧
    (∀ {a b : ℚ} (_ : 0 < a) (_ : a ≤ b),
      f64Mag a ≤ f64Mag b) := by
  have f64Exp_ge (a : ℚ) : -1022 ≤ f64Exp a := by
    unfold f64Exp
    split_ifs with h
    · have h0 : 0 < a := lt_of_lt_of_le (by positivity) h
      have := float64_facts_1.2.2.1 a 2047 h0 h
      omega
    · exact le_max_right _ _
  have f64Exp_mono {a b : ℚ} (ha : 0 < a) (h : a ≤ b) : f64Exp a ≤ f64Exp b := by
    clear f64Exp_ge
    rw [float64_facts_1.2.2.2.2.1 a ha, float64_facts_1.2.2.2.2.1 b (lt_of_lt_of_le ha h)]
    exact max_le_max (Int.log_mono_right ha h) le_rfl
  have lt_two_zpow_f64Exp (a : ℚ) : a < 2 ^ (f64Exp a + 1) := by
    clear f64Exp_ge f64Exp_mono
    by_cases ha : 0 < a
    swap
    · have : (0 : ℚ) < 2 ^ (f64Exp a + 1) := by positivity
      linarith
    have h1 : a < (2 : ℚ) ^ (Int.log 2 a + 1) := by
      simpa using Int.lt_zpow_succ_log_self (b := 2) (by norm_num) a
    have h2 : (2 : ℚ) ^ (Int.log 2 a + 1) ≤ 2 ^ (f64Exp a + 1) :=
      zpow_le_zpow_right₀ (by norm_num) (by rw [float64_facts_1.2.2.2.2.1 a ha]; omega)
    linarith
  have f64Mag_le (a : ℚ) : f64Mag a ≤ 2 ^ (f64Exp a + 1) := by
    clear f64Exp_ge f64Exp_mono
    unfold f64Mag
    have hu := float64_facts_1.2.2.2.2.2.2.2 (f64Exp a)
    rw [float64_facts_1.2.2.2.2.2.1]
    apply mul_le_mul_of_nonneg_right _ hu.le
    have : a / 2 ^ (f64Exp a - 52) < ((9007199254740992 : ℤ) : ℚ) + 1 / 2 := by
      rw [div_lt_iff₀ hu]
      have := lt_two_zpow_f64Exp a
      rw [float64_facts_1.2.2.2.2.2.1] at this
      push_cast
      nlinarith
    exact_mod_cast float32_facts_1.2.1 _ _ this
  have f64Mag_ge (a : ℚ) (h : 2 ^ (f64Exp a) ≤ a) : 2 ^ (f64Exp a) ≤ f64Mag a := by
    clear f64Exp_ge f64Exp_mono lt_two_zpow_f64Exp f64Mag_le
    unfold f64Mag
    have hu := float64_facts_1.2.2.2.2.2.2.2 (f64Exp a)
    rw [float64_facts_1.2.2.2.2.2.2.1] at h ⊢
    apply mul_le_mul_of_nonneg_right _ hu.le
    have : ((4503599627370496 : ℤ) : ℚ) - 1 / 2 < a / 2 ^ (f64Exp a - 52) := by
      rw [lt_div_iff₀ hu]
      push_cast
      nlinarith
    exact_mod_cast float32_facts_1.2.2.1 _ _ this
  have f64Mag_nonneg {a : ℚ} (ha : 0 ≤ a) : 0 ≤ f64Mag a := by
    clear f64Exp_ge f64Exp_mono lt_two_zpow_f64Exp f64Mag_le f64Mag_ge
    unfold f64Mag
    have hu := float64_facts_1.2.2.2.2.2.2.2 (f64Exp a)
    apply mul_nonneg _ hu.le
    have : ((0 : ℤ) : ℚ) - 1 / 2 < a / 2 ^ (f64Exp a - 52) := by
      have : 0 ≤ a / 2 ^ (f64Exp a - 52) := div_nonneg ha hu.le
      push_cast; linarith
    exact_mod_cast float32_facts_1.2.2.1 _ _ this
  have two_zpow_f64Exp_le {a : ℚ} (ha : 0 < a) (h : -1022 < f64Exp a) : 2 ^ (f64Exp a) ≤ a := by
    clear f64Exp_ge f64Exp_mono lt_two_zpow_f64Exp f64Mag_le f64Mag_ge f64Mag_nonneg
    have he : f64Exp a = Int.log 2 a := by
      rw [float64_facts_1.2.2.2.2.1 a ha] at h ⊢
      omega
    rw [he]
    simpa using Int.zpow_log_le_self (b := 2) (by norm_num) ha
  have f64Mag_mono {a b : ℚ} (ha : 0 < a) (h : a ≤ b) : f64Mag a ≤ f64Mag b := by
    clear lt_two_zpow_f64Exp f64Mag_nonneg
    rcases (f64Exp_mono ha h).lt_or_eq with hlt | heq
    · have hb : 0 < b := lt_of_lt_of_le ha h
      have h1 := f64Mag_le a
      have h2 := f64Mag_ge b (two_zpow_f64Exp_le hb (by have := f64Exp_ge a; omega))
      have h3 : (2 : ℚ) ^ (f64Exp a + 1) ≤ 2 ^ (f64Exp b) :=
        zpow_le_zpow_right₀ (by norm_num) (by omega)
      linarith
    · unfold f64Mag
      rw [heq]
      have hu := float64_facts_1.2.2.2.2.2.2.2 (f64Exp b)
      apply mul_le_mul_of_nonneg_right _ hu.le
      exact_mod_cast float32_facts_1.2.2.2.1 (div_le_div_of_nonneg_right h hu.le)
  exact ⟨@f64Exp_ge, @f64Exp_mono, @lt_two_zpow_f64Exp, @f64Mag_le, @f64Mag_ge, @f64Mag_nonneg,
    @two_zpow_f64Exp_le, @f64Mag_mono⟩

/-- Lemmas on rounding to the nearest 64-bit float, proved in turn: `mantissa_le64`,
`mantissa_ge64`, `f64Mag_of_exp`, `f64Mag_idem`, `f64Val_mono`, `f64Val_idem`, `f64Mag_err`,
`f64Mag_err_le`. -/
theorem float64_facts_3 :
    (∀ (a : ℚ),
      roundHalfEven (a / 2 ^ (f64Exp a - 52)) ≤ 9007199254740992) ∧
    (∀ (a : ℚ) (_ : 2 ^ (f64Exp a) ≤ a),
      4503599627370496 ≤ roundHalfEven (a / 2 ^ (f64Exp a - 52))) ∧
    (∀ (r : ℚ) (e n : ℤ) (_ : f64Exp r = e) (_ : r = n * 2 ^ (e - 52)),
      f64Mag r = r) ∧
    (∀ (a : ℚ) (_ : 0 < a) (_ : 0 < f64Mag a),
      f64Mag (f64Mag a) = f64Mag a) ∧
    (∀ {p q : ℚ} (_ : p ≤ q),
      f64Val p ≤ f64Val q) ∧
    (∀ (q : ℚ),
      f64Val (f64Val q) = f64Val q) ∧
    (∀ (a : ℚ),
      |f64Mag a - a| ≤ 2 ^ (f64Exp a - 53)) ∧
    (∀ (a B : ℚ) (_ : 0 < a) (_ : a ≤ B) (_ : 2 ^ (-1022 : ℤ) ≤ B),
      |f64Mag a - a| ≤ B / 2 ^ 53) := by
  have mantissa_le64 (a : ℚ) : roundHalfEven (a / 2 ^ (f64Exp a - 52)) ≤ 9007199254740992 := by
    have hu := float64_facts_1.2.2.2.2.2.2.2 (f64Exp a)
    have : a / 2 ^ (f64Exp a - 52) < ((9007199254740992 : ℤ) : ℚ) + 1 / 2 := by
      rw [div_lt_iff₀ hu]
      have := float64_facts_2.2.2.1 a
      rw [float64_facts_1.2.2.2.2.2.1] at this
      push_cast
      nlinarith
    exact float32_facts_1.2.1 _ _ this
  have mantissa_ge64 (a : ℚ) (h : 2 ^ (f64Exp a) ≤ a) :
      4503599627370496 ≤ roundHalfEven (a / 2 ^ (f64Exp a - 52)) := by
    clear mantissa_le64
    have hu := float64_facts_1.2.2.2.2.2.2.2 (f64Exp a)
    rw [float64_facts_1.2.2.2.2.2.2.1] at h
    have : ((4503599627370496 : ℤ) : ℚ) - 1 / 2 < a / 2 ^ (f64Exp a - 52) := by
      rw [lt_div_iff₀ hu]
      push_cast
      nlinarith
    exact float32_facts_1.2.2.1 _ _ this
  have f64Mag_of_exp (r : ℚ) (e n : ℤ) (he : f64Exp r = e) (hr : r = n * 2 ^ (e - 52)) :
      f64Mag r = r := by
    clear mantissa_le64 mantissa_ge64
    unfold f64Mag
    rw [he]
    have hu := float64_facts_1.2.2.2.2.2.2.2 e
    have : r / 2 ^ (e - 52) = n := by
      rw [hr]; field_simp
    rw [this, float32_facts_1.2.2.2.2.1, hr]
  have f64Mag_idem (a : ℚ) (ha : 0 < a) (hm : 0 < f64Mag a) : f64Mag (f64Mag a) = f64Mag a := by
    have hu := float64_facts_1.2.2.2.2.2.2.2 (f64Exp a)
    have hn1 := mantissa_le64 a
    have hr : f64Mag a = roundHalfEven (a / 2 ^ (f64Exp a - 52)) * 2 ^ (f64Exp a - 52) := rfl
    have hge := float64_facts_2.1 a
    rcases hn1.lt_or_eq with hlt | heq
    · by_cases h23 : 4503599627370496 ≤ roundHalfEven (a / 2 ^ (f64Exp a - 52))
      · have hexp : f64Exp (f64Mag a) = f64Exp a := by
          have hlog : Int.log 2 (f64Mag a) = f64Exp a := by
            apply log2_eq _ _ hm
            · rw [float64_facts_1.2.2.2.2.2.2.1, hr]
              apply mul_le_mul_of_nonneg_right _ hu.le
              exact_mod_cast h23
            · rw [float64_facts_1.2.2.2.2.2.1, hr]
              apply mul_lt_mul_of_pos_right _ hu
              exact_mod_cast hlt
          rw [float64_facts_1.2.2.2.2.1 _ hm, hlog]
          exact max_eq_left hge
        exact f64Mag_of_exp _ _ _ hexp hr
      · push_neg at h23
        have he : f64Exp a = -1022 := by
          by_contra hne
          have := mantissa_ge64 a (float64_facts_2.2.2.2.2.2.2.1 ha (by omega))
          omega
        have hexp : f64Exp (f64Mag a) = f64Exp a := by
          have hlt1 : f64Mag a < (2 : ℚ) ^ (f64Exp a) := by
            rw [float64_facts_1.2.2.2.2.2.2.1, hr]
            apply mul_lt_mul_of_pos_right _ hu
            exact_mod_cast h23
          have hlt2 : f64Mag a < (2 : ℚ) ^ (-1022 : ℤ) := by
            rw [he] at hlt1; exact hlt1
          have hlog : Int.log 2 (f64Mag a) < -1022 :=
            (Int.lt_zpow_iff_log_lt (b := 2) (by norm_num) hm).mp (by simpa using hlt2)
          rw [he, float64_facts_1.2.2.2.2.1 _ hm]
          exact max_eq_right hlog.le
        exact f64Mag_of_exp _ _ _ hexp hr
    · have hval : f64Mag a = 2 ^ (f64Exp a + 1) := by
        rw [float64_facts_1.2.2.2.2.2.1, hr, heq]; norm_num
      have hexp : f64Exp (f64Mag a) = f64Exp a + 1 := by
        have hlog : Int.log 2 (f64Mag a) = f64Exp a + 1 := by
          apply log2_eq _ _ hm
          · rw [hval]
          · rw [hval]
            exact zpow_lt_zpow_right₀ (by norm_num) (by omega)
        rw [float64_facts_1.2.2.2.2.1 _ hm, hlog]
        apply max_eq_left
        omega
      apply f64Mag_of_exp _ _ 4503599627370496 hexp
      rw [hval, float64_facts_1.2.2.2.2.2.2.1]
      norm_num
  have f64Val_mono {p q : ℚ} (h : p ≤ q) : f64Val p ≤ f64Val q := by
    clear mantissa_le64 mantissa_ge64 f64Mag_of_exp f64Mag_idem
    unfold f64Val
    by_cases hp0 : p = 0
    · subst hp0
      rcases h.lt_or_eq with hq | hq
      · simp only [if_true, hq.ne', hq, if_false]
        exact float64_facts_2.2.2.2.2.2.1 hq.le
      · subst hq; simp
    · by_cases hq0 : q = 0
      · subst hq0
        have hp : p < 0 := lt_of_le_of_ne h hp0
        have hnp : ¬ (0 < p) := by linarith
        simp only [hp0, hnp, if_false, if_true]
        have := float64_facts_2.2.2.2.2.2.1 (show (0 : ℚ) ≤ -p by linarith)
        linarith
      · rcases lt_or_gt_of_ne hp0 with hp | hp
        · have hnp : ¬ (0 < p) := by linarith
          rcases lt_or_gt_of_ne hq0 with hq | hq
          · have hnq : ¬ (0 < q) := by linarith
            simp only [hp0, hq0, hnp, hnq, if_false]
            have := float64_facts_2.2.2.2.2.2.2.2 (show (0 : ℚ) < -q by linarith) (show -q ≤ -p by linarith)
            linarith
          · simp only [hp0, hq0, hnp, hq, if_false, if_true]
            have h1 := float64_facts_2.2.2.2.2.2.1 (show (0 : ℚ) ≤ -p by linarith)
            have h2 := float64_facts_2.2.2.2.2.2.1 hq.le
            linarith
        · have hq : 0 < q := lt_of_lt_of_le hp h
          simp only [hp0, hq0, hp, hq, if_false, if_true]
          exact float64_facts_2.2.2.2.2.2.2.2 hp h
  have f64Val_idem (q : ℚ) : f64Val (f64Val q) = f64Val q := by
    clear mantissa_le64 mantissa_ge64 f64Mag_of_exp f64Val_mono
    by_cases h0 : q = 0
    · subst h0; simp [f64Val]
    · rcases lt_or_gt_of_ne h0 with hneg | hpos
      · have hnp : ¬ (0 < q) := by linarith
        have hv : f64Val q = -f64Mag (-q) := by simp [f64Val, h0, hnp]
        have hm := float64_facts_2.2.2.2.2.2.1 (show (0 : ℚ) ≤ -q by linarith)
        rcases hm.lt_or_eq with hlt | heq
        · rw [hv]
          have hne : -f64Mag (-q) ≠ 0 := by linarith
          have hnp' : ¬ (0 < -f64Mag (-q)) := by linarith
          simp only [f64Val, hne, hnp', if_false, neg_neg]
          rw [f64Mag_idem (-q) (by linarith) hlt]
        · rw [hv, ← heq]; simp [f64Val]
      · have hv : f64Val q = f64Mag q := by simp [f64Val, h0, hpos]
        have hm := float64_facts_2.2.2.2.2.2.1 hpos.le
        rcases hm.lt_or_eq with hlt | heq
        · rw [hv]
          simp only [f64Val, hlt.ne', hlt, if_false, if_true]
          exact f64Mag_idem q hpos hlt
        · rw [hv, ← heq]; simp [f64Val]
  have f64Mag_err (a : ℚ) : |f64Mag a - a| ≤ 2 ^ (f64Exp a - 53) := by
    clear mantissa_le64 mantissa_ge64 f64Mag_of_exp f64Mag_idem f64Val_mono f64Val_idem
    unfold f64Mag
    have hu := float64_facts_1.2.2.2.2.2.2.2 (f64Exp a)
    have h := float32_facts_1.1 (a / 2 ^ (f64Exp a - 52))
    have hw : (2 : ℚ) ^ (f64Exp a - 53) = 2 ^ (f64Exp a - 52) / 2 := by
      have : (2 : ℚ) ^ (f64Exp a - 52) = 2 ^ (f64Exp a - 53) * 2 ^ (1 : ℤ) := by
        rw [← zpow_add₀ (two_ne_zero)]; congr 1; ring
      rw [this]; norm_num
    have ha : a = a / 2 ^ (f64Exp a - 52) * 2 ^ (f64Exp a - 52) := by field_simp
    rw [hw, abs_le]
    constructor
    · nlinarith [h.1, h.2]
    · nlinarith [h.1, h.2]
  have f64Mag_err_le (a B : ℚ) (ha : 0 < a) (hB : a ≤ B) (hB1 : 2 ^ (-1022 : ℤ) ≤ B) :
      |f64Mag a - a| ≤ B / 2 ^ 53 := by
    clear mantissa_le64 mantissa_ge64 f64Mag_of_exp f64Mag_idem f64Val_mono f64Val_idem
    have h := f64Mag_err a
    have h2 : (2 : ℚ) ^ (f64Exp a - 53) ≤ B / 2 ^ 53 := by
      have hs : (2 : ℚ) ^ (f64Exp a - 53) = 2 ^ (f64Exp a) / 2 ^ 53 := by
        rw [zpow_sub₀ (two_ne_zero)]; norm_num
      rw [hs]
      apply div_le_div_of_nonneg_right _ (by positivity)
      by_cases he : -1022 < f64Exp a
      · exact le_trans (float64_facts_2.2.2.2.2.2.2.1 ha he) hB
      · have : f64Exp a = -1022 := le_antisymm (by omega) (float64_facts_2.1 a)
        rw [this]; exact hB1
    linarith
  exact ⟨@mantissa_le64, @mantissa_ge64, @f64Mag_of_exp, @f64Mag_idem, @f64Val_mono,
    @f64Val_idem, @f64Mag_err, @f64Mag_err_le⟩

/-- Lemmas on rounding to the nearest 64-bit float, proved in turn: `f64Val_neg`, `f64Val_zero`,
`f64Val_nonneg`, `f64Val_err_le`, `f64Val_two_pow`, `float64Round_fin`, `float64Round_err`,
`float64Round_neg`. -/
theorem float64_facts_4 :
    (∀ (x : ℚ),
      f64Val (-x) = -f64Val x) ∧
    (f64Val 0 = 0) ∧
    (∀ {x : ℚ} (_ : 0 ≤ x),
      0 ≤ f64Val x) ∧
    (∀ (x B : ℚ) (_ : |x| ≤ B) (_ : 2 ^ (-1022 : ℤ) ≤ B),
      |f64Val x - x| ≤ B / 2 ^ 53) ∧
    (∀ (e : ℤ) (_ : -1022 ≤ e),
      f64Val (2 ^ e) = 2 ^ e) ∧
    (∀ (x : ℚ) (_ : |x| ≤ 2 ^ 1023),
      float64Round x = JSNum.fin (f64Val x)) ∧
    (∀ (x B : ℚ) (_ : |x| ≤ B) (_ : 2 ^ (-1022 : ℤ) ≤ B) (_ : B ≤ 2 ^ 1023),
      ∃ r : ℚ, float64Round x = JSNum.fin r ∧ |r - x| ≤ B / 2 ^ 53) ∧
    (∀ (x : ℚ),
      float64Round (-x) = -(float64Round x)) := by
  have f64Val_neg (x : ℚ) : f64Val (-x) = -f64Val x := by
    unfold f64Val
    by_cases h0 : x = 0
    · subst h0; simp
    · rcases lt_or_gt_of_ne h0 with h | h
      · have h1 : ¬ (0 < x) := by linarith
        have h2 : 0 < -x := by linarith
        have h3 : -x ≠ 0 := by linarith
        simp only [h0, h1, h2, h3, if_false, if_true, neg_neg]
      · have h1 : ¬ (0 < -x) := by linarith
        have h3 : -x ≠ 0 := by linarith
        simp only [h0, h1, h, h3, if_false, if_true, neg_neg]
  have f64Val_zero : f64Val 0 = 0 := by simp [f64Val]
  have f64Val_nonneg {x : ℚ} (h : 0 ≤ x) : 0 ≤ f64Val x := by
    clear f64Val_neg
    have := float64_facts_3.2.2.2.2.1 h
    rwa [f64Val_zero] at this
  have f64Val_err_le (x B : ℚ) (hx : |x| ≤ B) (hB1 : 2 ^ (-1022 : ℤ) ≤ B) :
      |f64Val x - x| ≤ B / 2 ^ 53 := by
    clear f64Val_neg f64Val_nonneg
    by_cases h0 : x = 0
    · subst h0
      rw [f64Val_zero]
      simp only [sub_zero, abs_zero]
      have : (0 : ℚ) < 2 ^ (-1022 : ℤ) := by positivity
      positivity
    · rcases lt_or_gt_of_ne h0 with h | h
      · have hv : f64Val x = -f64Mag (-x) := by
          have h1 : ¬ (0 < x) := by linarith
          simp [f64Val, h0, h1]
        have := float64_facts_3.2.2.2.2.2.2.2 (-x) B (by linarith) (by rw [abs_of_neg h] at hx; exact hx) hB1
        rw [hv]
        have e : -f64Mag (-x) - x = -(f64Mag (-x) - -x) := by ring
        rw [e, abs_neg]
        exact this
      · have hv : f64Val x = f64Mag x := by simp [f64Val, h0, h]
        rw [hv]
        exact float64_facts_3.2.2.2.2.2.2.2 x B h (by rw [abs_of_pos h] at hx; exact hx) hB1
  have f64Val_two_pow (e : ℤ) (he : -1022 ≤ e) : f64Val (2 ^ e) = 2 ^ e := by
    clear f64Val_neg f64Val_zero f64Val_nonneg f64Val_err_le
    have hp : (0 : ℚ) < 2 ^ e := by positivity
    have hexp : f64Exp (2 ^ e) = e := by
      rw [float64_facts_1.2.2.2.2.1 _ hp, log2_eq (2 ^ e) e hp le_rfl (zpow_lt_zpow_right₀ (by norm_num) (by omega))]
      exact max_eq_left he
    have hv : f64Val (2 ^ e) = f64Mag (2 ^ e) := by simp [f64Val, hp.ne', hp]
    rw [hv]
    apply float64_facts_3.2.2.1 _ _ 4503599627370496 hexp
    rw [float64_facts_1.2.2.2.2.2.2.1]
    norm_num
  have float64Round_fin (x : ℚ) (h : |x| ≤ 2 ^ 1023) : float64Round x = JSNum.fin (f64Val x) := by
    clear f64Val_zero f64Val_nonneg f64Val_err_le
    have h1 := abs_le.mp h
    have e1 : f64Val ((2 : ℚ) ^ (1023 : ℤ)) = 2 ^ (1023 : ℤ) := f64Val_two_pow 1023 (by norm_num)
    have e2 : ((2 : ℚ) ^ (1023 : ℤ)) = 2 ^ 1023 := by norm_num
    rw [e2] at e1
    have hu : f64Val x ≤ 2 ^ 1023 := by
      have := float64_facts_3.2.2.2.2.1 h1.2
      rwa [e1] at this
    have hl : -2 ^ 1023 ≤ f64Val x := by
      have := float64_facts_3.2.2.2.2.1 h1.1
      rwa [f64Val_neg, e1] at this
    unfold float64Round
    have c1 : ¬ ((2 : ℚ) ^ 1024 ≤ f64Val x) := by
      have : (2 : ℚ) ^ 1023 < 2 ^ 1024 := by norm_num
      linarith
    have c2 : ¬ (f64Val x ≤ -(2 : ℚ) ^ 1024) := by
      have : (2 : ℚ) ^ 1023 < 2 ^ 1024 := by norm_num
      linarith
    simp only [c1, c2, if_false]
  have float64Round_err (x B : ℚ) (hx : |x| ≤ B) (hB1 : 2 ^ (-1022 : ℤ) ≤ B)
      (hB2 : B ≤ 2 ^ 1023) :
      ∃ r : ℚ, float64Round x = JSNum.fin r ∧ |r - x| ≤ B / 2 ^ 53 :=
    ⟨f64Val x, float64Round_fin x (le_trans hx hB2), f64Val_err_le x B hx hB1⟩
  have float64Round_neg (x : ℚ) : float64Round (-x) = -(float64Round x) := by
    clear f64Val_zero f64Val_nonneg f64Val_err_le f64Val_two_pow float64Round_fin float64Round_err
    unfold float64Round
    rw [f64Val_neg]
    have hp : (0 : ℚ) < 2 ^ 1024 := by positivity
    by_cases h1 : (2 : ℚ) ^ 1024 ≤ f64Val x
    · have h2 : -f64Val x ≤ -2 ^ 1024 := by linarith
      have h3 : ¬ ((2 : ℚ) ^ 1024 ≤ -f64Val x) := by linarith
      simp only [h1, h2, h3, if_true, if_false]
      rfl
    · by_cases h2 : f64Val x ≤ -2 ^ 1024
      · have h3 : (2 : ℚ) ^ 1024 ≤ -f64Val x := by linarith
        simp only [h1, h2, h3, if_true, if_false]
        rfl
      · have h3 : ¬ ((2 : ℚ) ^ 1024 ≤ -f64Val x) := by
          intro h; apply h2; linarith
        have h4 : ¬ (-f64Val x ≤ -(2 : ℚ) ^ 1024) := by
          intro h; apply h1; linarith
        simp only [h1, h2, h3, h4, if_false]
        rfl
  exact ⟨@f64Val_neg, @f64Val_zero, @f64Val_nonneg, @f64Val_err_le, @f64Val_two_pow,
    @float64Round_fin, @float64Round_err, @float64Round_neg⟩

/-! ## Operations rounded to 64-bit floats -/

/-- Lemmas on the error of one rounded operation and of the rounded vector operations, proved in
turn: `f64_add_fin`, `f64_sub_fin`, `f64_mul_fin`, `f64_div_fin`, `two_zpow_neg_1022`,
`round_err`, `f64_mul_err`. -/
theorem rounded_op_facts_1 :
    (∀ (a b : ℚ),
      F64.add (fin a) (fin b) = float64Round (a + b)) ∧
    (∀ (a b : ℚ),
      F64.sub (fin a) (fin b) = float64Round (a - b)) ∧
    (∀ (a b : ℚ),
      F64.mul (fin a) (fin b) = float64Round (a * b)) ∧
    (∀ (a b : ℚ) (_ : b ≠ 0),
      F64.div (fin a) (fin b) = float64Round (a / b)) ∧
    ((2 : ℚ) ^ (-1022 : ℤ) = 1 / 2 ^ 1022) ∧
    (∀ (x B : ℚ) (_ : |x| ≤ B) (_ : 1 / 2 ^ 1022 ≤ B) (_ : B ≤ 2 ^ 1023),
      ∃ r : ℚ, float64Round x = fin r ∧ |r - x| ≤ B / 2 ^ 53) ∧
    (∀ (a b A B : ℚ) (_ : |a| ≤ A) (_ : |b| ≤ B) (_ : 1 / 2 ^ 1022 ≤ A * B) (_ : A * B ≤ 2 ^ 1023),
      ∃ r : ℚ, F64.mul (fin a) (fin b) = fin r ∧ |r - a * b| ≤ A * B / 2 ^ 53) := by
  have f64_add_fin (a b : ℚ) : F64.add (fin a) (fin b) = float64Round (a + b) := rfl
  have f64_sub_fin (a b : ℚ) : F64.sub (fin a) (fin b) = float64Round (a - b) := by
    clear f64_add_fin
    show toDouble (fin a - fin b) = _
    rw [sub_fin]; rfl
  have f64_mul_fin (a b : ℚ) : F64.mul (fin a) (fin b) = float64Round (a * b) := rfl
  have f64_div_fin (a b : ℚ) (h : b ≠ 0) : F64.div (fin a) (fin b) = float64Round (a / b) := by
    clear f64_add_fin f64_sub_fin f64_mul_fin
    show toDouble (fin a / fin b) = _
    rw [div_fin a b h]; rfl
  have two_zpow_neg_1022 : (2 : ℚ) ^ (-1022 : ℤ) = 1 / 2 ^ 1022 := by
    clear f64_add_fin f64_sub_fin f64_mul_fin f64_div_fin
    rw [zpow_neg, zpow_ofNat, one_div]
  have round_err (x B : ℚ) (hx : |x| ≤ B) (hB1 : 1 / 2 ^ 1022 ≤ B) (hB2 : B ≤ 2 ^ 1023) :
      ∃ r : ℚ, float64Round x = fin r ∧ |r - x| ≤ B / 2 ^ 53 :=
    float64_facts_4.2.2.2.2.2.2.1 x B hx (by rw [two_zpow_neg_1022]; exact hB1) hB2
  have f64_mul_err (a b A B : ℚ) (ha : |a| ≤ A) (hb : |b| ≤ B) (h1 : 1 / 2 ^ 1022 ≤ A * B)
      (h2 : A * B ≤ 2 ^ 1023) :
      ∃ r : ℚ, F64.mul (fin a) (fin b) = fin r ∧ |r - a * b| ≤ A * B / 2 ^ 53 := by
    clear f64_add_fin f64_sub_fin f64_div_fin two_zpow_neg_1022
    rw [f64_mul_fin]
    apply round_err _ _ _ h1 h2
    rw [abs_mul]
    exact mul_le_mul ha hb (abs_nonneg _) (le_trans (abs_nonneg _) ha)
  exact ⟨@f64_add_fin, @f64_sub_fin, @f64_mul_fin, @f64_div_fin, @two_zpow_neg_1022, @round_err,
    @f64_mul_err⟩

/-- Lemmas on the error of one rounded operation and of the rounded vector operations, proved in
turn: `f64_add_err`, `f64_sub_err`, `f64_div_err`, `abs_le_of_near`, `abs_mul_le_mul`, `range_lo`,
`range_hi`. -/
theorem rounded_op_facts_2 :
    (∀ (a b A B : ℚ) (_ : |a| ≤ A) (_ : |b| ≤ B) (_ : 1 / 2 ^ 1022 ≤ A + B) (_ : A + B ≤ 2 ^ 1023),
      ∃ r : ℚ, F64.add (fin a) (fin b) = fin r ∧ |r - (a + b)| ≤ (A + B) / 2 ^ 53) ∧
    (∀ (a b A B : ℚ) (_ : |a| ≤ A) (_ : |b| ≤ B) (_ : 1 / 2 ^ 1022 ≤ A + B) (_ : A + B ≤ 2 ^ 1023),
      ∃ r : ℚ, F64.sub (fin a) (fin b) = fin r ∧ |r - (a - b)| ≤ (A + B) / 2 ^ 53) ∧
    (∀ (a b A L : ℚ) (_ : |a| ≤ A) (_ : 0 < L) (_ : L ≤ |b|) (_ : 1 / 2 ^ 1022 ≤ A / L) (_ : A / L ≤ 2 ^ 1023),
      ∃ r : ℚ, F64.div (fin a) (fin b) = fin r ∧ |r - a / b| ≤ A / L / 2 ^ 53) ∧
    (∀ {r x E B : ℚ} (_ : |r - x| ≤ E) (_ : |x| ≤ B),
      |r| ≤ B + E) ∧
    (∀ {a b A B : ℚ} (_ : |a| ≤ A) (_ : |b| ≤ B),
      |a * b| ≤ A * B) ∧
    (∀ (X c : ℚ) (k n : ℕ) (_ : k ≤ n) (_ : 1 ≤ c) (_ : 1 / 2 ^ k ≤ X),
      1 / 2 ^ n ≤ c * X) ∧
    (∀ (X c : ℚ) (k n : ℕ) (_ : k + 3 ≤ n) (_ : c ≤ 8) (_ : 0 ≤ X) (_ : X ≤ 2 ^ k),
      c * X ≤ 2 ^ n) := by
  have f64_add_err (a b A B : ℚ) (ha : |a| ≤ A) (hb : |b| ≤ B) (h1 : 1 / 2 ^ 1022 ≤ A + B)
      (h2 : A + B ≤ 2 ^ 1023) :
      ∃ r : ℚ, F64.add (fin a) (fin b) = fin r ∧ |r - (a + b)| ≤ (A + B) / 2 ^ 53 := by
    rw [rounded_op_facts_1.1]
    apply rounded_op_facts_1.2.2.2.2.2.1 _ _ _ h1 h2
    exact le_trans (abs_add _ _) (add_le_add ha hb)
  have f64_sub_err (a b A B : ℚ) (ha : |a| ≤ A) (hb : |b| ≤ B) (h1 : 1 / 2 ^ 1022 ≤ A + B)
      (h2 : A + B ≤ 2 ^ 1023) :
      ∃ r : ℚ, F64.sub (fin a) (fin b) = fin r ∧ |r - (a - b)| ≤ (A + B) / 2 ^ 53 := by
    clear f64_add_err
    rw [rounded_op_facts_1.2.1]
    apply rounded_op_facts_1.2.2.2.2.2.1 _ _ _ h1 h2
    exact le_trans (abs_sub _ _) (add_le_add ha hb)
  have f64_div_err (a b A L : ℚ) (ha : |a| ≤ A) (hL : 0 < L) (hb : L ≤ |b|)
      (h1 : 1 / 2 ^ 1022 ≤ A / L) (h2 : A / L ≤ 2 ^ 1023) :
      ∃ r : ℚ, F64.div (fin a) (fin b) = fin r ∧ |r - a / b| ≤ A / L / 2 ^ 53 := by
    clear f64_add_err f64_sub_err
    have hb0 : b ≠ 0 := by
      intro h; rw [h, abs_zero] at hb; linarith
    rw [rounded_op_facts_1.2.2.2.1 a b hb0]
    apply rounded_op_facts_1.2.2.2.2.2.1 _ _ _ h1 h2
    rw [abs_div]
    exact div_le_div₀ (le_trans (abs_nonneg _) ha) ha hL hb
  -- A bound on a value from a bound on its distance to another.
  have abs_le_of_near {r x E B : ℚ} (h : |r - x| ≤ E) (hx : |x| ≤ B) : |r| ≤ B + E := by
    clear f64_add_err f64_sub_err f64_div_err
    have := abs_sub_abs_le_abs_sub r x
    linarith
  have abs_mul_le_mul {a b A B : ℚ} (ha : |a| ≤ A) (hb : |b| ≤ B) : |a * b| ≤ A * B := by
    clear f64_add_err f64_sub_err f64_div_err abs_le_of_near
    rw [abs_mul]
    exact mul_le_mul ha hb (abs_nonneg _) (le_trans (abs_nonneg _) ha)
  have range_lo (X c : ℚ) (k n : ℕ) (hkn : k ≤ n) (hc : 1 ≤ c) (h : 1 / 2 ^ k ≤ X) :
      1 / 2 ^ n ≤ c * X := by
    clear f64_add_err f64_sub_err f64_div_err abs_le_of_near abs_mul_le_mul
    have h0 : (0 : ℚ) < 1 / 2 ^ k := by positivity
    have h1 : (1 : ℚ) / 2 ^ n ≤ 1 / 2 ^ k :=
      one_div_le_one_div_of_le (by positivity) (pow_le_pow_right₀ (by norm_num) hkn)
    have h2 : X ≤ c * X := le_mul_of_one_le_left (le_trans h0.le h) hc
    exact le_trans h1 (le_trans h h2)
  have range_hi (X c : ℚ) (k n : ℕ) (hkn : k + 3 ≤ n) (hc : c ≤ 8) (hX : 0 ≤ X)
      (h : X ≤ 2 ^ k) : c * X ≤ 2 ^ n := by
    clear f64_add_err f64_sub_err f64_div_err abs_le_of_near abs_mul_le_mul range_lo
    have h1 : c * X ≤ 8 * 2 ^ k := mul_le_mul hc h hX (by norm_num)
    have h2 : (8 : ℚ) * 2 ^ k = 2 ^ (k + 3) := by rw [pow_add]; ring
    rw [h2] at h1
    exact le_trans h1 (pow_le_pow_right₀ (by norm_num) hkn)
  exact ⟨@f64_add_err, @f64_sub_err, @f64_div_err, @abs_le_of_near, @abs_mul_le_mul, @range_lo,
    @range_hi⟩

/-- Lemmas on the error of one rounded operation and of the rounded vector operations, proved in
turn: `f64_mulsub_err`, `f64_dot3_err`, `jsnum_mul_comm`, `jsnum_add_comm`, `jsnum_neg_add`,
`jsnum_neg_neg`, `jsnum_sub_antisymm`. -/
theorem rounded_op_facts_3 :
    (∀ (a b c d A B : ℚ) (_ : |a| ≤ A) (_ : |b| ≤ B) (_ : |c| ≤ A) (_ : |d| ≤ B) (_ : 1 / 2 ^ 1000 ≤ A * B) (_ : A * B ≤ 2 ^ 1000),
      ∃ r : ℚ, F64.sub (F64.mul (fin a) (fin b)) (F64.mul (fin c) (fin d)) = fin r ∧
      |r - (a * b - c * d)| ≤ 5 * (A * B) / 2 ^ 53) ∧
    (∀ (x0 x1 x2 y0 y1 y2 A B : ℚ) (_ : |x0| ≤ A) (_ : |x1| ≤ A) (_ : |x2| ≤ A) (_ : |y0| ≤ B) (_ : |y1| ≤ B) (_ : |y2| ≤ B) (_ : 1 / 2 ^ 1000 ≤ A * B) (_ : A * B ≤ 2 ^ 1000),
      ∃ d : ℚ, F64.dotProduct [fin x0, fin x1, fin x2] [fin y0, fin y1, fin y2] = .ok (fin d) ∧
      |d - (x0 * y0 + x1 * y1 + x2 * y2)| ≤ 10 * (A * B) / 2 ^ 53) ∧
    (∀ (a b : JSNum),
      a * b = b * a) ∧
    (∀ (a b : JSNum),
      a + b = b + a) ∧
    (∀ (a b : JSNum),
      -(a + b) = -a + -b) ∧
    (∀ (a : JSNum),
      -(-a) = a) ∧
    (∀ (a b : JSNum),
      a - b = -(b - a)) := by
  have f64_mulsub_err (a b c d A B : ℚ) (ha : |a| ≤ A) (hb : |b| ≤ B) (hc : |c| ≤ A)
      (hd : |d| ≤ B) (h1 : 1 / 2 ^ 1000 ≤ A * B) (h2 : A * B ≤ 2 ^ 1000) :
      ∃ r : ℚ, F64.sub (F64.mul (fin a) (fin b)) (F64.mul (fin c) (fin d)) = fin r ∧
        |r - (a * b - c * d)| ≤ 5 * (A * B) / 2 ^ 53 := by
    have hP : 0 < A * B := lt_of_lt_of_le (by positivity) h1
    obtain ⟨p, hp, ep⟩ := rounded_op_facts_1.2.2.2.2.2.2 a b A B ha hb (by linarith)
      (by linarith)
    obtain ⟨q, hq, eq⟩ := rounded_op_facts_1.2.2.2.2.2.2 c d A B hc hd (by linarith)
      (by linarith)
    have bp := rounded_op_facts_2.2.2.2.1 ep (rounded_op_facts_2.2.2.2.2.1 ha hb)
    have bq := rounded_op_facts_2.2.2.2.1 eq (rounded_op_facts_2.2.2.2.2.1 hc hd)
    obtain ⟨r, hr, er⟩ := rounded_op_facts_2.2.1 p q _ _ bp bq (by linarith)
      (by linarith)
    refine ⟨r, by rw [hp, hq, hr], ?_⟩
    rw [abs_le] at ep eq er ⊢
    constructor <;> linarith
  have f64_dot3_err (x0 x1 x2 y0 y1 y2 A B : ℚ) (hx0 : |x0| ≤ A) (hx1 : |x1| ≤ A)
      (hx2 : |x2| ≤ A) (hy0 : |y0| ≤ B) (hy1 : |y1| ≤ B) (hy2 : |y2| ≤ B)
      (h1 : 1 / 2 ^ 1000 ≤ A * B) (h2 : A * B ≤ 2 ^ 1000) :
      ∃ d : ℚ, F64.dotProduct [fin x0, fin x1, fin x2] [fin y0, fin y1, fin y2] = .ok (fin d) ∧
        |d - (x0 * y0 + x1 * y1 + x2 * y2)| ≤ 10 * (A * B) / 2 ^ 53 := by
    clear f64_mulsub_err
    have hP : 0 < A * B := lt_of_lt_of_le (by positivity) h1
    have hlo : (1 : ℚ) / 2 ^ 1022 ≤ A * B :=
      le_trans (one_div_le_one_div_of_le (by positivity)
        (pow_le_pow_right₀ (by norm_num) (by norm_num))) h1
    have hhi : 8 * (A * B) ≤ 2 ^ 1023 := by
      have e : (2 : ℚ) ^ 1003 = 8 * 2 ^ 1000 := by rw [pow_succ, pow_succ, pow_succ]; ring
      have h3 : (2 : ℚ) ^ 1003 ≤ 2 ^ 1023 := pow_le_pow_right₀ (by norm_num) (by norm_num)
      rw [e] at h3
      exact le_trans (mul_le_mul_of_nonneg_left h2 (by norm_num)) h3
    have bp0' := rounded_op_facts_2.2.2.2.2.1 hx0 hy0
    have bp1' := rounded_op_facts_2.2.2.2.2.1 hx1 hy1
    have bp2' := rounded_op_facts_2.2.2.2.2.1 hx2 hy2
    have M := fun a b => rounded_op_facts_1.2.2.2.2.2.2 a b A B
    have Ad := rounded_op_facts_2.1
    clear h1 h2
    generalize (2 : ℚ) ^ 1023 = T at hhi M Ad
    generalize (1 : ℚ) / 2 ^ 1022 = t at hlo M Ad
    obtain ⟨η, hη'⟩ : ∃ η : ℚ, η = 1 / 2 ^ 53 := ⟨_, rfl⟩
    have u : (0 : ℚ) ≤ η ∧ η ≤ 1 / 200 := by rw [hη']; norm_num
    have e53 : ∀ q : ℚ, q / 2 ^ 53 = q * η := fun q => by rw [hη']; ring
    simp only [e53] at M Ad ⊢
    clear hη' e53
    obtain ⟨u0, u⟩ := u
    generalize A * B = P at *
    have hη : P * η ≤ P / 200 := by
      have := mul_le_mul_of_nonneg_left u hP.le
      linarith only [this]
    have hη0 : 0 ≤ P * η := mul_nonneg hP.le u0
    obtain ⟨p0, hp0, ep0⟩ := M x0 y0 hx0 hy0 hlo (by linarith only [hhi, hP])
    obtain ⟨p1, hp1, ep1⟩ := M x1 y1 hx1 hy1 hlo (by linarith only [hhi, hP])
    obtain ⟨p2, hp2, ep2⟩ := M x2 y2 hx2 hy2 hlo (by linarith only [hhi, hP])
    clear M hx0 hx1 hx2 hy0 hy1 hy2
    have bp0 : |p0| ≤ 201 / 200 * P := by
      have := rounded_op_facts_2.2.2.2.1 ep0 bp0'; linarith only [this, hη, hP]
    have bp1 : |p1| ≤ 201 / 200 * P := by
      have := rounded_op_facts_2.2.2.2.1 ep1 bp1'; linarith only [this, hη, hP]
    have bp2 : |p2| ≤ 201 / 200 * P := by
      have := rounded_op_facts_2.2.2.2.1 ep2 bp2'; linarith only [this, hη, hP]
    clear bp0' bp1' bp2'
    obtain ⟨s1, hs1, es1⟩ := Ad 0 p0 0 _ (by simp) bp0 (by linarith only [hlo, hP])
      (by linarith only [hhi, hP])
    rw [zero_add] at es1
    have e1 : (0 + 201 / 200 * P) * η = 201 / 200 * (P * η) := by ring
    rw [e1] at es1
    have bs1 : |s1| ≤ 102 / 100 * P := by
      have := rounded_op_facts_2.2.2.2.1 es1 bp0
      linarith only [this, hη, hP]
    obtain ⟨s2, hs2, es2⟩ := Ad s1 p1 _ _ bs1 bp1 (by linarith only [hlo, hP])
      (by linarith only [hhi, hP])
    have e2 : (102 / 100 * P + 201 / 200 * P) * η = 405 / 200 * (P * η) := by ring
    rw [e2] at es2
    have bs2 : |s2| ≤ 205 / 100 * P := by
      have := rounded_op_facts_2.2.2.2.1 es2 (le_trans (abs_add _ _) (add_le_add bs1 bp1))
      linarith only [this, hη, hP]
    obtain ⟨s3, hs3, es3⟩ := Ad s2 p2 _ _ bs2 bp2 (by linarith only [hlo, hP])
      (by linarith only [hhi, hP])
    have e3 : (205 / 100 * P + 201 / 200 * P) * η = 611 / 200 * (P * η) := by ring
    rw [e3] at es3
    clear Ad hlo hhi bs1 bs2 bp0 bp1 bp2 hη
    refine ⟨s3, ?_, ?_⟩
    · simp only [F64.dotProduct, List.length_cons, List.length_nil, ne_eq, not_true_eq_false,
        if_false, List.zipWith_cons_cons, List.zipWith_nil_right, List.foldl_cons, List.foldl_nil,
        hp0, hp1, hp2]
      rw [show (0 : JSNum) = fin 0 from rfl, hs1, hs2, hs3]
    · clear hp0 hp1 hp2 hs1 hs2 hs3
      have e4 : 10 * P * η = 10 * (P * η) := by ring
      rw [e4]
      generalize P * η = E at *
      rw [abs_le] at ep0 ep1 ep2 es1 es2 es3 ⊢
      constructor <;> linarith only [ep0, ep1, ep2, es1, es2, es3]
  have jsnum_mul_comm (a b : JSNum) : a * b = b * a := by
    clear f64_mulsub_err f64_dot3_err
    cases a <;> cases b <;> first | rfl | (show JSNum.mul _ _ = JSNum.mul _ _; simp only [JSNum.mul, mul_comm])
  have jsnum_add_comm (a b : JSNum) : a + b = b + a := by
    clear f64_mulsub_err f64_dot3_err jsnum_mul_comm
    cases a <;> cases b <;> first | rfl | (show JSNum.add _ _ = JSNum.add _ _; simp only [JSNum.add, add_comm])
  have jsnum_neg_add (a b : JSNum) : -(a + b) = -a + -b := by
    clear f64_mulsub_err f64_dot3_err jsnum_mul_comm jsnum_add_comm
    cases a <;> cases b <;> first | rfl | (show JSNum.neg (JSNum.add _ _) = JSNum.add (JSNum.neg _) (JSNum.neg _); simp only [JSNum.add, JSNum.neg, neg_add])
  have jsnum_neg_neg (a : JSNum) : -(-a) = a := by
    clear f64_mulsub_err f64_dot3_err jsnum_mul_comm jsnum_add_comm jsnum_neg_add
    cases a <;> first | rfl | (show JSNum.neg (JSNum.neg _) = _; simp only [JSNum.neg, neg_neg])
  have jsnum_sub_antisymm (a b : JSNum) : a - b = -(b - a) := by
    clear f64_mulsub_err f64_dot3_err jsnum_mul_comm
    show a + -b = -(b + -a)
    rw [jsnum_neg_add, jsnum_neg_neg, jsnum_add_comm]
  exact ⟨@f64_mulsub_err, @f64_dot3_err, @jsnum_mul_comm, @jsnum_add_comm, @jsnum_neg_add,
    @jsnum_neg_neg, @jsnum_sub_antisymm⟩

/-- Lemmas on the error of one rounded operation and of the rounded vector operations, proved in
turn: `toDouble_neg`, `f64_mul_comm`, `f64_add_comm`, `f64_sub_antisymm`, `pow_range`,
`f64_cross_err`, `f64_dot_cross_small`. -/
theorem rounded_op_facts_4 :
    (∀ (a : JSNum),
      toDouble (-a) = -(toDouble a)) ∧
    (∀ (a b : JSNum),
      F64.mul a b = F64.mul b a) ∧
    (∀ (a b : JSNum),
      F64.add a b = F64.add b a) ∧
    (∀ (a b : JSNum),
      F64.sub a b = -(F64.sub b a)) ∧
    (∀ (M : ℚ) (_ : 1 / 2 ^ 300 ≤ M) (_ : M ≤ 2 ^ 300),
      0 < M ∧ 1 / 2 ^ 600 ≤ M ^ 2 ∧ M ^ 2 ≤ 2 ^ 600 ∧ 1 / 2 ^ 900 ≤ M ^ 3 ∧ M ^ 3 ≤ 2 ^ 900) ∧
    (∀ (x0 x1 x2 y0 y1 y2 A B : ℚ) (_ : |x0| ≤ A) (_ : |x1| ≤ A) (_ : |x2| ≤ A) (_ : |y0| ≤ B) (_ : |y1| ≤ B) (_ : |y2| ≤ B) (_ : 1 / 2 ^ 1000 ≤ A * B) (_ : A * B ≤ 2 ^ 1000),
      ∃ c0 c1 c2 : ℚ,
      F64.getCrossVector [fin x0, fin x1, fin x2] [fin y0, fin y1, fin y2] =
        [fin c0, fin c1, fin c2] ∧
      |c0 - (x1 * y2 - x2 * y1)| ≤ 5 * (A * B) / 2 ^ 53 ∧
      |c1 - (x2 * y0 - x0 * y2)| ≤ 5 * (A * B) / 2 ^ 53 ∧
      |c2 - (x0 * y1 - x1 * y0)| ≤ 5 * (A * B) / 2 ^ 53) ∧
    (∀ (a0 a1 a2 b0 b1 b2 M : ℚ) (_ : 1 / 2 ^ 300 ≤ M) (_ : M ≤ 2 ^ 300) (_ : |a0| ≤ M) (_ : |a1| ≤ M) (_ : |a2| ≤ M) (_ : |b0| ≤ M) (_ : |b1| ≤ M) (_ : |b2| ≤ M),
      ∃ d : ℚ, F64.dotProduct [fin a0, fin a1, fin a2]
        (F64.getCrossVector [fin a0, fin a1, fin a2] [fin b0, fin b1, fin b2]) = .ok (fin d) ∧
      |d| ≤ M ^ 3 / 2 ^ 47) := by
  have toDouble_neg (a : JSNum) : toDouble (-a) = -(toDouble a) := by
    cases a with
    | fin q => exact float64_facts_4.2.2.2.2.2.2.2 q
    | pinf => rfl
    | ninf => rfl
    | nan => rfl
  have f64_mul_comm (a b : JSNum) : F64.mul a b = F64.mul b a := by
    clear toDouble_neg
    unfold F64.mul; rw [rounded_op_facts_3.2.2.1]
  have f64_add_comm (a b : JSNum) : F64.add a b = F64.add b a := by
    clear toDouble_neg f64_mul_comm
    unfold F64.add; rw [rounded_op_facts_3.2.2.2.1]
  have f64_sub_antisymm (a b : JSNum) : F64.sub a b = -(F64.sub b a) := by
    clear f64_mul_comm f64_add_comm
    unfold F64.sub; rw [rounded_op_facts_3.2.2.2.2.2.2, toDouble_neg]
  have pow_range (M : ℚ) (h1 : 1 / 2 ^ 300 ≤ M) (h2 : M ≤ 2 ^ 300) :
      0 < M ∧ 1 / 2 ^ 600 ≤ M ^ 2 ∧ M ^ 2 ≤ 2 ^ 600 ∧ 1 / 2 ^ 900 ≤ M ^ 3 ∧ M ^ 3 ≤ 2 ^ 900 := by
    clear toDouble_neg f64_mul_comm f64_add_comm f64_sub_antisymm
    have h0 : (0 : ℚ) < 1 / 2 ^ 300 := by positivity
    have hM : 0 < M := lt_of_lt_of_le h0 h1
    refine ⟨hM, ?_, ?_, ?_, ?_⟩
    · have := pow_le_pow_left₀ h0.le h1 2
      calc (1 : ℚ) / 2 ^ 600 = (1 / 2 ^ 300) ^ 2 := by rw [div_pow, one_pow, ← pow_mul]
        _ ≤ M ^ 2 := this
    · have := pow_le_pow_left₀ hM.le h2 2
      calc M ^ 2 ≤ (2 ^ 300) ^ 2 := this
        _ = 2 ^ 600 := by rw [← pow_mul]
    · have := pow_le_pow_left₀ h0.le h1 3
      calc (1 : ℚ) / 2 ^ 900 = (1 / 2 ^ 300) ^ 3 := by rw [div_pow, one_pow, ← pow_mul]
        _ ≤ M ^ 3 := this
    · have := pow_le_pow_left₀ hM.le h2 3
      calc M ^ 3 ≤ (2 ^ 300) ^ 3 := this
        _ = 2 ^ 900 := by rw [← pow_mul]
  -- The three components of a rounded cross product of finite vectors, each within `5 A B / 2 ^
  -- 53` of the exact component.
  have f64_cross_err (x0 x1 x2 y0 y1 y2 A B : ℚ) (hx0 : |x0| ≤ A) (hx1 : |x1| ≤ A)
      (hx2 : |x2| ≤ A) (hy0 : |y0| ≤ B) (hy1 : |y1| ≤ B) (hy2 : |y2| ≤ B)
      (h1 : 1 / 2 ^ 1000 ≤ A * B) (h2 : A * B ≤ 2 ^ 1000) :
      ∃ c0 c1 c2 : ℚ,
        F64.getCrossVector [fin x0, fin x1, fin x2] [fin y0, fin y1, fin y2] =
          [fin c0, fin c1, fin c2] ∧
        |c0 - (x1 * y2 - x2 * y1)| ≤ 5 * (A * B) / 2 ^ 53 ∧
        |c1 - (x2 * y0 - x0 * y2)| ≤ 5 * (A * B) / 2 ^ 53 ∧
        |c2 - (x0 * y1 - x1 * y0)| ≤ 5 * (A * B) / 2 ^ 53 := by
    clear toDouble_neg f64_mul_comm f64_add_comm f64_sub_antisymm pow_range
    obtain ⟨c0, h0, e0⟩ := rounded_op_facts_3.1 x1 y2 x2 y1 A B hx1 hy2 hx2 hy1 h1 h2
    obtain ⟨c1, h1', e1⟩ := rounded_op_facts_3.1 x2 y0 x0 y2 A B hx2 hy0 hx0 hy2 h1 h2
    obtain ⟨c2, h2', e2⟩ := rounded_op_facts_3.1 x0 y1 x1 y0 A B hx0 hy1 hx1 hy0 h1 h2
    refine ⟨c0, c1, c2, ?_, e0, e1, e2⟩
    simp only [F64.getCrossVector, nth, List.getD_cons_zero, List.getD_cons_succ, h0, h1', h2']
  -- The rounded dot product of a finite vector with its rounded cross product with another is
  -- small.
  have f64_dot_cross_small (a0 a1 a2 b0 b1 b2 M : ℚ) (hM1 : 1 / 2 ^ 300 ≤ M)
      (hM2 : M ≤ 2 ^ 300) (ha0 : |a0| ≤ M) (ha1 : |a1| ≤ M) (ha2 : |a2| ≤ M) (hb0 : |b0| ≤ M)
      (hb1 : |b1| ≤ M) (hb2 : |b2| ≤ M) :
      ∃ d : ℚ, F64.dotProduct [fin a0, fin a1, fin a2]
          (F64.getCrossVector [fin a0, fin a1, fin a2] [fin b0, fin b1, fin b2]) = .ok (fin d) ∧
        |d| ≤ M ^ 3 / 2 ^ 47 := by
    clear toDouble_neg f64_mul_comm f64_add_comm f64_sub_antisymm
    obtain ⟨hM, hl2, hh2, hl3, hh3⟩ := pow_range M hM1 hM2
    have hMM : M * M = M ^ 2 := by ring
    obtain ⟨c0, c1, c2, hc, e0, e1, e2⟩ := f64_cross_err a0 a1 a2 b0 b1 b2 M M ha0 ha1 ha2 hb0 hb1
      hb2 (by rw [hMM]; have := rounded_op_facts_2.2.2.2.2.2.1 _ 1 600 1000 (by norm_num) le_rfl hl2; rwa [one_mul] at this)
      (by rw [hMM]; have := rounded_op_facts_2.2.2.2.2.2.2 _ 1 600 1000 (by norm_num) (by norm_num) (sq_nonneg M) hh2
          rwa [one_mul] at this)
    have bC : ∀ x y z w : ℚ, |x| ≤ M → |y| ≤ M → |z| ≤ M → |w| ≤ M → |x * y - z * w| ≤ 2 * M ^ 2 := by
      intro x y z w hx hy hz hw
      have h1 := rounded_op_facts_2.2.2.2.2.1 hx hy
      have h2 := rounded_op_facts_2.2.2.2.2.1 hz hw
      have := abs_sub (x * y) (z * w)
      rw [hMM] at h1 h2
      linarith only [h1, h2, this]
    have hM2' : 0 ≤ M ^ 2 := sq_nonneg M
    have bc0 : |c0| ≤ 201 / 100 * M ^ 2 := by
      have := rounded_op_facts_2.2.2.2.1 e0 (bC _ _ _ _ ha1 hb2 ha2 hb1)
      rw [hMM] at this; linarith only [this, hM2']
    have bc1 : |c1| ≤ 201 / 100 * M ^ 2 := by
      have := rounded_op_facts_2.2.2.2.1 e1 (bC _ _ _ _ ha2 hb0 ha0 hb2)
      rw [hMM] at this; linarith only [this, hM2']
    have bc2 : |c2| ≤ 201 / 100 * M ^ 2 := by
      have := rounded_op_facts_2.2.2.2.1 e2 (bC _ _ _ _ ha0 hb1 ha1 hb0)
      rw [hMM] at this; linarith only [this, hM2']
    have hP : M * (201 / 100 * M ^ 2) = 201 / 100 * M ^ 3 := by ring
    obtain ⟨d, hd, ed⟩ := rounded_op_facts_3.2.1 a0 a1 a2 c0 c1 c2 M (201 / 100 * M ^ 2) ha0 ha1 ha2 bc0 bc1 bc2
      (by rw [hP]; exact rounded_op_facts_2.2.2.2.2.2.1 _ _ 900 1000 (by norm_num) (by norm_num) hl3)
      (by rw [hP]; exact rounded_op_facts_2.2.2.2.2.2.2 _ _ 900 1000 (by norm_num) (by norm_num) (by positivity) hh3)
    refine ⟨d, by rw [hc, hd], ?_⟩
    have t0 := rounded_op_facts_2.2.2.2.2.1 ha0 e0
    have t1 := rounded_op_facts_2.2.2.2.2.1 ha1 e1
    have t2 := rounded_op_facts_2.2.2.2.2.1 ha2 e2
    have hid : a0 * c0 + a1 * c1 + a2 * c2 =
        a0 * (c0 - (a1 * b2 - a2 * b1)) + a1 * (c1 - (a2 * b0 - a0 * b2)) +
          a2 * (c2 - (a0 * b1 - a1 * b0)) := by ring
    rw [hid, hP] at ed
    have hE : M * (5 * (M * M) / 2 ^ 53) = 5 / 2 ^ 53 * M ^ 3 := by ring
    rw [hE] at t0 t1 t2
    have hM3 : 0 < M ^ 3 := by positivity
    generalize a0 * (c0 - (a1 * b2 - a2 * b1)) = A0 at ed t0
    generalize a1 * (c1 - (a2 * b0 - a0 * b2)) = A1 at ed t1
    generalize a2 * (c2 - (a0 * b1 - a1 * b0)) = A2 at ed t2
    generalize M ^ 3 = Q at ed t0 t1 t2 hM3 ⊢
    rw [abs_le] at ed t0 t1 t2 ⊢
    constructor <;> linarith only [ed, t0, t1, t2, hM3]
  exact ⟨@toDouble_neg, @f64_mul_comm, @f64_add_comm, @f64_sub_antisymm, @pow_range,
    @f64_cross_err, @f64_dot_cross_small⟩

/-- Lemmas on the error of one rounded operation and of the rounded vector operations, proved in
turn: `f64_mulsub_antisymm`, `f64_cross_antisymm`, `f64_add_neg_neg`, `f64_mul_neg_fin`,
`float64Round_zero`, `f64_dot3_neg_comm`. -/
theorem rounded_op_facts_5 :
    (∀ (a b c d : JSNum),
      F64.sub (F64.mul a b) (F64.mul c d) = -(F64.sub (F64.mul d c) (F64.mul b a))) ∧
    (∀ (v1 v2 : List JSNum),
      F64.getCrossVector v1 v2 = (F64.getCrossVector v2 v1).map (fun x => -x)) ∧
    (∀ (x y : JSNum),
      F64.add (-x) (-y) = -(F64.add x y)) ∧
    (∀ (a b : ℚ),
      F64.mul (fin (-a)) (fin b) = -(F64.mul (fin a) (fin b))) ∧
    (float64Round 0 = fin 0) ∧
    (∀ (c0 c1 c2 z0 z1 z2 : ℚ) (D : JSNum) (_ : F64.dotProduct [fin z0, fin z1, fin z2] [fin c0, fin c1, fin c2] = .ok D),
      F64.dotProduct [fin (-c0), fin (-c1), fin (-c2)] [fin z0, fin z1, fin z2] = .ok (-D)) := by
  have f64_mulsub_antisymm (a b c d : JSNum) :
      F64.sub (F64.mul a b) (F64.mul c d) = -(F64.sub (F64.mul d c) (F64.mul b a)) := by
    rw [rounded_op_facts_4.2.2.2.1, rounded_op_facts_4.2.1 a b, rounded_op_facts_4.2.1 c d]
  have f64_cross_antisymm (v1 v2 : List JSNum) :
      F64.getCrossVector v1 v2 = (F64.getCrossVector v2 v1).map (fun x => -x) := by
    simp only [F64.getCrossVector, List.map_cons, List.map_nil]
    rw [f64_mulsub_antisymm (nth v1 1), f64_mulsub_antisymm (nth v1 2),
      f64_mulsub_antisymm (nth v1 0)]
  have f64_add_neg_neg (x y : JSNum) : F64.add (-x) (-y) = -(F64.add x y) := by
    clear f64_mulsub_antisymm f64_cross_antisymm
    unfold F64.add; rw [← rounded_op_facts_3.2.2.2.2.1, rounded_op_facts_4.1]
  have f64_mul_neg_fin (a b : ℚ) : F64.mul (fin (-a)) (fin b) = -(F64.mul (fin a) (fin b)) := by
    clear f64_mulsub_antisymm f64_cross_antisymm f64_add_neg_neg
    rw [rounded_op_facts_1.2.2.1, rounded_op_facts_1.2.2.1, neg_mul, float64_facts_4.2.2.2.2.2.2.2]
  have float64Round_zero : float64Round 0 = fin 0 := by
    clear f64_mulsub_antisymm f64_cross_antisymm f64_add_neg_neg f64_mul_neg_fin
    rw [float64_facts_4.2.2.2.2.2.1 0 (by norm_num), float64_facts_4.2.1]
  have f64_dot3_neg_comm (c0 c1 c2 z0 z1 z2 : ℚ) (D : JSNum)
      (h : F64.dotProduct [fin z0, fin z1, fin z2] [fin c0, fin c1, fin c2] = .ok D) :
      F64.dotProduct [fin (-c0), fin (-c1), fin (-c2)] [fin z0, fin z1, fin z2] = .ok (-D) := by
    clear f64_mulsub_antisymm f64_cross_antisymm float64Round_zero
    simp only [F64.dotProduct, List.length_cons, List.length_nil, ne_eq, not_true_eq_false,
      if_false, List.zipWith_cons_cons, List.zipWith_nil_right, List.foldl_cons, List.foldl_nil,
      Except.ok.injEq] at h ⊢
    rw [← h, f64_mul_neg_fin, f64_mul_neg_fin, f64_mul_neg_fin, rounded_op_facts_4.2.1 (fin c0),
      rounded_op_facts_4.2.1 (fin c1), rounded_op_facts_4.2.1 (fin c2)]
    have h0 : (0 : JSNum) = -(0 : JSNum) := by
      show fin 0 = fin (-0); rw [neg_zero]
    rw [h0, f64_add_neg_neg, f64_add_neg_neg, f64_add_neg_neg, ← h0]
  exact ⟨@f64_mulsub_antisymm, @f64_cross_antisymm, @f64_add_neg_neg, @f64_mul_neg_fin,
    @float64Round_zero, @f64_dot3_neg_comm⟩

/-- C15, the counterexample.  For a = [0.1, 0.2, 0.3] and b = [0.4, 0.5, 0.6] the program
computes `dotProduct(a, getCrossVector(a, b)) = -2 ^ (-59)`, about -1.73e-18, not 0. -/
theorem dot_cross_not_zero :
    F64.dotProduct [tenth 1, tenth 2, tenth 3]
      (F64.getCrossVector [tenth 1, tenth 2, tenth 3] [tenth 4, tenth 5, tenth 6])
      = .ok (fin (-(1 / 2 ^ 59))) := by
  decide!

/-- C15, as amended.  In the arithmetic of the program, where every operation rounds to a 64-bit
float, `getCrossVector(v1, v2)` is the negative of `getCrossVector(v2, v1)` component by
component for all arrays, and for finite vectors `a`, `b` whose components have magnitude at most
`M`, with `2 ^ (-300) <= M <= 2 ^ 300`, `dotProduct(a, getCrossVector(a, b))` is a finite number
of magnitude at most `M ^ 3 / 2 ^ 47`: zero up to rounding. -/
theorem cross_antisymm_dot_rounded (v1 v2 : List JSNum) (a0 a1 a2 b0 b1 b2 M : ℚ)
    (hM1 : 1 / 2 ^ 300 ≤ M) (hM2 : M ≤ 2 ^ 300) (ha0 : |a0| ≤ M) (ha1 : |a1| ≤ M)
    (ha2 : |a2| ≤ M) (hb0 : |b0| ≤ M) (hb1 : |b1| ≤ M) (hb2 : |b2| ≤ M) :
    F64.getCrossVector v1 v2 = (F64.getCrossVector v2 v1).map (fun x => -x) ∧
    ∃ d : ℚ, F64.dotProduct [fin a0, fin a1, fin a2]
        (F64.getCrossVector [fin a0, fin a1, fin a2] [fin b0, fin b1, fin b2]) = .ok (fin d) ∧
      |d| ≤ M ^ 3 / 2 ^ 47 :=
  ⟨rounded_op_facts_5.2.1 v1 v2, rounded_op_facts_4.2.2.2.2.2.2 a0 a1 a2 b0 b1 b2 M hM1 hM2 ha0 ha1 ha2 hb0 hb1 hb2⟩

/-- C15, witness: a = (1, 2, 3), b = (4, 5, 6), with M = 6. -/
theorem cross_antisymm_dot_rounded_witness :
    F64.getCrossVector [1, 2, 3] [4, 5, 6] = (F64.getCrossVector [4, 5, 6] [1, 2, 3]).map (fun x => -x) ∧
    ∃ d : ℚ, F64.dotProduct [fin 1, fin 2, fin 3]
        (F64.getCrossVector [fin 1, fin 2, fin 3] [fin 4, fin 5, fin 6]) = .ok (fin d) ∧
      |d| ≤ (6 : ℚ) ^ 3 / 2 ^ 47 :=
  cross_antisymm_dot_rounded [1, 2, 3] [4, 5, 6] 1 2 3 4 5 6 6 (by norm_num) (by norm_num)
    (by norm_num [abs_le]) (by norm_num [abs_le]) (by norm_num [abs_le]) (by norm_num [abs_le])
    (by norm_num [abs_le]) (by norm_num [abs_le])

/-- Lemmas on the rounded camera basis, proved in turn: `float64Round_idem`, `f64_dot_perp`,
`f64_cross_vertical`, `f64Val_sq_pos`. -/
theorem camera_basis_facts :
    (∀ (x : ℚ) (_ : |x| ≤ 2 ^ 1023),
      float64Round (f64Val x) = fin (f64Val x)) ∧
    (∀ (a b c M : ℚ) (_ : M ≤ 2 ^ 300) (_ : |a| ≤ M) (_ : |b| ≤ M),
      F64.dotProduct [fin b, fin (-a), fin 0] [fin a, fin b, fin c] = .ok (fin 0)) ∧
    (∀ (c : ℚ),
      F64.getCrossVector [fin 0, fin (-0), fin 0] [fin 0, fin 0, fin c] = [fin 0, fin 0, fin 0]) ∧
    (∀ (a : ℚ) (_ : 1 / 2 ^ 500 ≤ |a|),
      1 / 2 ^ 1000 ≤ f64Val (a * a)) := by
  have float64Round_idem (x : ℚ) (h : |x| ≤ 2 ^ 1023) :
      float64Round (f64Val x) = fin (f64Val x) := by
    have h1 := abs_le.mp h
    have e1 : f64Val ((2 : ℚ) ^ (1023 : ℤ)) = 2 ^ (1023 : ℤ) := float64_facts_4.2.2.2.2.1 1023 (by norm_num)
    rw [zpow_ofNat] at e1
    have hu : f64Val x ≤ 2 ^ 1023 := by
      have := float64_facts_3.2.2.2.2.1 h1.2
      rwa [e1] at this
    have hl : -2 ^ 1023 ≤ f64Val x := by
      have := float64_facts_3.2.2.2.2.1 h1.1
      rwa [float64_facts_4.1, e1] at this
    rw [float64_facts_4.2.2.2.2.2.1 _ (abs_le.mpr ⟨hl, hu⟩), float64_facts_3.2.2.2.2.2.1]
  have f64_dot_perp (a b c M : ℚ) (hM2 : M ≤ 2 ^ 300) (ha : |a| ≤ M) (hb : |b| ≤ M) :
      F64.dotProduct [fin b, fin (-a), fin 0] [fin a, fin b, fin c] = .ok (fin 0) := by
    have hab : |a * b| ≤ 2 ^ 1023 := by
      have h1 := rounded_op_facts_2.2.2.2.2.1 ha hb
      have hM0 : 0 ≤ M := le_trans (abs_nonneg _) ha
      have : M * M ≤ 2 ^ 300 * 2 ^ 300 := mul_le_mul hM2 hM2 hM0 (by positivity)
      have e : (2 : ℚ) ^ 300 * 2 ^ 300 ≤ 2 ^ 1023 := by norm_num
      linarith
    simp only [F64.dotProduct, List.length_cons, List.length_nil, ne_eq, not_true_eq_false,
      if_false, List.zipWith_cons_cons, List.zipWith_nil_right, List.foldl_cons, List.foldl_nil,
      Except.ok.injEq]
    rw [rounded_op_facts_5.2.2.2.1, rounded_op_facts_4.2.1 (fin b) (fin a), rounded_op_facts_1.2.2.1, rounded_op_facts_1.2.2.1,
      float64_facts_4.2.2.2.2.2.1 _ hab, zero_mul, rounded_op_facts_5.2.2.2.2.1, show (0 : JSNum) = fin 0 from rfl,
      rounded_op_facts_1.1, zero_add, float64Round_idem _ hab, neg_fin, rounded_op_facts_1.1, add_neg_cancel,
      rounded_op_facts_5.2.2.2.2.1, rounded_op_facts_1.1, add_zero, rounded_op_facts_5.2.2.2.2.1]
  have f64_cross_vertical (c : ℚ) :
      F64.getCrossVector [fin 0, fin (-0), fin 0] [fin 0, fin 0, fin c] = [fin 0, fin 0, fin 0] := by
    clear float64Round_idem f64_dot_perp
    simp only [F64.getCrossVector, nth, List.getD_cons_zero, List.getD_cons_succ, rounded_op_facts_1.2.2.1,
      neg_zero, zero_mul, mul_zero, rounded_op_facts_5.2.2.2.2.1, rounded_op_facts_1.2.1, sub_zero]
  have f64Val_sq_pos (a : ℚ) (h : 1 / 2 ^ 500 ≤ |a|) : 1 / 2 ^ 1000 ≤ f64Val (a * a) := by
    clear float64Round_idem f64_dot_perp f64_cross_vertical
    have h0 : (0 : ℚ) < 1 / 2 ^ 500 := by positivity
    have h1 : (1 : ℚ) / 2 ^ 1000 ≤ a * a := by
      have := mul_le_mul h h h0.le (abs_nonneg a)
      rw [abs_mul_abs_self] at this
      calc (1 : ℚ) / 2 ^ 1000 = 1 / 2 ^ 500 * (1 / 2 ^ 500) := by
            rw [div_mul_div_comm, one_mul, ← pow_add]
        _ ≤ a * a := this
    have h2 := float64_facts_3.2.2.2.2.1 h1
    have e : f64Val ((2 : ℚ) ^ (-1000 : ℤ)) = 2 ^ (-1000 : ℤ) := float64_facts_4.2.2.2.2.1 _ (by norm_num)
    have e2 : (2 : ℚ) ^ (-1000 : ℤ) = 1 / 2 ^ 1000 := by rw [zpow_neg, zpow_ofNat, one_div]
    rw [e2] at e
    rw [e] at h2
    exact h2
  exact ⟨@float64Round_idem, @f64_dot_perp, @f64_cross_vertical, @f64Val_sq_pos⟩

/-- C10, the counterexample.  For the direction Z = [0.1, 0.2, 0.3] the program computes
`dotProduct(Y, Z) = 2 ^ (-58)`, about 3.47e-18, not 0; and for the direction [1e-200, 0, 0],
which is not vertical, `Y` is the zero vector: the square of 1e-200 is rounded to 0. -/
theorem cameraBasis_not_orthogonal :
    (do
      let (_, Y, Z) ← F64.cameraBasis [tenth 1, tenth 2, tenth 3]
      F64.dotProduct Y Z) = .ok (fin (1 / 2 ^ 58)) ∧
    (F64.cameraBasis [tiny200, 0, 0]).map (fun B => B.2.1) = .ok [fin 0, fin 0, fin 0] := by
  constructor <;> decide!

/-- C10, as amended.  In the arithmetic of the program, for a finite direction `Z = (a, b, c)`
whose components have magnitude at most `M`, with `2 ^ (-300) <= M <= 2 ^ 300`, the basis of
`render` is `X = (b, -a, 0)` and `Y = cross(X, Z)`; `dot(X, Z)` is exactly 0, `dot(X, Y)` and
`dot(Y, Z)` are finite numbers of magnitude at most `M ^ 3 / 2 ^ 47` (zero up to rounding); `X`
is non-zero exactly when `Z` is not vertical; `Y` is the zero vector when `Z` is vertical and is
non-zero when `a` or `b` has magnitude at least `2 ^ (-500)`. -/
theorem cameraBasis_rounded (a b c M : ℚ) (hM1 : 1 / 2 ^ 300 ≤ M) (hM2 : M ≤ 2 ^ 300)
    (ha : |a| ≤ M) (hb : |b| ≤ M) (hc : |c| ≤ M) :
    ∃ (X Y : List JSNum) (dxy dyz : ℚ),
      F64.cameraBasis [fin a, fin b, fin c] = .ok (X, Y, [fin a, fin b, fin c]) ∧
      X = [fin b, fin (-a), fin 0] ∧
      Y = F64.getCrossVector X [fin a, fin b, fin c] ∧
      F64.dotProduct X [fin a, fin b, fin c] = .ok (fin 0) ∧
      F64.dotProduct X Y = .ok (fin dxy) ∧ |dxy| ≤ M ^ 3 / 2 ^ 47 ∧
      F64.dotProduct Y [fin a, fin b, fin c] = .ok (fin dyz) ∧ |dyz| ≤ M ^ 3 / 2 ^ 47 ∧
      (X ≠ [fin 0, fin 0, fin 0] ↔ ¬(a = 0 ∧ b = 0)) ∧
      (a = 0 ∧ b = 0 → Y = [fin 0, fin 0, fin 0]) ∧
      (1 / 2 ^ 500 ≤ |a| ∨ 1 / 2 ^ 500 ≤ |b| → Y ≠ [fin 0, fin 0, fin 0]) := by
  have hX : ([fin b, fin (-a), fin 0] ≠ [fin 0, fin 0, fin 0] ↔ ¬(a = 0 ∧ b = 0)) := by
    clear hM1 hM2 ha hb hc
    simp only [ne_eq, List.cons.injEq, fin.injEq, neg_eq_zero, and_true, not_and]
    tauto
  obtain ⟨hM, hl2, hh2, hl3, hh3⟩ := rounded_op_facts_4.2.2.2.2.1 M hM1 hM2
  have hna : |(-a)| ≤ M := by rw [abs_neg]; exact ha
  have h0 : |(0 : ℚ)| ≤ M := by rw [abs_zero]; exact hM.le
  obtain ⟨dxy, hxy, exy⟩ := rounded_op_facts_4.2.2.2.2.2.2 b (-a) 0 a b c M hM1 hM2 hb hna h0 ha hb hc
  obtain ⟨d, hd, ed⟩ := rounded_op_facts_4.2.2.2.2.2.2 a b c b (-a) 0 M hM1 hM2 ha hb hc hb hna h0
  have hMM : M * M = M ^ 2 := by ring
  obtain ⟨c0, c1, c2, hcr, -, -, -⟩ := rounded_op_facts_4.2.2.2.2.2.1 a b c b (-a) 0 M M ha hb hc hb hna h0
    (by rw [hMM]; linarith) (by rw [hMM]; linarith)
  have hY : F64.getCrossVector [fin b, fin (-a), fin 0] [fin a, fin b, fin c] =
      [fin (-c0), fin (-c1), fin (-c2)] := by
    rw [rounded_op_facts_5.2.1, hcr]; rfl
  refine ⟨[fin b, fin (-a), fin 0], F64.getCrossVector [fin b, fin (-a), fin 0]
    [fin a, fin b, fin c], dxy, -d, ?_, rfl, rfl, camera_basis_facts.2.1 a b c M hM2 ha hb, hxy, exy, ?_, ?_,
    ?_, ?_, ?_⟩
  · simp [F64.cameraBasis, get2DVerticalVector, nth, bind, Except.bind, pure, Except.pure]
  · rw [hY]
    rw [hcr] at hd
    exact rounded_op_facts_5.2.2.2.2.2 c0 c1 c2 a b c (fin d) hd
  · rw [abs_neg]; exact ed
  · exact hX
  · rintro ⟨rfl, rfl⟩
    exact camera_basis_facts.2.2.1 c
  · intro h
    have e2 : F64.sub (F64.mul (fin b) (fin b)) (F64.mul (fin (-a)) (fin a)) =
        float64Round (f64Val (b * b) + f64Val (a * a)) := by
      have hbb : |b * b| ≤ 2 ^ 1023 := by
        have := rounded_op_facts_2.2.2.2.2.1 hb hb
        rw [hMM] at this; linarith
      have haa : |a * a| ≤ 2 ^ 1023 := by
        have := rounded_op_facts_2.2.2.2.2.1 ha ha
        rw [hMM] at this; linarith
      rw [rounded_op_facts_5.2.2.2.1, rounded_op_facts_1.2.2.1, rounded_op_facts_1.2.2.1, float64_facts_4.2.2.2.2.2.1 _ hbb,
        float64_facts_4.2.2.2.2.2.1 _ haa, neg_fin, rounded_op_facts_1.2.1, sub_neg_eq_add]
    have hpos : 1 / 2 ^ 1000 ≤ f64Val (b * b) + f64Val (a * a) := by
      have h1 := float64_facts_4.2.2.1 (mul_self_nonneg a)
      have h2 := float64_facts_4.2.2.1 (mul_self_nonneg b)
      rcases h with h | h
      · have := camera_basis_facts.2.2.2 a h; linarith
      · have := camera_basis_facts.2.2.2 b h; linarith
    have hv : 1 / 2 ^ 1000 ≤ f64Val (f64Val (b * b) + f64Val (a * a)) := by
      have h2 := float64_facts_3.2.2.2.2.1 hpos
      have e : f64Val ((2 : ℚ) ^ (-1000 : ℤ)) = 2 ^ (-1000 : ℤ) := float64_facts_4.2.2.2.2.1 _ (by norm_num)
      have e2 : (2 : ℚ) ^ (-1000 : ℤ) = 1 / 2 ^ 1000 := by rw [zpow_neg, zpow_ofNat, one_div]
      rw [e2] at e
      rw [e] at h2
      exact h2
    intro hzero
    simp only [F64.getCrossVector, nth, List.getD_cons_zero, List.getD_cons_succ,
      List.cons.injEq, and_true] at hzero
    have h3 := hzero.2.2
    rw [e2] at h3
    unfold float64Round at h3
    have hp : (0 : ℚ) < 1 / 2 ^ 1000 := by positivity
    split_ifs at h3
    injection h3 with h4
    linarith

/-- C10, witness: the direction (-1, -1, -1) of the default camera, with M = 1. -/
theorem cameraBasis_rounded_witness :
    ∃ (X Y : List JSNum) (dxy dyz : ℚ),
      F64.cameraBasis [fin (-1), fin (-1), fin (-1)] = .ok (X, Y, [fin (-1), fin (-1), fin (-1)]) ∧
      X = [fin (-1), fin (-(-1)), fin 0] ∧
      Y = F64.getCrossVector X [fin (-1), fin (-1), fin (-1)] ∧
      F64.dotProduct X [fin (-1), fin (-1), fin (-1)] = .ok (fin 0) ∧
      F64.dotProduct X Y = .ok (fin dxy) ∧ |dxy| ≤ (1 : ℚ) ^ 3 / 2 ^ 47 ∧
      F64.dotProduct Y [fin (-1), fin (-1), fin (-1)] = .ok (fin dyz) ∧
      |dyz| ≤ (1 : ℚ) ^ 3 / 2 ^ 47 ∧
      (X ≠ [fin 0, fin 0, fin 0] ↔ ¬((-1 : ℚ) = 0 ∧ (-1 : ℚ) = 0)) ∧
      ((-1 : ℚ) = 0 ∧ (-1 : ℚ) = 0 → Y = [fin 0, fin 0, fin 0]) ∧
      (1 / 2 ^ 500 ≤ |(-1 : ℚ)| ∨ 1 / 2 ^ 500 ≤ |(-1 : ℚ)| → Y ≠ [fin 0, fin 0, fin 0]) :=
  cameraBasis_rounded (-1) (-1) (-1) 1 (by norm_num) (by norm_num) (by norm_num) (by norm_num)
    (by norm_num)

/-- Lemmas on the rounded square root and the rounded length, proved in turn: `isqrtBits_spec`,
`sqrt_choice_spec`, `sqrtNearest_spec`, `f64_sqrt_err`, `f64_length_err`. -/
theorem sqrt_facts_1 :
    (∀ (n : ℕ) (b r : ℕ) (_ : r * r ≤ n) (_ : n < (r + 2 ^ b) * (r + 2 ^ b)),
      isqrtBits n b r * isqrtBits n b r ≤ n ∧ n < (isqrtBits n b r + 1) * (isqrtBits n b r + 1)) ∧
    (∀ (k : ℕ) (n w q : ℚ) (_ : 0 < w) (_ : q = n * (w * w)) (_ : (k : ℚ) * k ≤ n) (_ : n < ((k : ℚ) + 1) * (k + 1)) (_ : (2 : ℚ) ^ 104 ≤ n),
      0 < (if 4 * n ≤ (2 * (k : ℚ) + 1) ^ 2 then k * w else (k + 1) * w) ∧
    (if 4 * n ≤ (2 * (k : ℚ) + 1) ^ 2 then k * w else (k + 1) * w) ^ 2 * (1 - 1 / 2 ^ 53) ^ 2 ≤ q ∧
    q ≤ (if 4 * n ≤ (2 * (k : ℚ) + 1) ^ 2 then k * w else (k + 1) * w) ^ 2 * (1 + 1 / 2 ^ 53) ^ 2) ∧
    (∀ (q : ℚ) (_ : 1 / 2 ^ 2048 ≤ q) (_ : q < 2 ^ 2047),
      0 < sqrtNearest q ∧ sqrtNearest q ^ 2 * (1 - 1 / 2 ^ 53) ^ 2 ≤ q ∧
      q ≤ sqrtNearest q ^ 2 * (1 + 1 / 2 ^ 53) ^ 2) ∧
    (∀ (q : ℚ) (_ : 1 / 2 ^ 2048 ≤ q) (_ : q < 2 ^ 2047),
      ∃ r : ℚ, F64.sqrt (fin q) = fin r ∧ 0 < r ∧ q * (1 - 2 / 2 ^ 53) ≤ r ^ 2 ∧
      r ^ 2 ≤ q * (1 + 3 / 2 ^ 53)) ∧
    (∀ (v0 v1 v2 M : ℚ) (_ : 1 / 2 ^ 400 ≤ M) (_ : M ≤ 2 ^ 400) (_ : |v0| ≤ M) (_ : |v1| ≤ M) (_ : |v2| ≤ M) (_ : M * M ≤ v0 * v0 + v1 * v1 + v2 * v2),
      ∃ L : ℚ, F64.getVectorLength [fin v0, fin v1, fin v2] = .ok (fin L) ∧ 0 < L ∧
      (v0 * v0 + v1 * v1 + v2 * v2) * (1 - 12 / 2 ^ 53) ≤ L ^ 2 ∧
      L ^ 2 ≤ (v0 * v0 + v1 * v1 + v2 * v2) * (1 + 14 / 2 ^ 53)) := by
  have isqrtBits_spec (n : ℕ) (b r : ℕ) (h1 : r * r ≤ n) (h2 : n < (r + 2 ^ b) * (r + 2 ^ b)) :
      isqrtBits n b r * isqrtBits n b r ≤ n ∧ n < (isqrtBits n b r + 1) * (isqrtBits n b r + 1) := by
    induction b generalizing r with
    | zero =>
      simp only [isqrtBits]
      exact ⟨h1, by simpa using h2⟩
    | succ b ih =>
      simp only [isqrtBits]
      split_ifs with h
      · apply ih _ h
        have : r + 2 ^ b + 2 ^ b = r + 2 ^ (b + 1) := by ring
        rw [this]; exact h2
      · exact ih _ h1 (not_le.mp h)
  have sqrt_choice_spec (k : ℕ) (n w q : ℚ) (hwpos : 0 < w) (hqn : q = n * (w * w))
      (hk1q : (k : ℚ) * k ≤ n) (hk2q : n < ((k : ℚ) + 1) * (k + 1)) (hnlo : (2 : ℚ) ^ 104 ≤ n) :
      0 < (if 4 * n ≤ (2 * (k : ℚ) + 1) ^ 2 then k * w else (k + 1) * w) ∧
      (if 4 * n ≤ (2 * (k : ℚ) + 1) ^ 2 then k * w else (k + 1) * w) ^ 2 * (1 - 1 / 2 ^ 53) ^ 2 ≤ q ∧
      q ≤ (if 4 * n ≤ (2 * (k : ℚ) + 1) ^ 2 then k * w else (k + 1) * w) ^ 2 * (1 + 1 / 2 ^ 53) ^ 2 := by
    clear isqrtBits_spec
    have hk0 : (0 : ℚ) ≤ k := Nat.cast_nonneg k
    have hkge : (2 : ℚ) ^ 52 ≤ k + 1 := by
      by_contra hc
      push_neg at hc
      have : ((k : ℚ) + 1) * (k + 1) < 2 ^ 52 * 2 ^ 52 := by nlinarith
      have e : (2 : ℚ) ^ 52 * 2 ^ 52 = 2 ^ 104 := by norm_num
      linarith
    have hww : 0 ≤ w * w := mul_nonneg hwpos.le hwpos.le
    split_ifs with hc
    · have hkpos : (2 : ℚ) ^ 52 ≤ k := by
        by_contra hcc
        push_neg at hcc
        have hk' : (k : ℚ) + 1 ≤ 2 ^ 52 := by
          have : k < 2 ^ 52 := by exact_mod_cast hcc
          have : k + 1 ≤ 2 ^ 52 := this
          exact_mod_cast this
        have e : (k : ℚ) + 1 = 2 ^ 52 := le_antisymm hk' hkge
        have e2 : (k : ℚ) = 2 ^ 52 - 1 := by linarith
        rw [e2] at hc
        norm_num at hc hnlo
        linarith
      have hkp : (0 : ℚ) < k := lt_of_lt_of_le (by norm_num) hkpos
      refine ⟨mul_pos hkp hwpos, ?_, ?_⟩
      · rw [hqn]
        have : ((k : ℚ) * (1 - 1 / 2 ^ 53)) ^ 2 ≤ n := by nlinarith
        have := mul_le_mul_of_nonneg_right this hww
        calc (↑k * w) ^ 2 * (1 - 1 / 2 ^ 53) ^ 2 = ((k : ℚ) * (1 - 1 / 2 ^ 53)) ^ 2 * (w * w) := by
              ring
          _ ≤ n * (w * w) := this
      · rw [hqn]
        have : n ≤ ((k : ℚ) * (1 + 1 / 2 ^ 53)) ^ 2 := by nlinarith
        have := mul_le_mul_of_nonneg_right this hww
        calc n * (w * w) ≤ ((k : ℚ) * (1 + 1 / 2 ^ 53)) ^ 2 * (w * w) := this
          _ = (↑k * w) ^ 2 * (1 + 1 / 2 ^ 53) ^ 2 := by ring
    · push_neg at hc
      have hkp : (0 : ℚ) < k + 1 := by linarith
      refine ⟨mul_pos hkp hwpos, ?_, ?_⟩
      · rw [hqn]
        have : (((k : ℚ) + 1) * (1 - 1 / 2 ^ 53)) ^ 2 ≤ n := by nlinarith
        have := mul_le_mul_of_nonneg_right this hww
        calc ((↑k + 1) * w) ^ 2 * (1 - 1 / 2 ^ 53) ^ 2
            = (((k : ℚ) + 1) * (1 - 1 / 2 ^ 53)) ^ 2 * (w * w) := by ring
          _ ≤ n * (w * w) := this
      · rw [hqn]
        have : n ≤ (((k : ℚ) + 1) * (1 + 1 / 2 ^ 53)) ^ 2 := by nlinarith
        have := mul_le_mul_of_nonneg_right this hww
        calc n * (w * w) ≤ (((k : ℚ) + 1) * (1 + 1 / 2 ^ 53)) ^ 2 * (w * w) := this
          _ = ((↑k + 1) * w) ^ 2 * (1 + 1 / 2 ^ 53) ^ 2 := by ring
  have sqrtNearest_spec (q : ℚ) (h1 : 1 / 2 ^ 2048 ≤ q) (h2 : q < 2 ^ 2047) :
      0 < sqrtNearest q ∧ sqrtNearest q ^ 2 * (1 - 1 / 2 ^ 53) ^ 2 ≤ q ∧
        q ≤ sqrtNearest q ^ 2 * (1 + 1 / 2 ^ 53) ^ 2 := by
    have hq : 0 < q := lt_of_lt_of_le (by positivity) h1
    have hlo : (2 : ℚ) ^ (-2048 : ℤ) ≤ q := by
      rw [zpow_neg, zpow_ofNat, ← one_div]; exact h1
    have hhi : q < (2 : ℚ) ^ ((-2048 : ℤ) + 2 ^ 12) := by
      have e1 : (-2048 : ℤ) + 2 ^ 12 = 2048 := by norm_num
      rw [e1]
      have : (2 : ℚ) ^ (2047 : ℕ) ≤ 2 ^ (2048 : ℤ) := by
        rw [← zpow_natCast]
        exact zpow_le_zpow_right₀ (by norm_num) (by norm_num)
      linarith
    obtain ⟨hL1, hL2⟩ := float64_facts_1.1 q 12 (-2048) hlo hhi
    clear hlo hhi h1 h2
    unfold sqrtNearest
    dsimp only
    set L := log2Search q 12 (-2048) with hLdef
    set h := L / 2 with hh
    set w : ℚ := 2 ^ (h - 52) with hw
    have hwpos : 0 < w := by positivity
    have h2h : 2 * h ≤ L ∧ L ≤ 2 * h + 1 := by omega
    set n : ℚ := q / (w * w) with hn
    have hww : w * w = 2 ^ (2 * h - 104) := by
      rw [hw, ← zpow_add₀ (two_ne_zero)]; congr 1; ring
    have hnlo : (2 : ℚ) ^ (104 : ℕ) ≤ n := by
      rw [hn, le_div_iff₀ (by positivity), hww, ← zpow_natCast, ← zpow_add₀ (two_ne_zero)]
      refine le_trans (zpow_le_zpow_right₀ (by norm_num) ?_) hL1
      push_cast; omega
    have hnhi : n < (2 : ℚ) ^ (106 : ℕ) := by
      rw [hn, div_lt_iff₀ (by positivity), hww, ← zpow_natCast, ← zpow_add₀ (two_ne_zero)]
      refine lt_of_lt_of_le hL2 (zpow_le_zpow_right₀ (by norm_num) ?_)
      push_cast; omega
    have hn0 : 0 ≤ n := le_trans (by positivity) hnlo
    set N := ⌊n⌋.toNat with hN
    have hfl : (0 : ℤ) ≤ ⌊n⌋ := Int.floor_nonneg.mpr hn0
    have hNcast : ((N : ℤ) : ℚ) = (⌊n⌋ : ℚ) := by
      rw [hN, Int.toNat_of_nonneg hfl]
    have hNle : (N : ℚ) ≤ n := by
      have := Int.floor_le n
      rw [← hNcast] at this; exact_mod_cast this
    have hNlt : n < (N : ℚ) + 1 := by
      have := Int.lt_floor_add_one n
      rw [← hNcast] at this; exact_mod_cast this
    have hNhi : N < (0 + 2 ^ 53) * (0 + 2 ^ 53) := by
      have : (N : ℚ) < 2 ^ 106 := lt_of_le_of_lt hNle hnhi
      have : N < 2 ^ 106 := by exact_mod_cast this
      calc N < 2 ^ 106 := this
        _ = (0 + 2 ^ 53) * (0 + 2 ^ 53) := by norm_num
    obtain ⟨hk1, hk2⟩ := isqrtBits_spec N 53 0 (by simp) hNhi
    generalize isqrtBits N 53 0 = k at hk1 hk2 ⊢
    have hk1q : (k : ℚ) * k ≤ n := by
      have : ((k * k : ℕ) : ℚ) ≤ N := by exact_mod_cast hk1
      push_cast at this; linarith
    have hk2q : n < ((k : ℚ) + 1) * (k + 1) := by
      have : N + 1 ≤ (k + 1) * (k + 1) := hk2
      have : ((N + 1 : ℕ) : ℚ) ≤ (((k + 1) * (k + 1) : ℕ) : ℚ) := by exact_mod_cast this
      push_cast at this; linarith
    have hqn : q = n * (w * w) := by rw [hn]; field_simp
    exact sqrt_choice_spec k n w q hwpos hqn hk1q hk2q hnlo
  have f64_sqrt_err (q : ℚ) (h1 : 1 / 2 ^ 2048 ≤ q) (h2 : q < 2 ^ 2047) :
      ∃ r : ℚ, F64.sqrt (fin q) = fin r ∧ 0 < r ∧ q * (1 - 2 / 2 ^ 53) ≤ r ^ 2 ∧
        r ^ 2 ≤ q * (1 + 3 / 2 ^ 53) := by
    clear isqrtBits_spec sqrt_choice_spec
    have hq : 0 < q := lt_of_lt_of_le (by positivity) h1
    obtain ⟨hr, hlo, hhi⟩ := sqrtNearest_spec q h1 h2
    clear h1 h2
    refine ⟨sqrtNearest q, ?_, hr, ?_, ?_⟩
    · have a : ¬ q < 0 := not_lt.mpr hq.le
      simp only [F64.sqrt, a, hq.ne', if_false]
    · generalize sqrtNearest q = r at hr hlo hhi ⊢
      have hc : (1 - 2 / 2 ^ 53 : ℚ) * (1 + 1 / 2 ^ 53) ^ 2 ≤ 1 := by norm_num
      have hA : q * (1 - 2 / 2 ^ 53) * (1 + 1 / 2 ^ 53) ^ 2 ≤ r ^ 2 * (1 + 1 / 2 ^ 53) ^ 2 := by
        calc q * (1 - 2 / 2 ^ 53) * (1 + 1 / 2 ^ 53) ^ 2
            = q * ((1 - 2 / 2 ^ 53) * (1 + 1 / 2 ^ 53) ^ 2) := by ring
          _ ≤ q * 1 := mul_le_mul_of_nonneg_left hc hq.le
          _ = q := mul_one q
          _ ≤ r ^ 2 * (1 + 1 / 2 ^ 53) ^ 2 := hhi
      exact le_of_mul_le_mul_right hA (by norm_num)
    · generalize sqrtNearest q = r at hr hlo hhi ⊢
      have hc : (1 : ℚ) ≤ (1 + 3 / 2 ^ 53) * (1 - 1 / 2 ^ 53) ^ 2 := by norm_num
      have hA : r ^ 2 * (1 - 1 / 2 ^ 53) ^ 2 ≤ q * (1 + 3 / 2 ^ 53) * (1 - 1 / 2 ^ 53) ^ 2 := by
        calc r ^ 2 * (1 - 1 / 2 ^ 53) ^ 2 ≤ q := hlo
          _ = q * 1 := (mul_one q).symm
          _ ≤ q * ((1 + 3 / 2 ^ 53) * (1 - 1 / 2 ^ 53) ^ 2) := mul_le_mul_of_nonneg_left hc hq.le
          _ = q * (1 + 3 / 2 ^ 53) * (1 - 1 / 2 ^ 53) ^ 2 := by ring
      exact le_of_mul_le_mul_right hA (by norm_num)
  -- The length the program computes for a finite vector whose largest component has the
  -- magnitude `M`: it is positive, and its square is the exact squared length up to a relative
  -- error of a few units in the last place.
  have f64_length_err (v0 v1 v2 M : ℚ) (hM1 : 1 / 2 ^ 400 ≤ M) (hM2 : M ≤ 2 ^ 400)
      (h0 : |v0| ≤ M) (h1 : |v1| ≤ M) (h2 : |v2| ≤ M)
      (hs : M * M ≤ v0 * v0 + v1 * v1 + v2 * v2) :
      ∃ L : ℚ, F64.getVectorLength [fin v0, fin v1, fin v2] = .ok (fin L) ∧ 0 < L ∧
        (v0 * v0 + v1 * v1 + v2 * v2) * (1 - 12 / 2 ^ 53) ≤ L ^ 2 ∧
        L ^ 2 ≤ (v0 * v0 + v1 * v1 + v2 * v2) * (1 + 14 / 2 ^ 53) := by
    clear isqrtBits_spec sqrt_choice_spec sqrtNearest_spec
    have hM : 0 < M := lt_of_lt_of_le (by positivity) hM1
    have hMlo : 1 / 2 ^ 800 ≤ M * M := by
      have := mul_le_mul hM1 hM1 (by positivity) hM.le
      calc (1 : ℚ) / 2 ^ 800 = 1 / 2 ^ 400 * (1 / 2 ^ 400) := by
            rw [div_mul_div_comm, one_mul, ← pow_add]
        _ ≤ M * M := this
    have hMhi : M * M ≤ 2 ^ 800 := by
      have := mul_le_mul hM2 hM2 hM.le (by positivity)
      calc M * M ≤ 2 ^ 400 * 2 ^ 400 := this
        _ = 2 ^ 800 := by rw [← pow_add]
    clear hM1 hM2
    obtain ⟨st, hst, est⟩ := rounded_op_facts_3.2.1 v0 v1 v2 v0 v1 v2 M M h0 h1 h2 h0 h1 h2 (by linarith)
      (by linarith)
    set s := v0 * v0 + v1 * v1 + v2 * v2 with hsdef
    have hs3 : s ≤ 3 * (M * M) := by
      have a0 := rounded_op_facts_2.2.2.2.2.1 h0 h0
      have a1 := rounded_op_facts_2.2.2.2.2.1 h1 h1
      have a2 := rounded_op_facts_2.2.2.2.2.1 h2 h2
      have := le_abs_self (v0 * v0)
      have := le_abs_self (v1 * v1)
      have := le_abs_self (v2 * v2)
      linarith
    rw [abs_le] at est
    have hst1 : s * (1 - 10 / 2 ^ 53) ≤ st := by linarith
    have hst2 : st ≤ s * (1 + 10 / 2 ^ 53) := by linarith
    have hspos : 0 < s := lt_of_lt_of_le (mul_pos hM hM) hs
    obtain ⟨L, hL, hLpos, hL1, hL2⟩ := f64_sqrt_err st (by linarith) (by linarith)
    refine ⟨L, ?_, hLpos, ?_, ?_⟩
    · simp only [F64.getVectorLength, hst, bind, Except.bind, pure, Except.pure, hL]
    · have hc : s * (1 - 12 / 2 ^ 53) ≤ s * (1 - 10 / 2 ^ 53) * (1 - 2 / 2 ^ 53) := by
        have : (1 - 12 / 2 ^ 53 : ℚ) ≤ (1 - 10 / 2 ^ 53) * (1 - 2 / 2 ^ 53) := by norm_num
        calc s * (1 - 12 / 2 ^ 53) ≤ s * ((1 - 10 / 2 ^ 53) * (1 - 2 / 2 ^ 53)) :=
              mul_le_mul_of_nonneg_left this hspos.le
          _ = s * (1 - 10 / 2 ^ 53) * (1 - 2 / 2 ^ 53) := by ring
      have := mul_le_mul_of_nonneg_right hst1 (show (0 : ℚ) ≤ 1 - 2 / 2 ^ 53 by norm_num)
      linarith
    · have hc : s * (1 + 10 / 2 ^ 53) * (1 + 3 / 2 ^ 53) ≤ s * (1 + 14 / 2 ^ 53) := by
        have : ((1 + 10 / 2 ^ 53) * (1 + 3 / 2 ^ 53) : ℚ) ≤ 1 + 14 / 2 ^ 53 := by norm_num
        calc s * (1 + 10 / 2 ^ 53) * (1 + 3 / 2 ^ 53) = s * ((1 + 10 / 2 ^ 53) * (1 + 3 / 2 ^ 53)) := by
              ring
          _ ≤ s * (1 + 14 / 2 ^ 53) := mul_le_mul_of_nonneg_left this hspos.le
      have := mul_le_mul_of_nonneg_right hst2 (show (0 : ℚ) ≤ 1 + 3 / 2 ^ 53 by norm_num)
      linarith
  exact ⟨@isqrtBits_spec, @sqrt_choice_spec, @sqrtNearest_spec, @f64_sqrt_err, @f64_length_err⟩

/-- Lemmas on the rounded square root and the rounded length, proved in turn: `max3_facts`,
`f64_unit_err`, `sq_diff_bound`, `unit_length_core`. -/
theorem sqrt_facts_2 :
    (∀ (v0 v1 v2 : ℚ),
      |v0| ≤ max |v0| (max |v1| |v2|) ∧ |v1| ≤ max |v0| (max |v1| |v2|) ∧
    |v2| ≤ max |v0| (max |v1| |v2|) ∧
    max |v0| (max |v1| |v2|) * max |v0| (max |v1| |v2|) ≤ v0 * v0 + v1 * v1 + v2 * v2) ∧
    (∀ (v0 v1 v2 M : ℚ) (_ : 1 / 2 ^ 400 ≤ M) (_ : M ≤ 2 ^ 400) (_ : |v0| ≤ M) (_ : |v1| ≤ M) (_ : |v2| ≤ M) (_ : M * M ≤ v0 * v0 + v1 * v1 + v2 * v2),
      ∃ L w0 w1 w2 : ℚ, F64.getVectorLength [fin v0, fin v1, fin v2] = .ok (fin L) ∧
      F64.unitVector [fin v0, fin v1, fin v2] = .ok [fin w0, fin w1, fin w2] ∧
      fin w0 = F64.div (fin v0) (fin L) ∧ fin w1 = F64.div (fin v1) (fin L) ∧
      fin w2 = F64.div (fin v2) (fin L) ∧ 0 < L ∧ 99 / 100 * M ≤ L ∧
      (v0 * v0 + v1 * v1 + v2 * v2) * (1 - 12 / 2 ^ 53) ≤ L ^ 2 ∧
      L ^ 2 ≤ (v0 * v0 + v1 * v1 + v2 * v2) * (1 + 14 / 2 ^ 53) ∧
      |w0 - v0 / L| ≤ 100 / 99 / 2 ^ 53 ∧ |w1 - v1 / L| ≤ 100 / 99 / 2 ^ 53 ∧
      |w2 - v2 / L| ≤ 100 / 99 / 2 ^ 53) ∧
    (∀ (w x : ℚ) (_ : |w - x| ≤ 100 / 99 / 2 ^ 53) (_ : |x| ≤ 100 / 99),
      |w| ≤ 102 / 100 ∧ |w * w - x * x| ≤ 3 / 2 ^ 53) ∧
    (∀ (v0 v1 v2 w0 w1 w2 M L : ℚ) (_ : 0 < M) (_ : |v0| ≤ M) (_ : |v1| ≤ M) (_ : |v2| ≤ M) (_ : M * M ≤ v0 * v0 + v1 * v1 + v2 * v2) (_ : 0 < L) (_ : 99 / 100 * M ≤ L) (_ : (v0 * v0 + v1 * v1 + v2 * v2) * (1 - 12 / 2 ^ 53) ≤ L ^ 2) (_ : L ^ 2 ≤ (v0 * v0 + v1 * v1 + v2 * v2) * (1 + 14 / 2 ^ 53)) (_ : |w0 - v0 / L| ≤ 100 / 99 / 2 ^ 53) (_ : |w1 - v1 / L| ≤ 100 / 99 / 2 ^ 53) (_ : |w2 - v2 / L| ≤ 100 / 99 / 2 ^ 53),
      |w0| ≤ 102 / 100 ∧ |w1| ≤ 102 / 100 ∧ |w2| ≤ 102 / 100 ∧
      |w0 * w0 + w1 * w1 + w2 * w2 - 1| ≤ 23 / 2 ^ 53) := by
  -- The largest of three magnitudes bounds each, and its square is at most the sum of the
  -- squares.
  have max3_facts (v0 v1 v2 : ℚ) :
      |v0| ≤ max |v0| (max |v1| |v2|) ∧ |v1| ≤ max |v0| (max |v1| |v2|) ∧
      |v2| ≤ max |v0| (max |v1| |v2|) ∧
      max |v0| (max |v1| |v2|) * max |v0| (max |v1| |v2|) ≤ v0 * v0 + v1 * v1 + v2 * v2 := by
    refine ⟨le_max_left _ _, le_trans (le_max_left _ _) (le_max_right _ _),
      le_trans (le_max_right _ _) (le_max_right _ _), ?_⟩
    have q0 := mul_self_nonneg v0
    have q1 := mul_self_nonneg v1
    have q2 := mul_self_nonneg v2
    rcases max_choice |v0| (max |v1| |v2|) with h | h
    · rw [h, abs_mul_abs_self]; linarith
    · rw [h]
      rcases max_choice |v1| |v2| with h' | h'
      · rw [h', abs_mul_abs_self]; linarith
      · rw [h', abs_mul_abs_self]; linarith
  -- The vector `unitVector` returns for a finite vector whose largest component has the
  -- magnitude `M`: each component is within `(100 / 99) / 2 ^ 53` of the quotient by the
  -- computed length.
  have f64_unit_err (v0 v1 v2 M : ℚ) (hM1 : 1 / 2 ^ 400 ≤ M) (hM2 : M ≤ 2 ^ 400)
      (h0 : |v0| ≤ M) (h1 : |v1| ≤ M) (h2 : |v2| ≤ M)
      (hs : M * M ≤ v0 * v0 + v1 * v1 + v2 * v2) :
      ∃ L w0 w1 w2 : ℚ, F64.getVectorLength [fin v0, fin v1, fin v2] = .ok (fin L) ∧
        F64.unitVector [fin v0, fin v1, fin v2] = .ok [fin w0, fin w1, fin w2] ∧
        fin w0 = F64.div (fin v0) (fin L) ∧ fin w1 = F64.div (fin v1) (fin L) ∧
        fin w2 = F64.div (fin v2) (fin L) ∧ 0 < L ∧ 99 / 100 * M ≤ L ∧
        (v0 * v0 + v1 * v1 + v2 * v2) * (1 - 12 / 2 ^ 53) ≤ L ^ 2 ∧
        L ^ 2 ≤ (v0 * v0 + v1 * v1 + v2 * v2) * (1 + 14 / 2 ^ 53) ∧
        |w0 - v0 / L| ≤ 100 / 99 / 2 ^ 53 ∧ |w1 - v1 / L| ≤ 100 / 99 / 2 ^ 53 ∧
        |w2 - v2 / L| ≤ 100 / 99 / 2 ^ 53 := by
    clear max3_facts
    obtain ⟨L, hL, hLpos, hL1, hL2⟩ := sqrt_facts_1.2.2.2.2 v0 v1 v2 M hM1 hM2 h0 h1 h2 hs
    have hM : 0 < M := lt_of_lt_of_le (by positivity) hM1
    clear hM1 hM2
    have hLM : 99 / 100 * M ≤ L := by
      by_contra hc
      push_neg at hc
      have h3 : L ^ 2 < (99 / 100 * M) ^ 2 := by
        have := mul_lt_mul'' hc hc hLpos.le hLpos.le
        calc L ^ 2 = L * L := sq L
          _ < 99 / 100 * M * (99 / 100 * M) := this
          _ = (99 / 100 * M) ^ 2 := (sq _).symm
      have h4 : (99 / 100 * M) ^ 2 ≤ (v0 * v0 + v1 * v1 + v2 * v2) * (1 - 12 / 2 ^ 53) := by
        have hMM : 0 < M * M := mul_pos hM hM
        have e : (99 / 100 * M) ^ 2 = (99 / 100) ^ 2 * (M * M) := by ring
        rw [e]
        have : ((99 : ℚ) / 100) ^ 2 * (M * M) ≤ (M * M) * (1 - 12 / 2 ^ 53) := by
          have hn : ((99 : ℚ) / 100) ^ 2 ≤ 1 - 12 / 2 ^ 53 := by norm_num
          calc ((99 : ℚ) / 100) ^ 2 * (M * M) ≤ (1 - 12 / 2 ^ 53) * (M * M) :=
                mul_le_mul_of_nonneg_right hn hMM.le
            _ = (M * M) * (1 - 12 / 2 ^ 53) := by ring
        have := mul_le_mul_of_nonneg_right hs (show (0 : ℚ) ≤ 1 - 12 / 2 ^ 53 by norm_num)
        linarith
      linarith
    have hLabs : 99 / 100 * M ≤ |L| := by rw [abs_of_pos hLpos]; exact hLM
    have hq : M / (99 / 100 * M) = 100 / 99 := by field_simp; ring
    have hpos : 0 < 99 / 100 * M := by positivity
    obtain ⟨w0, hw0, e0⟩ := rounded_op_facts_2.2.2.1 v0 L M (99 / 100 * M) h0 hpos hLabs
      (by rw [hq]; norm_num) (by rw [hq]; norm_num)
    obtain ⟨w1, hw1, e1⟩ := rounded_op_facts_2.2.2.1 v1 L M (99 / 100 * M) h1 hpos hLabs
      (by rw [hq]; norm_num) (by rw [hq]; norm_num)
    obtain ⟨w2, hw2, e2⟩ := rounded_op_facts_2.2.2.1 v2 L M (99 / 100 * M) h2 hpos hLabs
      (by rw [hq]; norm_num) (by rw [hq]; norm_num)
    rw [hq] at e0 e1 e2
    refine ⟨L, w0, w1, w2, hL, ?_, hw0.symm, hw1.symm, hw2.symm, hLpos, hLM, hL1, hL2, e0, e1, e2⟩
    simp only [F64.getVectorLength, bind, Except.bind, pure, Except.pure] at hL
    simp only [F64.unitVector, List.length_cons, List.length_nil, ne_eq, not_true_eq_false,
      if_false, bind, Except.bind, pure, Except.pure, nth, List.getD_cons_zero,
      List.getD_cons_succ]
    revert hL
    cases F64.dotProduct [fin v0, fin v1, fin v2] [fin v0, fin v1, fin v2] with
    | error e => intro hL; cases hL
    | ok d =>
      intro hL
      simp only [Except.ok.injEq] at hL
      simp only [hL, hw0, hw1, hw2]
  have sq_diff_bound (w x : ℚ) (e : |w - x| ≤ 100 / 99 / 2 ^ 53) (hx : |x| ≤ 100 / 99) :
      |w| ≤ 102 / 100 ∧ |w * w - x * x| ≤ 3 / 2 ^ 53 := by
    clear max3_facts f64_unit_err
    have hw : |w| ≤ 102 / 100 := by
      have := rounded_op_facts_2.2.2.2.1 e hx
      norm_num at this ⊢; linarith
    refine ⟨hw, ?_⟩
    have h1 : |w + x| ≤ 102 / 100 + 100 / 99 := le_trans (abs_add _ _) (add_le_add hw hx)
    have h2 := rounded_op_facts_2.2.2.2.2.1 e h1
    have e2 : w * w - x * x = (w - x) * (w + x) := by ring
    rw [e2]
    norm_num at h2 ⊢; linarith
  have unit_length_core (v0 v1 v2 w0 w1 w2 M L : ℚ) (hM : 0 < M) (h0 : |v0| ≤ M)
      (h1 : |v1| ≤ M) (h2 : |v2| ≤ M) (hs : M * M ≤ v0 * v0 + v1 * v1 + v2 * v2) (hL : 0 < L)
      (hLM : 99 / 100 * M ≤ L)
      (hL1 : (v0 * v0 + v1 * v1 + v2 * v2) * (1 - 12 / 2 ^ 53) ≤ L ^ 2)
      (hL2 : L ^ 2 ≤ (v0 * v0 + v1 * v1 + v2 * v2) * (1 + 14 / 2 ^ 53))
      (e0 : |w0 - v0 / L| ≤ 100 / 99 / 2 ^ 53) (e1 : |w1 - v1 / L| ≤ 100 / 99 / 2 ^ 53)
      (e2 : |w2 - v2 / L| ≤ 100 / 99 / 2 ^ 53) :
      |w0| ≤ 102 / 100 ∧ |w1| ≤ 102 / 100 ∧ |w2| ≤ 102 / 100 ∧
        |w0 * w0 + w1 * w1 + w2 * w2 - 1| ≤ 23 / 2 ^ 53 := by
    clear max3_facts f64_unit_err
    have hx : ∀ v : ℚ, |v| ≤ M → |v / L| ≤ 100 / 99 := by
      intro v hv
      rw [abs_div, abs_of_pos hL, div_le_iff₀ hL]
      linarith
    obtain ⟨b0, d0⟩ := sq_diff_bound w0 (v0 / L) e0 (hx v0 h0)
    obtain ⟨b1, d1⟩ := sq_diff_bound w1 (v1 / L) e1 (hx v1 h1)
    obtain ⟨b2, d2⟩ := sq_diff_bound w2 (v2 / L) e2 (hx v2 h2)
    refine ⟨b0, b1, b2, ?_⟩
    have hspos : 0 < v0 * v0 + v1 * v1 + v2 * v2 := lt_of_lt_of_le (mul_pos hM hM) hs
    have hL2pos : 0 < L ^ 2 := pow_pos hL 2
    have hX : v0 / L * (v0 / L) + v1 / L * (v1 / L) + v2 / L * (v2 / L) =
        (v0 * v0 + v1 * v1 + v2 * v2) / L ^ 2 := by
      rw [div_mul_div_comm, div_mul_div_comm, div_mul_div_comm, ← add_div, ← add_div, sq]
    generalize v0 * v0 + v1 * v1 + v2 * v2 = s at hX hL1 hL2 hspos
    have hX1 : 1 - 14 / 2 ^ 53 ≤ s / L ^ 2 := by
      rw [le_div_iff₀ hL2pos]
      have := mul_le_mul_of_nonneg_left hL2 (show (0 : ℚ) ≤ 1 - 14 / 2 ^ 53 by norm_num)
      have hc : (1 - 14 / 2 ^ 53 : ℚ) * (s * (1 + 14 / 2 ^ 53)) ≤ s := by
        have : ((1 - 14 / 2 ^ 53) * (1 + 14 / 2 ^ 53) : ℚ) ≤ 1 := by norm_num
        calc (1 - 14 / 2 ^ 53 : ℚ) * (s * (1 + 14 / 2 ^ 53))
            = s * ((1 - 14 / 2 ^ 53) * (1 + 14 / 2 ^ 53)) := by ring
          _ ≤ s * 1 := mul_le_mul_of_nonneg_left this hspos.le
          _ = s := mul_one s
      linarith
    have hX2 : s / L ^ 2 ≤ 1 + 13 / 2 ^ 53 := by
      rw [div_le_iff₀ hL2pos]
      have := mul_le_mul_of_nonneg_left hL1 (show (0 : ℚ) ≤ 1 + 13 / 2 ^ 53 by norm_num)
      have hc : s ≤ (1 + 13 / 2 ^ 53 : ℚ) * (s * (1 - 12 / 2 ^ 53)) := by
        have : (1 : ℚ) ≤ (1 + 13 / 2 ^ 53) * (1 - 12 / 2 ^ 53) := by norm_num
        calc s = s * 1 := (mul_one s).symm
          _ ≤ s * ((1 + 13 / 2 ^ 53) * (1 - 12 / 2 ^ 53)) := mul_le_mul_of_nonneg_left this hspos.le
          _ = (1 + 13 / 2 ^ 53 : ℚ) * (s * (1 - 12 / 2 ^ 53)) := by ring
      linarith
    rw [abs_le] at d0 d1 d2 ⊢
    constructor <;> linarith
  exact ⟨@max3_facts, @f64_unit_err, @sq_diff_bound, @unit_length_core⟩

/-- C14, the counterexample.  For v = [2, 3, 6], of length 7, the program computes
`getVectorLength(unitVector(v)) = 1 - 2 ^ (-53)`, which is 0.9999999999999999, not 1. -/
theorem unitVector_length_not_one :
    (do F64.getVectorLength (← F64.unitVector [2, 3, 6])) = .ok (fin (1 - 1 / 2 ^ 53)) := by
  decide!

/-- Lemmas on the rounded projection on an axis, proved in turn: `real_inv_sqrt_near`,
`project_term`, `project_real`, `f64_project_err`, `f64_sub_near`, `reflect_one`, `exact_scale`,
`near_both`. -/
theorem project_facts :
    (∀ (L s ε : ℝ) (_ : 0 < L) (_ : 0 < s) (_ : 0 ≤ ε) (_ : |L ^ 2 - s| ≤ ε * s),
      |1 / L - 1 / Real.sqrt s| ≤ ε / L) ∧
    (∀ (t a w x D : ℚ) (_ : |t - a| ≤ D / 2 ^ 53) (_ : |a| ≤ D) (_ : |w - x| ≤ 100 / 99 / 2 ^ 53) (_ : |w| ≤ 102 / 100),
      |t * w - a * x| ≤ 21 / 10 * D / 2 ^ 53) ∧
    (∀ (r d L S M D : ℝ) (_ : 0 < L) (_ : 0 < M) (_ : 0 < D) (_ : 99 / 100 * M ≤ L) (_ : |d| ≤ 3 * (D * M)) (_ : |1 / L - 1 / S| ≤ 14 / 2 ^ 53 / L) (_ : |r - d / L| ≤ 17 * D / 2 ^ 53),
      |r - d / S| ≤ D / 2 ^ 46) ∧
    (∀ (a0 a1 a2 t0 t1 t2 x0 x1 x2 D : ℚ) (_ : 1 / 2 ^ 400 ≤ D) (_ : D ≤ 2 ^ 400) (_ : |a0| ≤ D) (_ : |a1| ≤ D) (_ : |a2| ≤ D) (_ : |t0 - a0| ≤ D / 2 ^ 53) (_ : |t1 - a1| ≤ D / 2 ^ 53) (_ : |t2 - a2| ≤ D / 2 ^ 53) (_ : 1 / 2 ^ 400 ≤ max |x0| (max |x1| |x2|)) (_ : max |x0| (max |x1| |x2|) ≤ 2 ^ 400),
      ∃ (u : List JSNum) (r : ℚ), F64.unitVector [fin x0, fin x1, fin x2] = .ok u ∧
      F64.dotProduct [fin t0, fin t1, fin t2] u = .ok (fin r) ∧
      |(r : ℝ) - ((a0 : ℝ) * x0 + a1 * x1 + a2 * x2) /
          Real.sqrt ((x0 : ℝ) * x0 + x1 * x1 + x2 * x2)| ≤ (D : ℝ) / 2 ^ 46) ∧
    (∀ (p o D : ℚ) (_ : |p - o| ≤ D) (_ : 1 / 2 ^ 400 ≤ D) (_ : D ≤ 2 ^ 400),
      ∃ t : ℚ, F64.sub (fin p) (fin o) = fin t ∧ |t - (p - o)| ≤ D / 2 ^ 53) ∧
    (∀ (p0 p1 p2 o0 o1 o2 x0 x1 x2 y0 y1 y2 z0 z1 z2 D : ℚ) (_ : 1 / 2 ^ 400 ≤ D) (_ : D ≤ 2 ^ 400) (_ : |p0 - o0| ≤ D) (_ : |p1 - o1| ≤ D) (_ : |p2 - o2| ≤ D) (_ : 1 / 2 ^ 400 ≤ max |x0| (max |x1| |x2|)) (_ : max |x0| (max |x1| |x2|) ≤ 2 ^ 400) (_ : 1 / 2 ^ 400 ≤ max |y0| (max |y1| |y2|)) (_ : max |y0| (max |y1| |y2|) ≤ 2 ^ 400) (_ : 1 / 2 ^ 400 ≤ max |z0| (max |z1| |z2|)) (_ : max |z0| (max |z1| |z2|) ≤ 2 ^ 400),
      ∃ r0 r1 r2 : ℚ,
      F64.reflectDotToNewAxis [fin p0, fin p1, fin p2] [fin o0, fin o1, fin o2]
        [fin x0, fin x1, fin x2] [fin y0, fin y1, fin y2] [fin z0, fin z1, fin z2]
        = .ok [fin r0, fin r1, fin r2] ∧
      |(r0 : ℝ) - (((p0 - o0 : ℚ) : ℝ) * x0 + ((p1 - o1 : ℚ) : ℝ) * x1 + ((p2 - o2 : ℚ) : ℝ) * x2) /
          Real.sqrt ((x0 : ℝ) * x0 + x1 * x1 + x2 * x2)| ≤ (D : ℝ) / 2 ^ 46 ∧
      |(r1 : ℝ) - (((p0 - o0 : ℚ) : ℝ) * y0 + ((p1 - o1 : ℚ) : ℝ) * y1 + ((p2 - o2 : ℚ) : ℝ) * y2) /
          Real.sqrt ((y0 : ℝ) * y0 + y1 * y1 + y2 * y2)| ≤ (D : ℝ) / 2 ^ 46 ∧
      |(r2 : ℝ) - (((p0 - o0 : ℚ) : ℝ) * z0 + ((p1 - o1 : ℚ) : ℝ) * z1 + ((p2 - o2 : ℚ) : ℝ) * z2) /
          Real.sqrt ((z0 : ℝ) * z0 + z1 * z1 + z2 * z2)| ≤ (D : ℝ) / 2 ^ 46) ∧
    (∀ (a0 a1 a2 x0 x1 x2 k : ℝ) (_ : 0 < k),
      (a0 * (k * x0) + a1 * (k * x1) + a2 * (k * x2)) /
        Real.sqrt (k * x0 * (k * x0) + k * x1 * (k * x1) + k * x2 * (k * x2)) =
      (a0 * x0 + a1 * x1 + a2 * x2) / Real.sqrt (x0 * x0 + x1 * x1 + x2 * x2)) ∧
    (∀ (r r' e D : ℝ) (_ : |r - e| ≤ D / 2 ^ 46) (_ : |r' - e| ≤ D / 2 ^ 46),
      |r - r'| ≤ D / 2 ^ 45) := by
  have real_inv_sqrt_near (L s ε : ℝ) (hL : 0 < L) (hs : 0 < s) (hε : 0 ≤ ε)
      (h : |L ^ 2 - s| ≤ ε * s) : |1 / L - 1 / Real.sqrt s| ≤ ε / L := by
    have hS : 0 < Real.sqrt s := Real.sqrt_pos.mpr hs
    have hSS : Real.sqrt s * Real.sqrt s = s := Real.mul_self_sqrt hs.le
    set S := Real.sqrt s with hSdef
    rw [abs_le] at h
    have h1 : |S - L| ≤ ε * S := by
      rw [abs_le]
      constructor
      · by_contra hc
        push_neg at hc
        have : (L - S) * (L + S) > ε * S * (L + S) := by
          apply mul_lt_mul_of_pos_right _ (by positivity)
          linarith
        nlinarith [mul_nonneg hε (mul_nonneg hS.le hL.le)]
      · by_contra hc
        push_neg at hc
        have : (S - L) * (S + L) > ε * S * (S + L) := by
          apply mul_lt_mul_of_pos_right hc (by positivity)
        nlinarith [mul_nonneg hε (mul_nonneg hS.le hL.le)]
    have e : 1 / L - 1 / S = (S - L) / (L * S) := by
      field_simp
    rw [e, abs_div, abs_of_pos (mul_pos hL hS), div_le_div_iff₀ (mul_pos hL hS) hL]
    calc |S - L| * L ≤ ε * S * L := mul_le_mul_of_nonneg_right h1 hL.le
      _ = ε * (L * S) := by ring
  have project_term (t a w x D : ℚ) (et : |t - a| ≤ D / 2 ^ 53) (ha : |a| ≤ D)
      (ew : |w - x| ≤ 100 / 99 / 2 ^ 53) (hw : |w| ≤ 102 / 100) :
      |t * w - a * x| ≤ 21 / 10 * D / 2 ^ 53 := by
    clear real_inv_sqrt_near
    have e : t * w - a * x = (t - a) * w + a * (w - x) := by ring
    have p1 := rounded_op_facts_2.2.2.2.2.1 et hw
    have p2 := rounded_op_facts_2.2.2.2.2.1 ha ew
    rw [e]
    have := abs_add ((t - a) * w) (a * (w - x))
    have e1 : D / 2 ^ 53 * (102 / 100) + D * (100 / 99 / 2 ^ 53) ≤ 21 / 10 * D / 2 ^ 53 := by
      have hD : 0 ≤ D := le_trans (abs_nonneg _) ha
      have : D / 2 ^ 53 * (102 / 100) + D * (100 / 99 / 2 ^ 53) = (102 / 100 + 100 / 99) * D / 2 ^ 53 := by
        ring
      rw [this]
      apply div_le_div_of_nonneg_right _ (by positivity)
      apply mul_le_mul_of_nonneg_right _ hD
      norm_num
    linarith
  have project_real (r d L S M D : ℝ) (hL : 0 < L) (hM : 0 < M) (hD : 0 < D)
      (hLM : 99 / 100 * M ≤ L) (hd : |d| ≤ 3 * (D * M)) (hinv : |1 / L - 1 / S| ≤ 14 / 2 ^ 53 / L)
      (hr : |r - d / L| ≤ 17 * D / 2 ^ 53) : |r - d / S| ≤ D / 2 ^ 46 := by
    clear real_inv_sqrt_near project_term
    have h2 : |d / L - d / S| ≤ 3 * (D * M) * (14 / 2 ^ 53 / L) := by
      have e : d / L - d / S = d * (1 / L - 1 / S) := by ring
      rw [e, abs_mul]
      exact mul_le_mul hd hinv (abs_nonneg _) (by positivity)
    have h3 : 3 * (D * M) * (14 / 2 ^ 53 / L) ≤ 43 * D / 2 ^ 53 := by
      rw [show 3 * (D * M) * (14 / 2 ^ 53 / L) = 42 * D / 2 ^ 53 * (M / L) by ring]
      have hML : M / L ≤ 100 / 99 := by
        rw [div_le_iff₀ hL]; linarith
      have : 42 * D / 2 ^ 53 * (M / L) ≤ 42 * D / 2 ^ 53 * (100 / 99) :=
        mul_le_mul_of_nonneg_left hML (by positivity)
      linarith
    have h4 := abs_sub_le r (d / L) (d / S)
    have : 17 * D / 2 ^ 53 + 43 * D / 2 ^ 53 ≤ D / 2 ^ 46 := by
      have e : 17 * D / 2 ^ 53 + 43 * D / 2 ^ 53 = 60 / 2 ^ 53 * D := by ring
      have e2 : D / 2 ^ 46 = 1 / 2 ^ 46 * D := by ring
      rw [e, e2]
      apply mul_le_mul_of_nonneg_right _ hD.le
      norm_num
    linarith
  -- The component that `reflectDotToNewAxis` computes along one axis, from the rounded
  -- differences `t` of the point and the origin: it is within `D / 2 ^ 46` of the exact quotient
  -- of the dot product by the length of the axis.
  have f64_project_err (a0 a1 a2 t0 t1 t2 x0 x1 x2 D : ℚ) (hD1 : 1 / 2 ^ 400 ≤ D)
      (hD2 : D ≤ 2 ^ 400) (ha0 : |a0| ≤ D) (ha1 : |a1| ≤ D) (ha2 : |a2| ≤ D)
      (ht0 : |t0 - a0| ≤ D / 2 ^ 53) (ht1 : |t1 - a1| ≤ D / 2 ^ 53) (ht2 : |t2 - a2| ≤ D / 2 ^ 53)
      (hlo : 1 / 2 ^ 400 ≤ max |x0| (max |x1| |x2|)) (hhi : max |x0| (max |x1| |x2|) ≤ 2 ^ 400) :
      ∃ (u : List JSNum) (r : ℚ), F64.unitVector [fin x0, fin x1, fin x2] = .ok u ∧
        F64.dotProduct [fin t0, fin t1, fin t2] u = .ok (fin r) ∧
        |(r : ℝ) - ((a0 : ℝ) * x0 + a1 * x1 + a2 * x2) /
            Real.sqrt ((x0 : ℝ) * x0 + x1 * x1 + x2 * x2)| ≤ (D : ℝ) / 2 ^ 46 := by
    obtain ⟨h0, h1, h2, hs⟩ := sqrt_facts_2.1 x0 x1 x2
    generalize max |x0| (max |x1| |x2|) = M at hlo hhi h0 h1 h2 hs
    obtain ⟨L, w0, w1, w2, hL, hu, -, -, -, hLpos, hLM, hL1, hL2, e0, e1, e2⟩ :=
      sqrt_facts_2.2.1 x0 x1 x2 M hlo hhi h0 h1 h2 hs
    have hM : 0 < M := lt_of_lt_of_le (by positivity) hlo
    have hD : 0 < D := lt_of_lt_of_le (by positivity) hD1
    have hx : ∀ v : ℚ, |v| ≤ M → |v / L| ≤ 100 / 99 := by
      intro v hv
      rw [abs_div, abs_of_pos hLpos, div_le_iff₀ hLpos]
      linarith only [hv, hLM]
    have bw : ∀ w v : ℚ, |w - v / L| ≤ 100 / 99 / 2 ^ 53 → |v| ≤ M → |w| ≤ 102 / 100 := by
      intro w v e hv
      have := rounded_op_facts_2.2.2.2.1 e (hx v hv)
      have e2 : (100 : ℚ) / 99 + 100 / 99 / 2 ^ 53 ≤ 102 / 100 := by norm_num
      linarith only [this, e2]
    have b0 := bw w0 x0 e0 h0
    have b1 := bw w1 x1 e1 h1
    have b2 := bw w2 x2 e2 h2
    have bt : ∀ t a : ℚ, |t - a| ≤ D / 2 ^ 53 → |a| ≤ D → |t| ≤ 101 / 100 * D := by
      intro t a e ha
      have := rounded_op_facts_2.2.2.2.1 e ha
      have e2 : D + D / 2 ^ 53 ≤ 101 / 100 * D := by
        have : D + D / 2 ^ 53 = (1 + 1 / 2 ^ 53) * D := by ring
        rw [this]
        apply mul_le_mul_of_nonneg_right _ hD.le
        norm_num
      linarith only [this, e2]
    have c0 := bt t0 a0 ht0 ha0
    have c1 := bt t1 a1 ht1 ha1
    have c2 := bt t2 a2 ht2 ha2
    have hP : 101 / 100 * D * (102 / 100) = 10302 / 10000 * D := by ring
    obtain ⟨r, hr, er⟩ := rounded_op_facts_3.2.1 t0 t1 t2 w0 w1 w2 (101 / 100 * D) (102 / 100) c0 c1 c2 b0 b1
      b2 (by rw [hP]; exact rounded_op_facts_2.2.2.2.2.2.1 _ _ 400 1000 (by norm_num) (by norm_num) hD1)
      (by rw [hP]; exact rounded_op_facts_2.2.2.2.2.2.2 _ _ 400 1000 (by norm_num) (by norm_num) hD.le hD2)
    refine ⟨[fin w0, fin w1, fin w2], r, hu, hr, ?_⟩
    clear hD1 hD2 hlo hhi hr hu hL
    have q0 := project_term t0 a0 w0 (x0 / L) D ht0 ha0 e0 b0
    have q1 := project_term t1 a1 w1 (x1 / L) D ht1 ha1 e1 b1
    have q2 := project_term t2 a2 w2 (x2 / L) D ht2 ha2 e2 b2
    have hrat : |r - (a0 * x0 + a1 * x1 + a2 * x2) / L| ≤ 17 * D / 2 ^ 53 := by
      have e : (a0 * x0 + a1 * x1 + a2 * x2) / L = a0 * (x0 / L) + a1 * (x1 / L) + a2 * (x2 / L) := by
        field_simp
      rw [e, hP] at *
      have e3 : 10 * (10302 / 10000 * D) / 2 ^ 53 + 3 * (21 / 10 * D / 2 ^ 53) ≤ 17 * D / 2 ^ 53 := by
        have : 10 * (10302 / 10000 * D) / 2 ^ 53 + 3 * (21 / 10 * D / 2 ^ 53)
            = (10302 / 1000 + 63 / 10) * D / 2 ^ 53 := by ring
        rw [this]
        apply div_le_div_of_nonneg_right _ (by positivity)
        apply mul_le_mul_of_nonneg_right _ hD.le
        norm_num
      generalize t0 * w0 = A0 at er q0
      generalize t1 * w1 = A1 at er q1
      generalize t2 * w2 = A2 at er q2
      generalize a0 * (x0 / L) = B0 at q0 ⊢
      generalize a1 * (x1 / L) = B1 at q1 ⊢
      generalize a2 * (x2 / L) = B2 at q2 ⊢
      rw [abs_le] at er q0 q1 q2 ⊢
      constructor <;> linarith only [er, q0, q1, q2, e3]
    have hdot : |a0 * x0 + a1 * x1 + a2 * x2| ≤ 3 * (D * M) := by
      have p0 := rounded_op_facts_2.2.2.2.2.1 ha0 h0
      have p1 := rounded_op_facts_2.2.2.2.2.1 ha1 h1
      have p2 := rounded_op_facts_2.2.2.2.2.1 ha2 h2
      have s1 := abs_add (a0 * x0 + a1 * x1) (a2 * x2)
      have s2 := abs_add (a0 * x0) (a1 * x1)
      linarith only [p0, p1, p2, s1, s2]
    have hspos : 0 < x0 * x0 + x1 * x1 + x2 * x2 := lt_of_lt_of_le (mul_pos hM hM) hs
    have hLs : |L ^ 2 - (x0 * x0 + x1 * x1 + x2 * x2)| ≤ 14 / 2 ^ 53 * (x0 * x0 + x1 * x1 + x2 * x2) := by
      have hs0 := hspos.le
      generalize x0 * x0 + x1 * x1 + x2 * x2 = S at hL1 hL2 hs0 ⊢
      rw [abs_le]; constructor <;> linarith only [hL1, hL2, hs0]
    have hLsR : |(L : ℝ) ^ 2 - ((x0 : ℝ) * x0 + x1 * x1 + x2 * x2)|
        ≤ 14 / 2 ^ 53 * ((x0 : ℝ) * x0 + x1 * x1 + x2 * x2) := by
      have h := (Rat.cast_le (K := ℝ)).mpr hLs
      rw [Rat.cast_abs] at h
      push_cast at h
      exact h
    have hsR : (0 : ℝ) < (x0 : ℝ) * x0 + x1 * x1 + x2 * x2 := by exact_mod_cast hspos
    have hLR : (0 : ℝ) < (L : ℝ) := by exact_mod_cast hLpos
    have hinv := real_inv_sqrt_near L _ (14 / 2 ^ 53) hLR hsR (by norm_num) hLsR
    have hdotR : |(a0 : ℝ) * x0 + a1 * x1 + a2 * x2| ≤ 3 * ((D : ℝ) * M) := by
      have h := (Rat.cast_le (K := ℝ)).mpr hdot
      rw [Rat.cast_abs] at h
      push_cast at h
      exact h
    have hratR : |(r : ℝ) - ((a0 : ℝ) * x0 + a1 * x1 + a2 * x2) / L| ≤ 17 * (D : ℝ) / 2 ^ 53 := by
      have h := (Rat.cast_le (K := ℝ)).mpr hrat
      rw [Rat.cast_abs] at h
      push_cast at h
      exact h
    have hLMR : 99 / 100 * (M : ℝ) ≤ L := by
      have h := (Rat.cast_le (K := ℝ)).mpr hLM
      push_cast at h
      exact h
    have hMR : (0 : ℝ) < M := by exact_mod_cast hM
    have hDR : (0 : ℝ) < D := by exact_mod_cast hD
    exact project_real _ _ _ _ _ _ hLR hMR hDR hLMR hdotR hinv hratR
  have f64_sub_near (p o D : ℚ) (h : |p - o| ≤ D) (hD1 : 1 / 2 ^ 400 ≤ D) (hD2 : D ≤ 2 ^ 400) :
      ∃ t : ℚ, F64.sub (fin p) (fin o) = fin t ∧ |t - (p - o)| ≤ D / 2 ^ 53 := by
    clear real_inv_sqrt_near project_term project_real f64_project_err
    rw [rounded_op_facts_1.2.1]
    exact rounded_op_facts_1.2.2.2.2.2.1 _ _ h (by linarith) (by linarith)
  -- The three components `reflectDotToNewAxis` computes, each against the exact quotient of the
  -- dot product by the length of the axis.
  have reflect_one (p0 p1 p2 o0 o1 o2 x0 x1 x2 y0 y1 y2 z0 z1 z2 D : ℚ)
      (hD1 : 1 / 2 ^ 400 ≤ D) (hD2 : D ≤ 2 ^ 400) (hp0 : |p0 - o0| ≤ D) (hp1 : |p1 - o1| ≤ D)
      (hp2 : |p2 - o2| ≤ D)
      (hx1 : 1 / 2 ^ 400 ≤ max |x0| (max |x1| |x2|)) (hx2 : max |x0| (max |x1| |x2|) ≤ 2 ^ 400)
      (hy1 : 1 / 2 ^ 400 ≤ max |y0| (max |y1| |y2|)) (hy2 : max |y0| (max |y1| |y2|) ≤ 2 ^ 400)
      (hz1 : 1 / 2 ^ 400 ≤ max |z0| (max |z1| |z2|)) (hz2 : max |z0| (max |z1| |z2|) ≤ 2 ^ 400) :
      ∃ r0 r1 r2 : ℚ,
        F64.reflectDotToNewAxis [fin p0, fin p1, fin p2] [fin o0, fin o1, fin o2]
          [fin x0, fin x1, fin x2] [fin y0, fin y1, fin y2] [fin z0, fin z1, fin z2]
          = .ok [fin r0, fin r1, fin r2] ∧
        |(r0 : ℝ) - (((p0 - o0 : ℚ) : ℝ) * x0 + ((p1 - o1 : ℚ) : ℝ) * x1 + ((p2 - o2 : ℚ) : ℝ) * x2) /
            Real.sqrt ((x0 : ℝ) * x0 + x1 * x1 + x2 * x2)| ≤ (D : ℝ) / 2 ^ 46 ∧
        |(r1 : ℝ) - (((p0 - o0 : ℚ) : ℝ) * y0 + ((p1 - o1 : ℚ) : ℝ) * y1 + ((p2 - o2 : ℚ) : ℝ) * y2) /
            Real.sqrt ((y0 : ℝ) * y0 + y1 * y1 + y2 * y2)| ≤ (D : ℝ) / 2 ^ 46 ∧
        |(r2 : ℝ) - (((p0 - o0 : ℚ) : ℝ) * z0 + ((p1 - o1 : ℚ) : ℝ) * z1 + ((p2 - o2 : ℚ) : ℝ) * z2) /
            Real.sqrt ((z0 : ℝ) * z0 + z1 * z1 + z2 * z2)| ≤ (D : ℝ) / 2 ^ 46 := by
    clear real_inv_sqrt_near project_term project_real
    obtain ⟨t0, ht0, e0⟩ := f64_sub_near p0 o0 D hp0 hD1 hD2
    obtain ⟨t1, ht1, e1⟩ := f64_sub_near p1 o1 D hp1 hD1 hD2
    obtain ⟨t2, ht2, e2⟩ := f64_sub_near p2 o2 D hp2 hD1 hD2
    obtain ⟨ux, r0, hux, hr0, b0⟩ := f64_project_err (p0 - o0) (p1 - o1) (p2 - o2) t0 t1 t2 x0 x1 x2
      D hD1 hD2 hp0 hp1 hp2 e0 e1 e2 hx1 hx2
    obtain ⟨uy, r1, huy, hr1, b1⟩ := f64_project_err (p0 - o0) (p1 - o1) (p2 - o2) t0 t1 t2 y0 y1 y2
      D hD1 hD2 hp0 hp1 hp2 e0 e1 e2 hy1 hy2
    obtain ⟨uz, r2, huz, hr2, b2⟩ := f64_project_err (p0 - o0) (p1 - o1) (p2 - o2) t0 t1 t2 z0 z1 z2
      D hD1 hD2 hp0 hp1 hp2 e0 e1 e2 hz1 hz2
    refine ⟨r0, r1, r2, ?_, b0, b1, b2⟩
    simp only [F64.reflectDotToNewAxis, List.length_cons, List.length_nil, ne_eq,
      not_true_eq_false, if_false, hux, huy, huz, bind, Except.bind, nth, List.getD_cons_zero,
      List.getD_cons_succ, ht0, ht1, ht2, hr0, hr1, hr2, pure, Except.pure]
  have exact_scale (a0 a1 a2 x0 x1 x2 k : ℝ) (hk : 0 < k) :
      (a0 * (k * x0) + a1 * (k * x1) + a2 * (k * x2)) /
          Real.sqrt (k * x0 * (k * x0) + k * x1 * (k * x1) + k * x2 * (k * x2)) =
        (a0 * x0 + a1 * x1 + a2 * x2) / Real.sqrt (x0 * x0 + x1 * x1 + x2 * x2) := by
    clear real_inv_sqrt_near project_term project_real f64_project_err f64_sub_near reflect_one
    have e : k * x0 * (k * x0) + k * x1 * (k * x1) + k * x2 * (k * x2) =
        k ^ 2 * (x0 * x0 + x1 * x1 + x2 * x2) := by ring
    rw [e, Real.sqrt_mul (sq_nonneg k), Real.sqrt_sq hk.le]
    have e2 : a0 * (k * x0) + a1 * (k * x1) + a2 * (k * x2) = k * (a0 * x0 + a1 * x1 + a2 * x2) := by
      ring
    rw [e2, mul_div_mul_left _ _ hk.ne']
  have near_both (r r' e D : ℝ) (h1 : |r - e| ≤ D / 2 ^ 46) (h2 : |r' - e| ≤ D / 2 ^ 46) :
      |r - r'| ≤ D / 2 ^ 45 := by
    clear real_inv_sqrt_near project_term project_real f64_project_err f64_sub_near reflect_one exact_scale
    have := abs_sub_le r e r'
    rw [abs_sub_comm e r'] at this
    have e2 : D / 2 ^ 46 + D / 2 ^ 46 = D / 2 ^ 45 := by ring
    linarith
  exact ⟨@real_inv_sqrt_near, @project_term, @project_real, @f64_project_err, @f64_sub_near,
    @reflect_one, @exact_scale, @near_both⟩

/-- C11, the counterexample.  For the point [1, 2, 3], the origin [0, 0, 0] and the axes
[1, 1, 1], [1, -1, 0], [1, 1, -2] the first component is 3.4641016151377553, and with the axes
scaled by 3, 5 and 7 it is 3.4641016151377544: the two results differ. -/
theorem reflect_scaled_differs :
    F64.reflectDotToNewAxis [1, 2, 3] [0, 0, 0] [1, 1, 1] [1, -1, 0] [1, 1, -2] ≠
      F64.reflectDotToNewAxis [1, 2, 3] [0, 0, 0] [3, 3, 3] [5, -5, 0] [7, 7, -14] := by
  decide!

/-- C11, as amended.  In the arithmetic of the program, let the differences of the point and the
origin have magnitude at most `D`, and let the largest component of each axis, before and after
the axes are multiplied by positive numbers `k0, k1, k2`, have a magnitude in the range from
`2 ^ (-400)` to `2 ^ 400`, as `D` has.  Then each component of `reflectDotToNewAxis` is within
`D / 2 ^ 46` of the exact value `dot(p - o, axis) / length(axis)`, which does not depend on the
scale of the axis, and the components for the scaled axes are within `D / 2 ^ 45` of those for
the axes themselves. -/
theorem reflect_rounded (p0 p1 p2 o0 o1 o2 x0 x1 x2 y0 y1 y2 z0 z1 z2 k0 k1 k2 D : ℚ)
    (hD1 : 1 / 2 ^ 400 ≤ D) (hD2 : D ≤ 2 ^ 400) (hp0 : |p0 - o0| ≤ D) (hp1 : |p1 - o1| ≤ D)
    (hp2 : |p2 - o2| ≤ D) (hk0 : 0 < k0) (hk1 : 0 < k1) (hk2 : 0 < k2)
    (hx1 : 1 / 2 ^ 400 ≤ max |x0| (max |x1| |x2|)) (hx2 : max |x0| (max |x1| |x2|) ≤ 2 ^ 400)
    (hy1 : 1 / 2 ^ 400 ≤ max |y0| (max |y1| |y2|)) (hy2 : max |y0| (max |y1| |y2|) ≤ 2 ^ 400)
    (hz1 : 1 / 2 ^ 400 ≤ max |z0| (max |z1| |z2|)) (hz2 : max |z0| (max |z1| |z2|) ≤ 2 ^ 400)
    (hx1' : 1 / 2 ^ 400 ≤ max |k0 * x0| (max |k0 * x1| |k0 * x2|))
    (hx2' : max |k0 * x0| (max |k0 * x1| |k0 * x2|) ≤ 2 ^ 400)
    (hy1' : 1 / 2 ^ 400 ≤ max |k1 * y0| (max |k1 * y1| |k1 * y2|))
    (hy2' : max |k1 * y0| (max |k1 * y1| |k1 * y2|) ≤ 2 ^ 400)
    (hz1' : 1 / 2 ^ 400 ≤ max |k2 * z0| (max |k2 * z1| |k2 * z2|))
    (hz2' : max |k2 * z0| (max |k2 * z1| |k2 * z2|) ≤ 2 ^ 400) :
    ∃ r0 r1 r2 s0 s1 s2 : ℚ,
      F64.reflectDotToNewAxis [fin p0, fin p1, fin p2] [fin o0, fin o1, fin o2]
        [fin x0, fin x1, fin x2] [fin y0, fin y1, fin y2] [fin z0, fin z1, fin z2]
        = .ok [fin r0, fin r1, fin r2] ∧
      F64.reflectDotToNewAxis [fin p0, fin p1, fin p2] [fin o0, fin o1, fin o2]
        [fin (k0 * x0), fin (k0 * x1), fin (k0 * x2)] [fin (k1 * y0), fin (k1 * y1), fin (k1 * y2)]
        [fin (k2 * z0), fin (k2 * z1), fin (k2 * z2)] = .ok [fin s0, fin s1, fin s2] ∧
      |(r0 : ℝ) - (((p0 - o0 : ℚ) : ℝ) * x0 + ((p1 - o1 : ℚ) : ℝ) * x1 + ((p2 - o2 : ℚ) : ℝ) * x2) /
          Real.sqrt ((x0 : ℝ) * x0 + x1 * x1 + x2 * x2)| ≤ (D : ℝ) / 2 ^ 46 ∧
      |(r1 : ℝ) - (((p0 - o0 : ℚ) : ℝ) * y0 + ((p1 - o1 : ℚ) : ℝ) * y1 + ((p2 - o2 : ℚ) : ℝ) * y2) /
          Real.sqrt ((y0 : ℝ) * y0 + y1 * y1 + y2 * y2)| ≤ (D : ℝ) / 2 ^ 46 ∧
      |(r2 : ℝ) - (((p0 - o0 : ℚ) : ℝ) * z0 + ((p1 - o1 : ℚ) : ℝ) * z1 + ((p2 - o2 : ℚ) : ℝ) * z2) /
          Real.sqrt ((z0 : ℝ) * z0 + z1 * z1 + z2 * z2)| ≤ (D : ℝ) / 2 ^ 46 ∧
      |r0 - s0| ≤ D / 2 ^ 45 ∧ |r1 - s1| ≤ D / 2 ^ 45 ∧ |r2 - s2| ≤ D / 2 ^ 45 := by
  obtain ⟨r0, r1, r2, hr, b0, b1, b2⟩ := project_facts.2.2.2.2.2.1 p0 p1 p2 o0 o1 o2 x0 x1 x2 y0 y1 y2 z0 z1 z2
    D hD1 hD2 hp0 hp1 hp2 hx1 hx2 hy1 hy2 hz1 hz2
  obtain ⟨s0, s1, s2, hs, c0, c1, c2⟩ := project_facts.2.2.2.2.2.1 p0 p1 p2 o0 o1 o2 (k0 * x0) (k0 * x1)
    (k0 * x2) (k1 * y0) (k1 * y1) (k1 * y2) (k2 * z0) (k2 * z1) (k2 * z2) D hD1 hD2 hp0 hp1 hp2
    hx1' hx2' hy1' hy2' hz1' hz2'
  clear hD1 hD2 hx1 hx2 hy1 hy2 hz1 hz2 hx1' hx2' hy1' hy2' hz1' hz2'
  have hk0R : (0 : ℝ) < k0 := by exact_mod_cast hk0
  have hk1R : (0 : ℝ) < k1 := by exact_mod_cast hk1
  have hk2R : (0 : ℝ) < k2 := by exact_mod_cast hk2
  push_cast at c0 c1 c2
  rw [project_facts.2.2.2.2.2.2.1 _ _ _ _ _ _ _ hk0R] at c0
  rw [project_facts.2.2.2.2.2.2.1 _ _ _ _ _ _ _ hk1R] at c1
  rw [project_facts.2.2.2.2.2.2.1 _ _ _ _ _ _ _ hk2R] at c2
  push_cast at b0 b1 b2
  have toQ : ∀ r s : ℚ, |(r : ℝ) - s| ≤ (D : ℝ) / 2 ^ 45 → |r - s| ≤ D / 2 ^ 45 := by
    intro r s h
    have h' : ((|r - s| : ℚ) : ℝ) ≤ ((D / 2 ^ 45 : ℚ) : ℝ) := by
      rw [Rat.cast_abs]; push_cast; exact h
    exact (Rat.cast_le (K := ℝ)).mp h'
  refine ⟨r0, r1, r2, s0, s1, s2, hr, hs, ?_, ?_, ?_, toQ _ _ (project_facts.2.2.2.2.2.2.2 _ _ _ _ b0 c0),
    toQ _ _ (project_facts.2.2.2.2.2.2.2 _ _ _ _ b1 c1), toQ _ _ (project_facts.2.2.2.2.2.2.2 _ _ _ _ b2 c2)⟩
  · push_cast; exact b0
  · push_cast; exact b1
  · push_cast; exact b2

/-- C11, witness: the point (1, 2, 3), the origin, the axes (1, 1, 1), (1, -1, 0), (1, 1, -2)
and the factors 3, 5, 7, with D = 3. -/
theorem reflect_rounded_witness :
    ∃ r0 r1 r2 s0 s1 s2 : ℚ,
      F64.reflectDotToNewAxis [fin 1, fin 2, fin 3] [fin 0, fin 0, fin 0]
        [fin 1, fin 1, fin 1] [fin 1, fin (-1), fin 0] [fin 1, fin 1, fin (-2)]
        = .ok [fin r0, fin r1, fin r2] ∧
      F64.reflectDotToNewAxis [fin 1, fin 2, fin 3] [fin 0, fin 0, fin 0]
        [fin (3 * 1), fin (3 * 1), fin (3 * 1)] [fin (5 * 1), fin (5 * (-1)), fin (5 * 0)]
        [fin (7 * 1), fin (7 * 1), fin (7 * (-2))] = .ok [fin s0, fin s1, fin s2] ∧
      |(r0 : ℝ) - (((1 - 0 : ℚ) : ℝ) * (1 : ℚ) + ((2 - 0 : ℚ) : ℝ) * (1 : ℚ) + ((3 - 0 : ℚ) : ℝ) * (1 : ℚ)) /
          Real.sqrt (((1 : ℚ) : ℝ) * (1 : ℚ) + ((1 : ℚ) : ℝ) * (1 : ℚ) + ((1 : ℚ) : ℝ) * (1 : ℚ))|
        ≤ ((3 : ℚ) : ℝ) / 2 ^ 46 ∧
      |(r1 : ℝ) - (((1 - 0 : ℚ) : ℝ) * (1 : ℚ) + ((2 - 0 : ℚ) : ℝ) * (-1 : ℚ) + ((3 - 0 : ℚ) : ℝ) * (0 : ℚ)) /
          Real.sqrt (((1 : ℚ) : ℝ) * (1 : ℚ) + ((-1 : ℚ) : ℝ) * (-1 : ℚ) + ((0 : ℚ) : ℝ) * (0 : ℚ))|
        ≤ ((3 : ℚ) : ℝ) / 2 ^ 46 ∧
      |(r2 : ℝ) - (((1 - 0 : ℚ) : ℝ) * (1 : ℚ) + ((2 - 0 : ℚ) : ℝ) * (1 : ℚ) + ((3 - 0 : ℚ) : ℝ) * (-2 : ℚ)) /
          Real.sqrt (((1 : ℚ) : ℝ) * (1 : ℚ) + ((1 : ℚ) : ℝ) * (1 : ℚ) + ((-2 : ℚ) : ℝ) * (-2 : ℚ))|
        ≤ ((3 : ℚ) : ℝ) / 2 ^ 46 ∧
      |r0 - s0| ≤ (3 : ℚ) / 2 ^ 45 ∧ |r1 - s1| ≤ (3 : ℚ) / 2 ^ 45 ∧ |r2 - s2| ≤ (3 : ℚ) / 2 ^ 45 :=
  reflect_rounded 1 2 3 0 0 0 1 1 1 1 (-1) 0 1 1 (-2) 3 5 7 3 (by norm_num) (by norm_num)
    (by norm_num) (by norm_num) (by norm_num) (by norm_num) (by norm_num) (by norm_num)
    (by norm_num) (by norm_num) (by norm_num) (by norm_num) (by norm_num [abs_of_pos])
    (by norm_num [abs_of_pos]) (by norm_num [abs_of_pos]) (by norm_num [abs_of_pos])
    (by norm_num [abs_of_pos]) (by norm_num [abs_of_pos]) (by norm_num [abs_of_pos])
    (by norm_num [abs_of_pos])

/-- Lemmas on the rounded distance to a plane, proved in turn: `sq_near`, `cross_bound`,
`denominator_core`, `dist_denominator`, `numerator_term`, `dist_real`, `dist_one`,
`shifted_numerator`. -/
theorem distance_facts :
    (∀ (c n E B : ℚ) (_ : |c - n| ≤ E) (_ : |n| ≤ B),
      |c * c - n * n| ≤ E * (2 * B + E)) ∧
    (∀ (x y z w M : ℚ) (_ : |x| ≤ M) (_ : |y| ≤ M) (_ : |z| ≤ M) (_ : |w| ≤ M),
      |x * y - z * w| ≤ 2 * (M * M)) ∧
    (∀ (n0 n1 n2 c0 c1 c2 M N Lc : ℚ) (_ : 0 < M) (_ : M * M ≤ 1024 * N) (_ : |c0 - n0| ≤ 5 * (M * M) / 2 ^ 53) (_ : |c1 - n1| ≤ 5 * (M * M) / 2 ^ 53) (_ : |c2 - n2| ≤ 5 * (M * M) / 2 ^ 53) (_ : |n0| ≤ 2 * (M * M)) (_ : |n1| ≤ 2 * (M * M)) (_ : |n2| ≤ 2 * (M * M)) (_ : N * N ≤ n0 * n0 + n1 * n1 + n2 * n2) (_ : 0 < Lc) (_ : (c0 * c0 + c1 * c1 + c2 * c2) * (1 - 12 / 2 ^ 53) ≤ Lc ^ 2) (_ : Lc ^ 2 ≤ (c0 * c0 + c1 * c1 + c2 * c2) * (1 + 14 / 2 ^ 53)),
      99 / 100 * N ≤ Lc ∧
      |Lc ^ 2 - (n0 * n0 + n1 * n1 + n2 * n2)| ≤ 62 / 2 ^ 33 * (n0 * n0 + n1 * n1 + n2 * n2)) ∧
    (∀ (x0 x1 x2 y0 y1 y2 n0 n1 n2 M N : ℚ) (_ : 1 / 2 ^ 150 ≤ M) (_ : M ≤ 2 ^ 150) (_ : |x0| ≤ M) (_ : |x1| ≤ M) (_ : |x2| ≤ M) (_ : |y0| ≤ M) (_ : |y1| ≤ M) (_ : |y2| ≤ M) (_ : n0 = x1 * y2 - x2 * y1) (_ : n1 = x2 * y0 - x0 * y2) (_ : n2 = x0 * y1 - x1 * y0) (_ : N = max |n0| (max |n1| |n2|)) (_ : M * M ≤ 1024 * N),
      ∃ c0 c1 c2 Lc : ℚ,
      F64.getCrossVector [fin x0, fin x1, fin x2] [fin y0, fin y1, fin y2] =
        [fin c0, fin c1, fin c2] ∧
      F64.getVectorLength [fin c0, fin c1, fin c2] = .ok (fin Lc) ∧ 0 < Lc ∧
      |c0 - n0| ≤ 5 * (M * M) / 2 ^ 53 ∧ |c1 - n1| ≤ 5 * (M * M) / 2 ^ 53 ∧
      |c2 - n2| ≤ 5 * (M * M) / 2 ^ 53 ∧
      |c0| ≤ 201 / 100 * (M * M) ∧ |c1| ≤ 201 / 100 * (M * M) ∧ |c2| ≤ 201 / 100 * (M * M) ∧
      99 / 100 * N ≤ Lc ∧
      |Lc ^ 2 - (n0 * n0 + n1 * n1 + n2 * n2)| ≤ 62 / 2 ^ 33 * (n0 * n0 + n1 * n1 + n2 * n2)) ∧
    (∀ (t a c n D M2 : ℚ) (_ : |t - a| ≤ D / 2 ^ 53) (_ : |a| ≤ D) (_ : |c - n| ≤ 5 * M2 / 2 ^ 53) (_ : |c| ≤ 201 / 100 * M2),
      |t * c - a * n| ≤ 701 / 100 * (D * M2) / 2 ^ 53) ∧
    (∀ (r nu dn Lc S N D : ℝ) (_ : 0 < N) (_ : 0 < D) (_ : 99 / 100 * N ≤ Lc) (_ : |r - nu / Lc| ≤ 301 / 99 * D / 2 ^ 53) (_ : |(nu - |dn|)| ≤ 42 * 1024 * (D * N) / 2 ^ 53) (_ : |dn| ≤ 3 * (D * N)) (_ : |1 / Lc - 1 / S| ≤ 62 / 2 ^ 33 / Lc),
      |r - |dn| / S| ≤ D / 2 ^ 25) ∧
    (∀ (p0 p1 p2 a0 a1 a2 x0 x1 x2 y0 y1 y2 n0 n1 n2 M D : ℚ) (_ : 1 / 2 ^ 150 ≤ M) (_ : M ≤ 2 ^ 150) (_ : 1 / 2 ^ 400 ≤ D) (_ : D ≤ 2 ^ 400) (_ : |x0| ≤ M) (_ : |x1| ≤ M) (_ : |x2| ≤ M) (_ : |y0| ≤ M) (_ : |y1| ≤ M) (_ : |y2| ≤ M) (_ : |p0 - a0| ≤ D) (_ : |p1 - a1| ≤ D) (_ : |p2 - a2| ≤ D) (_ : n0 = x1 * y2 - x2 * y1) (_ : n1 = x2 * y0 - x0 * y2) (_ : n2 = x0 * y1 - x1 * y0) (_ : M * M ≤ 1024 * max |n0| (max |n1| |n2|)),
      ∃ r : ℚ,
      F64.getDistanceToPlane [fin p0, fin p1, fin p2] [fin a0, fin a1, fin a2]
        [fin x0, fin x1, fin x2] [fin y0, fin y1, fin y2] = .ok (fin r) ∧
      |(r : ℝ) - |((p0 - a0 : ℚ) : ℝ) * n0 + ((p1 - a1 : ℚ) : ℝ) * n1 + ((p2 - a2 : ℚ) : ℝ) * n2| /
          Real.sqrt ((n0 : ℝ) * n0 + n1 * n1 + n2 * n2)| ≤ (D : ℝ) / 2 ^ 25) ∧
    (∀ (p0 p1 p2 a0 a1 a2 x0 x1 x2 y0 y1 y2 n0 n1 n2 s t q0 q1 q2 : ℚ) (_ : n0 = x1 * y2 - x2 * y1) (_ : n1 = x2 * y0 - x0 * y2) (_ : n2 = x0 * y1 - x1 * y0) (_ : q0 = p0 + s * x0 + t * y0) (_ : q1 = p1 + s * x1 + t * y1) (_ : q2 = p2 + s * x2 + t * y2),
      ((q0 - a0 : ℚ) : ℝ) * n0 + ((q1 - a1 : ℚ) : ℝ) * n1 + ((q2 - a2 : ℚ) : ℝ) * n2 =
      ((p0 - a0 : ℚ) : ℝ) * n0 + ((p1 - a1 : ℚ) : ℝ) * n1 + ((p2 - a2 : ℚ) : ℝ) * n2) := by
  have sq_near (c n E B : ℚ) (h : |c - n| ≤ E) (hn : |n| ≤ B) :
      |c * c - n * n| ≤ E * (2 * B + E) := by
    have hc := rounded_op_facts_2.2.2.2.1 h hn
    have h1 : |c + n| ≤ 2 * B + E := by
      have := abs_add c n
      linarith
    have e : c * c - n * n = (c - n) * (c + n) := by ring
    rw [e]
    exact rounded_op_facts_2.2.2.2.2.1 h h1
  have cross_bound (x y z w M : ℚ) (hx : |x| ≤ M) (hy : |y| ≤ M) (hz : |z| ≤ M) (hw : |w| ≤ M) :
      |x * y - z * w| ≤ 2 * (M * M) := by
    clear sq_near
    have h1 := rounded_op_facts_2.2.2.2.2.1 hx hy
    have h2 := rounded_op_facts_2.2.2.2.2.1 hz hw
    have := abs_sub (x * y) (z * w)
    linarith
  have denominator_core (n0 n1 n2 c0 c1 c2 M N Lc : ℚ) (hM : 0 < M) (hcond : M * M ≤ 1024 * N)
      (e0 : |c0 - n0| ≤ 5 * (M * M) / 2 ^ 53) (e1 : |c1 - n1| ≤ 5 * (M * M) / 2 ^ 53)
      (e2 : |c2 - n2| ≤ 5 * (M * M) / 2 ^ 53) (b0 : |n0| ≤ 2 * (M * M)) (b1 : |n1| ≤ 2 * (M * M))
      (b2 : |n2| ≤ 2 * (M * M)) (hT : N * N ≤ n0 * n0 + n1 * n1 + n2 * n2) (hLpos : 0 < Lc)
      (hL1 : (c0 * c0 + c1 * c1 + c2 * c2) * (1 - 12 / 2 ^ 53) ≤ Lc ^ 2)
      (hL2 : Lc ^ 2 ≤ (c0 * c0 + c1 * c1 + c2 * c2) * (1 + 14 / 2 ^ 53)) :
      99 / 100 * N ≤ Lc ∧
        |Lc ^ 2 - (n0 * n0 + n1 * n1 + n2 * n2)| ≤ 62 / 2 ^ 33 * (n0 * n0 + n1 * n1 + n2 * n2) := by
    clear cross_bound
    have hNpos : 0 < N := by
      have : 0 < M * M := mul_pos hM hM
      linarith only [this, hcond]
    have s0 := sq_near c0 n0 _ _ e0 b0
    have s1 := sq_near c1 n1 _ _ e1 b1
    have s2 := sq_near c2 n2 _ _ e2 b2
    have hM4 : M * M * (M * M) ≤ 1024 * 1024 * (n0 * n0 + n1 * n1 + n2 * n2) := by
      have h1 := mul_le_mul hcond hcond (mul_pos hM hM).le (by positivity)
      have e : 1024 * N * (1024 * N) = 1024 * 1024 * (N * N) := by ring
      rw [e] at h1
      linarith only [h1, hT]
    have hcc : |c0 * c0 + c1 * c1 + c2 * c2 - (n0 * n0 + n1 * n1 + n2 * n2)|
        ≤ 61 / 2 ^ 33 * (n0 * n0 + n1 * n1 + n2 * n2) := by
      have e : ∀ d : ℚ, 5 * d / 2 ^ 53 * (2 * (2 * d) + 5 * d / 2 ^ 53) =
          (20 / 2 ^ 53 + 25 / 2 ^ 106) * (d * d) := by intro d; ring
      rw [e] at s0 s1 s2
      generalize M * M * (M * M) = Q at s0 s1 s2 hM4
      generalize c0 * c0 = C0 at s0 ⊢
      generalize c1 * c1 = C1 at s1 ⊢
      generalize c2 * c2 = C2 at s2 ⊢
      generalize n0 * n0 = N0 at s0 hM4 ⊢
      generalize n1 * n1 = N1 at s1 hM4 ⊢
      generalize n2 * n2 = N2 at s2 hM4 ⊢
      rw [abs_le] at s0 s1 s2 ⊢
      constructor <;> linarith only [s0, s1, s2, hM4]
    generalize n0 * n0 + n1 * n1 + n2 * n2 = T at hT hM4 hcc ⊢
    generalize c0 * c0 + c1 * c1 + c2 * c2 = cc at hL1 hL2 hcc
    have hTpos : 0 < T := lt_of_lt_of_le (mul_pos hNpos hNpos) hT
    rw [abs_le] at hcc
    have hLT1 : T * (1 - 62 / 2 ^ 33) ≤ Lc ^ 2 := by
      have h1 : T * (1 - 61 / 2 ^ 33) ≤ cc := by linarith only [hcc.1]
      have h2 := mul_le_mul_of_nonneg_right h1 (show (0 : ℚ) ≤ 1 - 12 / 2 ^ 53 by norm_num)
      have h3 : T * (1 - 62 / 2 ^ 33) ≤ T * (1 - 61 / 2 ^ 33) * (1 - 12 / 2 ^ 53) := by
        have : (1 - 62 / 2 ^ 33 : ℚ) ≤ (1 - 61 / 2 ^ 33) * (1 - 12 / 2 ^ 53) := by norm_num
        calc T * (1 - 62 / 2 ^ 33) ≤ T * ((1 - 61 / 2 ^ 33) * (1 - 12 / 2 ^ 53)) :=
              mul_le_mul_of_nonneg_left this hTpos.le
          _ = T * (1 - 61 / 2 ^ 33) * (1 - 12 / 2 ^ 53) := by ring
      linarith only [hL1, h2, h3]
    constructor
    · by_contra hc
      push_neg at hc
      have h3 : Lc ^ 2 < (99 / 100 * N) ^ 2 := by
        have := mul_lt_mul'' hc hc hLpos.le hLpos.le
        calc Lc ^ 2 = Lc * Lc := sq Lc
          _ < 99 / 100 * N * (99 / 100 * N) := this
          _ = (99 / 100 * N) ^ 2 := (sq _).symm
      have h4 : (99 / 100 * N) ^ 2 ≤ T * (1 - 62 / 2 ^ 33) := by
        have e : (99 / 100 * N) ^ 2 = (99 / 100) ^ 2 * (N * N) := by ring
        rw [e]
        have hn : ((99 : ℚ) / 100) ^ 2 ≤ 1 - 62 / 2 ^ 33 := by norm_num
        calc ((99 : ℚ) / 100) ^ 2 * (N * N) ≤ (1 - 62 / 2 ^ 33) * (N * N) :=
              mul_le_mul_of_nonneg_right hn (mul_pos hNpos hNpos).le
          _ ≤ (1 - 62 / 2 ^ 33) * T := mul_le_mul_of_nonneg_left hT (by norm_num)
          _ = T * (1 - 62 / 2 ^ 33) := by ring
      linarith only [h3, h4, hLT1]
    · have hLT2 : Lc ^ 2 ≤ T * (1 + 62 / 2 ^ 33) := by
        have h1 : cc ≤ T * (1 + 61 / 2 ^ 33) := by linarith only [hcc.2]
        have h2 := mul_le_mul_of_nonneg_right h1 (show (0 : ℚ) ≤ 1 + 14 / 2 ^ 53 by norm_num)
        have h3 : T * (1 + 61 / 2 ^ 33) * (1 + 14 / 2 ^ 53) ≤ T * (1 + 62 / 2 ^ 33) := by
          have : ((1 + 61 / 2 ^ 33) * (1 + 14 / 2 ^ 53) : ℚ) ≤ 1 + 62 / 2 ^ 33 := by norm_num
          calc T * (1 + 61 / 2 ^ 33) * (1 + 14 / 2 ^ 53)
              = T * ((1 + 61 / 2 ^ 33) * (1 + 14 / 2 ^ 53)) := by ring
            _ ≤ T * (1 + 62 / 2 ^ 33) := mul_le_mul_of_nonneg_left this hTpos.le
        linarith only [hL2, h2, h3]
      rw [abs_le]
      constructor <;> linarith only [hLT1, hLT2]
  -- The denominator of `getDistanceToPlane`: the rounded cross product `c` of two finite vectors
  -- and its computed length `Lc`, against the exact cross product `n`, when the largest
  -- component `N` of `n` is at least `M ^ 2 / 1024`.
  have dist_denominator (x0 x1 x2 y0 y1 y2 n0 n1 n2 M N : ℚ) (hM1 : 1 / 2 ^ 150 ≤ M)
      (hM2 : M ≤ 2 ^ 150) (hx0 : |x0| ≤ M) (hx1 : |x1| ≤ M) (hx2 : |x2| ≤ M) (hy0 : |y0| ≤ M)
      (hy1 : |y1| ≤ M) (hy2 : |y2| ≤ M) (hn0 : n0 = x1 * y2 - x2 * y1)
      (hn1 : n1 = x2 * y0 - x0 * y2) (hn2 : n2 = x0 * y1 - x1 * y0)
      (hN : N = max |n0| (max |n1| |n2|)) (hcond : M * M ≤ 1024 * N) :
      ∃ c0 c1 c2 Lc : ℚ,
        F64.getCrossVector [fin x0, fin x1, fin x2] [fin y0, fin y1, fin y2] =
          [fin c0, fin c1, fin c2] ∧
        F64.getVectorLength [fin c0, fin c1, fin c2] = .ok (fin Lc) ∧ 0 < Lc ∧
        |c0 - n0| ≤ 5 * (M * M) / 2 ^ 53 ∧ |c1 - n1| ≤ 5 * (M * M) / 2 ^ 53 ∧
        |c2 - n2| ≤ 5 * (M * M) / 2 ^ 53 ∧
        |c0| ≤ 201 / 100 * (M * M) ∧ |c1| ≤ 201 / 100 * (M * M) ∧ |c2| ≤ 201 / 100 * (M * M) ∧
        99 / 100 * N ≤ Lc ∧
        |Lc ^ 2 - (n0 * n0 + n1 * n1 + n2 * n2)| ≤ 62 / 2 ^ 33 * (n0 * n0 + n1 * n1 + n2 * n2) := by
    clear sq_near
    have hM : 0 < M := lt_of_lt_of_le (by positivity) hM1
    have hMlo : 1 / 2 ^ 300 ≤ M * M := by
      have := mul_le_mul hM1 hM1 (by positivity) hM.le
      calc (1 : ℚ) / 2 ^ 300 = 1 / 2 ^ 150 * (1 / 2 ^ 150) := by
            rw [div_mul_div_comm, one_mul, ← pow_add]
        _ ≤ M * M := this
    have hMhi : M * M ≤ 2 ^ 300 := by
      have := mul_le_mul hM2 hM2 hM.le (by positivity)
      calc M * M ≤ 2 ^ 150 * 2 ^ 150 := this
        _ = 2 ^ 300 := by rw [← pow_add]
    clear hM1 hM2
    obtain ⟨c0, c1, c2, hc, e0, e1, e2⟩ := rounded_op_facts_4.2.2.2.2.2.1 x0 x1 x2 y0 y1 y2 M M hx0 hx1 hx2 hy0 hy1
      hy2 (by have := rounded_op_facts_2.2.2.2.2.2.1 _ 1 300 1000 (by norm_num) le_rfl hMlo; rwa [one_mul] at this)
      (by have := rounded_op_facts_2.2.2.2.2.2.2 _ 1 300 1000 (by norm_num) (by norm_num) (mul_pos hM hM).le hMhi
          rwa [one_mul] at this)
    rw [← hn0] at e0
    rw [← hn1] at e1
    rw [← hn2] at e2
    have b0 : |n0| ≤ 2 * (M * M) := by rw [hn0]; exact cross_bound _ _ _ _ M hx1 hy2 hx2 hy1
    have b1 : |n1| ≤ 2 * (M * M) := by rw [hn1]; exact cross_bound _ _ _ _ M hx2 hy0 hx0 hy2
    have b2 : |n2| ≤ 2 * (M * M) := by rw [hn2]; exact cross_bound _ _ _ _ M hx0 hy1 hx1 hy0
    clear hn0 hn1 hn2 hx0 hx1 hx2 hy0 hy1 hy2
    obtain ⟨m0, m1, m2, hT⟩ := sqrt_facts_2.1 n0 n1 n2
    rw [← hN] at m0 m1 m2 hT
    obtain ⟨k0, k1, k2, hC⟩ := sqrt_facts_2.1 c0 c1 c2
    have hMM : 0 ≤ M * M := (mul_pos hM hM).le
    have bc0 : |c0| ≤ 201 / 100 * (M * M) := by
      have := rounded_op_facts_2.2.2.2.1 e0 b0; linarith only [this, hMM]
    have bc1 : |c1| ≤ 201 / 100 * (M * M) := by
      have := rounded_op_facts_2.2.2.2.1 e1 b1; linarith only [this, hMM]
    have bc2 : |c2| ≤ 201 / 100 * (M * M) := by
      have := rounded_op_facts_2.2.2.2.1 e2 b2; linarith only [this, hMM]
    have hChi : max |c0| (max |c1| |c2|) ≤ 201 / 100 * (M * M) := max_le bc0 (max_le bc1 bc2)
    have hNC : N ≤ max |c0| (max |c1| |c2|) + 5 * (M * M) / 2 ^ 53 := by
      have a0 : |n0| ≤ max |c0| (max |c1| |c2|) + 5 * (M * M) / 2 ^ 53 := by
        have := rounded_op_facts_2.2.2.2.1 (show |n0 - c0| ≤ 5 * (M * M) / 2 ^ 53 by rw [abs_sub_comm]; exact e0)
          k0
        exact this
      have a1 : |n1| ≤ max |c0| (max |c1| |c2|) + 5 * (M * M) / 2 ^ 53 := by
        have := rounded_op_facts_2.2.2.2.1 (show |n1 - c1| ≤ 5 * (M * M) / 2 ^ 53 by rw [abs_sub_comm]; exact e1)
          k1
        exact this
      have a2 : |n2| ≤ max |c0| (max |c1| |c2|) + 5 * (M * M) / 2 ^ 53 := by
        have := rounded_op_facts_2.2.2.2.1 (show |n2 - c2| ≤ 5 * (M * M) / 2 ^ 53 by rw [abs_sub_comm]; exact e2)
          k2
        exact this
      rw [hN]
      exact max_le a0 (max_le a1 a2)
    generalize max |c0| (max |c1| |c2|) = C at k0 k1 k2 hC hChi hNC
    obtain ⟨Lc, hLc, hLpos, hL1, hL2⟩ := sqrt_facts_1.2.2.2.2 c0 c1 c2 C (by linarith only [hNC, hcond, hMlo])
      (by linarith only [hChi, hMhi]) k0 k1
      k2 hC
    obtain ⟨f1, f2⟩ := denominator_core n0 n1 n2 c0 c1 c2 M N Lc hM hcond e0 e1 e2 b0 b1 b2 hT hLpos
      hL1 hL2
    exact ⟨c0, c1, c2, Lc, hc, hLc, hLpos, e0, e1, e2, bc0, bc1, bc2, f1, f2⟩
  have numerator_term (t a c n D M2 : ℚ) (et : |t - a| ≤ D / 2 ^ 53) (ha : |a| ≤ D)
      (ec : |c - n| ≤ 5 * M2 / 2 ^ 53) (hc : |c| ≤ 201 / 100 * M2) :
      |t * c - a * n| ≤ 701 / 100 * (D * M2) / 2 ^ 53 := by
    clear sq_near cross_bound denominator_core dist_denominator
    have e : t * c - a * n = (t - a) * c + a * (c - n) := by ring
    have p1 := rounded_op_facts_2.2.2.2.2.1 et hc
    have p2 := rounded_op_facts_2.2.2.2.2.1 ha ec
    rw [e]
    have := abs_add ((t - a) * c) (a * (c - n))
    have e1 : D / 2 ^ 53 * (201 / 100 * M2) + D * (5 * M2 / 2 ^ 53) = 701 / 100 * (D * M2) / 2 ^ 53 := by
      ring
    linarith
  have dist_real (r nu dn Lc S N D : ℝ) (hN : 0 < N) (hD : 0 < D) (hLc : 99 / 100 * N ≤ Lc)
      (hr : |r - nu / Lc| ≤ 301 / 99 * D / 2 ^ 53)
      (hnu : |(nu - |dn|)| ≤ 42 * 1024 * (D * N) / 2 ^ 53) (hdn : |dn| ≤ 3 * (D * N))
      (hinv : |1 / Lc - 1 / S| ≤ 62 / 2 ^ 33 / Lc) : |r - |dn| / S| ≤ D / 2 ^ 25 := by
    clear sq_near cross_bound denominator_core dist_denominator numerator_term
    have hL : 0 < Lc := lt_of_lt_of_le (by positivity) hLc
    have hNL : N / Lc ≤ 100 / 99 := by
      rw [div_le_iff₀ hL]; linarith only [hLc]
    have h1 : |nu / Lc - |dn| / Lc| ≤ 42 * 1024 * D / 2 ^ 53 * (100 / 99) := by
      have e : nu / Lc - |dn| / Lc = (nu - |dn|) / Lc := by ring
      rw [e, abs_div, abs_of_pos hL]
      have h1a := div_le_div_of_nonneg_right hnu hL.le
      have h1b : 42 * 1024 * (D * N) / 2 ^ 53 / Lc = 42 * 1024 * D / 2 ^ 53 * (N / Lc) := by ring
      have h1c := mul_le_mul_of_nonneg_left hNL (by positivity : (0 : ℝ) ≤ 42 * 1024 * D / 2 ^ 53)
      linarith only [h1a, h1b, h1c]
    have h2 : |(|dn| / Lc - |dn| / S)| ≤ 3 * 62 * D / 2 ^ 33 * (100 / 99) := by
      have e : |dn| / Lc - |dn| / S = |dn| * (1 / Lc - 1 / S) := by ring
      rw [e, abs_mul, abs_abs]
      have h2a := mul_le_mul hdn hinv (abs_nonneg _) (by positivity : (0 : ℝ) ≤ 3 * (D * N))
      have h2b : 3 * (D * N) * (62 / 2 ^ 33 / Lc) = 3 * 62 * D / 2 ^ 33 * (N / Lc) := by ring
      have h2c := mul_le_mul_of_nonneg_left hNL (by positivity : (0 : ℝ) ≤ 3 * 62 * D / 2 ^ 33)
      linarith only [h2a, h2b, h2c]
    have h3 := abs_sub_le r (nu / Lc) (|dn| / Lc)
    have h4 := abs_sub_le r (|dn| / Lc) (|dn| / S)
    have e : 301 / 99 * D / 2 ^ 53 + 42 * 1024 * D / 2 ^ 53 * (100 / 99) +
        3 * 62 * D / 2 ^ 33 * (100 / 99) ≤ D / 2 ^ 25 := by
      have e1 : 301 / 99 * D / 2 ^ 53 + 42 * 1024 * D / 2 ^ 53 * (100 / 99) +
          3 * 62 * D / 2 ^ 33 * (100 / 99) =
          (301 / 99 / 2 ^ 53 + 42 * 1024 / 2 ^ 53 * (100 / 99) + 3 * 62 / 2 ^ 33 * (100 / 99)) * D := by
        ring
      have e2 : D / 2 ^ 25 = 1 / 2 ^ 25 * D := by ring
      rw [e1, e2]
      apply mul_le_mul_of_nonneg_right _ hD.le
      norm_num
    linarith only [hr, h1, h2, h3, h4, e]
  -- The number `getDistanceToPlane` returns, against the exact perpendicular distance.
  have dist_one (p0 p1 p2 a0 a1 a2 x0 x1 x2 y0 y1 y2 n0 n1 n2 M D : ℚ) (hM1 : 1 / 2 ^ 150 ≤ M)
      (hM2 : M ≤ 2 ^ 150) (hD1 : 1 / 2 ^ 400 ≤ D) (hD2 : D ≤ 2 ^ 400) (hx0 : |x0| ≤ M)
      (hx1 : |x1| ≤ M) (hx2 : |x2| ≤ M) (hy0 : |y0| ≤ M) (hy1 : |y1| ≤ M) (hy2 : |y2| ≤ M)
      (hp0 : |p0 - a0| ≤ D) (hp1 : |p1 - a1| ≤ D) (hp2 : |p2 - a2| ≤ D)
      (hn0 : n0 = x1 * y2 - x2 * y1) (hn1 : n1 = x2 * y0 - x0 * y2) (hn2 : n2 = x0 * y1 - x1 * y0)
      (hcond : M * M ≤ 1024 * max |n0| (max |n1| |n2|)) :
      ∃ r : ℚ,
        F64.getDistanceToPlane [fin p0, fin p1, fin p2] [fin a0, fin a1, fin a2]
          [fin x0, fin x1, fin x2] [fin y0, fin y1, fin y2] = .ok (fin r) ∧
        |(r : ℝ) - |((p0 - a0 : ℚ) : ℝ) * n0 + ((p1 - a1 : ℚ) : ℝ) * n1 + ((p2 - a2 : ℚ) : ℝ) * n2| /
            Real.sqrt ((n0 : ℝ) * n0 + n1 * n1 + n2 * n2)| ≤ (D : ℝ) / 2 ^ 25 := by
    clear sq_near cross_bound denominator_core
    obtain ⟨c0, c1, c2, Lc, hc, hLc, hLpos, e0, e1, e2, bc0, bc1, bc2, hLN, hLT⟩ :=
      dist_denominator x0 x1 x2 y0 y1 y2 n0 n1 n2 M _ hM1 hM2 hx0 hx1 hx2 hy0 hy1 hy2 hn0 hn1 hn2 rfl
        hcond
    obtain ⟨m0, m1, m2, hT⟩ := sqrt_facts_2.1 n0 n1 n2
    generalize max |n0| (max |n1| |n2|) = N at hcond hLN m0 m1 m2 hT
    have hM : 0 < M := lt_of_lt_of_le (by positivity) hM1
    have hD : 0 < D := lt_of_lt_of_le (by positivity) hD1
    have hNpos : 0 < N := by
      have : 0 < M * M := mul_pos hM hM
      linarith only [this, hcond]
    have hMlo : 1 / 2 ^ 300 ≤ M * M := by
      have := mul_le_mul hM1 hM1 (by positivity) hM.le
      calc (1 : ℚ) / 2 ^ 300 = 1 / 2 ^ 150 * (1 / 2 ^ 150) := by
            rw [div_mul_div_comm, one_mul, ← pow_add]
        _ ≤ M * M := this
    have hMhi : M * M ≤ 2 ^ 300 := by
      have := mul_le_mul hM2 hM2 hM.le (by positivity)
      calc M * M ≤ 2 ^ 150 * 2 ^ 150 := this
        _ = 2 ^ 300 := by rw [← pow_add]
    have hDMlo : 1 / 2 ^ 700 ≤ D * (M * M) := by
      have := mul_le_mul hD1 hMlo (by positivity) hD.le
      calc (1 : ℚ) / 2 ^ 700 = 1 / 2 ^ 400 * (1 / 2 ^ 300) := by
            rw [div_mul_div_comm, one_mul, ← pow_add]
        _ ≤ D * (M * M) := this
    have hDMhi : D * (M * M) ≤ 2 ^ 700 := by
      have := mul_le_mul hD2 hMhi (mul_pos hM hM).le (by positivity)
      calc D * (M * M) ≤ 2 ^ 400 * 2 ^ 300 := this
        _ = 2 ^ 700 := by rw [← pow_add]
    obtain ⟨t0, ht0, d0⟩ := project_facts.2.2.2.2.1 p0 a0 D hp0 hD1 hD2
    obtain ⟨t1, ht1, d1⟩ := project_facts.2.2.2.2.1 p1 a1 D hp1 hD1 hD2
    obtain ⟨t2, ht2, d2⟩ := project_facts.2.2.2.2.1 p2 a2 D hp2 hD1 hD2
    have bt : ∀ t a : ℚ, |t - a| ≤ D / 2 ^ 53 → |a| ≤ D → |t| ≤ 101 / 100 * D := by
      intro t a e ha
      have := rounded_op_facts_2.2.2.2.1 e ha
      have e2 : D + D / 2 ^ 53 ≤ 101 / 100 * D := by
        have : D + D / 2 ^ 53 = (1 + 1 / 2 ^ 53) * D := by ring
        rw [this]
        apply mul_le_mul_of_nonneg_right _ hD.le
        norm_num
      linarith only [this, e2]
    have g0 := bt t0 _ d0 hp0
    have g1 := bt t1 _ d1 hp1
    have g2 := bt t2 _ d2 hp2
    have hP : 101 / 100 * D * (201 / 100 * (M * M)) = 20301 / 10000 * (D * (M * M)) := by ring
    obtain ⟨v, hv, ev⟩ := rounded_op_facts_3.2.1 t0 t1 t2 c0 c1 c2 (101 / 100 * D) (201 / 100 * (M * M)) g0 g1
      g2 bc0 bc1 bc2 (by rw [hP]; exact rounded_op_facts_2.2.2.2.2.2.1 _ _ 700 1000 (by norm_num) (by norm_num) hDMlo)
      (by rw [hP]; exact rounded_op_facts_2.2.2.2.2.2.2 _ _ 700 1000 (by norm_num) (by norm_num)
            (mul_pos hD (mul_pos hM hM)).le hDMhi)
    have hdiv1 : (1 : ℚ) / 2 ^ 1022 ≤ 301 / 99 * D :=
      rounded_op_facts_2.2.2.2.2.2.1 _ _ 400 1022 (by norm_num) (by norm_num) hD1
    have hdiv2 : 301 / 99 * D ≤ 2 ^ 1023 :=
      rounded_op_facts_2.2.2.2.2.2.2 _ _ 400 1023 (by norm_num) (by norm_num) hD.le hD2
    clear hM1 hM2 hD1 hD2 hMlo hMhi hDMlo hDMhi
    have q0 := numerator_term t0 (p0 - a0) c0 n0 D (M * M) d0 hp0 e0 bc0
    have q1 := numerator_term t1 (p1 - a1) c1 n1 D (M * M) d1 hp1 e1 bc1
    have q2 := numerator_term t2 (p2 - a2) c2 n2 D (M * M) d2 hp2 e2 bc2
    have hDM : D * (M * M) ≤ 1024 * (D * N) := by
      have := mul_le_mul_of_nonneg_left hcond hD.le
      linarith only [this]
    have hnum : |v - ((p0 - a0) * n0 + (p1 - a1) * n1 + (p2 - a2) * n2)|
        ≤ 42 * 1024 * (D * N) / 2 ^ 53 := by
      rw [hP] at ev
      have hDN : 0 ≤ D * N := (mul_pos hD hNpos).le
      generalize t0 * c0 = A0 at ev q0
      generalize t1 * c1 = A1 at ev q1
      generalize t2 * c2 = A2 at ev q2
      generalize (p0 - a0) * n0 = B0 at q0 ⊢
      generalize (p1 - a1) * n1 = B1 at q1 ⊢
      generalize (p2 - a2) * n2 = B2 at q2 ⊢
      generalize D * (M * M) = E1 at ev q0 q1 q2 hDM
      generalize D * N = E2 at hDM hDN ⊢
      rw [abs_le] at ev q0 q1 q2 ⊢
      constructor <;> linarith only [ev, q0, q1, q2, hDM, hDN]
    have hdn : |(p0 - a0) * n0 + (p1 - a1) * n1 + (p2 - a2) * n2| ≤ 3 * (D * N) := by
      have p0' := rounded_op_facts_2.2.2.2.2.1 hp0 m0
      have p1' := rounded_op_facts_2.2.2.2.2.1 hp1 m1
      have p2' := rounded_op_facts_2.2.2.2.2.1 hp2 m2
      have s1 := abs_add ((p0 - a0) * n0 + (p1 - a1) * n1) ((p2 - a2) * n2)
      have s2 := abs_add ((p0 - a0) * n0) ((p1 - a1) * n1)
      linarith only [p0', p1', p2', s1, s2]
    generalize hdnE : (p0 - a0) * n0 + (p1 - a1) * n1 + (p2 - a2) * n2 = dn at hnum hdn
    have hnu : |(|v| - |dn|)| ≤ 42 * 1024 * (D * N) / 2 ^ 53 :=
      le_trans (abs_abs_sub_abs_le_abs_sub v dn) hnum
    have hvb : |(|v|)| ≤ 301 / 100 * (D * N) := by
      rw [abs_abs]
      have := rounded_op_facts_2.2.2.2.1 hnum hdn
      have e : 3 * (D * N) + 42 * 1024 * (D * N) / 2 ^ 53 ≤ 301 / 100 * (D * N) := by
        have e1 : 3 * (D * N) + 42 * 1024 * (D * N) / 2 ^ 53 = (3 + 42 * 1024 / 2 ^ 53) * (D * N) := by
          ring
        rw [e1]
        apply mul_le_mul_of_nonneg_right _ (mul_pos hD hNpos).le
        norm_num
      linarith only [this, e]
    have hq : 301 / 100 * (D * N) / (99 / 100 * N) = 301 / 99 * D := by
      rw [show 301 / 100 * (D * N) = 301 / 100 * D * N by ring,
        mul_div_mul_right _ _ hNpos.ne']
      ring
    have hLabs : 99 / 100 * N ≤ |Lc| := by rw [abs_of_pos hLpos]; exact hLN
    obtain ⟨r, hr, er⟩ := rounded_op_facts_2.2.2.1 |v| Lc (301 / 100 * (D * N)) (99 / 100 * N) hvb
      (by positivity) hLabs (by rw [hq]; exact hdiv1) (by rw [hq]; exact hdiv2)
    rw [hq] at er
    clear hdiv1 hdiv2
    refine ⟨r, ?_, ?_⟩
    · simp only [F64.getDistanceToPlane, F64.subVector, List.length_cons, List.length_nil, ne_eq,
        not_true_eq_false, or_self, if_false, bind, Except.bind, pure, Except.pure,
        List.zipWith_cons_cons, List.zipWith_nil_right, ht0, ht1, ht2, hc, hv,
        F64.getVectorLength]
      simp only [F64.getVectorLength, bind, Except.bind, pure, Except.pure] at hLc
      revert hLc
      cases F64.dotProduct [fin c0, fin c1, fin c2] [fin c0, fin c1, fin c2] with
      | error e => intro hLc; cases hLc
      | ok d =>
        intro hLc
        simp only [Except.ok.injEq] at hLc
        simp only [hLc, JSNum.abs, hr]
    · have hTpos : 0 < n0 * n0 + n1 * n1 + n2 * n2 := lt_of_lt_of_le (mul_pos hNpos hNpos) hT
      have c1 := (Rat.cast_le (K := ℝ)).mpr er
      have c2 := (Rat.cast_le (K := ℝ)).mpr hnu
      have c3 := (Rat.cast_le (K := ℝ)).mpr hdn
      have c4 := (Rat.cast_le (K := ℝ)).mpr hLT
      have c5 := (Rat.cast_le (K := ℝ)).mpr hLN
      have c6 := (Rat.cast_lt (K := ℝ)).mpr hTpos
      have c7 := (Rat.cast_lt (K := ℝ)).mpr hLpos
      have c8 := (Rat.cast_lt (K := ℝ)).mpr hNpos
      have c9 := (Rat.cast_lt (K := ℝ)).mpr hD
      rw [Rat.cast_abs] at c1 c2 c3 c4
      push_cast at c1 c2 c3 c4 c5 c6 c7 c8 c9
      have hinv := project_facts.1 (Lc : ℝ) ((n0 : ℝ) * n0 + n1 * n1 + n2 * n2) (62 / 2 ^ 33) c7
        c6 (by positivity) c4
      have hfin := dist_real (r : ℝ) |(v : ℝ)| (dn : ℝ)  (Lc : ℝ)
        (Real.sqrt ((n0 : ℝ) * n0 + n1 * n1 + n2 * n2)) N D c8 c9 c5 c1 c2 c3 hinv
      have hE : (dn : ℝ) = ((p0 - a0 : ℚ) : ℝ) * n0 + ((p1 - a1 : ℚ) : ℝ) * n1 +
          ((p2 - a2 : ℚ) : ℝ) * n2 := by
        rw [← hdnE]; push_cast; ring
      rw [← hE]
      exact hfin
  have shifted_numerator (p0 p1 p2 a0 a1 a2 x0 x1 x2 y0 y1 y2 n0 n1 n2 s t q0 q1 q2 : ℚ)
      (hn0 : n0 = x1 * y2 - x2 * y1) (hn1 : n1 = x2 * y0 - x0 * y2) (hn2 : n2 = x0 * y1 - x1 * y0)
      (hq0 : q0 = p0 + s * x0 + t * y0) (hq1 : q1 = p1 + s * x1 + t * y1)
      (hq2 : q2 = p2 + s * x2 + t * y2) :
      ((q0 - a0 : ℚ) : ℝ) * n0 + ((q1 - a1 : ℚ) : ℝ) * n1 + ((q2 - a2 : ℚ) : ℝ) * n2 =
        ((p0 - a0 : ℚ) : ℝ) * n0 + ((p1 - a1 : ℚ) : ℝ) * n1 + ((p2 - a2 : ℚ) : ℝ) * n2 := by
    clear sq_near cross_bound denominator_core dist_denominator numerator_term dist_real dist_one
    rw [hq0, hq1, hq2, hn0, hn1, hn2]
    push_cast
    ring
  exact ⟨@sq_near, @cross_bound, @denominator_core, @dist_denominator, @numerator_term,
    @dist_real, @dist_one, @shifted_numerator⟩

/-- C16, counterexample: with `X = (0.1, 0.2, 0.3)`, `Y = (0.4, 0.5, 0.6)` and the plane through
the origin, the point `a` itself is at distance 0, and the point `a + X`, which lies in the plane,
is not. -/
theorem distance_in_plane_not_zero :
    F64.getDistanceToPlane [fin 0, fin 0, fin 0] [fin 0, fin 0, fin 0]
        [tenth 1, tenth 2, tenth 3] [tenth 4, tenth 5, tenth 6] = .ok (fin 0) ∧
      F64.getDistanceToPlane [tenth 1, tenth 2, tenth 3] [fin 0, fin 0, fin 0]
        [tenth 1, tenth 2, tenth 3] [tenth 4, tenth 5, tenth 6] ≠ .ok (fin 0) := by
  decide!

/-- C16, as amended.  In the arithmetic of the program, let `X` and `Y` have components of
magnitude at most `M`, with `2 ^ (-150) ≤ M ≤ 2 ^ 150`, let `n = X × Y` be their exact cross
product with `M * M ≤ 1024 * max |n_i|`, and let `p` and `q = p + s * X + t * Y` be points whose
components differ from those of the plane point `a` by at most `D`, with
`2 ^ (-400) ≤ D ≤ 2 ^ 400`.  Then `getDistanceToPlane` returns a finite number `r` for `p`
and a finite number `r'` for `q`; `r` is within `D / 2 ^ 25` of the perpendicular distance
`|(p - a) · n| / sqrt (n · n)`, `r` and `r'` differ by at most `D / 2 ^ 24`, a point in the plane
gets at most `D / 2 ^ 25`, and a point that gets 0 is within `D / 2 ^ 25` of the plane. -/
theorem getDistanceToPlane_rounded (p0 p1 p2 a0 a1 a2 x0 x1 x2 y0 y1 y2 n0 n1 n2 s t q0 q1 q2
    M D : ℚ) (hM1 : 1 / 2 ^ 150 ≤ M) (hM2 : M ≤ 2 ^ 150) (hD1 : 1 / 2 ^ 400 ≤ D)
    (hD2 : D ≤ 2 ^ 400) (hx0 : |x0| ≤ M) (hx1 : |x1| ≤ M) (hx2 : |x2| ≤ M) (hy0 : |y0| ≤ M)
    (hy1 : |y1| ≤ M) (hy2 : |y2| ≤ M) (hn0 : n0 = x1 * y2 - x2 * y1)
    (hn1 : n1 = x2 * y0 - x0 * y2) (hn2 : n2 = x0 * y1 - x1 * y0)
    (hcond : M * M ≤ 1024 * max |n0| (max |n1| |n2|))
    (hp0 : |p0 - a0| ≤ D) (hp1 : |p1 - a1| ≤ D) (hp2 : |p2 - a2| ≤ D)
    (hq0 : q0 = p0 + s * x0 + t * y0) (hq1 : q1 = p1 + s * x1 + t * y1)
    (hq2 : q2 = p2 + s * x2 + t * y2)
    (hqa0 : |q0 - a0| ≤ D) (hqa1 : |q1 - a1| ≤ D) (hqa2 : |q2 - a2| ≤ D) :
    ∃ r r' : ℚ,
      F64.getDistanceToPlane [fin p0, fin p1, fin p2] [fin a0, fin a1, fin a2]
        [fin x0, fin x1, fin x2] [fin y0, fin y1, fin y2] = .ok (fin r) ∧
      F64.getDistanceToPlane [fin q0, fin q1, fin q2] [fin a0, fin a1, fin a2]
        [fin x0, fin x1, fin x2] [fin y0, fin y1, fin y2] = .ok (fin r') ∧
      |(r : ℝ) - |((p0 - a0 : ℚ) : ℝ) * n0 + ((p1 - a1 : ℚ) : ℝ) * n1 + ((p2 - a2 : ℚ) : ℝ) * n2| /
          Real.sqrt ((n0 : ℝ) * n0 + n1 * n1 + n2 * n2)| ≤ (D : ℝ) / 2 ^ 25 ∧
      |(r : ℝ) - r'| ≤ (D : ℝ) / 2 ^ 24 ∧
      ((p0 - a0) * n0 + (p1 - a1) * n1 + (p2 - a2) * n2 = 0 → (r : ℝ) ≤ (D : ℝ) / 2 ^ 25) ∧
      (r = 0 →
        |((p0 - a0 : ℚ) : ℝ) * n0 + ((p1 - a1 : ℚ) : ℝ) * n1 + ((p2 - a2 : ℚ) : ℝ) * n2| /
          Real.sqrt ((n0 : ℝ) * n0 + n1 * n1 + n2 * n2) ≤ (D : ℝ) / 2 ^ 25) := by
  obtain ⟨r, hr, er⟩ := distance_facts.2.2.2.2.2.2.1 p0 p1 p2 a0 a1 a2 x0 x1 x2 y0 y1 y2 n0 n1 n2 M D hM1 hM2 hD1 hD2
    hx0 hx1 hx2 hy0 hy1 hy2 hp0 hp1 hp2 hn0 hn1 hn2 hcond
  obtain ⟨r', hr', er'⟩ := distance_facts.2.2.2.2.2.2.1 q0 q1 q2 a0 a1 a2 x0 x1 x2 y0 y1 y2 n0 n1 n2 M D hM1 hM2 hD1
    hD2 hx0 hx1 hx2 hy0 hy1 hy2 hqa0 hqa1 hqa2 hn0 hn1 hn2 hcond
  rw [distance_facts.2.2.2.2.2.2.2 p0 p1 p2 a0 a1 a2 x0 x1 x2 y0 y1 y2 n0 n1 n2 s t q0 q1 q2 hn0 hn1 hn2
    hq0 hq1 hq2] at er'
  clear hM1 hM2 hD1 hD2 hcond
  refine ⟨r, r', hr, hr', er, ?_, ?_, ?_⟩
  · generalize |((p0 - a0 : ℚ) : ℝ) * n0 + ((p1 - a1 : ℚ) : ℝ) * n1 + ((p2 - a2 : ℚ) : ℝ) * n2| /
      Real.sqrt ((n0 : ℝ) * n0 + n1 * n1 + n2 * n2) = d at er er'
    have h := abs_sub_le (r : ℝ) d (r' : ℝ)
    have h2 := abs_sub_comm d (r' : ℝ)
    have e : (D : ℝ) / 2 ^ 24 = D / 2 ^ 25 + D / 2 ^ 25 := by ring
    linarith
  · intro h0
    have h1 : ((p0 - a0 : ℚ) : ℝ) * n0 + ((p1 - a1 : ℚ) : ℝ) * n1 + ((p2 - a2 : ℚ) : ℝ) * n2
        = 0 := by
      have := congrArg (fun z : ℚ => (z : ℝ)) h0
      simp only [Rat.cast_add, Rat.cast_mul, Rat.cast_zero] at this
      exact this
    rw [h1, abs_zero, zero_div, sub_zero] at er
    exact le_trans (le_abs_self _) er
  · intro h0
    rw [h0, Rat.cast_zero, zero_sub, abs_neg] at er
    exact le_trans (le_abs_self _) er

/-- C16, witness: the plane `z = 0` spanned by (1, 0, 0) and (0, 1, 0), the point (1, 2, 3) and
the shifted point (3, 5, 3), with M = 1 and D = 5. -/
theorem getDistanceToPlane_rounded_witness :
    ∃ r r' : ℚ,
      F64.getDistanceToPlane [fin 1, fin 2, fin 3] [fin 0, fin 0, fin 0]
        [fin 1, fin 0, fin 0] [fin 0, fin 1, fin 0] = .ok (fin r) ∧
      F64.getDistanceToPlane [fin 3, fin 5, fin 3] [fin 0, fin 0, fin 0]
        [fin 1, fin 0, fin 0] [fin 0, fin 1, fin 0] = .ok (fin r') ∧
      |(r : ℝ) - |((1 - 0 : ℚ) : ℝ) * (0 : ℚ) + ((2 - 0 : ℚ) : ℝ) * (0 : ℚ) + ((3 - 0 : ℚ) : ℝ) * (1 : ℚ)| /
          Real.sqrt (((0 : ℚ) : ℝ) * (0 : ℚ) + (0 : ℚ) * (0 : ℚ) + (1 : ℚ) * (1 : ℚ))| ≤ ((5 : ℚ) : ℝ) / 2 ^ 25 ∧
      |(r : ℝ) - r'| ≤ ((5 : ℚ) : ℝ) / 2 ^ 24 ∧
      (((1 : ℚ) - 0) * 0 + (2 - 0) * 0 + (3 - 0) * 1 = 0 → (r : ℝ) ≤ ((5 : ℚ) : ℝ) / 2 ^ 25) ∧
      (r = 0 →
        |((1 - 0 : ℚ) : ℝ) * (0 : ℚ) + ((2 - 0 : ℚ) : ℝ) * (0 : ℚ) + ((3 - 0 : ℚ) : ℝ) * (1 : ℚ)| /
          Real.sqrt (((0 : ℚ) : ℝ) * (0 : ℚ) + (0 : ℚ) * (0 : ℚ) + (1 : ℚ) * (1 : ℚ)) ≤ ((5 : ℚ) : ℝ) / 2 ^ 25) :=
  getDistanceToPlane_rounded 1 2 3 0 0 0 1 0 0 0 1 0 0 0 1 2 3 3 5 3 1 5 (by norm_num)
    (by norm_num) (by norm_num) (by norm_num) (by norm_num) (by norm_num) (by norm_num)
    (by norm_num) (by norm_num) (by norm_num) (by norm_num) (by norm_num) (by norm_num)
    (by norm_num) (by norm_num [abs_of_pos]) (by norm_num [abs_of_pos])
    (by norm_num [abs_of_pos]) (by norm_num) (by norm_num) (by norm_num)
    (by norm_num [abs_of_pos]) (by norm_num [abs_of_pos]) (by norm_num [abs_of_pos])

/-- Lemmas on the length of a rounded unit vector, proved in turn: `float64Round_fixed`,
`toDouble_fixed`, `f64_dot_up`, `f64_unit_length`, `nonzero_of_sq_near`. -/
theorem unit_length_facts :
    (∀ (q v : ℚ) (_ : float64Round q = fin v),
      float64Round v = fin v) ∧
    (∀ (x : JSNum) (v : ℚ) (_ : toDouble x = fin v),
      float64Round v = fin v) ∧
    (∀ (v0 v1 v2 : ℚ) (_ : float64Round v2 = fin v2),
      F64.dotProduct [fin v0, fin v1, fin v2] [0, 0, 1] = .ok (fin v2)) ∧
    (∀ (v0 v1 v2 : ℚ) (_ : 1 / 2 ^ 400 ≤ max |v0| (max |v1| |v2|)) (_ : max |v0| (max |v1| |v2|) ≤ 2 ^ 400),
      ∃ L w0 w1 w2 l : ℚ, F64.getVectorLength [fin v0, fin v1, fin v2] = .ok (fin L) ∧
      F64.unitVector [fin v0, fin v1, fin v2] = .ok [fin w0, fin w1, fin w2] ∧
      fin w0 = F64.div (fin v0) (fin L) ∧ fin w1 = F64.div (fin v1) (fin L) ∧
      fin w2 = F64.div (fin v2) (fin L) ∧
      |w0 * w0 + w1 * w1 + w2 * w2 - 1| ≤ 23 / 2 ^ 53 ∧
      F64.getVectorLength [fin w0, fin w1, fin w2] = .ok (fin l) ∧ |l - 1| ≤ 1 / 2 ^ 47) ∧
    (∀ (d0 d1 d2 : ℚ) (_ : |d0 * d0 + d1 * d1 + d2 * d2 - 1| ≤ 23 / 2 ^ 53),
      d0 ≠ 0 ∨ d1 ≠ 0 ∨ d2 ≠ 0) := by
  have float64Round_fixed (q v : ℚ) (h : float64Round q = fin v) : float64Round v = fin v := by
    unfold float64Round at h
    split_ifs at h with h1 h2
    injection h with h
    subst h
    unfold float64Round
    rw [float64_facts_3.2.2.2.2.2.1, if_neg h1, if_neg h2]
  have toDouble_fixed (x : JSNum) (v : ℚ) (h : toDouble x = fin v) : float64Round v = fin v := by
    cases x with
    | fin q => exact float64Round_fixed q v h
    | pinf => cases h
    | ninf => cases h
    | nan => cases h
  -- The product of a vector with `up = (0, 0, 1)` is its third component.
  have f64_dot_up (v0 v1 v2 : ℚ) (h : float64Round v2 = fin v2) :
      F64.dotProduct [fin v0, fin v1, fin v2] [0, 0, 1] = .ok (fin v2) := by
    clear float64Round_fixed toDouble_fixed
    simp only [F64.dotProduct, List.length_cons, List.length_nil, ne_eq, not_true_eq_false,
      if_false, List.zipWith_cons_cons, List.zipWith_nil_right, List.foldl_cons, List.foldl_nil,
      ofNat_eq, Nat.cast_zero, Nat.cast_one, rounded_op_facts_1.2.2.1, mul_zero, mul_one, rounded_op_facts_5.2.2.2.2.1,
      rounded_op_facts_1.1, add_zero, zero_add, h]
  -- The vector `unitVector` returns for a finite vector whose largest component has a magnitude
  -- between `2 ^ (-400)` and `2 ^ 400`: its squared length is within `23 / 2 ^ 53` of 1 and its
  -- computed length within `2 ^ (-47)` of 1.
  have f64_unit_length (v0 v1 v2 : ℚ)
      (hlo : 1 / 2 ^ 400 ≤ max |v0| (max |v1| |v2|)) (hhi : max |v0| (max |v1| |v2|) ≤ 2 ^ 400) :
      ∃ L w0 w1 w2 l : ℚ, F64.getVectorLength [fin v0, fin v1, fin v2] = .ok (fin L) ∧
        F64.unitVector [fin v0, fin v1, fin v2] = .ok [fin w0, fin w1, fin w2] ∧
        fin w0 = F64.div (fin v0) (fin L) ∧ fin w1 = F64.div (fin v1) (fin L) ∧
        fin w2 = F64.div (fin v2) (fin L) ∧
        |w0 * w0 + w1 * w1 + w2 * w2 - 1| ≤ 23 / 2 ^ 53 ∧
        F64.getVectorLength [fin w0, fin w1, fin w2] = .ok (fin l) ∧ |l - 1| ≤ 1 / 2 ^ 47 := by
    clear float64Round_fixed toDouble_fixed f64_dot_up
    obtain ⟨h0, h1, h2, hs⟩ := sqrt_facts_2.1 v0 v1 v2
    generalize max |v0| (max |v1| |v2|) = M at hlo hhi h0 h1 h2 hs
    obtain ⟨L, w0, w1, w2, hL, hu, q0, q1, q2, hLpos, hLM, hL1, hL2, e0, e1, e2⟩ :=
      sqrt_facts_2.2.1 v0 v1 v2 M hlo hhi h0 h1 h2 hs
    have hM : 0 < M := lt_of_lt_of_le (by positivity) hlo
    clear hlo hhi
    obtain ⟨b0, b1, b2, hW⟩ := sqrt_facts_2.2.2.2 v0 v1 v2 w0 w1 w2 M L hM h0 h1 h2 hs hLpos hLM hL1
      hL2 e0 e1 e2
    obtain ⟨t, ht, et⟩ := rounded_op_facts_3.2.1 w0 w1 w2 w0 w1 w2 (102 / 100) (102 / 100) b0 b1 b2 b0 b1 b2
      (by norm_num) (by norm_num)
    have hW0 := hW
    rw [abs_le] at hW et
    have ht1 : 1 - 34 / 2 ^ 53 ≤ t := by norm_num at et hW ⊢; linarith only [et.1, hW.1]
    have ht2 : t ≤ 1 + 34 / 2 ^ 53 := by norm_num at et hW ⊢; linarith only [et.2, hW.2]
    obtain ⟨l, hl, hlpos, hl1, hl2⟩ := sqrt_facts_1.2.2.2.1 t
      (le_trans (by norm_num) ht1) (lt_of_le_of_lt ht2 (by norm_num))
    refine ⟨L, w0, w1, w2, l, hL, hu, q0, q1, q2, hW0, ?_, ?_⟩
    · simp only [bind, Except.bind, F64.getVectorLength, ht, pure, Except.pure, hl]
    · have h3 : 1 - 37 / 2 ^ 53 ≤ l ^ 2 := by
        have := mul_le_mul_of_nonneg_right ht1 (show (0 : ℚ) ≤ 1 - 2 / 2 ^ 53 by norm_num)
        norm_num at this hl1 ⊢; linarith only [this, hl1]
      have h4 : l ^ 2 ≤ 1 + 38 / 2 ^ 53 := by
        have := mul_le_mul_of_nonneg_right ht2 (show (0 : ℚ) ≤ 1 + 3 / 2 ^ 53 by norm_num)
        norm_num at this hl2 ⊢; linarith only [this, hl2]
      rw [abs_le]
      constructor
      · by_contra hc
        push_neg at hc
        have : l ^ 2 < (1 - 1 / 2 ^ 47) ^ 2 := by
          have h5 : l < 1 - 1 / 2 ^ 47 := by linarith only [hc]
          have := mul_lt_mul'' h5 h5 hlpos.le hlpos.le
          calc l ^ 2 = l * l := sq l
            _ < (1 - 1 / 2 ^ 47) * (1 - 1 / 2 ^ 47) := this
            _ = (1 - 1 / 2 ^ 47) ^ 2 := (sq _).symm
        norm_num at this h3
        linarith only [this, h3]
      · by_contra hc
        push_neg at hc
        have : (1 + 1 / 2 ^ 47) ^ 2 < l ^ 2 := by
          have h5 : 1 + 1 / 2 ^ 47 < l := by linarith only [hc]
          have := mul_lt_mul'' h5 h5 (by norm_num) (by norm_num)
          calc (1 + 1 / 2 ^ 47 : ℚ) ^ 2 = (1 + 1 / 2 ^ 47) * (1 + 1 / 2 ^ 47) := sq _
            _ < l * l := this
            _ = l ^ 2 := (sq l).symm
        norm_num at this h4
        linarith only [this, h4]
  have nonzero_of_sq_near (d0 d1 d2 : ℚ) (h : |d0 * d0 + d1 * d1 + d2 * d2 - 1| ≤ 23 / 2 ^ 53) :
      d0 ≠ 0 ∨ d1 ≠ 0 ∨ d2 ≠ 0 := by
    clear float64Round_fixed toDouble_fixed f64_dot_up f64_unit_length
    by_contra hc
    push_neg at hc
    obtain ⟨a, b, c⟩ := hc
    rw [a, b, c] at h
    norm_num [abs_of_pos] at h
  exact ⟨@float64Round_fixed, @toDouble_fixed, @f64_dot_up, @f64_unit_length, @nonzero_of_sq_near⟩

/-- C19, as amended.  In the arithmetic of the program, let the two vectors `rotateVector`
computes in `rotateCamera`, the horizontal one `h` and the vertical one `v`, be finite, and let
the one that is normalised (`v` when `|v_2| < 0.95`, else `h`) have a largest component of
magnitude between `2 ^ (-400)` and `2 ^ 400`.  Then `rotateCamera` stores a finite direction
`d` that is not zero, whose squared length is within `23 / 2 ^ 53` of 1 and whose length as
`getVectorLength` computes it is within `2 ^ (-47)` of 1.  `resetCamera` stores the direction
(-1, -1, -1), which is not zero. -/
theorem rotateCamera_rounded (m : MathFns) (c : CameraController) (dx dy : JSNum)
    (h0 h1 h2 v0 v1 v2 w0 w1 w2 : ℚ)
    (hh : F64.rotateVector m (toArray c.camera.direction) [0, 0, 1] dx
      = .ok [fin h0, fin h1, fin h2])
    (hv : F64.rotateVector m [fin h0, fin h1, fin h2]
      (F64.getCrossVector (toArray c.camera.direction) [0, 0, 1]) dy
      = .ok [fin v0, fin v1, fin v2])
    (hw : (w0, w1, w2) = if |v2| < f64Val (19 / 20) then (v0, v1, v2) else (h0, h1, h2))
    (hlo : 1 / 2 ^ 400 ≤ max |w0| (max |w1| |w2|)) (hhi : max |w0| (max |w1| |w2|) ≤ 2 ^ 400) :
    (∃ (c' : CameraController) (d0 d1 d2 l : ℚ), F64.rotateCamera m c dx dy = .ok c' ∧
      c'.camera.direction = (fin d0, fin d1, fin d2) ∧
      F64.unitVector [fin w0, fin w1, fin w2] = .ok [fin d0, fin d1, fin d2] ∧
      (d0 ≠ 0 ∨ d1 ≠ 0 ∨ d2 ≠ 0) ∧
      |d0 * d0 + d1 * d1 + d2 * d2 - 1| ≤ 23 / 2 ^ 53 ∧
      F64.getVectorLength (toArray c'.camera.direction) = .ok (fin l) ∧ |l - 1| ≤ 1 / 2 ^ 47) ∧
    c.resetCamera.camera.direction = (-1, -1, -1) := by
  refine ⟨?_, rfl⟩
  obtain ⟨L, d0, d1, d2, l, _, hu, _, _, _, hW, hl, el⟩ := unit_length_facts.2.2.2.1 w0 w1 w2 hlo hhi
  clear hlo hhi
  have hv2 : float64Round v2 = fin v2 := by
    simp only [F64.rotateVector, bind, Except.bind, pure, Except.pure] at hv
    revert hv
    cases F64.dotProduct [fin h0, fin h1, fin h2]
        (F64.getCrossVector (toArray c.camera.direction) [0, 0, 1]) with
    | error e => intro hv; cases hv
    | ok d =>
      intro hv
      simp only [Except.ok.injEq, List.cons.injEq, and_true] at hv
      exact unit_length_facts.2.1 _ v2 hv.2.2
  have hlit : F64.lit (19 / 20) = fin (f64Val (19 / 20)) :=
    float64_facts_4.2.2.2.2.2.1 _ (by norm_num [abs_of_pos])
  have hrun : F64.rotateCamera m c dx dy = (do
      let d ← F64.unitVector [fin w0, fin w1, fin w2]
      return { c with camera := { c.camera with direction := ofArray d } }) := by
    simp only [F64.rotateCamera, hh, hv, bind, Except.bind, pure, Except.pure,
      unit_length_facts.2.2.1 v0 v1 v2 hv2, JSNum.abs, hlit, JSNum.lt, decide_eq_true_eq]
    by_cases hc : |v2| < f64Val (19 / 20)
    · rw [if_pos hc] at hw
      simp only [Prod.mk.injEq] at hw
      obtain ⟨a, b, c⟩ := hw
      rw [if_pos hc, a, b, c]
    · rw [if_neg hc] at hw
      simp only [Prod.mk.injEq] at hw
      obtain ⟨a, b, c⟩ := hw
      rw [if_neg hc, a, b, c]
  refine ⟨{ c with camera := { c.camera with direction := (fin d0, fin d1, fin d2) } },
    d0, d1, d2, l, ?_, rfl, hu, unit_length_facts.2.2.2.2 d0 d1 d2 hW, hW, hl, el⟩
  rw [hrun, hu]; rfl

/-- C19, witness: the direction (1, 0, 0) turned by the angles 1 and 0, where the sample
cosine and sine are 3/5 and 4/5, rounded to the 64-bit floats 0.6 and 0.8. -/
theorem rotateCamera_rounded_witness :
    (∃ (c' : CameraController) (d0 d1 d2 l : ℚ),
      F64.rotateCamera sampleMath
        (CameraController.new { sampleCamera with direction := (fin 1, fin 0, fin 0) })
        (fin 1) (fin 0) = .ok c' ∧
      c'.camera.direction = (fin d0, fin d1, fin d2) ∧
      F64.unitVector [fin (5404319552844595 / 9007199254740992),
        fin (3602879701896397 / 4503599627370496), fin 0] = .ok [fin d0, fin d1, fin d2] ∧
      (d0 ≠ 0 ∨ d1 ≠ 0 ∨ d2 ≠ 0) ∧
      |d0 * d0 + d1 * d1 + d2 * d2 - 1| ≤ 23 / 2 ^ 53 ∧
      F64.getVectorLength (toArray c'.camera.direction) = .ok (fin l) ∧ |l - 1| ≤ 1 / 2 ^ 47) ∧
    (CameraController.new
      { sampleCamera with direction := (fin 1, fin 0, fin 0) }).resetCamera.camera.direction
        = (-1, -1, -1) :=
  rotateCamera_rounded sampleMath _ (fin 1) (fin 0)
    (5404319552844595 / 9007199254740992) (3602879701896397 / 4503599627370496) 0
    (5404319552844595 / 9007199254740992) (3602879701896397 / 4503599627370496) 0
    (5404319552844595 / 9007199254740992) (3602879701896397 / 4503599627370496) 0
    (by decide!) (by decide!) (by decide!) (by norm_num [abs_of_pos]) (by norm_num [abs_of_pos])

/-- C14, as amended.  In the arithmetic of the program, for a finite vector `v` whose largest
component has a magnitude between `2 ^ (-400)` and `2 ^ 400`, `unitVector(v)` is `v` divided
component by component by `getVectorLength(v)`, each quotient rounded to a 64-bit float, and
`getVectorLength(unitVector(v))` is a finite number within `2 ^ (-47)` of 1. -/
theorem unitVector_length_rounded (v0 v1 v2 : ℚ)
    (hlo : 1 / 2 ^ 400 ≤ max |v0| (max |v1| |v2|)) (hhi : max |v0| (max |v1| |v2|) ≤ 2 ^ 400) :
    ∃ L l : ℚ, F64.getVectorLength [fin v0, fin v1, fin v2] = .ok (fin L) ∧
      F64.unitVector [fin v0, fin v1, fin v2] =
        .ok [F64.div (fin v0) (fin L), F64.div (fin v1) (fin L), F64.div (fin v2) (fin L)] ∧
      (do F64.getVectorLength (← F64.unitVector [fin v0, fin v1, fin v2])) = .ok (fin l) ∧
      |l - 1| ≤ 1 / 2 ^ 47 := by
  obtain ⟨L, w0, w1, w2, l, hL, hu, q0, q1, q2, _, hl, el⟩ := unit_length_facts.2.2.2.1 v0 v1 v2 hlo hhi
  refine ⟨L, l, hL, ?_, ?_, el⟩
  · rw [hu, q0, q1, q2]
  · rw [hu]
    exact hl

/-- C14, witness: the vector (2, 3, 6). -/
theorem unitVector_length_rounded_witness :
    ∃ L l : ℚ, F64.getVectorLength [fin 2, fin 3, fin 6] = .ok (fin L) ∧
      F64.unitVector [fin 2, fin 3, fin 6] =
        .ok [F64.div (fin 2) (fin L), F64.div (fin 3) (fin L), F64.div (fin 6) (fin L)] ∧
      (do F64.getVectorLength (← F64.unitVector [fin 2, fin 3, fin 6])) = .ok (fin l) ∧
      |l - 1| ≤ 1 / 2 ^ 47 :=
  unitVector_length_rounded 2 3 6 (by norm_num [abs_of_pos]) (by norm_num [abs_of_pos])

/-- Lemmas on the monotonicity of rounding and of the shading, proved in turn: `float64Round_le`,
`float64Round_ne_nan`, `le_pinf`, `ninf_le`, `toDouble_le`, `exp_le`. -/
theorem monotone_facts_1 :
    (∀ (p q : ℚ) (_ : p ≤ q),
      JSNum.le (float64Round p) (float64Round q) = true) ∧
    (∀ (q : ℚ),
      float64Round q ≠ nan) ∧
    (∀ (a : JSNum) (_ : a ≠ nan),
      JSNum.le a pinf = true) ∧
    (∀ (a : JSNum) (_ : a ≠ nan),
      JSNum.le ninf a = true) ∧
    (∀ (a b : JSNum) (_ : JSNum.le a b = true),
      JSNum.le (toDouble a) (toDouble b) = true) ∧
    (∀ (m : MathFns) (_ : Monotone m.exp) (_ : ∀ q, 0 ≤ m.exp q) (a b : JSNum) (_ : JSNum.le a b = true),
      JSNum.le (JSNum.exp m a) (JSNum.exp m b) = true) := by
  have float64Round_le (p q : ℚ) (h : p ≤ q) :
      JSNum.le (float64Round p) (float64Round q) = true := by
    have hm := float64_facts_3.2.2.2.2.1 h
    unfold float64Round
    generalize (2 : ℚ) ^ 1024 = T at *
    by_cases h1 : T ≤ f64Val q
    · rw [if_pos h1]
      by_cases h2 : T ≤ f64Val p
      · rw [if_pos h2]; rfl
      · rw [if_neg h2]
        by_cases h3 : f64Val p ≤ -T
        · rw [if_pos h3]; rfl
        · rw [if_neg h3]; rfl
    · rw [if_neg h1]
      have h2 : ¬ T ≤ f64Val p := fun hc => h1 (le_trans hc hm)
      rw [if_neg h2]
      by_cases h3 : f64Val q ≤ -T
      · rw [if_pos h3, if_pos (le_trans hm h3)]; rfl
      · rw [if_neg h3]
        by_cases h4 : f64Val p ≤ -T
        · rw [if_pos h4]; rfl
        · rw [if_neg h4]
          simp only [JSNum.le, decide_eq_true_eq]
          exact hm
  have float64Round_ne_nan (q : ℚ) : float64Round q ≠ nan := by
    clear float64Round_le
    unfold float64Round
    split_ifs <;> simp
  have le_pinf (a : JSNum) (h : a ≠ nan) : JSNum.le a pinf = true := by
    clear float64Round_le float64Round_ne_nan
    cases a with
    | fin q => rfl
    | pinf => rfl
    | ninf => rfl
    | nan => exact absurd rfl h
  have ninf_le (a : JSNum) (h : a ≠ nan) : JSNum.le ninf a = true := by
    clear float64Round_le float64Round_ne_nan le_pinf
    cases a with
    | fin q => rfl
    | pinf => rfl
    | ninf => rfl
    | nan => exact absurd rfl h
  have toDouble_le (a b : JSNum) (h : JSNum.le a b = true) :
      JSNum.le (toDouble a) (toDouble b) = true := by
    cases a with
    | fin p =>
      cases b with
      | fin q =>
        simp only [JSNum.le, decide_eq_true_eq] at h
        exact float64Round_le p q h
      | pinf => exact le_pinf _ (float64Round_ne_nan p)
      | ninf => cases h
      | nan => cases h
    | pinf =>
      cases b with
      | fin q => cases h
      | pinf => rfl
      | ninf => cases h
      | nan => cases h
    | ninf =>
      cases b with
      | fin q => exact ninf_le _ (float64Round_ne_nan q)
      | pinf => rfl
      | ninf => rfl
      | nan => cases h
    | nan => cases b <;> cases h
  have exp_le (m : MathFns) (hmono : Monotone m.exp) (hpos : ∀ q, 0 ≤ m.exp q) (a b : JSNum)
      (h : JSNum.le a b = true) : JSNum.le (JSNum.exp m a) (JSNum.exp m b) = true := by
    clear float64Round_le float64Round_ne_nan le_pinf ninf_le toDouble_le
    cases a with
    | fin p =>
      cases b with
      | fin q =>
        simp only [JSNum.le, decide_eq_true_eq] at h
        simp only [JSNum.exp, JSNum.le, decide_eq_true_eq]
        exact hmono h
      | pinf => rfl
      | ninf => cases h
      | nan => cases h
    | pinf =>
      cases b with
      | fin q => cases h
      | pinf => rfl
      | ninf => cases h
      | nan => cases h
    | ninf =>
      cases b with
      | fin q =>
        simp only [JSNum.exp, JSNum.le, decide_eq_true_eq]
        exact hpos q
      | pinf => rfl
      | ninf => simp only [JSNum.exp, JSNum.le, decide_eq_true_eq, le_refl]
      | nan => cases h
    | nan => cases b <;> cases h
  exact ⟨@float64Round_le, @float64Round_ne_nan, @le_pinf, @ninf_le, @toDouble_le, @exp_le⟩

/-- Lemmas on the monotonicity of rounding and of the shading, proved in turn: `f64_exp_cases`,
`clampRound_fin`, `clampRound_pinf`, `clampRound_ninf`, `clampRound_le`, `channel_le`. -/
theorem monotone_facts_2 :
    (∀ (m : MathFns) (_ : ∀ q, 0 ≤ m.exp q) (u : JSNum) (_ : u ≠ nan),
      F64.exp m u = pinf ∨ ∃ e : ℚ, 0 ≤ e ∧ F64.exp m u = fin e) ∧
    (∀ (q : ℚ),
      JSNum.min 255 (JSNum.max 0 (JSNum.round (fin q))) =
      fin (Min.min 255 (Max.max 0 ((⌊q + 1 / 2⌋ : ℤ) : ℚ)))) ∧
    (JSNum.min 255 (JSNum.max 0 (JSNum.round pinf)) = fin 255) ∧
    (JSNum.min 255 (JSNum.max 0 (JSNum.round ninf)) = fin 0) ∧
    (∀ (a b : JSNum) (_ : JSNum.le a b = true),
      JSNum.le (JSNum.min 255 (JSNum.max 0 (JSNum.round a)))
      (JSNum.min 255 (JSNum.max 0 (JSNum.round b))) = true) ∧
    (∀ (c : ℚ) (_ : 0 ≤ c) (E1 E2 : JSNum) (_ : JSNum.le E2 E1 = true) (_ : E1 = pinf ∨ ∃ e : ℚ, 0 ≤ e ∧ E1 = fin e) (_ : E2 = pinf ∨ ∃ e : ℚ, 0 ≤ e ∧ E2 = fin e) (_ : E1 ≠ pinf ∨ 0 < c),
      JSNum.le (JSNum.min 255 (JSNum.max 0 (JSNum.round (F64.mul (fin c) E2))))
      (JSNum.min 255 (JSNum.max 0 (JSNum.round (F64.mul (fin c) E1)))) = true) := by
  -- The values a rounded exponential takes: a finite number that is not negative, or `Infinity`.
  have f64_exp_cases (m : MathFns) (hpos : ∀ q, 0 ≤ m.exp q) (u : JSNum) (hu : u ≠ nan) :
      F64.exp m u = pinf ∨ ∃ e : ℚ, 0 ≤ e ∧ F64.exp m u = fin e := by
    cases u with
    | fin q =>
      simp only [F64.exp, JSNum.exp, toDouble]
      unfold float64Round
      have h0 := float64_facts_4.2.2.1 (hpos q)
      have hT : (0 : ℚ) < 2 ^ 1024 := by positivity
      generalize (2 : ℚ) ^ 1024 = T at hT
      by_cases h1 : T ≤ f64Val (m.exp q)
      · left; rw [if_pos h1]
      · right
        rw [if_neg h1, if_neg (by intro hc; linarith)]
        exact ⟨_, h0, rfl⟩
    | pinf => left; rfl
    | ninf => right; exact ⟨0, le_refl _, rounded_op_facts_5.2.2.2.2.1⟩
    | nan => exact absurd rfl hu
  have clampRound_fin (q : ℚ) :
      JSNum.min 255 (JSNum.max 0 (JSNum.round (fin q))) =
        fin (Min.min 255 (Max.max 0 ((⌊q + 1 / 2⌋ : ℤ) : ℚ))) := by
    clear f64_exp_cases
    simp only [round_fin, ofNat_eq, Nat.cast_ofNat, Nat.cast_zero, max_fin, min_fin]
  have clampRound_pinf : JSNum.min 255 (JSNum.max 0 (JSNum.round pinf)) = fin 255 := by
    clear f64_exp_cases clampRound_fin
    simp [JSNum.round, JSNum.max, JSNum.min, JSNum.le]
  have clampRound_ninf : JSNum.min 255 (JSNum.max 0 (JSNum.round ninf)) = fin 0 := by
    clear f64_exp_cases clampRound_fin clampRound_pinf
    simp [JSNum.round, JSNum.max, JSNum.min, JSNum.le]
  -- The clamped rounding of a channel is monotone.
  have clampRound_le (a b : JSNum) (h : JSNum.le a b = true) :
      JSNum.le (JSNum.min 255 (JSNum.max 0 (JSNum.round a)))
        (JSNum.min 255 (JSNum.max 0 (JSNum.round b))) = true := by
    clear f64_exp_cases
    cases a with
    | fin p =>
      cases b with
      | fin q =>
        simp only [JSNum.le, decide_eq_true_eq] at h
        rw [clampRound_fin, clampRound_fin]
        simp only [JSNum.le, decide_eq_true_eq]
        apply min_le_min le_rfl
        apply max_le_max le_rfl
        exact_mod_cast Int.floor_mono (by linarith)
      | pinf =>
        rw [clampRound_fin, clampRound_pinf]
        simp only [JSNum.le, decide_eq_true_eq]
        exact min_le_left _ _
      | ninf => cases h
      | nan => cases h
    | pinf =>
      cases b with
      | fin q => cases h
      | pinf => rw [clampRound_pinf]; simp only [JSNum.le, decide_eq_true_eq, le_refl]
      | ninf => cases h
      | nan => cases h
    | ninf =>
      cases b with
      | fin q =>
        rw [clampRound_fin, clampRound_ninf]
        simp only [JSNum.le, decide_eq_true_eq]
        exact le_min (by norm_num) (le_max_left _ _)
      | pinf => rw [clampRound_pinf, clampRound_ninf]; simp only [JSNum.le, decide_eq_true_eq]; norm_num
      | ninf => rw [clampRound_ninf]; simp only [JSNum.le, decide_eq_true_eq, le_refl]
      | nan => cases h
    | nan => cases b <;> cases h
  -- One channel of `adjustColorByDepth` against the depth factor: a larger factor gives a
  -- channel that is not smaller, when the channel is positive or the larger factor is finite.
  have channel_le (c : ℚ) (hc : 0 ≤ c) (E1 E2 : JSNum) (hE : JSNum.le E2 E1 = true)
      (h1 : E1 = pinf ∨ ∃ e : ℚ, 0 ≤ e ∧ E1 = fin e) (h2 : E2 = pinf ∨ ∃ e : ℚ, 0 ≤ e ∧ E2 = fin e)
      (hfin : E1 ≠ pinf ∨ 0 < c) :
      JSNum.le (JSNum.min 255 (JSNum.max 0 (JSNum.round (F64.mul (fin c) E2))))
        (JSNum.min 255 (JSNum.max 0 (JSNum.round (F64.mul (fin c) E1)))) = true := by
    clear f64_exp_cases clampRound_fin clampRound_pinf clampRound_ninf
    apply clampRound_le
    apply monotone_facts_1.2.2.2.2.1
    rcases h1 with rfl | ⟨e1, he1, rfl⟩
    · have hc0 : 0 < c := by
        rcases hfin with h | h
        · exact absurd rfl h
        · exact h
      have hp : fin c * pinf = pinf := by
        show JSNum.mul (fin c) pinf = pinf
        simp [JSNum.mul, infTimes, hc0.ne', hc0]
      rw [hp]
      rcases h2 with rfl | ⟨e2, he2, rfl⟩
      · rw [hp]; rfl
      · rfl
    · rcases h2 with rfl | ⟨e2, he2, rfl⟩
      · cases hE
      · simp only [JSNum.le, decide_eq_true_eq] at hE
        simp only [mul_fin, JSNum.le, decide_eq_true_eq]
        exact mul_le_mul_of_nonneg_left hE hc
  exact ⟨@f64_exp_cases, @clampRound_fin, @clampRound_pinf, @clampRound_ninf, @clampRound_le,
    @channel_le⟩

/-- C7, as amended.  In the arithmetic of the program, for a colour with non-negative channels,
a positive `maxDepth` and depths `d1 < d2`, every output channel at `d2` is at most the same
channel at `d1`, when `Math.exp` is monotone and not negative and either the depth factor at
`d1` is finite or the three channels are positive. -/
theorem adjustColorByDepth_rounded (m : MathFns) (hexp : Monotone m.exp)
    (hpos : ∀ q, 0 ≤ m.exp q) (c0 c1 c2 M d1 d2 : ℚ) (h0 : 0 ≤ c0) (h1 : 0 ≤ c1) (h2 : 0 ≤ c2)
    (hM : 0 < M) (hd : d1 < d2)
    (hfin : F64.exp m (F64.div (-(fin d1)) (fin M)) ≠ pinf ∨ (0 < c0 ∧ 0 < c1 ∧ 0 < c2))
    (i : ℕ) (hi : i < 3) :
    JSNum.le (nth (F64.adjustColorByDepth m [fin c0, fin c1, fin c2] (fin d2) (some (fin M))) i)
      (nth (F64.adjustColorByDepth m [fin c0, fin c1, fin c2] (fin d1) (some (fin M))) i)
      = true := by
  have hu : ∀ d : ℚ, F64.div (-(fin d)) (fin M) = float64Round (-d / M) := by
    intro d
    rw [neg_fin, rounded_op_facts_1.2.2.2.1 _ _ hM.ne']
  have hq : -d2 / M ≤ -d1 / M := div_le_div_of_nonneg_right (by linarith) hM.le
  have hE : JSNum.le (F64.exp m (F64.div (-(fin d2)) (fin M)))
      (F64.exp m (F64.div (-(fin d1)) (fin M))) = true := by
    rw [hu, hu]
    exact monotone_facts_1.2.2.2.2.1 _ _ (monotone_facts_1.2.2.2.2.2 m hexp hpos _ _ (monotone_facts_1.1 _ _ hq))
  have c1' := monotone_facts_2.1 m hpos (F64.div (-(fin d1)) (fin M))
    (by rw [hu]; exact monotone_facts_1.2.1 _)
  have c2' := monotone_facts_2.1 m hpos (F64.div (-(fin d2)) (fin M))
    (by rw [hu]; exact monotone_facts_1.2.1 _)
  have key : ∀ c : ℚ, 0 ≤ c →
      (F64.exp m (F64.div (-(fin d1)) (fin M)) ≠ pinf ∨ 0 < c) →
      JSNum.le (JSNum.min 255 (JSNum.max 0 (JSNum.round (F64.mul (fin c)
        (F64.exp m (F64.div (-(fin d2)) (fin M)))))))
      (JSNum.min 255 (JSNum.max 0 (JSNum.round (F64.mul (fin c)
        (F64.exp m (F64.div (-(fin d1)) (fin M))))))) = true :=
    fun c hc hf => monotone_facts_2.2.2.2.2.2 c hc _ _ hE c1' c2' hf
  simp only [F64.adjustColorByDepth, Option.getD_some, nth, List.getD_cons_zero,
    List.getD_cons_succ]
  interval_cases i
  · exact key c0 h0 (hfin.imp id fun h => h.1)
  · exact key c1 h1 (hfin.imp id fun h => h.2.1)
  · exact key c2 h2 (hfin.imp id fun h => h.2.2)

theorem steepMath_exp_monotone : Monotone steepMath.exp := by
  intro a b h
  show (3 : ℚ) ^ ⌊a⌋ ≤ 3 ^ ⌊b⌋
  exact zpow_le_zpow_right₀ (by norm_num) (Int.floor_mono h)

theorem sampleMath_exp_nonneg (q : ℚ) : 0 ≤ sampleMath.exp q := by
  show (0 : ℚ) ≤ if q ≤ 0 then 1 / (1 - q) else 1 + q
  split_ifs with h
  · have : 0 < 1 - q := by linarith
    positivity
  · linarith

/-- C7, counterexample: the colour (255, 0, 7) with `maxDepth` 50 at the depths -40000 and 0,
the exponential being `3 ^ ⌊q⌋`, which is monotone.  At the depth -40000 the factor
`exp(800)` is `Infinity` and the channel 0 becomes `0 * Infinity = NaN`; at the depth 0 the
same channel is 0, and `0 <= NaN` is false. -/
theorem adjustColorByDepth_overflow :
    Monotone steepMath.exp ∧
    F64.adjustColorByDepth steepMath [fin 255, fin 0, fin 7] (fin (-40000)) (some (fin 50))
      = [fin 255, nan, fin 255] ∧
    F64.adjustColorByDepth steepMath [fin 255, fin 0, fin 7] (fin 0) (some (fin 50))
      = [fin 255, fin 0, fin 7] ∧
    JSNum.le
      (nth (F64.adjustColorByDepth steepMath [fin 255, fin 0, fin 7] (fin 0) (some (fin 50))) 1)
      (nth (F64.adjustColorByDepth steepMath [fin 255, fin 0, fin 7] (fin (-40000))
        (some (fin 50))) 1) = false :=
  ⟨steepMath_exp_monotone, by decide!, by decide!, by decide!⟩

/-- C7, witness: white at the depths 5 and 10 with `maxDepth` 50. -/
theorem adjustColorByDepth_rounded_witness :
    JSNum.le (nth (F64.adjustColorByDepth sampleMath [fin 255, fin 255, fin 255] (fin 10)
        (some (fin 50))) 0)
      (nth (F64.adjustColorByDepth sampleMath [fin 255, fin 255, fin 255] (fin 5)
        (some (fin 50))) 0) = true :=
  adjustColorByDepth_rounded sampleMath sampleMath_exp_monotone sampleMath_exp_nonneg
    255 255 255 50 5 10 (by norm_num) (by norm_num) (by norm_num) (by norm_num) (by norm_num)
    (Or.inr ⟨by norm_num, by norm_num, by norm_num⟩) 0 (by norm_num)

/-- Lemmas on the relative error of rounded products and quotients, proved in turn:
`magnitude_mul`, `magnitude_inv`, `magnitude_div`, `magnitude_mono`, `magnitude_nat`,
`magnitude_ne_zero`, `rel_round`. -/
theorem relative_error_facts_1 :
    (∀ (A B : ℕ) (a b : ℚ) (_ : Magnitude A a) (_ : Magnitude B b),
      Magnitude (A + B) (a * b)) ∧
    (∀ (A : ℕ) (a : ℚ) (_ : Magnitude A a),
      Magnitude A (1 / a)) ∧
    (∀ (A B : ℕ) (a b : ℚ) (_ : Magnitude A a) (_ : Magnitude B b),
      Magnitude (A + B) (a / b)) ∧
    (∀ (A B : ℕ) (a : ℚ) (_ : A ≤ B) (_ : Magnitude A a),
      Magnitude B a) ∧
    (∀ (n : ℕ) (_ : 0 < n) (_ : n ≤ 2 ^ 30),
      Magnitude 30 (n : ℚ)) ∧
    (∀ (A : ℕ) (a : ℚ) (_ : Magnitude A a),
      a ≠ 0) ∧
    (∀ (z z0 γ δ : ℚ) (_ : |z - z0| ≤ γ * |z0|) (_ : γ ≤ 1 / 2) (_ : γ + (1 + γ) / 2 ^ 53 ≤ δ) (_ : z0 = 0 ∨ Magnitude 1000 z0),
      ∃ r : ℚ, float64Round z = fin r ∧ |r - z0| ≤ δ * |z0|) := by
  have magnitude_mul (A B : ℕ) (a b : ℚ) (ha : Magnitude A a) (hb : Magnitude B b) :
      Magnitude (A + B) (a * b) := by
    obtain ⟨a1, a2⟩ := ha
    obtain ⟨b1, b2⟩ := hb
    constructor
    · rw [abs_mul, pow_add]
      have := mul_le_mul a1 b1 (by positivity) (abs_nonneg a)
      calc (1 : ℚ) / (2 ^ A * 2 ^ B) = 1 / 2 ^ A * (1 / 2 ^ B) := by
            rw [div_mul_div_comm, one_mul]
        _ ≤ |a| * |b| := this
    · rw [abs_mul, pow_add]
      exact mul_le_mul a2 b2 (abs_nonneg b) (by positivity)
  have magnitude_inv (A : ℕ) (a : ℚ) (ha : Magnitude A a) : Magnitude A (1 / a) := by
    clear magnitude_mul
    obtain ⟨a1, a2⟩ := ha
    have hpos : 0 < |a| := lt_of_lt_of_le (by positivity) a1
    constructor
    · rw [abs_div, abs_one]
      exact one_div_le_one_div_of_le hpos a2
    · rw [abs_div, abs_one, div_le_iff₀ hpos]
      have := mul_le_mul_of_nonneg_left a1 (show (0 : ℚ) ≤ 2 ^ A by positivity)
      rw [mul_one_div, div_self (by positivity)] at this
      exact this
  have magnitude_div (A B : ℕ) (a b : ℚ) (ha : Magnitude A a) (hb : Magnitude B b) :
      Magnitude (A + B) (a / b) := by
    rw [div_eq_mul_one_div]
    exact magnitude_mul A B a (1 / b) ha (magnitude_inv B b hb)
  have magnitude_mono (A B : ℕ) (a : ℚ) (h : A ≤ B) (ha : Magnitude A a) : Magnitude B a := by
    clear magnitude_mul magnitude_inv magnitude_div
    obtain ⟨a1, a2⟩ := ha
    have h2 : (2 : ℚ) ^ A ≤ 2 ^ B := pow_le_pow_right₀ (by norm_num) h
    exact ⟨le_trans (one_div_le_one_div_of_le (by positivity) h2) a1, le_trans a2 h2⟩
  have magnitude_nat (n : ℕ) (h1 : 0 < n) (h2 : n ≤ 2 ^ 30) : Magnitude 30 (n : ℚ) := by
    clear magnitude_mul magnitude_inv magnitude_div magnitude_mono
    have a : (1 : ℚ) ≤ n := by exact_mod_cast h1
    have b : (n : ℚ) ≤ 2 ^ 30 := by exact_mod_cast h2
    have c : (1 : ℚ) / 2 ^ 30 ≤ 1 := by norm_num
    constructor
    · rw [abs_of_pos (by linarith)]; linarith
    · rw [abs_of_pos (by linarith)]; exact b
  have magnitude_ne_zero (A : ℕ) (a : ℚ) (ha : Magnitude A a) : a ≠ 0 := by
    clear magnitude_mul magnitude_inv magnitude_div magnitude_mono magnitude_nat
    intro h
    have := ha.1
    rw [h, abs_zero] at this
    have : (0 : ℚ) < 1 / 2 ^ A := by positivity
    linarith
  -- Rounding a value that is near `z0` in relative terms.
  have rel_round (z z0 γ δ : ℚ) (hz : |z - z0| ≤ γ * |z0|) (hγ : γ ≤ 1 / 2)
      (hδ : γ + (1 + γ) / 2 ^ 53 ≤ δ) (hr : z0 = 0 ∨ Magnitude 1000 z0) :
      ∃ r : ℚ, float64Round z = fin r ∧ |r - z0| ≤ δ * |z0| := by
    clear magnitude_mul magnitude_inv magnitude_div magnitude_mono magnitude_nat magnitude_ne_zero
    rcases hr with h0 | ⟨h1, h2⟩
    · subst h0
      rw [abs_zero, mul_zero, sub_zero] at hz
      have hz0 : z = 0 := abs_eq_zero.mp (le_antisymm hz (abs_nonneg z))
      subst hz0
      exact ⟨0, rounded_op_facts_5.2.2.2.2.1, by simp⟩
    · have hpos : 0 < |z0| := lt_of_lt_of_le (by positivity) h1
      have hzu : |z| ≤ (1 + γ) * |z0| := by
        have := rounded_op_facts_2.2.2.2.1 hz (le_refl |z0|)
        linarith
      have hzl : 1 / 2 * |z0| ≤ |z| := by
        have h3 := abs_sub_abs_le_abs_sub z0 z
        rw [abs_sub_comm] at h3
        have h4 : γ * |z0| ≤ 1 / 2 * |z0| := mul_le_mul_of_nonneg_right hγ hpos.le
        linarith
      have e1 : (1 : ℚ) / 2 ^ 1022 ≤ 1 / 2 * (1 / 2 ^ 1000) := by
        rw [div_mul_div_comm, one_mul]
        apply one_div_le_one_div_of_le (by positivity)
        calc (2 : ℚ) * 2 ^ 1000 = 2 ^ 1001 := by rw [pow_succ]; ring
          _ ≤ 2 ^ 1022 := pow_le_pow_right₀ (by norm_num) (by norm_num)
      have e2 : (3 : ℚ) / 2 * 2 ^ 1000 ≤ 2 ^ 1023 := by
        calc (3 : ℚ) / 2 * 2 ^ 1000 ≤ 2 * 2 ^ 1000 := by
              apply mul_le_mul_of_nonneg_right (by norm_num) (by positivity)
          _ = 2 ^ 1001 := by rw [pow_succ]; ring
          _ ≤ 2 ^ 1023 := pow_le_pow_right₀ (by norm_num) (by norm_num)
      have hlo : (1 : ℚ) / 2 ^ 1022 ≤ |z| := by
        have := mul_le_mul_of_nonneg_left h1 (show (0 : ℚ) ≤ 1 / 2 by norm_num)
        linarith
      have hhi : |z| ≤ 2 ^ 1023 := by
        have h5 : (1 + γ) * |z0| ≤ 3 / 2 * |z0| := mul_le_mul_of_nonneg_right (by linarith) hpos.le
        have h6 := mul_le_mul_of_nonneg_left h2 (show (0 : ℚ) ≤ 3 / 2 by norm_num)
        linarith
      obtain ⟨r, hr, er⟩ := rounded_op_facts_1.2.2.2.2.2.1 z |z| (le_refl _) hlo hhi
      clear e1 e2 hlo hhi h1 h2
      refine ⟨r, hr, ?_⟩
      have h7 := abs_sub_le r z z0
      have h8 : |z| / 2 ^ 53 ≤ (1 + γ) / 2 ^ 53 * |z0| := by
        rw [div_mul_eq_mul_div]
        exact div_le_div_of_nonneg_right hzu (by positivity)
      have h9 : (γ + (1 + γ) / 2 ^ 53) * |z0| ≤ δ * |z0| := mul_le_mul_of_nonneg_right hδ hpos.le
      have h10 : (γ + (1 + γ) / 2 ^ 53) * |z0| = γ * |z0| + (1 + γ) / 2 ^ 53 * |z0| := by ring
      linarith
  exact ⟨@magnitude_mul, @magnitude_inv, @magnitude_div, @magnitude_mono, @magnitude_nat,
    @magnitude_ne_zero, @rel_round⟩

/-- Lemmas on the relative error of rounded products and quotients, proved in turn: `f64_mul_rel`,
`f64_div_rel`, `magnitude_or_mul`, `magnitude_or_div`, `exact_rel`, `fovlize_core`. -/
theorem relative_error_facts_2 :
    (∀ (a a0 b b0 α β δ : ℚ) (_ : |a - a0| ≤ α * |a0|) (_ : |b - b0| ≤ β * |b0|) (_ : 0 ≤ α) (_ : α + β + α * β ≤ 1 / 2) (_ : α + β + α * β + (1 + (α + β + α * β)) / 2 ^ 53 ≤ δ) (_ : a0 * b0 = 0 ∨ Magnitude 1000 (a0 * b0)),
      ∃ r : ℚ, F64.mul (fin a) (fin b) = fin r ∧ |r - a0 * b0| ≤ δ * |a0 * b0|) ∧
    (∀ (n n0 d d0 α β δ : ℚ) (_ : |n - n0| ≤ α * |n0|) (_ : |d - d0| ≤ β * |d0|) (_ : 0 ≤ α) (_ : 0 ≤ β) (_ : β ≤ 1 / 8) (_ : α ≤ 1 / 8) (_ : d0 ≠ 0) (_ : (α + β) * (1 + 2 * β) + (1 + (α + β) * (1 + 2 * β)) / 2 ^ 53 ≤ δ) (_ : n0 / d0 = 0 ∨ Magnitude 1000 (n0 / d0)),
      ∃ r : ℚ, F64.div (fin n) (fin d) = fin r ∧ |r - n0 / d0| ≤ δ * |n0 / d0|) ∧
    (∀ (A B : ℕ) (a b : ℚ) (_ : a = 0 ∨ Magnitude A a) (_ : Magnitude B b) (_ : A + B ≤ 1000),
      a * b = 0 ∨ Magnitude 1000 (a * b)) ∧
    (∀ (A B : ℕ) (a b : ℚ) (_ : a = 0 ∨ Magnitude A a) (_ : Magnitude B b) (_ : A + B ≤ 1000),
      a / b = 0 ∨ Magnitude 1000 (a / b)) ∧
    (∀ (a : ℚ),
      |a - a| ≤ 0 * |a|) ∧
    (∀ (W H : ℕ) (f t x y : ℚ) (_ : 0 < W) (_ : W ≤ 2 ^ 30) (_ : 0 < H) (_ : H ≤ 2 ^ 30) (_ : Magnitude 100 f) (_ : Magnitude 100 t) (_ : x = 0 ∨ Magnitude 100 x) (_ : y = 0 ∨ Magnitude 100 y),
      ∃ a b : ℚ,
      F64.div (F64.mul (fin x) (fin W)) (F64.mul (F64.mul 2 (fin f)) (fin t)) = fin a ∧
      F64.div (F64.mul (fin y) (fin H))
        (F64.div (F64.mul (F64.mul (F64.mul 2 (fin f)) (fin t)) (fin H)) (fin W)) = fin b ∧
      |a - x * W / (2 * f * t)| ≤ 1 / 2 ^ 50 * |x * W / (2 * f * t)| ∧
      |b - y * H / (2 * f * t * H / W)| ≤ 1 / 2 ^ 50 * |y * H / (2 * f * t * H / W)|) := by
  -- The rounded product of two values that are near `a0` and `b0` in relative terms.
  have f64_mul_rel (a a0 b b0 α β δ : ℚ) (ha : |a - a0| ≤ α * |a0|) (hb : |b - b0| ≤ β * |b0|)
      (hα : 0 ≤ α) (hs : α + β + α * β ≤ 1 / 2)
      (hδ : α + β + α * β + (1 + (α + β + α * β)) / 2 ^ 53 ≤ δ)
      (hr : a0 * b0 = 0 ∨ Magnitude 1000 (a0 * b0)) :
      ∃ r : ℚ, F64.mul (fin a) (fin b) = fin r ∧ |r - a0 * b0| ≤ δ * |a0 * b0| := by
    rw [rounded_op_facts_1.2.2.1]
    apply relative_error_facts_1.2.2.2.2.2.2 (a * b) (a0 * b0) (α + β + α * β) δ _ hs hδ hr
    have e : a * b - a0 * b0 = (a - a0) * b0 + a0 * (b - b0) + (a - a0) * (b - b0) := by ring
    rw [e, abs_mul]
    have h1 : |(a - a0) * b0| ≤ α * |a0| * |b0| := by
      rw [abs_mul]; exact mul_le_mul_of_nonneg_right ha (abs_nonneg _)
    have h2 : |a0 * (b - b0)| ≤ |a0| * (β * |b0|) := by
      rw [abs_mul]; exact mul_le_mul_of_nonneg_left hb (abs_nonneg _)
    have h3 : |(a - a0) * (b - b0)| ≤ α * |a0| * (β * |b0|) := by
      rw [abs_mul]
      exact mul_le_mul ha hb (abs_nonneg _) (mul_nonneg hα (abs_nonneg _))
    have h4 := abs_add ((a - a0) * b0 + a0 * (b - b0)) ((a - a0) * (b - b0))
    have h5 := abs_add ((a - a0) * b0) (a0 * (b - b0))
    have e2 : (α + β + α * β) * (|a0| * |b0|) =
        α * |a0| * |b0| + |a0| * (β * |b0|) + α * |a0| * (β * |b0|) := by ring
    linarith
  -- The rounded quotient of two values that are near `n0` and `d0` in relative terms.
  have f64_div_rel (n n0 d d0 α β δ : ℚ) (hn : |n - n0| ≤ α * |n0|) (hd : |d - d0| ≤ β * |d0|)
      (hα : 0 ≤ α) (hβ : 0 ≤ β) (hβ2 : β ≤ 1 / 8) (hα2 : α ≤ 1 / 8) (hd0 : d0 ≠ 0)
      (hδ : (α + β) * (1 + 2 * β) + (1 + (α + β) * (1 + 2 * β)) / 2 ^ 53 ≤ δ)
      (hr : n0 / d0 = 0 ∨ Magnitude 1000 (n0 / d0)) :
      ∃ r : ℚ, F64.div (fin n) (fin d) = fin r ∧ |r - n0 / d0| ≤ δ * |n0 / d0| := by
    clear f64_mul_rel
    have hd0pos : 0 < |d0| := abs_pos.mpr hd0
    have hdl : (1 - β) * |d0| ≤ |d| := by
      have h3 := abs_sub_abs_le_abs_sub d0 d
      rw [abs_sub_comm] at h3
      linarith only [h3, hd]
    have hdpos : 0 < |d| := lt_of_lt_of_le (mul_pos (by linarith only [hβ2]) hd0pos) hdl
    have hdne : d ≠ 0 := abs_pos.mp hdpos
    rw [rounded_op_facts_1.2.2.2.1 n d hdne]
    have hsm : (α + β) * (1 + 2 * β) ≤ 1 / 2 :=
      le_trans (mul_le_mul (show α + β ≤ 1 / 4 by linarith only [hα2, hβ2])
        (show 1 + 2 * β ≤ 5 / 4 by linarith only [hβ2]) (by linarith only [hβ]) (by norm_num))
        (by norm_num)
    apply relative_error_facts_1.2.2.2.2.2.2 (n / d) (n0 / d0) ((α + β) * (1 + 2 * β)) δ _ hsm hδ hr
    have e : n / d - n0 / d0 = ((n - n0) * d0 - n0 * (d - d0)) / (d * d0) := by
      field_simp
      ring
    rw [e, abs_div, abs_mul, abs_div, div_le_iff₀ (mul_pos hdpos hd0pos)]
    have h1 : |(n - n0) * d0| ≤ α * |n0| * |d0| := by
      rw [abs_mul]; exact mul_le_mul_of_nonneg_right hn (abs_nonneg _)
    have h2 : |n0 * (d - d0)| ≤ |n0| * (β * |d0|) := by
      rw [abs_mul]; exact mul_le_mul_of_nonneg_left hd (abs_nonneg _)
    have h3 := abs_sub ((n - n0) * d0) (n0 * (d - d0))
    have h4 : (α + β) * (1 + 2 * β) * (|n0| / |d0|) * (|d| * |d0|) =
        (α + β) * (1 + 2 * β) * |n0| * |d| := by
      field_simp
      ring
    rw [h4]
    have h5 : (α + β) * |n0| ≤ (α + β) * (1 + 2 * β) * |n0| * ((1 - β) * 1) := by
      have h6 : 1 ≤ (1 + 2 * β) * (1 - β) := by
        have := mul_nonneg hβ (show 0 ≤ 1 - 2 * β by linarith only [hβ2])
        linarith only [this]
      have h7 : 0 ≤ (α + β) * |n0| := mul_nonneg (by linarith only [hα, hβ]) (abs_nonneg _)
      have := mul_le_mul_of_nonneg_left h6 h7
      calc (α + β) * |n0| = (α + β) * |n0| * 1 := by ring
        _ ≤ (α + β) * |n0| * ((1 + 2 * β) * (1 - β)) := this
        _ = (α + β) * (1 + 2 * β) * |n0| * ((1 - β) * 1) := by ring
    have h8 : (α + β) * (1 + 2 * β) * |n0| * ((1 - β) * |d0|) ≤
        (α + β) * (1 + 2 * β) * |n0| * |d| :=
      mul_le_mul_of_nonneg_left hdl (by positivity)
    have h9 : (α + β) * |n0| * |d0| ≤ (α + β) * (1 + 2 * β) * |n0| * ((1 - β) * |d0|) := by
      have := mul_le_mul_of_nonneg_right h5 hd0pos.le
      calc (α + β) * |n0| * |d0| ≤ (α + β) * (1 + 2 * β) * |n0| * ((1 - β) * 1) * |d0| := this
        _ = (α + β) * (1 + 2 * β) * |n0| * ((1 - β) * |d0|) := by ring
    have h10 : (α + β) * |n0| * |d0| = α * |n0| * |d0| + |n0| * (β * |d0|) := by ring
    linarith only [h1, h2, h3, h8, h9, h10]
  have magnitude_or_mul (A B : ℕ) (a b : ℚ) (ha : a = 0 ∨ Magnitude A a) (hb : Magnitude B b)
      (h : A + B ≤ 1000) : a * b = 0 ∨ Magnitude 1000 (a * b) := by
    clear f64_mul_rel f64_div_rel
    rcases ha with h0 | h1
    · left; rw [h0, zero_mul]
    · right; exact relative_error_facts_1.2.2.2.1 _ _ _ h (relative_error_facts_1.1 A B a b h1 hb)
  have magnitude_or_div (A B : ℕ) (a b : ℚ) (ha : a = 0 ∨ Magnitude A a) (hb : Magnitude B b)
      (h : A + B ≤ 1000) : a / b = 0 ∨ Magnitude 1000 (a / b) := by
    clear f64_mul_rel f64_div_rel magnitude_or_mul
    rcases ha with h0 | h1
    · left; rw [h0, zero_div]
    · right; exact relative_error_facts_1.2.2.2.1 _ _ _ h (relative_error_facts_1.2.2.1 A B a b h1 hb)
  have exact_rel (a : ℚ) : |a - a| ≤ 0 * |a| := by simp
  -- The two quotients of `fovlize` against the common factor `W / (2 * f * t)`.
  have fovlize_core (W H : ℕ) (f t x y : ℚ) (hW1 : 0 < W) (hW2 : W ≤ 2 ^ 30) (hH1 : 0 < H)
      (hH2 : H ≤ 2 ^ 30) (hf : Magnitude 100 f) (ht : Magnitude 100 t)
      (hx : x = 0 ∨ Magnitude 100 x) (hy : y = 0 ∨ Magnitude 100 y) :
      ∃ a b : ℚ,
        F64.div (F64.mul (fin x) (fin W)) (F64.mul (F64.mul 2 (fin f)) (fin t)) = fin a ∧
        F64.div (F64.mul (fin y) (fin H))
          (F64.div (F64.mul (F64.mul (F64.mul 2 (fin f)) (fin t)) (fin H)) (fin W)) = fin b ∧
        |a - x * W / (2 * f * t)| ≤ 1 / 2 ^ 50 * |x * W / (2 * f * t)| ∧
        |b - y * H / (2 * f * t * H / W)| ≤ 1 / 2 ^ 50 * |y * H / (2 * f * t * H / W)| := by
    have mW := relative_error_facts_1.2.2.2.2.1 W hW1 hW2
    have mH := relative_error_facts_1.2.2.2.2.1 H hH1 hH2
    have m2 : Magnitude 1 (2 : ℚ) := by
      constructor <;> norm_num [abs_of_pos]
    have m2f := relative_error_facts_1.1 1 100 2 f m2 hf
    have m2ft := relative_error_facts_1.1 _ 100 _ t m2f ht
    have m2ftH := relative_error_facts_1.1 _ 30 _ (H : ℚ) m2ft mH
    have mfh := relative_error_facts_1.2.2.1 _ 30 _ (W : ℚ) m2ftH mW
    obtain ⟨p, hp, ep⟩ := f64_mul_rel 2 2 f f 0 0 (1 / 2 ^ 53) (exact_rel 2) (exact_rel f)
      (le_refl _) (by norm_num) (by norm_num)
      (Or.inr (relative_error_facts_1.2.2.2.1 _ _ _ (by norm_num) m2f))
    obtain ⟨fw, hfw, efw⟩ := f64_mul_rel p (2 * f) t t (1 / 2 ^ 53) 0 (21 / 10 / 2 ^ 53) ep
      (exact_rel t) (by norm_num) (by norm_num) (by norm_num)
      (Or.inr (relative_error_facts_1.2.2.2.1 _ _ _ (by norm_num) m2ft))
    obtain ⟨xw, hxw, exw⟩ := f64_mul_rel x x W W 0 0 (1 / 2 ^ 53) (exact_rel x) (exact_rel _)
      (le_refl _) (by norm_num) (by norm_num)
      (magnitude_or_mul 100 30 x W hx mW (by norm_num))
    obtain ⟨a, ha, ea⟩ := f64_div_rel xw (x * W) fw (2 * f * t) (1 / 2 ^ 53) (21 / 10 / 2 ^ 53)
      (1 / 2 ^ 50) exw efw (by norm_num) (by norm_num) (by norm_num) (by norm_num)
      (relative_error_facts_1.2.2.2.2.2.1 _ _ m2ft) (by norm_num)
      (magnitude_or_div 130 201 (x * W) (2 * f * t)
        (hx.imp (fun h => by rw [h, zero_mul]) (fun h => relative_error_facts_1.1 100 30 x W h mW)) m2ft
        (by norm_num))
    obtain ⟨fwh, hfwh, efwh⟩ := f64_mul_rel fw (2 * f * t) H H (21 / 10 / 2 ^ 53) 0
      (32 / 10 / 2 ^ 53) efw (exact_rel _) (by norm_num) (by norm_num) (by norm_num)
      (Or.inr (relative_error_facts_1.2.2.2.1 _ _ _ (by norm_num) m2ftH))
    obtain ⟨fh, hfh, efh⟩ := f64_div_rel fwh (2 * f * t * H) W W (32 / 10 / 2 ^ 53) 0
      (43 / 10 / 2 ^ 53) efwh (exact_rel _) (by norm_num) (le_refl _) (by norm_num) (by norm_num)
      (relative_error_facts_1.2.2.2.2.2.1 _ _ mW) (by norm_num)
      (Or.inr (relative_error_facts_1.2.2.2.1 _ _ _ (by norm_num) mfh))
    obtain ⟨yh, hyh, eyh⟩ := f64_mul_rel y y H H 0 0 (1 / 2 ^ 53) (exact_rel y) (exact_rel _)
      (le_refl _) (by norm_num) (by norm_num)
      (magnitude_or_mul 100 30 y H hy mH (by norm_num))
    obtain ⟨b, hb, eb⟩ := f64_div_rel yh (y * H) fh (2 * f * t * H / W) (1 / 2 ^ 53)
      (43 / 10 / 2 ^ 53) (1 / 2 ^ 50) eyh efh (by norm_num) (by norm_num) (by norm_num)
      (by norm_num) (relative_error_facts_1.2.2.2.2.2.1 _ _ mfh) (by norm_num)
      (magnitude_or_div 130 261 (y * H) (2 * f * t * H / W)
        (hy.imp (fun h => by rw [h, zero_mul]) (fun h => relative_error_facts_1.1 100 30 y H h mH)) mfh
        (by norm_num))
    refine ⟨a, b, ?_, ?_, ea, eb⟩
    · have e2 : (2 : JSNum) = fin 2 := rfl
      rw [hxw, e2, hp, hfw, ha]
    · have e2 : (2 : JSNum) = fin 2 := rfl
      rw [hyh, e2, hp, hfw, hfwh, hfh, hb]
  exact ⟨@f64_mul_rel, @f64_div_rel, @magnitude_or_mul, @magnitude_or_div, @exact_rel,
    @fovlize_core⟩

/-- C9, as amended.  In the arithmetic of the program, on a canvas of positive width and height
of at most `2 ^ 30` pixels, with a focus and a computed `tan(fov / 2)` of magnitude between
`2 ^ (-100)` and `2 ^ 100` and coordinates that are 0 or of such a magnitude, `fovlize` returns
finite coordinates that are the products of the given ones with the one factor
`width / (2 * focus * tan(fov / 2))`, each up to a relative error of `2 ^ (-50)`. -/
theorem fovlize_rounded (m : MathFns) (r : Renderer) (f φ t x y : ℚ)
    (hW1 : 0 < r.width) (hW2 : r.width ≤ 2 ^ 30) (hH1 : 0 < r.height) (hH2 : r.height ≤ 2 ^ 30)
    (hfocus : r.camera.focus = fin f) (hf0 : 0 < f) (hf1 : 1 / 2 ^ 100 ≤ f) (hf2 : f ≤ 2 ^ 100)
    (hfov : r.camera.fov = fin φ) (htan : F64.tan m (F64.div (fin φ) 2) = fin t)
    (ht1 : 1 / 2 ^ 100 ≤ |t|) (ht2 : |t| ≤ 2 ^ 100)
    (hx1 : x = 0 ∨ 1 / 2 ^ 100 ≤ |x|) (hx2 : |x| ≤ 2 ^ 100)
    (hy1 : y = 0 ∨ 1 / 2 ^ 100 ≤ |y|) (hy2 : |y| ≤ 2 ^ 100) :
    ∃ a b : ℚ, F64.fovlize m r [fin x, fin y] = [fin a, fin b] ∧
      |a - x * (r.width / (2 * f * t))| ≤ 1 / 2 ^ 50 * |x * (r.width / (2 * f * t))| ∧
      |b - y * (r.width / (2 * f * t))| ≤ 1 / 2 ^ 50 * |y * (r.width / (2 * f * t))| := by
  have hf : Magnitude 100 f := ⟨by rw [abs_of_pos hf0]; exact hf1, by rw [abs_of_pos hf0]; exact hf2⟩
  obtain ⟨a, b, ha, hb, ea, eb⟩ := relative_error_facts_2.2.2.2.2.2 r.width r.height f t x y hW1 hW2 hH1 hH2 hf
    ⟨ht1, ht2⟩ (hx1.imp id fun h => ⟨h, hx2⟩) (hy1.imp id fun h => ⟨h, hy2⟩)
  clear hf1 hf2 ht2 hx1 hx2 hy1 hy2 hW2 hH2
  have hWq : (r.width : ℚ) ≠ 0 := by exact_mod_cast hW1.ne'
  have hHq : (r.height : ℚ) ≠ 0 := by exact_mod_cast hH1.ne'
  have ht0 : t ≠ 0 := by
    intro h
    rw [h, abs_zero] at ht1
    have : (0 : ℚ) < 1 / 2 ^ 100 := by positivity
    linarith
  have e1 : x * (r.width / (2 * f * t)) = x * r.width / (2 * f * t) := by ring
  have e2 : y * (r.width / (2 * f * t)) = y * r.height / (2 * f * t * r.height / r.width) := by
    field_simp
    ring
  rw [e1, e2]
  refine ⟨a, b, ?_, ea, eb⟩
  simp only [F64.fovlize, hfocus, hfov, htan, nth, List.getD_cons_zero, List.getD_cons_succ, ha,
    hb]

/-- C9, counterexample: on a canvas of 640 by 480 pixels with the focus 1 and the field of view
`Math.PI / 4`, where `tan(fov / 2)` is the 64-bit float 0.41421356237309503, `fovlize` sends
the point (1, 1) to (772.5483399593904, 772.5483399593903): the two factors differ. -/
theorem fovlize_factors_differ :
    F64.tan steepMath (F64.div canvas640.camera.fov 2)
      = fin (3730904090310553 / 9007199254740992) ∧
    F64.fovlize steepMath canvas640 [fin 1, fin 1] =
      [fin (212356470701099 / 274877906944), fin (6795407062435167 / 8796093022208)] ∧
    (212356470701099 / 274877906944 : ℚ) ≠ 6795407062435167 / 8796093022208 :=
  ⟨by decide!, by decide!, by norm_num⟩

/-- C9, witness: the canvas of 640 by 480 pixels and the point (1, 1). -/
theorem fovlize_rounded_witness :
    ∃ a b : ℚ, F64.fovlize steepMath canvas640 [fin 1, fin 1] = [fin a, fin b] ∧
      |a - 1 * ((canvas640.width : ℚ) / (2 * 1 * (3730904090310553 / 9007199254740992)))| ≤
        1 / 2 ^ 50 * |1 * ((canvas640.width : ℚ) / (2 * 1 * (3730904090310553 / 9007199254740992)))| ∧
      |b - 1 * ((canvas640.width : ℚ) / (2 * 1 * (3730904090310553 / 9007199254740992)))| ≤
        1 / 2 ^ 50 * |1 * ((canvas640.width : ℚ) / (2 * 1 * (3730904090310553 / 9007199254740992)))| :=
  fovlize_rounded steepMath canvas640 1 (884279719003555 / 1125899906842624)
    (3730904090310553 / 9007199254740992) 1 1 (by decide!) (by decide!) (by decide!) (by decide!)
    (by decide!) (by norm_num) (by norm_num) (by norm_num) (by decide!) (by decide!)
    (by norm_num [abs_of_pos]) (by norm_num [abs_of_pos]) (Or.inr (by norm_num [abs_of_pos]))
    (by norm_num [abs_of_pos]) (Or.inr (by norm_num [abs_of_pos])) (by norm_num [abs_of_pos])

/-- Lemmas on `fillTriangleFast` in rounded arithmetic: its pixels, its accesses and the exchange
of vertices, proved in turn: `f64_fillPixel_eq`, `f64_fillPixel_sameSettings`, `store_other`,
`store_self`, `f64_fillPixel_other`, `f64_fillPixel_self`, `foldl_fst_sameSettings`,
`f64_fillTriangleFast_sameSettings`. -/
theorem rounded_fill_facts_1 :
    (∀ (m : MathFns) (v0 v1 v2 : ℤ × ℤ) (depths : ℚ × ℚ × ℚ) (rgb : List JSNum) (y x : ℤ) (s : Renderer × List Access),
      F64.fillPixel m v0 v1 v2 depths rgb (F64.div 1 (F64.area v0 v1 v2)) y x s =
      if F64.covers v0 v1 v2 x y = true then
        match getCell s.1.depthBuffer (y * s.1.width + x) with
        | none => (s.1, s.2 ++ [Access.depthRead (y * s.1.width + x)])
        | some old =>
          if JSNum.lt (F64.pixelDepth v0 v1 v2 depths x y) old then
            ({ s.1 with
              depthBuffer := setCell s.1.depthBuffer (y * s.1.width + x)
                (fround (F64.pixelDepth v0 v1 v2 depths x y))
              imageData :=
                setCell (setCell (setCell (setCell s.1.imageData (shl2 (y * s.1.width + x))
                  (toUint8Clamp (nth (F64.adjustColorByDepth m rgb
                    (F64.pixelDepth v0 v1 v2 depths x y) none) 0)))
                  (shl2 (y * s.1.width + x) + 1) (toUint8Clamp (nth (F64.adjustColorByDepth m rgb
                    (F64.pixelDepth v0 v1 v2 depths x y) none) 1)))
                  (shl2 (y * s.1.width + x) + 2) (toUint8Clamp (nth (F64.adjustColorByDepth m rgb
                    (F64.pixelDepth v0 v1 v2 depths x y) none) 2)))
                  (shl2 (y * s.1.width + x) + 3) 255 },
              s.2 ++ [Access.depthRead (y * s.1.width + x),
                Access.depthWrite (y * s.1.width + x),
                Access.imageWrite (shl2 (y * s.1.width + x)),
                Access.imageWrite (shl2 (y * s.1.width + x) + 1),
                Access.imageWrite (shl2 (y * s.1.width + x) + 2),
                Access.imageWrite (shl2 (y * s.1.width + x) + 3)])
          else (s.1, s.2 ++ [Access.depthRead (y * s.1.width + x)])
      else s) ∧
    (∀ (m : MathFns) (v0 v1 v2 : ℤ × ℤ) (depths : ℚ × ℚ × ℚ) (rgb : List JSNum) (ia : JSNum) (y x : ℤ) (s : Renderer × List Access),
      SameSettings s.1 (F64.fillPixel m v0 v1 v2 depths rgb ia y x s).1) ∧
    (∀ (r : Renderer) (N : ℕ) (_ : N ≤ 2 ^ 29) (j i : ℤ) (_ : 0 ≤ j) (_ : j < N) (_ : i ≠ j) (d : JSNum) (c0 c1 c2 c3 : ℕ),
      pixelAt { r with
        depthBuffer := setCell r.depthBuffer j d
        imageData := setCell (setCell (setCell (setCell r.imageData (shl2 j) c0)
          (shl2 j + 1) c1) (shl2 j + 2) c2) (shl2 j + 3) c3 } i = pixelAt r i) ∧
    (∀ (r : Renderer) (W N : ℕ) (_ : Keeps W N r) (_ : N ≤ 2 ^ 29) (j : ℤ) (_ : 0 ≤ j) (_ : j < N) (d : JSNum) (c0 c1 c2 c3 : ℕ),
      pixelAt { r with
        depthBuffer := setCell r.depthBuffer j d
        imageData := setCell (setCell (setCell (setCell r.imageData (shl2 j) c0)
          (shl2 j + 1) c1) (shl2 j + 2) c2) (shl2 j + 3) c3 } j
      = (some d, [some c0, some c1, some c2, some c3])) ∧
    (∀ (m : MathFns) (v0 v1 v2 : ℤ × ℤ) (depths : ℚ × ℚ × ℚ) (rgb : List JSNum) (ia : JSNum) (y x : ℤ) (s : Renderer × List Access) (W N : ℕ) (_ : Keeps W N s.1) (_ : N ≤ 2 ^ 29) (i : ℤ) (_ : i ≠ y * W + x),
      pixelAt (F64.fillPixel m v0 v1 v2 depths rgb ia y x s).1 i = pixelAt s.1 i) ∧
    (∀ (m : MathFns) (v0 v1 v2 : ℤ × ℤ) (depths : ℚ × ℚ × ℚ) (rgb : List JSNum) (y x : ℤ) (s : Renderer × List Access) (W N : ℕ) (_ : Keeps W N s.1) (_ : N ≤ 2 ^ 29),
      pixelAt (F64.fillPixel m v0 v1 v2 depths rgb (F64.div 1 (F64.area v0 v1 v2)) y x s).1
        (y * W + x)
      = F64.pixelStep m v0 v1 v2 depths rgb x y (pixelAt s.1 (y * W + x))) ∧
    (∀ {ι : Type} (r : Renderer) (step : Renderer × List Access → ι → Renderer × List Access) (_ : ∀ s q, SameSettings s.1 (step s q).1) (ps : List ι) (s : Renderer × List Access) (_ : SameSettings r s.1),
      SameSettings r (ps.foldl step s).1) ∧
    (∀ (m : MathFns) (r : Renderer) (v0 v1 v2 : ℤ × ℤ) (depths : ℚ × ℚ × ℚ) (rgb : List JSNum),
      SameSettings r (F64.fillTriangleFast m r v0 v1 v2 depths rgb)) := by
  have f64_fillPixel_eq (m : MathFns) (v0 v1 v2 : ℤ × ℤ) (depths : ℚ × ℚ × ℚ)
      (rgb : List JSNum) (y x : ℤ) (s : Renderer × List Access) :
      F64.fillPixel m v0 v1 v2 depths rgb (F64.div 1 (F64.area v0 v1 v2)) y x s =
        if F64.covers v0 v1 v2 x y = true then
          match getCell s.1.depthBuffer (y * s.1.width + x) with
          | none => (s.1, s.2 ++ [Access.depthRead (y * s.1.width + x)])
          | some old =>
            if JSNum.lt (F64.pixelDepth v0 v1 v2 depths x y) old then
              ({ s.1 with
                depthBuffer := setCell s.1.depthBuffer (y * s.1.width + x)
                  (fround (F64.pixelDepth v0 v1 v2 depths x y))
                imageData :=
                  setCell (setCell (setCell (setCell s.1.imageData (shl2 (y * s.1.width + x))
                    (toUint8Clamp (nth (F64.adjustColorByDepth m rgb
                      (F64.pixelDepth v0 v1 v2 depths x y) none) 0)))
                    (shl2 (y * s.1.width + x) + 1) (toUint8Clamp (nth (F64.adjustColorByDepth m rgb
                      (F64.pixelDepth v0 v1 v2 depths x y) none) 1)))
                    (shl2 (y * s.1.width + x) + 2) (toUint8Clamp (nth (F64.adjustColorByDepth m rgb
                      (F64.pixelDepth v0 v1 v2 depths x y) none) 2)))
                    (shl2 (y * s.1.width + x) + 3) 255 },
                s.2 ++ [Access.depthRead (y * s.1.width + x),
                  Access.depthWrite (y * s.1.width + x),
                  Access.imageWrite (shl2 (y * s.1.width + x)),
                  Access.imageWrite (shl2 (y * s.1.width + x) + 1),
                  Access.imageWrite (shl2 (y * s.1.width + x) + 2),
                  Access.imageWrite (shl2 (y * s.1.width + x) + 3)])
            else (s.1, s.2 ++ [Access.depthRead (y * s.1.width + x)])
        else s := rfl
  have f64_fillPixel_sameSettings (m : MathFns) (v0 v1 v2 : ℤ × ℤ) (depths : ℚ × ℚ × ℚ)
      (rgb : List JSNum) (ia : JSNum) (y x : ℤ) (s : Renderer × List Access) :
      SameSettings s.1 (F64.fillPixel m v0 v1 v2 depths rgb ia y x s).1 := by
    clear f64_fillPixel_eq
    unfold F64.fillPixel
    simp only
    split
    · split
      · exact SameSettings.refl _
      · split
        · exact ⟨rfl, rfl, rfl, rfl, rfl, rfl, rfl, by simp, by simp⟩
        · exact SameSettings.refl _
    · exact SameSettings.refl _
  -- What a passed depth test stores at the index `j`, seen at another index `i`.
  have store_other (r : Renderer) (N : ℕ) (hN : N ≤ 2 ^ 29) (j i : ℤ)
      (hj0 : 0 ≤ j) (hjN : j < N) (hi : i ≠ j) (d : JSNum) (c0 c1 c2 c3 : ℕ) :
      pixelAt { r with
          depthBuffer := setCell r.depthBuffer j d
          imageData := setCell (setCell (setCell (setCell r.imageData (shl2 j) c0)
            (shl2 j + 1) c1) (shl2 j + 2) c2) (shl2 j + 3) c3 } i = pixelAt r i := by
    clear f64_fillPixel_eq f64_fillPixel_sameSettings
    have hlt : j < 2 ^ 29 := by
      have : (N : ℤ) ≤ 2 ^ 29 := by exact_mod_cast hN
      omega
    rw [shl2_eq _ hj0 hlt]
    simp only [pixelAt, getCell_setCell]
    have e0 : ¬ (j = i) := fun h => hi h.symm
    simp only [e0, if_false]
    congr 1
    have a1 : ∀ k k' : ℤ, 0 ≤ k → k < 4 → 0 ≤ k' → k' < 4 → ¬ (4 * j + k = 4 * i + k') := by
      intro k k' _ _ _ _ hh; apply hi; omega
    have b0 := a1 0 0 (by norm_num) (by norm_num) (by norm_num) (by norm_num)
    have b1 := a1 0 1 (by norm_num) (by norm_num) (by norm_num) (by norm_num)
    have b2 := a1 0 2 (by norm_num) (by norm_num) (by norm_num) (by norm_num)
    have b3 := a1 0 3 (by norm_num) (by norm_num) (by norm_num) (by norm_num)
    have c0 := a1 1 0 (by norm_num) (by norm_num) (by norm_num) (by norm_num)
    have c1 := a1 1 1 (by norm_num) (by norm_num) (by norm_num) (by norm_num)
    have c2 := a1 1 2 (by norm_num) (by norm_num) (by norm_num) (by norm_num)
    have c3 := a1 1 3 (by norm_num) (by norm_num) (by norm_num) (by norm_num)
    have d0 := a1 2 0 (by norm_num) (by norm_num) (by norm_num) (by norm_num)
    have d1 := a1 2 1 (by norm_num) (by norm_num) (by norm_num) (by norm_num)
    have d2 := a1 2 2 (by norm_num) (by norm_num) (by norm_num) (by norm_num)
    have d3 := a1 2 3 (by norm_num) (by norm_num) (by norm_num) (by norm_num)
    have e0 := a1 3 0 (by norm_num) (by norm_num) (by norm_num) (by norm_num)
    have e1 := a1 3 1 (by norm_num) (by norm_num) (by norm_num) (by norm_num)
    have e2 := a1 3 2 (by norm_num) (by norm_num) (by norm_num) (by norm_num)
    have e3 := a1 3 3 (by norm_num) (by norm_num) (by norm_num) (by norm_num)
    simp only [add_zero] at b0 b1 b2 b3 c0 d0 e0
    simp only [b0, b1, b2, b3, c0, c1, c2, c3, d0, d1, d2, d3, e0, e1, e2, e3, if_false]
  -- What a passed depth test stores at the index `j`, seen at `j`.
  have store_self (r : Renderer) (W N : ℕ) (h : Keeps W N r) (hN : N ≤ 2 ^ 29) (j : ℤ)
      (hj0 : 0 ≤ j) (hjN : j < N) (d : JSNum) (c0 c1 c2 c3 : ℕ) :
      pixelAt { r with
          depthBuffer := setCell r.depthBuffer j d
          imageData := setCell (setCell (setCell (setCell r.imageData (shl2 j) c0)
            (shl2 j + 1) c1) (shl2 j + 2) c2) (shl2 j + 3) c3 } j
        = (some d, [some c0, some c1, some c2, some c3]) := by
    clear f64_fillPixel_eq f64_fillPixel_sameSettings store_other
    obtain ⟨h1, h2, h3⟩ := h
    have hlt : j < 2 ^ 29 := by
      have : (N : ℤ) ≤ 2 ^ 29 := by exact_mod_cast hN
      omega
    rw [shl2_eq _ hj0 hlt]
    have hd : (getCell r.depthBuffer j).isSome := by
      rw [getCell_isSome]; omega
    have hk : ∀ k : ℤ, 0 ≤ k → k < 4 → (getCell r.imageData (4 * j + k)).isSome := by
      intro k hk0 hk4
      rw [getCell_isSome]
      omega
    have g0 := hk 0 (by norm_num) (by norm_num)
    have g1 := hk 1 (by norm_num) (by norm_num)
    have g2 := hk 2 (by norm_num) (by norm_num)
    have g3 := hk 3 (by norm_num) (by norm_num)
    rw [add_zero] at g0
    obtain ⟨o, ho⟩ := Option.isSome_iff_exists.mp hd
    obtain ⟨a0, ha0⟩ := Option.isSome_iff_exists.mp g0
    obtain ⟨a1, ha1⟩ := Option.isSome_iff_exists.mp g1
    obtain ⟨a2, ha2⟩ := Option.isSome_iff_exists.mp g2
    obtain ⟨a3, ha3⟩ := Option.isSome_iff_exists.mp g3
    simp only [pixelAt, getCell_setCell, ho, ha0, ha1, ha2, ha3, if_true, Option.map_some']
    have n1 : ¬ (4 * j + 1 = 4 * j) := by omega
    have n2 : ¬ (4 * j + 2 = 4 * j) := by omega
    have n3 : ¬ (4 * j + 3 = 4 * j) := by omega
    have n4 : ¬ (4 * j + 2 = 4 * j + 1) := by omega
    have n5 : ¬ (4 * j + 3 = 4 * j + 1) := by omega
    have n6 : ¬ (4 * j + 3 = 4 * j + 2) := by omega
    have n7 : ¬ (4 * j = 4 * j + 1) := by omega
    have n8 : ¬ (4 * j = 4 * j + 2) := by omega
    have n9 : ¬ (4 * j = 4 * j + 3) := by omega
    have n10 : ¬ (4 * j + 1 = 4 * j + 2) := by omega
    have n11 : ¬ (4 * j + 1 = 4 * j + 3) := by omega
    have n12 : ¬ (4 * j + 2 = 4 * j + 3) := by omega
    simp only [n1, n2, n3, n4, n5, n6, n7, n8, n9, n10, n11, n12, if_false, ha0, ha1, ha2,
      ha3, Option.map_some']
  have f64_fillPixel_other (m : MathFns) (v0 v1 v2 : ℤ × ℤ) (depths : ℚ × ℚ × ℚ)
      (rgb : List JSNum) (ia : JSNum) (y x : ℤ) (s : Renderer × List Access) (W N : ℕ)
      (h : Keeps W N s.1) (hN : N ≤ 2 ^ 29) (i : ℤ) (hi : i ≠ y * W + x) :
      pixelAt (F64.fillPixel m v0 v1 v2 depths rgb ia y x s).1 i = pixelAt s.1 i := by
    clear f64_fillPixel_eq f64_fillPixel_sameSettings store_self
    have h1 := h.1
    unfold F64.fillPixel
    simp only [h1]
    split
    · cases hc : getCell s.1.depthBuffer (y * W + x) with
      | none => rfl
      | some old =>
        simp only
        split
        · have hs := (getCell_isSome s.1.depthBuffer (y * W + x)).mp (by simp [hc])
          exact store_other s.1 N hN _ i hs.1 (by rw [← h.2.1]; exact hs.2) hi _ _ _ _ _
        · rfl
    · rfl
  have f64_fillPixel_self (m : MathFns) (v0 v1 v2 : ℤ × ℤ) (depths : ℚ × ℚ × ℚ)
      (rgb : List JSNum) (y x : ℤ) (s : Renderer × List Access) (W N : ℕ) (h : Keeps W N s.1)
      (hN : N ≤ 2 ^ 29) :
      pixelAt (F64.fillPixel m v0 v1 v2 depths rgb (F64.div 1 (F64.area v0 v1 v2)) y x s).1
          (y * W + x)
        = F64.pixelStep m v0 v1 v2 depths rgb x y (pixelAt s.1 (y * W + x)) := by
    clear f64_fillPixel_sameSettings store_other f64_fillPixel_other
    have h1 := h.1
    rw [f64_fillPixel_eq, h1]
    unfold F64.pixelStep
    cases hc : getCell s.1.depthBuffer (y * W + x) with
    | none =>
      have : (pixelAt s.1 (y * W + x)).1 = none := hc
      simp only [this]
      split <;> rfl
    | some old =>
      have : (pixelAt s.1 (y * W + x)).1 = some old := hc
      simp only [this]
      by_cases hcov : F64.covers v0 v1 v2 x y = true
      · by_cases hlt : JSNum.lt (F64.pixelDepth v0 v1 v2 depths x y) old = true
        · simp only [hcov, hlt, if_true, and_self]
          have hs := (getCell_isSome s.1.depthBuffer (y * W + x)).mp (by simp [hc])
          exact store_self s.1 W N h hN _ hs.1 (by rw [← h.2.1]; exact hs.2) _ _ _ _ _
        · simp only [hcov, hlt, if_true, and_false, if_false]
          rfl
      · simp only [hcov, Bool.false_eq_true, if_false, false_and]
  have foldl_fst_sameSettings {ι : Type} (r : Renderer)
      (step : Renderer × List Access → ι → Renderer × List Access)
      (hstep : ∀ s q, SameSettings s.1 (step s q).1) (ps : List ι) (s : Renderer × List Access)
      (h : SameSettings r s.1) : SameSettings r (ps.foldl step s).1 := by
    clear f64_fillPixel_eq f64_fillPixel_sameSettings store_other store_self f64_fillPixel_other f64_fillPixel_self
    induction ps generalizing s with
    | nil => exact h
    | cons q rest ih => exact ih _ (h.trans (hstep s q))
  have f64_fillTriangleFast_sameSettings (m : MathFns) (r : Renderer) (v0 v1 v2 : ℤ × ℤ)
      (depths : ℚ × ℚ × ℚ) (rgb : List JSNum) :
      SameSettings r (F64.fillTriangleFast m r v0 v1 v2 depths rgb) := by
    clear f64_fillPixel_eq store_other store_self f64_fillPixel_other f64_fillPixel_self
    unfold F64.fillTriangleFast F64.fillTriangleFastLog
    simp only
    split
    · exact SameSettings.refl r
    · split
      · exact SameSettings.refl r
      · apply foldl_fst_sameSettings r _ _ _ _ (SameSettings.refl r)
        intro s y
        apply foldl_fst_sameSettings s.1 _ _ _ _ (SameSettings.refl _)
        intro s x
        exact f64_fillPixel_sameSettings _ _ _ _ _ _ _ _ _ _
  exact ⟨@f64_fillPixel_eq, @f64_fillPixel_sameSettings, @store_other, @store_self,
    @f64_fillPixel_other, @f64_fillPixel_self, @foldl_fst_sameSettings,
    @f64_fillTriangleFast_sameSettings⟩

/-- Lemmas on `fillTriangleFast` in rounded arithmetic: its pixels, its accesses and the exchange
of vertices, proved in turn: `f64_fillTriangleFast_pixelAt`, `f64_fillTriangleFast_fresh`,
`foldl_mem_inv`, `shl2_le`, `f64_fillPixel_inBounds`, `f64Mag_nat`, `float64Round_int`,
`f64_sub_int`. -/
theorem rounded_fill_facts_2 :
    (∀ (m : MathFns) (r : Renderer) (v0 v1 v2 : ℤ × ℤ) (depths : ℚ × ℚ × ℚ) (rgb : List JSNum) (_ : Sized r) (x y : ℤ) (_ : 0 ≤ x) (_ : x < r.width),
      pixelAt (F64.fillTriangleFast m r v0 v1 v2 depths rgb) (y * r.width + x) =
      if inBox r.width r.height v0 v1 v2 x y ∧ F64.degenerate v0 v1 v2 = false then
        F64.pixelStep m v0 v1 v2 depths rgb x y (pixelAt r (y * r.width + x))
      else pixelAt r (y * r.width + x)) ∧
    (∀ (m : MathFns) (r : Renderer) (_ : Sized r) (v0 v1 v2 : ℤ × ℤ) (depths : ℚ × ℚ × ℚ) (rgb : List JSNum) (x y : ℤ) (_ : 0 ≤ x) (_ : x < r.width) (_ : 0 ≤ y) (_ : y < r.height),
      pixelAt (F64.fillTriangleFast m (resetBuffers r) v0 v1 v2 depths rgb) (y * r.width + x) =
      if inBox r.width r.height v0 v1 v2 x y ∧ F64.degenerate v0 v1 v2 = false ∧
          F64.covers v0 v1 v2 x y = true ∧
          JSNum.lt (F64.pixelDepth v0 v1 v2 depths x y) JSNum.pinf = true
      then F64.shaded m rgb (F64.pixelDepth v0 v1 v2 depths x y)
      else (some JSNum.pinf, [some 0, some 0, some 0, some 255])) ∧
    (∀ {σ α : Type} (f : σ → α → σ) (P : σ → Prop) (l : List α) (_ : ∀ s a, a ∈ l → P s → P (f s a)) (s : σ) (_ : P s),
      P (l.foldl f s)) ∧
    (∀ (i : ℤ) (_ : 0 ≤ i),
      shl2 i ≤ 4 * i) ∧
    (∀ (m : MathFns) (v0 v1 v2 : ℤ × ℤ) (depths : ℚ × ℚ × ℚ) (rgb : List JSNum) (ia : JSNum) (y x : ℤ) (s : Renderer × List Access) (W H : ℕ) (_ : s.1.width = W) (_ : 0 ≤ x) (_ : x < W) (_ : 0 ≤ y) (_ : y < H) (_ : ∀ a ∈ s.2, Access.InBounds W H a),
      ∀ a ∈ (F64.fillPixel m v0 v1 v2 depths rgb ia y x s).2, Access.InBounds W H a) ∧
    (∀ (n : ℕ) (_ : 0 < n) (_ : n ≤ 2 ^ 53),
      f64Mag (n : ℚ) = n) ∧
    (∀ (n : ℤ) (_ : |n| ≤ 2 ^ 53),
      float64Round (n : ℚ) = fin (n : ℚ)) ∧
    (∀ (a b : ℤ) (_ : |a - b| ≤ 2 ^ 53),
      F64.sub (fin (a : ℚ)) (fin (b : ℚ)) = fin ((a - b : ℤ) : ℚ)) := by
  -- What `fillTriangleFast` leaves at a pixel of the canvas, every operation rounded: the loop
  -- body ran once at the pixel when it lies in the clamped bounding box of a triangle that
  -- passes the test on `area`, and the pixel is untouched otherwise.
  have f64_fillTriangleFast_pixelAt (m : MathFns) (r : Renderer) (v0 v1 v2 : ℤ × ℤ)
      (depths : ℚ × ℚ × ℚ) (rgb : List JSNum) (hs : Sized r) (x y : ℤ)
      (hx : 0 ≤ x) (hxW : x < r.width) :
      pixelAt (F64.fillTriangleFast m r v0 v1 v2 depths rgb) (y * r.width + x) =
        if inBox r.width r.height v0 v1 v2 x y ∧ F64.degenerate v0 v1 v2 = false then
          F64.pixelStep m v0 v1 v2 depths rgb x y (pixelAt r (y * r.width + x))
        else pixelAt r (y * r.width + x) := by
    unfold F64.fillTriangleFast F64.fillTriangleFastLog
    simp only
    split
    · rename_i hempty
      have : ¬ inBox r.width r.height v0 v1 v2 x y := by
        unfold inBox
        intro h
        rcases hempty with h1 | h1 <;> omega
      simp [this]
    · rename_i hbox
      split
      · rename_i harea
        have : F64.degenerate v0 v1 v2 = true := harea
        simp [this]
      · rename_i harea
        have hne : F64.degenerate v0 v1 v2 = false := by
          simpa [F64.degenerate, F64.area] using harea
        rw [foldl_foldl_product]
        change pixelAt (List.foldl (fun s (p : ℤ × ℤ) => F64.fillPixel m v0 v1 v2 depths rgb
          (F64.div 1 (F64.area v0 v1 v2)) p.1 p.2 s) (r, []) _).1 _ = _
        have hInv : ∀ (s : Renderer × List Access) (q : ℤ × ℤ), SameSettings r s.1 →
            SameSettings r ((fun s (p : ℤ × ℤ) => F64.fillPixel m v0 v1 v2 depths rgb
              (F64.div 1 (F64.area v0 v1 v2)) p.1 p.2 s) s q).1 :=
          fun s q h => h.trans (rounded_fill_facts_1.2.1 _ _ _ _ _ _ _ _ _ _)
        have hframe : ∀ (s : Renderer × List Access) (q : ℤ × ℤ),
            q ∈ (loopRange (max 0 (min v0.2 (min v1.2 v2.2)))
              (min ((r.height : ℤ) - 1) (max v0.2 (max v1.2 v2.2)))) ×ˢ
              (loopRange (max 0 (min v0.1 (min v1.1 v2.1)))
                (min ((r.width : ℤ) - 1) (max v0.1 (max v1.1 v2.1)))) →
            q ≠ (y, x) → SameSettings r s.1 →
            pixelAt ((fun s (p : ℤ × ℤ) => F64.fillPixel m v0 v1 v2 depths rgb
              (F64.div 1 (F64.area v0 v1 v2)) p.1 p.2 s) s q).1 (y * r.width + x)
              = pixelAt s.1 (y * r.width + x) := by
          rintro s ⟨y', x'⟩ hq hqne hss
          rw [List.mem_product, mem_loopRange, mem_loopRange] at hq
          apply rounded_fill_facts_1.2.2.2.2.1 m v0 v1 v2 depths rgb _ y' x' s r.width (r.width * r.height)
            (hss.keeps hs) hs.small
          intro heq
          apply hqne
          have := index_inj r.width x y x' y' hx hxW (by omega) (by omega) heq
          rw [this.1, this.2]
        have hlocal : ∀ s s' : Renderer × List Access, SameSettings r s.1 → SameSettings r s'.1 →
            pixelAt s.1 (y * r.width + x) = pixelAt s'.1 (y * r.width + x) →
            pixelAt ((fun s (p : ℤ × ℤ) => F64.fillPixel m v0 v1 v2 depths rgb
              (F64.div 1 (F64.area v0 v1 v2)) p.1 p.2 s) s (y, x)).1 (y * r.width + x)
              = pixelAt ((fun s (p : ℤ × ℤ) => F64.fillPixel m v0 v1 v2 depths rgb
              (F64.div 1 (F64.area v0 v1 v2)) p.1 p.2 s) s' (y, x)).1 (y * r.width + x) := by
          intro s s' hss hss' heq
          simp only
          rw [rounded_fill_facts_1.2.2.2.2.2.1 m v0 v1 v2 depths rgb y x s r.width _ (hss.keeps hs) hs.small,
            rounded_fill_facts_1.2.2.2.2.2.1 m v0 v1 v2 depths rgb y x s' r.width _ (hss'.keeps hs) hs.small,
            heq]
        by_cases hin : inBox r.width r.height v0 v1 v2 x y
        · simp only [hin, hne, and_self, if_true]
          have hmem : (y, x) ∈ (loopRange (max 0 (min v0.2 (min v1.2 v2.2)))
              (min ((r.height : ℤ) - 1) (max v0.2 (max v1.2 v2.2)))) ×ˢ
              (loopRange (max 0 (min v0.1 (min v1.1 v2.1)))
                (min ((r.width : ℤ) - 1) (max v0.1 (max v1.1 v2.1)))) := by
            rw [List.mem_product, mem_loopRange, mem_loopRange]
            unfold inBox at hin
            omega
          have := foldl_obs_mem (fun s (p : ℤ × ℤ) => F64.fillPixel m v0 v1 v2 depths rgb
              (F64.div 1 (F64.area v0 v1 v2)) p.1 p.2 s)
            (fun s => pixelAt s.1 (y * r.width + x))
            (fun s => SameSettings r s.1) hInv (y, x) hlocal _ hframe
            ((nodup_loopRange _ _).product (nodup_loopRange _ _)) hmem (r, [])
            (SameSettings.refl r)
          simp only at this
          rw [rounded_fill_facts_1.2.2.2.2.2.1 m v0 v1 v2 depths rgb y x (r, []) r.width _
            ((SameSettings.refl r).keeps hs) hs.small] at this
          exact this
        · simp only [hin, false_and, if_false]
          have hmem : (y, x) ∉ (loopRange (max 0 (min v0.2 (min v1.2 v2.2)))
              (min ((r.height : ℤ) - 1) (max v0.2 (max v1.2 v2.2)))) ×ˢ
              (loopRange (max 0 (min v0.1 (min v1.1 v2.1)))
                (min ((r.width : ℤ) - 1) (max v0.1 (max v1.1 v2.1)))) := by
            rw [List.mem_product, mem_loopRange, mem_loopRange]
            unfold inBox at hin
            omega
          exact foldl_obs_not_mem (fun s (p : ℤ × ℤ) => F64.fillPixel m v0 v1 v2 depths rgb
              (F64.div 1 (F64.area v0 v1 v2)) p.1 p.2 s)
            (fun s => pixelAt s.1 (y * r.width + x))
            (fun s => SameSettings r s.1) hInv (y, x) _ hframe hmem (r, [])
            (SameSettings.refl r)
  -- One triangle on reset buffers, every operation rounded: a covered pixel of the clamped box
  -- holds the stored depth and the shade of the triangle when its depth is below `Infinity`, any
  -- other pixel of the canvas is as the reset left it.
  have f64_fillTriangleFast_fresh (m : MathFns) (r : Renderer) (hs : Sized r)
      (v0 v1 v2 : ℤ × ℤ) (depths : ℚ × ℚ × ℚ) (rgb : List JSNum) (x y : ℤ) (hx : 0 ≤ x)
      (hxW : x < r.width) (hy : 0 ≤ y) (hyH : y < r.height) :
      pixelAt (F64.fillTriangleFast m (resetBuffers r) v0 v1 v2 depths rgb) (y * r.width + x) =
        if inBox r.width r.height v0 v1 v2 x y ∧ F64.degenerate v0 v1 v2 = false ∧
            F64.covers v0 v1 v2 x y = true ∧
            JSNum.lt (F64.pixelDepth v0 v1 v2 depths x y) JSNum.pinf = true
        then F64.shaded m rgb (F64.pixelDepth v0 v1 v2 depths x y)
        else (some JSNum.pinf, [some 0, some 0, some 0, some 255]) := by
    have hs' : Sized (resetBuffers r) := (fresh_buffer_facts.1 r).sized hs
    have hidx : y * (r.width : ℤ) + x < r.width * r.height := by
      have : (y + 1) * (r.width : ℤ) ≤ r.height * r.width :=
        mul_le_mul_of_nonneg_right (by omega) (by positivity)
      nlinarith
    have hidx0 : 0 ≤ y * (r.width : ℤ) + x := by positivity
    have := f64_fillTriangleFast_pixelAt m (resetBuffers r) v0 v1 v2 depths rgb hs' x y hx hxW
    simp only [show (resetBuffers r).width = r.width from rfl,
      show (resetBuffers r).height = r.height from rfl] at this
    rw [this, fresh_buffer_facts.2.1 r hs _ hidx0 hidx]
    unfold F64.pixelStep
    simp only
    by_cases h1 : inBox r.width r.height v0 v1 v2 x y <;>
      by_cases h2 : F64.degenerate v0 v1 v2 = false <;>
      by_cases h3 : F64.covers v0 v1 v2 x y = true <;>
      by_cases h4 : JSNum.lt (F64.pixelDepth v0 v1 v2 depths x y) JSNum.pinf = true <;>
      simp [h1, h2, h3, h4]
  have foldl_mem_inv {σ α : Type} (f : σ → α → σ) (P : σ → Prop) (l : List α)
      (h : ∀ s a, a ∈ l → P s → P (f s a)) (s : σ) (hs : P s) : P (l.foldl f s) := by
    clear f64_fillTriangleFast_pixelAt f64_fillTriangleFast_fresh
    induction l generalizing s with
    | nil => exact hs
    | cons a rest ih =>
      exact ih (fun s b hb => h s b (List.mem_cons_of_mem _ hb)) _
        (h s a (List.mem_cons_self _ _) hs)
  have shl2_le (i : ℤ) (h0 : 0 ≤ i) : shl2 i ≤ 4 * i := by
    clear f64_fillTriangleFast_pixelAt f64_fillTriangleFast_fresh foldl_mem_inv
    unfold shl2
    omega
  -- The accesses of the loop body at a pixel of the canvas stay inside the buffers.
  have f64_fillPixel_inBounds (m : MathFns) (v0 v1 v2 : ℤ × ℤ) (depths : ℚ × ℚ × ℚ)
      (rgb : List JSNum) (ia : JSNum) (y x : ℤ) (s : Renderer × List Access) (W H : ℕ)
      (hW : s.1.width = W) (hx0 : 0 ≤ x) (hx1 : x < W) (hy0 : 0 ≤ y) (hy1 : y < H)
      (h : ∀ a ∈ s.2, Access.InBounds W H a) :
      ∀ a ∈ (F64.fillPixel m v0 v1 v2 depths rgb ia y x s).2, Access.InBounds W H a := by
    clear f64_fillTriangleFast_pixelAt f64_fillTriangleFast_fresh foldl_mem_inv
    have hidx : y * (W : ℤ) + x < (W : ℤ) * H := by
      have : (y + 1) * (W : ℤ) ≤ H * W := mul_le_mul_of_nonneg_right (by omega) (by positivity)
      nlinarith
    have hidx0 : 0 ≤ y * (W : ℤ) + x := by positivity
    have hsh := shl2_le _ hidx0
    have hread : Access.InBounds W H (Access.depthRead (y * (W : ℤ) + x)) := ⟨hidx0, hidx⟩
    have hwrite : Access.InBounds W H (Access.depthWrite (y * (W : ℤ) + x)) := ⟨hidx0, hidx⟩
    have himg : ∀ k : ℤ, k < 4 →
        Access.InBounds W H (Access.imageWrite (shl2 (y * (W : ℤ) + x) + k)) := by
      intro k hk
      show shl2 (y * (W : ℤ) + x) + k < 4 * (W : ℤ) * H
      have e : 4 * (W : ℤ) * H = 4 * ((W : ℤ) * H) := by ring
      rw [e]
      omega
    have himg0 : Access.InBounds W H (Access.imageWrite (shl2 (y * (W : ℤ) + x))) := by
      have := himg 0 (by norm_num)
      rwa [add_zero] at this
    unfold F64.fillPixel
    simp only [hW]
    split
    · split
      · intro a ha
        rw [List.mem_append, List.mem_singleton] at ha
        rcases ha with ha | rfl
        · exact h a ha
        · exact hread
      · split
        · intro a ha
          simp only [List.mem_append, List.mem_cons, List.mem_singleton, List.not_mem_nil,
            or_false] at ha
          rcases ha with ha | rfl | rfl | rfl | rfl | rfl | rfl
          · exact h a ha
          · exact hread
          · exact hwrite
          · exact himg0
          · exact himg 1 (by norm_num)
          · exact himg 2 (by norm_num)
          · exact himg 3 (by norm_num)
        · intro a ha
          rw [List.mem_append, List.mem_singleton] at ha
          rcases ha with ha | rfl
          · exact h a ha
          · exact hread
    · exact h
  have f64Mag_nat (n : ℕ) (h0 : 0 < n) (h : n ≤ 2 ^ 53) : f64Mag (n : ℚ) = n := by
    clear f64_fillTriangleFast_pixelAt f64_fillTriangleFast_fresh foldl_mem_inv shl2_le f64_fillPixel_inBounds
    have hq : (0 : ℚ) < n := by exact_mod_cast h0
    have h1 : (1 : ℚ) ≤ n := by exact_mod_cast h0
    have h2 : (n : ℚ) ≤ 2 ^ 53 := by exact_mod_cast h
    have hL0 : 0 ≤ Int.log 2 (n : ℚ) := float64_facts_1.2.2.1 _ 0 hq (by simpa using h1)
    have hL1 : Int.log 2 (n : ℚ) < 54 :=
      float64_facts_1.2.2.2.1 _ 54 hq (lt_of_le_of_lt h2 (by norm_num))
    have he : f64Exp (n : ℚ) = Int.log 2 (n : ℚ) := by
      rw [float64_facts_1.2.2.2.2.1 _ hq]
      omega
    generalize Int.log 2 (n : ℚ) = L at hL0 hL1 he
    by_cases hc : L ≤ 52
    · apply float64_facts_3.2.2.1 _ L ((n : ℤ) * 2 ^ (52 - L).toNat) he
      have e1 : ((2 : ℚ) ^ (52 - L).toNat) = 2 ^ (52 - L) := by
        rw [← zpow_natCast, Int.toNat_of_nonneg (by omega)]
      push_cast
      rw [e1, mul_assoc, ← zpow_add₀ (by norm_num : (2 : ℚ) ≠ 0)]
      have : 52 - L + (L - 52) = 0 := by ring
      rw [this, zpow_zero, mul_one]
    · have hL : L = 53 := by omega
      subst hL
      have h3 : (2 : ℚ) ^ (53 : ℤ) ≤ n := by
        have := float64_facts_2.2.2.2.2.2.2.1 hq (by rw [he]; norm_num)
        rwa [he] at this
      have e53 : (2 : ℚ) ^ (53 : ℤ) = 2 ^ 53 := by norm_num
      rw [e53] at h3
      have h4 : (n : ℚ) = 2 ^ 53 := le_antisymm h2 h3
      apply float64_facts_3.2.2.1 _ 53 (2 ^ 52) he
      rw [h4]
      norm_num
  -- An integer of magnitude at most `2 ^ 53` is a 64-bit float.
  have float64Round_int (n : ℤ) (h : |n| ≤ 2 ^ 53) : float64Round (n : ℚ) = fin (n : ℚ) := by
    clear f64_fillTriangleFast_pixelAt f64_fillTriangleFast_fresh foldl_mem_inv shl2_le f64_fillPixel_inBounds
    have hb : |(n : ℚ)| ≤ 2 ^ 1023 := by
      have : |(n : ℚ)| ≤ 2 ^ 53 := by exact_mod_cast h
      exact le_trans this (pow_le_pow_right₀ (by norm_num) (by norm_num))
    rw [float64_facts_4.2.2.2.2.2.1 _ hb]
    clear hb
    refine congrArg JSNum.fin ?_
    rcases lt_trichotomy n 0 with hn | hn | hn
    · have hpos : 0 < (-n).toNat := by omega
      have hle : (-n).toNat ≤ 2 ^ 53 := by
        have : |n| = -n := abs_of_neg hn
        omega
      have hm := f64Mag_nat (-n).toNat hpos hle
      have hcast : (((-n).toNat : ℕ) : ℚ) = -(n : ℚ) := by
        have : (((-n).toNat : ℕ) : ℤ) = -n := Int.toNat_of_nonneg (by omega)
        exact_mod_cast this
      rw [hcast] at hm
      have hq : (n : ℚ) < 0 := by exact_mod_cast hn
      have hnp : ¬ (0 < (n : ℚ)) := by linarith
      simp only [f64Val, hq.ne, hnp, if_false, hm, neg_neg]
    · subst hn
      simp [f64Val]
    · have hpos : 0 < n.toNat := by omega
      have hle : n.toNat ≤ 2 ^ 53 := by
        have : |n| = n := abs_of_pos hn
        omega
      have hm := f64Mag_nat n.toNat hpos hle
      have hcast : ((n.toNat : ℕ) : ℚ) = (n : ℚ) := by
        have : ((n.toNat : ℕ) : ℤ) = n := Int.toNat_of_nonneg (by omega)
        exact_mod_cast this
      rw [hcast] at hm
      have hq : (0 : ℚ) < n := by exact_mod_cast hn
      simp only [f64Val, hq.ne', hq, if_true, if_false, hm]
  have f64_sub_int (a b : ℤ) (h : |a - b| ≤ 2 ^ 53) :
      F64.sub (fin (a : ℚ)) (fin (b : ℚ)) = fin ((a - b : ℤ) : ℚ) := by
    clear f64_fillTriangleFast_pixelAt f64_fillTriangleFast_fresh foldl_mem_inv shl2_le f64_fillPixel_inBounds f64Mag_nat
    rw [rounded_op_facts_1.2.1, ← Int.cast_sub]
    exact float64Round_int _ h
  exact ⟨@f64_fillTriangleFast_pixelAt, @f64_fillTriangleFast_fresh, @foldl_mem_inv, @shl2_le,
    @f64_fillPixel_inBounds, @f64Mag_nat, @float64Round_int, @f64_sub_int⟩

/-- Lemmas on `fillTriangleFast` in rounded arithmetic: its pixels, its accesses and the exchange
of vertices, proved in turn: `f64_mul_int`, `f64_edge_int`, `f64_edge_eq`, `f64_area_eq`,
`infTimes_neg`, `jsnum_neg_mul_neg`, `f64_mul_neg_neg`, `jsnum_ge_neg`. -/
theorem rounded_fill_facts_3 :
    (∀ (a b : ℤ) (_ : |a * b| ≤ 2 ^ 53),
      F64.mul (fin (a : ℚ)) (fin (b : ℚ)) = fin ((a * b : ℤ) : ℚ)) ∧
    (∀ (p q s t x y P Q : ℤ) (_ : P ≤ 2 ^ 53) (_ : Q ≤ 2 ^ 53) (_ : P * Q ≤ 2 ^ 52) (_ : |p - x| ≤ P) (_ : |q - y| ≤ Q) (_ : |s - x| ≤ P) (_ : |t - y| ≤ Q),
      F64.sub (F64.mul (F64.sub (fin (p : ℚ)) (fin (x : ℚ))) (F64.sub (fin (q : ℚ)) (fin (y : ℚ))))
      (F64.mul (F64.sub (fin (s : ℚ)) (fin (x : ℚ))) (F64.sub (fin (t : ℚ)) (fin (y : ℚ))))
      = fin (((p - x) * (q - y) - (s - x) * (t - y) : ℤ) : ℚ)) ∧
    (∀ (a b : ℤ × ℤ) (x y P Q : ℤ) (_ : P ≤ 2 ^ 53) (_ : Q ≤ 2 ^ 53) (_ : P * Q ≤ 2 ^ 52) (_ : |a.1 - x| ≤ P) (_ : |b.2 - y| ≤ Q) (_ : |b.1 - x| ≤ P) (_ : |a.2 - y| ≤ Q),
      F64.edge a b x y = fin (((a.1 - x) * (b.2 - y) - (b.1 - x) * (a.2 - y) : ℤ) : ℚ)) ∧
    (∀ (v0 v1 v2 : ℤ × ℤ) (P Q : ℤ) (_ : P ≤ 2 ^ 53) (_ : Q ≤ 2 ^ 53) (_ : P * Q ≤ 2 ^ 52) (_ : |v1.1 - v0.1| ≤ P) (_ : |v2.2 - v0.2| ≤ Q) (_ : |v2.1 - v0.1| ≤ P) (_ : |v1.2 - v0.2| ≤ Q),
      F64.area v0 v1 v2 = fin ((signedArea v0 v1 v2 : ℤ) : ℚ)) ∧
    (∀ (pos : Bool) (q : ℚ),
      infTimes (!pos) (-q) = infTimes pos q) ∧
    (∀ (a b : JSNum),
      -a * -b = a * b) ∧
    (∀ (a b : JSNum),
      F64.mul (-a) (-b) = F64.mul a b) ∧
    (∀ (w : JSNum),
      JSNum.ge (-w) 0 = JSNum.le w 0) := by
  have f64_mul_int (a b : ℤ) (h : |a * b| ≤ 2 ^ 53) :
      F64.mul (fin (a : ℚ)) (fin (b : ℚ)) = fin ((a * b : ℤ) : ℚ) := by
    rw [rounded_op_facts_1.2.2.1, ← Int.cast_mul]
    exact rounded_fill_facts_2.2.2.2.2.2.2.1 _ h
  -- The expression `(p - x) * (q - y) - (s - x) * (t - y)` on integers whose differences are
  -- bounded by `P` and `Q`, with `P`, `Q` at most `2 ^ 53` and `P * Q ≤ 2 ^ 52`: every operation
  -- is exact.
  have f64_edge_int (p q s t x y P Q : ℤ) (hP53 : P ≤ 2 ^ 53) (hQ53 : Q ≤ 2 ^ 53)
      (hPQ : P * Q ≤ 2 ^ 52) (h1 : |p - x| ≤ P) (h2 : |q - y| ≤ Q) (h3 : |s - x| ≤ P)
      (h4 : |t - y| ≤ Q) :
      F64.sub (F64.mul (F64.sub (fin (p : ℚ)) (fin (x : ℚ))) (F64.sub (fin (q : ℚ)) (fin (y : ℚ))))
        (F64.mul (F64.sub (fin (s : ℚ)) (fin (x : ℚ))) (F64.sub (fin (t : ℚ)) (fin (y : ℚ))))
        = fin (((p - x) * (q - y) - (s - x) * (t - y) : ℤ) : ℚ) := by
    have hP : 0 ≤ P := le_trans (abs_nonneg _) h1
    have m1 : |(p - x) * (q - y)| ≤ P * Q := by
      rw [abs_mul]; exact mul_le_mul h1 h2 (abs_nonneg _) hP
    have m2 : |(s - x) * (t - y)| ≤ P * Q := by
      rw [abs_mul]; exact mul_le_mul h3 h4 (abs_nonneg _) hP
    have m3 : |(p - x) * (q - y) - (s - x) * (t - y)| ≤ 2 ^ 53 := by
      have := abs_sub ((p - x) * (q - y)) ((s - x) * (t - y))
      omega
    rw [rounded_fill_facts_2.2.2.2.2.2.2.2 p x (by omega), rounded_fill_facts_2.2.2.2.2.2.2.2 q y (by omega), rounded_fill_facts_2.2.2.2.2.2.2.2 s x (by omega),
      rounded_fill_facts_2.2.2.2.2.2.2.2 t y (by omega), f64_mul_int _ _ (by omega), f64_mul_int _ _ (by omega),
      rounded_fill_facts_2.2.2.2.2.2.2.2 _ _ m3]
  have f64_edge_eq (a b : ℤ × ℤ) (x y P Q : ℤ) (hP53 : P ≤ 2 ^ 53) (hQ53 : Q ≤ 2 ^ 53)
      (hPQ : P * Q ≤ 2 ^ 52) (h1 : |a.1 - x| ≤ P) (h2 : |b.2 - y| ≤ Q) (h3 : |b.1 - x| ≤ P)
      (h4 : |a.2 - y| ≤ Q) :
      F64.edge a b x y = fin (((a.1 - x) * (b.2 - y) - (b.1 - x) * (a.2 - y) : ℤ) : ℚ) :=
    f64_edge_int a.1 b.2 b.1 a.2 x y P Q hP53 hQ53 hPQ h1 h2 h3 h4
  have f64_area_eq (v0 v1 v2 : ℤ × ℤ) (P Q : ℤ) (hP53 : P ≤ 2 ^ 53) (hQ53 : Q ≤ 2 ^ 53)
      (hPQ : P * Q ≤ 2 ^ 52) (h1 : |v1.1 - v0.1| ≤ P) (h2 : |v2.2 - v0.2| ≤ Q)
      (h3 : |v2.1 - v0.1| ≤ P) (h4 : |v1.2 - v0.2| ≤ Q) :
      F64.area v0 v1 v2 = fin ((signedArea v0 v1 v2 : ℤ) : ℚ) :=
    f64_edge_int v1.1 v2.2 v2.1 v1.2 v0.1 v0.2 P Q hP53 hQ53 hPQ h1 h2 h3 h4
  have infTimes_neg (pos : Bool) (q : ℚ) : infTimes (!pos) (-q) = infTimes pos q := by
    clear f64_mul_int f64_edge_int f64_edge_eq f64_area_eq
    unfold infTimes
    rcases lt_trichotomy q 0 with h | h | h
    · have h1 : ¬ (0 < q) := not_lt.mpr h.le
      have h2 : 0 < -q := by linarith
      cases pos <;> simp [h.ne, h1, h2]
    · subst h; simp
    · have h1 : ¬ (0 < -q) := by linarith
      cases pos <;> simp [h.ne', h, h1]
  have jsnum_neg_mul_neg (a b : JSNum) : -a * -b = a * b := by
    clear f64_mul_int f64_edge_int f64_edge_eq f64_area_eq
    cases a with
    | fin p =>
      cases b with
      | fin q => show fin (-p * -q) = fin (p * q); rw [neg_mul_neg]
      | pinf => exact infTimes_neg true p
      | ninf => exact infTimes_neg false p
      | nan => rfl
    | pinf =>
      cases b with
      | fin q => exact infTimes_neg true q
      | pinf => rfl
      | ninf => rfl
      | nan => rfl
    | ninf =>
      cases b with
      | fin q => exact infTimes_neg false q
      | pinf => rfl
      | ninf => rfl
      | nan => rfl
    | nan => cases b <;> rfl
  have f64_mul_neg_neg (a b : JSNum) : F64.mul (-a) (-b) = F64.mul a b := by
    clear f64_mul_int f64_edge_int f64_edge_eq f64_area_eq infTimes_neg
    unfold F64.mul; rw [jsnum_neg_mul_neg]
  have jsnum_ge_neg (w : JSNum) : JSNum.ge (-w) 0 = JSNum.le w 0 := by
    clear f64_mul_int f64_edge_int f64_edge_eq f64_area_eq infTimes_neg jsnum_neg_mul_neg f64_mul_neg_neg
    cases w with
    | fin q =>
      show JSNum.le (fin 0) (fin (-q)) = JSNum.le (fin q) (fin 0)
      simp only [le_fin, Nat.cast_zero, Left.nonneg_neg_iff]
    | pinf => rfl
    | ninf => rfl
    | nan => rfl
  exact ⟨@f64_mul_int, @f64_edge_int, @f64_edge_eq, @f64_area_eq, @infTimes_neg,
    @jsnum_neg_mul_neg, @f64_mul_neg_neg, @jsnum_ge_neg⟩

/-- Lemmas on `fillTriangleFast` in rounded arithmetic: its pixels, its accesses and the exchange
of vertices, proved in turn: `jsnum_le_neg`, `jsnum_abs_neg`, `f64_edge_antisymm`, `f64_inv_neg`,
`f64_covers_swap12`, `signedArea_neg01`, `signedArea_neg12`, `diff_small`. -/
theorem rounded_fill_facts_4 :
    (∀ (w : JSNum),
      JSNum.le (-w) 0 = JSNum.ge w 0) ∧
    (∀ (w : JSNum),
      JSNum.abs (-w) = JSNum.abs w) ∧
    (∀ (a b : ℤ × ℤ) (x y : ℤ),
      F64.edge b a x y = -(F64.edge a b x y)) ∧
    (∀ (k : ℚ) (_ : k ≠ 0),
      F64.div 1 (fin (-k)) = -(F64.div 1 (fin k))) ∧
    (∀ (v0 v1 v2 : ℤ × ℤ) (x y : ℤ),
      F64.covers v0 v2 v1 x y = F64.covers v0 v1 v2 x y) ∧
    (∀ (v0 v1 v2 : ℤ × ℤ),
      signedArea v1 v0 v2 = -signedArea v0 v1 v2) ∧
    (∀ (v0 v1 v2 : ℤ × ℤ),
      signedArea v0 v2 v1 = -signedArea v0 v1 v2) ∧
    (∀ (a b : ℤ) (_ : |a| ≤ 2 ^ 25) (_ : |b| ≤ 2 ^ 25),
      |a - b| ≤ 2 ^ 26) := by
  have jsnum_le_neg (w : JSNum) : JSNum.le (-w) 0 = JSNum.ge w 0 := by
    cases w with
    | fin q =>
      show JSNum.le (fin (-q)) (fin 0) = JSNum.le (fin 0) (fin q)
      simp only [le_fin, Nat.cast_zero, Left.neg_nonpos_iff]
    | pinf => rfl
    | ninf => rfl
    | nan => rfl
  have jsnum_abs_neg (w : JSNum) : JSNum.abs (-w) = JSNum.abs w := by
    clear jsnum_le_neg
    cases w with
    | fin q => show JSNum.abs (fin (-q)) = _; simp only [JSNum.abs, abs_neg]
    | pinf => rfl
    | ninf => rfl
    | nan => rfl
  have f64_edge_antisymm (a b : ℤ × ℤ) (x y : ℤ) : F64.edge b a x y = -(F64.edge a b x y) := by
    clear jsnum_le_neg jsnum_abs_neg
    unfold F64.edge
    exact rounded_op_facts_4.2.2.2.1 _ _
  have f64_inv_neg (k : ℚ) (hk : k ≠ 0) : F64.div 1 (fin (-k)) = -(F64.div 1 (fin k)) := by
    clear jsnum_le_neg jsnum_abs_neg f64_edge_antisymm
    have e1 : (1 : JSNum) = fin 1 := rfl
    rw [e1, rounded_op_facts_1.2.2.2.1 _ _ hk, rounded_op_facts_1.2.2.2.1 _ _ (neg_ne_zero.mpr hk), div_neg, float64_facts_4.2.2.2.2.2.2.2]
  have f64_covers_swap12 (v0 v1 v2 : ℤ × ℤ) (x y : ℤ) :
      F64.covers v0 v2 v1 x y = F64.covers v0 v1 v2 x y := by
    clear jsnum_abs_neg f64_inv_neg
    unfold F64.covers
    rw [f64_edge_antisymm v1 v2, f64_edge_antisymm v0 v1, f64_edge_antisymm v2 v0]
    simp only [rounded_fill_facts_3.2.2.2.2.2.2.2, jsnum_le_neg]
    cases JSNum.le (F64.edge v2 v0 x y) 0 <;> cases JSNum.le (F64.edge v1 v2 x y) 0 <;>
      cases JSNum.le (F64.edge v0 v1 x y) 0 <;> cases JSNum.ge (F64.edge v2 v0 x y) 0 <;>
      cases JSNum.ge (F64.edge v1 v2 x y) 0 <;> cases JSNum.ge (F64.edge v0 v1 x y) 0 <;> rfl
  have signedArea_neg01 (v0 v1 v2 : ℤ × ℤ) : signedArea v1 v0 v2 = -signedArea v0 v1 v2 := by
    clear jsnum_le_neg jsnum_abs_neg f64_edge_antisymm f64_inv_neg f64_covers_swap12
    unfold signedArea; ring
  have signedArea_neg12 (v0 v1 v2 : ℤ × ℤ) : signedArea v0 v2 v1 = -signedArea v0 v1 v2 := by
    clear jsnum_le_neg jsnum_abs_neg f64_edge_antisymm f64_inv_neg f64_covers_swap12 signedArea_neg01
    unfold signedArea; ring
  have diff_small (a b : ℤ) (ha : |a| ≤ 2 ^ 25) (hb : |b| ≤ 2 ^ 25) : |a - b| ≤ 2 ^ 26 := by
    clear jsnum_le_neg jsnum_abs_neg f64_edge_antisymm f64_inv_neg f64_covers_swap12 signedArea_neg01 signedArea_neg12
    have := abs_sub a b
    omega
  exact ⟨@jsnum_le_neg, @jsnum_abs_neg, @f64_edge_antisymm, @f64_inv_neg, @f64_covers_swap12,
    @signedArea_neg01, @signedArea_neg12, @diff_small⟩

/-- Lemmas on `fillTriangleFast` in rounded arithmetic: its pixels, its accesses and the exchange
of vertices, proved in turn: `f64_area_small`, `f64_area_swap01`, `f64_area_swap12`,
`f64_degenerate_iff`, `f64_fillPixel_body`, `f64_pixelBody_swap01`, `f64_fillPixel_swap01`,
`f64_fillTriangleFastLog_eq`. -/
theorem rounded_fill_facts_5 :
    (∀ (v0 v1 v2 : ℤ × ℤ) (_ : SmallVertices v0 v1 v2),
      F64.area v0 v1 v2 = fin ((signedArea v0 v1 v2 : ℤ) : ℚ)) ∧
    (∀ (v0 v1 v2 : ℤ × ℤ) (_ : SmallVertices v0 v1 v2),
      F64.area v1 v0 v2 = -(F64.area v0 v1 v2)) ∧
    (∀ (v0 v1 v2 : ℤ × ℤ) (_ : SmallVertices v0 v1 v2),
      F64.area v0 v2 v1 = -(F64.area v0 v1 v2)) ∧
    (∀ (v0 v1 v2 : ℤ × ℤ) (_ : SmallVertices v0 v1 v2),
      F64.degenerate v0 v1 v2 = true ↔ signedArea v0 v1 v2 = 0) ∧
    (∀ (m : MathFns) (v0 v1 v2 : ℤ × ℤ) (depths : ℚ × ℚ × ℚ) (rgb : List JSNum) (ia : JSNum) (y x : ℤ) (s : Renderer × List Access),
      F64.fillPixel m v0 v1 v2 depths rgb ia y x s =
      F64.pixelBody m (F64.edge v1 v2 x y) (F64.edge v2 v0 x y) (F64.edge v0 v1 x y) depths rgb
        ia y x s) ∧
    (∀ (m : MathFns) (w0 w1 w2 : JSNum) (d0 d1 d2 : ℚ) (rgb : List JSNum) (ia : JSNum) (y x : ℤ) (s : Renderer × List Access),
      F64.pixelBody m (-w1) (-w0) (-w2) (d1, d0, d2) rgb (-ia) y x s =
      F64.pixelBody m w0 w1 w2 (d0, d1, d2) rgb ia y x s) ∧
    (∀ (m : MathFns) (v0 v1 v2 : ℤ × ℤ) (d0 d1 d2 : ℚ) (rgb : List JSNum) (ia : JSNum) (y x : ℤ) (s : Renderer × List Access),
      F64.fillPixel m v1 v0 v2 (d1, d0, d2) rgb (-ia) y x s =
      F64.fillPixel m v0 v1 v2 (d0, d1, d2) rgb ia y x s) ∧
    (∀ (m : MathFns) (r : Renderer) (v0 v1 v2 : ℤ × ℤ) (depths : ℚ × ℚ × ℚ) (rgb : List JSNum),
      F64.fillTriangleFastLog m r v0 v1 v2 depths rgb =
      if max 0 (min v0.1 (min v1.1 v2.1)) > min ((r.width : ℤ) - 1) (max v0.1 (max v1.1 v2.1)) ∨
          max 0 (min v0.2 (min v1.2 v2.2)) > min ((r.height : ℤ) - 1) (max v0.2 (max v1.2 v2.2))
      then (r, [])
      else if F64.degenerate v0 v1 v2 = true then (r, [])
      else
        (loopRange (max 0 (min v0.2 (min v1.2 v2.2)))
            (min ((r.height : ℤ) - 1) (max v0.2 (max v1.2 v2.2)))).foldl
          (fun s y => (loopRange (max 0 (min v0.1 (min v1.1 v2.1)))
              (min ((r.width : ℤ) - 1) (max v0.1 (max v1.1 v2.1)))).foldl
            (fun s x => F64.fillPixel m v0 v1 v2 depths rgb (F64.div 1 (F64.area v0 v1 v2)) y x s)
            s) (r, [])) := by
  have f64_area_small (v0 v1 v2 : ℤ × ℤ) (h : SmallVertices v0 v1 v2) :
      F64.area v0 v1 v2 = fin ((signedArea v0 v1 v2 : ℤ) : ℚ) := by
    obtain ⟨a, b, c, d, e, f⟩ := h
    exact rounded_fill_facts_3.2.2.2.1 v0 v1 v2 (2 ^ 26) (2 ^ 26) (by norm_num) (by norm_num) (by norm_num)
      (rounded_fill_facts_4.2.2.2.2.2.2.2 _ _ c a) (rounded_fill_facts_4.2.2.2.2.2.2.2 _ _ f b) (rounded_fill_facts_4.2.2.2.2.2.2.2 _ _ e a) (rounded_fill_facts_4.2.2.2.2.2.2.2 _ _ d b)
  have f64_area_swap01 (v0 v1 v2 : ℤ × ℤ) (h : SmallVertices v0 v1 v2) :
      F64.area v1 v0 v2 = -(F64.area v0 v1 v2) := by
    have h' : SmallVertices v1 v0 v2 := by
      obtain ⟨a, b, c, d, e, f⟩ := h
      exact ⟨c, d, a, b, e, f⟩
    rw [f64_area_small _ _ _ h, f64_area_small _ _ _ h', rounded_fill_facts_4.2.2.2.2.2.1]
    simp only [Int.cast_neg, neg_fin]
  have f64_area_swap12 (v0 v1 v2 : ℤ × ℤ) (h : SmallVertices v0 v1 v2) :
      F64.area v0 v2 v1 = -(F64.area v0 v1 v2) := by
    clear f64_area_swap01
    have h' : SmallVertices v0 v2 v1 := by
      obtain ⟨a, b, c, d, e, f⟩ := h
      exact ⟨a, b, e, f, c, d⟩
    rw [f64_area_small _ _ _ h, f64_area_small _ _ _ h', rounded_fill_facts_4.2.2.2.2.2.2.1]
    simp only [Int.cast_neg, neg_fin]
  have f64_degenerate_iff (v0 v1 v2 : ℤ × ℤ) (h : SmallVertices v0 v1 v2) :
      F64.degenerate v0 v1 v2 = true ↔ signedArea v0 v1 v2 = 0 := by
    clear f64_area_swap01 f64_area_swap12
    unfold F64.degenerate
    rw [f64_area_small _ _ _ h]
    have hlit : F64.lit (1 / 10000) = fin (f64Val (1 / 10000)) :=
      float64_facts_4.2.2.2.2.2.1 _ (by norm_num [abs_of_pos])
    have hv1 : (0 : ℚ) < f64Val (1 / 10000) := by
      have := float64_facts_3.2.2.2.2.1 (show (1 : ℚ) / 2 ^ 14 ≤ 1 / 10000 by norm_num)
      have e : (1 : ℚ) / 2 ^ 14 = 2 ^ (-14 : ℤ) := by norm_num
      rw [e, float64_facts_4.2.2.2.2.1 _ (by norm_num)] at this
      have : (0 : ℚ) < 2 ^ (-14 : ℤ) := by positivity
      linarith
    have hv2 : f64Val (1 / 10000) ≤ 1 := by
      have := float64_facts_3.2.2.2.2.1 (show (1 : ℚ) / 10000 ≤ 2 ^ (0 : ℤ) by norm_num)
      rwa [float64_facts_4.2.2.2.2.1 _ (by norm_num), zpow_zero] at this
    rw [hlit]
    simp only [JSNum.abs, lt_fin, decide_eq_true_eq]
    constructor
    · intro hlt
      by_contra hne
      have : (1 : ℚ) ≤ |((signedArea v0 v1 v2 : ℤ) : ℚ)| := by
        rw [← Int.cast_abs]
        exact_mod_cast Int.one_le_abs hne
      linarith
    · intro h0
      rw [h0, Int.cast_zero, abs_zero]
      exact hv1
  have f64_fillPixel_body (m : MathFns) (v0 v1 v2 : ℤ × ℤ) (depths : ℚ × ℚ × ℚ)
      (rgb : List JSNum) (ia : JSNum) (y x : ℤ) (s : Renderer × List Access) :
      F64.fillPixel m v0 v1 v2 depths rgb ia y x s =
        F64.pixelBody m (F64.edge v1 v2 x y) (F64.edge v2 v0 x y) (F64.edge v0 v1 x y) depths rgb
          ia y x s := rfl
  have f64_pixelBody_swap01 (m : MathFns) (w0 w1 w2 : JSNum) (d0 d1 d2 : ℚ)
      (rgb : List JSNum) (ia : JSNum) (y x : ℤ) (s : Renderer × List Access) :
      F64.pixelBody m (-w1) (-w0) (-w2) (d1, d0, d2) rgb (-ia) y x s =
        F64.pixelBody m w0 w1 w2 (d0, d1, d2) rgb ia y x s := by
    clear f64_area_small f64_area_swap01 f64_area_swap12 f64_degenerate_iff f64_fillPixel_body
    unfold F64.pixelBody
    simp only [rounded_fill_facts_3.2.2.2.2.2.2.2, rounded_fill_facts_4.1, rounded_fill_facts_3.2.2.2.2.2.2.1]
    have hc : ((JSNum.le w1 0 && JSNum.le w0 0 && JSNum.le w2 0) ||
        (JSNum.ge w1 0 && JSNum.ge w0 0 && JSNum.ge w2 0)) =
        ((JSNum.ge w0 0 && JSNum.ge w1 0 && JSNum.ge w2 0) ||
        (JSNum.le w0 0 && JSNum.le w1 0 && JSNum.le w2 0)) := by
      cases JSNum.le w1 0 <;> cases JSNum.le w0 0 <;> cases JSNum.le w2 0 <;>
        cases JSNum.ge w1 0 <;> cases JSNum.ge w0 0 <;> cases JSNum.ge w2 0 <;> rfl
    rw [hc, rounded_op_facts_4.2.2.1 (F64.mul (F64.mul w1 ia) (fin d1)) (F64.mul (F64.mul w0 ia) (fin d0))]
  have f64_fillPixel_swap01 (m : MathFns) (v0 v1 v2 : ℤ × ℤ) (d0 d1 d2 : ℚ)
      (rgb : List JSNum) (ia : JSNum) (y x : ℤ) (s : Renderer × List Access) :
      F64.fillPixel m v1 v0 v2 (d1, d0, d2) rgb (-ia) y x s =
        F64.fillPixel m v0 v1 v2 (d0, d1, d2) rgb ia y x s := by
    clear f64_area_small f64_area_swap01 f64_area_swap12 f64_degenerate_iff
    rw [f64_fillPixel_body, f64_fillPixel_body, rounded_fill_facts_4.2.2.1 v2 v0, rounded_fill_facts_4.2.2.1 v1 v2,
      rounded_fill_facts_4.2.2.1 v0 v1]
    exact f64_pixelBody_swap01 m _ _ _ d0 d1 d2 rgb ia y x s
  have f64_fillTriangleFastLog_eq (m : MathFns) (r : Renderer) (v0 v1 v2 : ℤ × ℤ)
      (depths : ℚ × ℚ × ℚ) (rgb : List JSNum) :
      F64.fillTriangleFastLog m r v0 v1 v2 depths rgb =
        if max 0 (min v0.1 (min v1.1 v2.1)) > min ((r.width : ℤ) - 1) (max v0.1 (max v1.1 v2.1)) ∨
            max 0 (min v0.2 (min v1.2 v2.2)) > min ((r.height : ℤ) - 1) (max v0.2 (max v1.2 v2.2))
        then (r, [])
        else if F64.degenerate v0 v1 v2 = true then (r, [])
        else
          (loopRange (max 0 (min v0.2 (min v1.2 v2.2)))
              (min ((r.height : ℤ) - 1) (max v0.2 (max v1.2 v2.2)))).foldl
            (fun s y => (loopRange (max 0 (min v0.1 (min v1.1 v2.1)))
                (min ((r.width : ℤ) - 1) (max v0.1 (max v1.1 v2.1)))).foldl
              (fun s x => F64.fillPixel m v0 v1 v2 depths rgb (F64.div 1 (F64.area v0 v1 v2)) y x s)
              s) (r, []) := rfl
  exact ⟨@f64_area_small, @f64_area_swap01, @f64_area_swap12, @f64_degenerate_iff,
    @f64_fillPixel_body, @f64_pixelBody_swap01, @f64_fillPixel_swap01,
    @f64_fillTriangleFastLog_eq⟩

/-- Lemmas on `fillTriangleFast` in rounded arithmetic: its pixels, its accesses and the exchange
of vertices, proved in turn: `f64_degenerate_swap01`, `f64_fillTriangleFastLog_swap01`,
`f64_weights_swap12`. -/
theorem rounded_fill_facts_6 :
    (∀ (v0 v1 v2 : ℤ × ℤ) (_ : SmallVertices v0 v1 v2),
      F64.degenerate v1 v0 v2 = F64.degenerate v0 v1 v2) ∧
    (∀ (m : MathFns) (r : Renderer) (v0 v1 v2 : ℤ × ℤ) (d0 d1 d2 : ℚ) (rgb : List JSNum) (_ : SmallVertices v0 v1 v2),
      F64.fillTriangleFastLog m r v1 v0 v2 (d1, d0, d2) rgb =
      F64.fillTriangleFastLog m r v0 v1 v2 (d0, d1, d2) rgb) ∧
    (∀ (v0 v1 v2 : ℤ × ℤ) (_ : SmallVertices v0 v1 v2) (_ : signedArea v0 v1 v2 ≠ 0) (x y : ℤ),
      F64.weights v0 v2 v1 x y = ((F64.weights v0 v1 v2 x y).1, (F64.weights v0 v1 v2 x y).2.2,
      (F64.weights v0 v1 v2 x y).2.1)) := by
  have f64_degenerate_swap01 (v0 v1 v2 : ℤ × ℤ) (h : SmallVertices v0 v1 v2) :
      F64.degenerate v1 v0 v2 = F64.degenerate v0 v1 v2 := by
    unfold F64.degenerate
    rw [rounded_fill_facts_5.2.1 v0 v1 v2 h, rounded_fill_facts_4.2.1]
  -- Exchanging the first two vertices, with their depths, changes nothing in what
  -- `fillTriangleFast` does.
  have f64_fillTriangleFastLog_swap01 (m : MathFns) (r : Renderer) (v0 v1 v2 : ℤ × ℤ)
      (d0 d1 d2 : ℚ) (rgb : List JSNum) (h : SmallVertices v0 v1 v2) :
      F64.fillTriangleFastLog m r v1 v0 v2 (d1, d0, d2) rgb =
        F64.fillTriangleFastLog m r v0 v1 v2 (d0, d1, d2) rgb := by
    rw [rounded_fill_facts_5.2.2.2.2.2.2.2, rounded_fill_facts_5.2.2.2.2.2.2.2, f64_degenerate_swap01 v0 v1 v2 h,
      min_left_comm v1.1 v0.1, max_left_comm v1.1 v0.1, min_left_comm v1.2 v0.2,
      max_left_comm v1.2 v0.2]
    split
    · rfl
    · split
      · rfl
      · rename_i hdeg
        have hA : signedArea v0 v1 v2 ≠ 0 := fun h0 => hdeg ((rounded_fill_facts_5.2.2.2.1 v0 v1 v2 h).mpr h0)
        have hAq : ((signedArea v0 v1 v2 : ℤ) : ℚ) ≠ 0 := by exact_mod_cast hA
        have hinv : F64.div 1 (F64.area v1 v0 v2) = -(F64.div 1 (F64.area v0 v1 v2)) := by
          rw [rounded_fill_facts_5.2.1 v0 v1 v2 h, rounded_fill_facts_5.1 v0 v1 v2 h, neg_fin]
          exact rounded_fill_facts_4.2.2.2.1 _ hAq
        rw [hinv]
        simp only [rounded_fill_facts_5.2.2.2.2.2.2.1]
  -- Exchanging the last two vertices exchanges the last two weights.
  have f64_weights_swap12 (v0 v1 v2 : ℤ × ℤ) (h : SmallVertices v0 v1 v2)
      (hA : signedArea v0 v1 v2 ≠ 0) (x y : ℤ) :
      F64.weights v0 v2 v1 x y = ((F64.weights v0 v1 v2 x y).1, (F64.weights v0 v1 v2 x y).2.2,
        (F64.weights v0 v1 v2 x y).2.1) := by
    clear f64_degenerate_swap01 f64_fillTriangleFastLog_swap01
    have hAq : ((signedArea v0 v1 v2 : ℤ) : ℚ) ≠ 0 := by exact_mod_cast hA
    have hinv : F64.div 1 (F64.area v0 v2 v1) = -(F64.div 1 (F64.area v0 v1 v2)) := by
      rw [rounded_fill_facts_5.2.2.1 v0 v1 v2 h, rounded_fill_facts_5.1 v0 v1 v2 h, neg_fin]
      exact rounded_fill_facts_4.2.2.2.1 _ hAq
    unfold F64.weights
    rw [hinv, rounded_fill_facts_4.2.2.1 v1 v2, rounded_fill_facts_4.2.2.1 v0 v1, rounded_fill_facts_4.2.2.1 v2 v0]
    simp only [rounded_fill_facts_3.2.2.2.2.2.2.1]
  exact ⟨@f64_degenerate_swap01, @f64_fillTriangleFastLog_swap01, @f64_weights_swap12⟩

/-- C30.  Whatever the integer screen vertices and the canvas, every access `fillTriangleFast`
makes to the depth buffer, read or write, is at an index that is at least 0 and below
`width * height`, and every write to the image is at an index below `4 * width * height`.  When
the buffers have the size of the canvas, a canvas of at most `2 ^ 29` pixels, a pixel of the
canvas outside the clamped bounding box is left as it was. -/
theorem fillTriangleFast_accesses (m : MathFns) (r : Renderer) (v0 v1 v2 : ℤ × ℤ)
    (depths : ℚ × ℚ × ℚ) (rgb : List JSNum) :
    (∀ a ∈ (F64.fillTriangleFastLog m r v0 v1 v2 depths rgb).2,
      Access.InBounds r.width r.height a) ∧
    (Sized r → ∀ x y : ℤ, 0 ≤ x → x < r.width → ¬ inBox r.width r.height v0 v1 v2 x y →
      pixelAt (F64.fillTriangleFast m r v0 v1 v2 depths rgb) (y * r.width + x)
        = pixelAt r (y * r.width + x)) := by
  constructor
  · rw [rounded_fill_facts_5.2.2.2.2.2.2.2]
    split
    · intro a ha; cases ha
    · split
      · intro a ha; cases ha
      · have key : ∀ s : Renderer × List Access,
            (SameSettings r s.1 ∧ ∀ a ∈ s.2, Access.InBounds r.width r.height a) →
            ∀ y ∈ loopRange (max 0 (min v0.2 (min v1.2 v2.2)))
              (min ((r.height : ℤ) - 1) (max v0.2 (max v1.2 v2.2))),
            ∀ x ∈ loopRange (max 0 (min v0.1 (min v1.1 v2.1)))
              (min ((r.width : ℤ) - 1) (max v0.1 (max v1.1 v2.1))),
            (SameSettings r (F64.fillPixel m v0 v1 v2 depths rgb
                (F64.div 1 (F64.area v0 v1 v2)) y x s).1 ∧
              ∀ a ∈ (F64.fillPixel m v0 v1 v2 depths rgb
                (F64.div 1 (F64.area v0 v1 v2)) y x s).2, Access.InBounds r.width r.height a) := by
          intro s hs y hy x hx
          rw [mem_loopRange] at hy hx
          refine ⟨hs.1.trans (rounded_fill_facts_1.2.1 _ _ _ _ _ _ _ _ _ _), ?_⟩
          exact rounded_fill_facts_2.2.2.2.2.1 m v0 v1 v2 depths rgb _ y x s r.width r.height
            hs.1.2.2.1 (by omega) (by omega) (by omega) (by omega) hs.2
        have := rounded_fill_facts_2.2.2.1
          (fun s y => (loopRange (max 0 (min v0.1 (min v1.1 v2.1)))
              (min ((r.width : ℤ) - 1) (max v0.1 (max v1.1 v2.1)))).foldl
            (fun s x => F64.fillPixel m v0 v1 v2 depths rgb (F64.div 1 (F64.area v0 v1 v2)) y x s)
            s)
          (fun s : Renderer × List Access =>
            SameSettings r s.1 ∧ ∀ a ∈ s.2, Access.InBounds r.width r.height a)
          (loopRange (max 0 (min v0.2 (min v1.2 v2.2)))
              (min ((r.height : ℤ) - 1) (max v0.2 (max v1.2 v2.2))))
          (fun s y hy hs => rounded_fill_facts_2.2.2.1 _ _ _ (fun s' x hx hs' => key s' hs' y hy x hx) s hs)
          (r, []) ⟨SameSettings.refl r, fun a ha => by cases ha⟩
        exact this.2
  · intro hs x y hx hxW hnot
    rw [rounded_fill_facts_2.1 m r v0 v1 v2 depths rgb hs x y hx hxW, if_neg]
    exact fun h => hnot h.1

/-- C30, witness: a triangle with its three vertices far outside a canvas of 5 by 5 pixels. -/
theorem fillTriangleFast_accesses_witness :
    (∀ a ∈ (F64.fillTriangleFastLog sampleMath canvas5 (-10, -10) (100, 3) (2, 90) (1, 2, 3)
        [255, 0, 0]).2, Access.InBounds canvas5.width canvas5.height a) ∧
    (Sized canvas5 → ∀ x y : ℤ, 0 ≤ x → x < canvas5.width →
      ¬ inBox canvas5.width canvas5.height (-10, -10) (100, 3) (2, 90) x y →
      pixelAt (F64.fillTriangleFast sampleMath canvas5 (-10, -10) (100, 3) (2, 90) (1, 2, 3)
          [255, 0, 0]) (y * canvas5.width + x)
        = pixelAt canvas5 (y * canvas5.width + x)) ∧
    Sized canvas5 :=
  ⟨(fillTriangleFast_accesses sampleMath canvas5 (-10, -10) (100, 3) (2, 90) (1, 2, 3)
      [255, 0, 0]).1,
    (fillTriangleFast_accesses sampleMath canvas5 (-10, -10) (100, 3) (2, 90) (1, 2, 3)
      [255, 0, 0]).2,
    fresh_buffer_facts.2.2.2.2.2.1 _ _ 5 5 false false (by norm_num)⟩

/-- C31, as amended.  For vertices with coordinates of magnitude at most `2 ^ 25`, exchanging
the first two vertices together with their depths leaves the two buffers as `fillTriangleFast`
writes them identical.  Exchanging the last two leaves the inside test the same at every pixel
and, for a triangle that is not degenerate, exchanges the last two weights: the three products
of the interpolated depth are the same numbers, added in another order. -/
theorem fillTriangleFast_vertex_order (m : MathFns) (r : Renderer) (v0 v1 v2 : ℤ × ℤ)
    (d0 d1 d2 : ℚ) (rgb : List JSNum)
    (h : |v0.1| ≤ 2 ^ 25 ∧ |v0.2| ≤ 2 ^ 25 ∧ |v1.1| ≤ 2 ^ 25 ∧ |v1.2| ≤ 2 ^ 25 ∧
      |v2.1| ≤ 2 ^ 25 ∧ |v2.2| ≤ 2 ^ 25) :
    F64.fillTriangleFast m r v1 v0 v2 (d1, d0, d2) rgb =
      F64.fillTriangleFast m r v0 v1 v2 (d0, d1, d2) rgb ∧
    (∀ x y : ℤ, F64.covers v0 v2 v1 x y = F64.covers v0 v1 v2 x y) ∧
    (signedArea v0 v1 v2 ≠ 0 → ∀ x y : ℤ,
      F64.weights v0 v2 v1 x y = ((F64.weights v0 v1 v2 x y).1, (F64.weights v0 v1 v2 x y).2.2,
        (F64.weights v0 v1 v2 x y).2.1) ∧
      F64.pixelDepth v0 v2 v1 (d0, d2, d1) x y =
        F64.add (F64.add (F64.mul (F64.weights v0 v1 v2 x y).1 (fin d0))
          (F64.mul (F64.weights v0 v1 v2 x y).2.2 (fin d2)))
          (F64.mul (F64.weights v0 v1 v2 x y).2.1 (fin d1))) := by
  refine ⟨?_, fun x y => rounded_fill_facts_4.2.2.2.2.1 v0 v1 v2 x y, fun hA x y => ?_⟩
  · unfold F64.fillTriangleFast
    rw [rounded_fill_facts_6.2.1 m r v0 v1 v2 d0 d1 d2 rgb h]
  · have hw := rounded_fill_facts_6.2.2 v0 v1 v2 h hA x y
    refine ⟨hw, ?_⟩
    unfold F64.pixelDepth
    rw [hw]

/-- Two triangles on reset buffers, every operation rounded, at a pixel both cover with depths
below `Infinity`: the second one replaces the first exactly when its interpolated depth is below
the depth stored for the first. -/
theorem f64_fillTriangleFast_twice (m : MathFns) (r : Renderer) (hs : Sized r)
    (a0 a1 a2 b0 b1 b2 : ℤ × ℤ) (da db : ℚ × ℚ × ℚ) (rgbA rgbB : List JSNum) (x y : ℤ)
    (hx : 0 ≤ x) (hxW : x < r.width) (hy : 0 ≤ y) (hyH : y < r.height)
    (hA : inBox r.width r.height a0 a1 a2 x y ∧ F64.degenerate a0 a1 a2 = false ∧
      F64.covers a0 a1 a2 x y = true ∧
      JSNum.lt (F64.pixelDepth a0 a1 a2 da x y) JSNum.pinf = true)
    (hB : inBox r.width r.height b0 b1 b2 x y ∧ F64.degenerate b0 b1 b2 = false ∧
      F64.covers b0 b1 b2 x y = true) :
    pixelAt (F64.fillTriangleFast m (F64.fillTriangleFast m (resetBuffers r) a0 a1 a2 da rgbA)
        b0 b1 b2 db rgbB) (y * r.width + x) =
      if JSNum.lt (F64.pixelDepth b0 b1 b2 db x y)
          (fround (F64.pixelDepth a0 a1 a2 da x y)) = true
      then F64.shaded m rgbB (F64.pixelDepth b0 b1 b2 db x y)
      else F64.shaded m rgbA (F64.pixelDepth a0 a1 a2 da x y) := by
  have hs' : Sized (resetBuffers r) := (fresh_buffer_facts.1 r).sized hs
  have hss := rounded_fill_facts_1.2.2.2.2.2.2.2 m (resetBuffers r) a0 a1 a2 da rgbA
  have hs1 : Sized (F64.fillTriangleFast m (resetBuffers r) a0 a1 a2 da rgbA) := hss.sized hs'
  have hw : (F64.fillTriangleFast m (resetBuffers r) a0 a1 a2 da rgbA).width = r.width :=
    hss.2.2.1
  have hh : (F64.fillTriangleFast m (resetBuffers r) a0 a1 a2 da rgbA).height = r.height :=
    hss.2.2.2.1
  have := rounded_fill_facts_2.1 m _ b0 b1 b2 db rgbB hs1 x y hx (by rw [hw]; exact hxW)
  rw [hw, hh] at this
  rw [this, rounded_fill_facts_2.2.1 m r hs a0 a1 a2 da rgbA x y hx hxW hy hyH]
  simp only [hA, hB, and_self, if_true]
  unfold F64.pixelStep
  simp only [F64.shaded, hB.2.2, true_and]

theorem float32Round_tie_one : float32Round (1 + 1 / 2 ^ 24) = JSNum.fin 1 := by
  rw [float32Round_of_binade _ 0 (by norm_num) (by norm_num) (by norm_num) (by norm_num)]
  have e : ((1 : ℚ) + 1 / 2 ^ 24) / 2 ^ ((0 : ℤ) - 23) = 8388608 + 1 / 2 := by norm_num
  have hr : roundHalfEven (8388608 + 1 / 2) = 8388608 := by decide!
  rw [e, hr]
  norm_num

/-- C31, counterexample: on a canvas of 3 by 4 pixels, the triangle (0,0), (1,3), (2,1) with
the depths `1`, `1 + 2^-24`, `1 + 2^-23` leaves the depth `1 + 2^-23` at the pixel (1,2); with
its last two vertices and their depths exchanged it leaves the depth 1 there. -/
theorem fillTriangleFast_order_changes_depth :
    (pixelAt (F64.fillTriangleFast sampleMath canvas34 (0, 0) (1, 3) (2, 1)
      (1, 1 + 1 / 2 ^ 24, 1 + 1 / 2 ^ 23) [255, 0, 0]) 7).1 = some (JSNum.fin (1 + 1 / 2 ^ 23)) ∧
    (pixelAt (F64.fillTriangleFast sampleMath canvas34 (0, 0) (2, 1) (1, 3)
      (1, 1 + 1 / 2 ^ 23, 1 + 1 / 2 ^ 24) [255, 0, 0]) 7).1 = some (JSNum.fin 1) := by
  have hs := fresh_buffer_facts.2.2.2.2.1 { v := [], f := [] } sampleCamera 3 4 false false (by norm_num)
  have h1 := rounded_fill_facts_2.2.1 sampleMath _ hs (0, 0) (1, 3) (2, 1)
    (1, 1 + 1 / 2 ^ 24, 1 + 1 / 2 ^ 23) [255, 0, 0] 1 2 (by norm_num) (by simp [allocate])
    (by norm_num) (by simp [allocate])
  have h2 := rounded_fill_facts_2.2.1 sampleMath _ hs (0, 0) (2, 1) (1, 3)
    (1, 1 + 1 / 2 ^ 23, 1 + 1 / 2 ^ 24) [255, 0, 0] 1 2 (by norm_num) (by simp [allocate])
    (by norm_num) (by simp [allocate])
  have d1 : F64.pixelDepth (0, 0) (1, 3) (2, 1) (1, 1 + 1 / 2 ^ 24, 1 + 1 / 2 ^ 23) 1 2
      = JSNum.fin (4503599895805953 / 4503599627370496) := by decide!
  have d2 : F64.pixelDepth (0, 0) (2, 1) (1, 3) (1, 1 + 1 / 2 ^ 23, 1 + 1 / 2 ^ 24) 1 2
      = JSNum.fin (1 + 1 / 2 ^ 24) := by decide!
  have c1 : inBox 3 4 (0, 0) (1, 3) (2, 1) 1 2 ∧ F64.degenerate (0, 0) (1, 3) (2, 1) = false ∧
      F64.covers (0, 0) (1, 3) (2, 1) 1 2 = true := by decide!
  have c2 : inBox 3 4 (0, 0) (2, 1) (1, 3) 1 2 ∧ F64.degenerate (0, 0) (2, 1) (1, 3) = false ∧
      F64.covers (0, 0) (2, 1) (1, 3) 1 2 = true := by decide!
  have e7 : (2 : ℤ) * ((allocate { v := [], f := [] } sampleCamera 3 4 false false).width : ℤ)
      + 1 = 7 := by simp [allocate]
  have w3 : (allocate { v := [], f := [] } sampleCamera 3 4 false false).width = 3 := rfl
  have w4 : (allocate { v := [], f := [] } sampleCamera 3 4 false false).height = 4 := rfl
  rw [e7, w3, w4, d1] at h1
  rw [e7, w3, w4, d2] at h2
  simp only [c1, c2, lt_pinf, and_self, if_true] at h1 h2
  have f1 := float32_facts_4.2.2.2.2.1 (4503599895805953 / 4503599627370496) (by norm_num)
    (by norm_num)
  constructor
  · show (pixelAt (F64.fillTriangleFast sampleMath (resetBuffers _) _ _ _ _ _) 7).1 = _
    rw [h1]
    simp only [F64.shaded, fround, f1]
  · show (pixelAt (F64.fillTriangleFast sampleMath (resetBuffers _) _ _ _ _ _) 7).1 = _
    rw [h2]
    simp only [F64.shaded, fround, float32Round_tie_one]

/-- C31, witness: the triangle (0,0), (1,3), (2,1) on a canvas of 3 by 4 pixels. -/
theorem fillTriangleFast_vertex_order_witness :
    F64.fillTriangleFast sampleMath canvas34 (1, 3) (0, 0) (2, 1) (1 + 1 / 2 ^ 24, 1, 1 + 1 / 2 ^ 23)
        [255, 0, 0] =
      F64.fillTriangleFast sampleMath canvas34 (0, 0) (1, 3) (2, 1)
        (1, 1 + 1 / 2 ^ 24, 1 + 1 / 2 ^ 23) [255, 0, 0] ∧
    (∀ x y : ℤ, F64.covers (0, 0) (2, 1) (1, 3) x y = F64.covers (0, 0) (1, 3) (2, 1) x y) ∧
    (signedArea (0, 0) (1, 3) (2, 1) ≠ 0 → ∀ x y : ℤ,
      F64.weights (0, 0) (2, 1) (1, 3) x y = ((F64.weights (0, 0) (1, 3) (2, 1) x y).1,
        (F64.weights (0, 0) (1, 3) (2, 1) x y).2.2, (F64.weights (0, 0) (1, 3) (2, 1) x y).2.1) ∧
      F64.pixelDepth (0, 0) (2, 1) (1, 3) (1, 1 + 1 / 2 ^ 23, 1 + 1 / 2 ^ 24) x y =
        F64.add (F64.add (F64.mul (F64.weights (0, 0) (1, 3) (2, 1) x y).1 (fin 1))
          (F64.mul (F64.weights (0, 0) (1, 3) (2, 1) x y).2.2 (fin (1 + 1 / 2 ^ 23))))
          (F64.mul (F64.weights (0, 0) (1, 3) (2, 1) x y).2.1 (fin (1 + 1 / 2 ^ 24)))) :=
  fillTriangleFast_vertex_order sampleMath canvas34 (0, 0) (1, 3) (2, 1) 1 (1 + 1 / 2 ^ 24)
    (1 + 1 / 2 ^ 23) [255, 0, 0] (by norm_num)

/-- C1, the failing input.  On a canvas of 5 by 5 pixels two triangles with the vertices (0,0),
(4,0), (0,4) are drawn, a red one of depth `1 + 2^-23 - 2^-30` and a green one of depth
`1 + 2^-23 - 2^-31`.  At the pixel (1,1) the interpolated depths are these two numbers, the red
one the smaller.  Whichever triangle is drawn second wins the pixel: drawn first, the other one
is stored as the 32-bit float `1 + 2^-23`, above both depths. -/
theorem depth_test_order_dependent :
    F64.pixelDepth (0, 0) (4, 0) (0, 4)
        (1 + 1 / 2 ^ 23 - 1 / 2 ^ 30, 1 + 1 / 2 ^ 23 - 1 / 2 ^ 30, 1 + 1 / 2 ^ 23 - 1 / 2 ^ 30) 1 1
      = JSNum.fin (1 + 1 / 2 ^ 23 - 1 / 2 ^ 30) ∧
    F64.pixelDepth (0, 0) (4, 0) (0, 4)
        (1 + 1 / 2 ^ 23 - 1 / 2 ^ 31, 1 + 1 / 2 ^ 23 - 1 / 2 ^ 31, 1 + 1 / 2 ^ 23 - 1 / 2 ^ 31) 1 1
      = JSNum.fin (1 + 1 / 2 ^ 23 - 1 / 2 ^ 31) ∧
    pixelAt (F64.fillTriangleFast sampleMath
      (F64.fillTriangleFast sampleMath canvas5 (0, 0) (4, 0) (0, 4)
        (1 + 1 / 2 ^ 23 - 1 / 2 ^ 30, 1 + 1 / 2 ^ 23 - 1 / 2 ^ 30, 1 + 1 / 2 ^ 23 - 1 / 2 ^ 30)
        [255, 0, 0])
      (0, 0) (4, 0) (0, 4)
      (1 + 1 / 2 ^ 23 - 1 / 2 ^ 31, 1 + 1 / 2 ^ 23 - 1 / 2 ^ 31, 1 + 1 / 2 ^ 23 - 1 / 2 ^ 31)
      [0, 255, 0]) 6
      = (some (JSNum.fin (1 + 1 / 2 ^ 23)), [some 0, some 250, some 0, some 255]) ∧
    pixelAt (F64.fillTriangleFast sampleMath
      (F64.fillTriangleFast sampleMath canvas5 (0, 0) (4, 0) (0, 4)
        (1 + 1 / 2 ^ 23 - 1 / 2 ^ 31, 1 + 1 / 2 ^ 23 - 1 / 2 ^ 31, 1 + 1 / 2 ^ 23 - 1 / 2 ^ 31)
        [0, 255, 0])
      (0, 0) (4, 0) (0, 4)
      (1 + 1 / 2 ^ 23 - 1 / 2 ^ 30, 1 + 1 / 2 ^ 23 - 1 / 2 ^ 30, 1 + 1 / 2 ^ 23 - 1 / 2 ^ 30)
      [255, 0, 0]) 6
      = (some (JSNum.fin (1 + 1 / 2 ^ 23)), [some 250, some 0, some 0, some 255]) := by
  have hs := fresh_buffer_facts.2.2.2.2.1 { v := [], f := [] } sampleCamera 5 5 false false (by norm_num)
  have dA : F64.pixelDepth (0, 0) (4, 0) (0, 4)
      (1 + 1 / 2 ^ 23 - 1 / 2 ^ 30, 1 + 1 / 2 ^ 23 - 1 / 2 ^ 30, 1 + 1 / 2 ^ 23 - 1 / 2 ^ 30) 1 1
      = JSNum.fin (1 + 1 / 2 ^ 23 - 1 / 2 ^ 30) := by decide!
  have dB : F64.pixelDepth (0, 0) (4, 0) (0, 4)
      (1 + 1 / 2 ^ 23 - 1 / 2 ^ 31, 1 + 1 / 2 ^ 23 - 1 / 2 ^ 31, 1 + 1 / 2 ^ 23 - 1 / 2 ^ 31) 1 1
      = JSNum.fin (1 + 1 / 2 ^ 23 - 1 / 2 ^ 31) := by decide!
  have hc : inBox 5 5 (0, 0) (4, 0) (0, 4) 1 1 ∧ F64.degenerate (0, 0) (4, 0) (0, 4) = false ∧
      F64.covers (0, 0) (4, 0) (0, 4) 1 1 = true := by decide!
  have w5 : (allocate { v := [], f := [] } sampleCamera 5 5 false false).width = 5 := rfl
  have h5 : (allocate { v := [], f := [] } sampleCamera 5 5 false false).height = 5 := rfl
  have e6 : (1 : ℤ) * ((5 : ℕ) : ℤ) + 1 = 6 := by norm_num
  have fA := float32_facts_4.2.2.2.2.1 (1 + 1 / 2 ^ 23 - 1 / 2 ^ 30) (by norm_num) (by norm_num)
  have fB := float32_facts_4.2.2.2.2.1 (1 + 1 / 2 ^ 23 - 1 / 2 ^ 31) (by norm_num) (by norm_num)
  have sA : F64.adjustColorByDepth sampleMath [255, 0, 0]
      (JSNum.fin (1 + 1 / 2 ^ 23 - 1 / 2 ^ 30)) none = [JSNum.fin 250, JSNum.fin 0, JSNum.fin 0] := by
    decide!
  have sB : F64.adjustColorByDepth sampleMath [0, 255, 0]
      (JSNum.fin (1 + 1 / 2 ^ 23 - 1 / 2 ^ 31)) none = [JSNum.fin 0, JSNum.fin 250, JSNum.fin 0] := by
    decide!
  have t250 : toUint8Clamp (JSNum.fin 250) = 250 := by decide!
  have t0 : toUint8Clamp (JSNum.fin 0) = 0 := by decide!
  have k1 := f64_fillTriangleFast_twice sampleMath _ hs (0, 0) (4, 0) (0, 4) (0, 0) (4, 0) (0, 4)
    (1 + 1 / 2 ^ 23 - 1 / 2 ^ 30, 1 + 1 / 2 ^ 23 - 1 / 2 ^ 30, 1 + 1 / 2 ^ 23 - 1 / 2 ^ 30)
    (1 + 1 / 2 ^ 23 - 1 / 2 ^ 31, 1 + 1 / 2 ^ 23 - 1 / 2 ^ 31, 1 + 1 / 2 ^ 23 - 1 / 2 ^ 31)
    [255, 0, 0] [0, 255, 0] 1 1 (by norm_num) (by simp [allocate]) (by norm_num)
    (by simp [allocate]) ⟨hc.1, hc.2.1, hc.2.2, by rw [dA]; rfl⟩ hc
  have k2 := f64_fillTriangleFast_twice sampleMath _ hs (0, 0) (4, 0) (0, 4) (0, 0) (4, 0) (0, 4)
    (1 + 1 / 2 ^ 23 - 1 / 2 ^ 31, 1 + 1 / 2 ^ 23 - 1 / 2 ^ 31, 1 + 1 / 2 ^ 23 - 1 / 2 ^ 31)
    (1 + 1 / 2 ^ 23 - 1 / 2 ^ 30, 1 + 1 / 2 ^ 23 - 1 / 2 ^ 30, 1 + 1 / 2 ^ 23 - 1 / 2 ^ 30)
    [0, 255, 0] [255, 0, 0] 1 1 (by norm_num) (by simp [allocate]) (by norm_num)
    (by simp [allocate]) ⟨hc.1, hc.2.1, hc.2.2, by rw [dB]; rfl⟩ hc
  rw [w5, e6, dA, dB] at k1 k2
  have l1 : ((1 : ℚ) + 1 / 2 ^ 23 - 1 / 2 ^ 31 < 1 + 1 / 2 ^ 23) := by norm_num
  have l2 : ((1 : ℚ) + 1 / 2 ^ 23 - 1 / 2 ^ 30 < 1 + 1 / 2 ^ 23) := by norm_num
  simp only [fround, fA, fB, lt_fin, l1, l2, decide_True, if_true, F64.shaded, sA, sB, nth,
    List.getD_cons_zero, List.getD_cons_succ, t250, t0] at k1 k2
  exact ⟨dA, dB, k1, k2⟩

/-- Lemmas on the rounded weights of a covered pixel, proved in turn: `f64Val_one_plus`,
`tinyStep_nonneg`, `tinyStep_le`, `round_up`, `round_up_crude`, `sum3_up`, `weight_ok`. -/
theorem weight_facts_1 :
    (f64Val (1 + 1 / 2 ^ 53) = 1) ∧
    (0 ≤ tinyStep) ∧
    (tinyStep ≤ 1 / 8) ∧
    (∀ (z : ℚ) (_ : 0 ≤ z) (_ : z ≤ 2 ^ 200),
      ∃ r : ℚ, float64Round z = fin r ∧ 0 ≤ r ∧ r ≤ z * (1 + 1 / 2 ^ 53) + tinyStep) ∧
    (∀ (z B : ℚ) (_ : 0 ≤ z) (_ : z ≤ B) (_ : B ≤ 2 ^ 200),
      ∃ r : ℚ, float64Round z = fin r ∧ 0 ≤ r ∧ r ≤ z * (1 + 1 / 2 ^ 53) + tinyStep ∧
      r ≤ 2 * B + 1) ∧
    (∀ (a0 a1 a2 d0 d1 d2 D : ℚ) (_ : 0 ≤ a0) (_ : 0 ≤ a1) (_ : 0 ≤ a2) (_ : a0 ≤ 1) (_ : a1 ≤ 1) (_ : a2 ≤ 1) (_ : 0 ≤ d0) (_ : 0 ≤ d1) (_ : 0 ≤ d2) (_ : d0 ≤ D) (_ : d1 ≤ D) (_ : d2 ≤ D) (_ : D ≤ 2 ^ 128),
      ∃ z : ℚ, F64.add (F64.add (F64.mul (fin a0) (fin d0)) (F64.mul (fin a1) (fin d1)))
        (F64.mul (fin a2) (fin d2)) = fin z ∧ 0 ≤ z ∧
      z ≤ (a0 * d0 + a1 * d1 + a2 * d2) * (1 + 4 / 2 ^ 53) + 1) ∧
    (∀ (w A : ℤ) (_ : A ≠ 0) (_ : |A| ≤ 2 ^ 53) (_ : 0 ≤ w * A) (_ : |w| ≤ |A|),
      ∃ a : ℚ, F64.mul (fin (w : ℚ)) (F64.div 1 (fin (A : ℚ))) = fin a ∧ 0 ≤ a ∧ a ≤ 1 ∧
      |a - (w : ℚ) / A| ≤ 21 / 10 / 2 ^ 53 * ((w : ℚ) / A)) := by
  have f64Val_one_plus : f64Val (1 + 1 / 2 ^ 53) = 1 := by decide!
  have tinyStep_nonneg : 0 ≤ tinyStep := by unfold tinyStep; positivity
  have tinyStep_le : tinyStep ≤ 1 / 8 := by
    clear f64Val_one_plus tinyStep_nonneg
    unfold tinyStep
    exact one_div_le_one_div_of_le (by norm_num)
      (le_trans (by norm_num) (pow_le_pow_right₀ (by norm_num : (1 : ℚ) ≤ 2)
        (by norm_num : 3 ≤ 1000)))
  -- Rounding a number that is not negative: the result is not negative and exceeds the number by
  -- a relative `2 ^ (-53)` and an absolute `2 ^ (-1000)` at most.
  have round_up (z : ℚ) (h0 : 0 ≤ z) (h1 : z ≤ 2 ^ 200) :
      ∃ r : ℚ, float64Round z = fin r ∧ 0 ≤ r ∧ r ≤ z * (1 + 1 / 2 ^ 53) + tinyStep := by
    clear f64Val_one_plus tinyStep_nonneg tinyStep_le
    have e1 : (2 : ℚ) ^ 200 ≤ 2 ^ 1023 := pow_le_pow_right₀ (by norm_num) (by norm_num)
    have hfin := float64_facts_4.2.2.2.2.2.1 z (by rw [abs_of_nonneg h0]; exact le_trans h1 e1)
    refine ⟨f64Val z, hfin, float64_facts_4.2.2.1 h0, ?_⟩
    clear hfin e1 h1
    unfold tinyStep
    by_cases hz : 1 / 2 ^ 1022 ≤ z
    · have er := float64_facts_4.2.2.2.1 z z (by rw [abs_of_nonneg h0])
        (by rw [rounded_op_facts_1.2.2.2.2.1]; exact hz)
      have := (abs_le.mp er).2
      have hp : (0 : ℚ) ≤ 1 / 2 ^ 1000 := by positivity
      clear hz
      generalize (1 : ℚ) / 2 ^ 1000 = η at hp ⊢
      have e : z * (1 + 1 / 2 ^ 53) = z + z / 2 ^ 53 := by ring
      linarith
    · push_neg at hz
      have er := float64_facts_4.2.2.2.1 z (1 / 2 ^ 1022) (by rw [abs_of_nonneg h0]; exact hz.le)
        (by rw [rounded_op_facts_1.2.2.2.2.1])
      have h2 := (abs_le.mp er).2
      have h3 : (1 : ℚ) / 2 ^ 1022 / 2 ^ 53 ≤ 1 / 2 ^ 1000 := by
        rw [div_div]
        apply one_div_le_one_div_of_le (by positivity)
        rw [← pow_add]
        exact pow_le_pow_right₀ (by norm_num) (by norm_num)
      clear hz er
      generalize (1 : ℚ) / 2 ^ 1022 / 2 ^ 53 = ε at h2 h3
      generalize (1 : ℚ) / 2 ^ 1000 = η at h3 ⊢
      have e : z * (1 + 1 / 2 ^ 53) = z + z / 2 ^ 53 := by ring
      have : 0 ≤ z / 2 ^ 53 := by positivity
      linarith
  have round_up_crude (z B : ℚ) (h0 : 0 ≤ z) (h1 : z ≤ B) (h2 : B ≤ 2 ^ 200) :
      ∃ r : ℚ, float64Round z = fin r ∧ 0 ≤ r ∧ r ≤ z * (1 + 1 / 2 ^ 53) + tinyStep ∧
        r ≤ 2 * B + 1 := by
    clear f64Val_one_plus tinyStep_nonneg
    obtain ⟨r, hr, q, e⟩ := round_up z h0 (le_trans h1 h2)
    refine ⟨r, hr, q, e, ?_⟩
    have hη := tinyStep_le
    clear h2 hr
    generalize tinyStep = η at *
    have h3 : z * (1 + 1 / 2 ^ 53) ≤ z * 2 := mul_le_mul_of_nonneg_left (by norm_num) h0
    linarith
  -- The sum of three rounded products of numbers that are not negative, as `fillTriangleFast`
  -- adds them: a finite number that is not negative and exceeds the exact sum by little.
  have sum3_up (a0 a1 a2 d0 d1 d2 D : ℚ) (ha0 : 0 ≤ a0) (ha1 : 0 ≤ a1) (ha2 : 0 ≤ a2)
      (hb0 : a0 ≤ 1) (hb1 : a1 ≤ 1) (hb2 : a2 ≤ 1) (hd0 : 0 ≤ d0) (hd1 : 0 ≤ d1) (hd2 : 0 ≤ d2)
      (he0 : d0 ≤ D) (he1 : d1 ≤ D) (he2 : d2 ≤ D) (hD : D ≤ 2 ^ 128) :
      ∃ z : ℚ, F64.add (F64.add (F64.mul (fin a0) (fin d0)) (F64.mul (fin a1) (fin d1)))
          (F64.mul (fin a2) (fin d2)) = fin z ∧ 0 ≤ z ∧
        z ≤ (a0 * d0 + a1 * d1 + a2 * d2) * (1 + 4 / 2 ^ 53) + 1 := by
    clear f64Val_one_plus round_up
    have hη0 := tinyStep_nonneg
    have hη1 := tinyStep_le
    rw [rounded_op_facts_1.2.2.1, rounded_op_facts_1.2.2.1, rounded_op_facts_1.2.2.1]
    have x0 : a0 * d0 ≤ 2 ^ 128 :=
      le_trans (le_trans (mul_le_mul hb0 he0 hd0 (by norm_num)) (one_mul D).le) hD
    have x1 : a1 * d1 ≤ 2 ^ 128 :=
      le_trans (le_trans (mul_le_mul hb1 he1 hd1 (by norm_num)) (one_mul D).le) hD
    have x2 : a2 * d2 ≤ 2 ^ 128 :=
      le_trans (le_trans (mul_le_mul hb2 he2 hd2 (by norm_num)) (one_mul D).le) hD
    have y0 : 0 ≤ a0 * d0 := mul_nonneg ha0 hd0
    have y1 : 0 ≤ a1 * d1 := mul_nonneg ha1 hd1
    have y2 : 0 ≤ a2 * d2 := mul_nonneg ha2 hd2
    clear hD he0 he1 he2 hb0 hb1 hb2
    generalize a0 * d0 = X0 at *
    generalize a1 * d1 = X1 at *
    generalize a2 * d2 = X2 at *
    obtain ⟨p0, hp0, q0, r0, b0⟩ := round_up_crude X0 _ y0 x0 (by norm_num)
    obtain ⟨p1, hp1, q1, r1, b1⟩ := round_up_crude X1 _ y1 x1 (by norm_num)
    obtain ⟨p2, hp2, q2, r2, b2⟩ := round_up_crude X2 _ y2 x2 (by norm_num)
    obtain ⟨s, hs, qs, rs, bs⟩ := round_up_crude (p0 + p1) _ (add_nonneg q0 q1)
      (add_le_add b0 b1) (by norm_num)
    obtain ⟨z, hz, qz, rz, _⟩ := round_up_crude (s + p2) _ (add_nonneg qs q2)
      (add_le_add bs b2) (by norm_num)
    refine ⟨z, ?_, qz, ?_⟩
    · rw [hp0, hp1, hp2, rounded_op_facts_1.1, hs, rounded_op_facts_1.1, hz]
    · clear hp0 hp1 hp2 hs hz b0 b1 b2 bs x0 x1 x2
      generalize tinyStep = η at *
      have k1 : s ≤ (X0 + X1) * (1 + 1 / 2 ^ 53) ^ 2 + 4 * η := by
        have := mul_le_mul_of_nonneg_right (add_le_add r0 r1)
          (show (0 : ℚ) ≤ 1 + 1 / 2 ^ 53 by norm_num)
        have e : (X0 * (1 + 1 / 2 ^ 53) + η + (X1 * (1 + 1 / 2 ^ 53) + η)) * (1 + 1 / 2 ^ 53)
            = (X0 + X1) * (1 + 1 / 2 ^ 53) ^ 2 + 2 * η * (1 + 1 / 2 ^ 53) := by ring
        have e2 : 2 * η * (1 + 1 / 2 ^ 53) ≤ 2 * η + η := by
          have : 2 * η * (1 + 1 / 2 ^ 53) = 2 * η + η * (2 / 2 ^ 53) := by ring
          have h3 : η * (2 / 2 ^ 53) ≤ η * 1 := mul_le_mul_of_nonneg_left (by norm_num) hη0
          linarith only [this, h3]
        linarith only [rs, this, e, e2]
      have k2 : z ≤ (X0 + X1 + X2) * (1 + 1 / 2 ^ 53) ^ 3 + 7 * η := by
        have h1 : s + p2 ≤ (X0 + X1) * (1 + 1 / 2 ^ 53) ^ 2 + 4 * η + (X2 * (1 + 1 / 2 ^ 53) + η) :=
          add_le_add k1 r2
        have h2 : X2 * (1 + 1 / 2 ^ 53) ≤ X2 * (1 + 1 / 2 ^ 53) ^ 2 :=
          mul_le_mul_of_nonneg_left (by norm_num) y2
        have h4 : s + p2 ≤ (X0 + X1 + X2) * (1 + 1 / 2 ^ 53) ^ 2 + 5 * η := by
          have e : (X0 + X1 + X2) * (1 + 1 / 2 ^ 53) ^ 2
              = (X0 + X1) * (1 + 1 / 2 ^ 53) ^ 2 + X2 * (1 + 1 / 2 ^ 53) ^ 2 := by ring
          linarith only [h1, h2, e]
        have h3 := mul_le_mul_of_nonneg_right h4 (show (0 : ℚ) ≤ 1 + 1 / 2 ^ 53 by norm_num)
        have e : ((X0 + X1 + X2) * (1 + 1 / 2 ^ 53) ^ 2 + 5 * η) * (1 + 1 / 2 ^ 53)
            = (X0 + X1 + X2) * (1 + 1 / 2 ^ 53) ^ 3 + 5 * η * (1 + 1 / 2 ^ 53) := by ring
        have e2 : 5 * η * (1 + 1 / 2 ^ 53) ≤ 5 * η + η := by
          have : 5 * η * (1 + 1 / 2 ^ 53) = 5 * η + η * (5 / 2 ^ 53) := by ring
          have h3 : η * (5 / 2 ^ 53) ≤ η * 1 := mul_le_mul_of_nonneg_left (by norm_num) hη0
          linarith only [this, h3]
        linarith only [rz, h3, e, e2]
      have k3 : (X0 + X1 + X2) * (1 + 1 / 2 ^ 53) ^ 3 ≤ (X0 + X1 + X2) * (1 + 4 / 2 ^ 53) :=
        mul_le_mul_of_nonneg_left (by norm_num) (by linarith only [y0, y1, y2])
      linarith only [k2, k3, hη1]
  -- A weight of `fillTriangleFast`: the edge function `w` times the rounded inverse of the area
  -- `A`, for integers of the same sign with `|w| ≤ |A| ≤ 2 ^ 53`. It lies between 0 and 1 and is
  -- within a relative `2.1 * 2 ^ (-53)` of `w / A`.
  have weight_ok (w A : ℤ) (hA : A ≠ 0) (hA2 : |A| ≤ 2 ^ 53) (hs : 0 ≤ w * A)
      (hw : |w| ≤ |A|) :
      ∃ a : ℚ, F64.mul (fin (w : ℚ)) (F64.div 1 (fin (A : ℚ))) = fin a ∧ 0 ≤ a ∧ a ≤ 1 ∧
        |a - (w : ℚ) / A| ≤ 21 / 10 / 2 ^ 53 * ((w : ℚ) / A) := by
    clear tinyStep_nonneg tinyStep_le round_up round_up_crude sum3_up
    have hAq : (A : ℚ) ≠ 0 := by exact_mod_cast hA
    have hA1 : (1 : ℚ) ≤ |(A : ℚ)| := by
      rw [← Int.cast_abs]; exact_mod_cast Int.one_le_abs hA
    have hA3 : |(A : ℚ)| ≤ 2 ^ 53 := by
      rw [← Int.cast_abs]; exact_mod_cast hA2
    have hwA : |(w : ℚ)| ≤ |(A : ℚ)| := by
      rw [← Int.cast_abs, ← Int.cast_abs]; exact_mod_cast hw
    have ht : 0 ≤ (w : ℚ) / A := by
      have h1 : (0 : ℚ) ≤ w * A := by exact_mod_cast hs
      have h2 : (w : ℚ) / A = w * A / (A * A) := by field_simp; ring
      rw [h2]
      exact div_nonneg h1 (mul_self_nonneg _)
    have hApos : (0 : ℚ) < |(A : ℚ)| := lt_of_lt_of_le one_pos hA1
    have mA : Magnitude 53 (1 / (A : ℚ)) := by
      constructor
      · rw [abs_div, abs_one]
        exact one_div_le_one_div_of_le hApos hA3
      · rw [abs_div, abs_one, div_le_iff₀ hApos]
        have := mul_le_mul (show (1 : ℚ) ≤ 2 ^ 53 by norm_num) hA1 (by norm_num) (by norm_num)
        rwa [one_mul] at this
    have e1 : (1 : JSNum) = fin 1 := rfl
    obtain ⟨i, hi, ei⟩ := relative_error_facts_2.2.1 1 1 A A 0 0 (1 / 2 ^ 53) (relative_error_facts_2.2.2.2.2.1 1) (relative_error_facts_2.2.2.2.2.1 _)
      le_rfl le_rfl (by norm_num) (by norm_num) hAq (by norm_num)
      (Or.inr (relative_error_facts_1.2.2.2.1 _ _ _ (by norm_num) mA))
    have hrange : (w : ℚ) * (1 / A) = 0 ∨ Magnitude 1000 ((w : ℚ) * (1 / A)) := by
      by_cases hw0 : w = 0
      · left; rw [hw0]; simp
      · right
        have hw1 : (1 : ℚ) ≤ |(w : ℚ)| := by
          rw [← Int.cast_abs]; exact_mod_cast Int.one_le_abs hw0
        have mw : Magnitude 53 (w : ℚ) :=
          ⟨le_trans (by norm_num) hw1, le_trans hwA hA3⟩
        exact relative_error_facts_1.2.2.2.1 _ _ _ (by norm_num) (relative_error_facts_1.1 53 53 _ _ mw mA)
    obtain ⟨a, ha, ea⟩ := relative_error_facts_2.1 w w i (1 / A) 0 (1 / 2 ^ 53) (21 / 10 / 2 ^ 53)
      (relative_error_facts_2.2.2.2.2.1 _) ei le_rfl (by norm_num) (by norm_num) hrange
    rw [← e1] at hi
    rw [hi]
    have e2 : (w : ℚ) * (1 / A) = w / A := by ring
    rw [e2, abs_of_nonneg ht] at ea
    refine ⟨a, ha, ?_, ?_, ea⟩
    · have := (abs_le.mp ea).1
      have hδ : (21 : ℚ) / 10 / 2 ^ 53 * (w / A) ≤ 1 * (w / A) :=
        mul_le_mul_of_nonneg_right (by norm_num) ht
      linarith only [this, hδ]
    · have hprod : (w : ℚ) * i ≤ 1 + 1 / 2 ^ 53 := by
        have hi2 : |i| ≤ (1 + 1 / 2 ^ 53) * |1 / (A : ℚ)| := by
          have := rounded_op_facts_2.2.2.2.1 ei (le_refl _)
          linarith only [this]
        have h3 : |(w : ℚ) * i| ≤ |(A : ℚ)| * ((1 + 1 / 2 ^ 53) * |1 / (A : ℚ)|) := by
          rw [abs_mul]
          exact mul_le_mul hwA hi2 (abs_nonneg _) (abs_nonneg _)
        have h4 : |(A : ℚ)| * ((1 + 1 / 2 ^ 53) * |1 / (A : ℚ)|) = 1 + 1 / 2 ^ 53 := by
          rw [abs_div, abs_one]
          field_simp
          ring
        rw [h4] at h3
        exact le_trans (le_abs_self _) h3
      have hmono := float64_facts_3.2.2.2.2.1 hprod
      rw [f64Val_one_plus] at hmono
      have hfin : F64.mul (fin (w : ℚ)) (fin i) = fin (f64Val ((w : ℚ) * i)) := by
        rw [rounded_op_facts_1.2.2.1]
        apply float64_facts_4.2.2.2.2.2.1
        have h5 : |(w : ℚ) * i| ≤ 2 := by
          have hi2 : |i| ≤ (1 + 1 / 2 ^ 53) * |1 / (A : ℚ)| := by
            have := rounded_op_facts_2.2.2.2.1 ei (le_refl _)
            linarith only [this]
          have h3 : |(w : ℚ) * i| ≤ |(A : ℚ)| * ((1 + 1 / 2 ^ 53) * |1 / (A : ℚ)|) := by
            rw [abs_mul]
            exact mul_le_mul hwA hi2 (abs_nonneg _) (abs_nonneg _)
          have h4 : |(A : ℚ)| * ((1 + 1 / 2 ^ 53) * |1 / (A : ℚ)|) = 1 + 1 / 2 ^ 53 := by
            rw [abs_div, abs_one]
            field_simp
            ring
          rw [h4] at h3
          exact le_trans h3 (by norm_num)
        exact le_trans h5 (by norm_num)
      rw [hfin] at ha
      injection ha with ha
      rw [← ha]
      exact hmono
  exact ⟨@f64Val_one_plus, @tinyStep_nonneg, @tinyStep_le, @round_up, @round_up_crude, @sum3_up,
    @weight_ok⟩

/-- Lemmas on the rounded weights of a covered pixel, proved in turn: `covered_signs`,
`f64_weights_exact`, `f64_degenerate_of_area`, `f64_covers_of_exact`, `canvas_exact`,
`float32Round_finite`. -/
theorem weight_facts_2 :
    (∀ (w0 w1 w2 A : ℤ) (_ : w0 + w1 + w2 = A) (_ : (0 ≤ w0 ∧ 0 ≤ w1 ∧ 0 ≤ w2) ∨ (w0 ≤ 0 ∧ w1 ≤ 0 ∧ w2 ≤ 0)),
      (0 ≤ w0 * A ∧ |w0| ≤ |A|) ∧ (0 ≤ w1 * A ∧ |w1| ≤ |A|) ∧ (0 ≤ w2 * A ∧ |w2| ≤ |A|)) ∧
    (∀ (v0 v1 v2 : ℤ × ℤ) (x y : ℤ) (_ : F64.area v0 v1 v2 = fin ((signedArea v0 v1 v2 : ℤ) : ℚ)) (_ : F64.edge v1 v2 x y = fin (((v1.1 - x) * (v2.2 - y) - (v2.1 - x) * (v1.2 - y) : ℤ) : ℚ)) (_ : F64.edge v2 v0 x y = fin (((v2.1 - x) * (v0.2 - y) - (v0.1 - x) * (v2.2 - y) : ℤ) : ℚ)) (_ : F64.edge v0 v1 x y = fin (((v0.1 - x) * (v1.2 - y) - (v1.1 - x) * (v0.2 - y) : ℤ) : ℚ)) (_ : signedArea v0 v1 v2 ≠ 0) (_ : |signedArea v0 v1 v2| ≤ 2 ^ 53) (_ : covers v0 v1 v2 x y),
      ∃ a0 a1 a2 : ℚ, F64.weights v0 v1 v2 x y = (fin a0, fin a1, fin a2) ∧
      (0 ≤ a0 ∧ a0 ≤ 1 ∧
        |a0 - (weights v0 v1 v2 x y).1| ≤ 21 / 10 / 2 ^ 53 * (weights v0 v1 v2 x y).1) ∧
      (0 ≤ a1 ∧ a1 ≤ 1 ∧
        |a1 - (weights v0 v1 v2 x y).2.1| ≤ 21 / 10 / 2 ^ 53 * (weights v0 v1 v2 x y).2.1) ∧
      (0 ≤ a2 ∧ a2 ≤ 1 ∧
        |a2 - (weights v0 v1 v2 x y).2.2| ≤ 21 / 10 / 2 ^ 53 * (weights v0 v1 v2 x y).2.2)) ∧
    (∀ (v0 v1 v2 : ℤ × ℤ) (_ : F64.area v0 v1 v2 = fin ((signedArea v0 v1 v2 : ℤ) : ℚ)) (_ : signedArea v0 v1 v2 ≠ 0),
      F64.degenerate v0 v1 v2 = false) ∧
    (∀ (v0 v1 v2 : ℤ × ℤ) (x y : ℤ) (_ : F64.edge v1 v2 x y = fin (((v1.1 - x) * (v2.2 - y) - (v2.1 - x) * (v1.2 - y) : ℤ) : ℚ)) (_ : F64.edge v2 v0 x y = fin (((v2.1 - x) * (v0.2 - y) - (v0.1 - x) * (v2.2 - y) : ℤ) : ℚ)) (_ : F64.edge v0 v1 x y = fin (((v0.1 - x) * (v1.2 - y) - (v1.1 - x) * (v0.2 - y) : ℤ) : ℚ)),
      F64.covers v0 v1 v2 x y = true ↔ covers v0 v1 v2 x y) ∧
    (∀ (W H : ℕ) (_ : W * H ≤ 2 ^ 29) (v0 v1 v2 : ℤ × ℤ) (x y : ℤ) (_ : 0 ≤ v0.1 ∧ v0.1 < W ∧ 0 ≤ v0.2 ∧ v0.2 < H) (_ : 0 ≤ v1.1 ∧ v1.1 < W ∧ 0 ≤ v1.2 ∧ v1.2 < H) (_ : 0 ≤ v2.1 ∧ v2.1 < W ∧ 0 ≤ v2.2 ∧ v2.2 < H) (_ : 0 ≤ x) (_ : x < W) (_ : 0 ≤ y) (_ : y < H),
      F64.area v0 v1 v2 = fin ((signedArea v0 v1 v2 : ℤ) : ℚ) ∧
    F64.edge v1 v2 x y = fin (((v1.1 - x) * (v2.2 - y) - (v2.1 - x) * (v1.2 - y) : ℤ) : ℚ) ∧
    F64.edge v2 v0 x y = fin (((v2.1 - x) * (v0.2 - y) - (v0.1 - x) * (v2.2 - y) : ℤ) : ℚ) ∧
    F64.edge v0 v1 x y = fin (((v0.1 - x) * (v1.2 - y) - (v1.1 - x) * (v0.2 - y) : ℤ) : ℚ) ∧
    |signedArea v0 v1 v2| ≤ 2 ^ 53) ∧
    (∀ (z : ℚ) (_ : 0 ≤ z) (_ : z < 2 ^ 128 - 2 ^ 103),
      ∃ q : ℚ, float32Round z = fin q) := by
  have covered_signs (w0 w1 w2 A : ℤ) (hsum : w0 + w1 + w2 = A)
      (hc : (0 ≤ w0 ∧ 0 ≤ w1 ∧ 0 ≤ w2) ∨ (w0 ≤ 0 ∧ w1 ≤ 0 ∧ w2 ≤ 0)) :
      (0 ≤ w0 * A ∧ |w0| ≤ |A|) ∧ (0 ≤ w1 * A ∧ |w1| ≤ |A|) ∧ (0 ≤ w2 * A ∧ |w2| ≤ |A|) := by
    rcases hc with ⟨h0, h1, h2⟩ | ⟨h0, h1, h2⟩
    · have hA : 0 ≤ A := by omega
      rw [abs_of_nonneg h0, abs_of_nonneg h1, abs_of_nonneg h2, abs_of_nonneg hA]
      exact ⟨⟨mul_nonneg h0 hA, by omega⟩, ⟨mul_nonneg h1 hA, by omega⟩,
        ⟨mul_nonneg h2 hA, by omega⟩⟩
    · have hA : A ≤ 0 := by omega
      rw [abs_of_nonpos h0, abs_of_nonpos h1, abs_of_nonpos h2, abs_of_nonpos hA]
      exact ⟨⟨mul_nonneg_of_nonpos_of_nonpos h0 hA, by omega⟩,
        ⟨mul_nonneg_of_nonpos_of_nonpos h1 hA, by omega⟩,
        ⟨mul_nonneg_of_nonpos_of_nonpos h2 hA, by omega⟩⟩
  -- The weights of `fillTriangleFast` at a pixel that passes the inside test, where the edge
  -- functions and the area are computed exactly: each is a finite number between 0 and 1, within
  -- a relative `2.1 * 2 ^ (-53)` of the exact weight.
  have f64_weights_exact (v0 v1 v2 : ℤ × ℤ) (x y : ℤ)
      (hA : F64.area v0 v1 v2 = fin ((signedArea v0 v1 v2 : ℤ) : ℚ))
      (e0 : F64.edge v1 v2 x y = fin (((v1.1 - x) * (v2.2 - y) - (v2.1 - x) * (v1.2 - y) : ℤ) : ℚ))
      (e1 : F64.edge v2 v0 x y = fin (((v2.1 - x) * (v0.2 - y) - (v0.1 - x) * (v2.2 - y) : ℤ) : ℚ))
      (e2 : F64.edge v0 v1 x y = fin (((v0.1 - x) * (v1.2 - y) - (v1.1 - x) * (v0.2 - y) : ℤ) : ℚ))
      (harea : signedArea v0 v1 v2 ≠ 0) (hA53 : |signedArea v0 v1 v2| ≤ 2 ^ 53)
      (hc : covers v0 v1 v2 x y) :
      ∃ a0 a1 a2 : ℚ, F64.weights v0 v1 v2 x y = (fin a0, fin a1, fin a2) ∧
        (0 ≤ a0 ∧ a0 ≤ 1 ∧
          |a0 - (weights v0 v1 v2 x y).1| ≤ 21 / 10 / 2 ^ 53 * (weights v0 v1 v2 x y).1) ∧
        (0 ≤ a1 ∧ a1 ≤ 1 ∧
          |a1 - (weights v0 v1 v2 x y).2.1| ≤ 21 / 10 / 2 ^ 53 * (weights v0 v1 v2 x y).2.1) ∧
        (0 ≤ a2 ∧ a2 ≤ 1 ∧
          |a2 - (weights v0 v1 v2 x y).2.2| ≤ 21 / 10 / 2 ^ 53 * (weights v0 v1 v2 x y).2.2) := by
    have hsumZ : ((v1.1 - x) * (v2.2 - y) - (v2.1 - x) * (v1.2 - y))
        + ((v2.1 - x) * (v0.2 - y) - (v0.1 - x) * (v2.2 - y))
        + ((v0.1 - x) * (v1.2 - y) - (v1.1 - x) * (v0.2 - y)) = signedArea v0 v1 v2 := by
      unfold signedArea; ring
    obtain ⟨⟨s0, b0⟩, ⟨s1, b1⟩, ⟨s2, b2⟩⟩ := covered_signs _ _ _ _ hsumZ hc
    obtain ⟨a0, ha0, p0, q0, r0⟩ := weight_facts_1.2.2.2.2.2.2 _ _ harea hA53 s0 b0
    obtain ⟨a1, ha1, p1, q1, r1⟩ := weight_facts_1.2.2.2.2.2.2 _ _ harea hA53 s1 b1
    obtain ⟨a2, ha2, p2, q2, r2⟩ := weight_facts_1.2.2.2.2.2.2 _ _ harea hA53 s2 b2
    have w0 : (weights v0 v1 v2 x y).1
        = (((v1.1 - x) * (v2.2 - y) - (v2.1 - x) * (v1.2 - y) : ℤ) : ℚ) / (signedArea v0 v1 v2 : ℤ) := by
      unfold weights; simp only; push_cast; ring
    have w1 : (weights v0 v1 v2 x y).2.1
        = (((v2.1 - x) * (v0.2 - y) - (v0.1 - x) * (v2.2 - y) : ℤ) : ℚ) / (signedArea v0 v1 v2 : ℤ) := by
      unfold weights; simp only; push_cast; ring
    have w2 : (weights v0 v1 v2 x y).2.2
        = (((v0.1 - x) * (v1.2 - y) - (v1.1 - x) * (v0.2 - y) : ℤ) : ℚ) / (signedArea v0 v1 v2 : ℤ) := by
      unfold weights; simp only; push_cast; ring
    rw [w0, w1, w2]
    refine ⟨a0, a1, a2, ?_, ⟨p0, q0, r0⟩, ⟨p1, q1, r1⟩, ⟨p2, q2, r2⟩⟩
    unfold F64.weights
    rw [hA, e0, e1, e2, ha0, ha1, ha2]
  have f64_degenerate_of_area (v0 v1 v2 : ℤ × ℤ)
      (hA : F64.area v0 v1 v2 = fin ((signedArea v0 v1 v2 : ℤ) : ℚ))
      (harea : signedArea v0 v1 v2 ≠ 0) : F64.degenerate v0 v1 v2 = false := by
    clear covered_signs f64_weights_exact
    unfold F64.degenerate
    rw [hA]
    have hlit : F64.lit (1 / 10000) = fin (f64Val (1 / 10000)) :=
      float64_facts_4.2.2.2.2.2.1 _ (by norm_num [abs_of_pos])
    have hv2 : f64Val (1 / 10000) ≤ 1 := by
      have := float64_facts_3.2.2.2.2.1 (show (1 : ℚ) / 10000 ≤ 2 ^ (0 : ℤ) by norm_num)
      rwa [float64_facts_4.2.2.2.2.1 _ (by norm_num), zpow_zero] at this
    rw [hlit]
    simp only [JSNum.abs, lt_fin, decide_eq_false_iff_not, not_lt]
    have : (1 : ℚ) ≤ |((signedArea v0 v1 v2 : ℤ) : ℚ)| := by
      rw [← Int.cast_abs]
      exact_mod_cast Int.one_le_abs harea
    linarith
  have f64_covers_of_exact (v0 v1 v2 : ℤ × ℤ) (x y : ℤ)
      (e0 : F64.edge v1 v2 x y = fin (((v1.1 - x) * (v2.2 - y) - (v2.1 - x) * (v1.2 - y) : ℤ) : ℚ))
      (e1 : F64.edge v2 v0 x y = fin (((v2.1 - x) * (v0.2 - y) - (v0.1 - x) * (v2.2 - y) : ℤ) : ℚ))
      (e2 : F64.edge v0 v1 x y = fin (((v0.1 - x) * (v1.2 - y) - (v1.1 - x) * (v0.2 - y) : ℤ) : ℚ)) :
      F64.covers v0 v1 v2 x y = true ↔ covers v0 v1 v2 x y := by
    clear covered_signs f64_weights_exact f64_degenerate_of_area
    unfold F64.covers covers
    rw [e0, e1, e2]
    simp only [JSNum.ge, ofNat_eq, Nat.cast_zero, le_fin, Bool.or_eq_true, Bool.and_eq_true,
      decide_eq_true_eq, and_assoc]
    constructor
    · rintro (⟨a, b, c⟩ | ⟨a, b, c⟩)
      · left; exact ⟨by exact_mod_cast a, by exact_mod_cast b, by exact_mod_cast c⟩
      · right; exact ⟨by exact_mod_cast a, by exact_mod_cast b, by exact_mod_cast c⟩
    · rintro (⟨a, b, c⟩ | ⟨a, b, c⟩)
      · left; exact ⟨by exact_mod_cast a, by exact_mod_cast b, by exact_mod_cast c⟩
      · right; exact ⟨by exact_mod_cast a, by exact_mod_cast b, by exact_mod_cast c⟩
  -- The facts about a pixel inside a triangle whose vertices lie on a canvas of at most `2 ^ 29`
  -- pixels: the edge functions and the area are computed exactly.
  have canvas_exact (W H : ℕ) (hWH : W * H ≤ 2 ^ 29) (v0 v1 v2 : ℤ × ℤ) (x y : ℤ)
      (h0 : 0 ≤ v0.1 ∧ v0.1 < W ∧ 0 ≤ v0.2 ∧ v0.2 < H)
      (h1 : 0 ≤ v1.1 ∧ v1.1 < W ∧ 0 ≤ v1.2 ∧ v1.2 < H)
      (h2 : 0 ≤ v2.1 ∧ v2.1 < W ∧ 0 ≤ v2.2 ∧ v2.2 < H)
      (hx0 : 0 ≤ x) (hx1 : x < W) (hy0 : 0 ≤ y) (hy1 : y < H) :
      F64.area v0 v1 v2 = fin ((signedArea v0 v1 v2 : ℤ) : ℚ) ∧
      F64.edge v1 v2 x y = fin (((v1.1 - x) * (v2.2 - y) - (v2.1 - x) * (v1.2 - y) : ℤ) : ℚ) ∧
      F64.edge v2 v0 x y = fin (((v2.1 - x) * (v0.2 - y) - (v0.1 - x) * (v2.2 - y) : ℤ) : ℚ) ∧
      F64.edge v0 v1 x y = fin (((v0.1 - x) * (v1.2 - y) - (v1.1 - x) * (v0.2 - y) : ℤ) : ℚ) ∧
      |signedArea v0 v1 v2| ≤ 2 ^ 53 := by
    clear covered_signs f64_weights_exact f64_degenerate_of_area f64_covers_of_exact
    have hW1 : 1 ≤ W := by omega
    have hH1 : 1 ≤ H := by omega
    have hWH' : (W : ℤ) * H ≤ 2 ^ 29 := by exact_mod_cast hWH
    have hW1' : (1 : ℤ) ≤ W := by exact_mod_cast hW1
    have hH1' : (1 : ℤ) ≤ H := by exact_mod_cast hH1
    have hW29 : (W : ℤ) ≤ 2 ^ 53 :=
      le_trans (le_mul_of_one_le_right (by omega) hH1') (le_trans hWH' (by norm_num))
    have hH29 : (H : ℤ) ≤ 2 ^ 53 :=
      le_trans (le_mul_of_one_le_left (by omega) hW1') (le_trans hWH' (by norm_num))
    have hPQ : (W : ℤ) * H ≤ 2 ^ 52 := le_trans hWH' (by norm_num)
    have dx : ∀ a b : ℤ, 0 ≤ a → a < W → 0 ≤ b → b < W → |a - b| ≤ W := by
      intro a b _ _ _ _
      rw [abs_le]; constructor <;> omega
    have dy : ∀ a b : ℤ, 0 ≤ a → a < H → 0 ≤ b → b < H → |a - b| ≤ H := by
      intro a b _ _ _ _
      rw [abs_le]; constructor <;> omega
    obtain ⟨a1, a2, a3, a4⟩ := h0
    obtain ⟨b1, b2, b3, b4⟩ := h1
    obtain ⟨c1, c2, c3, c4⟩ := h2
    refine ⟨rounded_fill_facts_3.2.2.2.1 v0 v1 v2 W H hW29 hH29 hPQ (dx _ _ b1 b2 a1 a2) (dy _ _ c3 c4 a3 a4)
        (dx _ _ c1 c2 a1 a2) (dy _ _ b3 b4 a3 a4),
      rounded_fill_facts_3.2.2.1 v1 v2 x y W H hW29 hH29 hPQ (dx _ _ b1 b2 hx0 hx1) (dy _ _ c3 c4 hy0 hy1)
        (dx _ _ c1 c2 hx0 hx1) (dy _ _ b3 b4 hy0 hy1),
      rounded_fill_facts_3.2.2.1 v2 v0 x y W H hW29 hH29 hPQ (dx _ _ c1 c2 hx0 hx1) (dy _ _ a3 a4 hy0 hy1)
        (dx _ _ a1 a2 hx0 hx1) (dy _ _ c3 c4 hy0 hy1),
      rounded_fill_facts_3.2.2.1 v0 v1 x y W H hW29 hH29 hPQ (dx _ _ a1 a2 hx0 hx1) (dy _ _ b3 b4 hy0 hy1)
        (dx _ _ b1 b2 hx0 hx1) (dy _ _ a3 a4 hy0 hy1), ?_⟩
    unfold signedArea
    have m1 : |(v1.1 - v0.1) * (v2.2 - v0.2)| ≤ (W : ℤ) * H := by
      rw [abs_mul]
      exact mul_le_mul (dx _ _ b1 b2 a1 a2) (dy _ _ c3 c4 a3 a4) (abs_nonneg _) (by omega)
    have m2 : |(v2.1 - v0.1) * (v1.2 - v0.2)| ≤ (W : ℤ) * H := by
      rw [abs_mul]
      exact mul_le_mul (dx _ _ c1 c2 a1 a2) (dy _ _ b3 b4 a3 a4) (abs_nonneg _) (by omega)
    have := abs_sub ((v1.1 - v0.1) * (v2.2 - v0.2)) ((v2.1 - v0.1) * (v1.2 - v0.2))
    omega
  have float32Round_finite (z : ℚ) (h0 : 0 ≤ z) (h1 : z < 2 ^ 128 - 2 ^ 103) :
      ∃ q : ℚ, float32Round z = fin q := by
    clear covered_signs f64_weights_exact f64_degenerate_of_area f64_covers_of_exact canvas_exact
    rcases h0.lt_or_eq with h | h
    · exact ⟨_, float32_facts_3.2.2.2.2.2.2.2 z h h1⟩
    · subst h
      exact ⟨0, by simp [float32Round]⟩
  exact ⟨@covered_signs, @f64_weights_exact, @f64_degenerate_of_area, @f64_covers_of_exact,
    @canvas_exact, @float32Round_finite⟩

/-- C3, as amended.  Fill coverage: for a triangle that is not degenerate, whose three integer
screen vertices lie inside the canvas and whose three vertex depths are positive and at most
`2 ^ 128 - 2 ^ 104`, the largest 32-bit float, after `fillTriangleFast` on freshly reset buffers
(of the size of the canvas, at most `2 ^ 29` pixels) every integer pixel inside or on the
boundary of the triangle holds a finite value in the depth buffer. -/
theorem fill_covers_triangle_rounded (m : MathFns) (r : Renderer) (hs : Sized r)
    (v0 v1 v2 : ℤ × ℤ) (depths : ℚ × ℚ × ℚ) (rgb : List JSNum)
    (h0 : 0 ≤ v0.1 ∧ v0.1 < r.width ∧ 0 ≤ v0.2 ∧ v0.2 < r.height)
    (h1 : 0 ≤ v1.1 ∧ v1.1 < r.width ∧ 0 ≤ v1.2 ∧ v1.2 < r.height)
    (h2 : 0 ≤ v2.1 ∧ v2.1 < r.width ∧ 0 ≤ v2.2 ∧ v2.2 < r.height)
    (harea : signedArea v0 v1 v2 ≠ 0)
    (hd0 : 0 < depths.1 ∧ depths.1 ≤ 2 ^ 128 - 2 ^ 104)
    (hd1 : 0 < depths.2.1 ∧ depths.2.1 ≤ 2 ^ 128 - 2 ^ 104)
    (hd2 : 0 < depths.2.2 ∧ depths.2.2 ≤ 2 ^ 128 - 2 ^ 104)
    (x y : ℤ) (hin : InTriangle v0 v1 v2 x y) :
    ∃ q : ℚ, getCell (F64.fillTriangleFast m (resetBuffers r) v0 v1 v2 depths rgb).depthBuffer
      (y * r.width + x) = some (JSNum.fin q) := by
  obtain ⟨a, b, c, ha, hb, hc, hsum, hx, hy⟩ := hin
  obtain ⟨hcov, _⟩ := float32_facts_4.1 v0 v1 v2 depths x y a b c ha hb hc hsum hx hy harea
  obtain ⟨hbox, hx0, hxW, hy0, hyH⟩ :=
    float32_facts_4.2.1 r.width r.height v0 v1 v2 x y a b c ha hb hc hsum hx hy h0 h1 h2
  obtain ⟨eA, e0, e1, e2, hA53⟩ := weight_facts_2.2.2.2.2.1 r.width r.height hs.small v0 v1 v2 x y h0 h1 h2
    hx0 hxW hy0 hyH
  obtain ⟨a0, a1, a2, hw, ⟨p0, q0, r0⟩, ⟨p1, q1, r1⟩, ⟨p2, q2, r2⟩⟩ :=
    weight_facts_2.2.1 v0 v1 v2 x y eA e0 e1 e2 harea hA53 hcov
  obtain ⟨t0, t1, t2, tsum, _⟩ := default_scene_facts_1.2.1 v0 v1 v2 depths x y harea hcov
  obtain ⟨z, hz, z0, z1⟩ := weight_facts_1.2.2.2.2.2.1 a0 a1 a2 depths.1 depths.2.1 depths.2.2 (2 ^ 128 - 2 ^ 104)
    p0 p1 p2 q0 q1 q2 hd0.1.le hd1.1.le hd2.1.le hd0.2 hd1.2 hd2.2 (by norm_num)
  have hdepth : F64.pixelDepth v0 v1 v2 depths x y = fin z := by
    unfold F64.pixelDepth
    rw [hw]
    exact hz
  have hzlt : z < 2 ^ 128 - 2 ^ 103 := by
    generalize (weights v0 v1 v2 x y).1 = T0 at r0 t0 tsum
    generalize (weights v0 v1 v2 x y).2.1 = T1 at r1 t1 tsum
    generalize (weights v0 v1 v2 x y).2.2 = T2 at r2 t2 tsum
    have u0 : a0 ≤ T0 * (1 + 21 / 10 / 2 ^ 53) := by
      have := (abs_le.mp r0).2; linarith only [this]
    have u1 : a1 ≤ T1 * (1 + 21 / 10 / 2 ^ 53) := by
      have := (abs_le.mp r1).2; linarith only [this]
    have u2 : a2 ≤ T2 * (1 + 21 / 10 / 2 ^ 53) := by
      have := (abs_le.mp r2).2; linarith only [this]
    have m0 := mul_le_mul u0 hd0.2 hd0.1.le (by positivity)
    have m1 := mul_le_mul u1 hd1.2 hd1.1.le (by positivity)
    have m2 := mul_le_mul u2 hd2.2 hd2.1.le (by positivity)
    have hS : a0 * depths.1 + a1 * depths.2.1 + a2 * depths.2.2
        ≤ (1 + 21 / 10 / 2 ^ 53) * (2 ^ 128 - 2 ^ 104) := by
      have e : T0 * (1 + 21 / 10 / 2 ^ 53) * (2 ^ 128 - 2 ^ 104)
          + T1 * (1 + 21 / 10 / 2 ^ 53) * (2 ^ 128 - 2 ^ 104)
          + T2 * (1 + 21 / 10 / 2 ^ 53) * (2 ^ 128 - 2 ^ 104)
          = (T0 + T1 + T2) * ((1 + 21 / 10 / 2 ^ 53) * (2 ^ 128 - 2 ^ 104)) := by ring
      rw [tsum, one_mul] at e
      linarith only [m0, m1, m2, e]
    have h3 := mul_le_mul_of_nonneg_right hS (show (0 : ℚ) ≤ 1 + 4 / 2 ^ 53 by norm_num)
    have h4 : (1 + 21 / 10 / 2 ^ 53) * (2 ^ 128 - 2 ^ 104) * (1 + 4 / 2 ^ 53) + 1
        < (2 : ℚ) ^ 128 - 2 ^ 103 := by norm_num
    linarith only [z1, h3, h4]
  have hpix := rounded_fill_facts_2.2.1 m r hs v0 v1 v2 depths rgb x y hx0 hxW hy0 hyH
  have hdeg := weight_facts_2.2.2.1 v0 v1 v2 eA harea
  have hcov' := (weight_facts_2.2.2.2.1 v0 v1 v2 x y e0 e1 e2).mpr hcov
  rw [hdepth] at hpix
  simp only [hbox, hdeg, hcov', lt_pinf, and_self, if_true] at hpix
  obtain ⟨q, hq⟩ := weight_facts_2.2.2.2.2.2 z z0 hzlt
  refine ⟨q, ?_⟩
  have : (pixelAt (F64.fillTriangleFast m (resetBuffers r) v0 v1 v2 depths rgb)
      (y * r.width + x)).1 = some (float32Round z) := by
    rw [hpix]; rfl
  rw [hq] at this
  exact this

/-- Lemmas on the rounded interpolation of three depths, proved in turn: `sum3_err`,
`weights_at_vertex`, `small_area`. -/
theorem interpolation_facts :
    (∀ (a0 a1 a2 d0 d1 d2 D : ℚ) (_ : |a0| ≤ 1) (_ : |a1| ≤ 1) (_ : |a2| ≤ 1) (_ : |d0| ≤ D) (_ : |d1| ≤ D) (_ : |d2| ≤ D) (_ : 1 / 2 ^ 500 ≤ D) (_ : D ≤ 2 ^ 500),
      ∃ z : ℚ, F64.add (F64.add (F64.mul (fin a0) (fin d0)) (F64.mul (fin a1) (fin d1)))
        (F64.mul (fin a2) (fin d2)) = fin z ∧
      |z - (a0 * d0 + a1 * d1 + a2 * d2)| ≤ 10 * D / 2 ^ 53) ∧
    (∀ (v0 v1 v2 : ℤ × ℤ) (_ : signedArea v0 v1 v2 ≠ 0),
      weights v0 v1 v2 v0.1 v0.2 = (1, 0, 0) ∧ weights v0 v1 v2 v1.1 v1.2 = (0, 1, 0) ∧
    weights v0 v1 v2 v2.1 v2.2 = (0, 0, 1)) ∧
    (∀ (v0 v1 v2 : ℤ × ℤ) (_ : SmallVertices v0 v1 v2),
      |signedArea v0 v1 v2| ≤ 2 ^ 53) := by
  -- The rounded sum of three rounded products, with weights of size at most 1 and depths of size
  -- at most `D`.
  have sum3_err (a0 a1 a2 d0 d1 d2 D : ℚ) (ha0 : |a0| ≤ 1) (ha1 : |a1| ≤ 1) (ha2 : |a2| ≤ 1)
      (hd0 : |d0| ≤ D) (hd1 : |d1| ≤ D) (hd2 : |d2| ≤ D) (hD1 : 1 / 2 ^ 500 ≤ D)
      (hD2 : D ≤ 2 ^ 500) :
      ∃ z : ℚ, F64.add (F64.add (F64.mul (fin a0) (fin d0)) (F64.mul (fin a1) (fin d1)))
          (F64.mul (fin a2) (fin d2)) = fin z ∧
        |z - (a0 * d0 + a1 * d1 + a2 * d2)| ≤ 10 * D / 2 ^ 53 := by
    have hD0 : 0 < D := lt_of_lt_of_le (by positivity) hD1
    have hlo : (1 : ℚ) / 2 ^ 1022 ≤ 1 / 2 ^ 500 := by
      apply one_div_le_one_div_of_le (by positivity)
      exact pow_le_pow_right₀ (by norm_num) (by norm_num)
    have hhi : (2 : ℚ) ^ 503 ≤ 2 ^ 1023 := pow_le_pow_right₀ (by norm_num) (by norm_num)
    have h502 : 8 * D ≤ 2 ^ 503 := by
      have : (2 : ℚ) ^ 503 = 8 * 2 ^ 500 := by rw [pow_succ, pow_succ, pow_succ]; ring
      linarith only [this, hD2]
    have hlo' := le_trans hlo hD1
    have hhi' := le_trans h502 hhi
    have M := rounded_op_facts_1.2.2.2.2.2.2
    have Ad := rounded_op_facts_2.1
    clear hlo hhi
    generalize (2 : ℚ) ^ 1023 = T at hhi' M Ad
    generalize (1 : ℚ) / 2 ^ 1022 = t at hlo' M Ad
    clear hD1 hD2 h502
    obtain ⟨p0, hp0, ep0⟩ := M a0 d0 1 D ha0 hd0 (by linarith only [hlo'])
      (by linarith only [hhi', hD0])
    obtain ⟨p1, hp1, ep1⟩ := M a1 d1 1 D ha1 hd1 (by linarith only [hlo'])
      (by linarith only [hhi', hD0])
    obtain ⟨p2, hp2, ep2⟩ := M a2 d2 1 D ha2 hd2 (by linarith only [hlo'])
      (by linarith only [hhi', hD0])
    obtain ⟨η, hη'⟩ : ∃ η : ℚ, η = 1 / 2 ^ 53 := ⟨_, rfl⟩
    have u : (0 : ℚ) ≤ η ∧ η ≤ 1 / 8 := by rw [hη']; norm_num
    have e53 : ∀ q : ℚ, q / 2 ^ 53 = q * η := fun q => by rw [hη']; ring
    simp only [e53] at ep0 ep1 ep2 Ad ⊢
    clear hη' e53
    obtain ⟨u0, u⟩ := u
    have hη : D * η ≤ D / 8 := by
      have := mul_le_mul_of_nonneg_left u hD0.le
      linarith only [this]
    have hη0 : 0 ≤ D * η := by positivity
    rw [one_mul] at ep0 ep1 ep2
    have bp0 : |p0| ≤ 9 / 8 * D := by
      have := rounded_op_facts_2.2.2.2.1 ep0 (rounded_op_facts_2.2.2.2.2.1 ha0 hd0); linarith only [this, hη]
    have bp1 : |p1| ≤ 9 / 8 * D := by
      have := rounded_op_facts_2.2.2.2.1 ep1 (rounded_op_facts_2.2.2.2.2.1 ha1 hd1); linarith only [this, hη]
    have bp2 : |p2| ≤ 9 / 8 * D := by
      have := rounded_op_facts_2.2.2.2.1 ep2 (rounded_op_facts_2.2.2.2.2.1 ha2 hd2); linarith only [this, hη]
    rw [hp0, hp1, hp2]
    obtain ⟨s, hs, es⟩ := Ad p0 p1 (9 / 8 * D) (9 / 8 * D) bp0 bp1 (by linarith only [hlo', hD0])
      (by linarith only [hhi', hD0])
    have e1 : (9 / 8 * D + 9 / 8 * D) * η = 9 / 4 * (D * η) := by ring
    rw [e1] at es
    have bs : |s| ≤ 3 * D := by
      have h1 := rounded_op_facts_2.2.2.2.1 es (le_trans (abs_add p0 p1) (add_le_add bp0 bp1))
      linarith only [h1, hη, hD0]
    rw [hs]
    obtain ⟨z, hz, ez⟩ := Ad s p2 (3 * D) (9 / 8 * D) bs bp2 (by linarith only [hlo', hD0])
      (by linarith only [hhi', hD0])
    refine ⟨z, hz, ?_⟩
    have e : z - (a0 * d0 + a1 * d1 + a2 * d2)
        = (z - (s + p2)) + (s - (p0 + p1)) + (p0 - a0 * d0) + (p1 - a1 * d1) + (p2 - a2 * d2) := by
      ring
    rw [e]
    have t1 := abs_add ((z - (s + p2)) + (s - (p0 + p1)) + (p0 - a0 * d0) + (p1 - a1 * d1))
      (p2 - a2 * d2)
    have t2 := abs_add ((z - (s + p2)) + (s - (p0 + p1)) + (p0 - a0 * d0)) (p1 - a1 * d1)
    have t3 := abs_add ((z - (s + p2)) + (s - (p0 + p1))) (p0 - a0 * d0)
    have t4 := abs_add (z - (s + p2)) (s - (p0 + p1))
    have e2 : (3 * D + 9 / 8 * D) * η = 33 / 8 * (D * η) := by ring
    have e3 : 10 * D * η = 10 * (D * η) := by ring
    rw [e2] at ez
    rw [e3]
    linarith only [t1, t2, t3, t4, ez, es, ep0, ep1, ep2, hη0]
  -- The weights at a vertex of the triangle.
  have weights_at_vertex (v0 v1 v2 : ℤ × ℤ) (harea : signedArea v0 v1 v2 ≠ 0) :
      weights v0 v1 v2 v0.1 v0.2 = (1, 0, 0) ∧ weights v0 v1 v2 v1.1 v1.2 = (0, 1, 0) ∧
      weights v0 v1 v2 v2.1 v2.2 = (0, 0, 1) := by
    clear sum3_err
    have hA : ((signedArea v0 v1 v2 : ℤ) : ℚ) ≠ 0 := by exact_mod_cast harea
    unfold weights
    unfold signedArea at hA ⊢
    push_cast at hA ⊢
    refine ⟨?_, ?_, ?_⟩
    · refine Prod.ext ?_ (Prod.ext ?_ ?_) <;> simp only <;> field_simp
    · refine Prod.ext ?_ (Prod.ext ?_ ?_) <;> simp only <;> field_simp
      ring
    · refine Prod.ext ?_ (Prod.ext ?_ ?_) <;> simp only <;> field_simp
      ring
  have small_area (v0 v1 v2 : ℤ × ℤ) (h : SmallVertices v0 v1 v2) :
      |signedArea v0 v1 v2| ≤ 2 ^ 53 := by
    clear sum3_err weights_at_vertex
    obtain ⟨a, b, c, d, e, f⟩ := h
    unfold signedArea
    have m1 : |(v1.1 - v0.1) * (v2.2 - v0.2)| ≤ 2 ^ 26 * 2 ^ 26 := by
      rw [abs_mul]
      exact mul_le_mul (rounded_fill_facts_4.2.2.2.2.2.2.2 _ _ c a) (rounded_fill_facts_4.2.2.2.2.2.2.2 _ _ f b) (abs_nonneg _) (by norm_num)
    have m2 : |(v2.1 - v0.1) * (v1.2 - v0.2)| ≤ 2 ^ 26 * 2 ^ 26 := by
      rw [abs_mul]
      exact mul_le_mul (rounded_fill_facts_4.2.2.2.2.2.2.2 _ _ e a) (rounded_fill_facts_4.2.2.2.2.2.2.2 _ _ d b) (abs_nonneg _) (by norm_num)
    have := abs_sub ((v1.1 - v0.1) * (v2.2 - v0.2)) ((v2.1 - v0.1) * (v1.2 - v0.2))
    norm_num at m1 m2 ⊢
    omega
  exact ⟨@sum3_err, @weights_at_vertex, @small_area⟩

/-- C29, as amended.  Let the coordinates of the three integer screen vertices and of the pixel
be at most `2 ^ 25` in size, the signed area not zero, the pixel one that passes the inside test
of `fillTriangleFast`, and the three depths at most `D` in size, `D` between `2 ^ (-500)` and
`2 ^ 500`.  Then the weights `alpha`, `beta`, `gamma` the program computes are finite numbers
between 0 and 1, each within the relative error `2.1 * 2 ^ (-53)` of the exact weight, and
their sum is within `2.1 * 2 ^ (-53)` of 1; the interpolated depth is a finite number `z` within
`D / 2 ^ 49` of the exact interpolation, so at least the least of the three depths minus
`D / 2 ^ 49` and at most the greatest plus `D / 2 ^ 49`, and at a pixel that is a vertex within
`D / 2 ^ 49` of the depth of the vertex.  It is this `z`, rounded to a 32-bit float, that
`fillTriangleFast` stores at the pixel into freshly reset buffers of the size of a canvas of at
most `2 ^ 29` pixels, when the pixel lies in the clamped bounding box. -/
theorem interpolation_weights_rounded (v0 v1 v2 : ℤ × ℤ) (depths : ℚ × ℚ × ℚ) (x y : ℤ) (D : ℚ)
    (hv : SmallVertices v0 v1 v2) (hx : |x| ≤ 2 ^ 25) (hy : |y| ≤ 2 ^ 25)
    (harea : signedArea v0 v1 v2 ≠ 0) (hc : F64.covers v0 v1 v2 x y = true)
    (hD1 : 1 / 2 ^ 500 ≤ D) (hD2 : D ≤ 2 ^ 500)
    (hd0 : |depths.1| ≤ D) (hd1 : |depths.2.1| ≤ D) (hd2 : |depths.2.2| ≤ D) :
    ∃ a0 a1 a2 z : ℚ,
      F64.weights v0 v1 v2 x y = (JSNum.fin a0, JSNum.fin a1, JSNum.fin a2) ∧
      (0 ≤ a0 ∧ 0 ≤ a1 ∧ 0 ≤ a2) ∧ (a0 ≤ 1 ∧ a1 ≤ 1 ∧ a2 ≤ 1) ∧
      |a0 - (weights v0 v1 v2 x y).1| ≤ 21 / 10 / 2 ^ 53 * (weights v0 v1 v2 x y).1 ∧
      |a1 - (weights v0 v1 v2 x y).2.1| ≤ 21 / 10 / 2 ^ 53 * (weights v0 v1 v2 x y).2.1 ∧
      |a2 - (weights v0 v1 v2 x y).2.2| ≤ 21 / 10 / 2 ^ 53 * (weights v0 v1 v2 x y).2.2 ∧
      |a0 + a1 + a2 - 1| ≤ 21 / 10 / 2 ^ 53 ∧
      F64.pixelDepth v0 v1 v2 depths x y = JSNum.fin z ∧
      |z - pixelDepth v0 v1 v2 depths x y| ≤ D / 2 ^ 49 ∧
      Min.min depths.1 (Min.min depths.2.1 depths.2.2) - D / 2 ^ 49 ≤ z ∧
      z ≤ Max.max depths.1 (Max.max depths.2.1 depths.2.2) + D / 2 ^ 49 ∧
      ((x, y) = v0 → |z - depths.1| ≤ D / 2 ^ 49) ∧
      ((x, y) = v1 → |z - depths.2.1| ≤ D / 2 ^ 49) ∧
      ((x, y) = v2 → |z - depths.2.2| ≤ D / 2 ^ 49) ∧
      (∀ (m : MathFns) (r : Renderer) (rgb : List JSNum), Sized r →
        inBox r.width r.height v0 v1 v2 x y →
        getCell (F64.fillTriangleFast m (resetBuffers r) v0 v1 v2 depths rgb).depthBuffer
          (y * r.width + x) = some (float32Round z)) := by
  have hA53 := interpolation_facts.2.2 v0 v1 v2 hv
  have eA := rounded_fill_facts_5.1 v0 v1 v2 hv
  obtain ⟨a, b, c, d, e, f⟩ := hv
  have e0 := rounded_fill_facts_3.2.2.1 v1 v2 x y (2 ^ 26) (2 ^ 26) (by norm_num) (by norm_num) (by norm_num)
    (rounded_fill_facts_4.2.2.2.2.2.2.2 _ _ c hx) (rounded_fill_facts_4.2.2.2.2.2.2.2 _ _ f hy) (rounded_fill_facts_4.2.2.2.2.2.2.2 _ _ e hx) (rounded_fill_facts_4.2.2.2.2.2.2.2 _ _ d hy)
  have e1 := rounded_fill_facts_3.2.2.1 v2 v0 x y (2 ^ 26) (2 ^ 26) (by norm_num) (by norm_num) (by norm_num)
    (rounded_fill_facts_4.2.2.2.2.2.2.2 _ _ e hx) (rounded_fill_facts_4.2.2.2.2.2.2.2 _ _ b hy) (rounded_fill_facts_4.2.2.2.2.2.2.2 _ _ a hx) (rounded_fill_facts_4.2.2.2.2.2.2.2 _ _ f hy)
  have e2 := rounded_fill_facts_3.2.2.1 v0 v1 x y (2 ^ 26) (2 ^ 26) (by norm_num) (by norm_num) (by norm_num)
    (rounded_fill_facts_4.2.2.2.2.2.2.2 _ _ a hx) (rounded_fill_facts_4.2.2.2.2.2.2.2 _ _ d hy) (rounded_fill_facts_4.2.2.2.2.2.2.2 _ _ c hx) (rounded_fill_facts_4.2.2.2.2.2.2.2 _ _ b hy)
  have hcov := (weight_facts_2.2.2.2.1 v0 v1 v2 x y e0 e1 e2).mp hc
  obtain ⟨a0, a1, a2, hw, ⟨p0, q0, r0⟩, ⟨p1, q1, r1⟩, ⟨p2, q2, r2⟩⟩ :=
    weight_facts_2.2.1 v0 v1 v2 x y eA e0 e1 e2 harea hA53 hcov
  obtain ⟨t0, t1, t2, tsum, tdepth⟩ := default_scene_facts_1.2.1 v0 v1 v2 depths x y harea hcov
  obtain ⟨z, hz, ez⟩ := interpolation_facts.1 a0 a1 a2 depths.1 depths.2.1 depths.2.2 D
    (abs_le.mpr ⟨by linarith only [p0], q0⟩) (abs_le.mpr ⟨by linarith only [p1], q1⟩)
    (abs_le.mpr ⟨by linarith only [p2], q2⟩)
    hd0 hd1 hd2 hD1 hD2
  have hD0 : 0 < D := lt_of_lt_of_le (by positivity) hD1
  clear hD1 hD2
  have hdepth : F64.pixelDepth v0 v1 v2 depths x y = fin z := by
    unfold F64.pixelDepth
    rw [hw]
    exact hz
  have hvert := interpolation_facts.2.1 v0 v1 v2 harea
  have hbetween := default_scene_facts_1.1 (weights v0 v1 v2 x y).1 (weights v0 v1 v2 x y).2.1
    (weights v0 v1 v2 x y).2.2 depths.1 depths.2.1 depths.2.2 t0 t1 t2 tsum
  rw [← tdepth] at hbetween
  have hnear : |z - pixelDepth v0 v1 v2 depths x y| ≤ D / 2 ^ 49 := by
    rw [tdepth]
    generalize (weights v0 v1 v2 x y).1 = T0 at r0 t0 tsum
    generalize (weights v0 v1 v2 x y).2.1 = T1 at r1 t1 tsum
    generalize (weights v0 v1 v2 x y).2.2 = T2 at r2 t2 tsum
    have k0 : |(a0 - T0) * depths.1| ≤ 21 / 10 / 2 ^ 53 * T0 * D := by
      rw [abs_mul]
      exact mul_le_mul r0 hd0 (abs_nonneg _) (by positivity)
    have k1 : |(a1 - T1) * depths.2.1| ≤ 21 / 10 / 2 ^ 53 * T1 * D := by
      rw [abs_mul]
      exact mul_le_mul r1 hd1 (abs_nonneg _) (by positivity)
    have k2 : |(a2 - T2) * depths.2.2| ≤ 21 / 10 / 2 ^ 53 * T2 * D := by
      rw [abs_mul]
      exact mul_le_mul r2 hd2 (abs_nonneg _) (by positivity)
    have e : z - (T0 * depths.1 + T1 * depths.2.1 + T2 * depths.2.2)
        = (z - (a0 * depths.1 + a1 * depths.2.1 + a2 * depths.2.2)) + (a0 - T0) * depths.1
          + (a1 - T1) * depths.2.1 + (a2 - T2) * depths.2.2 := by ring
    rw [e]
    have s1 := abs_add ((z - (a0 * depths.1 + a1 * depths.2.1 + a2 * depths.2.2))
      + (a0 - T0) * depths.1 + (a1 - T1) * depths.2.1) ((a2 - T2) * depths.2.2)
    have s2 := abs_add ((z - (a0 * depths.1 + a1 * depths.2.1 + a2 * depths.2.2))
      + (a0 - T0) * depths.1) ((a1 - T1) * depths.2.1)
    have s3 := abs_add (z - (a0 * depths.1 + a1 * depths.2.1 + a2 * depths.2.2))
      ((a0 - T0) * depths.1)
    have e4 : 21 / 10 / 2 ^ 53 * T0 * D + 21 / 10 / 2 ^ 53 * T1 * D + 21 / 10 / 2 ^ 53 * T2 * D
        = 21 / 10 / 2 ^ 53 * D := by
      have : 21 / 10 / 2 ^ 53 * T0 * D + 21 / 10 / 2 ^ 53 * T1 * D + 21 / 10 / 2 ^ 53 * T2 * D
          = (T0 + T1 + T2) * (21 / 10 / 2 ^ 53 * D) := by ring
      rw [this, tsum, one_mul]
    have e5 : 10 * D / 2 ^ 53 + 21 / 10 / 2 ^ 53 * D ≤ D / 2 ^ 49 := by
      have : D / 2 ^ 49 - (10 * D / 2 ^ 53 + 21 / 10 / 2 ^ 53 * D) = D * (39 / 10 / 2 ^ 53) := by
        ring
      have h0 : 0 ≤ D * (39 / 10 / 2 ^ 53) := by positivity
      linarith only [this, h0]
    linarith only [ez, k0, k1, k2, s1, s2, s3, e4, e5]
  have hsumw : |a0 + a1 + a2 - 1| ≤ 21 / 10 / 2 ^ 53 := by
    rw [← tsum]
    have e : a0 + a1 + a2 - ((weights v0 v1 v2 x y).1 + (weights v0 v1 v2 x y).2.1
        + (weights v0 v1 v2 x y).2.2) = (a0 - (weights v0 v1 v2 x y).1)
          + (a1 - (weights v0 v1 v2 x y).2.1) + (a2 - (weights v0 v1 v2 x y).2.2) := by ring
    rw [e]
    have s1 := abs_add ((a0 - (weights v0 v1 v2 x y).1) + (a1 - (weights v0 v1 v2 x y).2.1))
      (a2 - (weights v0 v1 v2 x y).2.2)
    have s2 := abs_add (a0 - (weights v0 v1 v2 x y).1) (a1 - (weights v0 v1 v2 x y).2.1)
    have e4 : 21 / 10 / 2 ^ 53 * (weights v0 v1 v2 x y).1
        + 21 / 10 / 2 ^ 53 * (weights v0 v1 v2 x y).2.1
        + 21 / 10 / 2 ^ 53 * (weights v0 v1 v2 x y).2.2 = 21 / 10 / 2 ^ 53 := by
      rw [← mul_add, ← mul_add, tsum, mul_one]
    linarith only [s1, s2, r0, r1, r2, e4]
  have hnear' := abs_le.mp hnear
  refine ⟨a0, a1, a2, z, hw, ⟨p0, p1, p2⟩, ⟨q0, q1, q2⟩, r0, r1, r2, hsumw, hdepth, hnear,
    by linarith only [hbetween.1, hnear'.1], by linarith only [hbetween.2, hnear'.2], ?_, ?_, ?_, ?_⟩
  · intro h
    have hx' : x = v0.1 := congrArg Prod.fst h
    have hy' : y = v0.2 := congrArg Prod.snd h
    have : pixelDepth v0 v1 v2 depths x y = depths.1 := by
      rw [tdepth, hx', hy', hvert.1]; simp
    rwa [this] at hnear
  · intro h
    have hx' : x = v1.1 := congrArg Prod.fst h
    have hy' : y = v1.2 := congrArg Prod.snd h
    have : pixelDepth v0 v1 v2 depths x y = depths.2.1 := by
      rw [tdepth, hx', hy', hvert.2.1]; simp
    rwa [this] at hnear
  · intro h
    have hx' : x = v2.1 := congrArg Prod.fst h
    have hy' : y = v2.2 := congrArg Prod.snd h
    have : pixelDepth v0 v1 v2 depths x y = depths.2.2 := by
      rw [tdepth, hx', hy', hvert.2.2]; simp
    rwa [this] at hnear
  · intro m r rgb hs hbox
    obtain ⟨b1, b2, b3, b4⟩ := hbox
    have hx0 : 0 ≤ x := le_trans (le_max_left _ _) b1
    have hy0 : 0 ≤ y := le_trans (le_max_left _ _) b3
    have hxW : x < r.width := by
      have := le_trans b2 (min_le_left _ _); omega
    have hyH : y < r.height := by
      have := le_trans b4 (min_le_left _ _); omega
    have hpix := rounded_fill_facts_2.2.1 m r hs v0 v1 v2 depths rgb x y hx0 hxW hy0 hyH
    have hdeg := weight_facts_2.2.2.1 v0 v1 v2 eA harea
    have hbox : inBox r.width r.height v0 v1 v2 x y := ⟨b1, b2, b3, b4⟩
    rw [hdepth] at hpix
    simp only [hbox, hdeg, hc, lt_pinf, and_self, if_true] at hpix
    have : (pixelAt (F64.fillTriangleFast m (resetBuffers r) v0 v1 v2 depths rgb)
        (y * r.width + x)).1 = some (float32Round z) := by
      rw [hpix]; rfl
    exact this

/-- C3, counterexample.  The triangle (0,0), (4,0), (0,4) lies inside a canvas of 5 by 5 pixels,
is not degenerate and has the positive finite depth `2 ^ 128` at its three vertices; the pixel
(1,1) lies inside it and its interpolated depth is `2 ^ 128`; after `fillTriangleFast` on
freshly reset buffers its cell of the depth buffer holds `+Infinity`. -/
theorem fill_depth_overflow_rounded :
    InTriangle (0, 0) (4, 0) (0, 4) 1 1 ∧ signedArea (0, 0) (4, 0) (0, 4) ≠ 0 ∧
    F64.pixelDepth (0, 0) (4, 0) (0, 4) (2 ^ 128, 2 ^ 128, 2 ^ 128) 1 1 = JSNum.fin (2 ^ 128) ∧
    getCell (F64.fillTriangleFast sampleMath canvas5 (0, 0) (4, 0) (0, 4)
      (2 ^ 128, 2 ^ 128, 2 ^ 128) [255, 0, 0]).depthBuffer 6 = some JSNum.pinf := by
  have hd : F64.pixelDepth (0, 0) (4, 0) (0, 4) (2 ^ 128, 2 ^ 128, 2 ^ 128) 1 1
      = JSNum.fin (2 ^ 128) := by decide!
  refine ⟨⟨1 / 2, 1 / 4, 1 / 4, by norm_num, by norm_num, by norm_num, by norm_num, by norm_num,
      by norm_num⟩, by decide, hd, ?_⟩
  have hs := fresh_buffer_facts.2.2.2.2.1 { v := [], f := [] } sampleCamera 5 5 false false (by norm_num)
  have h := rounded_fill_facts_2.2.1 sampleMath _ hs (0, 0) (4, 0) (0, 4)
    (2 ^ 128, 2 ^ 128, 2 ^ 128) [255, 0, 0] 1 1 (by norm_num) (by simp [allocate])
    (by norm_num) (by simp [allocate])
  have hc : inBox 5 5 (0, 0) (4, 0) (0, 4) 1 1 ∧ F64.degenerate (0, 0) (4, 0) (0, 4) = false ∧
      F64.covers (0, 0) (4, 0) (0, 4) 1 1 = true := by decide!
  have w5 : (allocate { v := [], f := [] } sampleCamera 5 5 false false).width = 5 := rfl
  have h5 : (allocate { v := [], f := [] } sampleCamera 5 5 false false).height = 5 := rfl
  have e6 : (1 : ℤ) * ((5 : ℕ) : ℤ) + 1 = 6 := by norm_num
  rw [w5, h5, e6, hd] at h
  have hround : float32Round (2 ^ 128) = JSNum.pinf := by
    rw [float32Round_of_binade _ 128 (by norm_num) (by norm_num) (by norm_num) (by norm_num)]
    rw [roundHalfEven_eq_of_near _ (2 ^ 23) (by norm_num) (by norm_num)]
    norm_num
  simp only [hc, lt_pinf, and_self, if_true, F64.shaded, fround, hround] at h
  have : (pixelAt (F64.fillTriangleFast sampleMath canvas5 (0, 0) (4, 0) (0, 4)
      (2 ^ 128, 2 ^ 128, 2 ^ 128) [255, 0, 0]) 6).1 = some JSNum.pinf := by
    rw [show canvas5 = resetBuffers (allocate { v := [], f := [] } sampleCamera 5 5 false false)
      from rfl, h]
  exact this

/-- C3, witness: the triangle (0,0), (4,0), (0,4) with the depths 5, 10, 20 on a canvas of 5 by 5
pixels leaves a finite depth at the pixel (1,1). -/
theorem fill_covers_triangle_rounded_witness :
    ∃ q : ℚ, getCell (F64.fillTriangleFast sampleMath canvas5 (0, 0) (4, 0) (0, 4) (5, 10, 20)
      [255, 0, 0]).depthBuffer 6 = some (JSNum.fin q) := by
  have h := fill_covers_triangle_rounded sampleMath (allocate { v := [], f := [] } sampleCamera
    5 5 false false) (fresh_buffer_facts.2.2.2.2.1 _ _ 5 5 false false (by norm_num)) (0, 0) (4, 0) (0, 4)
    (5, 10, 20) [255, 0, 0] (by simp [allocate]) (by simp [allocate]) (by simp [allocate])
    (by decide) (by norm_num) (by norm_num) (by norm_num) 1 1
    ⟨1 / 2, 1 / 4, 1 / 4, by norm_num, by norm_num, by norm_num, by norm_num, by norm_num,
      by norm_num⟩
  have h6 : (1 : ℤ) * ((allocate { v := [], f := [] } sampleCamera 5 5 false false).width : ℤ)
      + 1 = 6 := by simp [allocate]
  rw [h6] at h
  exact h

theorem float32Round_tie_three : float32Round (1 + 3 / 2 ^ 24) = JSNum.fin (1 + 1 / 2 ^ 22) := by
  rw [float32Round_of_binade _ 0 (by norm_num) (by norm_num) (by norm_num) (by norm_num)]
  have e : ((1 : ℚ) + 3 / 2 ^ 24) / 2 ^ ((0 : ℤ) - 23) = 8388609 + 1 / 2 := by norm_num
  have hr : roundHalfEven (8388609 + 1 / 2) = 8388610 := by decide!
  rw [e, hr]
  norm_num

/-- C29, counterexample.  The triangle (0,0), (7,0), (0,7) has the signed area 49 and its vertex
(0,0) passes the inside test.  There the weights are `1 - 2 ^ (-53)`, 0 and 0, whose sum is not
1: the product of 49 and the rounded `1 / 49`.  With the depth 1 at the three vertices the
interpolated depth is `1 - 2 ^ (-53)`, below the least of the depths and not the depth of the
vertex.  With the depth `1 + 3 * 2 ^ (-24)` at the three vertices, a number that a 32-bit float
store rounds to `1 + 2 ^ (-22)`, the interpolated depth is `1 + 3 * 2 ^ (-24) - 2 ^ (-52)`, and
`fillTriangleFast` on the freshly reset buffers of a canvas of 5 by 5 pixels leaves
`1 + 2 ^ (-23)` in the cell of the pixel. -/
theorem interpolation_weights_not_exact :
    signedArea (0, 0) (7, 0) (0, 7) = 49 ∧ F64.covers (0, 0) (7, 0) (0, 7) 0 0 = true ∧
    F64.weights (0, 0) (7, 0) (0, 7) 0 0
      = (JSNum.fin (1 - 1 / 2 ^ 53), JSNum.fin 0, JSNum.fin 0) ∧
    F64.pixelDepth (0, 0) (7, 0) (0, 7) (1, 1, 1) 0 0 = JSNum.fin (1 - 1 / 2 ^ 53) ∧
    F64.pixelDepth (0, 0) (7, 0) (0, 7) (1 + 3 / 2 ^ 24, 1 + 3 / 2 ^ 24, 1 + 3 / 2 ^ 24) 0 0
      = JSNum.fin (1 + 3 / 2 ^ 24 - 1 / 2 ^ 52) ∧
    float32Round (1 + 3 / 2 ^ 24) = JSNum.fin (1 + 1 / 2 ^ 22) ∧
    getCell (F64.fillTriangleFast sampleMath canvas5 (0, 0) (7, 0) (0, 7)
      (1 + 3 / 2 ^ 24, 1 + 3 / 2 ^ 24, 1 + 3 / 2 ^ 24) [255, 0, 0]).depthBuffer 0
      = some (JSNum.fin (1 + 1 / 2 ^ 23)) := by
  have hd : F64.pixelDepth (0, 0) (7, 0) (0, 7)
      (1 + 3 / 2 ^ 24, 1 + 3 / 2 ^ 24, 1 + 3 / 2 ^ 24) 0 0
      = JSNum.fin (1 + 3 / 2 ^ 24 - 1 / 2 ^ 52) := by decide!
  refine ⟨by decide, by decide!, by decide!, by decide!, hd, float32Round_tie_three, ?_⟩
  have hs := fresh_buffer_facts.2.2.2.2.1 { v := [], f := [] } sampleCamera 5 5 false false (by norm_num)
  have h := rounded_fill_facts_2.2.1 sampleMath _ hs (0, 0) (7, 0) (0, 7)
    (1 + 3 / 2 ^ 24, 1 + 3 / 2 ^ 24, 1 + 3 / 2 ^ 24) [255, 0, 0] 0 0 (by norm_num)
    (by simp [allocate]) (by norm_num) (by simp [allocate])
  have hc : inBox 5 5 (0, 0) (7, 0) (0, 7) 0 0 ∧ F64.degenerate (0, 0) (7, 0) (0, 7) = false ∧
      F64.covers (0, 0) (7, 0) (0, 7) 0 0 = true := by decide!
  have w5 : (allocate { v := [], f := [] } sampleCamera 5 5 false false).width = 5 := rfl
  have h5 : (allocate { v := [], f := [] } sampleCamera 5 5 false false).height = 5 := rfl
  have e6 : (0 : ℤ) * ((5 : ℕ) : ℤ) + 0 = 0 := by norm_num
  rw [w5, h5, e6, hd] at h
  have hround := float32_facts_4.2.2.2.2.1 (1 + 3 / 2 ^ 24 - 1 / 2 ^ 52) (by norm_num) (by norm_num)
  simp only [hc, lt_pinf, and_self, if_true, F64.shaded, fround, hround] at h
  have : (pixelAt (F64.fillTriangleFast sampleMath canvas5 (0, 0) (7, 0) (0, 7)
      (1 + 3 / 2 ^ 24, 1 + 3 / 2 ^ 24, 1 + 3 / 2 ^ 24) [255, 0, 0]) 0).1
      = some (JSNum.fin (1 + 1 / 2 ^ 23)) := by
    rw [show canvas5 = resetBuffers (allocate { v := [], f := [] } sampleCamera 5 5 false false)
      from rfl, h]
  exact this

/-- C29, witness: the vertex (0,0) of the triangle (0,0), (7,0), (0,7) with the depths 1, 2 and
3. -/
theorem interpolation_weights_rounded_witness :
    ∃ a0 a1 a2 z : ℚ,
      F64.weights (0, 0) (7, 0) (0, 7) 0 0 = (JSNum.fin a0, JSNum.fin a1, JSNum.fin a2) ∧
      (0 ≤ a0 ∧ 0 ≤ a1 ∧ 0 ≤ a2) ∧ (a0 ≤ 1 ∧ a1 ≤ 1 ∧ a2 ≤ 1) ∧
      |a0 - (weights (0, 0) (7, 0) (0, 7) 0 0).1|
        ≤ 21 / 10 / 2 ^ 53 * (weights (0, 0) (7, 0) (0, 7) 0 0).1 ∧
      |a1 - (weights (0, 0) (7, 0) (0, 7) 0 0).2.1|
        ≤ 21 / 10 / 2 ^ 53 * (weights (0, 0) (7, 0) (0, 7) 0 0).2.1 ∧
      |a2 - (weights (0, 0) (7, 0) (0, 7) 0 0).2.2|
        ≤ 21 / 10 / 2 ^ 53 * (weights (0, 0) (7, 0) (0, 7) 0 0).2.2 ∧
      |a0 + a1 + a2 - 1| ≤ 21 / 10 / 2 ^ 53 ∧
      F64.pixelDepth (0, 0) (7, 0) (0, 7) (1, 2, 3) 0 0 = JSNum.fin z ∧
      |z - pixelDepth (0, 0) (7, 0) (0, 7) (1, 2, 3) 0 0| ≤ 3 / 2 ^ 49 ∧
      Min.min (1 : ℚ) (Min.min 2 3) - 3 / 2 ^ 49 ≤ z ∧
      z ≤ Max.max (1 : ℚ) (Max.max 2 3) + 3 / 2 ^ 49 ∧
      (((0 : ℤ), (0 : ℤ)) = (0, 0) → |z - 1| ≤ 3 / 2 ^ 49) ∧
      (((0 : ℤ), (0 : ℤ)) = (7, 0) → |z - 2| ≤ 3 / 2 ^ 49) ∧
      (((0 : ℤ), (0 : ℤ)) = (0, 7) → |z - 3| ≤ 3 / 2 ^ 49) ∧
      (∀ (m : MathFns) (r : Renderer) (rgb : List JSNum), Sized r →
        inBox r.width r.height (0, 0) (7, 0) (0, 7) 0 0 →
        getCell (F64.fillTriangleFast m (resetBuffers r) (0, 0) (7, 0) (0, 7) (1, 2, 3)
          rgb).depthBuffer (0 * r.width + 0) = some (float32Round z)) :=
  interpolation_weights_rounded (0, 0) (7, 0) (0, 7) (1, 2, 3) 0 0 3
    (by unfold SmallVertices; decide) (by norm_num)
    (by norm_num) (by decide) (by decide!) (by norm_num) (by norm_num)
    (by norm_num [abs_of_pos]) (by norm_num [abs_of_pos]) (by norm_num [abs_of_pos])

end Maze
